import Mathlib

/-!
# The dst bytecode compiler (`src/core/compile.c`)

A shallow embedding of the single-pass compiler of `compile.c`: the compiler
state is passed explicitly, a compile error (`longjmp` in the source) is a
result of its own, and the byte buffer is kept as a sequence of 16-bit words.

The header `internal.h` is not among the sources.  What the compiler uses from
it (value equality, tables, the buffer writers, the opcode and flag constants,
`DST_RECURSION_GUARD`) is modelled from the specification or kept symbolic; each
such definition says so.
-/

namespace Dst

/-! ## Values -/

/-- An address of a function definition.  `heap n` is an object that existed
before the compilation started (it can only reach the compiler inside the form
or the environment), `fresh n` is the `n`-th `DstFuncDef` allocated by the
compiler itself (`dst_alloc` in `compiler_gen_funcdef`).  The two never
coincide, as a new allocation never aliases a live object. -/
inductive DstPtr where
  | heap (n : Nat)
  | fresh (n : Nat)
  deriving DecidableEq, Repr

/-- The tagged values of the language (`DstValue`).  Strings and symbols are
identified by their bytes; tuples, arrays and tables are kept by content (a
table as its bucket array `data`, key at `2i`, value at `2i + 1`, a nil key
marking an empty bucket); a real is kept as its 64 bit pattern; the
remaining reference types are kept by address. -/
inductive DstValue where
  | nil
  | boolean (b : Bool)
  | integer (i : Int)
  | real (bits : Nat)
  | string (s : String)
  | symbol (s : String)
  | tuple (xs : List DstValue)
  | array (xs : List DstValue)
  | table (data : List DstValue)
  | funcdef (p : DstPtr)
  | function (p : Nat)
  | cfunction (p : Nat)
  | userdata (p : Nat)

mutual
/-- Modelled from the spec: `dst_equals` is not in src.  Equality of values is
structural (§3: "Strings and symbols are byte-identified; equality on them is
structural"), a reference kept by address being equal to itself only. -/
def dst_equals : DstValue → DstValue → Bool
  | .nil, .nil => true
  | .boolean a, .boolean b => a == b
  | .integer a, .integer b => a == b
  | .real a, .real b => a == b
  | .string a, .string b => a == b
  | .symbol a, .symbol b => a == b
  | .tuple a, .tuple b => dst_equals_list a b
  | .array a, .array b => dst_equals_list a b
  | .table a, .table b => dst_equals_list a b
  | .funcdef a, .funcdef b => a == b
  | .function a, .function b => a == b
  | .cfunction a, .cfunction b => a == b
  | .userdata a, .userdata b => a == b
  | _, _ => false
/-- Pointwise `dst_equals` on sequences of values. -/
def dst_equals_list : List DstValue → List DstValue → Bool
  | [], [] => true
  | x :: xs, y :: ys => dst_equals x y && dst_equals_list xs ys
  | _, _ => false
end

/-- The test `x.type == DST_SYMBOL`. -/
def DstValue.isSymbol : DstValue → Bool
  | .symbol _ => true
  | _ => false

/-- The type tag test `x.type == DST_NIL`. -/
def DstValue.isNil : DstValue → Bool
  | .nil => true
  | _ => false

/-- Modelled from the spec: `dst_truthy` is not in src; nil and false are the
false values (§4.7 "nil is false"). -/
def dst_truthy : DstValue → Bool
  | .nil => false
  | .boolean b => b
  | _ => true

/-! ## Tables -/

/-- A `DstTable`, as its bucket array: key at `2i`, value at `2i + 1`. -/
abbrev DstTable := List DstValue

/-- Modelled from the spec: `dst_table_get` is not in src.  The value stored
under a key equal to `key`, nil when there is none (§4.3, §4.5). -/
def dst_table_get : DstTable → DstValue → DstValue
  | k :: v :: rest, key =>
    if !k.isNil && dst_equals k key then v else dst_table_get rest key
  | _, _ => .nil

/-- Modelled from the spec: `dst_table_put` is not in src.  Stores `value`
under `key`, replacing the value of an equal key (§4.3); a nil key is not
stored. -/
def dst_table_put : DstTable → DstValue → DstValue → DstTable
  | k :: v :: rest, key, value =>
    if key.isNil then k :: v :: rest
    else if !k.isNil && dst_equals k key then k :: value :: rest
    else k :: v :: dst_table_put rest key value
  | _, key, value => if key.isNil then [] else [key, value]

/-- The number of entries of a table (`tab->count`): its non-empty buckets. -/
def dst_table_count : DstTable → Nat
  | k :: _ :: rest => (if k.isNil then 0 else 1) + dst_table_count rest
  | _ => 0

/-- The environment handed to the compiler: the table itself, and the two
tables associated with it, `dst_env_meta` and `dst_env_nils` (not in src; §6
"Environment contract"). -/
structure DstEnv where
  table : DstTable
  meta : DstTable
  nils : DstTable

/-! ## Bytecode -/

/-- The opcodes the compiler emits (`DST_OP_*`; their numeric values are not in
src and are kept symbolic). -/
inductive DstOp where
  | NIL | TRU | FLS | I16 | I32 | I64 | F64 | CST | CLN | MOV | UPV | SUV
  | ARR | DIC | PSK | PAR | CAL | TCL | JIF | JMP | RET | RTN | TRN
  deriving DecidableEq, Repr

/-- A 16-bit word of the instruction stream: an opcode, or an operand word. -/
inductive Word where
  | op (o : DstOp)
  | u16 (n : Nat)
  deriving DecidableEq, Repr

/-- The byte buffer (`DstBuffer`), as its 16-bit words.  `count` is the length
in bytes as in the source; words above `count` keep their content when `count`
is lowered. -/
structure DstBuffer where
  data : List Word
  count : Nat
  deriving DecidableEq, Repr

/-- Writes one word at the position `count` and advances `count` by two bytes. -/
def DstBuffer.put (b : DstBuffer) (w : Word) : DstBuffer :=
  { data := b.data.take (b.count / 2) ++ w :: b.data.drop (b.count / 2 + 1)
    count := b.count + 2 }

/-- The statement `buffer->count += n`: the words skipped keep what the memory
holds (a zero word where nothing was written before). -/
def DstBuffer.skip (b : DstBuffer) (n : Nat) : DstBuffer :=
  { data := b.data ++ List.replicate ((b.count + n) / 2 - b.data.length) (Word.u16 0)
    count := b.count + n }

/-- The flag set of a function definition (`DST_FUNCDEF_FLAG_VARARG`,
`DST_FUNCDEF_FLAG_NEEDSPARENT`, `DST_FUNCDEF_FLAG_NEEDSENV`: three bits whose
values are not in src), one field per bit. -/
structure FuncDefFlags where
  vararg : Bool
  needsParent : Bool
  needsEnv : Bool
  deriving DecidableEq, Repr

/-- The output of the compiler (`DstFuncDef`). -/
structure DstFuncDef where
  byteCode : List Word
  literals : List DstValue
  locals : Nat
  arity : Nat
  flags : FuncDefFlags

/-! ## Compiler state -/

/-- The options passed down to each form (`FormOptions`). -/
structure FormOptions where
  target : Nat
  resultUnused : Bool
  canChoose : Bool
  isTail : Bool
  deriving DecidableEq, Repr

/-- The location of a value on the stack (`Slot`).  A field the source leaves
unset is zero here. -/
structure Slot where
  index : Nat
  isNil : Bool
  isTemp : Bool
  hasReturned : Bool
  deriving DecidableEq, Repr

/-- A `SlotTracker`: the slots pushed so far, oldest first. -/
structure SlotTracker where
  slots : List Slot

/-- A lexical scope (`DstScope`).  `freeHeap` holds the `heapSize` live entries
of the free list, the last one freed first.  `literals` and `literalsArray` are
addresses in the heap of the compiler (they are shared between a function scope
and its sub-scopes); `locals` belongs to the scope alone and is kept in place.
The parent of the scope at depth `p` of the chain is the scope at depth
`p - 1`. -/
structure DstScope where
  level : Nat
  nextLocal : Nat
  frameSize : Nat
  freeHeap : List Nat
  touchParent : Bool
  touchEnv : Bool
  literals : Nat
  literalsArray : Nat
  locals : DstTable

/-- What the compiler allocates on the heap of the virtual machine: the
function definitions, and the literal tables and literal arrays of its
scopes. -/
structure Heap where
  funcdefs : List DstFuncDef
  tables : List DstTable
  arrays : List (List DstValue)

/-- The compilation state (`DstCompiler`).  `scopes` is the chain of scopes
from the root to `tail`, so that `c->tail` is its last element and a pointer to
a scope is its depth in the chain.  `recursionGuard` is positive whenever it is
decremented, and is kept as a natural number. -/
structure DstCompiler where
  vm : Heap
  scopes : List DstScope
  buffer : DstBuffer
  env : DstEnv
  recursionGuard : Nat

/-- The outcome of a step of the compiler: a value and the new state, a compile
error (`c_error`, which leaves through `longjmp`), or a read outside an object
(a null scope, an operand past the end of a tuple), on which the source has no
defined behaviour. -/
inductive Result (α : Type) where
  | ok (a : α) (c : DstCompiler)
  | error (e : DstValue)
  | undefined

/-- A step of the compiler. -/
def Comp (α : Type) : Type := DstCompiler → Result α

/-- Sequencing of steps: an error or an undefined read ends the compilation. -/
def Comp.bind {α β : Type} (m : Comp α) (f : α → Comp β) : Comp β := fun c =>
  match m c with
  | .ok a c1 => f a c1
  | .error e => .error e
  | .undefined => .undefined

instance : Monad Comp where
  pure a := fun c => .ok a c
  bind := Comp.bind

/-! ## Primitive steps -/

/-- Reads the state. -/
def getc : Comp DstCompiler := fun c => .ok c c

/-- Replaces the state. -/
def setc (c : DstCompiler) : Comp Unit := fun _ => .ok () c

/-- A read outside an object. -/
def undefined_read {α : Type} : Comp α := fun _ => .undefined

/-- The function `c_error`: abort with the message as a string value
(`dst_string_cv`). -/
def c_error {α : Type} (e : String) : Comp α := fun _ => .error (.string e)

/-- The function `c_error1`: abort with the value itself. -/
def c_error1 {α : Type} (e : DstValue) : Comp α := fun _ => .error e

/-- Provides default FormOptions. -/
def form_options_default : FormOptions :=
  { target := 0, resultUnused := false, canChoose := true, isTail := false }

/-- The pointer `c->tail`; dereferencing it when it is null is undefined. -/
def compiler_tail : Comp Nat := fun c =>
  match c.scopes.length with
  | 0 => .undefined
  | n + 1 => .ok n c

/-- Reads the scope record a pointer refers to. -/
def scope_read (scope : Nat) : Comp DstScope := fun c =>
  match c.scopes.get? scope with
  | some s => .ok s c
  | none => .undefined

/-- Writes the scope record a pointer refers to. -/
def scope_write (scope : Nat) (s : DstScope) : Comp Unit := fun c =>
  .ok () { c with scopes := c.scopes.set scope s }

/-- The pointer `scope->parent`, followed only to be dereferenced. -/
def scope_parent (scope : Nat) : Comp Nat :=
  match scope with
  | 0 => undefined_read
  | p + 1 => pure p

/-- The writer `dst_buffer_push_u16` applied to an opcode. -/
def dst_buffer_push_op (o : DstOp) : Comp Unit := fun c =>
  .ok () { c with buffer := c.buffer.put (.op o) }

/-- The writer `dst_buffer_push_u16` (`BUFFER_DEFINE(u16, uint16_t)`): the
argument is converted to 16 bits. -/
def dst_buffer_push_u16 (n : Nat) : Comp Unit := fun c =>
  .ok () { c with buffer := c.buffer.put (.u16 (n % 65536)) }

/-- The `k`-th 16-bit word, lowest first, of the two's complement
representation of `v`. -/
def int_word (v : Int) (k : Nat) : Word :=
  .u16 ((v / (65536 : Int) ^ k) % 65536).toNat

/-- The writer `dst_buffer_push_i16`: the low 16 bits of the integer. -/
def dst_buffer_push_i16 (v : Int) : Comp Unit := fun c =>
  .ok () { c with buffer := c.buffer.put (int_word v 0) }

/-- The writer `dst_buffer_push_i32`: two words, little-endian (§4.1). -/
def dst_buffer_push_i32 (v : Int) : Comp Unit := fun c =>
  .ok () { c with buffer := (c.buffer.put (int_word v 0)).put (int_word v 1) }

/-- The writer `dst_buffer_push_i64`: four words, little-endian (§4.1). -/
def dst_buffer_push_i64 (v : Int) : Comp Unit := fun c =>
  .ok () { c with buffer :=
    (((c.buffer.put (int_word v 0)).put (int_word v 1)).put (int_word v 2)).put (int_word v 3) }

/-- The writer `dst_buffer_push_real`: the four words of the bit pattern. -/
def dst_buffer_push_real (bits : Nat) : Comp Unit :=
  dst_buffer_push_i64 (Int.ofNat bits)

/-- The value of `buffer->count`. -/
def buffer_count : Comp Nat := fun c => .ok c.buffer.count c

/-- The assignment `buffer->count = n`. -/
def buffer_set_count (n : Nat) : Comp Unit := fun c =>
  .ok () { c with buffer := { c.buffer with count := n } }

/-- The statement `buffer->count += n`. -/
def buffer_skip (n : Nat) : Comp Unit := fun c =>
  .ok () { c with buffer := c.buffer.skip n }

/-! ## Scopes, locals and literals -/

/-- Push a new scope in the compiler and return a pointer to it. -/
def compiler_push_scope (sameFunction : Bool) : Comp Nat := fun c =>
  let level :=
    match c.scopes.getLast? with
    | some t => t.level + (if sameFunction then 0 else 1)
    | none => 0
  if sameFunction then
    match c.scopes.getLast? with
    | none => .error (.string "cannot inherit scope when root scope")
    | some t =>
      .ok c.scopes.length { c with
        scopes := c.scopes ++ [{
          level := level, nextLocal := t.nextLocal, frameSize := 0, freeHeap := [],
          touchParent := false, touchEnv := false,
          literals := t.literals, literalsArray := t.literalsArray, locals := [] }] }
  else
    .ok c.scopes.length { c with
      vm := { c.vm with tables := c.vm.tables ++ [[]], arrays := c.vm.arrays ++ [[]] }
      scopes := c.scopes ++ [{
        level := level, nextLocal := 0, frameSize := 0, freeHeap := [],
        touchParent := false, touchEnv := false,
        literals := c.vm.tables.length, literalsArray := c.vm.arrays.length,
        locals := [] }] }

/-- Remove the inner most scope from the compiler stack.  Returns the record of
the scope removed, which the caller can still read through its pointer. -/
def compiler_pop_scope : Comp DstScope := fun c =>
  match c.scopes.getLast? with
  | none => .error (.string "no scope to pop")
  | some last0 =>
    let last := if last0.nextLocal > last0.frameSize
      then { last0 with frameSize := last0.nextLocal } else last0
    let rest := c.scopes.dropLast
    match rest.getLast? with
    | none => .ok last { c with scopes := rest }
    | some t =>
      let t1 := if last.frameSize > t.frameSize
        then { t with frameSize := last.frameSize } else t
      .ok last { c with scopes := rest.set (rest.length - 1) t1 }

/-- Get the next stack position that is open for a variable.  The test
`scope->nextLocal + 1 == 0` is evaluated on `int`, after the promotion of the
16-bit field; the increment wraps at 16 bits. -/
def compiler_get_local (scope : Nat) : Comp Nat := do
  let s ← scope_read scope
  match s.freeHeap with
  | [] =>
    if s.nextLocal + 1 == 0 then
      c_error "too many local variables"
    else do
      scope_write scope { s with nextLocal := (s.nextLocal + 1) % 65536 }
      pure s.nextLocal
  | i :: rest => do
    scope_write scope { s with freeHeap := rest }
    pure i

/-- Free a slot on the stack for other locals and/or intermediate values. -/
def compiler_free_local (scope : Nat) (slot : Nat) : Comp Unit := do
  let s ← scope_read scope
  scope_write scope { s with freeHeap := slot :: s.freeHeap }

/-- Initializes a SlotTracker. -/
def tracker_init : SlotTracker := { slots := [] }

/-- Free up a slot if it is a temporary slot (does not belong to a named
local). -/
def compiler_drop_slot (scope : Nat) (slot : Slot) : Comp Unit :=
  if !slot.isNil && slot.isTemp then compiler_free_local scope slot.index else pure ()

/-- Helper function to return a slot. -/
def compiler_return (slot : Slot) : Comp Slot := do
  let ret : Slot := { index := 0, isNil := true, isTemp := false, hasReturned := true }
  let _ ← (
    if slot.hasReturned then
      pure ()
    else if slot.isNil then
      dst_buffer_push_op .RTN
    else do
      dst_buffer_push_op .RET
      dst_buffer_push_u16 slot.index)
  pure ret

/-- Gets a temporary slot for the bottom-most scope. -/
def compiler_get_temp : Comp Slot := do
  let scope ← compiler_tail
  let index ← compiler_get_local scope
  pure { index := index, isNil := false, isTemp := true, hasReturned := false }

/-- Return a slot that is the target Slot given some FormOptions. -/
def compiler_get_target (opts : FormOptions) : Comp Slot :=
  if opts.canChoose then
    compiler_get_temp
  else
    pure { index := opts.target, isNil := false, isTemp := false, hasReturned := false }

/-- If a slot is a nil slot, create a slot that has an actual location on the
stack. -/
def compiler_realize_slot (slot : Slot) : Comp Slot :=
  if slot.isNil then do
    let slot ← compiler_get_temp
    dst_buffer_push_op .NIL
    dst_buffer_push_u16 slot.index
    pure slot
  else
    pure slot

/-- Coerce a slot to match form options. Can write to buffer. -/
def compiler_coerce_slot (opts : FormOptions) (slot : Slot) : Comp Slot := do
  let scope ← compiler_tail
  if opts.resultUnused then do
    compiler_drop_slot scope slot
    pure { slot with isNil := true }
  else do
    let slot ← compiler_realize_slot slot
    if opts.canChoose then
      pure slot
    else if slot.index != opts.target then do
      dst_buffer_push_op .MOV
      dst_buffer_push_u16 opts.target
      dst_buffer_push_u16 slot.index
      pure { slot with index := opts.target, isTemp := false }
    else
      pure slot

/-- Helper to get a nil slot. -/
def nil_slot : Slot := { index := 0, isNil := true, isTemp := false, hasReturned := false }

/-- Writes all of the slots in the tracker to the compiler (the loop body, over
the slots in the order asked for). -/
def compiler_tracker_write_loop : List Slot → Comp Unit
  | [] => pure ()
  | s :: rest => do
    let _ ← (
      if s.isNil then
        c_error "trying to write nil slot"
      else
        dst_buffer_push_u16 s.index)
    compiler_tracker_write_loop rest

/-- Writes all of the slots in the tracker to the compiler. -/
def compiler_tracker_write (tracker : SlotTracker) (reverse : Bool) : Comp Unit :=
  compiler_tracker_write_loop (if reverse then tracker.slots.reverse else tracker.slots)

/-- The loop of `compiler_tracker_free` over the slots it is given. -/
def compiler_tracker_free_loop (scope : Nat) : List Slot → Comp Unit
  | [] => pure ()
  | s :: rest => do
    compiler_drop_slot scope s
    compiler_tracker_free_loop scope rest

/-- Frees the slots that were tracked by this tracker in the given scope, in
reverse order. -/
def compiler_tracker_free (scope : Nat) (tracker : SlotTracker) : Comp Unit :=
  compiler_tracker_free_loop scope tracker.slots.reverse

/-- Add a new Slot to a slot tracker. -/
def compiler_tracker_push (tracker : SlotTracker) (slot : Slot) : SlotTracker :=
  { slots := tracker.slots ++ [slot] }

/-- Registers a literal in the given scope. If an equal literal is found, uses
that one instead of creating a new literal. -/
def compiler_add_literal (scope : Nat) (x : DstValue) : Comp Nat := do
  let s ← scope_read scope
  let c ← getc
  let checkDup := dst_table_get (c.vm.tables.getD s.literals []) x
  match checkDup with
  | .nil => do
    let literalIndex := (c.vm.arrays.getD s.literalsArray []).length % 65536
    let valIndex := DstValue.integer (Int.ofNat literalIndex)
    setc { c with vm := { c.vm with
      tables := c.vm.tables.set s.literals
        (dst_table_put (c.vm.tables.getD s.literals []) x valIndex)
      arrays := c.vm.arrays.set s.literalsArray
        (c.vm.arrays.getD s.literalsArray [] ++ [x]) } }
    pure literalIndex
  | .integer i => pure (i % 65536).toNat
  | _ => pure 0

/-- Declare a symbol in a given scope. -/
def compiler_declare_symbol (scope : Nat) (sym : DstValue) (flags : Nat) : Comp Nat := do
  if !sym.isSymbol then
    c_error "expected symbol"
  else do
    let target ← compiler_get_local scope
    let x := DstValue.integer (Int.ofNat (target + flags * 65536))
    let s ← scope_read scope
    scope_write scope { s with locals := dst_table_put s.locals sym x }
    pure target

/-! ## Symbols -/

/-- The flag `DST_LOCAL_FLAG_MUTABLE`. -/
def DST_LOCAL_FLAG_MUTABLE : Nat := 1

/-- The constructor `dst_string_cv`: a string value from a C string. -/
def dst_string_cv (s : String) : DstValue := .string s

/-- Modelled from the spec: `dst_string_cvs` is not in src.  The name of a host
function in a synthesized tuple is a symbol (§6: "they appear as symbols in
synthesized tuples and are resolved by the subsequent recursive compile"), as
the head `quote` is. -/
def dst_string_cvs (s : String) : DstValue := .symbol s

/-- The member `x.as.integer` (the compiler reads it from integers only). -/
def DstValue.asInteger : DstValue → Int
  | .integer i => i
  | _ => 0

/-- The element `form[i]` of a tuple; past the end the read is undefined. -/
def form_at (form : List DstValue) (i : Nat) : Comp DstValue :=
  match form.get? i with
  | some x => pure x
  | none => undefined_read

/-- What `symbol_resolve` hands back: its return value, and the variables it
writes through its pointer arguments (starting from the zero and nil its
callers initialise them with). -/
structure Resolution where
  status : Nat
  level : Nat
  index : Nat
  flags : Nat
  out : DstValue

/-- The walk of `symbol_resolve` along the scope chain, innermost first. -/
def symbol_resolve_scopes (currentLevel : Nat) (x : DstValue) :
    List DstScope → Option Resolution
  | [] => none
  | scope :: parents =>
    let check := dst_table_get scope.locals x
    if !check.isNil then
      some { status := 1
             level := (currentLevel - scope.level) % 65536
             index := (check.asInteger % 65536).toNat
             flags := ((check.asInteger / 65536) % 65536).toNat
             out := .nil }
    else symbol_resolve_scopes currentLevel x parents

/-- The test of `symbol_resolve` on the metadata of a global: the metadata
table of the symbol is a table that maps the string `mutable` to a true
value. -/
def env_mutable (env : DstEnv) (x : DstValue) : Bool :=
  match dst_table_get env.meta x with
  | .table t => dst_truthy (dst_table_get t (dst_string_cv "mutable"))
  | _ => false

/-- Try to resolve a symbol.  Status 1 is a local, 2 a named literal, 3 a
mutable global, 0 an unbound symbol. -/
def symbol_resolve (x : DstValue) : Comp Resolution := do
  let tail ← compiler_tail
  let scope ← scope_read tail
  let c ← getc
  match symbol_resolve_scopes scope.level x c.scopes.reverse with
  | some r => pure r
  | none =>
    let check := dst_table_get c.env.table x
    if !check.isNil then
      if env_mutable c.env x then
        pure { status := 3, level := 0, index := 0, flags := DST_LOCAL_FLAG_MUTABLE, out := check }
      else
        pure { status := 2, level := 0, index := 0, flags := 0, out := check }
    else
      let check := dst_table_get c.env.nils x
      if !check.isNil then
        pure { status := 2, level := 0, index := 0, flags := 0, out := .nil }
      else
        pure { status := 0, level := 0, index := 0, flags := 0, out := .nil }

/-! ## Expression compilers

The compilers that recurse take `compile_value`, at the depth allowed to them,
as their first argument `cv`. -/

/-- Compile boolean, nil, and number values. -/
def compile_nonref_type (opts : FormOptions) (x : DstValue) : Comp Slot := do
  if opts.resultUnused then
    pure nil_slot
  else do
    let ret ← compiler_get_target opts
    let _ ← (
      match x with
      | .nil => do
        dst_buffer_push_op .NIL
        dst_buffer_push_u16 ret.index
      | .boolean b => do
        dst_buffer_push_op (if b then .TRU else .FLS)
        dst_buffer_push_u16 ret.index
      | .real bits => do
        dst_buffer_push_op .F64
        dst_buffer_push_u16 ret.index
        dst_buffer_push_real bits
      | .integer i =>
        if i ≤ 32767 ∧ i ≥ -32768 then do
          dst_buffer_push_op .I16
          dst_buffer_push_u16 ret.index
          dst_buffer_push_i16 i
        else if i ≤ 2147483647 ∧ i ≥ -2147483648 then do
          dst_buffer_push_op .I32
          dst_buffer_push_u16 ret.index
          dst_buffer_push_i32 i
        else do
          dst_buffer_push_op .I64
          dst_buffer_push_u16 ret.index
          dst_buffer_push_i64 i
      | _ => c_error "expected boolean, nil, or number type")
    pure ret

/-- Compile a structure that evaluates to a literal value. -/
def compile_literal (opts : FormOptions) (x : DstValue) : Comp Slot := do
  let scope ← compiler_tail
  if opts.resultUnused then
    pure nil_slot
  else
    match x with
    | .integer _ | .real _ | .boolean _ | .nil => compile_nonref_type opts x
    | _ => do
      let ret ← compiler_get_target opts
      let literalIndex ← compiler_add_literal scope x
      dst_buffer_push_op .CST
      dst_buffer_push_u16 ret.index
      dst_buffer_push_u16 literalIndex
      pure ret

/-- Quote a value. -/
def quote (x : DstValue) : DstValue := .tuple [dst_string_cvs "quote", x]

/-- The loop of `compile_symbol` over the chain of functions up to the
upvalue: marks `touchParent` and moves to the parent while `i > 1`; returns the
scope it stops at. -/
def compile_symbol_touch : Nat → Nat → Comp Nat
  | 0, scope => pure scope
  | 1, scope => pure scope
  | i + 2, scope => do
    let s ← scope_read scope
    scope_write scope { s with touchParent := true }
    let parent ← scope_parent scope
    compile_symbol_touch (i + 1) parent

/-- Compile a symbol. Resolves any kind of symbol. -/
def compile_symbol (cv : FormOptions → DstValue → Comp Slot)
    (opts : FormOptions) (sym : DstValue) : Comp Slot := do
  let r ← symbol_resolve sym
  if r.status == 0 then
    c_error1 sym
  else if opts.resultUnused then
    pure nil_slot
  else if r.status == 2 then
    compile_literal opts r.out
  else if r.status == 3 then
    cv opts (.tuple [dst_string_cvs "get", quote r.out, .integer 0])
  else if r.level > 0 then do
    let tail ← compiler_tail
    let scope ← compile_symbol_touch r.level tail
    let s ← scope_read scope
    scope_write scope { s with touchEnv := true }
    let ret ← compiler_get_target opts
    dst_buffer_push_op .UPV
    dst_buffer_push_u16 ret.index
    dst_buffer_push_u16 r.level
    dst_buffer_push_u16 r.index
    pure ret
  else if opts.canChoose then
    pure { index := r.index, isNil := false, isTemp := false, hasReturned := false }
  else do
    dst_buffer_push_op .MOV
    dst_buffer_push_u16 opts.target
    dst_buffer_push_u16 r.index
    pure { index := opts.target, isNil := false, isTemp := false, hasReturned := false }

/-- Compile an assignment operation. -/
def compile_assign (cv : FormOptions → DstValue → Comp Slot)
    (opts : FormOptions) (left right : DstValue) : Comp Slot := do
  let scope ← compiler_tail
  let subOpts := { form_options_default with isTail := false, resultUnused := false }
  let r ← symbol_resolve left
  if r.status == 1 then do
    if r.flags % 2 == 0 then
      c_error "cannot varset immutable binding"
    else do
      let slot ← (
        if r.level != 0 then do
          let slot0 ← cv { subOpts with canChoose := true } right
          let slot ← compiler_realize_slot slot0
          dst_buffer_push_op .SUV
          dst_buffer_push_u16 slot.index
          dst_buffer_push_u16 r.level
          dst_buffer_push_u16 r.index
          pure slot
        else
          cv { subOpts with canChoose := false, target := r.index } right)
      if opts.resultUnused then do
        compiler_drop_slot scope slot
        pure nil_slot
      else
        pure slot
  else if r.status == 3 then do
    let tup := DstValue.tuple [dst_string_cvs "set!", quote r.out, .integer 0, right]
    let _ ← cv { subOpts with resultUnused := true } tup
    cv opts left
  else
    c_error "cannot varset immutable binding"

/-- Set a var. -/
def compile_varset (cv : FormOptions → DstValue → Comp Slot)
    (opts : FormOptions) (form : List DstValue) : Comp Slot := do
  if form.length != 3 then
    c_error "expected 2 arguments to varset"
  else do
    let f1 ← form_at form 1
    if !f1.isSymbol then
      c_error "expected symbol as first argument"
    else do
      let f2 ← form_at form 2
      compile_assign cv opts f1 f2

/-- The assignment `t[1].type = DST_STRING`: the symbol read as the string of
the same bytes. -/
def retag_string (x : DstValue) : Comp DstValue :=
  match x with
  | .symbol s => pure (.string s)
  | .string s => pure (.string s)
  | _ => undefined_read

/-- Global var. -/
def compile_global_var (cv : FormOptions → DstValue → Comp Slot)
    (opts : FormOptions) (form : List DstValue) : Comp Slot := do
  let f1 ← form_at form 1
  let t1 ← retag_string f1
  let f2 ← form_at form 2
  cv opts (.tuple [dst_string_cvs "global-var", t1, f2])

/-- Global define. -/
def compile_global_def (cv : FormOptions → DstValue → Comp Slot)
    (opts : FormOptions) (form : List DstValue) : Comp Slot := do
  let f1 ← form_at form 1
  let t1 ← retag_string f1
  let f2 ← form_at form 2
  cv opts (.tuple [dst_string_cvs "global-def", t1, f2])

/-- Compile def. -/
def compile_def (cv : FormOptions → DstValue → Comp Slot)
    (opts : FormOptions) (form : List DstValue) : Comp Slot := do
  let scope ← compiler_tail
  if form.length != 3 then
    c_error "expected 2 arguments to def"
  else do
    let f1 ← form_at form 1
    if !f1.isSymbol then
      c_error "expected symbol as first argument"
    else if scope != 0 then do
      let target ← compiler_declare_symbol scope f1 0
      let subOpts : FormOptions :=
        { isTail := opts.isTail, resultUnused := false, canChoose := false, target := target }
      let f2 ← form_at form 2
      let slot ← cv subOpts f2
      compiler_coerce_slot opts slot
    else
      compile_global_def cv opts form

/-- Compile var. -/
def compile_var (cv : FormOptions → DstValue → Comp Slot)
    (opts : FormOptions) (form : List DstValue) : Comp Slot := do
  let scope ← compiler_tail
  if form.length != 3 then
    c_error "expected 2 arguments to var"
  else do
    let f1 ← form_at form 1
    if !f1.isSymbol then
      c_error "expected symbol as first argument"
    else if scope != 0 then do
      let target ← compiler_declare_symbol scope f1 DST_LOCAL_FLAG_MUTABLE
      let subOpts : FormOptions :=
        { isTail := opts.isTail, resultUnused := false, canChoose := false, target := target }
      let f2 ← form_at form 2
      let slot ← cv subOpts f2
      compiler_coerce_slot opts slot
    else
      compile_global_var cv opts form

/-- The loop of `compile_block` over the expressions before the last one. -/
def compile_block_loop (cv : FormOptions → DstValue → Comp Slot)
    (scope : Nat) (subOpts : FormOptions) : List DstValue → Comp Unit
  | [] => pure ()
  | x :: rest => do
    let slot ← cv subOpts x
    compiler_drop_slot scope slot
    compile_block_loop cv scope subOpts rest

/-- Compile series of expressions. This compiles the meat of function
definitions and the inside of do forms. -/
def compile_block (cv : FormOptions → DstValue → Comp Slot)
    (opts : FormOptions) (form : List DstValue) (startIndex : Nat) : Comp Slot := do
  let scope ← compiler_tail
  if form.length ≤ startIndex then
    pure nil_slot
  else do
    let subOpts := { form_options_default with
      resultUnused := true, isTail := false, canChoose := true }
    compile_block_loop cv scope subOpts ((form.take (form.length - 1)).drop startIndex)
    let last ← form_at form (form.length - 1)
    cv opts last

/-! ## Function definitions and special forms -/

/-- Extract the last n bytes from the buffer and use them to construct a
function definition.  Returns the address of the new definition. -/
def compiler_gen_funcdef (lastNBytes : Nat) (arity : Nat) (varargs : Bool) : Comp DstPtr := do
  let scope ← compiler_tail
  let c ← getc
  if lastNBytes > c.buffer.count then
    c_error "trying to extract more bytes from buffer than in buffer"
  else do
    let byteCode :=
      (c.buffer.data.drop ((c.buffer.count - lastNBytes) / 2)).take (lastNBytes / 2)
    buffer_set_count (c.buffer.count - lastNBytes)
    let s ← scope_read scope
    let literals := c.vm.arrays.getD s.literalsArray []
    let last ← compiler_pop_scope
    let d : DstFuncDef :=
      { byteCode := byteCode
        literals := literals
        locals := last.frameSize
        arity := arity
        flags := { vararg := varargs, needsParent := last.touchParent, needsEnv := last.touchEnv } }
    let c ← getc
    setc { c with vm := { c.vm with funcdefs := c.vm.funcdefs ++ [d] } }
    pure (.fresh c.vm.funcdefs.length)

/-- Check if a string a cstring are equal. -/
def equal_cstr : List Char → List Char → Bool
  | [], cstr => cstr.isEmpty
  | _ :: _, [] => false
  | s :: str, c :: cstr => if s != c then false else equal_cstr str cstr

/-- The member `x.as.string` of a symbol, as its characters. -/
def DstValue.asString : DstValue → List Char
  | .symbol s => s.data
  | .string s => s.data
  | _ => []

/-- The loop of `compile_function` over the parameters: `i` is the index of the
first parameter of the list, `count` is `params->count`; returns `varargs` and
`arity`. -/
def compile_function_params (subDstScope : Nat) (count : Nat) :
    Nat → List DstValue → Bool → Nat → Comp (Bool × Nat)
  | _, [], varargs, arity => pure (varargs, arity)
  | i, param :: rest, varargs, arity => do
    if !param.isSymbol then
      c_error "function parameters should be symbols"
    else do
      let va ← (
        if equal_cstr param.asString ['&'] then
          if i != count - 1 then
            c_error "& is reserved for vararg argument in function"
          else
            pure (true, arity - 1)
        else
          pure (varargs, arity))
      let _ ← compiler_declare_symbol subDstScope param 0
      compile_function_params subDstScope count (i + 1) rest va.1 va.2

/-- Compile a function from a function literal source form. -/
def compile_function (cv : FormOptions → DstValue → Comp Slot)
    (opts : FormOptions) (form : List DstValue) : Comp Slot := do
  let scope ← compiler_tail
  let subOpts := form_options_default
  if opts.resultUnused then
    pure nil_slot
  else do
    let ret ← compiler_get_target opts
    let subDstScope ← compiler_push_scope false
    let f1 ← form_at form 1
    match f1 with
    | .array params => do
      let va ← compile_function_params subDstScope params.length 0 params false params.length
      let sizeBefore ← buffer_count
      let body ← compile_block cv { subOpts with isTail := true } form 2
      let _ ← compiler_return body
      let count ← buffer_count
      let d ← compiler_gen_funcdef (count - sizeBefore) va.2 va.1
      let literalIndex ← compiler_add_literal scope (.funcdef d)
      dst_buffer_push_op .CLN
      dst_buffer_push_u16 ret.index
      dst_buffer_push_u16 literalIndex
      pure ret
    | _ => c_error "expected function arguments array"

/-- Branching special. -/
def compile_if (cv : FormOptions → DstValue → Comp Slot)
    (opts : FormOptions) (form : List DstValue) : Comp Slot := do
  let scope ← compiler_tail
  if form.length < 3 || form.length > 4 then
    c_error "if takes either 2 or 3 arguments"
  else do
    let condOpts := { opts with isTail := false, resultUnused := false }
    let f1 ← form_at form 1
    let condition ← cv condOpts f1
    if condition.isNil then
      if form.length == 4 then do
        let f3 ← form_at form 3
        cv opts f3
      else
        pure condition
    else do
      let countAtJumpIf ← buffer_count
      buffer_skip 8
      let branchOpts := { opts with canChoose := false, target := condition.index }
      let f2 ← form_at form 2
      let left ← cv branchOpts f2
      let countAtJump ← (
        if opts.isTail then do
          let _ ← compiler_return left
          pure 0
        else if form.length == 4 then do
          let countAtJump ← buffer_count
          buffer_skip 6
          pure countAtJump
        else
          pure 0)
      compiler_drop_slot scope left
      let countAfterFirstBranch ← buffer_count
      buffer_set_count countAtJumpIf
      dst_buffer_push_op .JIF
      dst_buffer_push_u16 condition.index
      dst_buffer_push_i32 (Int.ofNat ((countAfterFirstBranch - countAtJumpIf) / 2))
      buffer_set_count countAfterFirstBranch
      let _ ← (
        if form.length == 4 then do
          let f3 ← form_at form 3
          let right ← cv branchOpts f3
          let _ ← (if opts.isTail then compiler_return right else pure right)
          compiler_drop_slot scope right
        else if opts.isTail then do
          let _ ← compiler_return condition
          pure ()
        else
          pure ())
      let _ ← (
        if !opts.isTail && form.length == 4 then do
          let countAfterFirstBranch ← buffer_count
          buffer_set_count countAtJump
          dst_buffer_push_op .JMP
          dst_buffer_push_i32 (Int.ofNat ((countAfterFirstBranch - countAtJump) / 2))
          buffer_set_count countAfterFirstBranch
        else
          pure ())
      if opts.isTail then
        pure { condition with hasReturned := true }
      else
        pure condition

/-- The conversion `(int32_t) n` of an unsigned 32-bit value. -/
def to_int32 (n : Nat) : Int :=
  if n % 4294967296 < 2147483648 then Int.ofNat (n % 4294967296)
  else Int.ofNat (n % 4294967296) - 4294967296

/-- While special.  (The two arguments of the call of `compiler_drop_slot`
are evaluated in the order the compiler of the source chooses; `c->tail` is
read after the body is compiled here.) -/
def compile_while (cv : FormOptions → DstValue → Comp Slot)
    (opts : FormOptions) (form : List DstValue) : Comp Slot := do
  let countAtStart ← buffer_count
  let defaultOpts := form_options_default
  let _ ← compiler_push_scope true
  let f1 ← form_at form 1
  let cond ← cv defaultOpts f1
  if cond.isNil then
    pure cond
  else do
    let countAtJumpDelta ← buffer_count
    buffer_skip 8
    let body ← compile_block cv { defaultOpts with resultUnused := true } form 2
    let tail ← compiler_tail
    compiler_drop_slot tail body
    let countAtFinish ← buffer_count
    dst_buffer_push_op .JMP
    dst_buffer_push_i32 (Int.tdiv (to_int32 (countAtFinish - countAtStart)) (-2))
    let countAtFinish ← buffer_count
    buffer_set_count countAtJumpDelta
    dst_buffer_push_op .JIF
    dst_buffer_push_u16 cond.index
    dst_buffer_push_i32 (Int.tdiv (to_int32 (countAtFinish - countAtJumpDelta)) 2)
    buffer_set_count countAtFinish
    let _ ← compiler_pop_scope
    if opts.resultUnused then
      pure nil_slot
    else
      pure cond

/-- Do special. -/
def compile_do (cv : FormOptions → DstValue → Comp Slot)
    (opts : FormOptions) (form : List DstValue) : Comp Slot := do
  let _ ← compiler_push_scope true
  let ret ← compile_block cv opts form 1
  let _ ← compiler_pop_scope
  pure ret

/-- Quote special - returns its argument as is. -/
def compile_quote (opts : FormOptions) (form : List DstValue) : Comp Slot := do
  let scope ← compiler_tail
  if form.length != 2 then
    c_error "quote takes exactly 1 argument"
  else do
    let x ← form_at form 1
    match x with
    | .nil | .boolean _ | .real _ | .integer _ => compile_nonref_type opts x
    | _ =>
      if opts.resultUnused then
        pure nil_slot
      else do
        let ret ← compiler_get_target opts
        let literalIndex ← compiler_add_literal scope x
        dst_buffer_push_op .CST
        dst_buffer_push_u16 ret.index
        dst_buffer_push_u16 literalIndex
        pure ret

/-- The loop over the arguments of a call: each is compiled and its slot pushed
on the tracker. -/
def compile_args (cv : FormOptions → DstValue → Comp Slot) (subOpts : FormOptions) :
    List DstValue → SlotTracker → Comp SlotTracker
  | [], tracker => pure tracker
  | x :: rest, tracker => do
    let slot ← cv subOpts x
    compile_args cv subOpts rest (compiler_tracker_push tracker slot)

/-- Apply special. -/
def compile_apply (cv : FormOptions → DstValue → Comp Slot)
    (opts : FormOptions) (form : List DstValue) : Comp Slot := do
  let scope ← compiler_tail
  if form.length < 3 then
    c_error "apply expects at least 2 arguments"
  else do
    let subOpts := form_options_default
    let f1 ← form_at form 1
    let callee0 ← cv subOpts f1
    let callee ← compiler_realize_slot callee0
    let tracker ← compile_args cv subOpts ((form.take (form.length - 1)).drop 2) tracker_init
    let last ← form_at form (form.length - 1)
    let slot0 ← cv subOpts last
    let slot ← compiler_realize_slot slot0
    compiler_drop_slot scope callee
    compiler_drop_slot scope slot
    compiler_tracker_free scope tracker
    dst_buffer_push_op .PSK
    dst_buffer_push_u16 tracker.slots.length
    compiler_tracker_write tracker false
    dst_buffer_push_op .PAR
    dst_buffer_push_u16 slot.index
    if opts.isTail then do
      dst_buffer_push_op .TCL
      dst_buffer_push_u16 callee.index
      pure { index := 0, isNil := true, isTemp := false, hasReturned := true }
    else do
      let ret ← compiler_get_target opts
      dst_buffer_push_op .CAL
      dst_buffer_push_u16 callee.index
      dst_buffer_push_u16 ret.index
      pure ret

/-- Transfer special. -/
def compile_tran (cv : FormOptions → DstValue → Comp Slot)
    (opts : FormOptions) (form : List DstValue) : Comp Slot := do
  if form.length != 3 && form.length != 2 then
    c_error "tran expects 2 or 3 arguments"
  else do
    let f1 ← form_at form 1
    let t0 ← cv form_options_default f1
    let t ← compiler_realize_slot t0
    let v ← (
      if form.length == 3 then do
        let f2 ← form_at form 2
        let v0 ← cv form_options_default f2
        compiler_realize_slot v0
      else
        cv form_options_default .nil)
    let r ← compiler_get_target opts
    dst_buffer_push_op .TRN
    dst_buffer_push_u16 r.index
    dst_buffer_push_u16 t.index
    dst_buffer_push_u16 v.index
    pure r

/-- The special form compilers `get_special` can hand back. -/
inductive SpecialFormHelper where
  | compile_apply | compile_do | compile_def | compile_if | compile_function
  | compile_quote | compile_tran | compile_var | compile_varset | compile_while
  deriving DecidableEq, Repr

/-- The byte `name[i]` (read below the length of the name only). -/
def name_at (name : List Char) (i : Nat) : Char := name.getD i (Char.ofNat 0)

/-- Dispatch to a special form. -/
def get_special (form : List DstValue) : Option SpecialFormHelper :=
  match form with
  | .symbol s :: _ =>
    let name := s.data
    if name.length == 0 then none
    else if name_at name 0 == 'a' then
      if name.length == 5 && name_at name 1 == 'p' && name_at name 2 == 'p' &&
          name_at name 3 == 'l' && name_at name 4 == 'y' then
        some .compile_apply
      else none
    else if name_at name 0 == 'd' then
      if name.length == 2 && name_at name 1 == 'o' then
        some .compile_do
      else if name.length == 3 && name_at name 1 == 'e' && name_at name 2 == 'f' then
        some .compile_def
      else none
    else if name_at name 0 == 'i' then
      if name.length == 2 && name_at name 1 == 'f' then
        some .compile_if
      else none
    else if name_at name 0 == 'f' then
      if name.length == 2 && name_at name 1 == 'n' then
        some .compile_function
      else none
    else if name_at name 0 == 'q' then
      if name.length == 5 && name_at name 1 == 'u' && name_at name 2 == 'o' &&
          name_at name 3 == 't' && name_at name 4 == 'e' then
        some .compile_quote
      else none
    else if name_at name 0 == 't' then
      if name.length == 4 && name_at name 1 == 'r' && name_at name 2 == 'a' &&
          name_at name 3 == 'n' then
        some .compile_tran
      else none
    else if name_at name 0 == 'v' then
      if name.length == 3 && name_at name 1 == 'a' && name_at name 2 == 'r' then
        some .compile_var
      else if name.length == 7 && name_at name 1 == 'a' && name_at name 2 == 'r' &&
          name_at name 3 == 's' && name_at name 4 == 'e' && name_at name 5 == 't' &&
          name_at name 6 == '!' then
        some .compile_varset
      else none
    else if name_at name 0 == 'w' then
      if name.length == 5 && name_at name 1 == 'h' && name_at name 2 == 'i' &&
          name_at name 3 == 'l' && name_at name 4 == 'e' then
        some .compile_while
      else none
    else none
  | _ => none

/-- The loop of `compile_array` (and of `compile_table`, over the keys and
values of the buckets in use): each element is compiled, realized and pushed on
the tracker. -/
def compile_elements (cv : FormOptions → DstValue → Comp Slot) (subOpts : FormOptions) :
    List DstValue → SlotTracker → Comp SlotTracker
  | [], tracker => pure tracker
  | x :: rest, tracker => do
    let slot0 ← cv subOpts x
    let slot ← compiler_realize_slot slot0
    compile_elements cv subOpts rest (compiler_tracker_push tracker slot)

/-- Compile an array. -/
def compile_array (cv : FormOptions → DstValue → Comp Slot)
    (opts : FormOptions) (array : List DstValue) : Comp Slot := do
  let scope ← compiler_tail
  let subOpts := form_options_default
  let ret ← compiler_get_target opts
  let tracker ← compile_elements cv subOpts array tracker_init
  compiler_tracker_free scope tracker
  dst_buffer_push_op .ARR
  dst_buffer_push_u16 ret.index
  dst_buffer_push_u16 array.length
  compiler_tracker_write tracker false
  pure ret

/-- The keys and values of the buckets of a table whose key is not nil, in
bucket order. -/
def table_entries : List DstValue → List DstValue
  | k :: v :: rest => if !k.isNil then k :: v :: table_entries rest else table_entries rest
  | _ => []

/-- Compile an object literal. -/
def compile_table (cv : FormOptions → DstValue → Comp Slot)
    (opts : FormOptions) (tab : List DstValue) : Comp Slot := do
  let scope ← compiler_tail
  let subOpts := form_options_default
  let ret ← compiler_get_target opts
  let tracker ← compile_elements cv subOpts (table_entries tab) tracker_init
  compiler_tracker_free scope tracker
  dst_buffer_push_op .DIC
  dst_buffer_push_u16 ret.index
  dst_buffer_push_u16 (dst_table_count tab * 2)
  compiler_tracker_write tracker false
  pure ret

/-- Compile a form. Checks for special forms. -/
def compile_form (cv : FormOptions → DstValue → Comp Slot)
    (opts : FormOptions) (form : List DstValue) : Comp Slot := do
  let scope ← compiler_tail
  if form.length == 0 then
    compile_nonref_type opts .nil
  else
    match get_special form with
    | some .compile_apply => compile_apply cv opts form
    | some .compile_do => compile_do cv opts form
    | some .compile_def => compile_def cv opts form
    | some .compile_if => compile_if cv opts form
    | some .compile_function => compile_function cv opts form
    | some .compile_quote => compile_quote opts form
    | some .compile_tran => compile_tran cv opts form
    | some .compile_var => compile_var cv opts form
    | some .compile_varset => compile_varset cv opts form
    | some .compile_while => compile_while cv opts form
    | none => do
      let subOpts := form_options_default
      let f0 ← form_at form 0
      let callee0 ← cv subOpts f0
      let callee ← compiler_realize_slot callee0
      let tracker ← compile_args cv subOpts (form.drop 1) tracker_init
      compiler_drop_slot scope callee
      compiler_tracker_free scope tracker
      dst_buffer_push_op .PSK
      dst_buffer_push_u16 (form.length - 1)
      compiler_tracker_write tracker false
      if opts.isTail then do
        dst_buffer_push_op .TCL
        dst_buffer_push_u16 callee.index
        pure { index := 0, isNil := true, isTemp := false, hasReturned := true }
      else do
        let ret ← compiler_get_target opts
        dst_buffer_push_op .CAL
        dst_buffer_push_u16 callee.index
        dst_buffer_push_u16 ret.index
        pure ret

/-- The statement `--c->recursionGuard`; returns the new value. -/
def recursion_guard_enter : Comp Nat := fun c =>
  .ok (c.recursionGuard - 1) { c with recursionGuard := c.recursionGuard - 1 }

/-- The statement `c->recursionGuard++`. -/
def recursion_guard_leave : Comp Unit := fun c =>
  .ok () { c with recursionGuard := c.recursionGuard + 1 }

/-- The body of `compile_value`, the recursive calls going through `cv`. -/
def compile_value_body (cv : FormOptions → DstValue → Comp Slot)
    (opts : FormOptions) (x : DstValue) : Comp Slot := do
  let guard ← recursion_guard_enter
  if guard == 0 then
    c_error "recursed too deeply"
  else do
    let ret ← (
      match x with
      | .nil | .boolean _ | .real _ | .integer _ => compile_nonref_type opts x
      | .symbol _ => compile_symbol cv opts x
      | .tuple form => compile_form cv opts form
      | .array array => compile_array cv opts array
      | .table tab => compile_table cv opts tab
      | _ => compile_literal opts x)
    recursion_guard_leave
    pure ret

/-- Recursively compile any value or form.  The first argument bounds the depth
of the recursion; `dst_compile` starts it at the value of the recursion guard,
which runs out first. -/
def compile_value : Nat → FormOptions → DstValue → Comp Slot
  | 0 => fun _ _ => c_error "recursed too deeply"
  | depth + 1 => compile_value_body (compile_value depth)

/-- The closure `dst_compile` returns: its definition (by its index among the
definitions the compiler allocated), no parent, and an empty environment. -/
structure DstFunction where
  funcdef : DstPtr
  parent : Option Nat
  envValues : Option (List DstValue)
  envStackOffset : Nat
  envThread : Option Nat

/-- Compile interface. Returns a function that evaluates the given AST, or the
error value.  `guard` is the constant `DST_RECURSION_GUARD` (positive; its
value is not in src). -/
def dst_compile (env : DstEnv) (form : DstValue) (guard : Nat) : Result DstFunction :=
  let c : DstCompiler :=
    { vm := { funcdefs := [], tables := [], arrays := [] }
      scopes := []
      buffer := { data := [], count := 0 }
      env := env
      recursionGuard := guard }
  let run : Comp DstFunction := do
    let _ ← compiler_push_scope false
    let opts := { form_options_default with isTail := true }
    let slot ← compile_value guard opts form
    let _ ← compiler_return slot
    let count ← buffer_count
    let d ← compiler_gen_funcdef count 0 false
    pure { funcdef := d, parent := none, envValues := none, envStackOffset := 0,
           envThread := none }
  match run c with
  | .ok f c1 => .ok f c1
  | .error e => if e.isNil then .error (dst_string_cv "unknown error") else .error e
  | .undefined => .undefined

/-- The definitions allocated by a successful compilation, in allocation order
(the last one is the definition of the function returned). -/
def Result.funcdefs {α : Type} : Result α → List DstFuncDef
  | .ok _ c => c.vm.funcdefs
  | _ => []

/-- The scopes a successful compilation leaves on the stack of the compiler. -/
def Result.scopes {α : Type} : Result α → List DstScope
  | .ok _ c => c.scopes
  | _ => []

/-- The definition of the function a successful compilation returns. -/
def compiled (r : Result DstFunction) : Option DstFuncDef :=
  match r with
  | .ok f c =>
    match f.funcdef with
    | .fresh n => c.vm.funcdefs.get? n
    | .heap _ => none
  | _ => none


/-! ## The forms of the scenarios -/

/-- The form `(fn [x] x)` of scenario S4. -/
def form_S4 : DstValue :=
  .tuple [.symbol "fn", .array [.symbol "x"], .symbol "x"]

/-- The form `(if true 1 2)` of scenario S2. -/
def form_S2 : DstValue :=
  .tuple [.symbol "if", .boolean true, .integer 1, .integer 2]

/-- The form `(fn [x] (fn [y] x))` of scenario S5. -/
def form_S5 : DstValue :=
  .tuple [.symbol "fn", .array [.symbol "x"],
    .tuple [.symbol "fn", .array [.symbol "y"], .symbol "x"]]

/-- The form `(do (def x 5) (+ x 1))` of scenario S3. -/
def form_S3 : DstValue :=
  .tuple [.symbol "do", .tuple [.symbol "def", .symbol "x", .integer 5],
    .tuple [.symbol "+", .symbol "x", .integer 1]]

/-- An environment without any binding. -/
def env_empty : DstEnv := { table := [], meta := [], nils := [] }

/-- An environment that binds `+` and `global-def` to two host functions. -/
def env_S3 : DstEnv :=
  { table := [.symbol "+", .cfunction 1, .symbol "global-def", .cfunction 2]
    meta := []
    nils := [] }

/-- The form `(fn [] (do (def a 1) (def b 2)) (while (do)))`: a function whose
body ends in a `while` whose condition compiles to the nil slot. -/
def form_while_leak : DstValue :=
  .tuple [.symbol "fn", .array [],
    .tuple [.symbol "do", .tuple [.symbol "def", .symbol "a", .integer 1],
      .tuple [.symbol "def", .symbol "b", .integer 2]],
    .tuple [.symbol "while", .tuple [.symbol "do"]]]

/-- No flag set. -/
def no_flags : FuncDefFlags := { vararg := false, needsParent := false, needsEnv := false }

/-- The array literal `["a" "b" "a"]`, which names the same string twice. -/
def form_repeated_literal : DstValue :=
  .array [.string "a", .string "b", .string "a"]

/-- The FuncDef compiled for `form_repeated_literal`: the string `a` is literal
0 for both of its uses. -/
def funcdef_repeated_literal : DstFuncDef :=
  { byteCode :=
      [.op .CST, .u16 1, .u16 0, .op .CST, .u16 2, .u16 1, .op .CST, .u16 3, .u16 0,
       .op .ARR, .u16 0, .u16 3, .u16 1, .u16 2, .u16 3, .op .RET, .u16 0]
    literals := [.string "a", .string "b"], locals := 4, arity := 0
    flags := no_flags }

/-- The definition the compiler produces for `(if true 1 2)` at top level. -/
def funcdef_S2 : DstFuncDef :=
  { byteCode := [.op .TRU, .u16 0, .op .JIF, .u16 0, .u16 9, .u16 0,
                 .op .I16, .u16 0, .u16 1, .op .RET, .u16 0,
                 .op .I16, .u16 0, .u16 2, .op .RET, .u16 0]
    literals := [], locals := 1, arity := 0, flags := no_flags }

/-- The form `(fn [x] (fn [] (fn [] (fn [] x))))`: the innermost function reads
a variable of the function three levels up. -/
def form_nested : DstValue :=
  .tuple [.symbol "fn", .array [.symbol "x"],
    .tuple [.symbol "fn", .array [],
      .tuple [.symbol "fn", .array [],
        .tuple [.symbol "fn", .array [], .symbol "x"]]]]

/-- The second definition the compiler allocates for `form_nested`: the
function that encloses the innermost one. -/
def funcdef_nested_parent : DstFuncDef :=
  { byteCode := [.op .CLN, .u16 0, .u16 0, .op .RET, .u16 0]
    literals := [.funcdef (.fresh 0)], locals := 1, arity := 0
    flags := { vararg := false, needsParent := true, needsEnv := false } }

/-- The third definition the compiler allocates for `form_nested`. -/
def funcdef_nested_env : DstFuncDef :=
  { byteCode := [.op .CLN, .u16 0, .u16 0, .op .RET, .u16 0]
    literals := [.funcdef (.fresh 1)], locals := 1, arity := 0
    flags := { vararg := false, needsParent := false, needsEnv := true } }

/-- The definitions the compiler allocates for `form_nested`, innermost
first. -/
def funcdefs_nested : List DstFuncDef :=
  [ { byteCode := [.op .UPV, .u16 0, .u16 3, .u16 0, .op .RET, .u16 0]
      literals := [], locals := 1, arity := 0
      flags := { vararg := false, needsParent := true, needsEnv := false } },
    funcdef_nested_parent,
    funcdef_nested_env,
    { byteCode := [.op .CLN, .u16 1, .u16 0, .op .RET, .u16 1]
      literals := [.funcdef (.fresh 2)], locals := 2, arity := 1, flags := no_flags },
    { byteCode := [.op .CLN, .u16 0, .u16 0, .op .RET, .u16 0]
      literals := [.funcdef (.fresh 3)], locals := 2, arity := 0, flags := no_flags } ]

/-- The state in which `dst_compile` starts the compilation of the form: the
root scope is pushed, with its empty literal table and array. -/
def root_state (env : DstEnv) (guard : Nat) : DstCompiler :=
  { vm := { funcdefs := [], tables := [[]], arrays := [[]] }
    scopes := [{ level := 0, nextLocal := 0, frameSize := 0, freeHeap := [],
                 touchParent := false, touchEnv := false,
                 literals := 0, literalsArray := 0, locals := [] }]
    buffer := { data := [], count := 0 }
    env := env
    recursionGuard := guard }

/-- Options that ask for the value in slot 5: `canChoose`, `resultUnused` and
`isTail` are all clear. -/
def opts_target5 : FormOptions :=
  { target := 5, resultUnused := false, canChoose := false, isTail := false }

/-- The form `(while 1)`. -/
def form_while_one : DstValue := .tuple [.symbol "while", .integer 1]

/-- The value and, when there is one, the slot a step returns. -/
def Result.value {α : Type} : Result α → Option α
  | .ok a _ => some a
  | _ => none

/-- The form `(fn [x] (varset! x 1))`: an assignment to a parameter. -/
def form_varset_param : DstValue :=
  .tuple [.symbol "fn", .array [.symbol "x"],
    .tuple [.symbol "varset!", .symbol "x", .integer 1]]

/-- The form `(do (def x 1) (varset! x 2))`: an assignment to a local declared
by `def`. -/
def form_varset_def : DstValue :=
  .tuple [.symbol "do", .tuple [.symbol "def", .symbol "x", .integer 1],
    .tuple [.symbol "varset!", .symbol "x", .integer 2]]

/-- The form `(fn [x] (fn [] (varset! x 1)))`: an assignment to a parameter of
the enclosing function. -/
def form_varset_upvalue : DstValue :=
  .tuple [.symbol "fn", .array [.symbol "x"],
    .tuple [.symbol "fn", .array [],
      .tuple [.symbol "varset!", .symbol "x", .integer 1]]]

/-- The error of an assignment to an immutable binding. -/
def error_immutable : DstValue := .string "cannot varset immutable binding"

/-- A state of the compiler whose only scope binds `x` to slot 0 without the
mutable flag, slot 0 being in use. -/
def state_immutable_x : DstCompiler :=
  { vm := { funcdefs := [], tables := [[]], arrays := [[]] }
    scopes := [{ level := 0, nextLocal := 1, frameSize := 0, freeHeap := [],
                 touchParent := false, touchEnv := false,
                 literals := 0, literalsArray := 0,
                 locals := [.symbol "x", .integer 0] }]
    buffer := { data := [], count := 0 }
    env := env_empty
    recursionGuard := 1000 }

/-- A state of the compiler whose only scope binds `x` to slot 0 with the
mutable flag (`0 + (1 << 16)`), slot 0 being in use. -/
def state_mutable_x : DstCompiler :=
  { vm := { funcdefs := [], tables := [[]], arrays := [[]] }
    scopes := [{ level := 0, nextLocal := 1, frameSize := 0, freeHeap := [],
                 touchParent := false, touchEnv := false,
                 literals := 0, literalsArray := 0,
                 locals := [.symbol "x", .integer 65536] }]
    buffer := { data := [], count := 0 }
    env := env_empty
    recursionGuard := 1000 }

/-- The form `(fn [a &] a)`: the symbol `&` is the last parameter. -/
def form_vararg_last : DstValue :=
  .tuple [.symbol "fn", .array [.symbol "a", .symbol "&"], .symbol "a"]

/-- The form `(fn [a & rest] a)`: the symbol `&` is the penultimate parameter. -/
def form_vararg_penultimate : DstValue :=
  .tuple [.symbol "fn", .array [.symbol "a", .symbol "&", .symbol "rest"], .symbol "a"]

/-- The error of a misplaced `&`. -/
def error_vararg : DstValue := .string "& is reserved for vararg argument in function"

/-- The definition compiled from the body of `(fn [a &] a)`. -/
def funcdef_vararg_last : DstFuncDef :=
  { byteCode := [.op .RET, .u16 0]
    literals := []
    locals := 2
    arity := 1
    flags := { vararg := true, needsParent := false, needsEnv := false } }

/-- The error of `compile_value` when the recursion guard runs out. -/
def error_too_deep : DstValue := .string "recursed too deeply"

/-- The tuple the specification rewrites a root `(def s v)` to:
`(global-def S v)`, where `S` is the String with the bytes of the symbol `s`. -/
def spec_def_form (s : String) (v : DstValue) : DstValue :=
  .tuple [.symbol "global-def", .string s, v]

/-- The tuple the specification rewrites a root `(var s v)` to:
`(global-var S v)`, where `S` is the String with the bytes of the symbol `s`. -/
def spec_var_form (s : String) (v : DstValue) : DstValue :=
  .tuple [.symbol "global-var", .string s, v]

/-- The form `(def x 1)`. -/
def form_def_x : DstValue := .tuple [.symbol "def", .symbol "x", .integer 1]

/-- A literal array with `n` entries: the host functions at the addresses
`0 .. n - 1`. -/
def pool_array : Nat → List DstValue
  | 0 => []
  | n + 1 => pool_array n ++ [.cfunction n]

/-- The literal table of `pool_array n`: each entry mapped to its index. -/
def pool_table : Nat → DstTable
  | 0 => []
  | n + 1 => pool_table n ++ [.cfunction n, .integer (Int.ofNat n)]

/-- A state of the compiler whose root scope has a literal pool of `n`
entries. -/
def state_pool (n : Nat) : DstCompiler :=
  { vm := { funcdefs := [], tables := [pool_table n], arrays := [pool_array n] }
    scopes := [{ level := 0, nextLocal := 0, frameSize := 0, freeHeap := [],
                 touchParent := false, touchEnv := false,
                 literals := 0, literalsArray := 0, locals := [] }]
    buffer := { data := [], count := 0 }
    env := env_empty
    recursionGuard := 1000 }

/-- A state of the compiler whose root scope has a literal pool of 65536
entries. -/
def state_full_pool : DstCompiler := state_pool 65536

/-- The form `(quote (f y))`, where neither `f` nor `y` is bound. -/
def form_quote_unbound : DstValue :=
  .tuple [.symbol "quote", .tuple [.symbol "f", .symbol "y"]]

/-- The form `(+ (do))`: a call whose argument is an empty `do`. -/
def form_call_nil : DstValue := .tuple [.symbol "+", .tuple [.symbol "do"]]

/-- The error of `compiler_tracker_write` on a nil slot. -/
def error_nil_slot : DstValue := .string "trying to write nil slot"

/-- The form `(+ (do 1) 2)`: a call whose first argument is computed inside a
`do`. -/
def form_call_do : DstValue :=
  .tuple [.symbol "+", .tuple [.symbol "do", .integer 1], .integer 2]

/-- The form `(while (do))`: a `while` whose condition compiles to the nil
slot. -/
def form_while_nil : DstValue := .tuple [.symbol "while", .tuple [.symbol "do"]]

/-- The form `(fn [] (while (do)))`. -/
def form_fn_while_nil : DstValue := .tuple [.symbol "fn", .array [], form_while_nil]

/-- The form `(fn [x] (+ (if x 1 2) x))`: the condition of the `if` is the
parameter `x`, which is used again after the `if`. -/
def form_if_local : DstValue :=
  .tuple [.symbol "fn", .array [.symbol "x"],
    .tuple [.symbol "+", .tuple [.symbol "if", .symbol "x", .integer 1, .integer 2],
      .symbol "x"]]

/-- The form `(fn [x] (fn [] (do x)))`: the reference to the parameter of the
enclosing function sits in a `do`. -/
def form_upvalue_in_do : DstValue :=
  .tuple [.symbol "fn", .array [.symbol "x"],
    .tuple [.symbol "fn", .array [], .tuple [.symbol "do", .symbol "x"]]]

/-- The form `(fn [] +)`: a function whose body is a reference to a global. -/
def form_fn_global : DstValue := .tuple [.symbol "fn", .array [], .symbol "+"]

/-- An environment with a mutable global `v`, held in a one-element array that
its metadata marks mutable, and the host functions `get`, `set!` and `+`. -/
def env_var : DstEnv :=
  { table := [.symbol "v", .array [.integer 5], .symbol "get", .cfunction 3,
      .symbol "set!", .cfunction 4, .symbol "+", .cfunction 1]
    meta := [.symbol "v", .table [.string "mutable", .boolean true]]
    nils := [] }

/-- The form `(fn [] v)`: a function whose body reads the global `v`. -/
def form_fn_var : DstValue := .tuple [.symbol "fn", .array [], .symbol "v"]

/-- The form `(while)`: a `while` tuple without operands. -/
def form_while_empty : DstValue := .tuple [.symbol "while"]

/-- The form `(fn)`: a `fn` tuple without operands. -/
def form_fn_empty : DstValue := .tuple [.symbol "fn"]

/-- The integer `1` inside `k` nested `do` forms: `1`, `(do 1)`, `(do (do 1))`,
and so on; compiling it takes `k + 1` nested calls of `compile_value`. -/
def nested_do : Nat → DstValue
  | 0 => .integer 1
  | k + 1 => .tuple [.symbol "do", nested_do k]

/-! ## Specification predicates -/

/-- The weakest precondition of a step for a postcondition on its result and
final state: a step that aborts satisfies every postcondition. -/
def wp {α : Type} (m : Comp α) (Q : α → DstCompiler → Prop) (c : DstCompiler) : Prop :=
  match m c with
  | .ok a c1 => Q a c1
  | .error _ => True
  | .undefined => True

/-- A step preserves a property of the state. -/
def Pres {α : Type} (I : DstCompiler → Prop) (m : Comp α) : Prop :=
  ∀ c, I c → wp m (fun _ c1 => I c1) c

/-- A literal table and a literal array agree: the array has no two equal
entries, and its entries are the keys of the table. -/
def PoolOK (t : DstTable) (a : List DstValue) : Prop :=
  a.Nodup ∧ ∀ x, x ∈ a ↔ dst_table_get t x ≠ .nil

/-- The invariant of the literal pools: the table and the array of every pool
agree, every scope points to the table and the array of one pool, and the
literals of every function definition allocated so far are pairwise
different. -/
def PoolInv (c : DstCompiler) : Prop :=
  c.vm.tables.length = c.vm.arrays.length ∧
  (∀ s ∈ c.scopes, s.literals = s.literalsArray) ∧
  (∀ i, PoolOK (c.vm.tables.getD i []) (c.vm.arrays.getD i [])) ∧
  (∀ d ∈ c.vm.funcdefs, d.literals.Nodup)

/-! ## The instruction stream of a function definition -/

/-- The word is an opcode, the first word of an instruction. -/
def Word.isOp : Word → Bool
  | .op _ => true
  | .u16 _ => false

/-- The signed 32-bit value of two operand words, low word first. -/
def decode_i32 (lo hi : Nat) : Int :=
  if lo + 65536 * hi < 2147483648 then Int.ofNat (lo + 65536 * hi)
  else Int.ofNat (lo + 65536 * hi) - 4294967296

/-- The offset operand of the jump instruction that starts at word `p`, if
there is one: `JIF cond off32` or `JMP off32` (§6). -/
def jump_offset (code : List Word) (p : Nat) : Option Int :=
  match code[p]?, code[p + 1]?, code[p + 2]?, code[p + 3]? with
  | some (.op .JIF), some (.u16 _), some (.u16 lo), some (.u16 hi) => some (decode_i32 lo hi)
  | some (.op .JMP), some (.u16 lo), some (.u16 hi), _ => some (decode_i32 lo hi)
  | _, _, _, _ => none

/-- Jump validity: every `JIF` and `JMP` of the code has its operands, and its
offset, added to the position of the jump, is the position of an opcode of the
code. -/
def JumpsValid (code : List Word) : Prop :=
  ∀ p, (code[p]? = some (.op .JIF) ∨ code[p]? = some (.op .JMP)) →
    ∃ off t o, jump_offset code p = some off ∧ (p : Int) + off = (t : Nat) ∧
      t < code.length ∧ code[t]? = some (.op o)

/-- The position of the instruction that follows the one at `p`: the next
opcode, or the length of the code when no opcode follows. -/
def next_instr (code : List Word) (p : Nat) : Nat :=
  p + 1 + ((code.drop (p + 1)).takeWhile (fun w => !w.isOp)).length

/-- One step of control: an instruction other than `RET`, `RTN`, `TCL` and
`JMP` can pass control to the instruction that follows it, and a jump can pass
control to its target. -/
inductive Step (code : List Word) : Nat → Nat → Prop where
  | fall {p : Nat} {o : DstOp} : code[p]? = some (.op o) →
      o ≠ .RET → o ≠ .RTN → o ≠ .TCL → o ≠ .JMP → Step code p (next_instr code p)
  | jump {p : Nat} {off : Int} : jump_offset code p = some off →
      Step code p ((p : Int) + off).toNat

/-- The positions control can reach from the position `s`. -/
inductive ReachFrom (code : List Word) (s : Nat) : Nat → Prop where
  | start : ReachFrom code s s
  | step {p q : Nat} : ReachFrom code s p → Step code p q → ReachFrom code s q

/-- Tail-return closure: every position control can reach from the start of
the code holds an opcode of the code (so control never runs past the end), a
jump there has its operands and a target that is not negative, and an
instruction there other than `RET`, `RTN` and `TCL` has a successor. -/
def Safe (code : List Word) : Prop :=
  ∀ q, ReachFrom code 0 q →
    ∃ o, code[q]? = some (.op o) ∧
      (∀ off, jump_offset code q = some off → 0 ≤ (q : Int) + off) ∧
      (o = .RET ∨ o = .RTN ∨ o = .TCL ∨ ∃ q1, Step code q q1)

/-- The code is empty or starts with an opcode. -/
def HeadOp (w : List Word) : Prop := ∀ x, w.head? = some x → x.isOp = true

/-- The position is the position of an opcode of the fragment, or its end. -/
def OpOrEnd (w : List Word) (q : Nat) : Prop :=
  q ≤ w.length ∧ (q < w.length → ∃ o, w[q]? = some (.op o))

/-- A jump at the position `p` of the fragment has its operands, and its
target is the position of an opcode of the fragment, or its end. -/
def JumpAt (w : List Word) (p : Nat) : Prop :=
  (w[p]? = some (.op .JIF) ∨ w[p]? = some (.op .JMP)) →
    ∃ off t, jump_offset w p = some off ∧ (p : Int) + off = (t : Nat) ∧ OpOrEnd w t

/-- The jumps of a fragment stay in the fragment. -/
def JumpsIn (w : List Word) : Prop := ∀ p, JumpAt w p

/-- No jump of the fragment has the end of the fragment as its target. -/
def Strict (w : List Word) : Prop :=
  ∀ p off, jump_offset w p = some off → (p : Int) + off ≠ (w.length : Nat)

/-- Control that enters the fragment at its start cannot reach its end. -/
def NoExit (w : List Word) : Prop := ¬ ReachFrom w 0 w.length

/-- The bound under which a distance in bytes fits the `int32_t` the source
converts it to: `2^30` words. -/
def code_limit : Nat := 1073741824

/-- A fragment of code as the compiler emits it for a form: whole
instructions, whose jumps stay in the fragment. -/
def GoodFrag (w : List Word) : Prop :=
  HeadOp w ∧ (w.length < code_limit → JumpsIn w)

/-- A fragment that returns on every path: it is not empty, no jump leaves it
through its end, and control cannot reach its end. -/
def ClosedFrag (w : List Word) : Prop :=
  w ≠ [] ∧ (w.length < code_limit → Strict w ∧ NoExit w)

/-- What the code of a function definition has to satisfy. -/
def GoodCode (code : List Word) : Prop :=
  code.length < code_limit → JumpsValid code ∧ Safe code

/-- The words of the buffer below `count`. -/
def DstBuffer.active (b : DstBuffer) : List Word := b.data.take (b.count / 2)

/-- The buffer is consistent: `count` is an even number of bytes within the
memory of the buffer. -/
def BufOK (c : DstCompiler) : Prop :=
  c.buffer.count % 2 = 0 ∧ c.buffer.count / 2 ≤ c.buffer.data.length

/-- Every function definition allocated so far has good code. -/
def GoodDefs (c : DstCompiler) : Prop :=
  ∀ d ∈ c.vm.funcdefs, GoodCode d.byteCode

/-- A step appends a fragment with the property `P` to the buffer, and keeps
the buffer consistent and the definitions good. -/
def Spec {α : Type} (m : Comp α) (P : α → List Word → Prop) : Prop :=
  ∀ c, BufOK c → GoodDefs c →
    wp m (fun a c1 => BufOK c1 ∧ GoodDefs c1 ∧
      ∃ w, c1.buffer.active = c.buffer.active ++ w ∧ P a w) c

/-- The fragment emitted for a form compiled with the options `opts` into the
slot `slot`. -/
def FormFrag (opts : FormOptions) (slot : Slot) (w : List Word) : Prop :=
  GoodFrag w ∧ (opts.isTail = false → slot.hasReturned = false) ∧
    (slot.hasReturned = true → ClosedFrag w)

/-- Operand words only. -/
def Ops (w : List Word) : Prop := ∀ x ∈ w, x.isOp = false

/-- Operand words followed by a fragment with the property `P`: what remains
to be emitted after the opcode of an instruction. -/
def OpTail {α : Type} (P : α → List Word → Prop) (a : α) (w : List Word) : Prop :=
  ∃ t r, w = t ++ r ∧ Ops t ∧ P a r

/-- The property of a fragment is kept when whole instructions are emitted
before it. -/
def PrefixClosed {α : Type} (P : α → List Word → Prop) : Prop :=
  ∀ a w r, GoodFrag w → P a r → P a (w ++ r)

/-- The buffer and the function definitions are the given ones. -/
def Fr (b : DstBuffer) (fd : List DstFuncDef) (c : DstCompiler) : Prop :=
  c.buffer = b ∧ c.vm.funcdefs = fd

/-- The buffer with the words `ws` written over the words from position `i`
on, `count` unchanged. -/
def DstBuffer.patch (b : DstBuffer) (i : Nat) (ws : List Word) : DstBuffer :=
  { data := b.data.take i ++ ws ++ b.data.drop (i + ws.length), count := b.count }

/-- Whole instructions without a jump among them. -/
def Plain (w : List Word) : Prop :=
  HeadOp w ∧ ∀ p : Nat, ¬ (w[p]? = some (Word.op .JIF) ∨ w[p]? = some (Word.op .JMP))

/-! ## Flags and upvalue instructions -/

/-- An `UPV` instruction whose level operand is at least one appears in the
code (`UPV dest level index`). -/
def HasUPV (code : List Word) : Prop :=
  ∃ p l : Nat, code[p]? = some (Word.op .UPV) ∧ code[p + 2]? = some (Word.u16 l) ∧ 1 ≤ l

/-- One of `touchParent` and `touchEnv` is set on the scope. -/
def DstScope.flagged (s : DstScope) : Bool := s.touchParent || s.touchEnv

/-- One of NEEDS_PARENT and NEEDS_ENV is set on the definition. -/
def DstFuncDef.flagged (d : DstFuncDef) : Bool := d.flags.needsParent || d.flags.needsEnv

/-- The definition at the address `k`, or a definition nested in it (one of
the function definitions among its literals, and so on), has an `UPV`
instruction of level at least one in its code. -/
inductive WithinUPV (defs : List DstFuncDef) : Nat → Prop where
  | own {k : Nat} {d : DstFuncDef} : defs[k]? = some d → HasUPV d.byteCode → WithinUPV defs k
  | nested {k j : Nat} {d : DstFuncDef} : defs[k]? = some d →
      DstValue.funcdef (.fresh j) ∈ d.literals → WithinUPV defs j → WithinUPV defs k

/-- The definition, or a definition nested in it, has an `UPV` instruction of
level at least one in its code. -/
def NestedUPV (defs : List DstFuncDef) (d : DstFuncDef) : Prop :=
  HasUPV d.byteCode ∨ ∃ j, DstValue.funcdef (.fresh j) ∈ d.literals ∧ WithinUPV defs j

/-- Every definition with a flag set has an `UPV` instruction in its code or
in the code of a definition nested in it. -/
def FlagsGood (defs : List DstFuncDef) : Prop :=
  ∀ d ∈ defs, d.flagged = true → NestedUPV defs d

/-- The literal arrays only grow, in number and in content. -/
def ArrMono (vm vm1 : Heap) : Prop :=
  vm.arrays.length ≤ vm1.arrays.length ∧
  ∀ (p : Nat) (x : DstValue), x ∈ vm.arrays.getD p [] → x ∈ vm1.arrays.getD p []

/-- Every scope points to a literal array that is allocated. -/
def ValidPools (c : DstCompiler) : Prop :=
  ∀ s ∈ c.scopes, s.literalsArray < c.vm.arrays.length

/-- The literal pool of the innermost scope holds a definition that has an
`UPV` instruction in its code or in the code of a definition nested in it. -/
def PoolEv (sc : List DstScope) (vm : Heap) : Prop :=
  ∃ (t : DstScope) (j : Nat), sc[sc.length - 1]? = some t ∧
    DstValue.funcdef (.fresh j) ∈ vm.arrays.getD t.literalsArray [] ∧ WithinUPV vm.funcdefs j

/-- What a step does to the scopes and to the heap when it sets no flag: the
chain of scopes keeps its length, every scope keeps its flags and its literal
array, the literal arrays only grow, and no definition is allocated. -/
def SameRel (c0 c : DstCompiler) : Prop :=
  c.scopes.length = c0.scopes.length ∧
  (∀ (i : Nat) (s0 s : DstScope), c0.scopes[i]? = some s0 → c.scopes[i]? = some s →
    s.touchParent = s0.touchParent ∧ s.touchEnv = s0.touchEnv ∧
      s.literalsArray = s0.literalsArray) ∧
  c.vm.funcdefs = c0.vm.funcdefs ∧ ArrMono c0.vm c.vm

/-- What the compilation of a form does to the scopes and to the heap, `W`
being code that contains the words it emits.  Scopes are pushed and popped in
pairs, unless a scope is left behind; definitions are only added and the
literal arrays only grow.  When no scope is left behind, every scope keeps its
literal array, the definitions stay good, and a scope on which a flag is set
had it set before, or an `UPV` instruction is in `W`, or the literal pool of
the innermost scope holds a definition with one. -/
def Flow (sc : List DstScope) (vm : Heap) (sc1 : List DstScope) (vm1 : Heap)
    (W : List Word) : Prop :=
  sc.length ≤ sc1.length ∧ (∃ more, vm1.funcdefs = vm.funcdefs ++ more) ∧ ArrMono vm vm1 ∧
  (sc1.length = sc.length →
    (∀ (i : Nat) (s s1 : DstScope), sc[i]? = some s → sc1[i]? = some s1 →
      s1.literalsArray = s.literalsArray) ∧
    (FlagsGood vm.funcdefs →
      FlagsGood vm1.funcdefs ∧
      ∀ (i : Nat) (s s1 : DstScope), sc[i]? = some s → sc1[i]? = some s1 →
        s1.flagged = true → s.flagged = true ∨ HasUPV W ∨ PoolEv sc1 vm1))

/-- The relation `Flow` for every code that contains the words emitted. -/
def FlowP (c c1 : DstCompiler) (w : List Word) : Prop :=
  ∀ W, w <:+: W → Flow c.scopes c.vm c1.scopes c1.vm W

/-- The invariants the compiler keeps: a consistent buffer, good code in every
definition, and consistent literal pools, allocated for every scope. -/
def Inv (c : DstCompiler) : Prop := BufOK c ∧ GoodDefs c ∧ PoolInv c ∧ ValidPools c

/-- A step keeps the invariants and appends words to the buffer, the states
before and after being related by `P`. -/
def Spec2 {α : Type} (m : Comp α) (P : DstCompiler → DstCompiler → List Word → Prop) : Prop :=
  ∀ c, Inv c →
    wp m (fun _ c1 => Inv c1 ∧ ∃ w, c1.buffer.active = c.buffer.active ++ w ∧ P c c1 w) c

/-- What the marking of the scopes for an upvalue does to the scopes and to
the heap: as `SameRel`, but for the flags. -/
def TouchRel (c0 c : DstCompiler) : Prop :=
  c.scopes.length = c0.scopes.length ∧
  (∀ (i : Nat) (s0 s : DstScope), c0.scopes[i]? = some s0 → c.scopes[i]? = some s →
    s.literalsArray = s0.literalsArray) ∧
  c.vm.funcdefs = c0.vm.funcdefs ∧ ArrMono c0.vm c.vm

/-- The branch of `compile_symbol` for a symbol that resolved to a local of an
enclosing function (`r.level > 0`): marks the scopes and emits `UPV`. -/
def upvalue_code (opts : FormOptions) (r : Resolution) : Comp Slot := do
  let tail ← compiler_tail
  let scope ← compile_symbol_touch r.level tail
  let s ← scope_read scope
  scope_write scope { s with touchEnv := true }
  let ret ← compiler_get_target opts
  dst_buffer_push_op .UPV
  dst_buffer_push_u16 ret.index
  dst_buffer_push_u16 r.level
  dst_buffer_push_u16 r.index
  pure ret

/-- A step that raises no compile error: it returns, or reads outside an
object. -/
def NoErr {α : Type} (m : Comp α) : Prop := ∀ c e, m c ≠ .error e

/-! ## The recursion guard -/

/-- The state with one more level of recursion allowed. -/
def guard_up (c : DstCompiler) : DstCompiler :=
  { c with recursionGuard := c.recursionGuard + 1 }

/-- The result with one more level of recursion allowed in its final state. -/
def Result.guard_up {α : Type} : Result α → Result α
  | .ok a c => .ok a (Dst.guard_up c)
  | .error e => .error e
  | .undefined => .undefined

/-- A step does not look at the recursion guard. -/
def GuardFree {α : Type} (m : Comp α) : Prop :=
  ∀ c, m (guard_up c) = Result.guard_up (m c)

/-- A run of `m'` with one more level of recursion allowed does what the run of
`m` does, unless the run of `m` hits the recursion guard. -/
def GuardRel {α : Type} (m m' : Comp α) : Prop :=
  ∀ c, m c ≠ .error error_too_deep → m' (guard_up c) = Result.guard_up (m c)

/-! ## The indices of the literal pools -/

/-- A literal table and a literal array agree on the indices: as long as the
array has at most 65536 entries, the table maps every key it holds to the
index of that key in the array. -/
def PoolIdx (t : DstTable) (a : List DstValue) : Prop :=
  a.length ≤ 65536 → ∀ y, dst_table_get t y ≠ .nil →
    ∃ j : Nat, dst_table_get t y = .integer (Int.ofNat j) ∧ a[j]? = some y

/-- The invariant of the indices of the literal pools: there are as many
tables as arrays, every scope points to the table and the array of one pool,
which is allocated, and the table and the array of every pool agree on the
indices. -/
def IdxInv (c : DstCompiler) : Prop :=
  c.vm.tables.length = c.vm.arrays.length ∧
  (∀ s ∈ c.scopes, s.literals = s.literalsArray ∧ s.literalsArray < c.vm.arrays.length) ∧
  (∀ i, PoolIdx (c.vm.tables.getD i []) (c.vm.arrays.getD i []))

/-! ## Special forms -/

/-- The special form compiler the specification names for a symbol: the name
is one of `if`, `while`, `do`, `fn`, `def`, `var`, `varset!`, `quote`, `apply`,
`tran`. -/
def spec_special (s : String) : Option SpecialFormHelper :=
  if s = "if" then some .compile_if
  else if s = "while" then some .compile_while
  else if s = "do" then some .compile_do
  else if s = "fn" then some .compile_function
  else if s = "def" then some .compile_def
  else if s = "var" then some .compile_var
  else if s = "varset!" then some .compile_varset
  else if s = "quote" then some .compile_quote
  else if s = "apply" then some .compile_apply
  else if s = "tran" then some .compile_tran
  else none

/-- The dispatch of the specification: a tuple has a special form compiler iff
it is not empty and its head is a symbol with one of the ten names. -/
def spec_get_special (form : List DstValue) : Option SpecialFormHelper :=
  match form with
  | .symbol s :: _ => spec_special s
  | _ => none

/-- The call `helper(c, opts, form)` of the special form compiler that
`get_special` handed back. -/
def special_form (helper : SpecialFormHelper) (cv : FormOptions → DstValue → Comp Slot)
    (opts : FormOptions) (form : List DstValue) : Comp Slot :=
  match helper with
  | .compile_apply => compile_apply cv opts form
  | .compile_do => compile_do cv opts form
  | .compile_def => compile_def cv opts form
  | .compile_if => compile_if cv opts form
  | .compile_function => compile_function cv opts form
  | .compile_quote => compile_quote opts form
  | .compile_tran => compile_tran cv opts form
  | .compile_var => compile_var cv opts form
  | .compile_varset => compile_varset cv opts form
  | .compile_while => compile_while cv opts form

/-- The branch of `compile_form` for a tuple that `get_special` gives no
compiler for: the general call. -/
def general_call (cv : FormOptions → DstValue → Comp Slot) (opts : FormOptions)
    (form : List DstValue) (scope : Nat) : Comp Slot := do
  let subOpts := form_options_default
  let f0 ← form_at form 0
  let callee0 ← cv subOpts f0
  let callee ← compiler_realize_slot callee0
  let tracker ← compile_args cv subOpts (form.drop 1) tracker_init
  compiler_drop_slot scope callee
  compiler_tracker_free scope tracker
  dst_buffer_push_op .PSK
  dst_buffer_push_u16 (form.length - 1)
  compiler_tracker_write tracker false
  if opts.isTail then do
    dst_buffer_push_op .TCL
    dst_buffer_push_u16 callee.index
    pure { index := 0, isNil := true, isTemp := false, hasReturned := true }
  else do
    let ret ← compiler_get_target opts
    dst_buffer_push_op .CAL
    dst_buffer_push_u16 callee.index
    dst_buffer_push_u16 ret.index
    pure ret

/-- The four words of the instruction `JIF cond off32`. -/
def jif_words (index : Nat) (off : Int) : List Word :=
  [.op .JIF, .u16 (index % 65536), int_word off 0, int_word off 1]

/-- The three words of the instruction `JMP off32`. -/
def jmp_words (off : Int) : List Word :=
  [.op .JMP, int_word off 0, int_word off 1]

/-- What a run of `compile_if` on the four-element form `(if f1 f2 f3)`, not in
tail position, from the state `c` to the slot `r` and the state `c1`, consists
of.  The condition is compiled first, in `c`, and emits `wc`.  When its slot is
not nil: four words `p4` are reserved; the first branch is compiled right after
them and emits `wt`; three words `p3` are reserved; the second branch is
compiled in a state whose code has the `JIF` written over `p4`, every other
word as it was, and emits `we`; the final code has the `JMP` written over `p3`,
every other word as it was; the slot returned is the one of the condition. -/
def IfLayout (cv : FormOptions → DstValue → Comp Slot) (opts : FormOptions)
    (f1 f2 f3 : DstValue) (c : DstCompiler) (r : Slot) (c1 : DstCompiler) : Prop :=
  ∃ cond cc wc,
    cv { opts with isTail := false, resultUnused := false } f1 c = .ok cond cc ∧
    cc.buffer.active = c.buffer.active ++ wc ∧
    (cond.isNil = false →
      ∃ p4 left ct wt ce p3 right cr we,
        (cc.buffer.skip 8).active = c.buffer.active ++ wc ++ p4 ∧ p4.length = 4 ∧
        cv { opts with canChoose := false, target := cond.index } f2
          { cc with buffer := cc.buffer.skip 8 } = .ok left ct ∧
        ct.buffer.active = c.buffer.active ++ wc ++ p4 ++ wt ∧
        (ct.buffer.skip 6).active = c.buffer.active ++ wc ++ p4 ++ wt ++ p3 ∧ p3.length = 3 ∧
        ce.buffer.active = c.buffer.active ++ wc ++
          jif_words cond.index (Int.ofNat (4 + wt.length + 3)) ++ wt ++ p3 ∧
        cv { opts with canChoose := false, target := cond.index } f3 ce = .ok right cr ∧
        cr.buffer.active = ce.buffer.active ++ we ∧
        c1.buffer.active = c.buffer.active ++ wc ++
          jif_words cond.index (Int.ofNat (4 + wt.length + 3)) ++ wt ++
          jmp_words (Int.ofNat (3 + we.length)) ++ we ∧
        r = cond)

/-- What a run of `compile_while` on the form `(while f1 body...)`, from the
state `c` to the slot `r` and the state `c1`, consists of.  A scope is pushed
and the condition is compiled, emitting `wc`.  When its slot is not nil: four
words `p4` are reserved; the body, the expressions of the form from index 2 on,
is compiled as a block with `resultUnused` right after them and emits `wb`; the
`JMP` is emitted, its offset the distance in bytes back to where `c` ended,
converted to `int32_t` and divided by `-2`; the `JIF` is written over `p4`, its
offset the distance in bytes from `p4` to the end of the code, converted to
`int32_t` and divided by `2`; the slot returned is the nil slot when
`resultUnused` is set and the slot of the condition otherwise. -/
def WhileLayout (cv : FormOptions → DstValue → Comp Slot) (opts : FormOptions)
    (form : List DstValue) (f1 : DstValue) (c : DstCompiler) (r : Slot) (c1 : DstCompiler) :
    Prop :=
  ∃ scope cs cond cc wc,
    compiler_push_scope true c = .ok scope cs ∧
    cv form_options_default f1 cs = .ok cond cc ∧
    cc.buffer.active = c.buffer.active ++ wc ∧
    (cond.isNil = false →
      ∃ p4 body cb wb,
        (cc.buffer.skip 8).active = c.buffer.active ++ wc ++ p4 ∧ p4.length = 4 ∧
        compile_block cv { form_options_default with resultUnused := true } form 2
          { cc with buffer := cc.buffer.skip 8 } = .ok body cb ∧
        cb.buffer.active = c.buffer.active ++ wc ++ p4 ++ wb ∧
        c1.buffer.active = c.buffer.active ++ wc ++
          jif_words cond.index (Int.tdiv (to_int32 (2 * (4 + wb.length + 3))) 2) ++ wb ++
          jmp_words (Int.tdiv (to_int32 (2 * (wc.length + 4 + wb.length))) (-2)) ∧
        r = if opts.resultUnused then nil_slot else cond)

/-- The recursion guard of the compiler has the value `g`. -/
def GuardIs (g : Nat) (c : DstCompiler) : Prop := c.recursionGuard = g

/-- The signed 16-bit value of an operand word. -/
def decode_i16 (w : Nat) : Int :=
  if w < 32768 then Int.ofNat w else Int.ofNat w - 65536

/-- The signed 64-bit value of four operand words, low word first. -/
def decode_i64 (w0 w1 w2 w3 : Nat) : Int :=
  if w0 + 65536 * w1 + 4294967296 * w2 + 281474976710656 * w3 < 9223372036854775808 then
    Int.ofNat (w0 + 65536 * w1 + 4294967296 * w2 + 281474976710656 * w3)
  else Int.ofNat (w0 + 65536 * w1 + 4294967296 * w2 + 281474976710656 * w3) -
    18446744073709551616

/-! ## Unfolding `compile_value` on a state that is known -/

theorem compile_value_succ (n : Nat) (opts : FormOptions) (x : DstValue)
    (vm : Heap) (scopes : List DstScope) (buffer : DstBuffer) (env : DstEnv) (rg : Nat) :
    compile_value (n + 1) opts x ⟨vm, scopes, buffer, env, rg⟩ =
      compile_value_body (compile_value n) opts x ⟨vm, scopes, buffer, env, rg⟩ := rfl

/-! ## Evaluation by definitional unfolding

The dispatch of `get_special` on the names of the special forms, and two facts
about lists, as equations that hold by computation. -/

theorem drop_succ_nil {α : Type} (n : Nat) : List.drop (n + 1) ([] : List α) = [] := rfl

theorem take_succ_nil {α : Type} (n : Nat) : List.take (n + 1) ([] : List α) = [] := rfl

theorem get_special_apply (xs : List DstValue) :
    get_special (.symbol "apply" :: xs) = some .compile_apply := rfl

theorem get_special_do (xs : List DstValue) :
    get_special (.symbol "do" :: xs) = some .compile_do := rfl

theorem get_special_def (xs : List DstValue) :
    get_special (.symbol "def" :: xs) = some .compile_def := rfl

theorem get_special_if (xs : List DstValue) :
    get_special (.symbol "if" :: xs) = some .compile_if := rfl

theorem get_special_fn (xs : List DstValue) :
    get_special (.symbol "fn" :: xs) = some .compile_function := rfl

theorem get_special_quote (xs : List DstValue) :
    get_special (.symbol "quote" :: xs) = some .compile_quote := rfl

theorem get_special_tran (xs : List DstValue) :
    get_special (.symbol "tran" :: xs) = some .compile_tran := rfl

theorem get_special_var (xs : List DstValue) :
    get_special (.symbol "var" :: xs) = some .compile_var := rfl

theorem get_special_varset (xs : List DstValue) :
    get_special (.symbol "varset!" :: xs) = some .compile_varset := rfl

theorem get_special_while (xs : List DstValue) :
    get_special (.symbol "while" :: xs) = some .compile_while := rfl

theorem get_special_plus (xs : List DstValue) :
    get_special (.symbol "+" :: xs) = none := rfl

theorem get_special_global_def (xs : List DstValue) :
    get_special (.symbol "global-def" :: xs) = none := rfl

theorem get_special_global_var (xs : List DstValue) :
    get_special (.symbol "global-var" :: xs) = none := rfl

/-! ## The scenarios -/

/-- C1 (scenario S1): for every environment, and every recursion guard that
allows one level of nesting, compiling the integer literal 42 at top level
succeeds and yields a FuncDef whose words are `I16, 0, 42, RET, 0`, with one
local, arity 0, no flag and no literal. -/
theorem S1_integer_literal (env : DstEnv) (guard : Nat) (hg : 2 ≤ guard) :
    compiled (dst_compile env (.integer 42) guard) =
      some { byteCode := [.op .I16, .u16 0, .u16 42, .op .RET, .u16 0]
             literals := [], locals := 1, arity := 0, flags := no_flags } := by
  obtain ⟨g, rfl⟩ : ∃ g, guard = g + 2 := ⟨guard - 2, by omega⟩
  (dsimp [no_flags, drop_succ_nil, take_succ_nil, get_special_apply, get_special_do, get_special_def,
    get_special_if, get_special_fn, get_special_quote, get_special_tran, get_special_var,
    get_special_varset, get_special_while, get_special_plus, get_special_global_def,
    get_special_global_var, Result.funcdefs, compiled, dst_compile, compile_value_succ, compile_value_body,
    compile_nonref_type, compile_literal, compiler_push_scope, bind, pure, Comp.bind, getc, setc,
    form_options_default, compiler_get_target, compiler_get_temp, compiler_tail,
    compiler_get_local, compiler_free_local, compiler_drop_slot, scope_read, scope_write,
    dst_buffer_push_op, dst_buffer_push_u16, dst_buffer_push_i16, dst_buffer_push_i32, int_word,
    DstBuffer.put, DstBuffer.skip, buffer_skip, compiler_return, buffer_count,
    compiler_gen_funcdef, buffer_set_count, compiler_pop_scope, c_error, c_error1,
    DstValue.isNil, compile_form, compile_function, form_at,
    compile_function_params, compiler_declare_symbol, equal_cstr, DstValue.asString,
    DstValue.isSymbol, dst_table_put, compile_block, compile_block_loop, compile_symbol,
    symbol_resolve, symbol_resolve_scopes, dst_table_get, dst_equals, DstValue.asInteger,
    compiler_add_literal, nil_slot, compile_symbol_touch, scope_parent, compile_if, compile_do,
    compile_def, compile_while, compile_args, compiler_realize_slot, compiler_coerce_slot,
    compiler_tracker_free, compiler_tracker_free_loop, compiler_tracker_write,
    compiler_tracker_write_loop, compiler_tracker_push, tracker_init, dst_string_cvs,
    dst_string_cv, undefined_read, recursion_guard_enter, recursion_guard_leave] <;> simp [no_flags, Result.funcdefs, compiled, dst_compile, compile_value_succ, compile_value_body,
    compile_nonref_type, compile_literal, compiler_push_scope, bind, pure, Comp.bind, getc, setc,
    form_options_default, compiler_get_target, compiler_get_temp, compiler_tail,
    compiler_get_local, compiler_free_local, compiler_drop_slot, scope_read, scope_write,
    dst_buffer_push_op, dst_buffer_push_u16, dst_buffer_push_i16, dst_buffer_push_i32, int_word,
    DstBuffer.put, DstBuffer.skip, buffer_skip, compiler_return, buffer_count,
    compiler_gen_funcdef, buffer_set_count, compiler_pop_scope, c_error, c_error1,
    DstValue.isNil, compile_form, get_special, name_at, compile_function, form_at,
    compile_function_params, compiler_declare_symbol, equal_cstr, DstValue.asString,
    DstValue.isSymbol, dst_table_put, compile_block, compile_block_loop, compile_symbol,
    symbol_resolve, symbol_resolve_scopes, dst_table_get, dst_equals, DstValue.asInteger,
    compiler_add_literal, nil_slot, compile_symbol_touch, scope_parent, compile_if, compile_do,
    compile_def, compile_while, compile_args, compiler_realize_slot, compiler_coerce_slot,
    compiler_tracker_free, compiler_tracker_free_loop, compiler_tracker_write,
    compiler_tracker_write_loop, compiler_tracker_push, tracker_init, dst_string_cvs,
    dst_string_cv, undefined_read, recursion_guard_enter, recursion_guard_leave])

theorem S1_integer_literal_witness :
    2 ≤ 1000 ∧ compiled (dst_compile env_empty (.integer 42) 1000) =
      some { byteCode := [.op .I16, .u16 0, .u16 42, .op .RET, .u16 0]
             literals := [], locals := 1, arity := 0, flags := no_flags } :=
  ⟨by decide, S1_integer_literal env_empty 1000 (by decide)⟩

set_option maxHeartbeats 4000000 in
/-- C2 (scenario S4): compiling `(fn [x] x)` at top level allocates two
FuncDefs.  The first is the inner one, with words `RET, 0`, arity 1, one local
and no flag; the second is the one returned, with words `CLN, 0, 0, RET, 0`
(the words of the inner body are not among them) and the inner FuncDef as its
literal 0. -/
theorem S4_function_literal (env : DstEnv) (guard : Nat) (hg : 3 ≤ guard) :
    Result.funcdefs (dst_compile env form_S4 guard) =
      [ { byteCode := [.op .RET, .u16 0]
          literals := [], locals := 1, arity := 1, flags := no_flags },
        { byteCode := [.op .CLN, .u16 0, .u16 0, .op .RET, .u16 0]
          literals := [.funcdef (.fresh 0)], locals := 1, arity := 0, flags := no_flags } ] ∧
    (compiled (dst_compile env form_S4 guard)).map (fun d => d.byteCode) =
      some [.op .CLN, .u16 0, .u16 0, .op .RET, .u16 0] := by
  obtain ⟨g, rfl⟩ : ∃ g, guard = g + 3 := ⟨guard - 3, by omega⟩
  simp [no_flags, form_S4, Result.funcdefs, compiled, dst_compile, compile_value_succ, compile_value_body,
    compile_nonref_type, compile_literal, compiler_push_scope, bind, pure, Comp.bind, getc, setc,
    form_options_default, compiler_get_target, compiler_get_temp, compiler_tail,
    compiler_get_local, compiler_free_local, compiler_drop_slot, scope_read, scope_write,
    dst_buffer_push_op, dst_buffer_push_u16, dst_buffer_push_i16, dst_buffer_push_i32, int_word,
    DstBuffer.put, DstBuffer.skip, buffer_skip, compiler_return, buffer_count,
    compiler_gen_funcdef, buffer_set_count, compiler_pop_scope, c_error, c_error1,
    DstValue.isNil, compile_form, get_special, name_at, compile_function, form_at,
    compile_function_params, compiler_declare_symbol, equal_cstr, DstValue.asString,
    DstValue.isSymbol, dst_table_put, compile_block, compile_block_loop, compile_symbol,
    symbol_resolve, symbol_resolve_scopes, dst_table_get, dst_equals, DstValue.asInteger,
    compiler_add_literal, nil_slot, compile_symbol_touch, scope_parent, compile_if, compile_do,
    compile_def, compile_while, compile_args, compiler_realize_slot, compiler_coerce_slot,
    compiler_tracker_free, compiler_tracker_free_loop, compiler_tracker_write,
    compiler_tracker_write_loop, compiler_tracker_push, tracker_init, dst_string_cvs,
    dst_string_cv, undefined_read, recursion_guard_enter, recursion_guard_leave]

theorem S4_function_literal_witness :
    3 ≤ 1000 ∧
    Result.funcdefs (dst_compile env_empty form_S4 1000) =
      [ { byteCode := [.op .RET, .u16 0]
          literals := [], locals := 1, arity := 1, flags := no_flags },
        { byteCode := [.op .CLN, .u16 0, .u16 0, .op .RET, .u16 0]
          literals := [.funcdef (.fresh 0)], locals := 1, arity := 0, flags := no_flags } ] ∧
    (compiled (dst_compile env_empty form_S4 1000)).map (fun d => d.byteCode) =
      some [.op .CLN, .u16 0, .u16 0, .op .RET, .u16 0] :=
  ⟨by decide, S4_function_literal env_empty 1000 (by decide)⟩

set_option maxHeartbeats 4000000 in
theorem form_S2_compiles (env : DstEnv) (g : Nat) :
    compiled (dst_compile env form_S2 (g + 3)) =
      some { byteCode :=
               [.op .TRU, .u16 0, .op .JIF, .u16 0, .u16 9, .u16 0,
                .op .I16, .u16 0, .u16 1, .op .RET, .u16 0,
                .op .I16, .u16 0, .u16 2, .op .RET, .u16 0]
             literals := [], locals := 1, arity := 0, flags := no_flags } := by
  (dsimp [no_flags, form_S2, drop_succ_nil, take_succ_nil, get_special_apply, get_special_do, get_special_def,
    get_special_if, get_special_fn, get_special_quote, get_special_tran, get_special_var,
    get_special_varset, get_special_while, get_special_plus, get_special_global_def,
    get_special_global_var, Result.funcdefs, compiled, dst_compile, compile_value_succ, compile_value_body,
    compile_nonref_type, compile_literal, compiler_push_scope, bind, pure, Comp.bind, getc, setc,
    form_options_default, compiler_get_target, compiler_get_temp, compiler_tail,
    compiler_get_local, compiler_free_local, compiler_drop_slot, scope_read, scope_write,
    dst_buffer_push_op, dst_buffer_push_u16, dst_buffer_push_i16, dst_buffer_push_i32, int_word,
    DstBuffer.put, DstBuffer.skip, buffer_skip, compiler_return, buffer_count,
    compiler_gen_funcdef, buffer_set_count, compiler_pop_scope, c_error, c_error1,
    DstValue.isNil, compile_form, compile_function, form_at,
    compile_function_params, compiler_declare_symbol, equal_cstr, DstValue.asString,
    DstValue.isSymbol, dst_table_put, compile_block, compile_block_loop, compile_symbol,
    symbol_resolve, symbol_resolve_scopes, dst_table_get, dst_equals, DstValue.asInteger,
    compiler_add_literal, nil_slot, compile_symbol_touch, scope_parent, compile_if, compile_do,
    compile_def, compile_while, compile_args, compiler_realize_slot, compiler_coerce_slot,
    compiler_tracker_free, compiler_tracker_free_loop, compiler_tracker_write,
    compiler_tracker_write_loop, compiler_tracker_push, tracker_init, dst_string_cvs,
    dst_string_cv, undefined_read, recursion_guard_enter, recursion_guard_leave] <;> simp [no_flags, form_S2, Result.funcdefs, compiled, dst_compile, compile_value_succ, compile_value_body,
    compile_nonref_type, compile_literal, compiler_push_scope, bind, pure, Comp.bind, getc, setc,
    form_options_default, compiler_get_target, compiler_get_temp, compiler_tail,
    compiler_get_local, compiler_free_local, compiler_drop_slot, scope_read, scope_write,
    dst_buffer_push_op, dst_buffer_push_u16, dst_buffer_push_i16, dst_buffer_push_i32, int_word,
    DstBuffer.put, DstBuffer.skip, buffer_skip, compiler_return, buffer_count,
    compiler_gen_funcdef, buffer_set_count, compiler_pop_scope, c_error, c_error1,
    DstValue.isNil, compile_form, get_special, name_at, compile_function, form_at,
    compile_function_params, compiler_declare_symbol, equal_cstr, DstValue.asString,
    DstValue.isSymbol, dst_table_put, compile_block, compile_block_loop, compile_symbol,
    symbol_resolve, symbol_resolve_scopes, dst_table_get, dst_equals, DstValue.asInteger,
    compiler_add_literal, nil_slot, compile_symbol_touch, scope_parent, compile_if, compile_do,
    compile_def, compile_while, compile_args, compiler_realize_slot, compiler_coerce_slot,
    compiler_tracker_free, compiler_tracker_free_loop, compiler_tracker_write,
    compiler_tracker_write_loop, compiler_tracker_push, tracker_init, dst_string_cvs,
    dst_string_cv, undefined_read, recursion_guard_enter, recursion_guard_leave])

/-- C3 (scenario S2), as the code has it: compiling `(if true 1 2)` at top level
yields exactly `TRU $0 ; JIF $0 +9 ; I16 $0 1 ; RET $0 ; I16 $0 2 ; RET $0`.
Both branches are compiled into the slot of the condition, each branch emits
its own return, no `JMP` is emitted, and the offset operand of `JIF` is 9: the
distance in 16-bit words from the start of the `JIF` (word 2) to the first word
of the else branch (word 11). -/
theorem S2_if_tail (env : DstEnv) (guard : Nat) (hg : 3 ≤ guard) :
    compiled (dst_compile env form_S2 guard) =
      some { byteCode :=
               [.op .TRU, .u16 0, .op .JIF, .u16 0, .u16 9, .u16 0,
                .op .I16, .u16 0, .u16 1, .op .RET, .u16 0,
                .op .I16, .u16 0, .u16 2, .op .RET, .u16 0]
             literals := [], locals := 1, arity := 0, flags := no_flags } := by
  obtain ⟨g, rfl⟩ : ∃ g, guard = g + 3 := ⟨guard - 3, by omega⟩
  exact form_S2_compiles env g

theorem S2_if_tail_witness :
    3 ≤ 1000 ∧ compiled (dst_compile env_empty form_S2 1000) =
      some { byteCode :=
               [.op .TRU, .u16 0, .op .JIF, .u16 0, .u16 9, .u16 0,
                .op .I16, .u16 0, .u16 1, .op .RET, .u16 0,
                .op .I16, .u16 0, .u16 2, .op .RET, .u16 0]
             literals := [], locals := 1, arity := 0, flags := no_flags } :=
  ⟨by decide, S2_if_tail env_empty 1000 (by decide)⟩

/-- C3 as stated fails: the words compiled for `(if true 1 2)` are not those of
`TRU $0 ; JIF $0 +3 ; I16 $0 1 ; RET $0 ; I16 $0 2 ; RET $0`. -/
theorem S2_offset_is_not_3 :
    (compiled (dst_compile env_empty form_S2 1000)).map (fun d => d.byteCode) ≠
      some [.op .TRU, .u16 0, .op .JIF, .u16 0, .u16 3, .u16 0,
            .op .I16, .u16 0, .u16 1, .op .RET, .u16 0,
            .op .I16, .u16 0, .u16 2, .op .RET, .u16 0] := by
  rw [form_S2_compiles env_empty 997]
  simp

set_option maxHeartbeats 4000000 in
theorem form_S5_compiles (env : DstEnv) (g : Nat) :
    Result.funcdefs (dst_compile env form_S5 (g + 4)) =
      [ { byteCode := [.op .UPV, .u16 1, .u16 1, .u16 0, .op .RET, .u16 1]
          literals := [], locals := 2, arity := 1
          flags := { vararg := false, needsParent := false, needsEnv := true } },
        { byteCode := [.op .CLN, .u16 1, .u16 0, .op .RET, .u16 1]
          literals := [.funcdef (.fresh 0)], locals := 2, arity := 1, flags := no_flags },
        { byteCode := [.op .CLN, .u16 0, .u16 0, .op .RET, .u16 0]
          literals := [.funcdef (.fresh 1)], locals := 2, arity := 0, flags := no_flags } ] := by
  (dsimp [no_flags, form_S5, drop_succ_nil, take_succ_nil, get_special_apply, get_special_do, get_special_def,
    get_special_if, get_special_fn, get_special_quote, get_special_tran, get_special_var,
    get_special_varset, get_special_while, get_special_plus, get_special_global_def,
    get_special_global_var, Result.funcdefs, compiled, dst_compile, compile_value_succ, compile_value_body,
    compile_nonref_type, compile_literal, compiler_push_scope, bind, pure, Comp.bind, getc, setc,
    form_options_default, compiler_get_target, compiler_get_temp, compiler_tail,
    compiler_get_local, compiler_free_local, compiler_drop_slot, scope_read, scope_write,
    dst_buffer_push_op, dst_buffer_push_u16, dst_buffer_push_i16, dst_buffer_push_i32, int_word,
    DstBuffer.put, DstBuffer.skip, buffer_skip, compiler_return, buffer_count,
    compiler_gen_funcdef, buffer_set_count, compiler_pop_scope, c_error, c_error1,
    DstValue.isNil, compile_form, compile_function, form_at,
    compile_function_params, compiler_declare_symbol, equal_cstr, DstValue.asString,
    DstValue.isSymbol, dst_table_put, compile_block, compile_block_loop, compile_symbol,
    symbol_resolve, symbol_resolve_scopes, dst_table_get, dst_equals, DstValue.asInteger,
    compiler_add_literal, nil_slot, compile_symbol_touch, scope_parent, compile_if, compile_do,
    compile_def, compile_while, compile_args, compiler_realize_slot, compiler_coerce_slot,
    compiler_tracker_free, compiler_tracker_free_loop, compiler_tracker_write,
    compiler_tracker_write_loop, compiler_tracker_push, tracker_init, dst_string_cvs,
    dst_string_cv, undefined_read, recursion_guard_enter, recursion_guard_leave] <;> simp [no_flags, form_S5, Result.funcdefs, compiled, dst_compile, compile_value_succ, compile_value_body,
    compile_nonref_type, compile_literal, compiler_push_scope, bind, pure, Comp.bind, getc, setc,
    form_options_default, compiler_get_target, compiler_get_temp, compiler_tail,
    compiler_get_local, compiler_free_local, compiler_drop_slot, scope_read, scope_write,
    dst_buffer_push_op, dst_buffer_push_u16, dst_buffer_push_i16, dst_buffer_push_i32, int_word,
    DstBuffer.put, DstBuffer.skip, buffer_skip, compiler_return, buffer_count,
    compiler_gen_funcdef, buffer_set_count, compiler_pop_scope, c_error, c_error1,
    DstValue.isNil, compile_form, get_special, name_at, compile_function, form_at,
    compile_function_params, compiler_declare_symbol, equal_cstr, DstValue.asString,
    DstValue.isSymbol, dst_table_put, compile_block, compile_block_loop, compile_symbol,
    symbol_resolve, symbol_resolve_scopes, dst_table_get, dst_equals, DstValue.asInteger,
    compiler_add_literal, nil_slot, compile_symbol_touch, scope_parent, compile_if, compile_do,
    compile_def, compile_while, compile_args, compiler_realize_slot, compiler_coerce_slot,
    compiler_tracker_free, compiler_tracker_free_loop, compiler_tracker_write,
    compiler_tracker_write_loop, compiler_tracker_push, tracker_init, dst_string_cvs,
    dst_string_cv, undefined_read, recursion_guard_enter, recursion_guard_leave])

/-- C4 (scenario S5), as the code has it: compiling `(fn [x] (fn [y] x))`
allocates three FuncDefs.  The innermost one, for `(fn [y] x)`, has exactly the
words `UPV $1 1 0 ; RET $1` (slot 0 holds the parameter `y`); its flag
NEEDS_ENV is set and its flag NEEDS_PARENT is clear.  The enclosing one, for
`(fn [x] ...)`, has none of the two flags set. -/
theorem S5_upvalue (env : DstEnv) (guard : Nat) (hg : 4 ≤ guard) :
    Result.funcdefs (dst_compile env form_S5 guard) =
      [ { byteCode := [.op .UPV, .u16 1, .u16 1, .u16 0, .op .RET, .u16 1]
          literals := [], locals := 2, arity := 1
          flags := { vararg := false, needsParent := false, needsEnv := true } },
        { byteCode := [.op .CLN, .u16 1, .u16 0, .op .RET, .u16 1]
          literals := [.funcdef (.fresh 0)], locals := 2, arity := 1, flags := no_flags },
        { byteCode := [.op .CLN, .u16 0, .u16 0, .op .RET, .u16 0]
          literals := [.funcdef (.fresh 1)], locals := 2, arity := 0, flags := no_flags } ] := by
  obtain ⟨g, rfl⟩ : ∃ g, guard = g + 4 := ⟨guard - 4, by omega⟩
  exact form_S5_compiles env g

theorem S5_upvalue_witness :
    4 ≤ 1000 ∧
    Result.funcdefs (dst_compile env_empty form_S5 1000) =
      [ { byteCode := [.op .UPV, .u16 1, .u16 1, .u16 0, .op .RET, .u16 1]
          literals := [], locals := 2, arity := 1
          flags := { vararg := false, needsParent := false, needsEnv := true } },
        { byteCode := [.op .CLN, .u16 1, .u16 0, .op .RET, .u16 1]
          literals := [.funcdef (.fresh 0)], locals := 2, arity := 1, flags := no_flags },
        { byteCode := [.op .CLN, .u16 0, .u16 0, .op .RET, .u16 0]
          literals := [.funcdef (.fresh 1)], locals := 2, arity := 0, flags := no_flags } ] :=
  ⟨by decide, S5_upvalue env_empty 1000 (by decide)⟩

/-- C4 as stated fails: it is not the case that the innermost FuncDef of
`(fn [x] (fn [y] x))` has the words `UPV $0 1 0 ; RET $0` with NEEDS_PARENT set
and that the enclosing FuncDef has NEEDS_PARENT set. -/
theorem S5_needs_parent_not_set :
    ¬ (((Result.funcdefs (dst_compile env_empty form_S5 1000)).get? 0).map
          (fun d => (d.byteCode, d.flags.needsParent)) =
          some ([.op .UPV, .u16 0, .u16 1, .u16 0, .op .RET, .u16 0], true) ∧
       ((Result.funcdefs (dst_compile env_empty form_S5 1000)).get? 1).map
          (fun d => d.flags.needsParent) = some true) := by
  rw [form_S5_compiles env_empty 996]
  simp [no_flags]

set_option maxHeartbeats 8000000 in
theorem form_S3_compiles (env : DstEnv) (p g : Nat)
    (hplus : dst_table_get env.table (.symbol "+") = .cfunction p)
    (hconst : env_mutable env (.symbol "+") = false) :
    compiled (dst_compile env form_S3 (g + 4)) =
      some { byteCode :=
               [.op .I16, .u16 0, .u16 5, .op .CST, .u16 1, .u16 0, .op .I16, .u16 2, .u16 1,
                .op .PSK, .u16 2, .u16 0, .u16 2, .op .TCL, .u16 1]
             literals := [.cfunction p], locals := 3, arity := 0, flags := no_flags } := by
  (dsimp [no_flags, form_S3, hplus, hconst, drop_succ_nil, take_succ_nil, get_special_apply, get_special_do, get_special_def,
    get_special_if, get_special_fn, get_special_quote, get_special_tran, get_special_var,
    get_special_varset, get_special_while, get_special_plus, get_special_global_def,
    get_special_global_var, Result.funcdefs, compiled, dst_compile, compile_value_succ, compile_value_body,
    compile_nonref_type, compile_literal, compiler_push_scope, bind, pure, Comp.bind, getc, setc,
    form_options_default, compiler_get_target, compiler_get_temp, compiler_tail,
    compiler_get_local, compiler_free_local, compiler_drop_slot, scope_read, scope_write,
    dst_buffer_push_op, dst_buffer_push_u16, dst_buffer_push_i16, dst_buffer_push_i32, int_word,
    DstBuffer.put, DstBuffer.skip, buffer_skip, compiler_return, buffer_count,
    compiler_gen_funcdef, buffer_set_count, compiler_pop_scope, c_error, c_error1,
    DstValue.isNil, compile_form, compile_function, form_at,
    compile_function_params, compiler_declare_symbol, equal_cstr, DstValue.asString,
    DstValue.isSymbol, dst_table_put, compile_block, compile_block_loop, compile_symbol,
    symbol_resolve, symbol_resolve_scopes, dst_table_get, dst_equals, DstValue.asInteger,
    compiler_add_literal, nil_slot, compile_symbol_touch, scope_parent, compile_if, compile_do,
    compile_def, compile_while, compile_args, compiler_realize_slot, compiler_coerce_slot,
    compiler_tracker_free, compiler_tracker_free_loop, compiler_tracker_write,
    compiler_tracker_write_loop, compiler_tracker_push, tracker_init, dst_string_cvs,
    dst_string_cv, undefined_read, recursion_guard_enter, recursion_guard_leave] <;> simp [no_flags, form_S3, hplus, hconst, Result.funcdefs, compiled, dst_compile, compile_value_succ, compile_value_body,
    compile_nonref_type, compile_literal, compiler_push_scope, bind, pure, Comp.bind, getc, setc,
    form_options_default, compiler_get_target, compiler_get_temp, compiler_tail,
    compiler_get_local, compiler_free_local, compiler_drop_slot, scope_read, scope_write,
    dst_buffer_push_op, dst_buffer_push_u16, dst_buffer_push_i16, dst_buffer_push_i32, int_word,
    DstBuffer.put, DstBuffer.skip, buffer_skip, compiler_return, buffer_count,
    compiler_gen_funcdef, buffer_set_count, compiler_pop_scope, c_error, c_error1,
    DstValue.isNil, compile_form, get_special, name_at, compile_function, form_at,
    compile_function_params, compiler_declare_symbol, equal_cstr, DstValue.asString,
    DstValue.isSymbol, dst_table_put, compile_block, compile_block_loop, compile_symbol,
    symbol_resolve, symbol_resolve_scopes, dst_table_get, dst_equals, DstValue.asInteger,
    compiler_add_literal, nil_slot, compile_symbol_touch, scope_parent, compile_if, compile_do,
    compile_def, compile_while, compile_args, compiler_realize_slot, compiler_coerce_slot,
    compiler_tracker_free, compiler_tracker_free_loop, compiler_tracker_write,
    compiler_tracker_write_loop, compiler_tracker_push, tracker_init, dst_string_cvs,
    dst_string_cv, undefined_read, recursion_guard_enter, recursion_guard_leave])

theorem env_S3_plus : dst_table_get env_S3.table (.symbol "+") = .cfunction 1 := by
  simp [env_S3, dst_table_get, dst_equals, DstValue.isNil]

theorem env_S3_plus_constant : env_mutable env_S3 (.symbol "+") = false := by
  simp [env_S3, env_mutable, dst_table_get]

/-- C5 (scenario S3), as the code has it: in every environment that binds `+`
to a host function as a constant (whether or not it binds `global-def`),
compiling `(do (def x 5) (+ x 1))` at top level treats the `def` as a local
definition, the scope of the `do` having the root scope as its parent: `x` is
slot 0, loaded by `I16 $0 5`, and no call of `global-def` is compiled.  The sum
is compiled as a call sequence in tail position, `PSK 2 $0 $2 ; TCL $1`, the
only literal being the function bound to `+`.  The resulting FuncDef has
NEEDS_ENV clear and arity 0. -/
theorem S3_def_inside_do (env : DstEnv) (p guard : Nat) (hg : 4 ≤ guard)
    (hplus : dst_table_get env.table (.symbol "+") = .cfunction p)
    (hconst : env_mutable env (.symbol "+") = false) :
    compiled (dst_compile env form_S3 guard) =
      some { byteCode :=
               [.op .I16, .u16 0, .u16 5, .op .CST, .u16 1, .u16 0, .op .I16, .u16 2, .u16 1,
                .op .PSK, .u16 2, .u16 0, .u16 2, .op .TCL, .u16 1]
             literals := [.cfunction p], locals := 3, arity := 0, flags := no_flags } := by
  obtain ⟨g, rfl⟩ : ∃ g, guard = g + 4 := ⟨guard - 4, by omega⟩
  exact form_S3_compiles env p g hplus hconst

theorem S3_def_inside_do_witness :
    4 ≤ 1000 ∧ dst_table_get env_S3.table (.symbol "+") = .cfunction 1 ∧
    env_mutable env_S3 (.symbol "+") = false ∧
    compiled (dst_compile env_S3 form_S3 1000) =
      some { byteCode :=
               [.op .I16, .u16 0, .u16 5, .op .CST, .u16 1, .u16 0, .op .I16, .u16 2, .u16 1,
                .op .PSK, .u16 2, .u16 0, .u16 2, .op .TCL, .u16 1]
             literals := [.cfunction 1], locals := 3, arity := 0, flags := no_flags } :=
  ⟨by decide, env_S3_plus, env_S3_plus_constant,
    S3_def_inside_do env_S3 1 1000 (by decide) env_S3_plus env_S3_plus_constant⟩

/-- C5 as stated fails: with `+` and `global-def` bound, the FuncDef compiled
for `(do (def x 5) (+ x 1))` does not have NEEDS_ENV set, and it has one
literal only (the function bound to `+`): neither `global-def` nor the string
`x` of a rewritten `(global-def "x" 5)` is among its literals. -/
theorem S3_no_global_def :
    ¬ ((compiled (dst_compile env_S3 form_S3 1000)).map (fun d => d.flags.needsEnv) = some true) ∧
    (compiled (dst_compile env_S3 form_S3 1000)).map (fun d => d.literals) =
      some [.cfunction 1] := by
  rw [form_S3_compiles env_S3 1 996 env_S3_plus env_S3_plus_constant]
  simp [no_flags]

set_option maxHeartbeats 8000000 in
/-- C7, the code at the failing input: for `(fn [] (do (def a 1) (def b 2))
(while (do)))` the inner FuncDef is given `locals = 0`, while its words
`I16 $0 1 ; I16 $1 2 ; RTN` have the destinations 0 and 1. -/
theorem while_leak_frame_size :
    ((Result.funcdefs (dst_compile env_empty form_while_leak 1000)).get? 0).map
        (fun d => (d.byteCode, d.locals)) =
      some ([.op .I16, .u16 0, .u16 1, .op .I16, .u16 1, .u16 2, .op .RTN], 0) := by
  simp [form_while_leak, env_empty, Result.funcdefs, compiled, dst_compile, compile_value_succ, compile_value_body,
    compile_nonref_type, compile_literal, compiler_push_scope, bind, pure, Comp.bind, getc, setc,
    form_options_default, compiler_get_target, compiler_get_temp, compiler_tail,
    compiler_get_local, compiler_free_local, compiler_drop_slot, scope_read, scope_write,
    dst_buffer_push_op, dst_buffer_push_u16, dst_buffer_push_i16, dst_buffer_push_i32, int_word,
    DstBuffer.put, DstBuffer.skip, buffer_skip, compiler_return, buffer_count,
    compiler_gen_funcdef, buffer_set_count, compiler_pop_scope, c_error, c_error1,
    DstValue.isNil, compile_form, get_special, name_at, compile_function, form_at,
    compile_function_params, compiler_declare_symbol, equal_cstr, DstValue.asString,
    DstValue.isSymbol, dst_table_put, compile_block, compile_block_loop, compile_symbol,
    symbol_resolve, symbol_resolve_scopes, dst_table_get, dst_equals, DstValue.asInteger,
    compiler_add_literal, nil_slot, compile_symbol_touch, scope_parent, compile_if, compile_do,
    compile_def, compile_while, compile_args, compiler_realize_slot, compiler_coerce_slot,
    compiler_tracker_free, compiler_tracker_free_loop, compiler_tracker_write,
    compiler_tracker_write_loop, compiler_tracker_push, tracker_init, dst_string_cvs,
    dst_string_cv, undefined_read, recursion_guard_enter, recursion_guard_leave]

/-! ## Value equality -/

mutual
theorem dst_equals_eq : ∀ (a b : DstValue), dst_equals a b = true → a = b
  | .nil, b => by cases b <;> simp [dst_equals]
  | .boolean x, b => by cases b <;> simp [dst_equals]
  | .integer x, b => by cases b <;> simp [dst_equals]
  | .real x, b => by cases b <;> simp [dst_equals]
  | .string x, b => by cases b <;> simp [dst_equals]
  | .symbol x, b => by cases b <;> simp [dst_equals]
  | .tuple xs, b => by
    cases b <;> simp [dst_equals]
    exact dst_equals_list_eq xs _
  | .array xs, b => by
    cases b <;> simp [dst_equals]
    exact dst_equals_list_eq xs _
  | .table xs, b => by
    cases b <;> simp [dst_equals]
    exact dst_equals_list_eq xs _
  | .funcdef x, b => by cases b <;> simp [dst_equals]
  | .function x, b => by cases b <;> simp [dst_equals]
  | .cfunction x, b => by cases b <;> simp [dst_equals]
  | .userdata x, b => by cases b <;> simp [dst_equals]
theorem dst_equals_list_eq : ∀ (a b : List DstValue), dst_equals_list a b = true → a = b
  | [], b => by cases b <;> simp [dst_equals_list]
  | x :: xs, b => by
    cases b with
    | nil => simp [dst_equals_list]
    | cons y ys =>
      simp only [dst_equals_list, Bool.and_eq_true, List.cons.injEq]
      intro h
      exact ⟨dst_equals_eq x y h.1, dst_equals_list_eq xs ys h.2⟩
end

mutual
theorem dst_equals_refl : ∀ (a : DstValue), dst_equals a a = true
  | .nil => by simp [dst_equals]
  | .boolean x => by simp [dst_equals]
  | .integer x => by simp [dst_equals]
  | .real x => by simp [dst_equals]
  | .string x => by simp [dst_equals]
  | .symbol x => by simp [dst_equals]
  | .tuple xs => by simp [dst_equals]; exact dst_equals_list_refl xs
  | .array xs => by simp [dst_equals]; exact dst_equals_list_refl xs
  | .table xs => by simp [dst_equals]; exact dst_equals_list_refl xs
  | .funcdef x => by simp [dst_equals]
  | .function x => by simp [dst_equals]
  | .cfunction x => by simp [dst_equals]
  | .userdata x => by simp [dst_equals]
theorem dst_equals_list_refl : ∀ (a : List DstValue), dst_equals_list a a = true
  | [] => by simp [dst_equals_list]
  | x :: xs => by
    simp only [dst_equals_list, Bool.and_eq_true]
    exact ⟨dst_equals_refl x, dst_equals_list_refl xs⟩
end

theorem dst_equals_iff (a b : DstValue) : dst_equals a b = true ↔ a = b :=
  ⟨dst_equals_eq a b, fun h => h ▸ dst_equals_refl a⟩

theorem dst_equals_false_iff (a b : DstValue) : dst_equals a b = false ↔ a ≠ b := by
  have h := dst_equals_iff a b
  cases hv : dst_equals a b <;> simp_all

theorem dst_equals_comm (a b : DstValue) : dst_equals a b = dst_equals b a := by
  cases h : dst_equals b a
  · rw [dst_equals_false_iff] at h ⊢
    exact Ne.symm h
  · rw [dst_equals_iff] at h ⊢
    exact h.symm

theorem DstValue.isNil_iff (x : DstValue) : x.isNil = true ↔ x = .nil := by
  cases x <;> simp [DstValue.isNil]

theorem DstValue.isNil_false_iff (x : DstValue) : x.isNil = false ↔ x ≠ .nil := by
  cases x <;> simp [DstValue.isNil]

/-! ## Tables -/

theorem dst_table_get_nil_key : ∀ (t : DstTable), dst_table_get t .nil = .nil
  | [] => by simp [dst_table_get]
  | [_] => by simp [dst_table_get]
  | k :: v :: rest => by
    have ih := dst_table_get_nil_key rest
    by_cases hk : k.isNil = true
    · simp [dst_table_get, hk, ih]
    · have hk2 : k ≠ .nil := fun h => hk ((DstValue.isNil_iff k).2 h)
      have : dst_equals k .nil = false := (dst_equals_false_iff k .nil).2 hk2
      simp [dst_table_get, this, ih]

theorem dst_table_get_put : ∀ (t : DstTable) (key value x : DstValue), key ≠ .nil →
    dst_table_get (dst_table_put t key value) x =
      if dst_equals key x then value else dst_table_get t x
  | [], key, value, x, hkey => by
    have h1 : key.isNil = false := (DstValue.isNil_false_iff key).2 hkey
    cases hx : dst_equals key x <;> simp [dst_table_put, dst_table_get, h1, hx]
  | [y], key, value, x, hkey => by
    have h1 : key.isNil = false := (DstValue.isNil_false_iff key).2 hkey
    cases hx : dst_equals key x <;> simp [dst_table_put, dst_table_get, h1, hx]
  | k :: v :: rest, key, value, x, hkey => by
    have ih := dst_table_get_put rest key value x hkey
    have h1 : key.isNil = false := (DstValue.isNil_false_iff key).2 hkey
    by_cases hk : (!k.isNil && dst_equals k key) = true
    · have hk0 := hk
      simp only [Bool.and_eq_true, Bool.not_eq_true'] at hk
      have hkk : k = key := (dst_equals_iff k key).1 hk.2
      subst hkk
      cases hx : dst_equals k x <;>
        simp [dst_table_put, dst_table_get, h1, hx, hk.1, dst_equals_refl]
    · have hk' : (!k.isNil && dst_equals k key) = false := by simpa using hk
      cases hx : dst_equals key x
      · simp [dst_table_put, h1, hk', dst_table_get, ih, hx]
      · have hxk : key = x := (dst_equals_iff key x).1 hx
        subst hxk
        simp [dst_table_put, h1, hk', dst_table_get, ih, hx]

/-! ## Weakest preconditions -/

theorem wp_pure {α : Type} (a : α) (Q : α → DstCompiler → Prop) (c : DstCompiler) :
    wp (pure a) Q c = Q a c := rfl

theorem wp_bind {α β : Type} (m : Comp α) (f : α → Comp β) (Q : β → DstCompiler → Prop)
    (c : DstCompiler) : wp (m >>= f) Q c = wp m (fun a c1 => wp (f a) Q c1) c := by
  show wp (Comp.bind m f) Q c = _
  unfold wp Comp.bind
  cases m c <;> rfl

theorem wp_mono {α : Type} (m : Comp α) (Q R : α → DstCompiler → Prop) (c : DstCompiler)
    (h : ∀ a c1, Q a c1 → R a c1) (hq : wp m Q c) : wp m R c := by
  unfold wp at *
  cases hm : m c <;> simp_all

theorem wp_of_ok {α : Type} {m : Comp α} {Q : α → DstCompiler → Prop} {c c1 : DstCompiler}
    {a : α} (hq : wp m Q c) (hm : m c = .ok a c1) : Q a c1 := by
  unfold wp at hq
  rw [hm] at hq
  exact hq

theorem wp_intro {α : Type} {m : Comp α} {Q : α → DstCompiler → Prop} {c : DstCompiler}
    (h : ∀ a c1, m c = .ok a c1 → Q a c1) : wp m Q c := by
  unfold wp
  cases hm : m c with
  | ok a c1 => exact h a c1 hm
  | error e => trivial
  | undefined => trivial

theorem wp_c_error {α : Type} (e : String) (Q : α → DstCompiler → Prop) (c : DstCompiler) :
    wp (c_error e) Q c = True := rfl

theorem wp_c_error1 {α : Type} (e : DstValue) (Q : α → DstCompiler → Prop) (c : DstCompiler) :
    wp (c_error1 e) Q c = True := rfl

theorem wp_undefined_read {α : Type} (Q : α → DstCompiler → Prop) (c : DstCompiler) :
    wp undefined_read Q c = True := rfl

theorem wp_getc (Q : DstCompiler → DstCompiler → Prop) (c : DstCompiler) :
    wp getc Q c = Q c c := rfl

theorem wp_setc (c1 : DstCompiler) (Q : Unit → DstCompiler → Prop) (c : DstCompiler) :
    wp (setc c1) Q c = Q () c1 := rfl

/-! ## Preservation of a property of the state -/

theorem pres_pure {α : Type} (I : DstCompiler → Prop) (a : α) : Pres I (pure a) :=
  fun _ h => h

theorem pres_bind {α β : Type} {I : DstCompiler → Prop} {m : Comp α} {f : α → Comp β}
    (hm : Pres I m) (hf : ∀ a, Pres I (f a)) : Pres I (m >>= f) := by
  intro c hc
  rw [wp_bind]
  exact wp_mono _ _ _ _ (fun a c1 h => hf a c1 h) (hm c hc)

theorem pres_ite {α : Type} {I : DstCompiler → Prop} {b : Prop} [Decidable b] {m n : Comp α}
    (hm : Pres I m) (hn : Pres I n) : Pres I (if b then m else n) := by
  split
  · exact hm
  · exact hn

theorem pres_c_error {α : Type} (I : DstCompiler → Prop) (e : String) :
    Pres I (c_error e : Comp α) := fun _ _ => trivial

theorem pres_c_error1 {α : Type} (I : DstCompiler → Prop) (e : DstValue) :
    Pres I (c_error1 e : Comp α) := fun _ _ => trivial

theorem pres_undefined_read {α : Type} (I : DstCompiler → Prop) :
    Pres I (undefined_read : Comp α) := fun _ _ => trivial

theorem pres_of_ok {α : Type} {I : DstCompiler → Prop} {m : Comp α} (h : Pres I m)
    {c c1 : DstCompiler} {a : α} (hc : I c) (hm : m c = .ok a c1) : I c1 :=
  wp_of_ok (h c hc) hm

theorem wp_scope_read (p : Nat) (Q : DstScope → DstCompiler → Prop) (c : DstCompiler) :
    wp (scope_read p) Q c = ∀ s, c.scopes.get? p = some s → Q s c := by
  unfold wp scope_read
  cases h : c.scopes.get? p <;> simp

theorem wp_scope_write (p : Nat) (s : DstScope) (Q : Unit → DstCompiler → Prop)
    (c : DstCompiler) :
    wp (scope_write p s) Q c = Q () { c with scopes := c.scopes.set p s } := rfl

theorem wp_compiler_tail (Q : Nat → DstCompiler → Prop) (c : DstCompiler) :
    wp compiler_tail Q c = ∀ n, c.scopes.length = n + 1 → Q n c := by
  unfold wp compiler_tail
  cases h : c.scopes.length <;> simp

/-! ## The invariant of the literal pools -/

theorem PoolOK_empty : PoolOK [] [] := by
  simp [PoolOK, dst_table_get]

theorem PoolOK_add {t : DstTable} {a : List DstValue} {x : DstValue} (v : DstValue)
    (h : PoolOK t a) (hx : x ≠ .nil) (hv : v ≠ .nil) (hnew : dst_table_get t x = .nil) :
    PoolOK (dst_table_put t x v) (a ++ [x]) := by
  obtain ⟨hnd, hkeys⟩ := h
  have hxa : x ∉ a := fun hmem => ((hkeys x).1 hmem) hnew
  refine ⟨?_, ?_⟩
  · rw [List.nodup_append]
    refine ⟨hnd, List.nodup_singleton x, ?_⟩
    intro y hy hy2
    rw [List.mem_singleton] at hy2
    subst hy2
    exact hxa hy
  · intro y
    rw [dst_table_get_put t x v y hx, List.mem_append, List.mem_singleton]
    cases hxy : dst_equals x y
    · have hne : x ≠ y := (dst_equals_false_iff x y).1 hxy
      simp only [Bool.false_eq_true, if_false]
      constructor
      · rintro (h1 | h1)
        · exact (hkeys y).1 h1
        · exact absurd h1.symm hne
      · intro h1
        exact Or.inl ((hkeys y).2 h1)
    · have he : x = y := (dst_equals_iff x y).1 hxy
      simp [he, hv]

theorem PoolInv_init (env : DstEnv) (guard : Nat) :
    PoolInv { vm := { funcdefs := [], tables := [], arrays := [] }, scopes := [],
              buffer := { data := [], count := 0 }, env := env, recursionGuard := guard } := by
  refine ⟨rfl, ?_, ?_, ?_⟩
  · intro s hs; cases hs
  · intro i; simpa using PoolOK_empty
  · intro d hd; cases hd

theorem PoolInv_set_scope {c : DstCompiler} (p : Nat) (s : DstScope)
    (h : PoolInv c) (hs : s.literals = s.literalsArray) :
    PoolInv { c with scopes := c.scopes.set p s } := by
  obtain ⟨h1, h2, h3, h4⟩ := h
  refine ⟨h1, ?_, h3, h4⟩
  intro s1 hs1
  rcases List.mem_or_eq_of_mem_set hs1 with h5 | h5
  · exact h2 s1 h5
  · rw [h5]; exact hs

theorem PoolInv_of_get {c : DstCompiler} {p : Nat} {s : DstScope}
    (h : PoolInv c) (hs : c.scopes.get? p = some s) : s.literals = s.literalsArray :=
  h.2.1 s (List.get?_mem hs)

theorem pres_compiler_tail (I : DstCompiler → Prop) : Pres I compiler_tail := by
  intro c hc
  unfold wp compiler_tail
  split <;> simp_all
  split at * <;> simp_all

theorem pres_scope_read (I : DstCompiler → Prop) (p : Nat) : Pres I (scope_read p) := by
  intro c hc
  unfold wp scope_read
  split <;> simp_all
  split at * <;> simp_all

theorem pres_scope_parent (I : DstCompiler → Prop) (p : Nat) : Pres I (scope_parent p) := by
  intro c hc
  cases p
  · trivial
  · exact hc

theorem pres_form_at (I : DstCompiler → Prop) (form : List DstValue) (i : Nat) :
    Pres I (form_at form i) := by
  intro c hc
  unfold form_at
  split
  · exact hc
  · trivial

theorem pres_retag_string (I : DstCompiler → Prop) (x : DstValue) :
    Pres I (retag_string x) := by
  intro c hc
  unfold retag_string
  split
  · exact hc
  · exact hc
  · trivial

theorem pres_buffer_count (I : DstCompiler → Prop) : Pres I buffer_count :=
  fun _ hc => hc

theorem pool_pres_push_op (o : DstOp) : Pres PoolInv (dst_buffer_push_op o) :=
  fun _ hc => hc

theorem pool_pres_push_u16 (n : Nat) : Pres PoolInv (dst_buffer_push_u16 n) :=
  fun _ hc => hc

theorem pool_pres_push_i16 (v : Int) : Pres PoolInv (dst_buffer_push_i16 v) :=
  fun _ hc => hc

theorem pool_pres_push_i32 (v : Int) : Pres PoolInv (dst_buffer_push_i32 v) :=
  fun _ hc => hc

theorem pool_pres_push_i64 (v : Int) : Pres PoolInv (dst_buffer_push_i64 v) :=
  fun _ hc => hc

theorem pool_pres_push_real (bits : Nat) : Pres PoolInv (dst_buffer_push_real bits) :=
  fun _ hc => hc

theorem pool_pres_set_count (n : Nat) : Pres PoolInv (buffer_set_count n) :=
  fun _ hc => hc

theorem pool_pres_skip (n : Nat) : Pres PoolInv (buffer_skip n) :=
  fun _ hc => hc

theorem pool_pres_guard_enter : Pres PoolInv recursion_guard_enter :=
  fun _ hc => hc

theorem pool_pres_guard_leave : Pres PoolInv recursion_guard_leave :=
  fun _ hc => hc

theorem pool_pres_push_scope (sameFunction : Bool) :
    Pres PoolInv (compiler_push_scope sameFunction) := by
  intro c hc
  obtain ⟨h1, h2, h3, h4⟩ := hc
  unfold wp compiler_push_scope
  cases sameFunction
  · simp only [Bool.false_eq_true, if_false]
    refine ⟨by simp [h1], ?_, ?_, h4⟩
    · intro s hs
      rw [List.mem_append, List.mem_singleton] at hs
      rcases hs with hs | hs
      · exact h2 s hs
      · rw [hs]; exact h1
    · intro i
      by_cases hi : i < c.vm.tables.length
      · have hi2 : i < c.vm.arrays.length := h1 ▸ hi
        have := h3 i
        simpa [List.getD_eq_getElem?_getD, List.getElem?_append_left, hi, hi2] using this
      · by_cases hi3 : i = c.vm.tables.length
        · have hi4 : i = c.vm.arrays.length := h1 ▸ hi3
          have e1 : (c.vm.tables ++ [[]]).getD i [] = [] := by
            rw [hi3]; simp [List.getD_eq_getElem?_getD]
          have e2 : (c.vm.arrays ++ [[]]).getD i [] = [] := by
            rw [hi4]; simp [List.getD_eq_getElem?_getD]
          show PoolOK ((c.vm.tables ++ [[]]).getD i []) ((c.vm.arrays ++ [[]]).getD i [])
          rw [e1, e2]
          exact PoolOK_empty
        · have e1 : (c.vm.tables ++ [[]]).getD i [] = [] := by
            rw [List.getD_eq_getElem?_getD, List.getElem?_eq_none]
            · rfl
            · simp; omega
          have e2 : (c.vm.arrays ++ [[]]).getD i [] = [] := by
            rw [List.getD_eq_getElem?_getD, List.getElem?_eq_none]
            · rfl
            · simp; omega
          show PoolOK ((c.vm.tables ++ [[]]).getD i []) ((c.vm.arrays ++ [[]]).getD i [])
          rw [e1, e2]
          exact PoolOK_empty
  · simp only [if_true]
    cases hl : c.scopes.getLast? with
    | none => trivial
    | some t =>
      refine ⟨h1, ?_, h3, h4⟩
      intro s hs
      rw [List.mem_append, List.mem_singleton] at hs
      rcases hs with hs | hs
      · exact h2 s hs
      · rw [hs]
        exact h2 t (List.mem_of_getLast?_eq_some hl)

theorem pool_pres_pop_scope : Pres PoolInv compiler_pop_scope := by
  intro c hc
  obtain ⟨h1, h2, h3, h4⟩ := hc
  have hdl : ∀ s ∈ c.scopes.dropLast, s.literals = s.literalsArray :=
    fun s hs => h2 s (List.dropLast_subset _ hs)
  unfold wp compiler_pop_scope
  cases hl : c.scopes.getLast? with
  | none => trivial
  | some last0 =>
    simp only []
    cases hl2 : c.scopes.dropLast.getLast? with
    | none => exact ⟨h1, hdl, h3, h4⟩
    | some t =>
      refine ⟨h1, ?_, h3, h4⟩
      intro s hs
      rcases List.mem_or_eq_of_mem_set hs with h5 | h5
      · exact hdl s h5
      · have ht := hdl t (List.mem_of_getLast?_eq_some hl2)
        rw [h5]
        by_cases hfs : (if last0.nextLocal > last0.frameSize
            then { last0 with frameSize := last0.nextLocal } else last0).frameSize > t.frameSize
        · rw [if_pos hfs]; exact ht
        · rw [if_neg hfs]; exact ht

theorem pool_pres_get_local (scope : Nat) : Pres PoolInv (compiler_get_local scope) := by
  intro c hc
  unfold compiler_get_local
  rw [wp_bind]
  refine wp_intro ?_
  intro s c1 hs
  unfold scope_read at hs
  split at hs
  · next s0 hget =>
    cases hs
    have hlit := PoolInv_of_get hc hget
    split
    · split
      · trivial
      · exact PoolInv_set_scope scope _ hc hlit
    · exact PoolInv_set_scope scope _ hc hlit
  · cases hs

theorem pool_pres_free_local (scope slot : Nat) :
    Pres PoolInv (compiler_free_local scope slot) := by
  intro c hc
  unfold compiler_free_local
  rw [wp_bind]
  refine wp_intro ?_
  intro s c1 hs
  unfold scope_read at hs
  split at hs
  · next s0 hget =>
    cases hs
    have hlit := PoolInv_of_get hc hget
    exact PoolInv_set_scope scope _ hc hlit
  · cases hs

theorem pool_pres_drop_slot (scope : Nat) (slot : Slot) :
    Pres PoolInv (compiler_drop_slot scope slot) := by
  unfold compiler_drop_slot
  split
  · exact pool_pres_free_local _ _
  · exact pres_pure _ _

theorem List.getD_set_eq_ite {α : Type} (l : List α) (i j : Nat) (a d : α) :
    (l.set i a).getD j d = if i = j ∧ i < l.length then a else l.getD j d := by
  simp only [List.getD_eq_getElem?_getD, List.getElem?_set]
  by_cases h : i = j
  · subst h
    by_cases h2 : i < l.length
    · simp [h2]
    · simp [h2, List.getElem?_eq_none (Nat.le_of_not_lt h2)]
  · simp [h]

theorem pool_pres_add_literal (scope : Nat) (x : DstValue) (hx : x ≠ .nil) :
    Pres PoolInv (compiler_add_literal scope x) := by
  intro c hc
  unfold compiler_add_literal
  rw [wp_bind]
  refine wp_intro ?_
  intro s c1 hs
  unfold scope_read at hs
  split at hs
  · next s0 hget =>
    cases hs
    have hlit := PoolInv_of_get hc hget
    rw [wp_bind, wp_getc]
    obtain ⟨h1, h2, h3, h4⟩ := hc
    simp only []
    split
    · next hnil =>
      rw [wp_bind, wp_setc, wp_pure]
      refine ⟨by simp [h1], h2, ?_, h4⟩
      intro i
      show PoolOK ((c.vm.tables.set s.literals _).getD i [])
        ((c.vm.arrays.set s.literalsArray _).getD i [])
      rw [List.getD_set_eq_ite, List.getD_set_eq_ite, ← hlit, ← h1]
      split
      · next hcond =>
        refine PoolOK_add _ ?_ hx (by simp) ?_
        · have := h3 s.literals
          rw [hlit] at this ⊢
          exact this
        · exact hnil
      · exact h3 i
    · exact ⟨h1, h2, h3, h4⟩
    · exact ⟨h1, h2, h3, h4⟩
  · cases hs

theorem pool_pres_declare_symbol (scope : Nat) (sym : DstValue) (flags : Nat) :
    Pres PoolInv (compiler_declare_symbol scope sym flags) := by
  unfold compiler_declare_symbol
  apply pres_ite (pres_c_error _ _)
  apply pres_bind (pool_pres_get_local _)
  intro target c hc
  simp only []
  rw [wp_bind]
  refine wp_intro ?_
  intro s c1 hs
  unfold scope_read at hs
  split at hs
  · next s0 hget =>
    cases hs
    rw [wp_bind]
    have hlit := PoolInv_of_get hc hget
    exact PoolInv_set_scope scope _ hc hlit
  · cases hs

theorem pool_pres_gen_funcdef (lastNBytes arity : Nat) (varargs : Bool) :
    Pres PoolInv (compiler_gen_funcdef lastNBytes arity varargs) := by
  unfold compiler_gen_funcdef
  apply pres_bind (pres_compiler_tail _)
  intro scope c hc
  rw [wp_bind, wp_getc]
  split
  · trivial
  · rw [wp_bind]
    show wp (scope_read scope >>= _) _ _
    rw [wp_bind]
    refine wp_intro ?_
    intro s c1 hs
    unfold scope_read at hs
    split at hs
    · next s0 hget =>
      cases hs
      rw [wp_bind]
      have hc2 : PoolInv { c with buffer := { c.buffer with count := c.buffer.count - lastNBytes } } := hc
      refine wp_mono _ _ _ _ ?_ (pool_pres_pop_scope _ hc2)
      intro last c2 hc3
      rw [wp_bind, wp_getc, wp_bind, wp_setc, wp_pure]
      obtain ⟨h1, h2, h3, h4⟩ := hc3
      refine ⟨h1, h2, h3, ?_⟩
      intro d hd
      rw [List.mem_append, List.mem_singleton] at hd
      rcases hd with hd | hd
      · exact h4 d hd
      · rw [hd]
        exact (hc.2.2.1 s.literalsArray).1
    · cases hs

/-! ## The compiler preserves the invariant of the literal pools -/

section

attribute [local irreducible] Pres Comp.bind Spec Spec2 GuardFree GuardRel compiler_tail scope_read scope_write scope_parent form_at
  retag_string symbol_resolve compile_symbol_touch compiler_get_local compiler_free_local
  compiler_drop_slot compiler_tracker_free compiler_tracker_write compiler_add_literal
  compiler_declare_symbol compiler_push_scope compiler_pop_scope recursion_guard_enter
  recursion_guard_leave compiler_get_target compiler_get_temp compiler_realize_slot
  compiler_coerce_slot compiler_return dst_buffer_push_op dst_buffer_push_u16
  dst_buffer_push_i16 dst_buffer_push_i32 dst_buffer_push_i64 dst_buffer_push_real
  buffer_count buffer_set_count buffer_skip c_error c_error1 undefined_read getc setc
  compile_nonref_type compile_literal compile_symbol compile_assign compile_varset
  compile_global_var compile_global_def compile_def compile_var compile_block_loop
  compile_block compiler_gen_funcdef compile_function_params compile_function compile_if
  compile_while compile_do compile_quote compile_args compile_apply compile_tran
  compile_elements compile_array compile_table compile_form compile_value_body

theorem pool_pres_return (slot : Slot) : Pres PoolInv (compiler_return slot) := by
  unfold compiler_return
  repeat (first
    | apply pres_bind
    | apply pres_ite
    | intro _
    | exact pres_pure _ _
    | exact pool_pres_push_op _
    | exact pool_pres_push_u16 _)

theorem pool_pres_get_temp : Pres PoolInv compiler_get_temp := by
  unfold compiler_get_temp
  repeat (first
    | apply pres_bind
    | intro _
    | exact pres_pure _ _
    | exact pres_compiler_tail _
    | exact pool_pres_get_local _)

theorem pool_pres_get_target (opts : FormOptions) : Pres PoolInv (compiler_get_target opts) := by
  unfold compiler_get_target
  split
  · exact pool_pres_get_temp
  · exact pres_pure _ _

theorem pool_pres_realize_slot (slot : Slot) : Pres PoolInv (compiler_realize_slot slot) := by
  unfold compiler_realize_slot
  split
  · apply pres_bind pool_pres_get_temp
    intro _
    repeat (first
    | apply pres_bind
    | intro _
    | exact pres_pure _ _
    | exact pool_pres_push_op _
    | exact pool_pres_push_u16 _)
  · exact pres_pure _ _

theorem pool_pres_coerce_slot (opts : FormOptions) (slot : Slot) :
    Pres PoolInv (compiler_coerce_slot opts slot) := by
  unfold compiler_coerce_slot
  apply pres_bind (pres_compiler_tail _)
  intro _
  apply pres_ite
  · repeat (first
    | apply pres_bind
    | intro _
    | exact pres_pure _ _
    | exact pool_pres_drop_slot _ _)
  · apply pres_bind (pool_pres_realize_slot _)
    intro _
    repeat (first
    | apply pres_bind
    | apply pres_ite
    | intro _
    | exact pres_pure _ _
    | exact pool_pres_push_op _
    | exact pool_pres_push_u16 _)

theorem pool_pres_tracker_write_loop :
    ∀ slots : List Slot, Pres PoolInv (compiler_tracker_write_loop slots)
  | [] => pres_pure _ _
  | s :: rest => by
    unfold compiler_tracker_write_loop
    apply pres_bind
    · repeat (first
    | apply pres_ite
    | exact pres_c_error _ _
    | exact pool_pres_push_u16 _)
    · intro _
      exact pool_pres_tracker_write_loop rest

end

theorem pool_pres_tracker_write (tracker : SlotTracker) (reverse : Bool) :
    Pres PoolInv (compiler_tracker_write tracker reverse) :=
  pool_pres_tracker_write_loop _

section

attribute [local irreducible] Pres Comp.bind Spec Spec2 GuardFree GuardRel compiler_tail scope_read scope_write scope_parent form_at
  retag_string symbol_resolve compile_symbol_touch compiler_get_local compiler_free_local
  compiler_drop_slot compiler_tracker_free compiler_tracker_write compiler_add_literal
  compiler_declare_symbol compiler_push_scope compiler_pop_scope recursion_guard_enter
  recursion_guard_leave compiler_get_target compiler_get_temp compiler_realize_slot
  compiler_coerce_slot compiler_return dst_buffer_push_op dst_buffer_push_u16
  dst_buffer_push_i16 dst_buffer_push_i32 dst_buffer_push_i64 dst_buffer_push_real
  buffer_count buffer_set_count buffer_skip c_error c_error1 undefined_read getc setc
  compile_nonref_type compile_literal compile_symbol compile_assign compile_varset
  compile_global_var compile_global_def compile_def compile_var compile_block_loop
  compile_block compiler_gen_funcdef compile_function_params compile_function compile_if
  compile_while compile_do compile_quote compile_args compile_apply compile_tran
  compile_elements compile_array compile_table compile_form compile_value_body

theorem pool_pres_tracker_free_loop (scope : Nat) :
    ∀ slots : List Slot, Pres PoolInv (compiler_tracker_free_loop scope slots)
  | [] => pres_pure _ _
  | s :: rest => by
    unfold compiler_tracker_free_loop
    apply pres_bind (pool_pres_drop_slot _ _)
    intro _
    exact pool_pres_tracker_free_loop scope rest

end

theorem pool_pres_tracker_free (scope : Nat) (tracker : SlotTracker) :
    Pres PoolInv (compiler_tracker_free scope tracker) :=
  pool_pres_tracker_free_loop _ _

section

attribute [local irreducible] Pres Comp.bind Spec Spec2 GuardFree GuardRel compiler_tail scope_read scope_write scope_parent form_at
  retag_string symbol_resolve compile_symbol_touch compiler_get_local compiler_free_local
  compiler_drop_slot compiler_tracker_free compiler_tracker_write compiler_add_literal
  compiler_declare_symbol compiler_push_scope compiler_pop_scope recursion_guard_enter
  recursion_guard_leave compiler_get_target compiler_get_temp compiler_realize_slot
  compiler_coerce_slot compiler_return dst_buffer_push_op dst_buffer_push_u16
  dst_buffer_push_i16 dst_buffer_push_i32 dst_buffer_push_i64 dst_buffer_push_real
  buffer_count buffer_set_count buffer_skip c_error c_error1 undefined_read getc setc
  compile_nonref_type compile_literal compile_symbol compile_assign compile_varset
  compile_global_var compile_global_def compile_def compile_var compile_block_loop
  compile_block compiler_gen_funcdef compile_function_params compile_function compile_if
  compile_while compile_do compile_quote compile_args compile_apply compile_tran
  compile_elements compile_array compile_table compile_form compile_value_body

theorem pool_pres_nonref_type (opts : FormOptions) (x : DstValue) :
    Pres PoolInv (compile_nonref_type opts x) := by
  unfold compile_nonref_type
  apply pres_ite (pres_pure _ _)
  apply pres_bind (pool_pres_get_target _)
  intro _
  repeat (first
    | apply pres_bind
    | apply pres_ite
    | intro _
    | exact pres_pure _ _
    | exact pres_c_error _ _
    | exact pool_pres_push_op _
    | exact pool_pres_push_u16 _
    | exact pool_pres_push_i16 _
    | exact pool_pres_push_i32 _
    | exact pool_pres_push_i64 _
    | exact pool_pres_push_real _
    | split)

theorem pool_pres_literal (opts : FormOptions) (x : DstValue) :
    Pres PoolInv (compile_literal opts x) := by
  unfold compile_literal
  apply pres_bind (pres_compiler_tail _)
  intro scope
  apply pres_ite (pres_pure _ _)
  cases x <;> simp only [] <;>
    first
    | exact pool_pres_nonref_type _ _
    | (apply pres_bind (pool_pres_get_target _)
       intro _
       apply pres_bind (pool_pres_add_literal _ _ (by simp))
       intro _
       repeat (first
    | apply pres_bind
    | intro _
    | exact pres_pure _ _
    | exact pool_pres_push_op _
    | exact pool_pres_push_u16 _))

end

theorem pool_pres_symbol_touch :
    ∀ (i scope : Nat), Pres PoolInv (compile_symbol_touch i scope)
  | 0, _ => pres_pure _ _
  | 1, _ => pres_pure _ _
  | i + 2, scope => by
    unfold compile_symbol_touch
    intro c hc
    rw [wp_bind]
    refine wp_intro ?_
    intro s c1 hs
    unfold scope_read at hs
    split at hs
    · next s0 hget =>
      cases hs
      rw [wp_bind]
      have hlit := PoolInv_of_get hc hget
      have hc2 := PoolInv_set_scope scope { s with touchParent := true } hc hlit
      show wp (scope_parent scope >>= _) _ _
      exact pres_bind (pres_scope_parent _ _) (fun p => pool_pres_symbol_touch (i + 1) p) _ hc2
    · cases hs

theorem pool_pres_symbol_resolve (x : DstValue) : Pres PoolInv (symbol_resolve x) := by
  unfold symbol_resolve
  apply pres_bind (pres_compiler_tail _)
  intro _
  apply pres_bind (pres_scope_read _ _)
  intro _ c hc
  rw [wp_bind, wp_getc]
  split
  · exact hc
  · simp only []
    split
    · split <;> exact hc
    · split <;> exact hc

theorem pool_pres_symbol (cv : FormOptions → DstValue → Comp Slot)
    (hcv : ∀ o x, Pres PoolInv (cv o x)) (opts : FormOptions) (sym : DstValue) :
    Pres PoolInv (compile_symbol cv opts sym) := by
  unfold compile_symbol
  apply pres_bind (pool_pres_symbol_resolve _)
  intro r
  apply pres_ite (pres_c_error1 _ _)
  apply pres_ite (pres_pure _ _)
  apply pres_ite (pool_pres_literal _ _)
  apply pres_ite (hcv _ _)
  apply pres_ite
  · apply pres_bind (pres_compiler_tail _)
    intro _
    apply pres_bind (pool_pres_symbol_touch _ _)
    intro scope c hc
    rw [wp_bind, wp_scope_read]
    intro s hget
    rw [wp_bind, wp_scope_write]
    have hlit := PoolInv_of_get hc hget
    have hc2 := PoolInv_set_scope scope { s with touchEnv := true } hc hlit
    have : Pres PoolInv (compiler_get_target opts >>= fun ret =>
        dst_buffer_push_op .UPV >>= fun _ => dst_buffer_push_u16 ret.index >>= fun _ =>
        dst_buffer_push_u16 r.level >>= fun _ => dst_buffer_push_u16 r.index >>= fun _ =>
        pure ret) := by
      apply pres_bind (pool_pres_get_target _)
      intro _
      repeat (first
    | exact pres_buffer_count _)
    exact this _ hc2
  · repeat (first
    | exact pres_pure _ _
    | exact pres_buffer_count _
    | apply pres_ite)

section

attribute [local irreducible] Pres Comp.bind Spec Spec2 GuardFree GuardRel compiler_tail scope_read scope_write scope_parent form_at
  retag_string symbol_resolve compile_symbol_touch compiler_get_local compiler_free_local
  compiler_drop_slot compiler_tracker_free compiler_tracker_write compiler_add_literal
  compiler_declare_symbol compiler_push_scope compiler_pop_scope recursion_guard_enter
  recursion_guard_leave compiler_get_target compiler_get_temp compiler_realize_slot
  compiler_coerce_slot compiler_return dst_buffer_push_op dst_buffer_push_u16
  dst_buffer_push_i16 dst_buffer_push_i32 dst_buffer_push_i64 dst_buffer_push_real
  buffer_count buffer_set_count buffer_skip c_error c_error1 undefined_read getc setc
  compile_nonref_type compile_literal compile_symbol compile_assign compile_varset
  compile_global_var compile_global_def compile_def compile_var compile_block_loop
  compile_block compiler_gen_funcdef compile_function_params compile_function compile_if
  compile_while compile_do compile_quote compile_args compile_apply compile_tran
  compile_elements compile_array compile_table compile_form compile_value_body

theorem pool_pres_assign (cv : FormOptions → DstValue → Comp Slot)
    (hcv : ∀ o x, Pres PoolInv (cv o x)) (opts : FormOptions) (left right : DstValue) :
    Pres PoolInv (compile_assign cv opts left right) := by
  unfold compile_assign
  apply pres_bind (pres_compiler_tail _)
  intro _
  apply pres_bind (pool_pres_symbol_resolve _)
  intro r
  apply pres_ite
  · apply pres_ite (pres_c_error _ _)
    apply pres_bind
    · apply pres_ite
      · apply pres_bind (hcv _ _)
        intro _
        apply pres_bind (pool_pres_realize_slot _)
        intro _
        repeat (first
    | apply pres_bind
    | intro _
    | exact pres_pure _ _
    | exact pool_pres_push_op _
    | exact pool_pres_push_u16 _)
      · exact hcv _ _
    · intro _
      repeat (first
    | apply pres_bind
    | apply pres_ite
    | intro _
    | exact pres_pure _ _
    | exact pool_pres_drop_slot _ _)
  · apply pres_ite
    · apply pres_bind (hcv _ _)
      intro _
      exact hcv _ _
    · exact pres_c_error _ _

theorem pool_pres_varset (cv : FormOptions → DstValue → Comp Slot)
    (hcv : ∀ o x, Pres PoolInv (cv o x)) (opts : FormOptions) (form : List DstValue) :
    Pres PoolInv (compile_varset cv opts form) := by
  unfold compile_varset
  apply pres_ite (pres_c_error _ _)
  apply pres_bind (pres_form_at _ _ _)
  intro _
  apply pres_ite (pres_c_error _ _)
  apply pres_bind (pres_form_at _ _ _)
  intro _
  exact pool_pres_assign cv hcv _ _ _

theorem pool_pres_global_var (cv : FormOptions → DstValue → Comp Slot)
    (hcv : ∀ o x, Pres PoolInv (cv o x)) (opts : FormOptions) (form : List DstValue) :
    Pres PoolInv (compile_global_var cv opts form) := by
  unfold compile_global_var
  apply pres_bind (pres_form_at _ _ _)
  intro _
  apply pres_bind (pres_retag_string _ _)
  intro _
  apply pres_bind (pres_form_at _ _ _)
  intro _
  exact hcv _ _

theorem pool_pres_global_def (cv : FormOptions → DstValue → Comp Slot)
    (hcv : ∀ o x, Pres PoolInv (cv o x)) (opts : FormOptions) (form : List DstValue) :
    Pres PoolInv (compile_global_def cv opts form) := by
  unfold compile_global_def
  apply pres_bind (pres_form_at _ _ _)
  intro _
  apply pres_bind (pres_retag_string _ _)
  intro _
  apply pres_bind (pres_form_at _ _ _)
  intro _
  exact hcv _ _

theorem pool_pres_def (cv : FormOptions → DstValue → Comp Slot)
    (hcv : ∀ o x, Pres PoolInv (cv o x)) (opts : FormOptions) (form : List DstValue) :
    Pres PoolInv (compile_def cv opts form) := by
  unfold compile_def
  apply pres_bind (pres_compiler_tail _)
  intro _
  apply pres_ite (pres_c_error _ _)
  apply pres_bind (pres_form_at _ _ _)
  intro _
  apply pres_ite (pres_c_error _ _)
  apply pres_ite
  · apply pres_bind (pool_pres_declare_symbol _ _ _)
    intro _
    apply pres_bind (pres_form_at _ _ _)
    intro _
    apply pres_bind (hcv _ _)
    intro _
    exact pool_pres_coerce_slot _ _
  · exact pool_pres_global_def cv hcv _ _

theorem pool_pres_var (cv : FormOptions → DstValue → Comp Slot)
    (hcv : ∀ o x, Pres PoolInv (cv o x)) (opts : FormOptions) (form : List DstValue) :
    Pres PoolInv (compile_var cv opts form) := by
  unfold compile_var
  apply pres_bind (pres_compiler_tail _)
  intro _
  apply pres_ite (pres_c_error _ _)
  apply pres_bind (pres_form_at _ _ _)
  intro _
  apply pres_ite (pres_c_error _ _)
  apply pres_ite
  · apply pres_bind (pool_pres_declare_symbol _ _ _)
    intro _
    apply pres_bind (pres_form_at _ _ _)
    intro _
    apply pres_bind (hcv _ _)
    intro _
    exact pool_pres_coerce_slot _ _
  · exact pool_pres_global_var cv hcv _ _

end

theorem pool_pres_block_loop (cv : FormOptions → DstValue → Comp Slot)
    (hcv : ∀ o x, Pres PoolInv (cv o x)) (scope : Nat) (subOpts : FormOptions) :
    ∀ xs : List DstValue, Pres PoolInv (compile_block_loop cv scope subOpts xs)
  | [] => pres_pure _ _
  | x :: rest => by
    unfold compile_block_loop
    apply pres_bind (hcv _ _)
    intro _
    apply pres_bind (pool_pres_drop_slot _ _)
    intro _
    exact pool_pres_block_loop cv hcv scope subOpts rest

section

attribute [local irreducible] Pres Comp.bind Spec Spec2 GuardFree GuardRel compiler_tail scope_read scope_write scope_parent form_at
  retag_string symbol_resolve compile_symbol_touch compiler_get_local compiler_free_local
  compiler_drop_slot compiler_tracker_free compiler_tracker_write compiler_add_literal
  compiler_declare_symbol compiler_push_scope compiler_pop_scope recursion_guard_enter
  recursion_guard_leave compiler_get_target compiler_get_temp compiler_realize_slot
  compiler_coerce_slot compiler_return dst_buffer_push_op dst_buffer_push_u16
  dst_buffer_push_i16 dst_buffer_push_i32 dst_buffer_push_i64 dst_buffer_push_real
  buffer_count buffer_set_count buffer_skip c_error c_error1 undefined_read getc setc
  compile_nonref_type compile_literal compile_symbol compile_assign compile_varset
  compile_global_var compile_global_def compile_def compile_var compile_block_loop
  compile_block compiler_gen_funcdef compile_function_params compile_function compile_if
  compile_while compile_do compile_quote compile_args compile_apply compile_tran
  compile_elements compile_array compile_table compile_form compile_value_body

theorem pool_pres_block (cv : FormOptions → DstValue → Comp Slot)
    (hcv : ∀ o x, Pres PoolInv (cv o x)) (opts : FormOptions) (form : List DstValue)
    (startIndex : Nat) : Pres PoolInv (compile_block cv opts form startIndex) := by
  unfold compile_block
  apply pres_bind (pres_compiler_tail _)
  intro _
  apply pres_ite (pres_pure _ _)
  apply pres_bind (pool_pres_block_loop cv hcv _ _ _)
  intro _
  apply pres_bind (pres_form_at _ _ _)
  intro _
  exact hcv _ _

theorem pool_pres_function_params (subDstScope count : Nat) :
    ∀ (params : List DstValue) (i : Nat) (varargs : Bool) (arity : Nat),
      Pres PoolInv (compile_function_params subDstScope count i params varargs arity)
  | [], _, _, _ => by
    unfold compile_function_params
    exact pres_pure _ _
  | param :: rest, i, varargs, arity => by
    unfold compile_function_params
    apply pres_ite (pres_c_error _ _)
    apply pres_bind
    · repeat (first
    | apply pres_ite
    | exact pres_pure _ _
    | exact pres_c_error _ _)
    · intro va
      apply pres_bind (pool_pres_declare_symbol _ _ _)
      intro _
      exact pool_pres_function_params subDstScope count rest _ _ _

theorem pool_pres_function (cv : FormOptions → DstValue → Comp Slot)
    (hcv : ∀ o x, Pres PoolInv (cv o x)) (opts : FormOptions) (form : List DstValue) :
    Pres PoolInv (compile_function cv opts form) := by
  unfold compile_function
  apply pres_bind (pres_compiler_tail _)
  intro scope
  apply pres_ite (pres_pure _ _)
  apply pres_bind (pool_pres_get_target _)
  intro ret
  apply pres_bind (pool_pres_push_scope _)
  intro sub
  apply pres_bind (pres_form_at _ _ _)
  intro f1
  split
  · apply pres_bind (pool_pres_function_params _ _ _ _ _ _)
    intro va
    apply pres_bind (pres_buffer_count _)
    intro _
    apply pres_bind (pool_pres_block cv hcv _ _ _)
    intro _
    apply pres_bind (pool_pres_return _)
    intro _
    apply pres_bind (pres_buffer_count _)
    intro _
    apply pres_bind (pool_pres_gen_funcdef _ _ _)
    intro d
    apply pres_bind (pool_pres_add_literal _ _ (by simp))
    intro _
    repeat (first
    | apply pres_bind
    | intro _
    | exact pres_pure _ _
    | exact pool_pres_push_op _
    | exact pool_pres_push_u16 _)
  · exact pres_c_error _ _

theorem pool_pres_if (cv : FormOptions → DstValue → Comp Slot)
    (hcv : ∀ o x, Pres PoolInv (cv o x)) (opts : FormOptions) (form : List DstValue) :
    Pres PoolInv (compile_if cv opts form) := by
  unfold compile_if
  apply pres_bind (pres_compiler_tail _)
  intro scope
  apply pres_ite (pres_c_error _ _)
  apply pres_bind (pres_form_at _ _ _)
  intro f1
  apply pres_bind (hcv _ _)
  intro condition
  apply pres_ite
  · apply pres_ite
    · apply pres_bind (pres_form_at _ _ _)
      intro _
      exact hcv _ _
    · exact pres_pure _ _
  · apply pres_bind (pres_buffer_count _)
    intro _
    apply pres_bind (pool_pres_skip _)
    intro _
    apply pres_bind (pres_form_at _ _ _)
    intro _
    apply pres_bind (hcv _ _)
    intro left
    apply pres_bind
    · apply pres_ite
      · apply pres_bind (pool_pres_return _)
        intro _
        exact pres_pure _ _
      · repeat (first
    | apply pres_bind
    | apply pres_ite
    | intro _
    | exact pres_pure _ _
    | exact pres_buffer_count _
    | exact pool_pres_skip _)
    · intro _
      apply pres_bind (pool_pres_drop_slot _ _)
      intro _
      apply pres_bind (pres_buffer_count _)
      intro _
      apply pres_bind (pool_pres_set_count _)
      intro _
      apply pres_bind (pool_pres_push_op _)
      intro _
      apply pres_bind (pool_pres_push_u16 _)
      intro _
      apply pres_bind (pool_pres_push_i32 _)
      intro _
      apply pres_bind (pool_pres_set_count _)
      intro _
      apply pres_bind
      · apply pres_ite
        · apply pres_bind (pres_form_at _ _ _)
          intro _
          apply pres_bind (hcv _ _)
          intro right
          apply pres_bind
          · apply pres_ite (pool_pres_return _) (pres_pure _ _)
          · intro _
            exact pool_pres_drop_slot _ _
        · apply pres_ite
          · apply pres_bind (pool_pres_return _)
            intro _
            exact pres_pure _ _
          · exact pres_pure _ _
      · intro _
        apply pres_bind
        · repeat (first
    | apply pres_bind
    | apply pres_ite
    | intro _
    | exact pres_pure _ _
    | exact pres_buffer_count _
    | exact pool_pres_push_op _
    | exact pool_pres_push_i32 _
    | exact pool_pres_set_count _)
        · intro _
          repeat (first
    | apply pres_ite
    | exact pres_pure _ _)

theorem pool_pres_while (cv : FormOptions → DstValue → Comp Slot)
    (hcv : ∀ o x, Pres PoolInv (cv o x)) (opts : FormOptions) (form : List DstValue) :
    Pres PoolInv (compile_while cv opts form) := by
  unfold compile_while
  apply pres_bind (pres_buffer_count _)
  intro _
  apply pres_bind (pool_pres_push_scope _)
  intro _
  apply pres_bind (pres_form_at _ _ _)
  intro _
  apply pres_bind (hcv _ _)
  intro cond
  apply pres_ite (pres_pure _ _)
  apply pres_bind (pres_buffer_count _)
  intro _
  apply pres_bind (pool_pres_skip _)
  intro _
  apply pres_bind (pool_pres_block cv hcv _ _ _)
  intro _
  repeat (first
    | apply pres_bind
    | apply pres_ite
    | intro _
    | exact pres_pure _ _
    | exact pres_compiler_tail _
    | exact pres_buffer_count _
    | exact pool_pres_push_op _
    | exact pool_pres_push_u16 _
    | exact pool_pres_push_i32 _
    | exact pool_pres_set_count _
    | exact pool_pres_pop_scope
    | exact pool_pres_drop_slot _ _)

theorem pool_pres_do (cv : FormOptions → DstValue → Comp Slot)
    (hcv : ∀ o x, Pres PoolInv (cv o x)) (opts : FormOptions) (form : List DstValue) :
    Pres PoolInv (compile_do cv opts form) := by
  unfold compile_do
  apply pres_bind (pool_pres_push_scope _)
  intro _
  apply pres_bind (pool_pres_block cv hcv _ _ _)
  intro _
  repeat (first
    | apply pres_bind
    | intro _
    | exact pres_pure _ _
    | exact pool_pres_pop_scope)

theorem pool_pres_quote (opts : FormOptions) (form : List DstValue) :
    Pres PoolInv (compile_quote opts form) := by
  unfold compile_quote
  apply pres_bind (pres_compiler_tail _)
  intro scope
  apply pres_ite (pres_c_error _ _)
  apply pres_bind (pres_form_at _ _ _)
  intro x
  cases x <;> simp only [] <;>
    first
    | exact pool_pres_nonref_type _ _
    | (apply pres_ite (pres_pure _ _)
       apply pres_bind (pool_pres_get_target _)
       intro _
       apply pres_bind (pool_pres_add_literal _ _ (by simp))
       intro _
       repeat (first
    | apply pres_bind
    | intro _
    | exact pres_pure _ _
    | exact pool_pres_push_op _
    | exact pool_pres_push_u16 _))

end

theorem pool_pres_args (cv : FormOptions → DstValue → Comp Slot)
    (hcv : ∀ o x, Pres PoolInv (cv o x)) (subOpts : FormOptions) :
    ∀ (xs : List DstValue) (tracker : SlotTracker),
      Pres PoolInv (compile_args cv subOpts xs tracker)
  | [], _ => pres_pure _ _
  | x :: rest, tracker => by
    unfold compile_args
    apply pres_bind (hcv _ _)
    intro _
    exact pool_pres_args cv hcv subOpts rest _

theorem pool_pres_elements (cv : FormOptions → DstValue → Comp Slot)
    (hcv : ∀ o x, Pres PoolInv (cv o x)) (subOpts : FormOptions) :
    ∀ (xs : List DstValue) (tracker : SlotTracker),
      Pres PoolInv (compile_elements cv subOpts xs tracker)
  | [], _ => pres_pure _ _
  | x :: rest, tracker => by
    unfold compile_elements
    apply pres_bind (hcv _ _)
    intro _
    apply pres_bind (pool_pres_realize_slot _)
    intro _
    exact pool_pres_elements cv hcv subOpts rest _

section

attribute [local irreducible] Pres Comp.bind Spec Spec2 GuardFree GuardRel compiler_tail scope_read scope_write scope_parent form_at
  retag_string symbol_resolve compile_symbol_touch compiler_get_local compiler_free_local
  compiler_drop_slot compiler_tracker_free compiler_tracker_write compiler_add_literal
  compiler_declare_symbol compiler_push_scope compiler_pop_scope recursion_guard_enter
  recursion_guard_leave compiler_get_target compiler_get_temp compiler_realize_slot
  compiler_coerce_slot compiler_return dst_buffer_push_op dst_buffer_push_u16
  dst_buffer_push_i16 dst_buffer_push_i32 dst_buffer_push_i64 dst_buffer_push_real
  buffer_count buffer_set_count buffer_skip c_error c_error1 undefined_read getc setc
  compile_nonref_type compile_literal compile_symbol compile_assign compile_varset
  compile_global_var compile_global_def compile_def compile_var compile_block_loop
  compile_block compiler_gen_funcdef compile_function_params compile_function compile_if
  compile_while compile_do compile_quote compile_args compile_apply compile_tran
  compile_elements compile_array compile_table compile_form compile_value_body

theorem pool_pres_apply (cv : FormOptions → DstValue → Comp Slot)
    (hcv : ∀ o x, Pres PoolInv (cv o x)) (opts : FormOptions) (form : List DstValue) :
    Pres PoolInv (compile_apply cv opts form) := by
  unfold compile_apply
  apply pres_bind (pres_compiler_tail _)
  intro scope
  apply pres_ite (pres_c_error _ _)
  apply pres_bind (pres_form_at _ _ _)
  intro _
  apply pres_bind (hcv _ _)
  intro _
  apply pres_bind (pool_pres_realize_slot _)
  intro _
  apply pres_bind (pool_pres_args cv hcv _ _ _)
  intro _
  apply pres_bind (pres_form_at _ _ _)
  intro _
  apply pres_bind (hcv _ _)
  intro _
  apply pres_bind (pool_pres_realize_slot _)
  intro _
  apply pres_bind (pool_pres_drop_slot _ _)
  intro _
  apply pres_bind (pool_pres_drop_slot _ _)
  intro _
  apply pres_bind (pool_pres_tracker_free _ _)
  intro _
  apply pres_bind (pool_pres_push_op _)
  intro _
  apply pres_bind (pool_pres_push_u16 _)
  intro _
  apply pres_bind (pool_pres_tracker_write _ _)
  intro _
  apply pres_bind (pool_pres_push_op _)
  intro _
  apply pres_bind (pool_pres_push_u16 _)
  intro _
  apply pres_ite
  · repeat (first
    | apply pres_bind
    | intro _
    | exact pres_pure _ _
    | exact pool_pres_push_op _
    | exact pool_pres_push_u16 _)
  · apply pres_bind (pool_pres_get_target _)
    intro _
    repeat (first
    | apply pres_bind
    | intro _
    | exact pres_pure _ _
    | exact pool_pres_push_op _
    | exact pool_pres_push_u16 _)

theorem pool_pres_tran (cv : FormOptions → DstValue → Comp Slot)
    (hcv : ∀ o x, Pres PoolInv (cv o x)) (opts : FormOptions) (form : List DstValue) :
    Pres PoolInv (compile_tran cv opts form) := by
  unfold compile_tran
  apply pres_ite (pres_c_error _ _)
  apply pres_bind (pres_form_at _ _ _)
  intro _
  apply pres_bind (hcv _ _)
  intro _
  apply pres_bind (pool_pres_realize_slot _)
  intro _
  apply pres_bind
  · apply pres_ite
    · apply pres_bind (pres_form_at _ _ _)
      intro _
      apply pres_bind (hcv _ _)
      intro _
      exact pool_pres_realize_slot _
    · exact hcv _ _
  · intro _
    apply pres_bind (pool_pres_get_target _)
    intro _
    repeat (first
    | apply pres_bind
    | intro _
    | exact pres_pure _ _
    | exact pool_pres_push_op _
    | exact pool_pres_push_u16 _)

theorem pool_pres_array (cv : FormOptions → DstValue → Comp Slot)
    (hcv : ∀ o x, Pres PoolInv (cv o x)) (opts : FormOptions) (array : List DstValue) :
    Pres PoolInv (compile_array cv opts array) := by
  unfold compile_array
  apply pres_bind (pres_compiler_tail _)
  intro scope
  apply pres_bind (pool_pres_get_target _)
  intro _
  apply pres_bind (pool_pres_elements cv hcv _ _ _)
  intro _
  apply pres_bind (pool_pres_tracker_free _ _)
  intro _
  apply pres_bind (pool_pres_push_op _)
  intro _
  apply pres_bind (pool_pres_push_u16 _)
  intro _
  apply pres_bind (pool_pres_push_u16 _)
  intro _
  apply pres_bind (pool_pres_tracker_write _ _)
  intro _
  exact pres_pure _ _

theorem pool_pres_table (cv : FormOptions → DstValue → Comp Slot)
    (hcv : ∀ o x, Pres PoolInv (cv o x)) (opts : FormOptions) (tab : List DstValue) :
    Pres PoolInv (compile_table cv opts tab) := by
  unfold compile_table
  apply pres_bind (pres_compiler_tail _)
  intro scope
  apply pres_bind (pool_pres_get_target _)
  intro _
  apply pres_bind (pool_pres_elements cv hcv _ _ _)
  intro _
  apply pres_bind (pool_pres_tracker_free _ _)
  intro _
  apply pres_bind (pool_pres_push_op _)
  intro _
  apply pres_bind (pool_pres_push_u16 _)
  intro _
  apply pres_bind (pool_pres_push_u16 _)
  intro _
  apply pres_bind (pool_pres_tracker_write _ _)
  intro _
  exact pres_pure _ _

theorem pool_pres_form (cv : FormOptions → DstValue → Comp Slot)
    (hcv : ∀ o x, Pres PoolInv (cv o x)) (opts : FormOptions) (form : List DstValue) :
    Pres PoolInv (compile_form cv opts form) := by
  unfold compile_form
  apply pres_bind (pres_compiler_tail _)
  intro scope
  apply pres_ite (pool_pres_nonref_type _ _)
  split
  · exact pool_pres_apply cv hcv _ _
  · exact pool_pres_do cv hcv _ _
  · exact pool_pres_def cv hcv _ _
  · exact pool_pres_if cv hcv _ _
  · exact pool_pres_function cv hcv _ _
  · exact pool_pres_quote _ _
  · exact pool_pres_tran cv hcv _ _
  · exact pool_pres_var cv hcv _ _
  · exact pool_pres_varset cv hcv _ _
  · exact pool_pres_while cv hcv _ _
  · apply pres_bind (pres_form_at _ _ _)
    intro _
    apply pres_bind (hcv _ _)
    intro _
    apply pres_bind (pool_pres_realize_slot _)
    intro _
    apply pres_bind (pool_pres_args cv hcv _ _ _)
    intro _
    apply pres_bind (pool_pres_drop_slot _ _)
    intro _
    apply pres_bind (pool_pres_tracker_free _ _)
    intro _
    apply pres_bind (pool_pres_push_op _)
    intro _
    apply pres_bind (pool_pres_push_u16 _)
    intro _
    apply pres_bind (pool_pres_tracker_write _ _)
    intro _
    apply pres_ite
    · repeat (first
    | apply pres_bind
    | intro _
    | exact pres_pure _ _
    | exact pool_pres_push_op _
    | exact pool_pres_push_u16 _)
    · apply pres_bind (pool_pres_get_target _)
      intro _
      repeat (first
    | apply pres_bind
    | intro _
    | exact pres_pure _ _
    | exact pool_pres_push_op _
    | exact pool_pres_push_u16 _)

theorem pool_pres_value_body (cv : FormOptions → DstValue → Comp Slot)
    (hcv : ∀ o x, Pres PoolInv (cv o x)) (opts : FormOptions) (x : DstValue) :
    Pres PoolInv (compile_value_body cv opts x) := by
  unfold compile_value_body
  apply pres_bind pool_pres_guard_enter
  intro _
  apply pres_ite (pres_c_error _ _)
  apply pres_bind
  · split
    · exact pool_pres_nonref_type _ _
    · exact pool_pres_nonref_type _ _
    · exact pool_pres_nonref_type _ _
    · exact pool_pres_nonref_type _ _
    · exact pool_pres_symbol cv hcv _ _
    · exact pool_pres_form cv hcv _ _
    · exact pool_pres_array cv hcv _ _
    · exact pool_pres_table cv hcv _ _
    · exact pool_pres_literal _ _
  · intro _
    repeat (first
    | apply pres_bind
    | intro _
    | exact pres_pure _ _
    | exact pool_pres_guard_leave)

end

theorem pool_pres_value : ∀ (n : Nat) (opts : FormOptions) (x : DstValue),
    Pres PoolInv (compile_value n opts x)
  | 0, _, _ => pres_c_error _ _
  | n + 1, opts, x => pool_pres_value_body _ (pool_pres_value n) opts x

theorem dst_compile_ok {env : DstEnv} {form : DstValue} {guard : Nat} {f : DstFunction}
    {c : DstCompiler} (h : dst_compile env form guard = .ok f c) :
    ∃ slot d,
      (compiler_push_scope false >>= fun _ =>
        compile_value guard { form_options_default with isTail := true } form >>= fun slot =>
        compiler_return slot >>= fun _ =>
        buffer_count >>= fun count =>
        compiler_gen_funcdef count 0 false >>= fun d =>
        (pure (slot, d) : Comp (Slot × DstPtr)))
        { vm := { funcdefs := [], tables := [], arrays := [] }, scopes := [],
          buffer := { data := [], count := 0 }, env := env, recursionGuard := guard } =
      .ok (slot, d) c := by
  unfold dst_compile at h
  simp only [bind, Comp.bind, pure] at h ⊢
  split at h
  · next f1 c1 heq =>
    cases h
    revert heq
    repeat' split
    all_goals first
      | (intro heq; cases heq; exact ⟨_, _, rfl⟩)
      | (intro heq; cases heq)
  · split at h <;> cases h
  · cases h

theorem PoolInv_dst_compile {env : DstEnv} {form : DstValue} {guard : Nat} {f : DstFunction}
    {c : DstCompiler} (h : dst_compile env form guard = .ok f c) : PoolInv c := by
  obtain ⟨slot, d, hrun⟩ := dst_compile_ok h
  refine pres_of_ok ?_ (PoolInv_init env guard) hrun
  apply pres_bind (pool_pres_push_scope _)
  intro _
  apply pres_bind (pool_pres_value _ _ _)
  intro _
  apply pres_bind (pool_pres_return _)
  intro _
  apply pres_bind (pres_buffer_count _)
  intro _
  apply pres_bind (pool_pres_gen_funcdef _ _ _)
  intro _
  exact pres_pure _ _

set_option maxHeartbeats 4000000 in
theorem form_repeated_literal_compiles (env : DstEnv) (g : Nat) :
    Result.funcdefs (dst_compile env form_repeated_literal (g + 3)) =
      [funcdef_repeated_literal] := by
  (dsimp [funcdef_repeated_literal, no_flags, form_repeated_literal, compile_array,
    compile_elements, drop_succ_nil, take_succ_nil, get_special_apply, get_special_do, get_special_def,
    get_special_if, get_special_fn, get_special_quote, get_special_tran, get_special_var,
    get_special_varset, get_special_while, get_special_plus, get_special_global_def,
    get_special_global_var, Result.funcdefs, compiled, dst_compile, compile_value_succ, compile_value_body,
    compile_nonref_type, compile_literal, compiler_push_scope, bind, pure, Comp.bind, getc, setc,
    form_options_default, compiler_get_target, compiler_get_temp, compiler_tail,
    compiler_get_local, compiler_free_local, compiler_drop_slot, scope_read, scope_write,
    dst_buffer_push_op, dst_buffer_push_u16, dst_buffer_push_i16, dst_buffer_push_i32, int_word,
    DstBuffer.put, DstBuffer.skip, buffer_skip, compiler_return, buffer_count,
    compiler_gen_funcdef, buffer_set_count, compiler_pop_scope, c_error, c_error1,
    DstValue.isNil, compile_form, compile_function, form_at,
    compile_function_params, compiler_declare_symbol, equal_cstr, DstValue.asString,
    DstValue.isSymbol, dst_table_put, compile_block, compile_block_loop, compile_symbol,
    symbol_resolve, symbol_resolve_scopes, dst_table_get, dst_equals, DstValue.asInteger,
    compiler_add_literal, nil_slot, compile_symbol_touch, scope_parent, compile_if, compile_do,
    compile_def, compile_while, compile_args, compiler_realize_slot, compiler_coerce_slot,
    compiler_tracker_free, compiler_tracker_free_loop, compiler_tracker_write,
    compiler_tracker_write_loop, compiler_tracker_push, tracker_init, dst_string_cvs,
    dst_string_cv, undefined_read, recursion_guard_enter, recursion_guard_leave] <;> simp [funcdef_repeated_literal, no_flags, form_repeated_literal, compile_array,
    compile_elements, Result.funcdefs, compiled, dst_compile, compile_value_succ, compile_value_body,
    compile_nonref_type, compile_literal, compiler_push_scope, bind, pure, Comp.bind, getc, setc,
    form_options_default, compiler_get_target, compiler_get_temp, compiler_tail,
    compiler_get_local, compiler_free_local, compiler_drop_slot, scope_read, scope_write,
    dst_buffer_push_op, dst_buffer_push_u16, dst_buffer_push_i16, dst_buffer_push_i32, int_word,
    DstBuffer.put, DstBuffer.skip, buffer_skip, compiler_return, buffer_count,
    compiler_gen_funcdef, buffer_set_count, compiler_pop_scope, c_error, c_error1,
    DstValue.isNil, compile_form, get_special, name_at, compile_function, form_at,
    compile_function_params, compiler_declare_symbol, equal_cstr, DstValue.asString,
    DstValue.isSymbol, dst_table_put, compile_block, compile_block_loop, compile_symbol,
    symbol_resolve, symbol_resolve_scopes, dst_table_get, dst_equals, DstValue.asInteger,
    compiler_add_literal, nil_slot, compile_symbol_touch, scope_parent, compile_if, compile_do,
    compile_def, compile_while, compile_args, compiler_realize_slot, compiler_coerce_slot,
    compiler_tracker_free, compiler_tracker_free_loop, compiler_tracker_write,
    compiler_tracker_write_loop, compiler_tracker_push, tracker_init, dst_string_cvs,
    dst_string_cv, undefined_read, recursion_guard_enter, recursion_guard_leave])

theorem getElem?_append_some {w1 w2 : List Word} {i : Nat} {x : Word}
    (h : w1[i]? = some x) : (w1 ++ w2)[i]? = some x := by
  have hi : i < w1.length := by
    by_contra hc
    rw [List.getElem?_eq_none (by omega)] at h
    cases h
  rw [List.getElem?_append_left hi]; exact h

theorem getElem?_lt_of_some {w : List Word} {i : Nat} {x : Word}
    (h : w[i]? = some x) : i < w.length := by
  by_contra hc
  rw [List.getElem?_eq_none (by omega)] at h
  cases h

theorem getElem?_append_shift (w1 w2 : List Word) (p : Nat) :
    (w1 ++ w2)[w1.length + p]? = w2[p]? := by
  rw [List.getElem?_append_right (by omega)]
  congr 1; omega

theorem jump_offset_some_iff (w : List Word) (p : Nat) (off : Int) :
    jump_offset w p = some off ↔
      (∃ c lo hi, w[p]? = some (.op .JIF) ∧ w[p + 1]? = some (.u16 c) ∧
        w[p + 2]? = some (.u16 lo) ∧ w[p + 3]? = some (.u16 hi) ∧ off = decode_i32 lo hi) ∨
      (∃ lo hi, w[p]? = some (.op .JMP) ∧ w[p + 1]? = some (.u16 lo) ∧
        w[p + 2]? = some (.u16 hi) ∧ off = decode_i32 lo hi) := by
  unfold jump_offset
  constructor
  · intro h
    split at h
    · left
      rename_i c lo hi h0 h1 h2 h3
      refine ⟨c, lo, hi, h0, h1, h2, h3, ?_⟩
      simp only [Option.some.injEq] at h
      exact h.symm
    · right
      rename_i lo hi h0 h1 h2
      refine ⟨lo, hi, h0, h1, h2, ?_⟩
      simp only [Option.some.injEq] at h
      exact h.symm
    · cases h
  · rintro (⟨c, lo, hi, h0, h1, h2, h3, rfl⟩ | ⟨lo, hi, h0, h1, h2, rfl⟩)
    · rw [h0, h1, h2, h3]
    · rw [h0, h1, h2]

theorem jump_offset_is_jump {w : List Word} {p : Nat} {off : Int}
    (h : jump_offset w p = some off) :
    w[p]? = some (.op .JIF) ∨ w[p]? = some (.op .JMP) := by
  rcases (jump_offset_some_iff w p off).1 h with ⟨_, _, _, h0, _⟩ | ⟨_, _, h0, _⟩
  · exact Or.inl h0
  · exact Or.inr h0

theorem jump_offset_append_right (w1 w2 : List Word) (p : Nat) :
    jump_offset (w1 ++ w2) (w1.length + p) = jump_offset w2 p := by
  unfold jump_offset
  have h : ∀ k, (w1 ++ w2)[w1.length + p + k]? = w2[p + k]? := by
    intro k
    rw [Nat.add_assoc, getElem?_append_shift]
  rw [getElem?_append_shift, h 1, h 2, h 3]

theorem jump_offset_append_left {w1 : List Word} (w2 : List Word) {p : Nat} {off : Int}
    (h : jump_offset w1 p = some off) : jump_offset (w1 ++ w2) p = some off := by
  rw [jump_offset_some_iff] at h ⊢
  rcases h with ⟨c, lo, hi, h0, h1, h2, h3, rfl⟩ | ⟨lo, hi, h0, h1, h2, rfl⟩
  · exact Or.inl ⟨c, lo, hi, getElem?_append_some h0, getElem?_append_some h1,
      getElem?_append_some h2, getElem?_append_some h3, rfl⟩
  · exact Or.inr ⟨lo, hi, getElem?_append_some h0, getElem?_append_some h1,
      getElem?_append_some h2, rfl⟩

theorem takeWhile_headOp (a b : List Word) (hb : HeadOp b) :
    (a ++ b).takeWhile (fun w => !w.isOp) = a.takeWhile (fun w => !w.isOp) := by
  induction a with
  | nil =>
    cases b with
    | nil => rfl
    | cons x r =>
      have := hb x rfl
      simp [List.takeWhile, this]
  | cons x r ih =>
    simp only [List.cons_append, List.takeWhile]
    cases hx : (!x.isOp) <;> simp [ih]

theorem takeWhile_stop (l : List Word) :
    (l.takeWhile (fun w => !w.isOp)).length ≤ l.length ∧
    ∀ x, l[(l.takeWhile (fun w => !w.isOp)).length]? = some x → x.isOp = true := by
  induction l with
  | nil => simp
  | cons y r ih =>
    simp only [List.takeWhile]
    cases hy : (!y.isOp)
    · simp only [List.length_nil, Nat.zero_le, List.getElem?_cons_zero, Option.some.injEq,
        true_and]
      intro x hx; subst hx; simpa using hy
    · simp only [List.length_cons, Nat.add_le_add_iff_right, List.getElem?_cons_succ]
      exact ih

theorem next_instr_append_right (w1 w2 : List Word) (p : Nat) :
    next_instr (w1 ++ w2) (w1.length + p) = w1.length + next_instr w2 p := by
  unfold next_instr
  have : List.drop (w1.length + p + 1) (w1 ++ w2) = List.drop (p + 1) w2 := by
    rw [Nat.add_assoc, List.drop_append]
  rw [this]; omega

theorem next_instr_append_left (w1 w2 : List Word) (p : Nat) (hp : p < w1.length)
    (h2 : HeadOp w2) : next_instr (w1 ++ w2) p = next_instr w1 p := by
  unfold next_instr
  rw [List.drop_append_of_le_length (by omega), takeWhile_headOp _ _ h2]

theorem next_instr_bound (w : List Word) (p : Nat) (hp : p < w.length) :
    next_instr w p ≤ w.length ∧
    (next_instr w p < w.length → ∃ o, w[next_instr w p]? = some (.op o)) := by
  unfold next_instr
  have h := takeWhile_stop (w.drop (p + 1))
  rw [List.length_drop] at h
  refine ⟨by omega, ?_⟩
  intro hlt
  have h2 := h.2
  rw [List.getElem?_drop] at h2
  have hlt2 : p + 1 + (List.takeWhile (fun w => !w.isOp) (List.drop (p + 1) w)).length
      < w.length := by omega
  cases hx : w[p + 1 + (List.takeWhile (fun w => !w.isOp) (List.drop (p + 1) w)).length]? with
  | none =>
    rw [List.getElem?_eq_none_iff] at hx; omega
  | some x =>
    have := h2 x hx
    cases x with
    | op o => exact ⟨o, rfl⟩
    | u16 n => cases this

/-! ## Control inside a fragment and across two fragments -/

theorem opOrEnd_zero {w : List Word} (h : HeadOp w) : OpOrEnd w 0 := by
  refine ⟨Nat.zero_le _, ?_⟩
  intro hlt
  cases w with
  | nil => simp at hlt
  | cons x r =>
    have := h x rfl
    cases x with
    | op o => exact ⟨o, by simp⟩
    | u16 n => cases this

theorem opOrEnd_length (w : List Word) : OpOrEnd w w.length :=
  ⟨Nat.le_refl _, fun h => absurd h (Nat.lt_irrefl _)⟩

theorem headOp_append {w1 w2 : List Word} (h1 : HeadOp w1) (h2 : HeadOp w2) :
    HeadOp (w1 ++ w2) := by
  cases w1 with
  | nil => simpa using h2
  | cons x r => intro y hy; exact h1 y (by simpa using hy)

theorem headOp_nil : HeadOp [] := by
  intro x hx; cases hx

theorem headOp_cons (o : DstOp) (r : List Word) : HeadOp (.op o :: r) := by
  intro x hx
  simp only [List.head?_cons, Option.some.injEq] at hx
  subst hx; rfl

theorem opOrEnd_append_left {w1 w2 : List Word} {t : Nat} (h : OpOrEnd w1 t)
    (h2 : HeadOp w2) : OpOrEnd (w1 ++ w2) t := by
  refine ⟨by rw [List.length_append]; exact Nat.le_trans h.1 (Nat.le_add_right _ _), ?_⟩
  intro hlt
  by_cases ht : t < w1.length
  · obtain ⟨o, ho⟩ := h.2 ht
    exact ⟨o, getElem?_append_some ho⟩
  · have hte : t = w1.length := Nat.le_antisymm h.1 (Nat.le_of_not_lt ht)
    subst hte
    have := getElem?_append_shift w1 w2 0
    rw [Nat.add_zero] at this
    rw [this]
    rw [List.length_append] at hlt
    exact (opOrEnd_zero h2).2 (by omega)

theorem opOrEnd_append_right {w2 : List Word} (w1 : List Word) {t : Nat} (h : OpOrEnd w2 t) :
    OpOrEnd (w1 ++ w2) (w1.length + t) := by
  refine ⟨by rw [List.length_append]; exact Nat.add_le_add_left h.1 _, ?_⟩
  intro hlt
  rw [getElem?_append_shift]
  rw [List.length_append] at hlt
  exact h.2 (by omega)

theorem jumpAt_of_not_jump {w : List Word} {p : Nat}
    (h : ¬ (w[p]? = some (.op .JIF) ∨ w[p]? = some (.op .JMP))) : JumpAt w p :=
  fun hj => absurd hj h

theorem jumpAt_left {w1 w2 : List Word} {p : Nat} (h : JumpAt w1 p) (hp : p < w1.length)
    (h2 : HeadOp w2) : JumpAt (w1 ++ w2) p := by
  intro hj
  rw [List.getElem?_append_left hp] at hj
  obtain ⟨off, t, ho, ht, hoe⟩ := h hj
  exact ⟨off, t, jump_offset_append_left w2 ho, ht, opOrEnd_append_left hoe h2⟩

theorem jumpAt_right {w2 : List Word} (w1 : List Word) {p : Nat} (h : JumpAt w2 p) :
    JumpAt (w1 ++ w2) (w1.length + p) := by
  intro hj
  rw [getElem?_append_shift] at hj
  obtain ⟨off, t, ho, ht, hoe⟩ := h hj
  refine ⟨off, w1.length + t, ?_, ?_, opOrEnd_append_right w1 hoe⟩
  · rw [jump_offset_append_right]; exact ho
  · push_cast; omega

theorem jumpsIn_nil : JumpsIn [] := by
  intro p hj
  simp at hj

theorem jumpsIn_append {w1 w2 : List Word} (h1 : JumpsIn w1) (h2 : JumpsIn w2)
    (hh : HeadOp w2) : JumpsIn (w1 ++ w2) := by
  intro p
  by_cases hp : p < w1.length
  · exact jumpAt_left (h1 p) hp hh
  · obtain ⟨k, rfl⟩ : ∃ k, p = w1.length + k := ⟨p - w1.length, by omega⟩
    exact jumpAt_right w1 (h2 k)

theorem step_source_lt {w : List Word} {p q : Nat} (h : Step w p q) : p < w.length := by
  cases h with
  | fall h0 _ _ _ _ => exact getElem?_lt_of_some h0
  | jump hj =>
    rcases jump_offset_is_jump hj with h0 | h0 <;> exact getElem?_lt_of_some h0

theorem step_ok {w : List Word} {p q : Nat} (hw : JumpsIn w) (h : Step w p q) :
    OpOrEnd w q := by
  have hp := step_source_lt h
  cases h with
  | fall h0 _ _ _ _ => exact next_instr_bound w p hp
  | jump hj =>
    obtain ⟨off1, t, ho, ht, hoe⟩ := hw p (jump_offset_is_jump hj)
    rw [hj] at ho
    simp only [Option.some.injEq] at ho
    subst ho
    rw [ht, Int.toNat_ofNat]
    exact hoe

theorem reach_ok {w : List Word} {s q : Nat} (hw : JumpsIn w) (hs : OpOrEnd w s)
    (h : ReachFrom w s q) : OpOrEnd w q := by
  induction h with
  | start => exact hs
  | step _ hst _ => exact step_ok hw hst

theorem step_left {w1 w2 : List Word} {p q : Nat} (h1 : JumpsIn w1) (h2 : HeadOp w2)
    (hp : p < w1.length) (h : Step (w1 ++ w2) p q) : Step w1 p q := by
  cases h with
  | fall h0 a b c d =>
    rw [List.getElem?_append_left hp] at h0
    rw [next_instr_append_left w1 w2 p hp h2]
    exact Step.fall h0 a b c d
  | jump hj =>
    have hj0 := jump_offset_is_jump hj
    rw [List.getElem?_append_left hp] at hj0
    obtain ⟨off1, t, ho, _, _⟩ := h1 p hj0
    have := jump_offset_append_left w2 ho
    rw [hj] at this
    simp only [Option.some.injEq] at this
    subst this
    exact Step.jump ho

theorem step_right {w1 w2 : List Word} {p q : Nat} (h2 : JumpsIn w2)
    (h : Step (w1 ++ w2) (w1.length + p) q) : ∃ q2, q = w1.length + q2 ∧ Step w2 p q2 := by
  generalize hp1 : w1.length + p = p1 at h
  cases h with
  | fall h0 a b c d =>
    subst hp1
    rw [getElem?_append_shift] at h0
    exact ⟨next_instr w2 p, next_instr_append_right w1 w2 p, Step.fall h0 a b c d⟩
  | @jump off hj =>
    subst hp1
    rw [jump_offset_append_right] at hj
    obtain ⟨off1, t, ho, ht, _⟩ := h2 p (jump_offset_is_jump hj)
    rw [hj] at ho
    simp only [Option.some.injEq] at ho
    subst ho
    refine ⟨((p : Int) + off).toNat, ?_, Step.jump hj⟩
    rw [ht, Int.toNat_ofNat]
    have : ((w1.length + p : Nat) : Int) + off = ((w1.length + t : Nat) : Int) := by
      push_cast; omega
    rw [this, Int.toNat_ofNat]

theorem reach_right {w1 w2 : List Word} {s q : Nat} (h2 : JumpsIn w2)
    (h : ReachFrom (w1 ++ w2) (w1.length + s) q) :
    ∃ q2, q = w1.length + q2 ∧ ReachFrom w2 s q2 := by
  induction h with
  | start => exact ⟨s, rfl, ReachFrom.start⟩
  | step _ hst ih =>
    obtain ⟨p2, rfl, hr⟩ := ih
    obtain ⟨q2, rfl, hs2⟩ := step_right h2 hst
    exact ⟨q2, rfl, ReachFrom.step hr hs2⟩

theorem reach_left {w1 w2 : List Word} {s q : Nat} (h1 : JumpsIn w1) (h2 : JumpsIn w2)
    (hh : HeadOp w2) (hs : s ≤ w1.length) (h : ReachFrom (w1 ++ w2) s q) :
    (q ≤ w1.length ∧ ReachFrom w1 s q) ∨
    (ReachFrom w1 s w1.length ∧ ∃ q2, q = w1.length + q2 ∧ ReachFrom w2 0 q2) := by
  induction h with
  | start => exact Or.inl ⟨hs, ReachFrom.start⟩
  | @step p q _ hst ih =>
    rcases ih with ⟨hp, hr⟩ | ⟨hr, p2, rfl, hr2⟩
    · by_cases hlt : p < w1.length
      · have hs1 := step_left h1 hh hlt hst
        exact Or.inl ⟨(step_ok h1 hs1).1, ReachFrom.step hr hs1⟩
      · have hpe : p = w1.length + 0 := by omega
        rw [hpe] at hst
        obtain ⟨q2, rfl, hs2⟩ := step_right h2 hst
        have hpe2 : p = w1.length := by omega
        rw [hpe2] at hr
        exact Or.inr ⟨hr, q2, rfl, ReachFrom.step ReachFrom.start hs2⟩
    · obtain ⟨q2, rfl, hs2⟩ := step_right h2 hst
      exact Or.inr ⟨hr, q2, rfl, ReachFrom.step hr2 hs2⟩

theorem noExit_ne_nil {w : List Word} (h : NoExit w) : w ≠ [] := by
  intro hw; subst hw
  exact h ReachFrom.start

theorem noExit_append_left {w1 w2 : List Word} (h1 : JumpsIn w1) (h2 : JumpsIn w2)
    (hh : HeadOp w2) (hn : NoExit w1) : NoExit (w1 ++ w2) := by
  intro hr
  rcases reach_left h1 h2 hh (Nat.zero_le _) hr with ⟨hle, hr1⟩ | ⟨hr1, _⟩
  · rw [List.length_append] at hle hr1
    have : w1.length + w2.length = w1.length := by omega
    rw [this] at hr1
    exact hn hr1
  · exact hn hr1

theorem noExit_append_right {w1 w2 : List Word} (h1 : JumpsIn w1) (h2 : JumpsIn w2)
    (hh : HeadOp w2) (hn : NoExit w2) : NoExit (w1 ++ w2) := by
  intro hr
  rcases reach_left h1 h2 hh (Nat.zero_le _) hr with ⟨hle, _⟩ | ⟨_, q2, hq, hr2⟩
  · rw [List.length_append] at hle
    have : w2.length = 0 := by omega
    exact noExit_ne_nil hn (List.length_eq_zero.1 this)
  · rw [List.length_append] at hq
    have : q2 = w2.length := by omega
    subst this
    exact hn hr2

/-! ## Instructions, jump blocks and closed fragments -/

theorem ops_getElem?_not_op {t : List Word} (ht : Ops t) (p : Nat) (o : DstOp) :
    t[p]? ≠ some (.op o) := by
  intro h
  have := ht _ (List.mem_iff_getElem?.2 ⟨p, h⟩)
  cases this

theorem ops_nil : Ops [] := by
  intro x hx; cases hx

theorem ops_append {a b : List Word} (ha : Ops a) (hb : Ops b) : Ops (a ++ b) := by
  intro x hx
  rcases List.mem_append.1 hx with h | h
  · exact ha x h
  · exact hb x h

theorem ops_singleton (n : Nat) : Ops [.u16 n] := by
  intro x hx
  simp only [List.mem_singleton] at hx
  subst hx; rfl

theorem instr_not_jump {o : DstOp} {t : List Word} (h1 : o ≠ .JIF) (h2 : o ≠ .JMP)
    (ht : Ops t) (p : Nat) :
    ¬ ((Word.op o :: t)[p]? = some (.op .JIF) ∨ (Word.op o :: t)[p]? = some (.op .JMP)) := by
  cases p with
  | zero =>
    simp only [List.getElem?_cons_zero, Option.some.injEq, Word.op.injEq]
    rintro (h | h)
    · exact h1 h
    · exact h2 h
  | succ p =>
    simp only [List.getElem?_cons_succ]
    rintro (h | h)
    · exact ops_getElem?_not_op ht p _ h
    · exact ops_getElem?_not_op ht p _ h

theorem jumpsIn_instr {o : DstOp} {t : List Word} (h1 : o ≠ .JIF) (h2 : o ≠ .JMP)
    (ht : Ops t) : JumpsIn (.op o :: t) :=
  fun p => jumpAt_of_not_jump (instr_not_jump h1 h2 ht p)

theorem strict_instr {o : DstOp} {t : List Word} (h1 : o ≠ .JIF) (h2 : o ≠ .JMP)
    (ht : Ops t) : Strict (.op o :: t) := by
  intro p off h
  exact absurd (jump_offset_is_jump h) (instr_not_jump h1 h2 ht p)

theorem strict_nil : Strict [] := by
  intro p off h
  have := jump_offset_is_jump h
  simp at this

theorem noExit_terminal {o : DstOp} {t : List Word}
    (ho : o = .RET ∨ o = .RTN ∨ o = .TCL) : NoExit (.op o :: t) := by
  have key : ∀ q, ReachFrom (.op o :: t) 0 q → q = 0 := by
    intro q h
    induction h with
    | start => rfl
    | step _ hst ih =>
      subst ih
      cases hst with
      | fall h0 a b c d =>
        simp only [List.getElem?_cons_zero, Option.some.injEq, Word.op.injEq] at h0
        subst h0
        rcases ho with h | h | h
        · exact absurd h a
        · exact absurd h b
        · exact absurd h c
      | jump hj =>
        exfalso
        rcases jump_offset_is_jump hj with h0 | h0 <;>
          simp only [List.getElem?_cons_zero, Option.some.injEq, Word.op.injEq] at h0 <;>
          subst h0 <;> rcases ho with h | h | h <;> cases h
  intro h
  have := key _ h
  simp at this

theorem strict_append {w1 w2 : List Word} (h1 : JumpsIn w1) (hs1 : w2 = [] → Strict w1)
    (hs2 : Strict w2) : Strict (w1 ++ w2) := by
  intro p off h
  by_cases hp : p < w1.length
  · have hj := jump_offset_is_jump h
    rw [List.getElem?_append_left hp] at hj
    obtain ⟨off1, t, ho, ht, hoe⟩ := h1 p hj
    have := jump_offset_append_left w2 ho
    rw [h] at this
    simp only [Option.some.injEq] at this
    subst this
    rw [ht, List.length_append]
    intro heq
    have heq2 : t = w1.length + w2.length := by exact_mod_cast heq
    have hle := hoe.1
    have hw2 : w2 = [] := List.length_eq_zero.1 (by omega)
    apply hs1 hw2 p off ho
    rw [ht]
    subst hw2
    simp only [List.length_nil, Nat.add_zero] at heq2
    rw [heq2]
  · obtain ⟨k, rfl⟩ : ∃ k, p = w1.length + k := ⟨p - w1.length, by omega⟩
    rw [jump_offset_append_right] at h
    have := hs2 k off h
    rw [List.length_append]
    push_cast
    omega

theorem goodFrag_nil : GoodFrag [] := ⟨headOp_nil, fun _ => jumpsIn_nil⟩

theorem goodFrag_append {w1 w2 : List Word} (h1 : GoodFrag w1) (h2 : GoodFrag w2) :
    GoodFrag (w1 ++ w2) := by
  refine ⟨headOp_append h1.1 h2.1, ?_⟩
  intro hl
  rw [List.length_append] at hl
  exact jumpsIn_append (h1.2 (by omega)) (h2.2 (by omega)) h2.1

theorem goodFrag_instr {o : DstOp} {t : List Word} (h1 : o ≠ .JIF) (h2 : o ≠ .JMP)
    (ht : Ops t) : GoodFrag (.op o :: t) :=
  ⟨headOp_cons o t, fun _ => jumpsIn_instr h1 h2 ht⟩

theorem closedFrag_behind {w1 r : List Word} (h1 : GoodFrag w1) (h2 : GoodFrag r)
    (hc : ClosedFrag r) : ClosedFrag (w1 ++ r) := by
  refine ⟨?_, ?_⟩
  · intro h
    exact hc.1 (List.append_eq_nil.1 h).2
  · intro hl
    rw [List.length_append] at hl
    have hj1 := h1.2 (by omega)
    have hj2 := h2.2 (by omega)
    obtain ⟨hs, hn⟩ := hc.2 (by omega)
    exact ⟨strict_append hj1 (fun h => absurd h hc.1) hs,
      noExit_append_right hj1 hj2 h2.1 hn⟩

theorem closedFrag_suffix {w1 w2 : List Word} (h1 : GoodFrag w1) (hc : ClosedFrag w1)
    (h2 : GoodFrag w2) (hs2 : Strict w2) : ClosedFrag (w1 ++ w2) := by
  refine ⟨?_, ?_⟩
  · intro h
    exact hc.1 (List.append_eq_nil.1 h).1
  · intro hl
    rw [List.length_append] at hl
    have hj1 := h1.2 (by omega)
    have hj2 := h2.2 (by omega)
    obtain ⟨hs, hn⟩ := hc.2 (by omega)
    exact ⟨strict_append hj1 (fun _ => hs) hs2, noExit_append_left hj1 hj2 h2.1 hn⟩

theorem closedFrag_terminal {o : DstOp} {t : List Word}
    (ho : o = .RET ∨ o = .RTN ∨ o = .TCL) (ht : Ops t) : ClosedFrag (.op o :: t) := by
  have h1 : o ≠ .JIF := by rcases ho with h | h | h <;> subst h <;> decide
  have h2 : o ≠ .JMP := by rcases ho with h | h | h <;> subst h <;> decide
  exact ⟨by simp, fun _ => ⟨strict_instr h1 h2 ht, noExit_terminal ho⟩⟩

theorem prefixClosed_formFrag (opts : FormOptions) : PrefixClosed (FormFrag opts) := by
  intro a w r hw ⟨hg, ht, hc⟩
  exact ⟨goodFrag_append hw hg, ht, fun h => closedFrag_behind hw hg (hc h)⟩

theorem prefixClosed_good {α : Type} (Q : α → Prop) :
    PrefixClosed (fun (a : α) w => GoodFrag w ∧ Q a) := by
  intro a w r hw ⟨hg, hq⟩
  exact ⟨goodFrag_append hw hg, hq⟩

/-- Code made of whole instructions whose jumps stay inside, none of them to
the end, and whose end control cannot reach, is valid and safe. -/
theorem goodCode_of_closed {w : List Word} (hg : GoodFrag w) (hc : ClosedFrag w) :
    GoodCode w := by
  intro hl
  have hj := hg.2 hl
  obtain ⟨hs, hn⟩ := hc.2 hl
  constructor
  · intro p hp
    obtain ⟨off, t, ho, ht, hoe⟩ := hj p hp
    have hne : t ≠ w.length := by
      intro h
      apply hs p off ho
      rw [ht, h]
    have hlt : t < w.length := Nat.lt_of_le_of_ne hoe.1 hne
    obtain ⟨o, hto⟩ := hoe.2 hlt
    exact ⟨off, t, o, ho, ht, hlt, hto⟩
  · intro q hr
    have hoe := reach_ok hj (opOrEnd_zero hg.1) hr
    have hne : q ≠ w.length := by
      intro h; subst h; exact hn hr
    obtain ⟨o, ho⟩ := hoe.2 (Nat.lt_of_le_of_ne hoe.1 hne)
    refine ⟨o, ho, ?_, ?_⟩
    · intro off hoff
      obtain ⟨off1, t, ho1, ht, _⟩ := hj q (jump_offset_is_jump hoff)
      rw [hoff] at ho1
      simp only [Option.some.injEq] at ho1
      subst ho1
      rw [ht]
      exact Int.ofNat_nonneg t
    · by_cases h1 : o = .RET
      · exact Or.inl h1
      by_cases h2 : o = .RTN
      · exact Or.inr (Or.inl h2)
      by_cases h3 : o = .TCL
      · exact Or.inr (Or.inr (Or.inl h3))
      right; right; right
      by_cases h4 : o = .JMP
      · subst h4
        obtain ⟨off1, t, ho1, _, _⟩ := hj q (Or.inr ho)
        exact ⟨_, Step.jump ho1⟩
      · exact ⟨_, Step.fall ho h1 h2 h3 h4⟩

/-! ## The jump blocks of `if` and `while` -/

theorem int_word_decode (v : Int) (h1 : -2147483648 ≤ v) (h2 : v < 2147483648) :
    ∃ lo hi, int_word v 0 = .u16 lo ∧ int_word v 1 = .u16 hi ∧ decode_i32 lo hi = v := by
  refine ⟨(v % 65536).toNat, (v / 65536 % 65536).toNat, ?_, ?_, ?_⟩
  · simp [int_word]
  · simp [int_word]
  · unfold decode_i32
    have e1 : (((v % 65536).toNat : Nat) : Int) = v % 65536 := Int.toNat_of_nonneg (by omega)
    have e2 : (((v / 65536 % 65536).toNat : Nat) : Int) = v / 65536 % 65536 :=
      Int.toNat_of_nonneg (by omega)
    split
    · rename_i h
      have h3 : (((v % 65536).toNat + 65536 * (v / 65536 % 65536).toNat : Nat) : Int)
          < 2147483648 := by exact_mod_cast h
      simp only [Int.ofNat_eq_coe]
      push_cast at h3 ⊢
      rw [e1, e2] at h3 ⊢
      omega
    · rename_i h
      have h3 : ¬ (((v % 65536).toNat + 65536 * (v / 65536 % 65536).toNat : Nat) : Int)
          < 2147483648 := by exact_mod_cast h
      simp only [Int.ofNat_eq_coe]
      push_cast at h3 ⊢
      rw [e1, e2] at h3 ⊢
      omega

theorem int_word_is_u16 (v : Int) (k : Nat) : ∃ n, int_word v k = .u16 n :=
  ⟨_, rfl⟩

theorem to_int32_half (k : Nat) (hk : 2 * k < 2147483648) :
    Int.tdiv (to_int32 (2 * k)) 2 = (k : Int) := by
  unfold to_int32
  have : 2 * k % 4294967296 = 2 * k := Nat.mod_eq_of_lt (by omega)
  rw [this, if_pos hk]
  simp only [Int.ofNat_eq_coe]
  rw [Int.tdiv_eq_ediv (by omega) (by omega)]
  omega

theorem to_int32_neg_half (k : Nat) (hk : 2 * k < 2147483648) :
    Int.tdiv (to_int32 (2 * k)) (-2) = -(k : Int) := by
  rw [Int.tdiv_neg, to_int32_half k hk]

theorem jumpsIn_jif_fwd {Y : List Word} {c lo hi k : Nat}
    (hd : decode_i32 lo hi = ((4 + k : Nat) : Int)) (hk : OpOrEnd Y k) (hY : JumpsIn Y) :
    JumpsIn (.op .JIF :: .u16 c :: .u16 lo :: .u16 hi :: Y) := by
  intro p
  match p with
  | 0 =>
    intro _
    refine ⟨decode_i32 lo hi, 4 + k, ?_, ?_, ?_⟩
    · rw [jump_offset_some_iff]
      exact Or.inl ⟨c, lo, hi, by simp, by simp, by simp, by simp, rfl⟩
    · rw [hd]; push_cast; omega
    · exact opOrEnd_append_right [.op .JIF, .u16 c, .u16 lo, .u16 hi] hk
  | 1 => exact jumpAt_of_not_jump (by simp)
  | 2 => exact jumpAt_of_not_jump (by simp)
  | 3 => exact jumpAt_of_not_jump (by simp)
  | p + 4 =>
    have h := jumpAt_right [.op .JIF, .u16 c, .u16 lo, .u16 hi] (hY p)
    rw [show p + 4 = [Word.op .JIF, .u16 c, .u16 lo, .u16 hi].length + p from by
      simp [Nat.add_comm]]
    exact h

theorem jumpsIn_jmp_fwd {Y : List Word} {lo hi k : Nat}
    (hd : decode_i32 lo hi = ((3 + k : Nat) : Int)) (hk : OpOrEnd Y k) (hY : JumpsIn Y) :
    JumpsIn (.op .JMP :: .u16 lo :: .u16 hi :: Y) := by
  intro p
  match p with
  | 0 =>
    intro _
    refine ⟨decode_i32 lo hi, 3 + k, ?_, ?_, ?_⟩
    · rw [jump_offset_some_iff]
      exact Or.inr ⟨lo, hi, by simp, by simp, by simp, rfl⟩
    · rw [hd]; push_cast; omega
    · exact opOrEnd_append_right [.op .JMP, .u16 lo, .u16 hi] hk
  | 1 => exact jumpAt_of_not_jump (by simp)
  | 2 => exact jumpAt_of_not_jump (by simp)
  | p + 3 =>
    have h := jumpAt_right [.op .JMP, .u16 lo, .u16 hi] (hY p)
    rw [show p + 3 = [Word.op .JMP, .u16 lo, .u16 hi].length + p from by
      simp [Nat.add_comm]]
    exact h

theorem strict_jif_fwd {Y : List Word} {c lo hi k : Nat}
    (hd : decode_i32 lo hi = ((4 + k : Nat) : Int)) (hk : k < Y.length) (hY : Strict Y) :
    Strict (.op .JIF :: .u16 c :: .u16 lo :: .u16 hi :: Y) := by
  intro p off h
  match p with
  | 0 =>
    rw [jump_offset_some_iff] at h
    simp only [List.getElem?_cons_zero, Option.some.injEq, Word.op.injEq,
      List.getElem?_cons_succ, Word.u16.injEq, reduceCtorEq, false_and, exists_const,
      exists_false, or_false, true_and, Nat.zero_add] at h
    obtain ⟨c1, lo1, hi1, rfl, rfl, rfl, rfl⟩ := h
    rw [hd]
    simp only [List.length_cons]
    push_cast
    omega
  | 1 => exact absurd (jump_offset_is_jump h) (by simp)
  | 2 => exact absurd (jump_offset_is_jump h) (by simp)
  | 3 => exact absurd (jump_offset_is_jump h) (by simp)
  | p + 4 =>
    rw [show p + 4 = [Word.op .JIF, .u16 c, .u16 lo, .u16 hi].length + p from by
      simp [Nat.add_comm]] at h
    have h4 := jump_offset_append_right [Word.op .JIF, .u16 c, .u16 lo, .u16 hi] Y p
    rw [show ([Word.op .JIF, .u16 c, .u16 lo, .u16 hi] ++ Y)
      = (.op .JIF :: .u16 c :: .u16 lo :: .u16 hi :: Y) from rfl] at h4
    rw [h4] at h
    have := hY p off h
    simp only [List.length_cons]
    push_cast
    omega

theorem next_instr_jif (c lo hi : Nat) (Y : List Word) (hY : HeadOp Y) :
    next_instr (.op .JIF :: .u16 c :: .u16 lo :: .u16 hi :: Y) 0 = 4 := by
  unfold next_instr
  have := takeWhile_headOp [.u16 c, .u16 lo, .u16 hi] Y hY
  simp only [Nat.zero_add, List.drop_succ_cons, List.drop_zero]
  rw [show (Word.u16 c :: .u16 lo :: .u16 hi :: Y) = [.u16 c, .u16 lo, .u16 hi] ++ Y from rfl,
    this]
  simp [List.takeWhile, Word.isOp]

theorem noExit_jif_block {L R : List Word} {c lo hi : Nat}
    (hd : decode_i32 lo hi = ((4 + L.length : Nat) : Int))
    (hL : JumpsIn L) (hR : JumpsIn R) (hhL : HeadOp L) (hhR : HeadOp R)
    (hnL : NoExit L) (hnR : NoExit R) :
    NoExit (.op .JIF :: .u16 c :: .u16 lo :: .u16 hi :: (L ++ R)) := by
  have hY : JumpsIn (L ++ R) := jumpsIn_append hL hR hhR
  have hhY : HeadOp (L ++ R) := headOp_append hhL hhR
  have key : ∀ q, ReachFrom (.op .JIF :: .u16 c :: .u16 lo :: .u16 hi :: (L ++ R)) 0 q →
      q = 0 ∨ ∃ q2, q = 4 + q2 ∧ (ReachFrom (L ++ R) 0 q2 ∨ ReachFrom (L ++ R) L.length q2) := by
    intro q h
    induction h with
    | start => exact Or.inl rfl
    | @step p q _ hst ih =>
      rcases ih with rfl | ⟨p2, rfl, hr⟩
      · cases hst with
        | fall h0 _ _ _ _ =>
          rw [next_instr_jif c lo hi _ hhY]
          exact Or.inr ⟨0, rfl, Or.inl ReachFrom.start⟩
        | @jump off hj =>
          rw [jump_offset_some_iff] at hj
          simp only [List.getElem?_cons_zero, Option.some.injEq, Word.op.injEq,
            List.getElem?_cons_succ, Word.u16.injEq, reduceCtorEq, false_and, exists_const,
            exists_false, or_false, true_and, Nat.zero_add] at hj
          obtain ⟨c1, lo1, hi1, rfl, rfl, rfl, rfl⟩ := hj
          refine Or.inr ⟨L.length, ?_, Or.inr ReachFrom.start⟩
          rw [hd]
          have : ((0 : Nat) : Int) + ((4 + L.length : Nat) : Int)
              = ((4 + L.length : Nat) : Int) := by push_cast; omega
          rw [this, Int.toNat_ofNat]
      · have hst2 : Step ([Word.op .JIF, .u16 c, .u16 lo, .u16 hi] ++ (L ++ R))
            ([Word.op .JIF, .u16 c, .u16 lo, .u16 hi].length + p2) q := hst
        obtain ⟨q2, hq, hs2⟩ := step_right hY hst2
        refine Or.inr ⟨q2, hq, ?_⟩
        rcases hr with hr | hr
        · exact Or.inl (ReachFrom.step hr hs2)
        · exact Or.inr (ReachFrom.step hr hs2)
  intro h
  rcases key _ h with h0 | ⟨q2, hq, hr | hr⟩
  · simp at h0
  · simp only [List.length_cons] at hq
    have hq2 : q2 = (L ++ R).length := by omega
    subst hq2
    exact noExit_append_left hL hR hhR hnL hr
  · simp only [List.length_cons] at hq
    have hq2 : q2 = (L ++ R).length := by omega
    subst hq2
    have hr2 : ReachFrom (L ++ R) (L.length + 0) (L ++ R).length := hr
    obtain ⟨q3, hq3, hr3⟩ := reach_right hR hr2
    rw [List.length_append] at hq3
    have : q3 = R.length := by omega
    subst this
    exact hnR hr3

/-! ## The fragments of `if` and `while` -/

theorem jumpsIn_while {fc B : List Word} {c lo hi lo2 hi2 : Nat}
    (hd1 : decode_i32 lo hi = ((4 + B.length + 3 : Nat) : Int))
    (hd2 : decode_i32 lo2 hi2 = -((fc.length + 4 + B.length : Nat) : Int))
    (hfc : JumpsIn fc) (hhfc : HeadOp fc) (hB : JumpsIn B) :
    JumpsIn (fc ++ (.op .JIF :: .u16 c :: .u16 lo :: .u16 hi ::
      (B ++ [.op .JMP, .u16 lo2, .u16 hi2]))) := by
  have hlen : (fc ++ (Word.op .JIF :: .u16 c :: .u16 lo :: .u16 hi ::
      (B ++ [.op .JMP, .u16 lo2, .u16 hi2]))).length = fc.length + (4 + B.length + 3) := by
    simp only [List.length_append, List.length_cons, List.length_nil]; omega
  have hz : ∀ x, (Word.op .JIF :: .u16 c :: .u16 lo :: .u16 hi ::
      (B ++ [.op .JMP, .u16 lo2, .u16 hi2]))[x + 4]? = (B ++ [.op .JMP, .u16 lo2, .u16 hi2])[x]? := by
    intro x; simp only [List.getElem?_cons_succ]
  have hjz : ∀ x, jump_offset (Word.op .JIF :: .u16 c :: .u16 lo :: .u16 hi ::
      (B ++ [.op .JMP, .u16 lo2, .u16 hi2])) (x + 4)
      = jump_offset (B ++ [.op .JMP, .u16 lo2, .u16 hi2]) x := by
    intro x
    have := jump_offset_append_right [Word.op .JIF, .u16 c, .u16 lo, .u16 hi]
      (B ++ [.op .JMP, .u16 lo2, .u16 hi2]) x
    rw [show [Word.op .JIF, .u16 c, .u16 lo, .u16 hi].length + x = x + 4 from by
      simp [Nat.add_comm]] at this
    exact this
  intro p
  by_cases hp : p < fc.length
  · exact jumpAt_left (hfc p) hp (headOp_cons _ _)
  obtain ⟨p1, rfl⟩ : ∃ k, p = fc.length + k := ⟨p - fc.length, by omega⟩
  match p1 with
  | 0 =>
    intro _
    refine ⟨decode_i32 lo hi, fc.length + (4 + B.length + 3), ?_, ?_, ?_⟩
    · rw [jump_offset_append_right, jump_offset_some_iff]
      exact Or.inl ⟨c, lo, hi, by simp, by simp, by simp, by simp, rfl⟩
    · rw [hd1]; push_cast; omega
    · rw [← hlen]; exact opOrEnd_length _
  | 1 => exact jumpAt_of_not_jump (by rw [getElem?_append_shift]; simp)
  | 2 => exact jumpAt_of_not_jump (by rw [getElem?_append_shift]; simp)
  | 3 => exact jumpAt_of_not_jump (by rw [getElem?_append_shift]; simp)
  | p2 + 4 =>
    by_cases hp2 : p2 < B.length
    · have h1 := jumpAt_left (hB p2) hp2 (headOp_cons .JMP [.u16 lo2, .u16 hi2])
      have h2 := jumpAt_right [Word.op .JIF, .u16 c, .u16 lo, .u16 hi] h1
      rw [show [Word.op .JIF, .u16 c, .u16 lo, .u16 hi].length + p2 = p2 + 4 from by
        simp [Nat.add_comm]] at h2
      exact jumpAt_right fc h2
    obtain ⟨p3, rfl⟩ : ∃ k, p2 = B.length + k := ⟨p2 - B.length, by omega⟩
    match p3 with
    | 0 =>
      intro _
      refine ⟨decode_i32 lo2 hi2, 0, ?_, ?_, ?_⟩
      · have h0 := jump_offset_append_right B [Word.op .JMP, .u16 lo2, .u16 hi2] 0
        rw [jump_offset_append_right, hjz]
        refine Eq.trans h0 ?_
        rw [jump_offset_some_iff]
        exact Or.inr ⟨lo2, hi2, by simp, by simp, by simp, rfl⟩
      · rw [hd2]; push_cast; omega
      · exact opOrEnd_zero (headOp_append hhfc (headOp_cons _ _))
    | 1 => exact jumpAt_of_not_jump (by
        rw [getElem?_append_shift, hz, getElem?_append_shift]; simp)
    | 2 => exact jumpAt_of_not_jump (by
        rw [getElem?_append_shift, hz, getElem?_append_shift]; simp)
    | p4 + 3 => exact jumpAt_of_not_jump (by
        rw [getElem?_append_shift, hz, getElem?_append_shift]; simp)

theorem goodFrag_jif {Y : List Word} {k : Nat} (c : Nat) {v : Int} (hY : GoodFrag Y)
    (hk : OpOrEnd Y k) (hv : v = ((4 + k : Nat) : Int)) :
    GoodFrag (.op .JIF :: .u16 c :: int_word v 0 :: int_word v 1 :: Y) := by
  refine ⟨headOp_cons _ _, ?_⟩
  intro hl
  simp only [List.length_cons, code_limit] at hl
  have hkl := hk.1
  obtain ⟨lo, hi, e0, e1, hd⟩ := int_word_decode v (by omega) (by omega)
  rw [e0, e1]
  exact jumpsIn_jif_fwd (hd.trans hv) hk (hY.2 (by unfold code_limit; omega))

theorem goodFrag_jmp {Y : List Word} {k : Nat} {v : Int} (hY : GoodFrag Y)
    (hk : OpOrEnd Y k) (hv : v = ((3 + k : Nat) : Int)) :
    GoodFrag (.op .JMP :: int_word v 0 :: int_word v 1 :: Y) := by
  refine ⟨headOp_cons _ _, ?_⟩
  intro hl
  simp only [List.length_cons, code_limit] at hl
  have hkl := hk.1
  obtain ⟨lo, hi, e0, e1, hd⟩ := int_word_decode v (by omega) (by omega)
  rw [e0, e1]
  exact jumpsIn_jmp_fwd (hd.trans hv) hk (hY.2 (by unfold code_limit; omega))

theorem closedFrag_if {L R : List Word} (c : Nat) {v : Int} (hL : GoodFrag L)
    (hcL : ClosedFrag L) (hR : GoodFrag R) (hcR : ClosedFrag R)
    (hv : v = ((4 + L.length : Nat) : Int)) :
    ClosedFrag (.op .JIF :: .u16 c :: int_word v 0 :: int_word v 1 :: (L ++ R)) := by
  refine ⟨by simp, ?_⟩
  intro hl
  simp only [List.length_cons, List.length_append, code_limit] at hl
  obtain ⟨lo, hi, e0, e1, hd⟩ := int_word_decode v (by omega) (by omega)
  rw [e0, e1]
  have hjL := hL.2 (by unfold code_limit; omega)
  have hjR := hR.2 (by unfold code_limit; omega)
  obtain ⟨hsL, hnL⟩ := hcL.2 (by unfold code_limit; omega)
  obtain ⟨hsR, hnR⟩ := hcR.2 (by unfold code_limit; omega)
  have hRlen : 0 < R.length := List.length_pos.2 hcR.1
  refine ⟨strict_jif_fwd (hd.trans hv) (by rw [List.length_append]; omega)
    (strict_append hjL (fun h => absurd h hcR.1) hsR), ?_⟩
  exact noExit_jif_block (hd.trans hv) hjL hjR hL.1 hR.1 hnL hnR

theorem goodFrag_while {fc B : List Word} (c : Nat) {v1 v2 : Int} (hfc : GoodFrag fc)
    (hB : GoodFrag B) (hv1 : 2 * (4 + B.length + 3) < 2147483648 → v1 = ((4 + B.length + 3 : Nat) : Int))
    (hv2 : 2 * (fc.length + 4 + B.length) < 2147483648 →
      v2 = -((fc.length + 4 + B.length : Nat) : Int)) :
    GoodFrag (fc ++ (.op .JIF :: .u16 c :: int_word v1 0 :: int_word v1 1 ::
      (B ++ [.op .JMP, int_word v2 0, int_word v2 1]))) := by
  refine ⟨headOp_append hfc.1 (headOp_cons _ _), ?_⟩
  intro hl
  simp only [List.length_cons, List.length_append, List.length_nil, code_limit] at hl
  have hv1 := hv1 (by omega)
  have hv2 := hv2 (by omega)
  obtain ⟨lo, hi, e0, e1, hd⟩ := int_word_decode v1 (by omega) (by omega)
  obtain ⟨lo2, hi2, f0, f1, hd2⟩ := int_word_decode v2 (by omega) (by omega)
  rw [e0, e1, f0, f1]
  exact jumpsIn_while (hd.trans hv1) (hd2.trans hv2) (hfc.2 (by unfold code_limit; omega)) hfc.1
    (hB.2 (by unfold code_limit; omega))

/-! ## The buffer -/

theorem active_length {b : DstBuffer} (h : b.count / 2 ≤ b.data.length) :
    b.active.length = b.count / 2 := by
  unfold DstBuffer.active
  rw [List.length_take]
  omega

theorem active_put (b : DstBuffer) (w : Word) (h1 : b.count % 2 = 0)
    (h2 : b.count / 2 ≤ b.data.length) :
    (b.put w).active = b.active ++ [w] ∧ (b.put w).count % 2 = 0 ∧
      (b.put w).count / 2 ≤ (b.put w).data.length := by
  unfold DstBuffer.put DstBuffer.active
  simp only
  have e : (b.count + 2) / 2 = b.count / 2 + 1 := by omega
  have hl : (List.take (b.count / 2) b.data).length = b.count / 2 := by
    rw [List.length_take]; omega
  refine ⟨?_, by omega, ?_⟩
  · rw [e, List.take_append_eq_append_take, hl, List.take_of_length_le (by omega)]
    simp
  · rw [e, List.length_append, hl]
    simp

theorem active_skip (b : DstBuffer) (n : Nat) (hn : n % 2 = 0) (h1 : b.count % 2 = 0)
    (h2 : b.count / 2 ≤ b.data.length) :
    (∃ w, (b.skip n).active = b.active ++ w ∧ w.length = n / 2) ∧ (b.skip n).count % 2 = 0 ∧
      (b.skip n).count / 2 ≤ (b.skip n).data.length := by
  unfold DstBuffer.skip DstBuffer.active
  simp only
  have e : (b.count + n) / 2 = b.count / 2 + n / 2 := by omega
  refine ⟨⟨((b.data ++ List.replicate ((b.count + n) / 2 - b.data.length)
      (Word.u16 0)).drop (b.count / 2)).take (n / 2), ?_, ?_⟩, by omega, ?_⟩
  · rw [e, List.take_add]
    congr 1
    rw [List.take_append_of_le_length h2]
  · rw [List.length_take, List.length_drop, List.length_append, List.length_replicate]
    omega
  · rw [List.length_append, List.length_replicate]
    omega

theorem bufOK_put {c : DstCompiler} (w : Word) (h : BufOK c) :
    BufOK { c with buffer := c.buffer.put w } :=
  (active_put c.buffer w h.1 h.2).2

/-! ## Steps that append a fragment -/

theorem spec_mono {α : Type} {m : Comp α} {P Q : α → List Word → Prop} (h : Spec m P)
    (hpq : ∀ a w, P a w → Q a w) : Spec m Q := by
  intro c hb hd
  refine wp_mono _ _ _ _ ?_ (h c hb hd)
  rintro a c1 ⟨hb1, hd1, w, hw, hp⟩
  exact ⟨hb1, hd1, w, hw, hpq a w hp⟩

theorem spec_pure {α : Type} {P : α → List Word → Prop} (a : α) (h : P a []) :
    Spec (pure a) P := by
  intro c hb hd
  exact ⟨hb, hd, [], by simp, h⟩

theorem spec_bind {α β : Type} {m : Comp α} {f : α → Comp β} {R : α → List Word → Prop}
    {P : β → List Word → Prop} (hm : Spec m R)
    (hf : ∀ a w1, R a w1 → Spec (f a) (fun b w2 => P b (w1 ++ w2))) : Spec (m >>= f) P := by
  intro c hb hd
  rw [wp_bind]
  refine wp_mono _ _ _ _ ?_ (hm c hb hd)
  rintro a c1 ⟨hb1, hd1, w1, hw1, hp1⟩
  refine wp_mono _ _ _ _ ?_ (hf a w1 hp1 c1 hb1 hd1)
  rintro b c2 ⟨hb2, hd2, w2, hw2, hp2⟩
  exact ⟨hb2, hd2, w1 ++ w2, by rw [hw2, hw1, List.append_assoc], hp2⟩

theorem spec_c_error {α : Type} (P : α → List Word → Prop) (e : String) :
    Spec (c_error e : Comp α) P := fun _ _ _ => trivial

theorem spec_c_error1 {α : Type} (P : α → List Word → Prop) (e : DstValue) :
    Spec (c_error1 e : Comp α) P := fun _ _ _ => trivial

theorem spec_undefined_read {α : Type} (P : α → List Word → Prop) :
    Spec (undefined_read : Comp α) P := fun _ _ _ => trivial

theorem spec_of_frame {α : Type} {m : Comp α} (h : ∀ b fd, Pres (Fr b fd) m) :
    Spec m (fun _ w => w = []) := by
  intro c hb hd
  refine wp_mono _ _ _ _ ?_ (h c.buffer c.vm.funcdefs c ⟨rfl, rfl⟩)
  rintro a c1 ⟨h1, h2⟩
  refine ⟨?_, ?_, [], ?_, rfl⟩
  · unfold BufOK; rw [h1]; exact hb
  · unfold GoodDefs; rw [h2]; exact hd
  · rw [h1]; simp

/-- A step that emits nothing, before a step with the property `P`. -/
theorem spec_bind_empty {α β : Type} {m : Comp α} {f : α → Comp β}
    {P : β → List Word → Prop} (hm : Spec m (fun _ w => w = []))
    (hf : ∀ a, Spec (f a) P) : Spec (m >>= f) P := by
  refine spec_bind hm ?_
  intro a w1 hw1
  subst hw1
  simpa using hf a

/-- A step that emits nothing and hands a fact `Q` about its result on. -/
theorem spec_bind_emptyQ {α β : Type} {m : Comp α} {f : α → Comp β} {Q : α → Prop}
    {P : β → List Word → Prop} (hm : Spec m (fun a w => w = [] ∧ Q a))
    (hf : ∀ a, Q a → Spec (f a) P) : Spec (m >>= f) P := by
  refine spec_bind hm ?_
  rintro a w1 ⟨hw1, hq⟩
  subst hw1
  simpa using hf a hq

/-- A step that emits whole instructions, before a step whose property is kept
by a prefix of whole instructions. -/
theorem spec_bind_good {α β : Type} {m : Comp α} {f : α → Comp β}
    {P : β → List Word → Prop} (hm : Spec m (fun _ w => GoodFrag w)) (hp : PrefixClosed P)
    (hf : ∀ a, Spec (f a) P) : Spec (m >>= f) P := by
  refine spec_bind hm ?_
  intro a w1 hw1
  exact spec_mono (hf a) (fun b w2 h => hp b w1 w2 hw1 h)

theorem spec_bind_goodQ {α β : Type} {m : Comp α} {f : α → Comp β} {Q : α → Prop}
    {P : β → List Word → Prop} (hm : Spec m (fun a w => GoodFrag w ∧ Q a))
    (hp : PrefixClosed P) (hf : ∀ a, Q a → Spec (f a) P) : Spec (m >>= f) P := by
  refine spec_bind hm ?_
  rintro a w1 ⟨hw1, hq⟩
  exact spec_mono (hf a hq) (fun b w2 h => hp b w1 w2 hw1 h)

theorem spec_push_op (o : DstOp) : Spec (dst_buffer_push_op o) (fun _ w => w = [.op o]) := by
  intro c hb hd
  have := active_put c.buffer (.op o) hb.1 hb.2
  exact ⟨this.2, hd, _, this.1, rfl⟩

theorem spec_push_u16 (n : Nat) :
    Spec (dst_buffer_push_u16 n) (fun _ w => w = [.u16 (n % 65536)]) := by
  intro c hb hd
  have := active_put c.buffer (.u16 (n % 65536)) hb.1 hb.2
  exact ⟨this.2, hd, _, this.1, rfl⟩

theorem spec_push_i16 (v : Int) :
    Spec (dst_buffer_push_i16 v) (fun _ w => w = [int_word v 0]) := by
  intro c hb hd
  have := active_put c.buffer (int_word v 0) hb.1 hb.2
  exact ⟨this.2, hd, _, this.1, rfl⟩

theorem spec_push_i32 (v : Int) :
    Spec (dst_buffer_push_i32 v) (fun _ w => w = [int_word v 0, int_word v 1]) := by
  intro c hb hd
  have h1 := active_put c.buffer (int_word v 0) hb.1 hb.2
  have h2 := active_put (c.buffer.put (int_word v 0)) (int_word v 1) h1.2.1 h1.2.2
  refine ⟨h2.2, hd, _, ?_, rfl⟩
  show ((c.buffer.put (int_word v 0)).put (int_word v 1)).active = _
  rw [h2.1, h1.1]; simp

theorem spec_push_i64 (v : Int) :
    Spec (dst_buffer_push_i64 v)
      (fun _ w => w = [int_word v 0, int_word v 1, int_word v 2, int_word v 3]) := by
  intro c hb hd
  have h1 := active_put c.buffer (int_word v 0) hb.1 hb.2
  have h2 := active_put (c.buffer.put (int_word v 0)) (int_word v 1) h1.2.1 h1.2.2
  have h3 := active_put ((c.buffer.put (int_word v 0)).put (int_word v 1)) (int_word v 2)
    h2.2.1 h2.2.2
  have h4 := active_put (((c.buffer.put (int_word v 0)).put (int_word v 1)).put (int_word v 2))
    (int_word v 3) h3.2.1 h3.2.2
  refine ⟨h4.2, hd, _, ?_, rfl⟩
  show ((((c.buffer.put (int_word v 0)).put (int_word v 1)).put (int_word v 2)).put
    (int_word v 3)).active = _
  rw [h4.1, h3.1, h2.1, h1.1]; simp

theorem spec_push_real (bits : Nat) :
    Spec (dst_buffer_push_real bits) (fun _ w => Ops w) := by
  unfold dst_buffer_push_real
  refine spec_mono (spec_push_i64 _) ?_
  intro _ w hw
  subst hw
  intro x hx
  simp only [List.mem_cons, List.mem_singleton, List.not_mem_nil, or_false] at hx
  rcases hx with h | h | h | h <;> subst h <;> rfl

theorem spec_skip (n : Nat) (hn : n % 2 = 0) :
    Spec (buffer_skip n) (fun _ w => w.length = n / 2) := by
  intro c hb hd
  obtain ⟨⟨w, hw, hl⟩, h2⟩ := active_skip c.buffer n hn hb.1 hb.2
  exact ⟨h2, hd, w, hw, hl⟩

/-! ## Operand words after an opcode -/

theorem spec_optail_intro {α : Type} {m : Comp α} {P : α → List Word → Prop}
    (h : Spec m P) : Spec m (OpTail P) :=
  spec_mono h (fun _ w hp => ⟨[], w, rfl, ops_nil, hp⟩)

theorem spec_optail_ops {α β : Type} {m : Comp α} {f : α → Comp β}
    {P : β → List Word → Prop} (hm : Spec m (fun _ w => Ops w))
    (hf : ∀ a, Spec (f a) (OpTail P)) : Spec (m >>= f) (OpTail P) := by
  refine spec_bind hm ?_
  intro a w1 hw1
  refine spec_mono (hf a) ?_
  rintro b w2 ⟨t, r, rfl, ht, hp⟩
  exact ⟨w1 ++ t, r, by simp, ops_append hw1 ht, hp⟩

theorem spec_ops_u16 (n : Nat) : Spec (dst_buffer_push_u16 n) (fun _ w => Ops w) :=
  spec_mono (spec_push_u16 n) (fun _ w h => by subst h; exact ops_singleton _)

theorem spec_ops_i16 (v : Int) : Spec (dst_buffer_push_i16 v) (fun _ w => Ops w) :=
  spec_mono (spec_push_i16 v) (fun _ w h => by subst h; exact ops_singleton _)

theorem spec_ops_i32 (v : Int) : Spec (dst_buffer_push_i32 v) (fun _ w => Ops w) := by
  refine spec_mono (spec_push_i32 v) ?_
  intro _ w hw
  subst hw
  intro x hx
  simp only [List.mem_cons, List.mem_singleton, List.not_mem_nil, or_false] at hx
  rcases hx with h | h <;> subst h <;> rfl

theorem spec_ops_i64 (v : Int) : Spec (dst_buffer_push_i64 v) (fun _ w => Ops w) := by
  refine spec_mono (spec_push_i64 v) ?_
  intro _ w hw
  subst hw
  intro x hx
  simp only [List.mem_cons, List.mem_singleton, List.not_mem_nil, or_false] at hx
  rcases hx with h | h | h | h <;> subst h <;> rfl

/-- An opcode other than a jump, its operands, and what follows. -/
theorem spec_op {β : Type} {k : Unit → Comp β} {P : β → List Word → Prop} (o : DstOp)
    (h1 : o ≠ .JIF) (h2 : o ≠ .JMP) (hp : PrefixClosed P)
    (hk : ∀ u, Spec (k u) (OpTail P)) : Spec (dst_buffer_push_op o >>= k) P := by
  refine spec_bind (spec_push_op o) ?_
  intro u w1 hw1
  subst hw1
  refine spec_mono (hk u) ?_
  rintro b w2 ⟨t, r, rfl, ht, hp2⟩
  have := hp b (.op o :: t) r (goodFrag_instr h1 h2 ht) hp2
  simpa using this

/-! ## Steps that leave the buffer and the function definitions alone -/

theorem pres_getc (I : DstCompiler → Prop) : Pres I getc := fun _ h => h

theorem frame_scope_write (b : DstBuffer) (fd : List DstFuncDef) (p : Nat) (s : DstScope) :
    Pres (Fr b fd) (scope_write p s) := fun _ h => h

theorem frame_guard_enter (b : DstBuffer) (fd : List DstFuncDef) :
    Pres (Fr b fd) recursion_guard_enter := fun _ h => h

theorem frame_guard_leave (b : DstBuffer) (fd : List DstFuncDef) :
    Pres (Fr b fd) recursion_guard_leave := fun _ h => h

theorem frame_push_scope (b : DstBuffer) (fd : List DstFuncDef) (sameFunction : Bool) :
    Pres (Fr b fd) (compiler_push_scope sameFunction) := by
  intro c hc
  unfold wp compiler_push_scope
  cases sameFunction
  · exact hc
  · simp only [if_true]
    cases c.scopes.getLast? with
    | none => trivial
    | some t => exact hc

theorem frame_pop_scope (b : DstBuffer) (fd : List DstFuncDef) :
    Pres (Fr b fd) compiler_pop_scope := by
  intro c hc
  unfold wp compiler_pop_scope
  cases c.scopes.getLast? with
  | none => trivial
  | some last0 =>
    simp only []
    cases c.scopes.dropLast.getLast? with
    | none => exact hc
    | some t => exact hc

section

attribute [local irreducible] Pres Comp.bind Spec Spec2 GuardFree GuardRel compiler_tail scope_read scope_write scope_parent form_at
  retag_string symbol_resolve compile_symbol_touch compiler_get_local compiler_free_local
  compiler_drop_slot compiler_tracker_free compiler_tracker_write compiler_add_literal
  compiler_declare_symbol compiler_push_scope compiler_pop_scope recursion_guard_enter
  recursion_guard_leave compiler_get_target compiler_get_temp compiler_realize_slot
  compiler_coerce_slot compiler_return dst_buffer_push_op dst_buffer_push_u16
  dst_buffer_push_i16 dst_buffer_push_i32 dst_buffer_push_i64 dst_buffer_push_real
  buffer_count buffer_set_count buffer_skip c_error c_error1 undefined_read getc setc
  compile_nonref_type compile_literal compile_symbol compile_assign compile_varset
  compile_global_var compile_global_def compile_def compile_var compile_block_loop
  compile_block compiler_gen_funcdef compile_function_params compile_function compile_if
  compile_while compile_do compile_quote compile_args compile_apply compile_tran
  compile_elements compile_array compile_table compile_form compile_value_body

theorem frame_get_local (b : DstBuffer) (fd : List DstFuncDef) (scope : Nat) :
    Pres (Fr b fd) (compiler_get_local scope) := by
  unfold compiler_get_local
  repeat (first
    | apply pres_bind
    | intro _
    | exact pres_pure _ _
    | exact pres_scope_read _ _
    | exact frame_scope_write _ _ _ _
    | split)

theorem frame_free_local (b : DstBuffer) (fd : List DstFuncDef) (scope slot : Nat) :
    Pres (Fr b fd) (compiler_free_local scope slot) := by
  unfold compiler_free_local
  repeat (first
    | apply pres_bind
    | intro _
    | exact pres_scope_read _ _
    | exact frame_scope_write _ _ _ _)

theorem frame_drop_slot (b : DstBuffer) (fd : List DstFuncDef) (scope : Nat) (slot : Slot) :
    Pres (Fr b fd) (compiler_drop_slot scope slot) := by
  unfold compiler_drop_slot
  split
  · exact frame_free_local _ _ _ _
  · exact pres_pure _ _

theorem frame_declare_symbol (b : DstBuffer) (fd : List DstFuncDef) (scope : Nat)
    (sym : DstValue) (flags : Nat) : Pres (Fr b fd) (compiler_declare_symbol scope sym flags) := by
  unfold compiler_declare_symbol
  apply pres_ite (pres_c_error _ _)
  apply pres_bind (frame_get_local _ _ _)
  intro _
  repeat (first
    | apply pres_bind
    | intro _
    | exact pres_pure _ _
    | exact pres_scope_read _ _
    | exact frame_scope_write _ _ _ _)

end

theorem frame_add_literal (b : DstBuffer) (fd : List DstFuncDef) (scope : Nat) (x : DstValue) :
    Pres (Fr b fd) (compiler_add_literal scope x) := by
  unfold compiler_add_literal
  apply pres_bind (pres_scope_read _ _)
  intro s c hc
  rw [wp_bind, wp_getc]
  simp only []
  split
  · rw [wp_bind, wp_setc]; exact hc
  · exact hc
  · exact hc

section

attribute [local irreducible] Pres Comp.bind Spec Spec2 GuardFree GuardRel compiler_tail scope_read scope_write scope_parent form_at
  retag_string symbol_resolve compile_symbol_touch compiler_get_local compiler_free_local
  compiler_drop_slot compiler_tracker_free compiler_tracker_write compiler_add_literal
  compiler_declare_symbol compiler_push_scope compiler_pop_scope recursion_guard_enter
  recursion_guard_leave compiler_get_target compiler_get_temp compiler_realize_slot
  compiler_coerce_slot compiler_return dst_buffer_push_op dst_buffer_push_u16
  dst_buffer_push_i16 dst_buffer_push_i32 dst_buffer_push_i64 dst_buffer_push_real
  buffer_count buffer_set_count buffer_skip c_error c_error1 undefined_read getc setc
  compile_nonref_type compile_literal compile_symbol compile_assign compile_varset
  compile_global_var compile_global_def compile_def compile_var compile_block_loop
  compile_block compiler_gen_funcdef compile_function_params compile_function compile_if
  compile_while compile_do compile_quote compile_args compile_apply compile_tran
  compile_elements compile_array compile_table compile_form compile_value_body

theorem frame_symbol_resolve (b : DstBuffer) (fd : List DstFuncDef) (x : DstValue) :
    Pres (Fr b fd) (symbol_resolve x) := by
  unfold symbol_resolve
  repeat (first
    | apply pres_bind
    | apply pres_ite
    | intro _
    | exact pres_pure _ _
    | exact pres_compiler_tail _
    | exact pres_scope_read _ _
    | exact pres_getc _
    | split)

end

theorem frame_symbol_touch (b : DstBuffer) (fd : List DstFuncDef) :
    ∀ (i scope : Nat), Pres (Fr b fd) (compile_symbol_touch i scope)
  | 0, _ => pres_pure _ _
  | 1, _ => pres_pure _ _
  | i + 2, scope => by
    unfold compile_symbol_touch
    apply pres_bind (pres_scope_read _ _)
    intro s
    apply pres_bind (frame_scope_write _ _ _ _)
    intro _
    apply pres_bind (pres_scope_parent _ _)
    intro parent
    exact frame_symbol_touch b fd (i + 1) parent

section

attribute [local irreducible] Pres Comp.bind Spec Spec2 GuardFree GuardRel compiler_tail scope_read scope_write scope_parent form_at
  retag_string symbol_resolve compile_symbol_touch compiler_get_local compiler_free_local
  compiler_drop_slot compiler_tracker_free compiler_tracker_write compiler_add_literal
  compiler_declare_symbol compiler_push_scope compiler_pop_scope recursion_guard_enter
  recursion_guard_leave compiler_get_target compiler_get_temp compiler_realize_slot
  compiler_coerce_slot compiler_return dst_buffer_push_op dst_buffer_push_u16
  dst_buffer_push_i16 dst_buffer_push_i32 dst_buffer_push_i64 dst_buffer_push_real
  buffer_count buffer_set_count buffer_skip c_error c_error1 undefined_read getc setc
  compile_nonref_type compile_literal compile_symbol compile_assign compile_varset
  compile_global_var compile_global_def compile_def compile_var compile_block_loop
  compile_block compiler_gen_funcdef compile_function_params compile_function compile_if
  compile_while compile_do compile_quote compile_args compile_apply compile_tran
  compile_elements compile_array compile_table compile_form compile_value_body

theorem frame_tracker_free_loop (b : DstBuffer) (fd : List DstFuncDef) (scope : Nat) :
    ∀ slots : List Slot, Pres (Fr b fd) (compiler_tracker_free_loop scope slots)
  | [] => pres_pure _ _
  | s :: rest => by
    unfold compiler_tracker_free_loop
    apply pres_bind (frame_drop_slot _ _ _ _)
    intro _
    exact frame_tracker_free_loop b fd scope rest

theorem frame_function_params (b : DstBuffer) (fd : List DstFuncDef) (subDstScope count : Nat) :
    ∀ (params : List DstValue) (i : Nat) (varargs : Bool) (arity : Nat),
      Pres (Fr b fd) (compile_function_params subDstScope count i params varargs arity)
  | [], _, _, _ => by
    unfold compile_function_params
    exact pres_pure _ _
  | param :: rest, i, varargs, arity => by
    unfold compile_function_params
    apply pres_ite (pres_c_error _ _)
    apply pres_bind
    · repeat (first
    | apply pres_ite
    | exact pres_pure _ _
    | exact pres_c_error _ _)
    · intro va
      apply pres_bind (frame_declare_symbol _ _ _ _ _)
      intro _
      exact frame_function_params b fd subDstScope count rest (i + 1) va.1 va.2

end

theorem spec_compiler_tail : Spec compiler_tail (fun _ w => w = []) :=
  spec_of_frame (fun _ _ => pres_compiler_tail _)

theorem spec_scope_read (p : Nat) : Spec (scope_read p) (fun _ w => w = []) :=
  spec_of_frame (fun _ _ => pres_scope_read _ _)

theorem spec_scope_write (p : Nat) (s : DstScope) :
    Spec (scope_write p s) (fun _ w => w = []) :=
  spec_of_frame (fun _ _ => frame_scope_write _ _ _ _)

theorem spec_form_at (form : List DstValue) (i : Nat) :
    Spec (form_at form i) (fun _ w => w = []) :=
  spec_of_frame (fun _ _ => pres_form_at _ _ _)

theorem spec_retag_string (x : DstValue) : Spec (retag_string x) (fun _ w => w = []) :=
  spec_of_frame (fun _ _ => pres_retag_string _ _)

theorem spec_symbol_resolve (x : DstValue) : Spec (symbol_resolve x) (fun _ w => w = []) :=
  spec_of_frame (fun _ _ => frame_symbol_resolve _ _ _)

theorem spec_symbol_touch (i scope : Nat) :
    Spec (compile_symbol_touch i scope) (fun _ w => w = []) :=
  spec_of_frame (fun _ _ => frame_symbol_touch _ _ _ _)

theorem spec_get_local (scope : Nat) : Spec (compiler_get_local scope) (fun _ w => w = []) :=
  spec_of_frame (fun _ _ => frame_get_local _ _ _)

theorem spec_drop_slot (scope : Nat) (slot : Slot) :
    Spec (compiler_drop_slot scope slot) (fun _ w => w = []) :=
  spec_of_frame (fun _ _ => frame_drop_slot _ _ _ _)

theorem spec_tracker_free (scope : Nat) (tracker : SlotTracker) :
    Spec (compiler_tracker_free scope tracker) (fun _ w => w = []) :=
  spec_of_frame (fun _ _ => frame_tracker_free_loop _ _ _ _)

theorem spec_add_literal (scope : Nat) (x : DstValue) :
    Spec (compiler_add_literal scope x) (fun _ w => w = []) :=
  spec_of_frame (fun _ _ => frame_add_literal _ _ _ _)

theorem spec_declare_symbol (scope : Nat) (sym : DstValue) (flags : Nat) :
    Spec (compiler_declare_symbol scope sym flags) (fun _ w => w = []) :=
  spec_of_frame (fun _ _ => frame_declare_symbol _ _ _ _ _)

theorem spec_push_scope (sameFunction : Bool) :
    Spec (compiler_push_scope sameFunction) (fun _ w => w = []) :=
  spec_of_frame (fun _ _ => frame_push_scope _ _ _)

theorem spec_pop_scope : Spec compiler_pop_scope (fun _ w => w = []) :=
  spec_of_frame (fun _ _ => frame_pop_scope _ _)

theorem spec_guard_enter : Spec recursion_guard_enter (fun _ w => w = []) :=
  spec_of_frame (fun _ _ => frame_guard_enter _ _)

theorem spec_guard_leave : Spec recursion_guard_leave (fun _ w => w = []) :=
  spec_of_frame (fun _ _ => frame_guard_leave _ _)

theorem spec_function_params (subDstScope count : Nat) (params : List DstValue) (i : Nat)
    (varargs : Bool) (arity : Nat) :
    Spec (compile_function_params subDstScope count i params varargs arity)
      (fun _ w => w = []) :=
  spec_of_frame (fun _ _ => frame_function_params _ _ _ _ _ _ _ _)

/-! ## Slots and operands -/

theorem plain_nil : Plain [] := ⟨headOp_nil, fun p => by simp⟩

theorem plain_instr {o : DstOp} {t : List Word} (h1 : o ≠ .JIF) (h2 : o ≠ .JMP)
    (ht : Ops t) : Plain (.op o :: t) :=
  ⟨headOp_cons o t, instr_not_jump h1 h2 ht⟩

theorem plain_append {w1 w2 : List Word} (h1 : Plain w1) (h2 : Plain w2) :
    Plain (w1 ++ w2) := by
  refine ⟨headOp_append h1.1 h2.1, ?_⟩
  intro p
  by_cases hp : p < w1.length
  · rw [List.getElem?_append_left hp]; exact h1.2 p
  · rw [List.getElem?_append_right (by omega)]; exact h2.2 _

theorem plain_good {w : List Word} (h : Plain w) : GoodFrag w :=
  ⟨h.1, fun _ p => jumpAt_of_not_jump (h.2 p)⟩

theorem plain_strict {w : List Word} (h : Plain w) : Strict w :=
  fun p _ hj => absurd (jump_offset_is_jump hj) (h.2 p)

theorem prefixClosed_goodFrag {α : Type} :
    PrefixClosed (fun (_ : α) (w : List Word) => GoodFrag w) :=
  fun _ _ _ hw hr => goodFrag_append hw hr

theorem prefixClosed_plain {α : Type} (Q : α → Prop) :
    PrefixClosed (fun (a : α) (w : List Word) => GoodFrag w ∧ Q a) :=
  prefixClosed_good Q

theorem formFrag_nil (opts : FormOptions) {slot : Slot} (h : slot.hasReturned = false) :
    FormFrag opts slot [] :=
  ⟨goodFrag_nil, fun _ => h, fun h2 => (by rw [h] at h2; cases h2)⟩

theorem spec_optail_pure {α : Type} {P : α → List Word → Prop} (a : α) (h : P a []) :
    Spec (pure a) (OpTail P) :=
  spec_optail_intro (spec_pure a h)

theorem spec_optail_end {α : Type} {m : Comp α} {P : α → List Word → Prop}
    (hm : Spec m (fun _ w => Ops w)) (h : ∀ a, P a []) : Spec m (OpTail P) :=
  spec_mono hm (fun a w hw => ⟨w, [], by simp, hw, h a⟩)

theorem spec_optail_op {β : Type} {k : Unit → Comp β} {P : β → List Word → Prop} (o : DstOp)
    (h1 : o ≠ .JIF) (h2 : o ≠ .JMP) (hp : PrefixClosed P)
    (hk : ∀ u, Spec (k u) (OpTail P)) : Spec (dst_buffer_push_op o >>= k) (OpTail P) :=
  spec_optail_intro (spec_op o h1 h2 hp hk)

/-- An instruction made of an opcode and one operand, alone. -/
theorem spec_instr1 (o : DstOp) (h1 : o ≠ .JIF) (h2 : o ≠ .JMP) (n : Nat) :
    Spec (dst_buffer_push_op o >>= fun _ => dst_buffer_push_u16 n) (fun _ w => Plain w) := by
  refine spec_bind (spec_push_op o) ?_
  intro _ w1 hw1
  subst hw1
  refine spec_mono (spec_push_u16 n) ?_
  intro _ w2 hw2
  subst hw2
  exact plain_instr h1 h2 (ops_singleton _)

theorem spec_get_temp :
    Spec compiler_get_temp (fun r w => w = [] ∧ r.hasReturned = false) := by
  unfold compiler_get_temp
  apply spec_bind_empty spec_compiler_tail
  intro scope
  apply spec_bind_empty (spec_get_local _)
  intro index
  exact spec_pure _ ⟨rfl, rfl⟩

theorem spec_get_target (opts : FormOptions) :
    Spec (compiler_get_target opts)
      (fun r w => w = [] ∧ r.hasReturned = false) := by
  unfold compiler_get_target
  split
  · exact spec_get_temp
  · exact spec_pure _ ⟨rfl, rfl⟩

theorem spec_realize_slot (slot : Slot) :
    Spec (compiler_realize_slot slot)
      (fun r w => Plain w ∧ (slot.hasReturned = false → r.hasReturned = false)) := by
  unfold compiler_realize_slot
  split
  · apply spec_bind_emptyQ spec_get_temp
    intro r hr
    refine spec_bind (spec_push_op .NIL) ?_
    intro _ w1 hw1
    subst hw1
    refine spec_bind (spec_push_u16 _) ?_
    intro _ w2 hw2
    subst hw2
    exact spec_pure _ ⟨plain_instr (by decide) (by decide) (ops_singleton _), fun _ => hr⟩
  · exact spec_pure _ ⟨plain_nil, fun h => h⟩

theorem spec_realize_good (slot : Slot) :
    Spec (compiler_realize_slot slot) (fun _ w => GoodFrag w) :=
  spec_mono (spec_realize_slot slot) (fun _ _ h => plain_good h.1)

theorem spec_coerce_slot (opts : FormOptions) (slot : Slot) :
    Spec (compiler_coerce_slot opts slot)
      (fun r w => Plain w ∧ (slot.hasReturned = false → r.hasReturned = false)) := by
  unfold compiler_coerce_slot
  apply spec_bind_empty spec_compiler_tail
  intro scope
  split
  · apply spec_bind_empty (spec_drop_slot _ _)
    intro _
    exact spec_pure _ ⟨plain_nil, fun h => h⟩
  · refine spec_bind (spec_realize_slot slot) ?_
    rintro r w1 ⟨hw1, hr⟩
    split
    · exact spec_pure _ ⟨by simpa using hw1, hr⟩
    · split
      · refine spec_bind (spec_push_op .MOV) ?_
        intro _ w2 hw2
        subst hw2
        refine spec_bind (spec_push_u16 _) ?_
        intro _ w3 hw3
        subst hw3
        refine spec_bind (spec_push_u16 _) ?_
        intro _ w4 hw4
        subst hw4
        refine spec_pure _ ⟨?_, hr⟩
        have := plain_append hw1 (plain_instr (o := .MOV) (by decide) (by decide)
          (ops_append (ops_singleton (opts.target % 65536)) (ops_singleton (r.index % 65536))))
        simpa using this
      · exact spec_pure _ ⟨by simpa using hw1, hr⟩

/-- What `compiler_return` leaves: a returned slot, and a closed fragment
unless the slot had returned before. -/
theorem spec_return (slot : Slot) :
    Spec (compiler_return slot)
      (fun r w => r.hasReturned = true ∧ Plain w ∧
        (slot.hasReturned = false → ClosedFrag w) ∧ (slot.hasReturned = true → w = [])) := by
  unfold compiler_return
  simp only []
  refine spec_bind (R := fun _ w => Plain w ∧
    (slot.hasReturned = false → ClosedFrag w) ∧ (slot.hasReturned = true → w = [])) ?_ ?_
  · split
    · next h =>
      exact spec_pure _ ⟨plain_nil, fun h2 => (by rw [h] at h2; cases h2), fun _ => rfl⟩
    · next h =>
      split
      · refine spec_mono (spec_push_op .RTN) ?_
        intro _ w hw
        subst hw
        exact ⟨plain_instr (by decide) (by decide) ops_nil,
          ⟨fun _ => closedFrag_terminal (Or.inr (Or.inl rfl)) ops_nil,
          fun h2 => absurd h2 h⟩⟩
      · refine spec_bind (spec_push_op .RET) ?_
        intro _ w1 hw1
        subst hw1
        refine spec_mono (spec_push_u16 _) ?_
        intro _ w2 hw2
        subst hw2
        exact ⟨plain_instr (by decide) (by decide) (ops_singleton _),
          ⟨fun _ => closedFrag_terminal (Or.inl rfl) (ops_singleton _),
          fun h2 => absurd h2 h⟩⟩
  · intro _ w1 hw1
    exact spec_pure _ ⟨rfl, by simpa using hw1⟩

theorem spec_tracker_write_loop :
    ∀ slots : List Slot, Spec (compiler_tracker_write_loop slots) (fun _ w => Ops w)
  | [] => spec_pure _ ops_nil
  | s :: rest => by
    unfold compiler_tracker_write_loop
    refine spec_bind (R := fun _ w => Ops w) ?_ ?_
    · split
      · exact spec_c_error _ _
      · exact spec_ops_u16 _
    · intro _ w1 hw1
      exact spec_mono (spec_tracker_write_loop rest) (fun _ w2 hw2 => ops_append hw1 hw2)

theorem spec_tracker_write (tracker : SlotTracker) (reverse : Bool) :
    Spec (compiler_tracker_write tracker reverse) (fun _ w => Ops w) :=
  spec_tracker_write_loop _

/-- The tail call that ends a form in tail position. -/
theorem spec_tcl (opts : FormOptions) (i : Nat) (r : Slot) (h : opts.isTail = true) :
    Spec (dst_buffer_push_op .TCL >>= fun _ => dst_buffer_push_u16 i >>= fun _ => pure r)
      (FormFrag opts) := by
  refine spec_bind (spec_push_op .TCL) ?_
  intro _ w1 hw1
  subst hw1
  refine spec_bind (spec_push_u16 _) ?_
  intro _ w2 hw2
  subst hw2
  refine spec_pure _ ⟨?_, ?_, ?_⟩
  · exact goodFrag_instr (by decide) (by decide) (ops_singleton _)
  · intro h2; rw [h] at h2; cases h2
  · intro _
    exact closedFrag_terminal (Or.inr (Or.inr rfl)) (ops_singleton _)

/-! ## The fragments of the expression compilers -/

section

attribute [local irreducible] Comp.bind Spec Spec2 GuardFree GuardRel compiler_tail scope_read scope_write scope_parent form_at
  retag_string symbol_resolve compile_symbol_touch compiler_get_local compiler_free_local
  compiler_drop_slot compiler_tracker_free compiler_tracker_write compiler_add_literal
  compiler_declare_symbol compiler_push_scope compiler_pop_scope recursion_guard_enter
  recursion_guard_leave compiler_get_target compiler_get_temp compiler_realize_slot
  compiler_coerce_slot compiler_return dst_buffer_push_op dst_buffer_push_u16
  dst_buffer_push_i16 dst_buffer_push_i32 dst_buffer_push_i64 dst_buffer_push_real
  buffer_count buffer_set_count buffer_skip c_error c_error1 undefined_read getc setc
  compile_nonref_type compile_literal compile_symbol compile_assign compile_varset
  compile_global_var compile_global_def compile_def compile_var compile_block_loop
  compile_block compiler_gen_funcdef compile_function_params compile_function compile_if
  compile_while compile_do compile_quote compile_args compile_apply compile_tran
  compile_elements compile_array compile_table compile_form compile_value_body

theorem spec_cv_good {cv : FormOptions → DstValue → Comp Slot}
    (hcv : ∀ o x, Spec (cv o x) (FormFrag o)) (o : FormOptions) (x : DstValue) :
    Spec (cv o x) (fun _ w => GoodFrag w) :=
  spec_mono (hcv o x) (fun _ _ h => h.1)

theorem spec_cv_plain {cv : FormOptions → DstValue → Comp Slot}
    (hcv : ∀ o x, Spec (cv o x) (FormFrag o)) (o : FormOptions) (x : DstValue)
    (ho : o.isTail = false) :
    Spec (cv o x) (fun s w => GoodFrag w ∧ s.hasReturned = false) :=
  spec_mono (hcv o x) (fun _ _ h => ⟨h.1, h.2.1 ho⟩)

theorem spec_nonref_type (opts : FormOptions) (x : DstValue) :
    Spec (compile_nonref_type opts x) (FormFrag opts) := by
  unfold compile_nonref_type
  split
  · exact spec_pure _ (formFrag_nil _ rfl)
  · apply spec_bind_emptyQ (spec_get_target _)
    intro ret hret
    apply spec_bind_good (P := FormFrag opts) ?_ (prefixClosed_formFrag _)
      (fun _ => spec_pure _ (formFrag_nil _ hret))
    repeat (first
    | exact prefixClosed_goodFrag
    | intro _
    | exact spec_c_error _ _
    | exact spec_optail_end (spec_ops_u16 _) (fun _ => goodFrag_nil)
    | exact spec_optail_end (spec_ops_i16 _) (fun _ => goodFrag_nil)
    | exact spec_optail_end (spec_ops_i32 _) (fun _ => goodFrag_nil)
    | exact spec_optail_end (spec_ops_i64 _) (fun _ => goodFrag_nil)
    | exact spec_optail_end (spec_push_real _) (fun _ => goodFrag_nil)
    | apply spec_op _ (by decide) (by decide)
    | apply spec_optail_ops (spec_ops_u16 _)
    | split)

theorem spec_literal (opts : FormOptions) (x : DstValue) :
    Spec (compile_literal opts x) (FormFrag opts) := by
  unfold compile_literal
  apply spec_bind_empty spec_compiler_tail
  intro scope
  split
  · exact spec_pure _ (formFrag_nil _ rfl)
  · split <;> first | exact spec_nonref_type _ _ | skip
    repeat (first
    | exact prefixClosed_formFrag _
    | intro _
    | exact spec_optail_pure _ (formFrag_nil _ (by first | assumption | rfl))
    | apply spec_bind_empty (spec_add_literal _ _)
    | apply spec_bind_emptyQ (spec_get_target _)
    | apply spec_op _ (by decide) (by decide)
    | apply spec_optail_ops (spec_ops_u16 _))

theorem spec_symbol (cv : FormOptions → DstValue → Comp Slot)
    (hcv : ∀ o x, Spec (cv o x) (FormFrag o)) (opts : FormOptions) (sym : DstValue) :
    Spec (compile_symbol cv opts sym) (FormFrag opts) := by
  unfold compile_symbol
  repeat (first
    | exact prefixClosed_formFrag _
    | intro _
    | exact spec_c_error1 _ _
    | exact spec_pure _ (formFrag_nil _ (by first | assumption | rfl))
    | exact spec_optail_pure _ (formFrag_nil _ (by first | assumption | rfl))
    | apply spec_bind_empty spec_compiler_tail
    | apply spec_bind_empty (spec_scope_read _)
    | apply spec_bind_empty (spec_scope_write _ _)
    | apply spec_bind_empty (spec_symbol_resolve _)
    | apply spec_bind_empty (spec_symbol_touch _ _)
    | apply spec_bind_emptyQ (spec_get_target _)
    | apply spec_op _ (by decide) (by decide)
    | apply spec_optail_ops (spec_ops_u16 _)
    | exact hcv _ _
    | exact spec_literal _ _
    | split)

theorem spec_assign (cv : FormOptions → DstValue → Comp Slot)
    (hcv : ∀ o x, Spec (cv o x) (FormFrag o)) (opts : FormOptions) (left right : DstValue) :
    Spec (compile_assign cv opts left right) (FormFrag opts) := by
  unfold compile_assign
  apply spec_bind_empty spec_compiler_tail
  intro scope
  apply spec_bind_empty (spec_symbol_resolve _)
  intro r
  simp only []
  split
  · split
    · exact spec_c_error _ _
    · apply spec_bind_goodQ (Q := fun s => s.hasReturned = false) ?_ (prefixClosed_formFrag _)
      · intro slot hslot
        repeat (first
    | intro _
    | exact spec_pure _ (formFrag_nil _ (by first | assumption | rfl))
    | apply spec_bind_empty (spec_drop_slot _ _)
    | split)
      · split
        · apply spec_bind_goodQ (spec_cv_plain hcv _ _ rfl) (prefixClosed_good _)
          intro slot0 h0
          apply spec_bind_goodQ
            (spec_mono (spec_realize_slot slot0) (fun _ _ h => ⟨plain_good h.1, h.2 h0⟩))
            (prefixClosed_good _)
          intro slot hs
          apply spec_op _ (by decide) (by decide) (prefixClosed_good _)
          intro _
          apply spec_optail_ops (spec_ops_u16 _)
          intro _
          apply spec_optail_ops (spec_ops_u16 _)
          intro _
          apply spec_optail_ops (spec_ops_u16 _)
          intro _
          exact spec_optail_pure _ ⟨goodFrag_nil, hs⟩
        · exact spec_cv_plain hcv _ _ rfl
  · split
    · repeat (first
    | exact prefixClosed_formFrag _
    | intro _
    | exact hcv _ _
    | apply spec_bind_good (spec_cv_good hcv _ _))
    · exact spec_c_error _ _

theorem spec_varset (cv : FormOptions → DstValue → Comp Slot)
    (hcv : ∀ o x, Spec (cv o x) (FormFrag o)) (opts : FormOptions) (form : List DstValue) :
    Spec (compile_varset cv opts form) (FormFrag opts) := by
  unfold compile_varset
  split
  · exact spec_c_error _ _
  · apply spec_bind_empty (spec_form_at _ _)
    intro f1
    split
    · exact spec_c_error _ _
    · apply spec_bind_empty (spec_form_at _ _)
      intro f2
      exact spec_assign cv hcv opts f1 f2

theorem spec_global_var (cv : FormOptions → DstValue → Comp Slot)
    (hcv : ∀ o x, Spec (cv o x) (FormFrag o)) (opts : FormOptions) (form : List DstValue) :
    Spec (compile_global_var cv opts form) (FormFrag opts) := by
  unfold compile_global_var
  repeat (first
    | intro _
    | apply spec_bind_empty (spec_form_at _ _)
    | apply spec_bind_empty (spec_retag_string _)
    | exact hcv _ _)

theorem spec_global_def (cv : FormOptions → DstValue → Comp Slot)
    (hcv : ∀ o x, Spec (cv o x) (FormFrag o)) (opts : FormOptions) (form : List DstValue) :
    Spec (compile_global_def cv opts form) (FormFrag opts) := by
  unfold compile_global_def
  repeat (first
    | intro _
    | apply spec_bind_empty (spec_form_at _ _)
    | apply spec_bind_empty (spec_retag_string _)
    | exact hcv _ _)

/-- A value compiled into a declared slot and coerced, as `def` and `var`
do. -/
theorem spec_value_coerce (cv : FormOptions → DstValue → Comp Slot)
    (hcv : ∀ o x, Spec (cv o x) (FormFrag o)) (opts subOpts : FormOptions) (x : DstValue)
    (ht : subOpts.isTail = opts.isTail) :
    Spec (cv subOpts x >>= fun slot => compiler_coerce_slot opts slot) (FormFrag opts) := by
  refine spec_bind (hcv subOpts x) ?_
  rintro slot w1 ⟨hg, hnt, hcl⟩
  refine spec_mono (spec_coerce_slot opts slot) ?_
  rintro r w2 ⟨hp, hr⟩
  refine ⟨goodFrag_append hg (plain_good hp), ?_, ?_⟩
  · intro h
    exact hr (hnt (ht.trans h))
  · intro h
    have hs : slot.hasReturned = true := by
      cases hsr : slot.hasReturned
      · rw [hr hsr] at h; cases h
      · rfl
    exact closedFrag_suffix hg (hcl hs) (plain_good hp) (plain_strict hp)

theorem spec_def (cv : FormOptions → DstValue → Comp Slot)
    (hcv : ∀ o x, Spec (cv o x) (FormFrag o)) (opts : FormOptions) (form : List DstValue) :
    Spec (compile_def cv opts form) (FormFrag opts) := by
  unfold compile_def
  apply spec_bind_empty spec_compiler_tail
  intro scope
  split
  · exact spec_c_error _ _
  · apply spec_bind_empty (spec_form_at _ _)
    intro f1
    split
    · exact spec_c_error _ _
    · split
      · apply spec_bind_empty (spec_declare_symbol _ _ _)
        intro target
        apply spec_bind_empty (spec_form_at _ _)
        intro f2
        exact spec_value_coerce cv hcv opts _ f2 rfl
      · exact spec_global_def cv hcv opts form

theorem spec_var (cv : FormOptions → DstValue → Comp Slot)
    (hcv : ∀ o x, Spec (cv o x) (FormFrag o)) (opts : FormOptions) (form : List DstValue) :
    Spec (compile_var cv opts form) (FormFrag opts) := by
  unfold compile_var
  apply spec_bind_empty spec_compiler_tail
  intro scope
  split
  · exact spec_c_error _ _
  · apply spec_bind_empty (spec_form_at _ _)
    intro f1
    split
    · exact spec_c_error _ _
    · split
      · apply spec_bind_empty (spec_declare_symbol _ _ _)
        intro target
        apply spec_bind_empty (spec_form_at _ _)
        intro f2
        exact spec_value_coerce cv hcv opts _ f2 rfl
      · exact spec_global_var cv hcv opts form

theorem spec_block_loop {cv : FormOptions → DstValue → Comp Slot}
    (hcv : ∀ o x, Spec (cv o x) (FormFrag o)) (scope : Nat) (subOpts : FormOptions) :
    ∀ xs : List DstValue, Spec (compile_block_loop cv scope subOpts xs) (fun _ w => GoodFrag w)
  | [] => by
    unfold compile_block_loop
    exact spec_pure _ goodFrag_nil
  | x :: rest => by
    unfold compile_block_loop
    apply spec_bind_good (spec_cv_good hcv _ _) prefixClosed_goodFrag
    intro slot
    apply spec_bind_empty (spec_drop_slot _ _)
    intro _
    exact spec_block_loop hcv scope subOpts rest

theorem spec_args {cv : FormOptions → DstValue → Comp Slot}
    (hcv : ∀ o x, Spec (cv o x) (FormFrag o)) (subOpts : FormOptions) :
    ∀ (xs : List DstValue) (tracker : SlotTracker),
      Spec (compile_args cv subOpts xs tracker) (fun _ w => GoodFrag w)
  | [], _ => by
    unfold compile_args
    exact spec_pure _ goodFrag_nil
  | x :: rest, tracker => by
    unfold compile_args
    apply spec_bind_good (spec_cv_good hcv _ _) prefixClosed_goodFrag
    intro slot
    exact spec_args hcv subOpts rest _

theorem spec_elements {cv : FormOptions → DstValue → Comp Slot}
    (hcv : ∀ o x, Spec (cv o x) (FormFrag o)) (subOpts : FormOptions) :
    ∀ (xs : List DstValue) (tracker : SlotTracker),
      Spec (compile_elements cv subOpts xs tracker) (fun _ w => GoodFrag w)
  | [], _ => by
    unfold compile_elements
    exact spec_pure _ goodFrag_nil
  | x :: rest, tracker => by
    unfold compile_elements
    apply spec_bind_good (spec_cv_good hcv _ _) prefixClosed_goodFrag
    intro slot0
    apply spec_bind_good (spec_realize_good _) prefixClosed_goodFrag
    intro slot
    exact spec_elements hcv subOpts rest _

theorem spec_block (cv : FormOptions → DstValue → Comp Slot)
    (hcv : ∀ o x, Spec (cv o x) (FormFrag o)) (opts : FormOptions) (form : List DstValue)
    (startIndex : Nat) : Spec (compile_block cv opts form startIndex) (FormFrag opts) := by
  unfold compile_block
  repeat (first
    | exact prefixClosed_formFrag _
    | intro _
    | exact spec_pure _ (formFrag_nil _ (by first | assumption | rfl))
    | apply spec_bind_empty spec_compiler_tail
    | apply spec_bind_empty (spec_form_at _ _)
    | exact hcv _ _
    | apply spec_bind_good (spec_block_loop hcv _ _ _)
    | split)

theorem spec_do (cv : FormOptions → DstValue → Comp Slot)
    (hcv : ∀ o x, Spec (cv o x) (FormFrag o)) (opts : FormOptions) (form : List DstValue) :
    Spec (compile_do cv opts form) (FormFrag opts) := by
  unfold compile_do
  apply spec_bind_empty (spec_push_scope _)
  intro _
  refine spec_bind (spec_block cv hcv opts form 1) ?_
  intro ret w1 h1
  apply spec_bind_empty spec_pop_scope
  intro _
  exact spec_pure _ (by simpa using h1)

theorem spec_quote (opts : FormOptions) (form : List DstValue) :
    Spec (compile_quote opts form) (FormFrag opts) := by
  unfold compile_quote
  apply spec_bind_empty spec_compiler_tail
  intro scope
  split
  · exact spec_c_error _ _
  · apply spec_bind_empty (spec_form_at _ _)
    intro x
    split <;> first | exact spec_nonref_type _ _ | skip
    repeat (first
    | exact prefixClosed_formFrag _
    | intro _
    | exact spec_pure _ (formFrag_nil _ (by first | assumption | rfl))
    | exact spec_optail_pure _ (formFrag_nil _ (by first | assumption | rfl))
    | apply spec_bind_empty (spec_add_literal _ _)
    | apply spec_bind_emptyQ (spec_get_target _)
    | apply spec_op _ (by decide) (by decide)
    | apply spec_optail_ops (spec_ops_u16 _)
    | split)

theorem spec_apply (cv : FormOptions → DstValue → Comp Slot)
    (hcv : ∀ o x, Spec (cv o x) (FormFrag o)) (opts : FormOptions) (form : List DstValue) :
    Spec (compile_apply cv opts form) (FormFrag opts) := by
  unfold compile_apply
  repeat (first
    | exact prefixClosed_formFrag _
    | intro _
    | exact spec_c_error _ _
    | exact spec_optail_pure _ (formFrag_nil _ (by first | assumption | rfl))
    | exact spec_optail_intro (spec_tcl _ _ _ (by assumption))
    | apply spec_bind_empty spec_compiler_tail
    | apply spec_bind_empty (spec_form_at _ _)
    | apply spec_bind_empty (spec_drop_slot _ _)
    | apply spec_bind_empty (spec_tracker_free _ _)
    | apply spec_bind_emptyQ (spec_get_target _)
    | apply spec_optail_op _ (by decide) (by decide)
    | apply spec_op _ (by decide) (by decide)
    | apply spec_optail_ops (spec_ops_u16 _)
    | apply spec_optail_ops (spec_tracker_write _ _)
    | apply spec_bind_good (spec_cv_good hcv _ _)
    | apply spec_bind_good (spec_realize_good _)
    | apply spec_bind_good (spec_args hcv _ _ _)
    | split)

theorem spec_tran (cv : FormOptions → DstValue → Comp Slot)
    (hcv : ∀ o x, Spec (cv o x) (FormFrag o)) (opts : FormOptions) (form : List DstValue) :
    Spec (compile_tran cv opts form) (FormFrag opts) := by
  unfold compile_tran
  split
  · exact spec_c_error _ _
  · apply spec_bind_empty (spec_form_at _ _)
    intro f1
    apply spec_bind_good (spec_cv_good hcv _ _) (prefixClosed_formFrag _)
    intro t0
    apply spec_bind_good (spec_realize_good _) (prefixClosed_formFrag _)
    intro t
    apply spec_bind_good (P := FormFrag opts) ?_ (prefixClosed_formFrag _)
    · intro v
      repeat (first
    | exact prefixClosed_formFrag _
    | intro _
    | exact spec_optail_pure _ (formFrag_nil _ (by first | assumption | rfl))
    | apply spec_bind_emptyQ (spec_get_target _)
    | apply spec_op _ (by decide) (by decide)
    | apply spec_optail_ops (spec_ops_u16 _))
    · split
      · apply spec_bind_empty (spec_form_at _ _)
        intro f2
        apply spec_bind_good (spec_cv_good hcv _ _) prefixClosed_goodFrag
        intro v0
        exact spec_realize_good _
      · exact spec_cv_good hcv _ _

theorem spec_array (cv : FormOptions → DstValue → Comp Slot)
    (hcv : ∀ o x, Spec (cv o x) (FormFrag o)) (opts : FormOptions) (array : List DstValue) :
    Spec (compile_array cv opts array) (FormFrag opts) := by
  unfold compile_array
  repeat (first
    | exact prefixClosed_formFrag _
    | intro _
    | exact spec_optail_pure _ (formFrag_nil _ (by first | assumption | rfl))
    | apply spec_bind_empty spec_compiler_tail
    | apply spec_bind_empty (spec_tracker_free _ _)
    | apply spec_bind_emptyQ (spec_get_target _)
    | apply spec_op _ (by decide) (by decide)
    | apply spec_optail_ops (spec_ops_u16 _)
    | apply spec_optail_ops (spec_tracker_write _ _)
    | apply spec_bind_good (spec_elements hcv _ _ _))

theorem spec_table (cv : FormOptions → DstValue → Comp Slot)
    (hcv : ∀ o x, Spec (cv o x) (FormFrag o)) (opts : FormOptions) (tab : List DstValue) :
    Spec (compile_table cv opts tab) (FormFrag opts) := by
  unfold compile_table
  repeat (first
    | exact prefixClosed_formFrag _
    | intro _
    | exact spec_optail_pure _ (formFrag_nil _ (by first | assumption | rfl))
    | apply spec_bind_empty spec_compiler_tail
    | apply spec_bind_empty (spec_tracker_free _ _)
    | apply spec_bind_emptyQ (spec_get_target _)
    | apply spec_op _ (by decide) (by decide)
    | apply spec_optail_ops (spec_ops_u16 _)
    | apply spec_optail_ops (spec_tracker_write _ _)
    | apply spec_bind_good (spec_elements hcv _ _ _))

end

/-! ## Rewriting the buffer: back-patching and extraction -/

theorem wp_buffer_count (Q : Nat → DstCompiler → Prop) (c : DstCompiler) :
    wp buffer_count Q c = Q c.buffer.count c := rfl

theorem wp_buffer_set_count (n : Nat) (Q : Unit → DstCompiler → Prop) (c : DstCompiler) :
    wp (buffer_set_count n) Q c = Q () { c with buffer := { c.buffer with count := n } } := rfl

theorem wp_push_op (o : DstOp) (Q : Unit → DstCompiler → Prop) (c : DstCompiler) :
    wp (dst_buffer_push_op o) Q c = Q () { c with buffer := c.buffer.put (.op o) } := rfl

theorem wp_push_u16 (n : Nat) (Q : Unit → DstCompiler → Prop) (c : DstCompiler) :
    wp (dst_buffer_push_u16 n) Q c
      = Q () { c with buffer := c.buffer.put (.u16 (n % 65536)) } := rfl

theorem wp_push_i32 (v : Int) (Q : Unit → DstCompiler → Prop) (c : DstCompiler) :
    wp (dst_buffer_push_i32 v) Q c
      = Q () { c with buffer := (c.buffer.put (int_word v 0)).put (int_word v 1) } := rfl

theorem wp_of_spec {α : Type} {m : Comp α} {P : α → List Word → Prop}
    {Q : α → DstCompiler → Prop} {c : DstCompiler} (h : Spec m P) (hb : BufOK c)
    (hd : GoodDefs c)
    (hq : ∀ a c1 w, BufOK c1 → GoodDefs c1 → c1.buffer.active = c.buffer.active ++ w →
      P a w → Q a c1) : wp m Q c := by
  refine wp_mono _ _ _ _ ?_ (h c hb hd)
  rintro a c1 ⟨hb1, hd1, w, hw, hp⟩
  exact hq a c1 w hb1 hd1 hw hp

theorem spec_of_wp {α : Type} {m : Comp α} {P : α → List Word → Prop}
    (h : ∀ c, BufOK c → GoodDefs c →
      wp m (fun a c1 => BufOK c1 ∧ GoodDefs c1 ∧
        ∃ w, c1.buffer.active = c.buffer.active ++ w ∧ P a w) c) : Spec m P := h

theorem active_count {c : DstCompiler} (h : BufOK c) :
    c.buffer.count = 2 * c.buffer.active.length := by
  have := active_length h.2
  have := h.1
  omega

theorem data_split {c : DstCompiler} :
    c.buffer.data = c.buffer.active ++ c.buffer.data.drop (c.buffer.count / 2) := by
  unfold DstBuffer.active
  rw [List.take_append_drop]

theorem put_at (b : DstBuffer) (L R : List Word) (p w : Word) (hd : b.data = L ++ p :: R)
    (hc : b.count = 2 * L.length) :
    (b.put w).data = (L ++ [w]) ++ R ∧ (b.put w).count = 2 * (L ++ [w]).length := by
  unfold DstBuffer.put
  have e : b.count / 2 = L.length := by omega
  simp only [e, hd]
  refine ⟨?_, by simp; omega⟩
  rw [List.take_left', List.drop_append_eq_append_drop]
  · simp
  · rfl

theorem put_list :
    ∀ (ws ps : List Word) (b : DstBuffer) (L R : List Word), ps.length = ws.length →
      b.data = L ++ (ps ++ R) → b.count = 2 * L.length →
      (ws.foldl DstBuffer.put b).data = L ++ (ws ++ R) ∧
        (ws.foldl DstBuffer.put b).count = 2 * (L.length + ws.length)
  | [], ps, b, L, R, hl, hd, hc => by
    have : ps = [] := List.length_eq_zero.1 hl
    subst this
    exact ⟨hd, by simpa using hc⟩
  | w :: ws, [], b, L, R, hl, hd, hc => by simp at hl
  | w :: ws, p :: ps, b, L, R, hl, hd, hc => by
    have h1 := put_at b L (ps ++ R) p w (by simpa using hd) hc
    have h2 := put_list ws ps (b.put w) (L ++ [w]) R (by simpa using hl) h1.1 h1.2
    simp only [List.foldl_cons]
    refine ⟨?_, ?_⟩
    · rw [h2.1]; simp
    · rw [h2.2]; simp only [List.length_append, List.length_cons, List.length_nil]; omega

/-- Words written over a placeholder inside the buffer, `count` set back
afterwards. -/
theorem patch_words (c : DstCompiler) (A P X ws : List Word) (n : Nat) (hb : BufOK c)
    (ha : c.buffer.active = A ++ (P ++ X)) (hp : P.length = ws.length)
    (hn : n = 2 * A.length) :
    BufOK { c with buffer :=
      { ws.foldl DstBuffer.put { c.buffer with count := n } with count := c.buffer.count } } ∧
    ({ ws.foldl DstBuffer.put { c.buffer with count := n } with
        count := c.buffer.count } : DstBuffer).active = A ++ (ws ++ X) := by
  have hdata : c.buffer.data = A ++ (P ++ (X ++ c.buffer.data.drop (c.buffer.count / 2))) := by
    have := @data_split c
    rw [ha] at this
    simpa using this
  have hcount := active_count hb
  rw [ha] at hcount
  have h := put_list ws P { c.buffer with count := n } A
    (X ++ c.buffer.data.drop (c.buffer.count / 2)) hp hdata hn
  have hlen : c.buffer.count / 2 = (A ++ (ws ++ X)).length := by
    simp only [List.length_append] at hcount ⊢
    omega
  refine ⟨⟨hb.1, ?_⟩, ?_⟩
  · show c.buffer.count / 2 ≤ (ws.foldl DstBuffer.put { c.buffer with count := n }).data.length
    rw [h.1, hlen]
    simp only [List.length_append]
    omega
  · unfold DstBuffer.active
    show List.take (c.buffer.count / 2)
      (ws.foldl DstBuffer.put { c.buffer with count := n }).data = _
    have : A ++ (ws ++ (X ++ c.buffer.data.drop (c.buffer.count / 2)))
        = (A ++ (ws ++ X)) ++ c.buffer.data.drop (c.buffer.count / 2) := by simp
    rw [h.1, this, hlen]
    exact List.take_left' rfl

theorem take_drop_split (data A w : List Word) (h : data.take (A.length + w.length) = A ++ w) :
    data.take A.length = A ∧ (data.drop A.length).take w.length = w := by
  constructor
  · have : data.take A.length = (data.take (A.length + w.length)).take A.length := by
      rw [List.take_take]; congr 1; omega
    rw [this, h, List.take_left']
    rfl
  · rw [List.take_drop, h, List.drop_left']
    rfl

/-- The function `compiler_gen_funcdef` removes the last words of the buffer
and allocates a definition whose code they are. -/
theorem gen_funcdef_wp (c : DstCompiler) (A w : List Word) (lastNBytes arity : Nat)
    (varargs : Bool) (hb : BufOK c) (hd : GoodDefs c) (ha : c.buffer.active = A ++ w)
    (hl : lastNBytes = 2 * w.length) (hw : GoodCode w) :
    wp (compiler_gen_funcdef lastNBytes arity varargs)
      (fun _ c1 => BufOK c1 ∧ GoodDefs c1 ∧ c1.buffer.active = A) c := by
  have hcount := active_count hb
  rw [ha, List.length_append] at hcount
  have htake : c.buffer.data.take (A.length + w.length) = A ++ w := by
    have : c.buffer.count / 2 = A.length + w.length := by omega
    rw [← this]; exact ha
  obtain ⟨hA, hW⟩ := take_drop_split _ _ _ htake
  unfold compiler_gen_funcdef
  rw [wp_bind, wp_compiler_tail]
  intro scope _
  rw [wp_bind, wp_getc]
  split
  · trivial
  · simp only []
    rw [wp_bind, wp_buffer_set_count, wp_bind, wp_scope_read]
    intro s _
    rw [wp_bind]
    refine wp_mono _ _ _ _ ?_ (frame_pop_scope _ _ _ ⟨rfl, rfl⟩)
    rintro last c2 ⟨hbuf, hfd⟩
    rw [wp_bind, wp_getc, wp_bind, wp_setc, wp_pure]
    have e1 : (c.buffer.count - lastNBytes) / 2 = A.length := by omega
    have e2 : lastNBytes / 2 = w.length := by omega
    refine ⟨⟨?_, ?_⟩, ?_, ?_⟩
    · show c2.buffer.count % 2 = 0
      rw [hbuf]
      show (c.buffer.count - lastNBytes) % 2 = 0
      omega
    · show c2.buffer.count / 2 ≤ c2.buffer.data.length
      rw [hbuf]
      show (c.buffer.count - lastNBytes) / 2 ≤ c.buffer.data.length
      have := hb.2
      omega
    · intro d hdm
      simp only [List.mem_append, List.mem_singleton] at hdm
      rcases hdm with h | h
      · rw [hfd] at h; exact hd d h
      · subst h
        show GoodCode ((c.buffer.data.drop ((c.buffer.count - lastNBytes) / 2)).take
          (lastNBytes / 2))
        rw [e1, e2, hW]
        exact hw
    · show c2.buffer.active = A
      rw [hbuf]
      show List.take ((c.buffer.count - lastNBytes) / 2) c.buffer.data = A
      rw [e1]; exact hA

/-! ## Function literals -/

/-- The body of a function, compiled in tail position and returned, is good
code. -/
theorem spec_return_code (opts : FormOptions) (body : Slot) (w1 : List Word)
    (h : FormFrag opts body w1) :
    Spec (compiler_return body) (fun _ w2 => GoodCode (w1 ++ w2)) := by
  refine spec_mono (spec_return body) ?_
  rintro r w2 ⟨_, hp, hc, he⟩
  cases hb : body.hasReturned
  · exact goodCode_of_closed (goodFrag_append h.1 (plain_good hp))
      (closedFrag_behind h.1 (plain_good hp) (hc hb))
  · rw [he hb, List.append_nil]
    exact goodCode_of_closed h.1 (h.2.2 hb)

/-- A function body compiled at the end of the buffer and extracted from it by
`compiler_gen_funcdef`. -/
theorem spec_excise {α β γ : Type} {m1 : Comp α} {m2 : α → Comp γ} {k : DstPtr → Comp β}
    {R : α → List Word → Prop} {P : β → List Word → Prop} (arity : Nat) (varargs : Bool)
    (h1 : Spec m1 R)
    (h2 : ∀ a w1, R a w1 → Spec (m2 a) (fun _ w2 => GoodCode (w1 ++ w2)))
    (hk : ∀ d, Spec (k d) P) :
    Spec (buffer_count >>= fun sizeBefore => m1 >>= fun a => m2 a >>= fun _ =>
      buffer_count >>= fun count =>
      compiler_gen_funcdef (count - sizeBefore) arity varargs >>= k) P := by
  apply spec_of_wp
  intro c hb hd
  rw [wp_bind, wp_buffer_count, wp_bind]
  apply wp_of_spec h1 hb hd
  intro a c1 w1 hb1 hd1 hw1 hp1
  rw [wp_bind]
  apply wp_of_spec (h2 a w1 hp1) hb1 hd1
  intro _ c2 w2 hb2 hd2 hw2 hg
  rw [wp_bind, wp_buffer_count, wp_bind]
  have hlen : c2.buffer.count - c.buffer.count = 2 * (w1 ++ w2).length := by
    have e2 := active_count hb2
    have e0 := active_count hb
    rw [hw2, hw1] at e2
    simp only [List.length_append] at e2 ⊢
    omega
  refine wp_mono _ _ _ _ ?_ (gen_funcdef_wp c2 c.buffer.active (w1 ++ w2) _ arity varargs
    hb2 hd2 (by rw [hw2, hw1, List.append_assoc]) hlen hg)
  rintro d c3 ⟨hb3, hd3, ha3⟩
  refine wp_mono _ _ _ _ ?_ (hk d c3 hb3 hd3)
  rintro b c4 ⟨hb4, hd4, w, hw, hp⟩
  exact ⟨hb4, hd4, w, by rw [hw, ha3], hp⟩

section

attribute [local irreducible] Comp.bind Spec Spec2 GuardFree GuardRel compiler_tail scope_read scope_write scope_parent form_at
  retag_string symbol_resolve compile_symbol_touch compiler_get_local compiler_free_local
  compiler_drop_slot compiler_tracker_free compiler_tracker_write compiler_add_literal
  compiler_declare_symbol compiler_push_scope compiler_pop_scope recursion_guard_enter
  recursion_guard_leave compiler_get_target compiler_get_temp compiler_realize_slot
  compiler_coerce_slot compiler_return dst_buffer_push_op dst_buffer_push_u16
  dst_buffer_push_i16 dst_buffer_push_i32 dst_buffer_push_i64 dst_buffer_push_real
  buffer_count buffer_set_count buffer_skip c_error c_error1 undefined_read getc setc
  compile_nonref_type compile_literal compile_symbol compile_assign compile_varset
  compile_global_var compile_global_def compile_def compile_var compile_block_loop
  compile_block compiler_gen_funcdef compile_function_params compile_function compile_if
  compile_while compile_do compile_quote compile_args compile_apply compile_tran
  compile_elements compile_array compile_table compile_form compile_value_body

theorem spec_function (cv : FormOptions → DstValue → Comp Slot)
    (hcv : ∀ o x, Spec (cv o x) (FormFrag o)) (opts : FormOptions) (form : List DstValue) :
    Spec (compile_function cv opts form) (FormFrag opts) := by
  unfold compile_function
  apply spec_bind_empty spec_compiler_tail
  intro scope
  simp only []
  split
  · exact spec_pure _ (formFrag_nil _ rfl)
  · apply spec_bind_emptyQ (spec_get_target _)
    intro ret hret
    apply spec_bind_empty (spec_push_scope _)
    intro subDstScope
    apply spec_bind_empty (spec_form_at _ _)
    intro f1
    split
    · apply spec_bind_empty (spec_function_params _ _ _ _ _ _)
      intro va
      apply spec_excise _ _ (spec_block cv hcv _ form 2)
        (fun body w1 h => spec_return_code _ body w1 h)
      intro d
      repeat (first
    | exact prefixClosed_formFrag _
    | intro _
    | exact spec_optail_pure _ (formFrag_nil _ (by first | assumption | rfl))
    | apply spec_bind_empty (spec_add_literal _ _)
    | apply spec_op _ (by decide) (by decide)
    | apply spec_optail_ops (spec_ops_u16 _))
    · exact spec_c_error _ _

end

/-! ## The `if` special form -/

theorem wp_buffer_skip (n : Nat) (Q : Unit → DstCompiler → Prop) (c : DstCompiler) :
    wp (buffer_skip n) Q c = Q () { c with buffer := c.buffer.skip n } := rfl

theorem bufOK_skip {c : DstCompiler} (n : Nat) (hn : n % 2 = 0) (hb : BufOK c) :
    BufOK { c with buffer := c.buffer.skip n } ∧
    ∃ w, (c.buffer.skip n).active = c.buffer.active ++ w ∧ w.length = n / 2 := by
  obtain ⟨hw, h2⟩ := active_skip c.buffer n hn hb.1 hb.2
  exact ⟨h2, hw⟩

theorem spec_if_main_nt4 (cv : FormOptions → DstValue → Comp Slot)
    (hcv : ∀ o x, Spec (cv o x) (FormFrag o)) (opts : FormOptions) (form : List DstValue)
    (scope : Nat) (condition : Slot) (fc : List Word) (hfc : GoodFrag fc)
    (hcond : condition.hasReturned = false)
    (ht : opts.isTail = false) (h4 : form.length = 4) :
    Spec (do
      let countAtJumpIf ← buffer_count
      buffer_skip 8
      let branchOpts := { opts with canChoose := false, target := condition.index }
      let f2 ← form_at form 2
      let left ← cv branchOpts f2
      let countAtJump ← (
        if opts.isTail then do
          let _ ← compiler_return left
          pure 0
        else if form.length == 4 then do
          let countAtJump ← buffer_count
          buffer_skip 6
          pure countAtJump
        else
          pure 0)
      compiler_drop_slot scope left
      let countAfterFirstBranch ← buffer_count
      buffer_set_count countAtJumpIf
      dst_buffer_push_op .JIF
      dst_buffer_push_u16 condition.index
      dst_buffer_push_i32 (Int.ofNat ((countAfterFirstBranch - countAtJumpIf) / 2))
      buffer_set_count countAfterFirstBranch
      let _ ← (
        if form.length == 4 then do
          let f3 ← form_at form 3
          let right ← cv branchOpts f3
          let _ ← (if opts.isTail then compiler_return right else pure right)
          compiler_drop_slot scope right
        else if opts.isTail then do
          let _ ← compiler_return condition
          pure ()
        else
          pure ())
      let _ ← (
        if !opts.isTail && form.length == 4 then do
          let countAfterFirstBranch ← buffer_count
          buffer_set_count countAtJump
          dst_buffer_push_op .JMP
          dst_buffer_push_i32 (Int.ofNat ((countAfterFirstBranch - countAtJump) / 2))
          buffer_set_count countAfterFirstBranch
        else
          pure ())
      if opts.isTail then
        pure { condition with hasReturned := true }
      else
        pure condition) (fun b w2 => FormFrag opts b (fc ++ w2)) := by
  apply spec_of_wp
  intro c hb hd
  simp only [ht, h4, beq_self_eq_true, Bool.false_eq_true, if_false, if_true, Bool.not_false,
    Bool.and_self, Bool.true_and, ↓reduceIte]
  simp only [wp_bind, wp_buffer_count, wp_buffer_set_count, wp_push_op, wp_push_u16,
    wp_push_i32, wp_pure, wp_buffer_skip]
  obtain ⟨hbs, P4, hP4, hP4len⟩ := bufOK_skip 8 (by decide) hb
  apply wp_of_spec (spec_form_at _ _) hbs hd
  intro f2 c1 w hb1 hd1 hw1 he
  subst he
  apply wp_of_spec (hcv _ f2) hb1 hd1
  intro left c2 ft hb2 hd2 hw2 hft
  obtain ⟨hbs2, P3, hP3, hP3len⟩ := bufOK_skip 6 (by decide) hb2
  apply wp_of_spec (spec_drop_slot _ _) hbs2 hd2
  intro _ c3 w hb3 hd3 hw3 he
  subst he
  have ha1 : c1.buffer.active = c.buffer.active ++ P4 := by
    rw [hw1, List.append_nil]; exact hP4
  have ha2 : c2.buffer.active = c.buffer.active ++ (P4 ++ ft) := by
    rw [hw2, ha1, List.append_assoc]
  have ha3 : c3.buffer.active = c.buffer.active ++ (P4 ++ (ft ++ P3)) := by
    rw [hw3, List.append_nil]
    refine hP3.trans ?_
    rw [ha2]; simp
  have hc0 := active_count hb
  have hc2 := active_count hb2
  have hc3 := active_count hb3
  rw [ha2] at hc2
  rw [ha3] at hc3
  simp only [List.length_append] at hc2 hc3
  obtain ⟨hbp, hap⟩ := patch_words c3 c.buffer.active P4 (ft ++ P3)
    [.op .JIF, .u16 (condition.index % 65536),
      int_word (Int.ofNat ((c3.buffer.count - c.buffer.count) / 2)) 0,
      int_word (Int.ofNat ((c3.buffer.count - c.buffer.count) / 2)) 1]
    c.buffer.count hb3 ha3 (by simp [hP4len]) hc0
  apply wp_of_spec (spec_form_at _ _) hbp hd3
  intro f3 c4 w hb4 hd4 hw4 he
  subst he
  apply wp_of_spec (hcv _ f3) hb4 hd4
  intro right c5 fe hb5 hd5 hw5 hfe
  apply wp_of_spec (spec_drop_slot _ _) hb5 hd5
  intro _ c6 w hb6 hd6 hw6 he
  subst he
  have ha6 : c6.buffer.active = (c.buffer.active ++ ([.op .JIF, .u16 (condition.index % 65536),
      int_word (Int.ofNat ((c3.buffer.count - c.buffer.count) / 2)) 0,
      int_word (Int.ofNat ((c3.buffer.count - c.buffer.count) / 2)) 1] ++ ft)) ++ (P3 ++ fe) := by
    rw [hw6, List.append_nil, hw5, hw4, List.append_nil]
    refine (congrArg (· ++ fe) hap).trans ?_
    simp
  obtain ⟨hbq, haq⟩ := patch_words c6 _ P3 fe
    [.op .JMP, int_word (Int.ofNat ((c6.buffer.count - c2.buffer.count) / 2)) 0,
      int_word (Int.ofNat ((c6.buffer.count - c2.buffer.count) / 2)) 1]
    c2.buffer.count hb6 ha6 (by simp [hP3len]) (by
      rw [hc2]; simp only [List.length_append, List.length_cons, List.length_nil]; omega)
  have hc6 := active_count hb6
  rw [ha6] at hc6
  simp only [List.length_append, List.length_cons, List.length_nil] at hc6
  have hv1 : Int.ofNat ((c3.buffer.count - c.buffer.count) / 2)
      = ((4 + (ft.length + 3) : Nat) : Int) := by
    congr 1; omega
  have hv2 : Int.ofNat ((c6.buffer.count - c2.buffer.count) / 2)
      = ((3 + fe.length : Nat) : Int) := by
    congr 1; omega
  refine ⟨hbq, hd6, [.op .JIF, .u16 (condition.index % 65536),
      int_word (Int.ofNat ((c3.buffer.count - c.buffer.count) / 2)) 0,
      int_word (Int.ofNat ((c3.buffer.count - c.buffer.count) / 2)) 1] ++ (ft ++ ([.op .JMP,
        int_word (Int.ofNat ((c6.buffer.count - c2.buffer.count) / 2)) 0,
        int_word (Int.ofNat ((c6.buffer.count - c2.buffer.count) / 2)) 1] ++ fe)),
      haq.trans ?_, ?_⟩
  · simp
  · refine ⟨goodFrag_append hfc ?_, fun _ => hcond, fun h => (by rw [hcond] at h; cases h)⟩
    have hY : GoodFrag (ft ++ ([.op .JMP,
        int_word (Int.ofNat ((c6.buffer.count - c2.buffer.count) / 2)) 0,
        int_word (Int.ofNat ((c6.buffer.count - c2.buffer.count) / 2)) 1] ++ fe)) :=
      goodFrag_append hft.1 (goodFrag_jmp hfe.1 (opOrEnd_length fe) hv2)
    have hk : OpOrEnd (ft ++ ([.op .JMP,
        int_word (Int.ofNat ((c6.buffer.count - c2.buffer.count) / 2)) 0,
        int_word (Int.ofNat ((c6.buffer.count - c2.buffer.count) / 2)) 1] ++ fe))
        (ft.length + 3) :=
      opOrEnd_append_right ft (opOrEnd_append_right [.op .JMP,
        int_word (Int.ofNat ((c6.buffer.count - c2.buffer.count) / 2)) 0,
        int_word (Int.ofNat ((c6.buffer.count - c2.buffer.count) / 2)) 1]
        (opOrEnd_zero hfe.1.1))
    have := goodFrag_jif (condition.index % 65536) hY hk hv1
    simpa using this

theorem spec_if_main_nt3 (cv : FormOptions → DstValue → Comp Slot)
    (hcv : ∀ o x, Spec (cv o x) (FormFrag o)) (opts : FormOptions) (form : List DstValue)
    (scope : Nat) (condition : Slot) (fc : List Word) (hfc : GoodFrag fc)
    (hcond : condition.hasReturned = false)
    (ht : opts.isTail = false) (h4 : ¬ form.length = 4) :
    Spec (do
      let countAtJumpIf ← buffer_count
      buffer_skip 8
      let branchOpts := { opts with canChoose := false, target := condition.index }
      let f2 ← form_at form 2
      let left ← cv branchOpts f2
      let countAtJump ← (
        if opts.isTail then do
          let _ ← compiler_return left
          pure 0
        else if form.length == 4 then do
          let countAtJump ← buffer_count
          buffer_skip 6
          pure countAtJump
        else
          pure 0)
      compiler_drop_slot scope left
      let countAfterFirstBranch ← buffer_count
      buffer_set_count countAtJumpIf
      dst_buffer_push_op .JIF
      dst_buffer_push_u16 condition.index
      dst_buffer_push_i32 (Int.ofNat ((countAfterFirstBranch - countAtJumpIf) / 2))
      buffer_set_count countAfterFirstBranch
      let _ ← (
        if form.length == 4 then do
          let f3 ← form_at form 3
          let right ← cv branchOpts f3
          let _ ← (if opts.isTail then compiler_return right else pure right)
          compiler_drop_slot scope right
        else if opts.isTail then do
          let _ ← compiler_return condition
          pure ()
        else
          pure ())
      let _ ← (
        if !opts.isTail && form.length == 4 then do
          let countAfterFirstBranch ← buffer_count
          buffer_set_count countAtJump
          dst_buffer_push_op .JMP
          dst_buffer_push_i32 (Int.ofNat ((countAfterFirstBranch - countAtJump) / 2))
          buffer_set_count countAfterFirstBranch
        else
          pure ())
      if opts.isTail then
        pure { condition with hasReturned := true }
      else
        pure condition) (fun b w2 => FormFrag opts b (fc ++ w2)) := by
  apply spec_of_wp
  intro c hb hd
  simp only [ht, h4, beq_iff_eq, Bool.false_eq_true, if_false, if_true, Bool.not_false,
    Bool.and_eq_true, and_false, false_and, ↓reduceIte]
  simp only [wp_bind, wp_buffer_count, wp_buffer_set_count, wp_push_op, wp_push_u16,
    wp_push_i32, wp_pure, wp_buffer_skip]
  obtain ⟨hbs, P4, hP4, hP4len⟩ := bufOK_skip 8 (by decide) hb
  apply wp_of_spec (spec_form_at _ _) hbs hd
  intro f2 c1 w hb1 hd1 hw1 he
  subst he
  apply wp_of_spec (hcv _ f2) hb1 hd1
  intro left c2 ft hb2 hd2 hw2 hft
  apply wp_of_spec (spec_drop_slot _ _) hb2 hd2
  intro _ c3 w hb3 hd3 hw3 he
  subst he
  have ha1 : c1.buffer.active = c.buffer.active ++ P4 := by
    rw [hw1, List.append_nil]; exact hP4
  have ha3 : c3.buffer.active = c.buffer.active ++ (P4 ++ ft) := by
    rw [hw3, List.append_nil, hw2, ha1, List.append_assoc]
  have hc0 := active_count hb
  have hc3 := active_count hb3
  rw [ha3] at hc3
  simp only [List.length_append] at hc3
  obtain ⟨hbp, hap⟩ := patch_words c3 c.buffer.active P4 ft
    [.op .JIF, .u16 (condition.index % 65536),
      int_word (Int.ofNat ((c3.buffer.count - c.buffer.count) / 2)) 0,
      int_word (Int.ofNat ((c3.buffer.count - c.buffer.count) / 2)) 1]
    c.buffer.count hb3 ha3 (by simp [hP4len]) hc0
  have hv1 : Int.ofNat ((c3.buffer.count - c.buffer.count) / 2)
      = ((4 + ft.length : Nat) : Int) := by
    congr 1; omega
  refine ⟨hbp, hd3, _, hap, ?_⟩
  refine ⟨goodFrag_append hfc ?_, fun _ => hcond, fun h => (by rw [hcond] at h; cases h)⟩
  have := goodFrag_jif (condition.index % 65536) hft.1 (opOrEnd_length ft) hv1
  simpa using this

/-- A fragment compiled in tail position, followed by what `compiler_return`
emits for its slot, returns on every path. -/
theorem closed_after_return {opts : FormOptions} {s : Slot} {w1 w2 : List Word}
    (h : FormFrag opts s w1)
    (h2 : Plain w2 ∧ (s.hasReturned = false → ClosedFrag w2) ∧ (s.hasReturned = true → w2 = [])) :
    GoodFrag (w1 ++ w2) ∧ ClosedFrag (w1 ++ w2) := by
  obtain ⟨hp, hc, he⟩ := h2
  refine ⟨goodFrag_append h.1 (plain_good hp), ?_⟩
  cases hb : s.hasReturned
  · exact closedFrag_behind h.1 (plain_good hp) (hc hb)
  · rw [he hb, List.append_nil]
    exact h.2.2 hb

theorem spec_if_main_t4 (cv : FormOptions → DstValue → Comp Slot)
    (hcv : ∀ o x, Spec (cv o x) (FormFrag o)) (opts : FormOptions) (form : List DstValue)
    (scope : Nat) (condition : Slot) (fc : List Word) (hfc : GoodFrag fc)
    (ht : opts.isTail = true) (h4 : form.length = 4) :
    Spec (do
      let countAtJumpIf ← buffer_count
      buffer_skip 8
      let branchOpts := { opts with canChoose := false, target := condition.index }
      let f2 ← form_at form 2
      let left ← cv branchOpts f2
      let countAtJump ← (
        if opts.isTail then do
          let _ ← compiler_return left
          pure 0
        else if form.length == 4 then do
          let countAtJump ← buffer_count
          buffer_skip 6
          pure countAtJump
        else
          pure 0)
      compiler_drop_slot scope left
      let countAfterFirstBranch ← buffer_count
      buffer_set_count countAtJumpIf
      dst_buffer_push_op .JIF
      dst_buffer_push_u16 condition.index
      dst_buffer_push_i32 (Int.ofNat ((countAfterFirstBranch - countAtJumpIf) / 2))
      buffer_set_count countAfterFirstBranch
      let _ ← (
        if form.length == 4 then do
          let f3 ← form_at form 3
          let right ← cv branchOpts f3
          let _ ← (if opts.isTail then compiler_return right else pure right)
          compiler_drop_slot scope right
        else if opts.isTail then do
          let _ ← compiler_return condition
          pure ()
        else
          pure ())
      let _ ← (
        if !opts.isTail && form.length == 4 then do
          let countAfterFirstBranch ← buffer_count
          buffer_set_count countAtJump
          dst_buffer_push_op .JMP
          dst_buffer_push_i32 (Int.ofNat ((countAfterFirstBranch - countAtJump) / 2))
          buffer_set_count countAfterFirstBranch
        else
          pure ())
      if opts.isTail then
        pure { condition with hasReturned := true }
      else
        pure condition) (fun b w2 => FormFrag opts b (fc ++ w2)) := by
  apply spec_of_wp
  intro c hb hd
  simp only [ht, h4, beq_self_eq_true, Bool.false_eq_true, if_false, if_true, Bool.not_true,
    Bool.false_and, ↓reduceIte]
  simp only [wp_bind, wp_buffer_count, wp_buffer_set_count, wp_push_op, wp_push_u16,
    wp_push_i32, wp_pure, wp_buffer_skip]
  obtain ⟨hbs, P4, hP4, hP4len⟩ := bufOK_skip 8 (by decide) hb
  apply wp_of_spec (spec_form_at _ _) hbs hd
  intro f2 c1 w hb1 hd1 hw1 he
  subst he
  apply wp_of_spec (hcv _ f2) hb1 hd1
  intro left c2 ft hb2 hd2 hw2 hft
  apply wp_of_spec (spec_return left) hb2 hd2
  intro _ c2r rl hb2r hd2r hw2r hrl
  apply wp_of_spec (spec_drop_slot _ _) hb2r hd2r
  intro _ c3 w hb3 hd3 hw3 he
  subst he
  obtain ⟨hgL, hcL⟩ := closed_after_return hft hrl.2
  have ha1 : c1.buffer.active = c.buffer.active ++ P4 := by
    rw [hw1, List.append_nil]; exact hP4
  have ha3 : c3.buffer.active = c.buffer.active ++ (P4 ++ (ft ++ rl)) := by
    rw [hw3, List.append_nil, hw2r, hw2, ha1]; simp
  have hc0 := active_count hb
  have hc3 := active_count hb3
  rw [ha3] at hc3
  simp only [List.length_append] at hc3
  obtain ⟨hbp, hap⟩ := patch_words c3 c.buffer.active P4 (ft ++ rl)
    [.op .JIF, .u16 (condition.index % 65536),
      int_word (Int.ofNat ((c3.buffer.count - c.buffer.count) / 2)) 0,
      int_word (Int.ofNat ((c3.buffer.count - c.buffer.count) / 2)) 1]
    c.buffer.count hb3 ha3 (by simp [hP4len]) hc0
  apply wp_of_spec (spec_form_at _ _) hbp hd3
  intro f3 c4 w hb4 hd4 hw4 he
  subst he
  apply wp_of_spec (hcv _ f3) hb4 hd4
  intro right c5 fe hb5 hd5 hw5 hfe
  apply wp_of_spec (spec_return right) hb5 hd5
  intro _ c5r rr hb5r hd5r hw5r hrr
  apply wp_of_spec (spec_drop_slot _ _) hb5r hd5r
  intro _ c6 w hb6 hd6 hw6 he
  subst he
  obtain ⟨hgR, hcR⟩ := closed_after_return hfe hrr.2
  have hv1 : Int.ofNat ((c3.buffer.count - c.buffer.count) / 2)
      = ((4 + (ft ++ rl).length : Nat) : Int) := by
    congr 1; simp only [List.length_append]; omega
  refine ⟨hb6, hd6, [.op .JIF, .u16 (condition.index % 65536),
      int_word (Int.ofNat ((c3.buffer.count - c.buffer.count) / 2)) 0,
      int_word (Int.ofNat ((c3.buffer.count - c.buffer.count) / 2)) 1] ++
      ((ft ++ rl) ++ (fe ++ rr)), ?_, ?_⟩
  · rw [hw6, List.append_nil, hw5r, hw5, hw4, List.append_nil]
    refine (congrArg (fun x => x ++ fe ++ rr) hap).trans ?_
    simp
  · have hgY : GoodFrag ((ft ++ rl) ++ (fe ++ rr)) := goodFrag_append hgL hgR
    have hk : OpOrEnd ((ft ++ rl) ++ (fe ++ rr)) (ft ++ rl).length :=
      opOrEnd_append_left (opOrEnd_length _) hgR.1
    have hgX := goodFrag_jif (condition.index % 65536) hgY hk hv1
    have hcX := closedFrag_if (condition.index % 65536) hgL hcL hgR hcR hv1
    refine ⟨goodFrag_append hfc (by simpa using hgX), fun h => (by rw [ht] at h; cases h), ?_⟩
    intro _
    exact closedFrag_behind hfc (by simpa using hgX) (by simpa using hcX)

theorem spec_if_main_t3 (cv : FormOptions → DstValue → Comp Slot)
    (hcv : ∀ o x, Spec (cv o x) (FormFrag o)) (opts : FormOptions) (form : List DstValue)
    (scope : Nat) (condition : Slot) (fc : List Word) (hfc : GoodFrag fc)
    (hcond : condition.hasReturned = false)
    (ht : opts.isTail = true) (h4 : ¬ form.length = 4) :
    Spec (do
      let countAtJumpIf ← buffer_count
      buffer_skip 8
      let branchOpts := { opts with canChoose := false, target := condition.index }
      let f2 ← form_at form 2
      let left ← cv branchOpts f2
      let countAtJump ← (
        if opts.isTail then do
          let _ ← compiler_return left
          pure 0
        else if form.length == 4 then do
          let countAtJump ← buffer_count
          buffer_skip 6
          pure countAtJump
        else
          pure 0)
      compiler_drop_slot scope left
      let countAfterFirstBranch ← buffer_count
      buffer_set_count countAtJumpIf
      dst_buffer_push_op .JIF
      dst_buffer_push_u16 condition.index
      dst_buffer_push_i32 (Int.ofNat ((countAfterFirstBranch - countAtJumpIf) / 2))
      buffer_set_count countAfterFirstBranch
      let _ ← (
        if form.length == 4 then do
          let f3 ← form_at form 3
          let right ← cv branchOpts f3
          let _ ← (if opts.isTail then compiler_return right else pure right)
          compiler_drop_slot scope right
        else if opts.isTail then do
          let _ ← compiler_return condition
          pure ()
        else
          pure ())
      let _ ← (
        if !opts.isTail && form.length == 4 then do
          let countAfterFirstBranch ← buffer_count
          buffer_set_count countAtJump
          dst_buffer_push_op .JMP
          dst_buffer_push_i32 (Int.ofNat ((countAfterFirstBranch - countAtJump) / 2))
          buffer_set_count countAfterFirstBranch
        else
          pure ())
      if opts.isTail then
        pure { condition with hasReturned := true }
      else
        pure condition) (fun b w2 => FormFrag opts b (fc ++ w2)) := by
  apply spec_of_wp
  intro c hb hd
  simp only [ht, h4, beq_iff_eq, Bool.false_eq_true, if_false, if_true, Bool.not_true,
    Bool.false_and, ↓reduceIte]
  simp only [wp_bind, wp_buffer_count, wp_buffer_set_count, wp_push_op, wp_push_u16,
    wp_push_i32, wp_pure, wp_buffer_skip]
  obtain ⟨hbs, P4, hP4, hP4len⟩ := bufOK_skip 8 (by decide) hb
  apply wp_of_spec (spec_form_at _ _) hbs hd
  intro f2 c1 w hb1 hd1 hw1 he
  subst he
  apply wp_of_spec (hcv _ f2) hb1 hd1
  intro left c2 ft hb2 hd2 hw2 hft
  apply wp_of_spec (spec_return left) hb2 hd2
  intro _ c2r rl hb2r hd2r hw2r hrl
  apply wp_of_spec (spec_drop_slot _ _) hb2r hd2r
  intro _ c3 w hb3 hd3 hw3 he
  subst he
  obtain ⟨hgL, hcL⟩ := closed_after_return hft hrl.2
  have ha1 : c1.buffer.active = c.buffer.active ++ P4 := by
    rw [hw1, List.append_nil]; exact hP4
  have ha3 : c3.buffer.active = c.buffer.active ++ (P4 ++ (ft ++ rl)) := by
    rw [hw3, List.append_nil, hw2r, hw2, ha1]; simp
  have hc0 := active_count hb
  have hc3 := active_count hb3
  rw [ha3] at hc3
  simp only [List.length_append] at hc3
  obtain ⟨hbp, hap⟩ := patch_words c3 c.buffer.active P4 (ft ++ rl)
    [.op .JIF, .u16 (condition.index % 65536),
      int_word (Int.ofNat ((c3.buffer.count - c.buffer.count) / 2)) 0,
      int_word (Int.ofNat ((c3.buffer.count - c.buffer.count) / 2)) 1]
    c.buffer.count hb3 ha3 (by simp [hP4len]) hc0
  apply wp_of_spec (spec_return condition) hbp hd3
  intro _ c6 rr hb6 hd6 hw6 hrr
  have hgR : GoodFrag rr := plain_good hrr.2.1
  have hcR : ClosedFrag rr := hrr.2.2.1 hcond
  have hv1 : Int.ofNat ((c3.buffer.count - c.buffer.count) / 2)
      = ((4 + (ft ++ rl).length : Nat) : Int) := by
    congr 1; simp only [List.length_append]; omega
  refine ⟨hb6, hd6, [.op .JIF, .u16 (condition.index % 65536),
      int_word (Int.ofNat ((c3.buffer.count - c.buffer.count) / 2)) 0,
      int_word (Int.ofNat ((c3.buffer.count - c.buffer.count) / 2)) 1] ++
      ((ft ++ rl) ++ rr), ?_, ?_⟩
  · rw [hw6]
    refine (congrArg (fun x => x ++ rr) hap).trans ?_
    simp
  · have hgY : GoodFrag ((ft ++ rl) ++ rr) := goodFrag_append hgL hgR
    have hk : OpOrEnd ((ft ++ rl) ++ rr) (ft ++ rl).length :=
      opOrEnd_append_left (opOrEnd_length _) hgR.1
    have hgX := goodFrag_jif (condition.index % 65536) hgY hk hv1
    have hcX := closedFrag_if (condition.index % 65536) hgL hcL hgR hcR hv1
    refine ⟨goodFrag_append hfc (by simpa using hgX), fun h => (by rw [ht] at h; cases h), ?_⟩
    intro _
    exact closedFrag_behind hfc (by simpa using hgX) (by simpa using hcX)

section

attribute [local irreducible] Comp.bind Spec Spec2 GuardFree GuardRel compiler_tail scope_read scope_write scope_parent form_at
  retag_string symbol_resolve compile_symbol_touch compiler_get_local compiler_free_local
  compiler_drop_slot compiler_tracker_free compiler_tracker_write compiler_add_literal
  compiler_declare_symbol compiler_push_scope compiler_pop_scope recursion_guard_enter
  recursion_guard_leave compiler_get_target compiler_get_temp compiler_realize_slot
  compiler_coerce_slot compiler_return dst_buffer_push_op dst_buffer_push_u16
  dst_buffer_push_i16 dst_buffer_push_i32 dst_buffer_push_i64 dst_buffer_push_real
  buffer_count buffer_set_count buffer_skip c_error c_error1 undefined_read getc setc
  compile_nonref_type compile_literal compile_symbol compile_assign compile_varset
  compile_global_var compile_global_def compile_def compile_var compile_block_loop
  compile_block compiler_gen_funcdef compile_function_params compile_function compile_if
  compile_while compile_do compile_quote compile_args compile_apply compile_tran
  compile_elements compile_array compile_table compile_form compile_value_body

theorem spec_if (cv : FormOptions → DstValue → Comp Slot)
    (hcv : ∀ o x, Spec (cv o x) (FormFrag o)) (opts : FormOptions) (form : List DstValue) :
    Spec (compile_if cv opts form) (FormFrag opts) := by
  unfold compile_if
  apply spec_bind_empty spec_compiler_tail
  intro scope
  split
  · exact spec_c_error _ _
  · simp only []
    apply spec_bind_empty (spec_form_at _ _)
    intro f1
    refine spec_bind (hcv _ f1) ?_
    rintro condition fc ⟨hfc, hcn, _⟩
    have hcond : condition.hasReturned = false := hcn rfl
    split
    · split
      · apply spec_bind_empty (spec_form_at _ _)
        intro f3
        exact spec_mono (hcv opts f3) (fun r w h => prefixClosed_formFrag opts r fc w hfc h)
      · refine spec_pure _ ?_
        rw [List.append_nil]
        exact ⟨hfc, fun _ => hcond, fun h => (by rw [hcond] at h; cases h)⟩
    · have htt : opts.isTail = false ∨ opts.isTail = true := by
        cases opts.isTail
        · exact Or.inl rfl
        · exact Or.inr rfl
      rcases htt with ht | ht
      · by_cases h4 : form.length = 4
        · exact spec_if_main_nt4 cv hcv opts form scope condition fc hfc hcond ht h4
        · exact spec_if_main_nt3 cv hcv opts form scope condition fc hfc hcond ht h4
      · by_cases h4 : form.length = 4
        · exact spec_if_main_t4 cv hcv opts form scope condition fc hfc ht h4
        · exact spec_if_main_t3 cv hcv opts form scope condition fc hfc hcond ht h4

end

/-! ## The `while` special form -/

theorem spec_while (cv : FormOptions → DstValue → Comp Slot)
    (hcv : ∀ o x, Spec (cv o x) (FormFrag o)) (opts : FormOptions) (form : List DstValue) :
    Spec (compile_while cv opts form) (FormFrag opts) := by
  unfold compile_while
  apply spec_of_wp
  intro c hb hd
  simp only [wp_bind, wp_buffer_count]
  apply wp_of_spec (spec_push_scope _) hb hd
  intro _ c1 w hb1 hd1 hw1 he
  subst he
  apply wp_of_spec (spec_form_at _ _) hb1 hd1
  intro f1 c1a w hb1a hd1a hw1a he
  subst he
  apply wp_of_spec (hcv _ f1) hb1a hd1a
  intro cond c2 fc hb2 hd2 hw2 hfc
  have hcond : cond.hasReturned = false := hfc.2.1 rfl
  have ha2 : c2.buffer.active = c.buffer.active ++ fc := by
    rw [hw2, hw1a, List.append_nil, hw1, List.append_nil]
  split
  · rw [wp_pure]
    exact ⟨hb2, hd2, fc, ha2, hfc.1, fun _ => hcond, fun h => (by rw [hcond] at h; cases h)⟩
  · simp only [wp_bind, wp_buffer_count, wp_buffer_skip]
    obtain ⟨hbs, P4, hP4, hP4len⟩ := bufOK_skip 8 (by decide) hb2
    apply wp_of_spec (spec_block cv hcv _ form 2) hbs hd2
    intro body c3 B hb3 hd3 hw3 hB
    apply wp_of_spec spec_compiler_tail hb3 hd3
    intro tail c3a w hb3a hd3a hw3a he
    subst he
    apply wp_of_spec (spec_drop_slot _ _) hb3a hd3a
    intro _ c4 w hb4 hd4 hw4 he
    subst he
    apply wp_of_spec (spec_push_op .JMP) hb4 hd4
    intro _ c4a w hb4a hd4a hw4a he
    subst he
    apply wp_of_spec (spec_push_i32 _) hb4a hd4a
    intro _ c5 w hb5 hd5 hw5 he
    subst he
    have ha4 : c4.buffer.active = (c.buffer.active ++ fc) ++ (P4 ++ B) := by
      rw [hw4, List.append_nil, hw3a, List.append_nil, hw3]
      refine (congrArg (· ++ B) hP4).trans ?_
      rw [ha2]; simp
    have ha5 : c5.buffer.active = (c.buffer.active ++ fc) ++ (P4 ++ (B ++ [.op .JMP,
        int_word (Int.tdiv (to_int32 (c4.buffer.count - c.buffer.count)) (-2)) 0,
        int_word (Int.tdiv (to_int32 (c4.buffer.count - c.buffer.count)) (-2)) 1])) := by
      rw [hw5, hw4a, ha4]; simp
    have hc0 := active_count hb
    have hc2 := active_count hb2
    have hc4 := active_count hb4
    have hc5 := active_count hb5
    rw [ha2] at hc2
    rw [ha4] at hc4
    rw [ha5] at hc5
    simp only [List.length_append, List.length_cons, List.length_nil] at hc2 hc4 hc5
    simp only [wp_buffer_set_count, wp_push_op, wp_push_u16, wp_push_i32, wp_bind]
    obtain ⟨hbp, hap⟩ := patch_words c5 (c.buffer.active ++ fc) P4 (B ++ [.op .JMP,
        int_word (Int.tdiv (to_int32 (c4.buffer.count - c.buffer.count)) (-2)) 0,
        int_word (Int.tdiv (to_int32 (c4.buffer.count - c.buffer.count)) (-2)) 1])
      [.op .JIF, .u16 (cond.index % 65536),
        int_word (Int.tdiv (to_int32 (c5.buffer.count - c2.buffer.count)) 2) 0,
        int_word (Int.tdiv (to_int32 (c5.buffer.count - c2.buffer.count)) 2) 1]
      c2.buffer.count hb5 ha5 (by simp [hP4len]) (by
        rw [hc2]; simp only [List.length_append])
    apply wp_of_spec spec_pop_scope hbp hd5
    intro _ c6 w hb6 hd6 hw6 he
    subst he
    have hfrag : GoodFrag (fc ++ (.op .JIF :: .u16 (cond.index % 65536) ::
        int_word (Int.tdiv (to_int32 (c5.buffer.count - c2.buffer.count)) 2) 0 ::
        int_word (Int.tdiv (to_int32 (c5.buffer.count - c2.buffer.count)) 2) 1 ::
        (B ++ [.op .JMP,
          int_word (Int.tdiv (to_int32 (c4.buffer.count - c.buffer.count)) (-2)) 0,
          int_word (Int.tdiv (to_int32 (c4.buffer.count - c.buffer.count)) (-2)) 1]))) := by
      refine goodFrag_while (cond.index % 65536) hfc.1 hB.1 ?_ ?_
      · intro hsz
        have e : c5.buffer.count - c2.buffer.count = 2 * (4 + B.length + 3) := by omega
        rw [e]
        exact to_int32_half _ hsz
      · intro hsz
        have e : c4.buffer.count - c.buffer.count = 2 * (fc.length + 4 + B.length) := by omega
        rw [e]
        exact to_int32_neg_half _ hsz
    have hact : c6.buffer.active = c.buffer.active ++ (fc ++ (.op .JIF ::
        .u16 (cond.index % 65536) ::
        int_word (Int.tdiv (to_int32 (c5.buffer.count - c2.buffer.count)) 2) 0 ::
        int_word (Int.tdiv (to_int32 (c5.buffer.count - c2.buffer.count)) 2) 1 ::
        (B ++ [.op .JMP,
          int_word (Int.tdiv (to_int32 (c4.buffer.count - c.buffer.count)) (-2)) 0,
          int_word (Int.tdiv (to_int32 (c4.buffer.count - c.buffer.count)) (-2)) 1]))) := by
      rw [hw6, List.append_nil]
      refine hap.trans ?_
      simp
    split
    · rw [wp_pure]
      exact ⟨hb6, hd6, _, hact, hfrag, fun _ => rfl, fun h => (by cases h)⟩
    · rw [wp_pure]
      exact ⟨hb6, hd6, _, hact, hfrag, fun _ => hcond,
        fun h => (by rw [hcond] at h; cases h)⟩

/-! ## Jump validity and tail-return closure -/

section

attribute [local irreducible] Comp.bind Spec Spec2 GuardFree GuardRel compiler_tail scope_read scope_write scope_parent form_at
  retag_string symbol_resolve compile_symbol_touch compiler_get_local compiler_free_local
  compiler_drop_slot compiler_tracker_free compiler_tracker_write compiler_add_literal
  compiler_declare_symbol compiler_push_scope compiler_pop_scope recursion_guard_enter
  recursion_guard_leave compiler_get_target compiler_get_temp compiler_realize_slot
  compiler_coerce_slot compiler_return dst_buffer_push_op dst_buffer_push_u16
  dst_buffer_push_i16 dst_buffer_push_i32 dst_buffer_push_i64 dst_buffer_push_real
  buffer_count buffer_set_count buffer_skip c_error c_error1 undefined_read getc setc
  compile_nonref_type compile_literal compile_symbol compile_assign compile_varset
  compile_global_var compile_global_def compile_def compile_var compile_block_loop
  compile_block compiler_gen_funcdef compile_function_params compile_function compile_if
  compile_while compile_do compile_quote compile_args compile_apply compile_tran
  compile_elements compile_array compile_table compile_form compile_value_body

theorem spec_form (cv : FormOptions → DstValue → Comp Slot)
    (hcv : ∀ o x, Spec (cv o x) (FormFrag o)) (opts : FormOptions) (form : List DstValue) :
    Spec (compile_form cv opts form) (FormFrag opts) := by
  unfold compile_form
  apply spec_bind_empty spec_compiler_tail
  intro scope
  split
  · exact spec_nonref_type _ _
  · split
    · exact spec_apply cv hcv _ _
    · exact spec_do cv hcv _ _
    · exact spec_def cv hcv _ _
    · exact spec_if cv hcv _ _
    · exact spec_function cv hcv _ _
    · exact spec_quote _ _
    · exact spec_tran cv hcv _ _
    · exact spec_var cv hcv _ _
    · exact spec_varset cv hcv _ _
    · exact spec_while cv hcv _ _
    · repeat (first
    | exact prefixClosed_formFrag _
    | intro _
    | exact spec_optail_pure _ (formFrag_nil _ (by first | assumption | rfl))
    | exact spec_optail_intro (spec_tcl _ _ _ (by assumption))
    | apply spec_bind_empty (spec_form_at _ _)
    | apply spec_bind_empty (spec_drop_slot _ _)
    | apply spec_bind_empty (spec_tracker_free _ _)
    | apply spec_bind_emptyQ (spec_get_target _)
    | apply spec_optail_op _ (by decide) (by decide)
    | apply spec_op _ (by decide) (by decide)
    | apply spec_optail_ops (spec_ops_u16 _)
    | apply spec_optail_ops (spec_tracker_write _ _)
    | apply spec_bind_good (spec_cv_good hcv _ _)
    | apply spec_bind_good (spec_realize_good _)
    | apply spec_bind_good (spec_args hcv _ _ _)
    | split)

theorem spec_value_body (cv : FormOptions → DstValue → Comp Slot)
    (hcv : ∀ o x, Spec (cv o x) (FormFrag o)) (opts : FormOptions) (x : DstValue) :
    Spec (compile_value_body cv opts x) (FormFrag opts) := by
  unfold compile_value_body
  apply spec_bind_empty spec_guard_enter
  intro guard
  split
  · exact spec_c_error _ _
  · refine spec_bind (R := FormFrag opts) ?_ ?_
    · split
      · exact spec_nonref_type _ _
      · exact spec_nonref_type _ _
      · exact spec_nonref_type _ _
      · exact spec_nonref_type _ _
      · exact spec_symbol cv hcv _ _
      · exact spec_form cv hcv _ _
      · exact spec_array cv hcv _ _
      · exact spec_table cv hcv _ _
      · exact spec_literal _ _
    · intro ret w1 h
      apply spec_bind_empty spec_guard_leave
      intro _
      exact spec_pure _ (by simpa using h)

end

theorem spec_value : ∀ (n : Nat) (opts : FormOptions) (x : DstValue),
    Spec (compile_value n opts x) (FormFrag opts)
  | 0, _, _ => spec_c_error _ _
  | n + 1, opts, x => spec_value_body _ (spec_value n) opts x

/-- Every definition allocated by a successful compilation has good code. -/
theorem goodDefs_dst_compile {env : DstEnv} {form : DstValue} {guard : Nat} {f : DstFunction}
    {c : DstCompiler} (h : dst_compile env form guard = .ok f c) : GoodDefs c := by
  obtain ⟨slot, d, hrun⟩ := dst_compile_ok h
  have hb0 : BufOK
      { vm := { funcdefs := [], tables := [], arrays := [] }, scopes := [],
        buffer := { data := [], count := 0 }, env := env, recursionGuard := guard } :=
    ⟨rfl, by simp⟩
  have hd0 : GoodDefs
      { vm := { funcdefs := [], tables := [], arrays := [] }, scopes := [],
        buffer := { data := [], count := 0 }, env := env, recursionGuard := guard } := by
    intro d hd; cases hd
  refine wp_of_ok (Q := fun _ c1 => GoodDefs c1) ?_ hrun
  rw [wp_bind]
  apply wp_of_spec (spec_push_scope false) hb0 hd0
  intro _ c1 w hb1 hd1 hw1 he
  subst he
  rw [wp_bind]
  apply wp_of_spec (spec_value guard _ form) hb1 hd1
  intro slot1 c2 w1 hb2 hd2 hw2 hp
  rw [wp_bind]
  apply wp_of_spec (spec_return_code _ slot1 w1 hp) hb2 hd2
  intro _ c3 w2 hb3 hd3 hw3 hg
  rw [wp_bind, wp_buffer_count, wp_bind]
  have ha3 : c3.buffer.active = [] ++ (w1 ++ w2) := by
    rw [hw3, hw2, hw1]
    show ((([] : List Word).take (0 / 2) ++ []) ++ w1) ++ w2 = _
    simp
  have hc3 := active_count hb3
  rw [ha3] at hc3
  refine wp_mono _ _ _ _ ?_ (gen_funcdef_wp c3 [] (w1 ++ w2) _ 0 false hb3 hd3 ha3
    (by simpa using hc3) hg)
  rintro d1 c4 ⟨_, hd4, _⟩
  exact hd4

theorem goodCode_of_mem {env : DstEnv} {form : DstValue} {guard : Nat} {d : DstFuncDef}
    (hd : d ∈ Result.funcdefs (dst_compile env form guard)) : GoodCode d.byteCode := by
  cases h : dst_compile env form guard with
  | ok f c =>
    rw [h] at hd
    exact goodDefs_dst_compile h d hd
  | error e => rw [h] at hd; cases hd
  | undefined => rw [h] at hd; cases hd

set_option maxHeartbeats 4000000 in
theorem form_S2_funcdefs (env : DstEnv) (g : Nat) :
    Result.funcdefs (dst_compile env form_S2 (g + 3)) = [funcdef_S2] := by
  (dsimp [funcdef_S2, no_flags, form_S2, drop_succ_nil, take_succ_nil, get_special_apply, get_special_do, get_special_def,
    get_special_if, get_special_fn, get_special_quote, get_special_tran, get_special_var,
    get_special_varset, get_special_while, get_special_plus, get_special_global_def,
    get_special_global_var, Result.funcdefs, compiled, dst_compile, compile_value_succ, compile_value_body,
    compile_nonref_type, compile_literal, compiler_push_scope, bind, pure, Comp.bind, getc, setc,
    form_options_default, compiler_get_target, compiler_get_temp, compiler_tail,
    compiler_get_local, compiler_free_local, compiler_drop_slot, scope_read, scope_write,
    dst_buffer_push_op, dst_buffer_push_u16, dst_buffer_push_i16, dst_buffer_push_i32, int_word,
    DstBuffer.put, DstBuffer.skip, buffer_skip, compiler_return, buffer_count,
    compiler_gen_funcdef, buffer_set_count, compiler_pop_scope, c_error, c_error1,
    DstValue.isNil, compile_form, compile_function, form_at,
    compile_function_params, compiler_declare_symbol, equal_cstr, DstValue.asString,
    DstValue.isSymbol, dst_table_put, compile_block, compile_block_loop, compile_symbol,
    symbol_resolve, symbol_resolve_scopes, dst_table_get, dst_equals, DstValue.asInteger,
    compiler_add_literal, nil_slot, compile_symbol_touch, scope_parent, compile_if, compile_do,
    compile_def, compile_while, compile_args, compiler_realize_slot, compiler_coerce_slot,
    compiler_tracker_free, compiler_tracker_free_loop, compiler_tracker_write,
    compiler_tracker_write_loop, compiler_tracker_push, tracker_init, dst_string_cvs,
    dst_string_cv, undefined_read, recursion_guard_enter, recursion_guard_leave] <;> simp [funcdef_S2, no_flags, form_S2, Result.funcdefs, compiled, dst_compile, compile_value_succ, compile_value_body,
    compile_nonref_type, compile_literal, compiler_push_scope, bind, pure, Comp.bind, getc, setc,
    form_options_default, compiler_get_target, compiler_get_temp, compiler_tail,
    compiler_get_local, compiler_free_local, compiler_drop_slot, scope_read, scope_write,
    dst_buffer_push_op, dst_buffer_push_u16, dst_buffer_push_i16, dst_buffer_push_i32, int_word,
    DstBuffer.put, DstBuffer.skip, buffer_skip, compiler_return, buffer_count,
    compiler_gen_funcdef, buffer_set_count, compiler_pop_scope, c_error, c_error1,
    DstValue.isNil, compile_form, get_special, name_at, compile_function, form_at,
    compile_function_params, compiler_declare_symbol, equal_cstr, DstValue.asString,
    DstValue.isSymbol, dst_table_put, compile_block, compile_block_loop, compile_symbol,
    symbol_resolve, symbol_resolve_scopes, dst_table_get, dst_equals, DstValue.asInteger,
    compiler_add_literal, nil_slot, compile_symbol_touch, scope_parent, compile_if, compile_do,
    compile_def, compile_while, compile_args, compiler_realize_slot, compiler_coerce_slot,
    compiler_tracker_free, compiler_tracker_free_loop, compiler_tracker_write,
    compiler_tracker_write_loop, compiler_tracker_push, tracker_init, dst_string_cvs,
    dst_string_cv, undefined_read, recursion_guard_enter, recursion_guard_leave])

theorem hasUPV_within {w W : List Word} (h : w <:+: W) (hu : HasUPV w) : HasUPV W := by
  obtain ⟨s, t, rfl⟩ := h
  obtain ⟨p, l, h1, h2, h3⟩ := hu
  refine ⟨s.length + p, l, ?_, ?_, h3⟩
  · rw [List.append_assoc, getElem?_append_shift]
    exact getElem?_append_some h1
  · rw [List.append_assoc, Nat.add_assoc, getElem?_append_shift]
    exact getElem?_append_some h2

theorem getElem?_append_defs {defs more : List DstFuncDef} {k : Nat} {d : DstFuncDef}
    (h : defs[k]? = some d) : (defs ++ more)[k]? = some d := by
  have hk : k < defs.length := by
    by_contra hc
    rw [List.getElem?_eq_none (by omega)] at h
    cases h
  rw [List.getElem?_append_left hk]; exact h

theorem withinUPV_mono {defs : List DstFuncDef} (more : List DstFuncDef) {k : Nat}
    (h : WithinUPV defs k) : WithinUPV (defs ++ more) k := by
  induction h with
  | own hk hu => exact WithinUPV.own (getElem?_append_defs hk) hu
  | nested hk hm _ ih => exact WithinUPV.nested (getElem?_append_defs hk) hm ih

theorem nestedUPV_mono {defs : List DstFuncDef} (more : List DstFuncDef) {d : DstFuncDef}
    (h : NestedUPV defs d) : NestedUPV (defs ++ more) d := by
  rcases h with h | ⟨j, hj, hw⟩
  · exact Or.inl h
  · exact Or.inr ⟨j, hj, withinUPV_mono more hw⟩

theorem withinUPV_of_nested {defs : List DstFuncDef} {k : Nat} {d : DstFuncDef}
    (hk : defs[k]? = some d) (h : NestedUPV defs d) : WithinUPV defs k := by
  rcases h with h | ⟨j, hj, hw⟩
  · exact WithinUPV.own hk h
  · exact WithinUPV.nested hk hj hw

theorem flagsGood_nil : FlagsGood [] := by
  intro d hd
  cases hd

theorem flagsGood_append {defs : List DstFuncDef} {d : DstFuncDef} (h : FlagsGood defs)
    (hd : d.flagged = true → NestedUPV (defs ++ [d]) d) : FlagsGood (defs ++ [d]) := by
  intro x hx hf
  rw [List.mem_append, List.mem_singleton] at hx
  rcases hx with hx | hx
  · exact nestedUPV_mono _ (h x hx hf)
  · subst hx
    exact hd hf

theorem arrMono_refl (vm : Heap) : ArrMono vm vm := ⟨le_refl _, fun _ _ h => h⟩

theorem arrMono_trans {vm vm1 vm2 : Heap} (h1 : ArrMono vm vm1) (h2 : ArrMono vm1 vm2) :
    ArrMono vm vm2 := ⟨le_trans h1.1 h2.1, fun p x h => h2.2 p x (h1.2 p x h)⟩

theorem scope_at_of_length {sc sc1 : List DstScope} {i : Nat} {s : DstScope}
    (hs : sc[i]? = some s) (hl : sc1.length = sc.length) : ∃ s1, sc1[i]? = some s1 := by
  have hi : i < sc.length := by
    by_contra hc
    rw [List.getElem?_eq_none (by omega)] at hs
    cases hs
  exact ⟨sc1[i], List.getElem?_eq_getElem (by omega)⟩

theorem poolEv_mono {sc1 sc2 : List DstScope} {vm1 vm2 : Heap} (he : PoolEv sc1 vm1)
    (hl : sc2.length = sc1.length)
    (hp : ∀ (i : Nat) (s s1 : DstScope), sc1[i]? = some s → sc2[i]? = some s1 →
      s1.literalsArray = s.literalsArray)
    (ha : ArrMono vm1 vm2) (hm : ∃ more, vm2.funcdefs = vm1.funcdefs ++ more) :
    PoolEv sc2 vm2 := by
  obtain ⟨t, j, ht, hmem, hw⟩ := he
  obtain ⟨more, hm⟩ := hm
  obtain ⟨t2, ht2⟩ := scope_at_of_length ht hl
  refine ⟨t2, j, by rw [hl]; exact ht2, ?_, ?_⟩
  · rw [hp _ t t2 ht ht2]
    exact ha.2 _ _ hmem
  · rw [hm]
    exact withinUPV_mono more hw

theorem flow_refl (sc : List DstScope) (vm : Heap) (W : List Word) : Flow sc vm sc vm W :=
  ⟨le_refl _, ⟨[], by simp⟩, arrMono_refl vm, fun _ =>
    ⟨fun i s s1 h h1 => by rw [h] at h1; cases h1; rfl,
     fun hg => ⟨hg, fun i s s1 h h1 hf => by rw [h] at h1; cases h1; exact Or.inl hf⟩⟩⟩

theorem flow_trans {sc sc1 sc2 : List DstScope} {vm vm1 vm2 : Heap} {W : List Word}
    (h1 : Flow sc vm sc1 vm1 W) (h2 : Flow sc1 vm1 sc2 vm2 W) : Flow sc vm sc2 vm2 W := by
  obtain ⟨hl1, ⟨m1, hm1⟩, ha1, hb1⟩ := h1
  obtain ⟨hl2, ⟨m2, hm2⟩, ha2, hb2⟩ := h2
  refine ⟨le_trans hl1 hl2, ⟨m1 ++ m2, by rw [hm2, hm1, List.append_assoc]⟩,
    arrMono_trans ha1 ha2, fun hlen => ?_⟩
  have e1 : sc1.length = sc.length := by omega
  have e2 : sc2.length = sc1.length := by omega
  obtain ⟨hp1, hf1⟩ := hb1 e1
  obtain ⟨hp2, hf2⟩ := hb2 e2
  refine ⟨fun i s s2 hs hs2 => ?_, fun hg => ?_⟩
  · obtain ⟨s1, hs1⟩ := scope_at_of_length hs e1
    exact (hp2 i s1 s2 hs1 hs2).trans (hp1 i s s1 hs hs1)
  · obtain ⟨hg1, hq1⟩ := hf1 hg
    obtain ⟨hg2, hq2⟩ := hf2 hg1
    refine ⟨hg2, fun i s s2 hs hs2 hfl => ?_⟩
    obtain ⟨s1, hs1⟩ := scope_at_of_length hs e1
    rcases hq2 i s1 s2 hs1 hs2 hfl with h | h | h
    · rcases hq1 i s s1 hs hs1 h with h | h | h
      · exact Or.inl h
      · exact Or.inr (Or.inl h)
      · exact Or.inr (Or.inr (poolEv_mono h e2 hp2 ha2 ⟨m2, hm2⟩))
    · exact Or.inr (Or.inl h)
    · exact Or.inr (Or.inr h)

theorem sameRel_refl (c : DstCompiler) : SameRel c c :=
  ⟨rfl, fun i s0 s h h1 => by rw [h] at h1; cases h1; exact ⟨rfl, rfl, rfl⟩, rfl,
    arrMono_refl _⟩

theorem touchRel_refl (c : DstCompiler) : TouchRel c c :=
  ⟨rfl, fun i s0 s h h1 => by rw [h] at h1; cases h1; rfl, rfl, arrMono_refl _⟩

theorem touchRel_of_same {c0 c : DstCompiler} (h : SameRel c0 c) : TouchRel c0 c :=
  ⟨h.1, fun i s0 s h0 h1 => (h.2.1 i s0 s h0 h1).2.2, h.2.2.1, h.2.2.2⟩

theorem flow_of_same {c c1 : DstCompiler} (W : List Word) (h : SameRel c c1) :
    Flow c.scopes c.vm c1.scopes c1.vm W := by
  obtain ⟨hl, hk, hd, ha⟩ := h
  refine ⟨by omega, ⟨[], by rw [hd]; simp⟩, ha, fun _ =>
    ⟨fun i s s1 hs hs1 => (hk i s s1 hs hs1).2.2, fun hg => ⟨by rw [hd]; exact hg, ?_⟩⟩⟩
  intro i s s1 hs hs1 hf
  obtain ⟨e1, e2, _⟩ := hk i s s1 hs hs1
  left
  unfold DstScope.flagged at hf ⊢
  rw [← e1, ← e2]
  exact hf

theorem flow_of_touch {c c1 : DstCompiler} {W : List Word} (h : TouchRel c c1)
    (hu : HasUPV W) : Flow c.scopes c.vm c1.scopes c1.vm W := by
  obtain ⟨hl, hk, hd, ha⟩ := h
  exact ⟨by omega, ⟨[], by rw [hd]; simp⟩, ha, fun _ =>
    ⟨fun i s s1 hs hs1 => hk i s s1 hs hs1, fun hg => ⟨by rw [hd]; exact hg,
      fun _ _ _ _ _ _ => Or.inr (Or.inl hu)⟩⟩⟩

theorem flowP_refl (c : DstCompiler) (w : List Word) : FlowP c c w :=
  fun W _ => flow_refl _ _ W

theorem flowP_trans {c c1 c2 : DstCompiler} {w1 w2 : List Word} (h1 : FlowP c c1 w1)
    (h2 : FlowP c1 c2 w2) : FlowP c c2 (w1 ++ w2) := by
  intro W hW
  refine flow_trans (h1 W ?_) (h2 W ?_)
  · exact List.IsInfix.trans (List.prefix_append w1 w2).isInfix hW
  · exact List.IsInfix.trans (List.suffix_append w1 w2).isInfix hW

theorem flowP_of_same {c c1 : DstCompiler} (w : List Word) (h : SameRel c c1) :
    FlowP c c1 w := fun W _ => flow_of_same W h

theorem sameRel_set {c0 c : DstCompiler} {p : Nat} {s t : DstScope} (h : SameRel c0 c)
    (hs : c.scopes.get? p = some s) (h1 : t.touchParent = s.touchParent)
    (h2 : t.touchEnv = s.touchEnv) (h3 : t.literalsArray = s.literalsArray) :
    SameRel c0 { c with scopes := c.scopes.set p t } := by
  obtain ⟨hl, hk, hd, ha⟩ := h
  refine ⟨by simp [hl], ?_, hd, ha⟩
  intro i s0 s1 h0 hs1
  simp only [List.getElem?_set] at hs1
  rw [List.get?_eq_getElem?] at hs
  by_cases hip : p = i
  · subst hip
    rw [if_pos rfl] at hs1
    split at hs1
    · cases hs1
      obtain ⟨e1, e2, e3⟩ := hk p s0 s h0 hs
      exact ⟨h1.trans e1, h2.trans e2, h3.trans e3⟩
    · cases hs1
  · rw [if_neg hip] at hs1
    exact hk i s0 s1 h0 hs1

theorem touchRel_set {c0 c : DstCompiler} {p : Nat} {s t : DstScope} (h : TouchRel c0 c)
    (hs : c.scopes.get? p = some s) (h3 : t.literalsArray = s.literalsArray) :
    TouchRel c0 { c with scopes := c.scopes.set p t } := by
  obtain ⟨hl, hk, hd, ha⟩ := h
  refine ⟨by simp [hl], ?_, hd, ha⟩
  intro i s0 s1 h0 hs1
  simp only [List.getElem?_set] at hs1
  rw [List.get?_eq_getElem?] at hs
  by_cases hip : p = i
  · subst hip
    rw [if_pos rfl] at hs1
    split at hs1
    · cases hs1
      exact h3.trans (hk p s0 s h0 hs)
    · cases hs1
  · rw [if_neg hip] at hs1
    exact hk i s0 s1 h0 hs1

theorem valid_of_touch {c0 c : DstCompiler} (h : TouchRel c0 c) (hv : ValidPools c0) :
    ValidPools c := by
  obtain ⟨hl, hk, hd, ha⟩ := h
  intro s hs
  obtain ⟨i, hi⟩ := List.mem_iff_getElem?.1 hs
  obtain ⟨s0, hs0⟩ := scope_at_of_length hi hl.symm
  rw [hk i s0 s hs0 hi]
  exact lt_of_lt_of_le (hv s0 (List.mem_iff_getElem?.2 ⟨i, hs0⟩)) ha.1

theorem valid_of_same {c0 c : DstCompiler} (h : SameRel c0 c) (hv : ValidPools c0) :
    ValidPools c := valid_of_touch (touchRel_of_same h) hv

/-! ## Steps that set no flag -/

theorem same_push_op (c0 : DstCompiler) (o : DstOp) :
    Pres (SameRel c0) (dst_buffer_push_op o) := fun _ hc => hc

theorem same_push_u16 (c0 : DstCompiler) (n : Nat) :
    Pres (SameRel c0) (dst_buffer_push_u16 n) := fun _ hc => hc

theorem same_push_i16 (c0 : DstCompiler) (v : Int) :
    Pres (SameRel c0) (dst_buffer_push_i16 v) := fun _ hc => hc

theorem same_push_i32 (c0 : DstCompiler) (v : Int) :
    Pres (SameRel c0) (dst_buffer_push_i32 v) := fun _ hc => hc

theorem same_push_i64 (c0 : DstCompiler) (v : Int) :
    Pres (SameRel c0) (dst_buffer_push_i64 v) := fun _ hc => hc

theorem same_push_real (c0 : DstCompiler) (bits : Nat) :
    Pres (SameRel c0) (dst_buffer_push_real bits) := fun _ hc => hc

theorem same_guard_enter (c0 : DstCompiler) : Pres (SameRel c0) recursion_guard_enter :=
  fun _ hc => hc

theorem same_guard_leave (c0 : DstCompiler) : Pres (SameRel c0) recursion_guard_leave :=
  fun _ hc => hc

theorem same_get_local (c0 : DstCompiler) (scope : Nat) :
    Pres (SameRel c0) (compiler_get_local scope) := by
  intro c hc
  unfold compiler_get_local
  rw [wp_bind, wp_scope_read]
  intro s hget
  split
  · split
    · trivial
    · exact sameRel_set hc hget rfl rfl rfl
  · exact sameRel_set hc hget rfl rfl rfl

theorem same_free_local (c0 : DstCompiler) (scope slot : Nat) :
    Pres (SameRel c0) (compiler_free_local scope slot) := by
  intro c hc
  unfold compiler_free_local
  rw [wp_bind, wp_scope_read]
  intro s hget
  exact sameRel_set hc hget rfl rfl rfl

theorem same_drop_slot (c0 : DstCompiler) (scope : Nat) (slot : Slot) :
    Pres (SameRel c0) (compiler_drop_slot scope slot) := by
  unfold compiler_drop_slot
  split
  · exact same_free_local _ _ _
  · exact pres_pure _ _

theorem same_declare_symbol (c0 : DstCompiler) (scope : Nat) (sym : DstValue) (flags : Nat) :
    Pres (SameRel c0) (compiler_declare_symbol scope sym flags) := by
  unfold compiler_declare_symbol
  apply pres_ite (pres_c_error _ _)
  apply pres_bind (same_get_local _ _)
  intro target c hc
  simp only []
  rw [wp_bind, wp_scope_read]
  intro s hget
  rw [wp_bind]
  exact sameRel_set hc hget rfl rfl rfl

theorem arrMono_set {vm0 vm : Heap} (h : ArrMono vm0 vm) (p : Nat) (x : DstValue)
    (tables : List DstTable) :
    ArrMono vm0 { vm with tables := tables, arrays := vm.arrays.set p (vm.arrays.getD p [] ++ [x]) } := by
  refine ⟨by simpa using h.1, ?_⟩
  intro q y hy
  have := h.2 q y hy
  show y ∈ (vm.arrays.set p (vm.arrays.getD p [] ++ [x])).getD q []
  rw [List.getD_set_eq_ite]
  split
  · next hc =>
    rw [hc.1]
    exact List.mem_append_left _ this
  · exact this

theorem same_add_literal (c0 : DstCompiler) (scope : Nat) (x : DstValue) :
    Pres (SameRel c0) (compiler_add_literal scope x) := by
  intro c hc
  unfold compiler_add_literal
  rw [wp_bind, wp_scope_read]
  intro s hget
  rw [wp_bind, wp_getc]
  simp only []
  split
  · rw [wp_bind, wp_setc, wp_pure]
    obtain ⟨h1, h2, h3, h4⟩ := hc
    exact ⟨h1, h2, h3, arrMono_set h4 _ _ _⟩
  · exact hc
  · exact hc

section

attribute [local irreducible] Pres Comp.bind Spec Spec2 GuardFree GuardRel compiler_tail scope_read scope_write scope_parent form_at
  retag_string symbol_resolve compile_symbol_touch compiler_get_local compiler_free_local
  compiler_drop_slot compiler_tracker_free compiler_tracker_write compiler_add_literal
  compiler_declare_symbol compiler_push_scope compiler_pop_scope recursion_guard_enter
  recursion_guard_leave compiler_get_target compiler_get_temp compiler_realize_slot
  compiler_coerce_slot compiler_return dst_buffer_push_op dst_buffer_push_u16
  dst_buffer_push_i16 dst_buffer_push_i32 dst_buffer_push_i64 dst_buffer_push_real
  buffer_count buffer_set_count buffer_skip c_error c_error1 undefined_read getc setc
  compile_nonref_type compile_literal compile_symbol compile_assign compile_varset
  compile_global_var compile_global_def compile_def compile_var compile_block_loop
  compile_block compiler_gen_funcdef compile_function_params compile_function compile_if
  compile_while compile_do compile_quote compile_args compile_apply compile_tran
  compile_elements compile_array compile_table compile_form compile_value_body

theorem same_return (c0 : DstCompiler) (slot : Slot) :
    Pres (SameRel c0) (compiler_return slot) := by
  unfold compiler_return
  repeat (first
    | apply pres_bind
    | apply pres_ite
    | intro _
    | exact pres_pure _ _
    | exact same_push_op _ _
    | exact same_push_u16 _ _)

theorem same_get_temp (c0 : DstCompiler) : Pres (SameRel c0) compiler_get_temp := by
  unfold compiler_get_temp
  repeat (first
    | apply pres_bind
    | intro _
    | exact pres_pure _ _
    | exact pres_compiler_tail _
    | exact same_get_local _ _)

theorem same_get_target (c0 : DstCompiler) (opts : FormOptions) :
    Pres (SameRel c0) (compiler_get_target opts) := by
  unfold compiler_get_target
  split
  · exact same_get_temp _
  · exact pres_pure _ _

theorem same_realize_slot (c0 : DstCompiler) (slot : Slot) :
    Pres (SameRel c0) (compiler_realize_slot slot) := by
  unfold compiler_realize_slot
  split
  · apply pres_bind (same_get_temp _)
    intro _
    repeat (first
    | apply pres_bind
    | intro _
    | exact pres_pure _ _
    | exact same_push_op _ _
    | exact same_push_u16 _ _)
  · exact pres_pure _ _

theorem same_coerce_slot (c0 : DstCompiler) (opts : FormOptions) (slot : Slot) :
    Pres (SameRel c0) (compiler_coerce_slot opts slot) := by
  unfold compiler_coerce_slot
  apply pres_bind (pres_compiler_tail _)
  intro _
  apply pres_ite
  · repeat (first
    | apply pres_bind
    | intro _
    | exact pres_pure _ _
    | exact same_drop_slot _ _ _)
  · apply pres_bind (same_realize_slot _ _)
    intro _
    repeat (first
    | apply pres_bind
    | apply pres_ite
    | intro _
    | exact pres_pure _ _
    | exact same_push_op _ _
    | exact same_push_u16 _ _)

theorem same_tracker_write_loop (c0 : DstCompiler) :
    ∀ slots : List Slot, Pres (SameRel c0) (compiler_tracker_write_loop slots)
  | [] => pres_pure _ _
  | s :: rest => by
    unfold compiler_tracker_write_loop
    apply pres_bind
    · repeat (first
    | apply pres_ite
    | exact pres_c_error _ _
    | exact same_push_u16 _ _)
    · intro _
      exact same_tracker_write_loop c0 rest

end

theorem same_tracker_write (c0 : DstCompiler) (tracker : SlotTracker) (reverse : Bool) :
    Pres (SameRel c0) (compiler_tracker_write tracker reverse) :=
  same_tracker_write_loop _ _

section

attribute [local irreducible] Pres Comp.bind Spec Spec2 GuardFree GuardRel compiler_tail scope_read scope_write scope_parent form_at
  retag_string symbol_resolve compile_symbol_touch compiler_get_local compiler_free_local
  compiler_drop_slot compiler_tracker_free compiler_tracker_write compiler_add_literal
  compiler_declare_symbol compiler_push_scope compiler_pop_scope recursion_guard_enter
  recursion_guard_leave compiler_get_target compiler_get_temp compiler_realize_slot
  compiler_coerce_slot compiler_return dst_buffer_push_op dst_buffer_push_u16
  dst_buffer_push_i16 dst_buffer_push_i32 dst_buffer_push_i64 dst_buffer_push_real
  buffer_count buffer_set_count buffer_skip c_error c_error1 undefined_read getc setc
  compile_nonref_type compile_literal compile_symbol compile_assign compile_varset
  compile_global_var compile_global_def compile_def compile_var compile_block_loop
  compile_block compiler_gen_funcdef compile_function_params compile_function compile_if
  compile_while compile_do compile_quote compile_args compile_apply compile_tran
  compile_elements compile_array compile_table compile_form compile_value_body

theorem same_tracker_free_loop (c0 : DstCompiler) (scope : Nat) :
    ∀ slots : List Slot, Pres (SameRel c0) (compiler_tracker_free_loop scope slots)
  | [] => pres_pure _ _
  | s :: rest => by
    unfold compiler_tracker_free_loop
    apply pres_bind (same_drop_slot _ _ _)
    intro _
    exact same_tracker_free_loop c0 scope rest

end

theorem same_tracker_free (c0 : DstCompiler) (scope : Nat) (tracker : SlotTracker) :
    Pres (SameRel c0) (compiler_tracker_free scope tracker) :=
  same_tracker_free_loop _ _ _

section

attribute [local irreducible] Pres Comp.bind Spec Spec2 GuardFree GuardRel compiler_tail scope_read scope_write scope_parent form_at
  retag_string symbol_resolve compile_symbol_touch compiler_get_local compiler_free_local
  compiler_drop_slot compiler_tracker_free compiler_tracker_write compiler_add_literal
  compiler_declare_symbol compiler_push_scope compiler_pop_scope recursion_guard_enter
  recursion_guard_leave compiler_get_target compiler_get_temp compiler_realize_slot
  compiler_coerce_slot compiler_return dst_buffer_push_op dst_buffer_push_u16
  dst_buffer_push_i16 dst_buffer_push_i32 dst_buffer_push_i64 dst_buffer_push_real
  buffer_count buffer_set_count buffer_skip c_error c_error1 undefined_read getc setc
  compile_nonref_type compile_literal compile_symbol compile_assign compile_varset
  compile_global_var compile_global_def compile_def compile_var compile_block_loop
  compile_block compiler_gen_funcdef compile_function_params compile_function compile_if
  compile_while compile_do compile_quote compile_args compile_apply compile_tran
  compile_elements compile_array compile_table compile_form compile_value_body

theorem same_nonref_type (c0 : DstCompiler) (opts : FormOptions) (x : DstValue) :
    Pres (SameRel c0) (compile_nonref_type opts x) := by
  unfold compile_nonref_type
  apply pres_ite (pres_pure _ _)
  apply pres_bind (same_get_target _ _)
  intro _
  repeat (first
    | apply pres_bind
    | apply pres_ite
    | intro _
    | exact pres_pure _ _
    | exact pres_c_error _ _
    | exact same_push_op _ _
    | exact same_push_u16 _ _
    | exact same_push_i16 _ _
    | exact same_push_i32 _ _
    | exact same_push_i64 _ _
    | exact same_push_real _ _
    | split)

theorem same_literal (c0 : DstCompiler) (opts : FormOptions) (x : DstValue) :
    Pres (SameRel c0) (compile_literal opts x) := by
  unfold compile_literal
  apply pres_bind (pres_compiler_tail _)
  intro scope
  apply pres_ite (pres_pure _ _)
  cases x <;> simp only [] <;>
    first
    | exact same_nonref_type _ _ _
    | (apply pres_bind (same_get_target _ _)
       intro _
       repeat (first
    | apply pres_bind
    | intro _
    | exact pres_pure _ _
    | exact same_push_op _ _
    | exact same_push_u16 _ _
    | exact same_add_literal _ _ _))

end

theorem same_symbol_resolve (c0 : DstCompiler) (x : DstValue) :
    Pres (SameRel c0) (symbol_resolve x) := by
  unfold symbol_resolve
  apply pres_bind (pres_compiler_tail _)
  intro _
  apply pres_bind (pres_scope_read _ _)
  intro _ c hc
  rw [wp_bind, wp_getc]
  split
  · exact hc
  · simp only []
    split
    · split <;> exact hc
    · split <;> exact hc

section

attribute [local irreducible] Pres Comp.bind Spec Spec2 GuardFree GuardRel compiler_tail scope_read scope_write scope_parent form_at
  retag_string symbol_resolve compile_symbol_touch compiler_get_local compiler_free_local
  compiler_drop_slot compiler_tracker_free compiler_tracker_write compiler_add_literal
  compiler_declare_symbol compiler_push_scope compiler_pop_scope recursion_guard_enter
  recursion_guard_leave compiler_get_target compiler_get_temp compiler_realize_slot
  compiler_coerce_slot compiler_return dst_buffer_push_op dst_buffer_push_u16
  dst_buffer_push_i16 dst_buffer_push_i32 dst_buffer_push_i64 dst_buffer_push_real
  buffer_count buffer_set_count buffer_skip c_error c_error1 undefined_read getc setc
  compile_nonref_type compile_literal compile_symbol compile_assign compile_varset
  compile_global_var compile_global_def compile_def compile_var compile_block_loop
  compile_block compiler_gen_funcdef compile_function_params compile_function compile_if
  compile_while compile_do compile_quote compile_args compile_apply compile_tran
  compile_elements compile_array compile_table compile_form compile_value_body

theorem same_function_params (c0 : DstCompiler) (subDstScope count : Nat) :
    ∀ (params : List DstValue) (i : Nat) (varargs : Bool) (arity : Nat),
      Pres (SameRel c0) (compile_function_params subDstScope count i params varargs arity)
  | [], _, _, _ => by
    unfold compile_function_params
    exact pres_pure _ _
  | param :: rest, i, varargs, arity => by
    unfold compile_function_params
    apply pres_ite (pres_c_error _ _)
    apply pres_bind
    · repeat (first
    | apply pres_ite
    | exact pres_pure _ _
    | exact pres_c_error _ _)
    · intro va
      apply pres_bind (same_declare_symbol _ _ _ _)
      intro _
      exact same_function_params c0 subDstScope count rest (i + 1) va.1 va.2

end

theorem touch_symbol_touch (c0 : DstCompiler) :
    ∀ (i scope : Nat), Pres (TouchRel c0) (compile_symbol_touch i scope)
  | 0, _ => pres_pure _ _
  | 1, _ => pres_pure _ _
  | i + 2, scope => by
    unfold compile_symbol_touch
    intro c hc
    rw [wp_bind, wp_scope_read]
    intro s hget
    rw [wp_bind, wp_scope_write]
    have hc2 : TouchRel c0 { c with scopes := c.scopes.set scope { s with touchParent := true } } :=
      touchRel_set hc hget rfl
    exact pres_bind (pres_scope_parent _ _) (fun p => touch_symbol_touch c0 (i + 1) p) _ hc2

/-! ## Steps that keep the invariants of the compiler -/

theorem wp_and {α : Type} {m : Comp α} {Q1 Q2 : α → DstCompiler → Prop} {c : DstCompiler}
    (h1 : wp m Q1 c) (h2 : wp m Q2 c) : wp m (fun a c1 => Q1 a c1 ∧ Q2 a c1) c := by
  unfold wp at *
  cases hm : m c with
  | ok a c1 =>
    rw [hm] at h1 h2
    exact ⟨h1, h2⟩
  | error e => trivial
  | undefined => trivial

theorem wp_of_spec2 {α : Type} {m : Comp α} {P : DstCompiler → DstCompiler → List Word → Prop}
    {Q : α → DstCompiler → Prop} {c : DstCompiler} (h : Spec2 m P) (hi : Inv c)
    (hq : ∀ a c1 w, Inv c1 → c1.buffer.active = c.buffer.active ++ w → P c c1 w → Q a c1) :
    wp m Q c := by
  refine wp_mono _ _ _ _ ?_ (h c hi)
  rintro a c1 ⟨hi1, w, hw, hp⟩
  exact hq a c1 w hi1 hw hp

theorem spec2_mono {α : Type} {m : Comp α}
    {P Q : DstCompiler → DstCompiler → List Word → Prop} (h : Spec2 m P)
    (hpq : ∀ c c1 w, P c c1 w → Q c c1 w) : Spec2 m Q := by
  intro c hi
  refine wp_mono _ _ _ _ ?_ (h c hi)
  rintro a c1 ⟨hi1, w, hw, hp⟩
  exact ⟨hi1, w, hw, hpq c c1 w hp⟩

theorem spec2_pure {α : Type} (a : α) : Spec2 (pure a) FlowP :=
  fun c hi => ⟨hi, [], by simp, flowP_refl c []⟩

theorem spec2_c_error {α : Type} (e : String) : Spec2 (c_error e : Comp α) FlowP :=
  fun _ _ => trivial

theorem spec2_c_error1 {α : Type} (e : DstValue) : Spec2 (c_error1 e : Comp α) FlowP :=
  fun _ _ => trivial

theorem spec2_undefined_read {α : Type} : Spec2 (undefined_read : Comp α) FlowP :=
  fun _ _ => trivial

theorem spec2_bind {α β : Type} {m : Comp α} {f : α → Comp β} (hm : Spec2 m FlowP)
    (hf : ∀ a, Spec2 (f a) FlowP) : Spec2 (m >>= f) FlowP := by
  intro c hi
  rw [wp_bind]
  refine wp_mono _ _ _ _ ?_ (hm c hi)
  rintro a c1 ⟨hi1, w1, hw1, hp1⟩
  refine wp_mono _ _ _ _ ?_ (hf a c1 hi1)
  rintro b c2 ⟨hi2, w2, hw2, hp2⟩
  exact ⟨hi2, w1 ++ w2, by rw [hw2, hw1, List.append_assoc], flowP_trans hp1 hp2⟩

theorem spec2_of_pres {α : Type} {m : Comp α} {Q : α → List Word → Prop}
    {R : DstCompiler → DstCompiler → Prop} (hs : Spec m Q) (hp : Pres PoolInv m)
    (hr : ∀ c0, Pres (R c0) m) (hrefl : ∀ c, R c c)
    (hv : ∀ c0 c, R c0 c → ValidPools c0 → ValidPools c) :
    Spec2 m (fun c c1 w => R c c1 ∧ ∃ a, Q a w) := by
  rintro c ⟨hb, hd, hpl, hval⟩
  refine wp_intro ?_
  intro a c1 hm
  obtain ⟨hb1, hd1, w, hw, hq⟩ := wp_of_ok (hs c hb hd) hm
  have h2 := wp_of_ok (hp c hpl) hm
  have h3 := wp_of_ok (hr c c (hrefl c)) hm
  exact ⟨⟨hb1, hd1, h2, hv c c1 h3 hval⟩, w, hw, h3, a, hq⟩

theorem spec2_sameQ {α : Type} {m : Comp α} {Q : α → List Word → Prop} (hs : Spec m Q)
    (hp : Pres PoolInv m) (hr : ∀ c0, Pres (SameRel c0) m) :
    Spec2 m (fun c c1 w => SameRel c c1 ∧ ∃ a, Q a w) :=
  spec2_of_pres hs hp hr sameRel_refl (fun _ _ h hv => valid_of_same h hv)

theorem spec2_same {α : Type} {m : Comp α} {Q : α → List Word → Prop} (hs : Spec m Q)
    (hp : Pres PoolInv m) (hr : ∀ c0, Pres (SameRel c0) m) : Spec2 m FlowP :=
  spec2_mono (spec2_sameQ hs hp hr) (fun _ _ w h => flowP_of_same w h.1)

theorem spec2_compiler_tail : Spec2 compiler_tail FlowP :=
  spec2_same spec_compiler_tail (pres_compiler_tail _) (fun _ => pres_compiler_tail _)

theorem spec2_form_at (form : List DstValue) (i : Nat) : Spec2 (form_at form i) FlowP :=
  spec2_same (spec_form_at _ _) (pres_form_at _ _ _) (fun _ => pres_form_at _ _ _)

theorem spec2_retag_string (x : DstValue) : Spec2 (retag_string x) FlowP :=
  spec2_same (spec_retag_string _) (pres_retag_string _ _) (fun _ => pres_retag_string _ _)

theorem spec2_symbol_resolve (x : DstValue) : Spec2 (symbol_resolve x) FlowP :=
  spec2_same (spec_symbol_resolve _) (pool_pres_symbol_resolve _)
    (fun _ => same_symbol_resolve _ _)

theorem spec2_drop_slot (scope : Nat) (slot : Slot) :
    Spec2 (compiler_drop_slot scope slot) FlowP :=
  spec2_same (spec_drop_slot _ _) (pool_pres_drop_slot _ _) (fun _ => same_drop_slot _ _ _)

theorem spec2_tracker_free (scope : Nat) (tracker : SlotTracker) :
    Spec2 (compiler_tracker_free scope tracker) FlowP :=
  spec2_same (spec_tracker_free _ _) (pool_pres_tracker_free _ _)
    (fun _ => same_tracker_free _ _ _)

theorem spec2_tracker_write (tracker : SlotTracker) (reverse : Bool) :
    Spec2 (compiler_tracker_write tracker reverse) FlowP :=
  spec2_same (spec_tracker_write _ _) (pool_pres_tracker_write _ _)
    (fun _ => same_tracker_write _ _ _)

theorem spec2_declare_symbol (scope : Nat) (sym : DstValue) (flags : Nat) :
    Spec2 (compiler_declare_symbol scope sym flags) FlowP :=
  spec2_same (spec_declare_symbol _ _ _) (pool_pres_declare_symbol _ _ _)
    (fun _ => same_declare_symbol _ _ _ _)

theorem spec2_get_target (opts : FormOptions) : Spec2 (compiler_get_target opts) FlowP :=
  spec2_same (spec_get_target _) (pool_pres_get_target _) (fun _ => same_get_target _ _)

theorem spec2_get_temp : Spec2 compiler_get_temp FlowP :=
  spec2_same spec_get_temp pool_pres_get_temp (fun _ => same_get_temp _)

theorem spec2_realize_slot (slot : Slot) : Spec2 (compiler_realize_slot slot) FlowP :=
  spec2_same (spec_realize_slot _) (pool_pres_realize_slot _) (fun _ => same_realize_slot _ _)

theorem spec2_coerce_slot (opts : FormOptions) (slot : Slot) :
    Spec2 (compiler_coerce_slot opts slot) FlowP :=
  spec2_same (spec_coerce_slot _ _) (pool_pres_coerce_slot _ _)
    (fun _ => same_coerce_slot _ _ _)

theorem spec2_return (slot : Slot) : Spec2 (compiler_return slot) FlowP :=
  spec2_same (spec_return _) (pool_pres_return _) (fun _ => same_return _ _)

theorem spec2_push_op (o : DstOp) : Spec2 (dst_buffer_push_op o) FlowP :=
  spec2_same (spec_push_op _) (pool_pres_push_op _) (fun _ => same_push_op _ _)

theorem spec2_push_u16 (n : Nat) : Spec2 (dst_buffer_push_u16 n) FlowP :=
  spec2_same (spec_push_u16 _) (pool_pres_push_u16 _) (fun _ => same_push_u16 _ _)

theorem spec2_push_i16 (v : Int) : Spec2 (dst_buffer_push_i16 v) FlowP :=
  spec2_same (spec_push_i16 _) (pool_pres_push_i16 _) (fun _ => same_push_i16 _ _)

theorem spec2_push_i32 (v : Int) : Spec2 (dst_buffer_push_i32 v) FlowP :=
  spec2_same (spec_push_i32 _) (pool_pres_push_i32 _) (fun _ => same_push_i32 _ _)

theorem spec2_push_i64 (v : Int) : Spec2 (dst_buffer_push_i64 v) FlowP :=
  spec2_same (spec_push_i64 _) (pool_pres_push_i64 _) (fun _ => same_push_i64 _ _)

theorem spec2_push_real (bits : Nat) : Spec2 (dst_buffer_push_real bits) FlowP :=
  spec2_same (spec_push_real _) (pool_pres_push_real _) (fun _ => same_push_real _ _)

theorem spec2_guard_enter : Spec2 recursion_guard_enter FlowP :=
  spec2_same spec_guard_enter pool_pres_guard_enter (fun _ => same_guard_enter _)

theorem spec2_guard_leave : Spec2 recursion_guard_leave FlowP :=
  spec2_same spec_guard_leave pool_pres_guard_leave (fun _ => same_guard_leave _)

theorem spec2_function_params (subDstScope count : Nat) (params : List DstValue) (i : Nat)
    (varargs : Bool) (arity : Nat) :
    Spec2 (compile_function_params subDstScope count i params varargs arity) FlowP :=
  spec2_same (spec_function_params _ _ _ _ _ _) (pool_pres_function_params _ _ _ _ _ _)
    (fun _ => same_function_params _ _ _ _ _ _ _)

theorem spec2_nonref_type (opts : FormOptions) (x : DstValue) :
    Spec2 (compile_nonref_type opts x) FlowP :=
  spec2_same (spec_nonref_type _ _) (pool_pres_nonref_type _ _)
    (fun _ => same_nonref_type _ _ _)

theorem spec2_literal (opts : FormOptions) (x : DstValue) :
    Spec2 (compile_literal opts x) FlowP :=
  spec2_same (spec_literal _ _) (pool_pres_literal _ _) (fun _ => same_literal _ _ _)

section

attribute [local irreducible] Pres Comp.bind Spec Spec2 GuardFree GuardRel compiler_tail scope_read scope_write scope_parent form_at
  retag_string symbol_resolve compile_symbol_touch compiler_get_local compiler_free_local
  compiler_drop_slot compiler_tracker_free compiler_tracker_write compiler_add_literal
  compiler_declare_symbol compiler_push_scope compiler_pop_scope recursion_guard_enter
  recursion_guard_leave compiler_get_target compiler_get_temp compiler_realize_slot
  compiler_coerce_slot compiler_return dst_buffer_push_op dst_buffer_push_u16
  dst_buffer_push_i16 dst_buffer_push_i32 dst_buffer_push_i64 dst_buffer_push_real
  buffer_count buffer_set_count buffer_skip c_error c_error1 undefined_read getc setc
  compile_nonref_type compile_literal compile_symbol compile_assign compile_varset
  compile_global_var compile_global_def compile_def compile_var compile_block_loop
  compile_block compiler_gen_funcdef compile_function_params compile_function compile_if
  compile_while compile_do compile_quote compile_args compile_apply compile_tran
  compile_elements compile_array compile_table compile_form compile_value_body

theorem same_quote (c0 : DstCompiler) (opts : FormOptions) (form : List DstValue) :
    Pres (SameRel c0) (compile_quote opts form) := by
  unfold compile_quote
  apply pres_bind (pres_compiler_tail _)
  intro scope
  apply pres_ite (pres_c_error _ _)
  apply pres_bind (pres_form_at _ _ _)
  intro x
  split
  · exact same_nonref_type _ _ _
  · exact same_nonref_type _ _ _
  · exact same_nonref_type _ _ _
  · exact same_nonref_type _ _ _
  · apply pres_ite (pres_pure _ _)
    apply pres_bind (same_get_target _ _)
    intro _
    repeat (first
    | apply pres_bind
    | intro _
    | exact pres_pure _ _
    | exact same_push_op _ _
    | exact same_push_u16 _ _
    | exact same_add_literal _ _ _)

end

theorem spec2_quote (opts : FormOptions) (form : List DstValue) :
    Spec2 (compile_quote opts form) FlowP :=
  spec2_same (spec_quote _ _) (pool_pres_quote _ _) (fun _ => same_quote _ _ _)

/-! ## Flags: the compilers of expressions -/

theorem symbol_resolve_scopes_level (currentLevel : Nat) (x : DstValue) :
    ∀ (scopes : List DstScope) (r : Resolution),
      symbol_resolve_scopes currentLevel x scopes = some r → r.level < 65536
  | [], r, h => by
    unfold symbol_resolve_scopes at h
    cases h
  | scope :: parents, r, h => by
    unfold symbol_resolve_scopes at h
    simp only [] at h
    split at h
    · cases h
      exact Nat.mod_lt _ (by decide)
    · exact symbol_resolve_scopes_level currentLevel x parents r h

theorem symbol_resolve_level (x : DstValue) (c : DstCompiler) :
    wp (symbol_resolve x) (fun r _ => r.level < 65536) c := by
  unfold symbol_resolve
  rw [wp_bind, wp_compiler_tail]
  intro tail _
  rw [wp_bind, wp_scope_read]
  intro scope _
  rw [wp_bind, wp_getc]
  split
  · next r hr =>
    rw [wp_pure]
    exact symbol_resolve_scopes_level _ _ _ _ hr
  · simp only []
    split
    · split <;> (rw [wp_pure]; exact Nat.zero_lt_succ _)
    · split <;> (rw [wp_pure]; exact Nat.zero_lt_succ _)

theorem spec2_bind_val {α β : Type} {m : Comp α} {f : α → Comp β} {V : α → Prop}
    (hm : Spec2 m FlowP) (hv : ∀ c, wp m (fun a _ => V a) c)
    (hf : ∀ a, V a → Spec2 (f a) FlowP) : Spec2 (m >>= f) FlowP := by
  intro c hi
  rw [wp_bind]
  refine wp_mono _ _ _ _ ?_ (wp_and (hm c hi) (hv c))
  rintro a c1 ⟨⟨hi1, w1, hw1, hp1⟩, hva⟩
  refine wp_mono _ _ _ _ ?_ (hf a hva c1 hi1)
  rintro b c2 ⟨hi2, w2, hw2, hp2⟩
  exact ⟨hi2, w1 ++ w2, by rw [hw2, hw1, List.append_assoc], flowP_trans hp1 hp2⟩

theorem sameRel_touch {c0 c c1 : DstCompiler} (h0 : TouchRel c0 c) (h1 : SameRel c c1) :
    TouchRel c0 c1 := by
  obtain ⟨hl, hk, hd, ha⟩ := h0
  obtain ⟨hl1, hk1, hd1, ha1⟩ := h1
  refine ⟨hl1.trans hl, ?_, hd1.trans hd, arrMono_trans ha ha1⟩
  intro i s0 s1 hs0 hs1
  obtain ⟨s, hs⟩ := scope_at_of_length hs0 hl
  exact (hk1 i s s1 hs hs1).2.2.trans (hk i s0 s hs0 hs)

theorem pres_touch_of_same {α : Type} {m : Comp α} (hr : ∀ c0, Pres (SameRel c0) m)
    (c0 : DstCompiler) : Pres (TouchRel c0) m := by
  intro c hc
  refine wp_mono _ _ _ _ ?_ (hr c c (sameRel_refl c))
  intro a c1 h1
  exact sameRel_touch hc h1

theorem touch_upvalue_code (opts : FormOptions) (r : Resolution) (c0 : DstCompiler) :
    Pres (TouchRel c0) (upvalue_code opts r) := by
  unfold upvalue_code
  apply pres_bind (pres_compiler_tail _)
  intro _
  apply pres_bind (touch_symbol_touch _ _ _)
  intro scope c hc
  rw [wp_bind, wp_scope_read]
  intro s hget
  rw [wp_bind, wp_scope_write]
  have hc2 : TouchRel c0 { c with scopes := c.scopes.set scope { s with touchEnv := true } } :=
    touchRel_set hc hget rfl
  have : Pres (TouchRel c0) (compiler_get_target opts >>= fun ret =>
      dst_buffer_push_op .UPV >>= fun _ => dst_buffer_push_u16 ret.index >>= fun _ =>
      dst_buffer_push_u16 r.level >>= fun _ => dst_buffer_push_u16 r.index >>= fun _ =>
      pure ret) := by
    apply pres_touch_of_same
    intro c1
    apply pres_bind (same_get_target _ _)
    intro _
    repeat (first
    | exact pres_buffer_count _)
  exact this _ hc2

theorem pool_pres_upvalue_code (opts : FormOptions) (r : Resolution) :
    Pres PoolInv (upvalue_code opts r) := by
  unfold upvalue_code
  apply pres_bind (pres_compiler_tail _)
  intro _
  apply pres_bind (pool_pres_symbol_touch _ _)
  intro scope c hc
  rw [wp_bind, wp_scope_read]
  intro s hget
  rw [wp_bind, wp_scope_write]
  have hlit := PoolInv_of_get hc hget
  have hc2 := PoolInv_set_scope scope { s with touchEnv := true } hc hlit
  have : Pres PoolInv (compiler_get_target opts >>= fun ret =>
      dst_buffer_push_op .UPV >>= fun _ => dst_buffer_push_u16 ret.index >>= fun _ =>
      dst_buffer_push_u16 r.level >>= fun _ => dst_buffer_push_u16 r.index >>= fun _ =>
      pure ret) := by
    apply pres_bind (pool_pres_get_target _)
    intro _
    repeat (first
    | exact pres_buffer_count _)
  exact this _ hc2

theorem spec_upvalue_code (opts : FormOptions) (r : Resolution) (h0 : r.level > 0)
    (h1 : r.level < 65536) : Spec (upvalue_code opts r) (fun _ w => HasUPV w) := by
  unfold upvalue_code
  apply spec_bind_empty spec_compiler_tail
  intro _
  apply spec_bind_empty (spec_symbol_touch _ _)
  intro scope
  apply spec_bind_empty (spec_scope_read _)
  intro s
  apply spec_bind_empty (spec_scope_write _ _)
  intro _
  apply spec_bind_emptyQ (spec_get_target _)
  intro ret _
  refine spec_bind (spec_push_op _) ?_
  intro _ w1 hw1
  refine spec_bind (spec_push_u16 _) ?_
  intro _ w2 hw2
  refine spec_bind (spec_push_u16 _) ?_
  intro _ w3 hw3
  refine spec_bind (spec_push_u16 _) ?_
  intro _ w4 hw4
  refine spec_pure _ ?_
  subst hw1 hw2 hw3 hw4
  refine ⟨0, r.level % 65536, by simp, by simp, ?_⟩
  rw [Nat.mod_eq_of_lt h1]
  exact h0

theorem spec2_upvalue_code (opts : FormOptions) (r : Resolution) (h0 : r.level > 0)
    (h1 : r.level < 65536) : Spec2 (upvalue_code opts r) FlowP := by
  refine spec2_mono (spec2_of_pres (spec_upvalue_code opts r h0 h1) (pool_pres_upvalue_code _ _)
    (fun c0 => touch_upvalue_code opts r c0) touchRel_refl
    (fun _ _ h hv => valid_of_touch h hv)) ?_
  rintro c c1 w ⟨ht, _, hu⟩ W hW
  exact flow_of_touch ht (hasUPV_within hW hu)

section

attribute [local irreducible] Comp.bind Spec Spec2 GuardFree GuardRel compiler_tail scope_read scope_write scope_parent form_at
  retag_string symbol_resolve compile_symbol_touch compiler_get_local compiler_free_local
  compiler_drop_slot compiler_tracker_free compiler_tracker_write compiler_add_literal
  compiler_declare_symbol compiler_push_scope compiler_pop_scope recursion_guard_enter
  recursion_guard_leave compiler_get_target compiler_get_temp compiler_realize_slot
  compiler_coerce_slot compiler_return dst_buffer_push_op dst_buffer_push_u16
  dst_buffer_push_i16 dst_buffer_push_i32 dst_buffer_push_i64 dst_buffer_push_real
  buffer_count buffer_set_count buffer_skip c_error c_error1 undefined_read getc setc
  compile_nonref_type compile_literal compile_symbol compile_assign compile_varset
  compile_global_var compile_global_def compile_def compile_var compile_block_loop
  compile_block compiler_gen_funcdef compile_function_params compile_function compile_if
  compile_while compile_do compile_quote compile_args compile_apply compile_tran
  compile_elements compile_array compile_table compile_form compile_value_body

theorem spec2_symbol (cv : FormOptions → DstValue → Comp Slot)
    (hcv : ∀ o x, Spec2 (cv o x) FlowP) (opts : FormOptions) (sym : DstValue) :
    Spec2 (compile_symbol cv opts sym) FlowP := by
  unfold compile_symbol
  apply spec2_bind_val (spec2_symbol_resolve _) (symbol_resolve_level _)
  intro r hr
  split
  · exact spec2_c_error1 _
  · split
    · exact spec2_pure _
    · split
      · exact spec2_literal _ _
      · split
        · exact hcv _ _
        · split
          · next h0 => exact spec2_upvalue_code opts r h0 hr
          · repeat (first
    | apply spec2_bind
    | intro _
    | exact spec2_pure _
    | exact spec2_push_op _
    | exact spec2_push_u16 _
    | split)

theorem spec2_assign (cv : FormOptions → DstValue → Comp Slot)
    (hcv : ∀ o x, Spec2 (cv o x) FlowP) (opts : FormOptions) (left right : DstValue) :
    Spec2 (compile_assign cv opts left right) FlowP := by
  unfold compile_assign
  repeat (first
    | apply spec2_bind
    | intro _
    | exact spec2_pure _
    | exact spec2_c_error _
    | exact hcv _ _
    | exact spec2_compiler_tail
    | exact spec2_symbol_resolve _
    | exact spec2_drop_slot _ _
    | exact spec2_realize_slot _
    | exact spec2_push_op _
    | exact spec2_push_u16 _
    | split)

theorem spec2_varset (cv : FormOptions → DstValue → Comp Slot)
    (hcv : ∀ o x, Spec2 (cv o x) FlowP) (opts : FormOptions) (form : List DstValue) :
    Spec2 (compile_varset cv opts form) FlowP := by
  unfold compile_varset
  split
  · exact spec2_c_error _
  · apply spec2_bind (spec2_form_at _ _)
    intro f1
    split
    · exact spec2_c_error _
    · apply spec2_bind (spec2_form_at _ _)
      intro f2
      exact spec2_assign cv hcv _ _ _

theorem spec2_global_var (cv : FormOptions → DstValue → Comp Slot)
    (hcv : ∀ o x, Spec2 (cv o x) FlowP) (opts : FormOptions) (form : List DstValue) :
    Spec2 (compile_global_var cv opts form) FlowP := by
  unfold compile_global_var
  repeat (first
    | apply spec2_bind
    | intro _
    | exact hcv _ _
    | exact spec2_form_at _ _
    | exact spec2_retag_string _)

theorem spec2_global_def (cv : FormOptions → DstValue → Comp Slot)
    (hcv : ∀ o x, Spec2 (cv o x) FlowP) (opts : FormOptions) (form : List DstValue) :
    Spec2 (compile_global_def cv opts form) FlowP := by
  unfold compile_global_def
  repeat (first
    | apply spec2_bind
    | intro _
    | exact hcv _ _
    | exact spec2_form_at _ _
    | exact spec2_retag_string _)

theorem spec2_def (cv : FormOptions → DstValue → Comp Slot)
    (hcv : ∀ o x, Spec2 (cv o x) FlowP) (opts : FormOptions) (form : List DstValue) :
    Spec2 (compile_def cv opts form) FlowP := by
  unfold compile_def
  apply spec2_bind spec2_compiler_tail
  intro scope
  split
  · exact spec2_c_error _
  · apply spec2_bind (spec2_form_at _ _)
    intro f1
    split
    · exact spec2_c_error _
    · split
      · repeat (first
    | apply spec2_bind
    | intro _
    | exact hcv _ _
    | exact spec2_form_at _ _
    | exact spec2_declare_symbol _ _ _
    | exact spec2_coerce_slot _ _)
      · exact spec2_global_def cv hcv _ _

theorem spec2_var (cv : FormOptions → DstValue → Comp Slot)
    (hcv : ∀ o x, Spec2 (cv o x) FlowP) (opts : FormOptions) (form : List DstValue) :
    Spec2 (compile_var cv opts form) FlowP := by
  unfold compile_var
  apply spec2_bind spec2_compiler_tail
  intro scope
  split
  · exact spec2_c_error _
  · apply spec2_bind (spec2_form_at _ _)
    intro f1
    split
    · exact spec2_c_error _
    · split
      · repeat (first
    | apply spec2_bind
    | intro _
    | exact hcv _ _
    | exact spec2_form_at _ _
    | exact spec2_declare_symbol _ _ _
    | exact spec2_coerce_slot _ _)
      · exact spec2_global_var cv hcv _ _

theorem spec2_block_loop {cv : FormOptions → DstValue → Comp Slot}
    (hcv : ∀ o x, Spec2 (cv o x) FlowP) (scope : Nat) (subOpts : FormOptions) :
    ∀ xs : List DstValue, Spec2 (compile_block_loop cv scope subOpts xs) FlowP
  | [] => by
    unfold compile_block_loop
    exact spec2_pure _
  | x :: rest => by
    unfold compile_block_loop
    apply spec2_bind (hcv _ _)
    intro slot
    apply spec2_bind (spec2_drop_slot _ _)
    intro _
    exact spec2_block_loop hcv scope subOpts rest

theorem spec2_args {cv : FormOptions → DstValue → Comp Slot}
    (hcv : ∀ o x, Spec2 (cv o x) FlowP) (subOpts : FormOptions) :
    ∀ (xs : List DstValue) (tracker : SlotTracker),
      Spec2 (compile_args cv subOpts xs tracker) FlowP
  | [], _ => by
    unfold compile_args
    exact spec2_pure _
  | x :: rest, tracker => by
    unfold compile_args
    apply spec2_bind (hcv _ _)
    intro slot
    exact spec2_args hcv subOpts rest _

theorem spec2_elements {cv : FormOptions → DstValue → Comp Slot}
    (hcv : ∀ o x, Spec2 (cv o x) FlowP) (subOpts : FormOptions) :
    ∀ (xs : List DstValue) (tracker : SlotTracker),
      Spec2 (compile_elements cv subOpts xs tracker) FlowP
  | [], _ => by
    unfold compile_elements
    exact spec2_pure _
  | x :: rest, tracker => by
    unfold compile_elements
    apply spec2_bind (hcv _ _)
    intro slot0
    apply spec2_bind (spec2_realize_slot _)
    intro slot
    exact spec2_elements hcv subOpts rest _

theorem spec2_block (cv : FormOptions → DstValue → Comp Slot)
    (hcv : ∀ o x, Spec2 (cv o x) FlowP) (opts : FormOptions) (form : List DstValue)
    (startIndex : Nat) : Spec2 (compile_block cv opts form startIndex) FlowP := by
  unfold compile_block
  apply spec2_bind spec2_compiler_tail
  intro scope
  split
  · exact spec2_pure _
  · apply spec2_bind (spec2_block_loop hcv _ _ _)
    intro _
    repeat (first
    | apply spec2_bind
    | intro _
    | exact hcv _ _
    | exact spec2_form_at _ _)

theorem spec2_apply (cv : FormOptions → DstValue → Comp Slot)
    (hcv : ∀ o x, Spec2 (cv o x) FlowP) (opts : FormOptions) (form : List DstValue) :
    Spec2 (compile_apply cv opts form) FlowP := by
  unfold compile_apply
  apply spec2_bind spec2_compiler_tail
  intro scope
  split
  · exact spec2_c_error _
  · apply spec2_bind (spec2_form_at _ _)
    intro f1
    apply spec2_bind (hcv _ _)
    intro callee0
    apply spec2_bind (spec2_realize_slot _)
    intro callee
    apply spec2_bind (spec2_args hcv _ _ _)
    intro tracker
    repeat (first
    | apply spec2_bind
    | intro _
    | exact spec2_pure _
    | exact hcv _ _
    | exact spec2_form_at _ _
    | exact spec2_drop_slot _ _
    | exact spec2_tracker_free _ _
    | exact spec2_tracker_write _ _
    | exact spec2_get_target _
    | exact spec2_realize_slot _
    | exact spec2_push_op _
    | exact spec2_push_u16 _
    | split)

theorem spec2_tran (cv : FormOptions → DstValue → Comp Slot)
    (hcv : ∀ o x, Spec2 (cv o x) FlowP) (opts : FormOptions) (form : List DstValue) :
    Spec2 (compile_tran cv opts form) FlowP := by
  unfold compile_tran
  repeat (first
    | apply spec2_bind
    | intro _
    | exact spec2_pure _
    | exact spec2_c_error _
    | exact hcv _ _
    | exact spec2_form_at _ _
    | exact spec2_get_target _
    | exact spec2_realize_slot _
    | exact spec2_push_op _
    | exact spec2_push_u16 _
    | split)

theorem spec2_array (cv : FormOptions → DstValue → Comp Slot)
    (hcv : ∀ o x, Spec2 (cv o x) FlowP) (opts : FormOptions) (array : List DstValue) :
    Spec2 (compile_array cv opts array) FlowP := by
  unfold compile_array
  apply spec2_bind spec2_compiler_tail
  intro scope
  apply spec2_bind (spec2_get_target _)
  intro ret
  apply spec2_bind (spec2_elements hcv _ _ _)
  intro tracker
  repeat (first
    | apply spec2_bind
    | intro _
    | exact spec2_pure _
    | exact spec2_tracker_free _ _
    | exact spec2_tracker_write _ _
    | exact spec2_push_op _
    | exact spec2_push_u16 _)

theorem spec2_table (cv : FormOptions → DstValue → Comp Slot)
    (hcv : ∀ o x, Spec2 (cv o x) FlowP) (opts : FormOptions) (tab : List DstValue) :
    Spec2 (compile_table cv opts tab) FlowP := by
  unfold compile_table
  apply spec2_bind spec2_compiler_tail
  intro scope
  apply spec2_bind (spec2_get_target _)
  intro ret
  apply spec2_bind (spec2_elements hcv _ _ _)
  intro tracker
  repeat (first
    | apply spec2_bind
    | intro _
    | exact spec2_pure _
    | exact spec2_tracker_free _ _
    | exact spec2_tracker_write _ _
    | exact spec2_push_op _
    | exact spec2_push_u16 _)

end

/-! ## Flags: pushing and popping scopes -/

theorem ite_frame_keys (p : Prop) [Decidable p] (t : DstScope) (n : Nat) :
    (if p then { t with frameSize := n } else t).touchParent = t.touchParent ∧
    (if p then { t with frameSize := n } else t).touchEnv = t.touchEnv ∧
    (if p then { t with frameSize := n } else t).literalsArray = t.literalsArray := by
  split <;> exact ⟨rfl, rfl, rfl⟩

theorem push_scope_shape (b : Bool) (c : DstCompiler) :
    wp (compiler_push_scope b) (fun p c1 => p = c.scopes.length ∧ ∃ new, c1.buffer = c.buffer ∧
      c1.scopes = c.scopes ++ [new] ∧ new.flagged = false ∧ c1.vm.funcdefs = c.vm.funcdefs ∧
      ArrMono c.vm c1.vm ∧ (ValidPools c → new.literalsArray < c1.vm.arrays.length) ∧
      (b = true → ∃ t, c.scopes[c.scopes.length - 1]? = some t ∧
        new.literalsArray = t.literalsArray)) c := by
  unfold wp compiler_push_scope
  cases b
  · rw [if_neg Bool.false_ne_true]
    refine ⟨rfl, _, rfl, rfl, rfl, rfl, ⟨by simp, fun p x hx => ?_⟩, fun _ => by simp,
      fun h => by cases h⟩
    by_cases hp : p < c.vm.arrays.length
    · simpa [List.getD_eq_getElem?_getD, List.getElem?_append_left, hp] using hx
    · rw [List.getD_eq_getElem?_getD, List.getElem?_eq_none (by omega)] at hx
      cases hx
  · rw [if_pos rfl]
    cases hl : c.scopes.getLast? with
    | none => trivial
    | some t =>
      refine ⟨rfl, _, rfl, rfl, rfl, rfl, arrMono_refl _,
        fun hv => hv t (List.mem_of_getLast?_eq_some hl), fun _ => ⟨t, ?_, rfl⟩⟩
      rw [← List.getLast?_eq_getElem?]
      exact hl

theorem pop_scope_shape (c : DstCompiler) :
    wp compiler_pop_scope (fun last c1 => ∃ l0, c1.buffer = c.buffer ∧ c1.vm = c.vm ∧
      c.scopes[c.scopes.length - 1]? = some l0 ∧ last.touchParent = l0.touchParent ∧
      last.touchEnv = l0.touchEnv ∧ c1.scopes.length + 1 = c.scopes.length ∧
      ∀ (i : Nat) (s s1 : DstScope), c.scopes[i]? = some s → c1.scopes[i]? = some s1 →
        s1.touchParent = s.touchParent ∧ s1.touchEnv = s.touchEnv ∧
          s1.literalsArray = s.literalsArray) c := by
  unfold wp compiler_pop_scope
  cases hl : c.scopes.getLast? with
  | none => trivial
  | some last0 =>
    have hl0 : c.scopes[c.scopes.length - 1]? = some last0 := by
      rw [← List.getLast?_eq_getElem?]
      exact hl
    have hpos : 0 < c.scopes.length := by
      by_contra hc
      rw [List.getElem?_eq_none (by omega)] at hl0
      cases hl0
    have hlen : c.scopes.dropLast.length + 1 = c.scopes.length := by
      rw [List.length_dropLast]; omega
    have hdrop : ∀ (i : Nat) (s1 : DstScope), c.scopes.dropLast[i]? = some s1 →
        c.scopes[i]? = some s1 := by
      intro i s1 h
      rw [List.dropLast_eq_take, List.getElem?_take] at h
      split at h
      · exact h
      · cases h
    have hflag := ite_frame_keys (last0.nextLocal > last0.frameSize) last0 last0.nextLocal
    simp only []
    cases hl2 : c.scopes.dropLast.getLast? with
    | none =>
      refine ⟨last0, rfl, rfl, hl0, hflag.1, hflag.2.1, hlen, ?_⟩
      intro i s s1 hs hs1
      have := hdrop i s1 hs1
      rw [hs] at this
      cases this
      exact ⟨rfl, rfl, rfl⟩
    | some t =>
      refine ⟨last0, rfl, rfl, hl0, hflag.1, hflag.2.1, by simp; omega, ?_⟩
      intro i s s1 hs hs1
      simp only [List.getElem?_set] at hs1
      split at hs1
      · next hi =>
        split at hs1
        · cases hs1
          have ht : c.scopes.dropLast[c.scopes.dropLast.length - 1]? = some t := by
            rw [← List.getLast?_eq_getElem?]
            exact hl2
          have := hdrop _ t ht
          rw [hi, hs] at this
          cases this
          exact ite_frame_keys _ _ _
        · cases hs1
      · have := hdrop i s1 hs1
        rw [hs] at this
        cases this
        exact ⟨rfl, rfl, rfl⟩

theorem bufOK_of_buffer {c c1 : DstCompiler} (h : c1.buffer = c.buffer) (hb : BufOK c) :
    BufOK c1 := by
  unfold BufOK at *
  rw [h]
  exact hb

theorem goodDefs_of_funcdefs {c c1 : DstCompiler} (h : c1.vm.funcdefs = c.vm.funcdefs)
    (hd : GoodDefs c) : GoodDefs c1 := by
  unfold GoodDefs at *
  rw [h]
  exact hd

theorem wp_push_scope2 {Q : Nat → DstCompiler → Prop} {c : DstCompiler} (b : Bool) (hi : Inv c)
    (k : ∀ (c1 : DstCompiler) (new : DstScope), Inv c1 → c1.buffer = c.buffer →
      c1.scopes = c.scopes ++ [new] → new.flagged = false →
      c1.vm.funcdefs = c.vm.funcdefs → ArrMono c.vm c1.vm →
      (b = true → ∃ t, c.scopes[c.scopes.length - 1]? = some t ∧
        new.literalsArray = t.literalsArray) → Q c.scopes.length c1) :
    wp (compiler_push_scope b) Q c := by
  obtain ⟨hb, hd, hp, hv⟩ := hi
  refine wp_mono _ _ _ _ ?_ (wp_and (pool_pres_push_scope b c hp) (push_scope_shape b c))
  rintro p c1 ⟨hp1, rfl, new, h1, h2, h3, h4, h5, h6, h7⟩
  refine k c1 new ⟨bufOK_of_buffer h1 hb, goodDefs_of_funcdefs h4 hd, hp1, ?_⟩ h1 h2 h3 h4 h5 h7
  intro s hs
  rw [h2, List.mem_append, List.mem_singleton] at hs
  rcases hs with hs | hs
  · exact lt_of_lt_of_le (hv s hs) h5.1
  · rw [hs]
    exact h6 hv

theorem wp_pop_scope2 {Q : DstScope → DstCompiler → Prop} {c : DstCompiler} (hi : Inv c)
    (k : ∀ (last : DstScope) (c1 : DstCompiler) (l0 : DstScope), Inv c1 →
      c1.buffer = c.buffer → c1.vm = c.vm → c.scopes[c.scopes.length - 1]? = some l0 →
      last.touchParent = l0.touchParent → last.touchEnv = l0.touchEnv →
      c1.scopes.length + 1 = c.scopes.length →
      (∀ (i : Nat) (s s1 : DstScope), c.scopes[i]? = some s → c1.scopes[i]? = some s1 →
        s1.touchParent = s.touchParent ∧ s1.touchEnv = s.touchEnv ∧
          s1.literalsArray = s.literalsArray) → Q last c1) :
    wp compiler_pop_scope Q c := by
  obtain ⟨hb, hd, hp, hv⟩ := hi
  refine wp_mono _ _ _ _ ?_ (wp_and (pool_pres_pop_scope c hp) (pop_scope_shape c))
  rintro last c1 ⟨hp1, l0, h1, h2, h3, h4, h5, h6, h7⟩
  refine k last c1 l0 ⟨bufOK_of_buffer h1 hb, goodDefs_of_funcdefs (by rw [h2]) hd, hp1, ?_⟩
    h1 h2 h3 h4 h5 h6 h7
  intro s1 hs1
  obtain ⟨i, hi⟩ := List.mem_iff_getElem?.1 hs1
  have hlt : i < c.scopes.length := by
    have : i < c1.scopes.length := by
      by_contra hc
      rw [List.getElem?_eq_none (by omega)] at hi
      cases hi
    omega
  have hs : c.scopes[i]? = some c.scopes[i] := List.getElem?_eq_getElem hlt
  rw [(h7 i _ s1 hs hi).2.2, h2]
  exact hv _ (List.mem_iff_getElem?.2 ⟨i, hs⟩)

theorem add_literal_shape (scope : Nat) (x : DstValue) (c : DstCompiler) (hp : PoolInv c)
    (hv : ValidPools c) :
    wp (compiler_add_literal scope x) (fun _ c1 => c1.buffer = c.buffer ∧
      c1.scopes = c.scopes ∧ c1.vm.funcdefs = c.vm.funcdefs ∧ ArrMono c.vm c1.vm ∧
      ∀ s, c.scopes[scope]? = some s → x ∈ c1.vm.arrays.getD s.literalsArray []) c := by
  unfold compiler_add_literal
  rw [wp_bind, wp_scope_read]
  intro s hget
  have hget2 : c.scopes[scope]? = some s := by
    rw [← List.get?_eq_getElem?]; exact hget
  have hmem : s ∈ c.scopes := List.mem_iff_getElem?.2 ⟨scope, hget2⟩
  have hlit : s.literals = s.literalsArray := hp.2.1 s hmem
  have hin : dst_table_get (c.vm.tables.getD s.literals []) x ≠ .nil →
      ∀ s1, c.scopes[scope]? = some s1 → x ∈ c.vm.arrays.getD s1.literalsArray [] := by
    intro hne s1 hs1
    rw [hget2] at hs1
    cases hs1
    have := (hp.2.2.1 s.literals).2 x
    rw [hlit] at this hne
    exact this.2 hne
  rw [wp_bind, wp_getc]
  simp only []
  split
  · rw [wp_bind, wp_setc, wp_pure]
    refine ⟨rfl, rfl, rfl, arrMono_set (arrMono_refl _) _ _ _, ?_⟩
    intro s1 hs1
    rw [hget2] at hs1
    cases hs1
    show x ∈ (c.vm.arrays.set s.literalsArray (c.vm.arrays.getD s.literalsArray [] ++ [x])).getD
      s.literalsArray []
    rw [List.getD_set_eq_ite, if_pos ⟨rfl, hv s hmem⟩]
    simp
  · next i hi =>
    rw [wp_pure]
    exact ⟨rfl, rfl, rfl, arrMono_refl _, hin (by rw [hi]; simp)⟩
  · next h1 h2 =>
    rw [wp_pure]
    exact ⟨rfl, rfl, rfl, arrMono_refl _, hin (fun h => h1 h)⟩

theorem wp_add_literal2 {Q : Nat → DstCompiler → Prop} {c : DstCompiler} (scope : Nat)
    (x : DstValue) (hx : x ≠ .nil) (hi : Inv c)
    (k : ∀ (a : Nat) (c1 : DstCompiler), Inv c1 → c1.buffer = c.buffer →
      c1.scopes = c.scopes → c1.vm.funcdefs = c.vm.funcdefs → ArrMono c.vm c1.vm →
      (∀ s, c.scopes[scope]? = some s → x ∈ c1.vm.arrays.getD s.literalsArray []) → Q a c1) :
    wp (compiler_add_literal scope x) Q c := by
  obtain ⟨hb, hd, hp, hv⟩ := hi
  refine wp_mono _ _ _ _ ?_ (wp_and (pool_pres_add_literal scope x hx c hp)
    (add_literal_shape scope x c hp hv))
  rintro a c1 ⟨hp1, h1, h2, h3, h4, h5⟩
  refine k a c1 ⟨bufOK_of_buffer h1 hb, goodDefs_of_funcdefs h3 hd, hp1, ?_⟩ h1 h2 h3 h4 h5
  intro s hs
  rw [h2] at hs
  exact lt_of_lt_of_le (hv s hs) h4.1

theorem gen_funcdef_shape (lastNBytes arity : Nat) (varargs : Bool) (c : DstCompiler) :
    wp (compiler_gen_funcdef lastNBytes arity varargs) (fun p c1 => ∃ l0 d,
      c.scopes[c.scopes.length - 1]? = some l0 ∧ p = .fresh c.vm.funcdefs.length ∧
      c1.vm.funcdefs = c.vm.funcdefs ++ [d] ∧
      d.byteCode = (c.buffer.data.drop ((c.buffer.count - lastNBytes) / 2)).take
        (lastNBytes / 2) ∧
      d.literals = c.vm.arrays.getD l0.literalsArray [] ∧
      d.flags.needsParent = l0.touchParent ∧ d.flags.needsEnv = l0.touchEnv ∧
      c1.vm.arrays = c.vm.arrays ∧ c1.scopes.length + 1 = c.scopes.length ∧
      ∀ (i : Nat) (s s1 : DstScope), c.scopes[i]? = some s → c1.scopes[i]? = some s1 →
        s1.touchParent = s.touchParent ∧ s1.touchEnv = s.touchEnv ∧
          s1.literalsArray = s.literalsArray) c := by
  unfold compiler_gen_funcdef
  rw [wp_bind, wp_compiler_tail]
  intro scope hscope
  rw [wp_bind, wp_getc]
  split
  · trivial
  · simp only []
    rw [wp_bind, wp_buffer_set_count, wp_bind, wp_scope_read]
    intro s hget
    rw [wp_bind]
    refine wp_mono _ _ _ _ ?_ (pop_scope_shape _)
    rintro last c2 ⟨l0, h1, h2, h3, h4, h5, h6, h7⟩
    rw [wp_bind, wp_getc, wp_bind, wp_setc, wp_pure]
    have hs : l0 = s := by
      have e : c.scopes[c.scopes.length - 1]? = some s := by
        rw [← List.get?_eq_getElem?]
        have : c.scopes.length - 1 = scope := by omega
        rw [this]
        exact hget
      have h3b : c.scopes[c.scopes.length - 1]? = some l0 := h3
      rw [e] at h3b
      cases h3b
      rfl
    subst hs
    refine ⟨l0, _, h3, by rw [h2], by rw [h2], rfl, rfl, h4, h5, by rw [h2], h6, h7⟩

/-! ## Flags: scopes pushed and popped in pairs -/

theorem getElem?_append_scope {sc : List DstScope} {i : Nat} {s : DstScope} (new : DstScope)
    (h : sc[i]? = some s) : (sc ++ [new])[i]? = some s := by
  have hi : i < sc.length := by
    by_contra hc
    rw [List.getElem?_eq_none (by omega)] at h
    cases h
  rw [List.getElem?_append_left hi]; exact h

theorem scope_lt_of_some {sc : List DstScope} {i : Nat} {s : DstScope} (h : sc[i]? = some s) :
    i < sc.length := by
  by_contra hc
  rw [List.getElem?_eq_none (by omega)] at h
  cases h

theorem flagged_of_keys {s s1 : DstScope} (h1 : s1.touchParent = s.touchParent)
    (h2 : s1.touchEnv = s.touchEnv) (hf : s1.flagged = true) : s.flagged = true := by
  unfold DstScope.flagged at *
  rw [← h1, ← h2]
  exact hf

/-- A sub-scope of the same function, pushed before and popped after the
compilation of a form. -/
theorem flow_scoped {sc scb scf : List DstScope} {vm vmp vmb : Heap} {new : DstScope}
    {W : List Word}
    (hlit : ∃ t, sc[sc.length - 1]? = some t ∧ new.literalsArray = t.literalsArray)
    (hdp : vmp.funcdefs = vm.funcdefs) (hap : ArrMono vm vmp)
    (hbody : Flow (sc ++ [new]) vmp scb vmb W) (hlen : scf.length + 1 = scb.length)
    (hkeep : ∀ (i : Nat) (s s1 : DstScope), scb[i]? = some s → scf[i]? = some s1 →
      s1.touchParent = s.touchParent ∧ s1.touchEnv = s.touchEnv ∧
        s1.literalsArray = s.literalsArray) :
    Flow sc vm scf vmb W := by
  obtain ⟨hl, ⟨more, hm⟩, ha, hb⟩ := hbody
  have hl2 : sc.length + 1 ≤ scb.length := by simpa using hl
  refine ⟨by omega, ⟨more, by rw [hm, hdp]⟩, arrMono_trans hap ha, fun hbal => ?_⟩
  obtain ⟨hp, hf⟩ := hb (by simp; omega)
  have hmid : ∀ (i : Nat) (s s1 : DstScope), sc[i]? = some s → scf[i]? = some s1 →
      ∃ sb, scb[i]? = some sb ∧ sb.literalsArray = s.literalsArray ∧
        s1.touchParent = sb.touchParent ∧ s1.touchEnv = sb.touchEnv ∧
        s1.literalsArray = sb.literalsArray := by
    intro i s s1 hs hs1
    have hi := scope_lt_of_some hs
    have hsb : scb[i]? = some scb[i] := List.getElem?_eq_getElem (by omega)
    have := hkeep i _ s1 hsb hs1
    exact ⟨_, hsb, hp i s _ (getElem?_append_scope new hs) hsb, this⟩
  refine ⟨fun i s s1 hs hs1 => ?_, fun hg => ?_⟩
  · obtain ⟨sb, _, h1, _, _, h2⟩ := hmid i s s1 hs hs1
    exact h2.trans h1
  · obtain ⟨hg1, hq⟩ := hf (by rw [hdp]; exact hg)
    refine ⟨hg1, fun i s s1 hs hs1 hfl => ?_⟩
    obtain ⟨sb, hsb, h1, h2, h3, h4⟩ := hmid i s s1 hs hs1
    rcases hq i s sb (getElem?_append_scope new hs) hsb (flagged_of_keys h2 h3 hfl)
      with h | h | h
    · exact Or.inl h
    · exact Or.inr (Or.inl h)
    · refine Or.inr (Or.inr ?_)
      obtain ⟨tb, j, htb, hmem, hw⟩ := h
      obtain ⟨t, ht, hnl⟩ := hlit
      have hpos := scope_lt_of_some ht
      have hnewat : (sc ++ [new])[scb.length - 1]? = some new := by
        have : scb.length - 1 = sc.length := by omega
        rw [this]
        simp
      have e1 : tb.literalsArray = new.literalsArray := hp _ new tb hnewat htb
      have hsf : scf[scf.length - 1]? = some scf[scf.length - 1] :=
        List.getElem?_eq_getElem (by omega)
      have ht2 : sc[scf.length - 1]? = some t := by rw [hbal]; exact ht
      obtain ⟨sb2, _, g1, _, _, g2⟩ := hmid _ t _ ht2 hsf
      refine ⟨_, j, hsf, ?_, hw⟩
      rw [g2, g1, ← hnl, ← e1]
      exact hmem

/-- The scope of a function, pushed before the compilation of its body and
popped when its definition is made, the definition being added to the
literals of the enclosing scope. -/
theorem flow_function {sc scb scf : List DstScope} {vm vmp vmb vmf : Heap}
    {new l0 : DstScope} {d : DstFuncDef} (W : List Word) (hnew : new.flagged = false)
    (hdp : vmp.funcdefs = vm.funcdefs) (hap : ArrMono vm vmp)
    (hbody : Flow (sc ++ [new]) vmp scb vmb d.byteCode)
    (hl0 : scb[scb.length - 1]? = some l0)
    (hlits : d.literals = vmb.arrays.getD l0.literalsArray [])
    (hfp : d.flags.needsParent = l0.touchParent) (hfe : d.flags.needsEnv = l0.touchEnv)
    (hlen : scf.length + 1 = scb.length)
    (hkeep : ∀ (i : Nat) (s s1 : DstScope), scb[i]? = some s → scf[i]? = some s1 →
      s1.touchParent = s.touchParent ∧ s1.touchEnv = s.touchEnv ∧
        s1.literalsArray = s.literalsArray)
    (hdf : vmf.funcdefs = vmb.funcdefs ++ [d]) (haf : ArrMono vmb vmf)
    (hadd : ∀ t, scf[sc.length - 1]? = some t →
      DstValue.funcdef (.fresh vmb.funcdefs.length) ∈ vmf.arrays.getD t.literalsArray []) :
    Flow sc vm scf vmf W := by
  obtain ⟨hl, ⟨more, hm⟩, ha, hb⟩ := hbody
  have hl2 : sc.length + 1 ≤ scb.length := by simpa using hl
  refine ⟨by omega, ⟨more ++ [d], by rw [hdf, hm, hdp, List.append_assoc]⟩,
    arrMono_trans hap (arrMono_trans ha haf), fun hbal => ?_⟩
  obtain ⟨hp, hf⟩ := hb (by simp; omega)
  have hmid : ∀ (i : Nat) (s s1 : DstScope), sc[i]? = some s → scf[i]? = some s1 →
      ∃ sb, scb[i]? = some sb ∧ sb.literalsArray = s.literalsArray ∧
        s1.touchParent = sb.touchParent ∧ s1.touchEnv = sb.touchEnv ∧
        s1.literalsArray = sb.literalsArray := by
    intro i s s1 hs hs1
    have hi := scope_lt_of_some hs
    have hsb : scb[i]? = some scb[i] := List.getElem?_eq_getElem (by omega)
    have := hkeep i _ s1 hsb hs1
    exact ⟨_, hsb, hp i s _ (getElem?_append_scope new hs) hsb, this⟩
  refine ⟨fun i s s1 hs hs1 => ?_, fun hg => ?_⟩
  · obtain ⟨sb, _, h1, _, _, h2⟩ := hmid i s s1 hs hs1
    exact h2.trans h1
  · obtain ⟨hg1, hq⟩ := hf (by rw [hdp]; exact hg)
    have hev : HasUPV d.byteCode ∨ PoolEv scb vmb → NestedUPV (vmb.funcdefs ++ [d]) d := by
      rintro (h | ⟨tb, j, htb, hmem, hw⟩)
      · exact Or.inl h
      · rw [hl0] at htb
        cases htb
        exact Or.inr ⟨j, by rw [hlits]; exact hmem, withinUPV_mono _ hw⟩
    have hnewat : (sc ++ [new])[scb.length - 1]? = some new := by
      have : scb.length - 1 = sc.length := by omega
      rw [this]
      simp
    have hgood : FlagsGood (vmb.funcdefs ++ [d]) := by
      refine flagsGood_append hg1 (fun hflag => ?_)
      have hl0f : l0.flagged = true := by
        unfold DstFuncDef.flagged at hflag
        unfold DstScope.flagged
        rw [← hfp, ← hfe]
        exact hflag
      rcases hq _ new l0 hnewat hl0 hl0f with h | h | h
      · rw [hnew] at h
        cases h
      · exact hev (Or.inl h)
      · exact hev (Or.inr h)
    refine ⟨by rw [hdf]; exact hgood, fun i s s1 hs hs1 hfl => ?_⟩
    obtain ⟨sb, hsb, h1, h2, h3, h4⟩ := hmid i s s1 hs hs1
    have hwithin : HasUPV d.byteCode ∨ PoolEv scb vmb → PoolEv scf vmf := by
      intro h
      have hi := scope_lt_of_some hs
      have hlast : sc[sc.length - 1]? = some sc[sc.length - 1] :=
        List.getElem?_eq_getElem (by omega)
      obtain ⟨t, ht⟩ := scope_at_of_length hlast hbal
      refine ⟨t, vmb.funcdefs.length, by rw [hbal]; exact ht, hadd t ht, ?_⟩
      rw [hdf]
      exact withinUPV_of_nested (by simp) (hev h)
    rcases hq i s sb (getElem?_append_scope new hs) hsb (flagged_of_keys h2 h3 hfl)
      with h | h | h
    · exact Or.inl h
    · exact Or.inr (Or.inr (hwithin (Or.inl h)))
    · exact Or.inr (Or.inr (hwithin (Or.inr h)))

/-! ## Flags: the special forms `do` and `while` -/

theorem flow_leak {sc scb : List DstScope} {vm vmp vmb : Heap} {new : DstScope}
    {W : List Word} (hdp : vmp.funcdefs = vm.funcdefs) (hap : ArrMono vm vmp)
    (hbody : Flow (sc ++ [new]) vmp scb vmb W) : Flow sc vm scb vmb W := by
  obtain ⟨hl, ⟨more, hm⟩, ha, _⟩ := hbody
  have hl2 : sc.length + 1 ≤ scb.length := by simpa using hl
  exact ⟨by omega, ⟨more, by rw [hm, hdp]⟩, arrMono_trans hap ha, fun hbal => by omega⟩

theorem spec2Q_form_at (form : List DstValue) (i : Nat) :
    Spec2 (form_at form i) (fun c c1 w => SameRel c c1 ∧ ∃ _ : DstValue, w = []) :=
  spec2_sameQ (spec_form_at _ _) (pres_form_at _ _ _) (fun _ => pres_form_at _ _ _)

theorem spec2Q_compiler_tail :
    Spec2 compiler_tail (fun c c1 w => SameRel c c1 ∧ ∃ _ : Nat, w = []) :=
  spec2_sameQ spec_compiler_tail (pres_compiler_tail _) (fun _ => pres_compiler_tail _)

theorem spec2Q_drop_slot (scope : Nat) (slot : Slot) :
    Spec2 (compiler_drop_slot scope slot) (fun c c1 w => SameRel c c1 ∧ ∃ _ : Unit, w = []) :=
  spec2_sameQ (spec_drop_slot _ _) (pool_pres_drop_slot _ _) (fun _ => same_drop_slot _ _ _)

theorem spec2Q_push_op (o : DstOp) :
    Spec2 (dst_buffer_push_op o) (fun c c1 w => SameRel c c1 ∧ ∃ _ : Unit, w = [.op o]) :=
  spec2_sameQ (spec_push_op _) (pool_pres_push_op _) (fun _ => same_push_op _ _)

theorem spec2Q_push_i32 (v : Int) :
    Spec2 (dst_buffer_push_i32 v)
      (fun c c1 w => SameRel c c1 ∧ ∃ _ : Unit, w = [int_word v 0, int_word v 1]) :=
  spec2_sameQ (spec_push_i32 _) (pool_pres_push_i32 _) (fun _ => same_push_i32 _ _)

theorem spec2Q_return (slot : Slot) :
    Spec2 (compiler_return slot) (fun c c1 _ => SameRel c c1) :=
  spec2_mono (spec2_sameQ (spec_return _) (pool_pres_return _) (fun _ => same_return _ _))
    (fun _ _ _ h => h.1)

theorem spec2_do (cv : FormOptions → DstValue → Comp Slot)
    (hcv : ∀ o x, Spec2 (cv o x) FlowP) (opts : FormOptions) (form : List DstValue) :
    Spec2 (compile_do cv opts form) FlowP := by
  unfold compile_do
  intro c hi
  rw [wp_bind]
  apply wp_push_scope2 true hi
  intro cp new hip hbp hsp hnf hdp hap htrue
  rw [wp_bind]
  apply wp_of_spec2 (spec2_block cv hcv opts form 1) hip
  intro ret cb w hib hwb hfb
  rw [wp_bind]
  apply wp_pop_scope2 hib
  intro last cf l0 hif hbf hvf hl0 _ _ hlen hkeep
  rw [wp_pure]
  refine ⟨hif, w, by rw [hbf, hwb, hbp], ?_⟩
  intro W hW
  have hbody := hfb W hW
  rw [hsp] at hbody
  rw [hvf]
  exact flow_scoped (htrue rfl) hdp hap hbody hlen hkeep

theorem spec2_while (cv : FormOptions → DstValue → Comp Slot)
    (hcv : ∀ o x, Spec2 (cv o x) FlowP) (opts : FormOptions) (form : List DstValue) :
    Spec2 (compile_while cv opts form) FlowP := by
  unfold compile_while
  intro c hi
  simp only [wp_bind, wp_buffer_count]
  apply wp_push_scope2 true hi
  intro cp new hip hbp hsp hnf hdp hap htrue
  apply wp_of_spec2 (spec2Q_form_at _ _) hip
  rintro f1 c1a w hi1a hw1a ⟨hs1a, _, he⟩
  subst he
  apply wp_of_spec2 (hcv _ f1) hi1a
  intro cond c2 fc hi2 hw2 hf2
  have ha2 : c2.buffer.active = c.buffer.active ++ fc := by
    rw [hw2, hw1a, List.append_nil, hbp]
  have hflow2 : ∀ W, fc <:+: W → Flow (c.scopes ++ [new]) cp.vm c2.scopes c2.vm W := by
    intro W hW
    have := flow_trans (flow_of_same W hs1a) (hf2 W hW)
    rw [hsp] at this
    exact this
  split
  · rw [wp_pure]
    exact ⟨hi2, fc, ha2, fun W hW => flow_leak hdp hap (hflow2 W hW)⟩
  · simp only [wp_bind, wp_buffer_count, wp_buffer_skip]
    obtain ⟨hbs, P4, hP4, hP4len⟩ := bufOK_skip 8 (by decide) hi2.1
    apply wp_of_spec2 (spec2_block cv hcv _ form 2) ⟨hbs, hi2.2⟩
    intro body c3 B hi3 hw3 hf3
    apply wp_of_spec2 spec2Q_compiler_tail hi3
    rintro tail c3a w hi3a hw3a ⟨hs3a, _, he⟩
    subst he
    apply wp_of_spec2 (spec2Q_drop_slot _ _) hi3a
    rintro _ c4 w hi4 hw4 ⟨hs4, _, he⟩
    subst he
    apply wp_of_spec2 (spec2Q_push_op .JMP) hi4
    rintro _ c4a w hi4a hw4a ⟨hs4a, _, he⟩
    subst he
    apply wp_of_spec2 (spec2Q_push_i32 _) hi4a
    rintro _ c5 w hi5 hw5 ⟨hs5, _, he⟩
    subst he
    have ha4 : c4.buffer.active = (c.buffer.active ++ fc) ++ (P4 ++ B) := by
      rw [hw4, List.append_nil, hw3a, List.append_nil, hw3]
      refine (congrArg (· ++ B) hP4).trans ?_
      rw [ha2]; simp
    have ha5 : c5.buffer.active = (c.buffer.active ++ fc) ++ (P4 ++ (B ++ [.op .JMP,
        int_word (Int.tdiv (to_int32 (c4.buffer.count - c.buffer.count)) (-2)) 0,
        int_word (Int.tdiv (to_int32 (c4.buffer.count - c.buffer.count)) (-2)) 1])) := by
      rw [hw5, hw4a, ha4]; simp
    have hc2 := active_count hi2.1
    rw [ha2] at hc2
    simp only [wp_buffer_set_count, wp_push_op, wp_push_u16, wp_push_i32, wp_bind]
    obtain ⟨hbp2, hap2⟩ := patch_words c5 (c.buffer.active ++ fc) P4 (B ++ [.op .JMP,
        int_word (Int.tdiv (to_int32 (c4.buffer.count - c.buffer.count)) (-2)) 0,
        int_word (Int.tdiv (to_int32 (c4.buffer.count - c.buffer.count)) (-2)) 1])
      [.op .JIF, .u16 (cond.index % 65536),
        int_word (Int.tdiv (to_int32 (c5.buffer.count - c2.buffer.count)) 2) 0,
        int_word (Int.tdiv (to_int32 (c5.buffer.count - c2.buffer.count)) 2) 1]
      c2.buffer.count hi5.1 ha5 (by simp [hP4len]) (by
        rw [hc2])
    apply wp_pop_scope2 ⟨hbp2, hi5.2⟩
    intro last c6 l0 hi6 hb6 hv6 hl0 _ _ hlen hkeep
    have hact : c6.buffer.active = c.buffer.active ++ (fc ++ (.op .JIF ::
        .u16 (cond.index % 65536) ::
        int_word (Int.tdiv (to_int32 (c5.buffer.count - c2.buffer.count)) 2) 0 ::
        int_word (Int.tdiv (to_int32 (c5.buffer.count - c2.buffer.count)) 2) 1 ::
        (B ++ [.op .JMP,
          int_word (Int.tdiv (to_int32 (c4.buffer.count - c.buffer.count)) (-2)) 0,
          int_word (Int.tdiv (to_int32 (c4.buffer.count - c.buffer.count)) (-2)) 1]))) := by
      rw [hb6]
      refine hap2.trans ?_
      simp
    have hflow : FlowP c c6 (fc ++ (.op .JIF ::
        .u16 (cond.index % 65536) ::
        int_word (Int.tdiv (to_int32 (c5.buffer.count - c2.buffer.count)) 2) 0 ::
        int_word (Int.tdiv (to_int32 (c5.buffer.count - c2.buffer.count)) 2) 1 ::
        (B ++ [.op .JMP,
          int_word (Int.tdiv (to_int32 (c4.buffer.count - c.buffer.count)) (-2)) 0,
          int_word (Int.tdiv (to_int32 (c4.buffer.count - c.buffer.count)) (-2)) 1]))) := by
      intro W hW
      have h1 := hflow2 W (List.IsInfix.trans (List.prefix_append _ _).isInfix hW)
      have hB : B <:+: W := List.IsInfix.trans ⟨fc ++ [.op .JIF,
        .u16 (cond.index % 65536),
        int_word (Int.tdiv (to_int32 (c5.buffer.count - c2.buffer.count)) 2) 0,
        int_word (Int.tdiv (to_int32 (c5.buffer.count - c2.buffer.count)) 2) 1], [.op .JMP,
          int_word (Int.tdiv (to_int32 (c4.buffer.count - c.buffer.count)) (-2)) 0,
          int_word (Int.tdiv (to_int32 (c4.buffer.count - c.buffer.count)) (-2)) 1],
          by simp⟩ hW
      have h2 : Flow c2.scopes c2.vm c3.scopes c3.vm W := hf3 W hB
      have h3 := flow_trans (flow_trans (flow_trans (flow_trans (flow_trans h1 h2)
        (flow_of_same W hs3a)) (flow_of_same W hs4)) (flow_of_same W hs4a)) (flow_of_same W hs5)
      rw [hv6]
      exact flow_scoped (htrue rfl) hdp hap h3 hlen hkeep
    split
    · rw [wp_pure]
      exact ⟨hi6, _, hact, hflow⟩
    · rw [wp_pure]
      exact ⟨hi6, _, hact, hflow⟩

/-! ## Flags: function literals -/

theorem wp_of_both {α : Type} {m : Comp α} {P : α → List Word → Prop}
    {R : DstCompiler → DstCompiler → List Word → Prop} {Q : α → DstCompiler → Prop}
    {c : DstCompiler} (h1 : Spec m P) (h2 : Spec2 m R) (hi : Inv c)
    (hq : ∀ a c1 w, Inv c1 → c1.buffer.active = c.buffer.active ++ w → P a w → R c c1 w →
      Q a c1) : wp m Q c := by
  refine wp_mono _ _ _ _ ?_ (wp_and (h1 c hi.1 hi.2.1) (h2 c hi))
  rintro a c1 ⟨⟨_, _, w1, hw1, hp⟩, hi1, w, hw, hr⟩
  have : w1 = w := List.append_cancel_left (hw1.symm.trans hw)
  subst this
  exact hq a c1 w1 hi1 hw hp hr

theorem arrMono_of_arrays {vm vm1 : Heap} (h : vm1.arrays = vm.arrays) : ArrMono vm vm1 := by
  unfold ArrMono
  rw [h]
  exact ⟨le_refl _, fun _ _ hx => hx⟩

theorem wp_gen_funcdef2 {Q : DstPtr → DstCompiler → Prop} (c : DstCompiler) (A w : List Word)
    (lastNBytes arity : Nat) (varargs : Bool) (hi : Inv c) (ha : c.buffer.active = A ++ w)
    (hl : lastNBytes = 2 * w.length) (hw : GoodCode w)
    (k : ∀ (c1 : DstCompiler) (l0 : DstScope) (d : DstFuncDef), Inv c1 →
      c1.buffer.active = A → c.scopes[c.scopes.length - 1]? = some l0 →
      c1.vm.funcdefs = c.vm.funcdefs ++ [d] → d.byteCode = w →
      d.literals = c.vm.arrays.getD l0.literalsArray [] →
      d.flags.needsParent = l0.touchParent → d.flags.needsEnv = l0.touchEnv →
      c1.vm.arrays = c.vm.arrays → c1.scopes.length + 1 = c.scopes.length →
      (∀ (i : Nat) (s s1 : DstScope), c.scopes[i]? = some s → c1.scopes[i]? = some s1 →
        s1.touchParent = s.touchParent ∧ s1.touchEnv = s.touchEnv ∧
          s1.literalsArray = s.literalsArray) → Q (.fresh c.vm.funcdefs.length) c1) :
    wp (compiler_gen_funcdef lastNBytes arity varargs) Q c := by
  obtain ⟨hb, hd, hp, hv⟩ := hi
  have hcount := active_count hb
  rw [ha, List.length_append] at hcount
  have htake : c.buffer.data.take (A.length + w.length) = A ++ w := by
    have : c.buffer.count / 2 = A.length + w.length := by omega
    rw [← this]; exact ha
  obtain ⟨_, hW⟩ := take_drop_split _ _ _ htake
  have e1 : (c.buffer.count - lastNBytes) / 2 = A.length := by omega
  have e2 : lastNBytes / 2 = w.length := by omega
  refine wp_mono _ _ _ _ ?_ (wp_and (gen_funcdef_wp c A w lastNBytes arity varargs hb hd ha hl hw)
    (wp_and (pool_pres_gen_funcdef lastNBytes arity varargs c hp)
      (gen_funcdef_shape lastNBytes arity varargs c)))
  rintro p c1 ⟨⟨hb1, hd1, ha1⟩, hp1, l0, d, h1, rfl, h3, h4, h5, h6, h7, h8, h9, h10⟩
  refine k c1 l0 d ⟨hb1, hd1, hp1, ?_⟩ ha1 h1 h3 (by rw [h4, e1, e2, hW]) h5 h6 h7 h8 h9 h10
  intro s1 hs1
  obtain ⟨i, hi⟩ := List.mem_iff_getElem?.1 hs1
  have hlt : i < c.scopes.length := by
    have := scope_lt_of_some hi
    omega
  have hs : c.scopes[i]? = some c.scopes[i] := List.getElem?_eq_getElem hlt
  rw [(h10 i _ s1 hs hi).2.2, h8]
  exact hv _ (List.mem_iff_getElem?.2 ⟨i, hs⟩)

theorem spec2Q_get_target (opts : FormOptions) :
    Spec2 (compiler_get_target opts) (fun c c1 w => SameRel c c1 ∧ w = []) :=
  spec2_mono (spec2_sameQ (spec_get_target _) (pool_pres_get_target _)
    (fun _ => same_get_target _ _)) (fun _ _ _ h => ⟨h.1, h.2.choose_spec.1⟩)

theorem spec2Q_function_params (subDstScope count : Nat) (params : List DstValue) (i : Nat)
    (varargs : Bool) (arity : Nat) :
    Spec2 (compile_function_params subDstScope count i params varargs arity)
      (fun c c1 w => SameRel c c1 ∧ w = []) :=
  spec2_mono (spec2_sameQ (spec_function_params _ _ _ _ _ _)
    (pool_pres_function_params _ _ _ _ _ _) (fun _ => same_function_params _ _ _ _ _ _ _))
    (fun _ _ _ h => ⟨h.1, h.2.choose_spec⟩)

theorem spec2_function (cv : FormOptions → DstValue → Comp Slot)
    (hcv1 : ∀ o x, Spec (cv o x) (FormFrag o)) (hcv : ∀ o x, Spec2 (cv o x) FlowP)
    (opts : FormOptions) (form : List DstValue) :
    Spec2 (compile_function cv opts form) FlowP := by
  unfold compile_function
  intro c hi
  rw [wp_bind, wp_compiler_tail]
  intro scope hscope
  simp only []
  split
  · rw [wp_pure]
    exact ⟨hi, [], by simp, flowP_refl _ _⟩
  · rw [wp_bind]
    apply wp_of_spec2 (spec2Q_get_target _) hi
    rintro ret c1 w hi1 hw1 ⟨hs1, he⟩
    subst he
    rw [wp_bind]
    apply wp_push_scope2 false hi1
    intro cp new hip hbp hsp hnf hdp hap _
    rw [wp_bind]
    apply wp_of_spec2 (spec2Q_form_at _ _) hip
    rintro f1 c2 w hi2 hw2 ⟨hs2, _, he⟩
    subst he
    split
    · rw [wp_bind]
      apply wp_of_spec2 (spec2Q_function_params _ _ _ _ _ _) hi2
      rintro va c3 w hi3 hw3 ⟨hs3, he⟩
      subst he
      rw [wp_bind, wp_buffer_count, wp_bind]
      apply wp_of_both (spec_block cv hcv1 _ form 2) (spec2_block cv hcv _ form 2) hi3
      intro body c4 w1 hi4 hw4 hfrag hf4
      rw [wp_bind]
      apply wp_of_both (spec_return_code _ body w1 hfrag) (spec2Q_return body) hi4
      intro _ c5 w2 hi5 hw5 hgood hs5
      rw [wp_bind, wp_buffer_count, wp_bind]
      have hlen : c5.buffer.count - c3.buffer.count = 2 * (w1 ++ w2).length := by
        have e5 := active_count hi5.1
        have e3 := active_count hi3.1
        rw [hw5, hw4] at e5
        simp only [List.length_append] at e5 ⊢
        omega
      apply wp_gen_funcdef2 c5 c3.buffer.active (w1 ++ w2) _ _ _ hi5
        (by rw [hw5, hw4, List.append_assoc]) hlen hgood
      intro c6 l0 d hi6 ha6 hl0 hdf hcode hlits hfp hfe harr hlen6 hkeep
      rw [wp_bind]
      apply wp_add_literal2 scope (.funcdef (.fresh c5.vm.funcdefs.length)) (by simp) hi6
      intro li c7 hi7 hb7 hsc7 hdf7 ha7 hadd
      have htail : Spec2 (dst_buffer_push_op .CLN >>= fun _ =>
          dst_buffer_push_u16 ret.index >>= fun _ => dst_buffer_push_u16 li >>= fun _ =>
          (pure ret : Comp Slot)) FlowP :=
        spec2_bind (spec2_push_op _) (fun _ => spec2_bind (spec2_push_u16 _)
          (fun _ => spec2_bind (spec2_push_u16 _) (fun _ => spec2_pure _)))
      apply wp_of_spec2 htail hi7
      intro r c8 w8 hi8 hw8 hf8
      refine ⟨hi8, w8, ?_, ?_⟩
      · rw [hw8, hb7, ha6, hw3, hw2, hbp, hw1]
        simp
      · intro W hW
        have hbody : Flow (c1.scopes ++ [new]) cp.vm c5.scopes c5.vm d.byteCode := by
          have h4 := hf4 d.byteCode (by rw [hcode]; exact (List.prefix_append _ _).isInfix)
          have := flow_trans (flow_trans (flow_trans (flow_of_same d.byteCode hs2)
            (flow_of_same d.byteCode hs3)) h4) (flow_of_same d.byteCode hs5)
          rw [hsp] at this
          exact this
        have hfun : Flow c1.scopes c1.vm c7.scopes c7.vm W := by
          refine flow_function W hnf hdp hap hbody hl0 hlits hfp hfe (by rw [hsc7]; exact hlen6)
            (by rw [hsc7]; exact hkeep) (by rw [hdf7]; exact hdf)
            (arrMono_trans (arrMono_of_arrays harr) ha7) ?_
          intro t ht
          rw [hsc7] at ht
          have e : c1.scopes.length - 1 = scope := by
            have := hs1.1
            omega
          rw [e] at ht
          exact hadd t ht
        exact flow_trans (flow_trans (flow_of_same W hs1) hfun) (hf8 W hW)
    · trivial

/-! ## Flags: the special form `if` -/

theorem spec2_if_main (cv : FormOptions → DstValue → Comp Slot)
    (hcv : ∀ o x, Spec2 (cv o x) FlowP) (opts : FormOptions) (form : List DstValue)
    (scope : Nat) (condition : Slot) :
    Spec2 (do
      let countAtJumpIf ← buffer_count
      buffer_skip 8
      let branchOpts := { opts with canChoose := false, target := condition.index }
      let f2 ← form_at form 2
      let left ← cv branchOpts f2
      let countAtJump ← (
        if opts.isTail then do
          let _ ← compiler_return left
          pure 0
        else if form.length == 4 then do
          let countAtJump ← buffer_count
          buffer_skip 6
          pure countAtJump
        else
          pure 0)
      compiler_drop_slot scope left
      let countAfterFirstBranch ← buffer_count
      buffer_set_count countAtJumpIf
      dst_buffer_push_op .JIF
      dst_buffer_push_u16 condition.index
      dst_buffer_push_i32 (Int.ofNat ((countAfterFirstBranch - countAtJumpIf) / 2))
      buffer_set_count countAfterFirstBranch
      let _ ← (
        if form.length == 4 then do
          let f3 ← form_at form 3
          let right ← cv branchOpts f3
          let _ ← (if opts.isTail then compiler_return right else pure right)
          compiler_drop_slot scope right
        else if opts.isTail then do
          let _ ← compiler_return condition
          pure ()
        else
          pure ())
      let _ ← (
        if !opts.isTail && form.length == 4 then do
          let countAfterFirstBranch ← buffer_count
          buffer_set_count countAtJump
          dst_buffer_push_op .JMP
          dst_buffer_push_i32 (Int.ofNat ((countAfterFirstBranch - countAtJump) / 2))
          buffer_set_count countAfterFirstBranch
        else
          pure ())
      if opts.isTail then
        pure { condition with hasReturned := true }
      else
        pure condition) FlowP := by
  intro c hi
  have htt : opts.isTail = false ∨ opts.isTail = true := by
    cases opts.isTail
    · exact Or.inl rfl
    · exact Or.inr rfl
  obtain ⟨hbs, P4, hP4, hP4len⟩ := bufOK_skip 8 (by decide) hi.1
  have hc0 := active_count hi.1
  rcases htt with ht | ht
  · by_cases h4 : form.length = 4
    · simp only [ht, h4, beq_self_eq_true, Bool.false_eq_true, if_false, if_true,
        Bool.not_false, Bool.and_self, Bool.true_and, ↓reduceIte]
      simp only [wp_bind, wp_buffer_count, wp_buffer_set_count, wp_push_op, wp_push_u16,
        wp_push_i32, wp_pure, wp_buffer_skip]
      apply wp_of_spec2 (spec2Q_form_at _ _) ⟨hbs, hi.2⟩
      rintro f2 c1 w hi1 hw1 ⟨hs1, _, he⟩
      subst he
      apply wp_of_spec2 (hcv _ f2) hi1
      intro left c2 ft hi2 hw2 hf2
      obtain ⟨hbs2, P3, hP3, hP3len⟩ := bufOK_skip 6 (by decide) hi2.1
      apply wp_of_spec2 (spec2Q_drop_slot _ _) ⟨hbs2, hi2.2⟩
      rintro _ c3 w hi3 hw3 ⟨hs3, _, he⟩
      subst he
      have ha1 : c1.buffer.active = c.buffer.active ++ P4 := by
        rw [hw1, List.append_nil]; exact hP4
      have ha2 : c2.buffer.active = c.buffer.active ++ (P4 ++ ft) := by
        rw [hw2, ha1, List.append_assoc]
      have ha3 : c3.buffer.active = c.buffer.active ++ (P4 ++ (ft ++ P3)) := by
        rw [hw3, List.append_nil]
        refine hP3.trans ?_
        rw [ha2]; simp
      have hc2 := active_count hi2.1
      rw [ha2] at hc2
      simp only [List.length_append] at hc2
      obtain ⟨hbp, hap⟩ := patch_words c3 c.buffer.active P4 (ft ++ P3)
        [.op .JIF, .u16 (condition.index % 65536),
          int_word (Int.ofNat ((c3.buffer.count - c.buffer.count) / 2)) 0,
          int_word (Int.ofNat ((c3.buffer.count - c.buffer.count) / 2)) 1]
        c.buffer.count hi3.1 ha3 (by simp [hP4len]) hc0
      apply wp_of_spec2 (spec2Q_form_at _ _) ⟨hbp, hi3.2⟩
      rintro f3 c4 w hi4 hw4 ⟨hs4, _, he⟩
      subst he
      apply wp_of_spec2 (hcv _ f3) hi4
      intro right c5 fe hi5 hw5 hf5
      apply wp_of_spec2 (spec2Q_drop_slot _ _) hi5
      rintro _ c6 w hi6 hw6 ⟨hs6, _, he⟩
      subst he
      have ha6 : c6.buffer.active = (c.buffer.active ++ ([.op .JIF,
          .u16 (condition.index % 65536),
          int_word (Int.ofNat ((c3.buffer.count - c.buffer.count) / 2)) 0,
          int_word (Int.ofNat ((c3.buffer.count - c.buffer.count) / 2)) 1] ++ ft)) ++
          (P3 ++ fe) := by
        rw [hw6, List.append_nil, hw5, hw4, List.append_nil]
        refine (congrArg (· ++ fe) hap).trans ?_
        simp
      obtain ⟨hbq, haq⟩ := patch_words c6 _ P3 fe
        [.op .JMP, int_word (Int.ofNat ((c6.buffer.count - c2.buffer.count) / 2)) 0,
          int_word (Int.ofNat ((c6.buffer.count - c2.buffer.count) / 2)) 1]
        c2.buffer.count hi6.1 ha6 (by simp [hP3len]) (by
          rw [hc2]; simp only [List.length_append, List.length_cons, List.length_nil]; omega)
      refine ⟨⟨hbq, hi6.2⟩, [.op .JIF, .u16 (condition.index % 65536),
          int_word (Int.ofNat ((c3.buffer.count - c.buffer.count) / 2)) 0,
          int_word (Int.ofNat ((c3.buffer.count - c.buffer.count) / 2)) 1] ++ (ft ++ ([.op .JMP,
            int_word (Int.ofNat ((c6.buffer.count - c2.buffer.count) / 2)) 0,
            int_word (Int.ofNat ((c6.buffer.count - c2.buffer.count) / 2)) 1] ++ fe)),
          haq.trans (by simp), ?_⟩
      intro W hW
      have h2 : Flow c1.scopes c1.vm c2.scopes c2.vm W :=
        hf2 W (List.IsInfix.trans ⟨[.op .JIF, .u16 (condition.index % 65536),
          int_word (Int.ofNat ((c3.buffer.count - c.buffer.count) / 2)) 0,
          int_word (Int.ofNat ((c3.buffer.count - c.buffer.count) / 2)) 1], [.op .JMP,
            int_word (Int.ofNat ((c6.buffer.count - c2.buffer.count) / 2)) 0,
            int_word (Int.ofNat ((c6.buffer.count - c2.buffer.count) / 2)) 1] ++ fe,
            by simp⟩ hW)
      have h5 : Flow c4.scopes c4.vm c5.scopes c5.vm W :=
        hf5 W (List.IsInfix.trans ⟨[.op .JIF, .u16 (condition.index % 65536),
          int_word (Int.ofNat ((c3.buffer.count - c.buffer.count) / 2)) 0,
          int_word (Int.ofNat ((c3.buffer.count - c.buffer.count) / 2)) 1] ++ (ft ++ [.op .JMP,
            int_word (Int.ofNat ((c6.buffer.count - c2.buffer.count) / 2)) 0,
            int_word (Int.ofNat ((c6.buffer.count - c2.buffer.count) / 2)) 1]), [],
            by simp⟩ hW)
      exact flow_trans (flow_trans (flow_trans (flow_trans (flow_trans
        (flow_of_same W hs1) h2) (flow_of_same W hs3)) (flow_of_same W hs4)) h5)
        (flow_of_same W hs6)
    · simp only [ht, h4, beq_iff_eq, Bool.false_eq_true, if_false, if_true, Bool.not_false,
        Bool.and_eq_true, and_false, false_and, ↓reduceIte]
      simp only [wp_bind, wp_buffer_count, wp_buffer_set_count, wp_push_op, wp_push_u16,
        wp_push_i32, wp_pure, wp_buffer_skip]
      apply wp_of_spec2 (spec2Q_form_at _ _) ⟨hbs, hi.2⟩
      rintro f2 c1 w hi1 hw1 ⟨hs1, _, he⟩
      subst he
      apply wp_of_spec2 (hcv _ f2) hi1
      intro left c2 ft hi2 hw2 hf2
      apply wp_of_spec2 (spec2Q_drop_slot _ _) hi2
      rintro _ c3 w hi3 hw3 ⟨hs3, _, he⟩
      subst he
      have ha1 : c1.buffer.active = c.buffer.active ++ P4 := by
        rw [hw1, List.append_nil]; exact hP4
      have ha3 : c3.buffer.active = c.buffer.active ++ (P4 ++ ft) := by
        rw [hw3, List.append_nil, hw2, ha1, List.append_assoc]
      obtain ⟨hbp, hap⟩ := patch_words c3 c.buffer.active P4 ft
        [.op .JIF, .u16 (condition.index % 65536),
          int_word (Int.ofNat ((c3.buffer.count - c.buffer.count) / 2)) 0,
          int_word (Int.ofNat ((c3.buffer.count - c.buffer.count) / 2)) 1]
        c.buffer.count hi3.1 ha3 (by simp [hP4len]) hc0
      refine ⟨⟨hbp, hi3.2⟩, _, hap, ?_⟩
      intro W hW
      have h2 : Flow c1.scopes c1.vm c2.scopes c2.vm W :=
        hf2 W (List.IsInfix.trans (List.suffix_append _ _).isInfix hW)
      exact flow_trans (flow_trans (flow_of_same W hs1) h2) (flow_of_same W hs3)
  · by_cases h4 : form.length = 4
    · simp only [ht, h4, beq_self_eq_true, Bool.false_eq_true, if_false, if_true,
        Bool.not_true, Bool.false_and, ↓reduceIte]
      simp only [wp_bind, wp_buffer_count, wp_buffer_set_count, wp_push_op, wp_push_u16,
        wp_push_i32, wp_pure, wp_buffer_skip]
      apply wp_of_spec2 (spec2Q_form_at _ _) ⟨hbs, hi.2⟩
      rintro f2 c1 w hi1 hw1 ⟨hs1, _, he⟩
      subst he
      apply wp_of_spec2 (hcv _ f2) hi1
      intro left c2 ft hi2 hw2 hf2
      apply wp_of_spec2 (spec2Q_return left) hi2
      intro _ c2r rl hi2r hw2r hs2r
      apply wp_of_spec2 (spec2Q_drop_slot _ _) hi2r
      rintro _ c3 w hi3 hw3 ⟨hs3, _, he⟩
      subst he
      have ha1 : c1.buffer.active = c.buffer.active ++ P4 := by
        rw [hw1, List.append_nil]; exact hP4
      have ha3 : c3.buffer.active = c.buffer.active ++ (P4 ++ (ft ++ rl)) := by
        rw [hw3, List.append_nil, hw2r, hw2, ha1]; simp
      obtain ⟨hbp, hap⟩ := patch_words c3 c.buffer.active P4 (ft ++ rl)
        [.op .JIF, .u16 (condition.index % 65536),
          int_word (Int.ofNat ((c3.buffer.count - c.buffer.count) / 2)) 0,
          int_word (Int.ofNat ((c3.buffer.count - c.buffer.count) / 2)) 1]
        c.buffer.count hi3.1 ha3 (by simp [hP4len]) hc0
      apply wp_of_spec2 (spec2Q_form_at _ _) ⟨hbp, hi3.2⟩
      rintro f3 c4 w hi4 hw4 ⟨hs4, _, he⟩
      subst he
      apply wp_of_spec2 (hcv _ f3) hi4
      intro right c5 fe hi5 hw5 hf5
      apply wp_of_spec2 (spec2Q_return right) hi5
      intro _ c5r rr hi5r hw5r hs5r
      apply wp_of_spec2 (spec2Q_drop_slot _ _) hi5r
      rintro _ c6 w hi6 hw6 ⟨hs6, _, he⟩
      subst he
      refine ⟨hi6, [.op .JIF, .u16 (condition.index % 65536),
          int_word (Int.ofNat ((c3.buffer.count - c.buffer.count) / 2)) 0,
          int_word (Int.ofNat ((c3.buffer.count - c.buffer.count) / 2)) 1] ++
          ((ft ++ rl) ++ (fe ++ rr)), ?_, ?_⟩
      · rw [hw6, List.append_nil, hw5r, hw5, hw4, List.append_nil]
        refine (congrArg (fun x => x ++ fe ++ rr) hap).trans ?_
        simp
      · intro W hW
        have h2 : Flow c1.scopes c1.vm c2.scopes c2.vm W :=
          hf2 W (List.IsInfix.trans ⟨[.op .JIF, .u16 (condition.index % 65536),
            int_word (Int.ofNat ((c3.buffer.count - c.buffer.count) / 2)) 0,
            int_word (Int.ofNat ((c3.buffer.count - c.buffer.count) / 2)) 1],
            rl ++ (fe ++ rr), by simp⟩ hW)
        have h5 : Flow c4.scopes c4.vm c5.scopes c5.vm W :=
          hf5 W (List.IsInfix.trans ⟨[.op .JIF, .u16 (condition.index % 65536),
            int_word (Int.ofNat ((c3.buffer.count - c.buffer.count) / 2)) 0,
            int_word (Int.ofNat ((c3.buffer.count - c.buffer.count) / 2)) 1] ++ (ft ++ rl),
            rr, by simp⟩ hW)
        exact flow_trans (flow_trans (flow_trans (flow_trans (flow_trans (flow_trans
          (flow_trans (flow_of_same W hs1) h2) (flow_of_same W hs2r)) (flow_of_same W hs3))
          (flow_of_same W hs4)) h5) (flow_of_same W hs5r)) (flow_of_same W hs6)
    · simp only [ht, h4, beq_iff_eq, Bool.false_eq_true, if_false, if_true, Bool.not_true,
        Bool.false_and, ↓reduceIte]
      simp only [wp_bind, wp_buffer_count, wp_buffer_set_count, wp_push_op, wp_push_u16,
        wp_push_i32, wp_pure, wp_buffer_skip]
      apply wp_of_spec2 (spec2Q_form_at _ _) ⟨hbs, hi.2⟩
      rintro f2 c1 w hi1 hw1 ⟨hs1, _, he⟩
      subst he
      apply wp_of_spec2 (hcv _ f2) hi1
      intro left c2 ft hi2 hw2 hf2
      apply wp_of_spec2 (spec2Q_return left) hi2
      intro _ c2r rl hi2r hw2r hs2r
      apply wp_of_spec2 (spec2Q_drop_slot _ _) hi2r
      rintro _ c3 w hi3 hw3 ⟨hs3, _, he⟩
      subst he
      have ha1 : c1.buffer.active = c.buffer.active ++ P4 := by
        rw [hw1, List.append_nil]; exact hP4
      have ha3 : c3.buffer.active = c.buffer.active ++ (P4 ++ (ft ++ rl)) := by
        rw [hw3, List.append_nil, hw2r, hw2, ha1]; simp
      obtain ⟨hbp, hap⟩ := patch_words c3 c.buffer.active P4 (ft ++ rl)
        [.op .JIF, .u16 (condition.index % 65536),
          int_word (Int.ofNat ((c3.buffer.count - c.buffer.count) / 2)) 0,
          int_word (Int.ofNat ((c3.buffer.count - c.buffer.count) / 2)) 1]
        c.buffer.count hi3.1 ha3 (by simp [hP4len]) hc0
      apply wp_of_spec2 (spec2Q_return condition) ⟨hbp, hi3.2⟩
      intro _ c6 rr hi6 hw6 hs6
      refine ⟨hi6, [.op .JIF, .u16 (condition.index % 65536),
          int_word (Int.ofNat ((c3.buffer.count - c.buffer.count) / 2)) 0,
          int_word (Int.ofNat ((c3.buffer.count - c.buffer.count) / 2)) 1] ++
          ((ft ++ rl) ++ rr), ?_, ?_⟩
      · rw [hw6]
        refine (congrArg (fun x => x ++ rr) hap).trans ?_
        simp
      · intro W hW
        have h2 : Flow c1.scopes c1.vm c2.scopes c2.vm W :=
          hf2 W (List.IsInfix.trans ⟨[.op .JIF, .u16 (condition.index % 65536),
            int_word (Int.ofNat ((c3.buffer.count - c.buffer.count) / 2)) 0,
            int_word (Int.ofNat ((c3.buffer.count - c.buffer.count) / 2)) 1],
            rl ++ rr, by simp⟩ hW)
        exact flow_trans (flow_trans (flow_trans (flow_trans
          (flow_of_same W hs1) h2) (flow_of_same W hs2r)) (flow_of_same W hs3))
          (flow_of_same W hs6)

section

attribute [local irreducible] Comp.bind Spec Spec2 GuardFree GuardRel compiler_tail scope_read scope_write scope_parent form_at
  retag_string symbol_resolve compile_symbol_touch compiler_get_local compiler_free_local
  compiler_drop_slot compiler_tracker_free compiler_tracker_write compiler_add_literal
  compiler_declare_symbol compiler_push_scope compiler_pop_scope recursion_guard_enter
  recursion_guard_leave compiler_get_target compiler_get_temp compiler_realize_slot
  compiler_coerce_slot compiler_return dst_buffer_push_op dst_buffer_push_u16
  dst_buffer_push_i16 dst_buffer_push_i32 dst_buffer_push_i64 dst_buffer_push_real
  buffer_count buffer_set_count buffer_skip c_error c_error1 undefined_read getc setc
  compile_nonref_type compile_literal compile_symbol compile_assign compile_varset
  compile_global_var compile_global_def compile_def compile_var compile_block_loop
  compile_block compiler_gen_funcdef compile_function_params compile_function compile_if
  compile_while compile_do compile_quote compile_args compile_apply compile_tran
  compile_elements compile_array compile_table compile_form compile_value_body

theorem spec2_if (cv : FormOptions → DstValue → Comp Slot)
    (hcv : ∀ o x, Spec2 (cv o x) FlowP) (opts : FormOptions) (form : List DstValue) :
    Spec2 (compile_if cv opts form) FlowP := by
  unfold compile_if
  apply spec2_bind spec2_compiler_tail
  intro scope
  split
  · exact spec2_c_error _
  · simp only []
    apply spec2_bind (spec2_form_at _ _)
    intro f1
    apply spec2_bind (hcv _ f1)
    intro condition
    split
    · split
      · apply spec2_bind (spec2_form_at _ _)
        intro f3
        exact hcv opts f3
      · exact spec2_pure _
    · exact spec2_if_main cv hcv opts form scope condition

end

/-! ## Flag monotonicity -/

section

attribute [local irreducible] Comp.bind Spec Spec2 GuardFree GuardRel compiler_tail scope_read scope_write scope_parent form_at
  retag_string symbol_resolve compile_symbol_touch compiler_get_local compiler_free_local
  compiler_drop_slot compiler_tracker_free compiler_tracker_write compiler_add_literal
  compiler_declare_symbol compiler_push_scope compiler_pop_scope recursion_guard_enter
  recursion_guard_leave compiler_get_target compiler_get_temp compiler_realize_slot
  compiler_coerce_slot compiler_return dst_buffer_push_op dst_buffer_push_u16
  dst_buffer_push_i16 dst_buffer_push_i32 dst_buffer_push_i64 dst_buffer_push_real
  buffer_count buffer_set_count buffer_skip c_error c_error1 undefined_read getc setc
  compile_nonref_type compile_literal compile_symbol compile_assign compile_varset
  compile_global_var compile_global_def compile_def compile_var compile_block_loop
  compile_block compiler_gen_funcdef compile_function_params compile_function compile_if
  compile_while compile_do compile_quote compile_args compile_apply compile_tran
  compile_elements compile_array compile_table compile_form compile_value_body

theorem spec2_form (cv : FormOptions → DstValue → Comp Slot)
    (hcv1 : ∀ o x, Spec (cv o x) (FormFrag o)) (hcv : ∀ o x, Spec2 (cv o x) FlowP)
    (opts : FormOptions) (form : List DstValue) :
    Spec2 (compile_form cv opts form) FlowP := by
  unfold compile_form
  apply spec2_bind spec2_compiler_tail
  intro scope
  split
  · exact spec2_nonref_type _ _
  · split
    · exact spec2_apply cv hcv _ _
    · exact spec2_do cv hcv _ _
    · exact spec2_def cv hcv _ _
    · exact spec2_if cv hcv _ _
    · exact spec2_function cv hcv1 hcv _ _
    · exact spec2_quote _ _
    · exact spec2_tran cv hcv _ _
    · exact spec2_var cv hcv _ _
    · exact spec2_varset cv hcv _ _
    · exact spec2_while cv hcv _ _
    · apply spec2_bind (spec2_form_at _ _)
      intro f0
      apply spec2_bind (hcv _ _)
      intro callee0
      apply spec2_bind (spec2_realize_slot _)
      intro callee
      apply spec2_bind (spec2_args hcv _ _ _)
      intro tracker
      repeat (first
    | apply spec2_bind
    | intro _
    | exact spec2_pure _
    | exact spec2_drop_slot _ _
    | exact spec2_tracker_free _ _
    | exact spec2_tracker_write _ _
    | exact spec2_get_target _
    | exact spec2_push_op _
    | exact spec2_push_u16 _
    | split)

theorem spec2_value_body (cv : FormOptions → DstValue → Comp Slot)
    (hcv1 : ∀ o x, Spec (cv o x) (FormFrag o)) (hcv : ∀ o x, Spec2 (cv o x) FlowP)
    (opts : FormOptions) (x : DstValue) :
    Spec2 (compile_value_body cv opts x) FlowP := by
  unfold compile_value_body
  apply spec2_bind spec2_guard_enter
  intro guard
  split
  · exact spec2_c_error _
  · apply spec2_bind
    · split
      · exact spec2_nonref_type _ _
      · exact spec2_nonref_type _ _
      · exact spec2_nonref_type _ _
      · exact spec2_nonref_type _ _
      · exact spec2_symbol cv hcv _ _
      · exact spec2_form cv hcv1 hcv _ _
      · exact spec2_array cv hcv _ _
      · exact spec2_table cv hcv _ _
      · exact spec2_literal _ _
    · intro ret
      apply spec2_bind spec2_guard_leave
      intro _
      exact spec2_pure _

end

theorem spec2_value : ∀ (n : Nat) (opts : FormOptions) (x : DstValue),
    Spec2 (compile_value n opts x) FlowP
  | 0, _, _ => spec2_c_error _
  | n + 1, opts, x => spec2_value_body _ (spec_value n) (spec2_value n) opts x

/-- When a successful compilation leaves no scope on the stack, every
definition with a flag set has an `UPV` instruction in its code or in the code
of a definition nested in it. -/
theorem flagsGood_dst_compile {env : DstEnv} {form : DstValue} {guard : Nat} {f : DstFunction}
    {c : DstCompiler} (h : dst_compile env form guard = .ok f c) (hs : c.scopes = []) :
    FlagsGood c.vm.funcdefs := by
  obtain ⟨slot, d, hrun⟩ := dst_compile_ok h
  have hi0 : Inv
      { vm := { funcdefs := [], tables := [], arrays := [] }, scopes := [],
        buffer := { data := [], count := 0 }, env := env, recursionGuard := guard } := by
    refine ⟨⟨rfl, by simp⟩, ?_, PoolInv_init env guard, ?_⟩
    · intro d hd; cases hd
    · intro s hs; cases hs
  refine wp_of_ok (Q := fun _ c1 => c1.scopes = [] → FlagsGood c1.vm.funcdefs) ?_ hrun hs
  rw [wp_bind]
  apply wp_push_scope2 false hi0
  intro cp new hip hbp hsp hnf hdp hap _
  rw [wp_bind]
  apply wp_of_both (spec_value guard _ form) (spec2_value guard _ form) hip
  intro slot1 c2 w1 hi2 hw2 hfrag hf2
  rw [wp_bind]
  apply wp_of_both (spec_return_code _ slot1 w1 hfrag) (spec2Q_return slot1) hi2
  intro _ c3 w2 hi3 hw3 hgood hs3
  rw [wp_bind, wp_buffer_count, wp_bind]
  have ha3 : c3.buffer.active = [] ++ (w1 ++ w2) := by
    rw [hw3, hw2, hbp]
    show ((([] : List Word).take (0 / 2)) ++ w1) ++ w2 = _
    simp
  have hc3 := active_count hi3.1
  rw [ha3] at hc3
  apply wp_gen_funcdef2 c3 [] (w1 ++ w2) _ 0 false hi3 ha3 (by simpa using hc3) hgood
  intro c4 l0 d1 hi4 ha4 hl0 hdf hcode hlits hfp hfe harr hlen4 hkeep
  rw [wp_pure]
  intro hnil
  have hbody : Flow ([] ++ [new]) cp.vm c3.scopes c3.vm d1.byteCode := by
    have h2 := hf2 d1.byteCode (by rw [hcode]; exact (List.prefix_append _ _).isInfix)
    have := flow_trans h2 (flow_of_same d1.byteCode hs3)
    rw [hsp] at this
    exact this
  have hflow : Flow [] { funcdefs := [], tables := [], arrays := [] } c4.scopes c4.vm [] := by
    refine flow_function [] hnf hdp hap hbody hl0 hlits hfp hfe hlen4 hkeep hdf
      (arrMono_of_arrays harr) ?_
    intro t ht
    rw [hnil] at ht
    cases ht
  exact ((hflow.2.2.2 (by rw [hnil])).2 flagsGood_nil).1

set_option maxHeartbeats 8000000 in
theorem form_nested_compiles (env : DstEnv) (g : Nat) :
    Result.funcdefs (dst_compile env form_nested (g + 6)) = funcdefs_nested ∧
    Result.scopes (dst_compile env form_nested (g + 6)) = [] := by
  (dsimp [funcdefs_nested, funcdef_nested_parent, funcdef_nested_env, Result.scopes, no_flags,
    form_nested, drop_succ_nil, take_succ_nil, get_special_apply, get_special_do, get_special_def,
    get_special_if, get_special_fn, get_special_quote, get_special_tran, get_special_var,
    get_special_varset, get_special_while, get_special_plus, get_special_global_def,
    get_special_global_var, Result.funcdefs, compiled, dst_compile, compile_value_succ, compile_value_body,
    compile_nonref_type, compile_literal, compiler_push_scope, bind, pure, Comp.bind, getc, setc,
    form_options_default, compiler_get_target, compiler_get_temp, compiler_tail,
    compiler_get_local, compiler_free_local, compiler_drop_slot, scope_read, scope_write,
    dst_buffer_push_op, dst_buffer_push_u16, dst_buffer_push_i16, dst_buffer_push_i32, int_word,
    DstBuffer.put, DstBuffer.skip, buffer_skip, compiler_return, buffer_count,
    compiler_gen_funcdef, buffer_set_count, compiler_pop_scope, c_error, c_error1,
    DstValue.isNil, compile_form, compile_function, form_at,
    compile_function_params, compiler_declare_symbol, equal_cstr, DstValue.asString,
    DstValue.isSymbol, dst_table_put, compile_block, compile_block_loop, compile_symbol,
    symbol_resolve, symbol_resolve_scopes, dst_table_get, dst_equals, DstValue.asInteger,
    compiler_add_literal, nil_slot, compile_symbol_touch, scope_parent, compile_if, compile_do,
    compile_def, compile_while, compile_args, compiler_realize_slot, compiler_coerce_slot,
    compiler_tracker_free, compiler_tracker_free_loop, compiler_tracker_write,
    compiler_tracker_write_loop, compiler_tracker_push, tracker_init, dst_string_cvs,
    dst_string_cv, undefined_read, recursion_guard_enter, recursion_guard_leave] <;> simp [funcdefs_nested, funcdef_nested_parent, funcdef_nested_env, Result.scopes, no_flags,
    form_nested, Result.funcdefs, compiled, dst_compile, compile_value_succ, compile_value_body,
    compile_nonref_type, compile_literal, compiler_push_scope, bind, pure, Comp.bind, getc, setc,
    form_options_default, compiler_get_target, compiler_get_temp, compiler_tail,
    compiler_get_local, compiler_free_local, compiler_drop_slot, scope_read, scope_write,
    dst_buffer_push_op, dst_buffer_push_u16, dst_buffer_push_i16, dst_buffer_push_i32, int_word,
    DstBuffer.put, DstBuffer.skip, buffer_skip, compiler_return, buffer_count,
    compiler_gen_funcdef, buffer_set_count, compiler_pop_scope, c_error, c_error1,
    DstValue.isNil, compile_form, get_special, name_at, compile_function, form_at,
    compile_function_params, compiler_declare_symbol, equal_cstr, DstValue.asString,
    DstValue.isSymbol, dst_table_put, compile_block, compile_block_loop, compile_symbol,
    symbol_resolve, symbol_resolve_scopes, dst_table_get, dst_equals, DstValue.asInteger,
    compiler_add_literal, nil_slot, compile_symbol_touch, scope_parent, compile_if, compile_do,
    compile_def, compile_while, compile_args, compiler_realize_slot, compiler_coerce_slot,
    compiler_tracker_free, compiler_tracker_free_loop, compiler_tracker_write,
    compiler_tracker_write_loop, compiler_tracker_push, tracker_init, dst_string_cvs,
    dst_string_cv, undefined_read, recursion_guard_enter, recursion_guard_leave])

/-- C10 (flag monotonicity), as the code has it: when a successful compilation
leaves no scope on the scope stack of the compiler, every FuncDef it allocated
whose flag NEEDS_PARENT or NEEDS_ENV is set has an `UPV` instruction with a
level of at least 1 in its own bytecode or in the bytecode of a FuncDef nested
in it (a FuncDef among its literals, or among the literals of such a FuncDef,
and so on). -/
theorem flag_monotonicity (env : DstEnv) (form : DstValue) (guard : Nat) (d : DstFuncDef)
    (hs : Result.scopes (dst_compile env form guard) = [])
    (hd : d ∈ Result.funcdefs (dst_compile env form guard))
    (hf : d.flags.needsParent = true ∨ d.flags.needsEnv = true) :
    NestedUPV (Result.funcdefs (dst_compile env form guard)) d := by
  cases h : dst_compile env form guard with
  | ok f c =>
    rw [h] at hd hs
    refine flagsGood_dst_compile h hs d hd ?_
    unfold DstFuncDef.flagged
    rcases hf with hf | hf
    · rw [hf]; rfl
    · rw [hf]; simp
  | error e => rw [h] at hd; cases hd
  | undefined => rw [h] at hd; cases hd

theorem flag_monotonicity_witness :
    Result.scopes (dst_compile env_empty form_nested 1000) = [] ∧
    funcdef_nested_parent ∈ Result.funcdefs (dst_compile env_empty form_nested 1000) ∧
    (funcdef_nested_parent.flags.needsParent = true ∨
      funcdef_nested_parent.flags.needsEnv = true) ∧
    NestedUPV (Result.funcdefs (dst_compile env_empty form_nested 1000))
      funcdef_nested_parent :=
  ⟨(form_nested_compiles env_empty 994).2,
   by rw [(form_nested_compiles env_empty 994).1]; simp [funcdefs_nested],
   Or.inl rfl,
   flag_monotonicity env_empty form_nested 1000 funcdef_nested_parent
     (form_nested_compiles env_empty 994).2
     (by rw [(form_nested_compiles env_empty 994).1]; simp [funcdefs_nested]) (Or.inl rfl)⟩

/-- C10 as stated fails: compiling `(fn [x] (fn [] (fn [] (fn [] x))))` in the
empty environment allocates a FuncDef with NEEDS_PARENT set whose bytecode has
neither an `UPV` nor a `SUV` instruction, and a FuncDef with NEEDS_ENV set
although no symbol resolves to the environment, which binds nothing. -/
theorem flags_without_reference :
    (funcdef_nested_parent ∈ Result.funcdefs (dst_compile env_empty form_nested 1000) ∧
      funcdef_nested_parent.flags.needsParent = true ∧
      Word.op .UPV ∉ funcdef_nested_parent.byteCode ∧
      Word.op .SUV ∉ funcdef_nested_parent.byteCode) ∧
    (funcdef_nested_env ∈ Result.funcdefs (dst_compile env_empty form_nested 1000) ∧
      funcdef_nested_env.flags.needsEnv = true ∧
      env_empty.table = [] ∧ env_empty.nils = []) := by
  rw [(form_nested_compiles env_empty 994).1]
  refine ⟨⟨by simp [funcdefs_nested], rfl, by decide, by decide⟩,
    ⟨by simp [funcdefs_nested], rfl, rfl, rfl⟩⟩

/-! ## The target of the options -/

/-- A `while` form without a body, whose condition compiles to a slot that is
not the nil slot: `compile_while` returns the slot of the condition, whatever
the target of its options is. -/
theorem while_without_body (cv : FormOptions → DstValue → Comp Slot) (opts : FormOptions)
    (h x : DstValue) (c cp c2 : DstCompiler) (p : Nat) (cond : Slot)
    (hpush : compiler_push_scope true c = .ok p cp)
    (hcv : cv form_options_default x cp = .ok cond c2) (hnn : cond.isNil = false)
    (hne : c2.scopes ≠ []) :
    ∃ c3, compile_while cv opts [h, x] c
      = .ok (if opts.resultUnused then nil_slot else cond) c3 := by
  obtain ⟨n, hn⟩ : ∃ n, c2.scopes.length = n + 1 := by
    cases hs : c2.scopes with
    | nil => exact absurd hs hne
    | cons a l => exact ⟨l.length, rfl⟩
  obtain ⟨l, hl⟩ : ∃ l, c2.scopes.getLast? = some l := by
    cases hs : c2.scopes.getLast? with
    | none => exact absurd (List.getLast?_eq_none_iff.1 hs) hne
    | some l => exact ⟨l, rfl⟩
  unfold compile_while
  simp only [bind, Comp.bind, pure, buffer_count, hpush, form_at, List.get?, hcv, hnn,
    Bool.false_eq_true, if_false, buffer_skip, compile_block, compiler_tail, DstBuffer.skip,
    hn, List.length_cons, List.length_nil, Nat.reduceAdd, le_refl, if_true,
    compiler_drop_slot, nil_slot, Bool.not_true, Bool.false_and, dst_buffer_push_op,
    dst_buffer_push_i32, dst_buffer_push_u16, buffer_set_count, compiler_pop_scope, hl]
  cases c2.scopes.dropLast.getLast? <;> cases opts.resultUnused <;> exact ⟨_, rfl⟩

set_option maxHeartbeats 4000000 in
theorem while_one_condition (env : DstEnv) (n g : Nat) :
    ∃ c2, compile_value (n + 1) form_options_default (.integer 1)
        ⟨{ funcdefs := [], tables := [[]], arrays := [[]] },
          [{ level := 0, nextLocal := 0, frameSize := 0, freeHeap := [],
             touchParent := false, touchEnv := false,
             literals := 0, literalsArray := 0, locals := [] },
           { level := 0, nextLocal := 0, frameSize := 0, freeHeap := [],
             touchParent := false, touchEnv := false,
             literals := 0, literalsArray := 0, locals := [] }],
          { data := [], count := 0 }, env, g + 2⟩ =
        .ok { index := 0, isNil := false, isTemp := true, hasReturned := false } c2 ∧
      c2.scopes ≠ [] := by
  simp [Result.funcdefs, compiled, dst_compile, compile_value_succ, compile_value_body,
    compile_nonref_type, compile_literal, compiler_push_scope, bind, pure, Comp.bind, getc, setc,
    form_options_default, compiler_get_target, compiler_get_temp, compiler_tail,
    compiler_get_local, compiler_free_local, compiler_drop_slot, scope_read, scope_write,
    dst_buffer_push_op, dst_buffer_push_u16, dst_buffer_push_i16, dst_buffer_push_i32, int_word,
    DstBuffer.put, DstBuffer.skip, buffer_skip, compiler_return, buffer_count,
    compiler_gen_funcdef, buffer_set_count, compiler_pop_scope, c_error, c_error1,
    DstValue.isNil, compile_form, get_special, name_at, compile_function, form_at,
    compile_function_params, compiler_declare_symbol, equal_cstr, DstValue.asString,
    DstValue.isSymbol, dst_table_put, compile_block, compile_block_loop, compile_symbol,
    symbol_resolve, symbol_resolve_scopes, dst_table_get, dst_equals, DstValue.asInteger,
    compiler_add_literal, nil_slot, compile_symbol_touch, scope_parent, compile_if, compile_do,
    compile_def, compile_while, compile_args, compiler_realize_slot, compiler_coerce_slot,
    compiler_tracker_free, compiler_tracker_free_loop, compiler_tracker_write,
    compiler_tracker_write_loop, compiler_tracker_push, tracker_init, dst_string_cvs,
    dst_string_cv, undefined_read, recursion_guard_enter, recursion_guard_leave]

set_option maxHeartbeats 4000000 in
/-- C11 fails in the code: compiled in the root scope with options that ask
for the value in slot 5 (`canChoose`, `resultUnused` and `isTail` clear), the
form `(while 1)` compiles without error and the slot returned is the temporary
slot 0 of the condition, not slot 5: `compile_while` returns the slot of its
condition, which it compiles with the default options. -/
theorem while_ignores_target :
    Result.value (compile_value 1000 opts_target5 form_while_one (root_state env_empty 1000)) =
      some { index := 0, isNil := false, isTemp := true, hasReturned := false } := by
  obtain ⟨c2, hcv, hne⟩ := while_one_condition env_empty 998 997
  obtain ⟨c3, hw⟩ := while_without_body (compile_value 999)
    { target := 5, resultUnused := false, canChoose := false, isTail := false } (.symbol "while")
    (.integer 1)
    ⟨{ funcdefs := [], tables := [[]], arrays := [[]] },
      [{ level := 0, nextLocal := 0, frameSize := 0, freeHeap := [],
         touchParent := false, touchEnv := false,
         literals := 0, literalsArray := 0, locals := [] }],
      { data := [], count := 0 }, env_empty, 999⟩ _ _ _ _ rfl hcv rfl hne
  have e : compile_value 1000 opts_target5 form_while_one (root_state env_empty 1000) =
      .ok { index := 0, isNil := false, isTemp := true, hasReturned := false }
        { c3 with recursionGuard := c3.recursionGuard + 1 } := by
    have h1 : compile_value 1000 opts_target5 form_while_one (root_state env_empty 1000) =
        compile_value_body (compile_value 999) opts_target5 form_while_one
          (root_state env_empty 1000) := rfl
    rw [h1]
    simp only [compile_value_body, form_while_one, root_state, bind, Comp.bind,
      recursion_guard_enter, compile_form, compiler_tail, List.length_cons, List.length_nil]
    simp [get_special, name_at, hw, opts_target5, recursion_guard_leave, pure, Comp.bind,
      compiler_tail]
  rw [e]
  rfl

/-! ## Unbound symbols -/

theorem symbol_resolve_scopes_none (currentLevel : Nat) (x : DstValue) :
    ∀ scopes : List DstScope, (∀ sc ∈ scopes, dst_table_get sc.locals x = .nil) →
      symbol_resolve_scopes currentLevel x scopes = none
  | [], _ => rfl
  | scope :: parents, h => by
    unfold symbol_resolve_scopes
    simp only [h scope (List.mem_cons_self _ _), DstValue.isNil, Bool.not_true,
      Bool.false_eq_true, if_false]
    exact symbol_resolve_scopes_none currentLevel x parents
      (fun sc hsc => h sc (List.mem_cons_of_mem _ hsc))

/-- A symbol that no scope and no table of the environment binds makes
`compile_symbol` fail with the symbol as the error, whatever the options. -/
theorem compile_symbol_unbound (cv : FormOptions → DstValue → Comp Slot) (opts : FormOptions)
    (x : DstValue) (c : DstCompiler) (hsc : c.scopes ≠ [])
    (hloc : ∀ sc ∈ c.scopes, dst_table_get sc.locals x = .nil)
    (henv : dst_table_get c.env.table x = .nil) (hnils : dst_table_get c.env.nils x = .nil) :
    compile_symbol cv opts x c = .error x := by
  obtain ⟨n, hn⟩ : ∃ n, c.scopes.length = n + 1 := by
    cases hs : c.scopes with
    | nil => exact absurd hs hsc
    | cons a l => exact ⟨l.length, rfl⟩
  obtain ⟨t, ht⟩ : ∃ t, c.scopes.get? n = some t :=
    ⟨c.scopes.get ⟨n, by omega⟩, List.get?_eq_get _⟩
  have hres : ∀ lvl, symbol_resolve_scopes lvl x c.scopes.reverse = none :=
    fun lvl => symbol_resolve_scopes_none lvl x c.scopes.reverse
      (fun sc hs => hloc sc (List.mem_reverse.1 hs))
  unfold compile_symbol symbol_resolve
  simp [bind, Comp.bind, compiler_tail, hn, scope_read, ht, getc, hres, henv, hnils,
    DstValue.isNil, pure, c_error1]

theorem compile_value_unbound (n : Nat) (opts : FormOptions) (s : String) (c : DstCompiler)
    (hg : 2 ≤ c.recursionGuard) (hsc : c.scopes ≠ [])
    (hloc : ∀ sc ∈ c.scopes, dst_table_get sc.locals (.symbol s) = .nil)
    (henv : dst_table_get c.env.table (.symbol s) = .nil)
    (hnils : dst_table_get c.env.nils (.symbol s) = .nil) :
    compile_value (n + 1) opts (.symbol s) c = .error (.symbol s) := by
  show compile_value_body (compile_value n) opts (.symbol s) c = _
  have hne : ¬ (c.recursionGuard - 1 = 0) := by omega
  have h := compile_symbol_unbound (compile_value n) opts (.symbol s)
    { c with recursionGuard := c.recursionGuard - 1 } hsc hloc henv hnils
  unfold compile_value_body
  simp [bind, Comp.bind, recursion_guard_enter, hne, h]

set_option maxHeartbeats 4000000 in
/-- C12 (unbound symbol error): a symbol that is bound in no scope, has no
value that is not nil in the table of the environment and is not in its table
of nils makes the compilation fail with the symbol itself as the error value
(a symbol, not a string), also when its value is not used: `compile_value`
fails so in every state of the compiler whose recursion guard is not exhausted,
and `dst_compile` hands the symbol back as the error, with no FuncDef, for the
symbol at top level and for the symbol as a non-final element of a `do`. -/
theorem unbound_symbol_error (env : DstEnv) (s : String) (guard : Nat) (hg : 3 ≤ guard)
    (henv : dst_table_get env.table (.symbol s) = .nil)
    (hnils : dst_table_get env.nils (.symbol s) = .nil) :
    (∀ (n : Nat) (opts : FormOptions) (c : DstCompiler), c.env = env →
      2 ≤ c.recursionGuard → c.scopes ≠ [] →
      (∀ sc ∈ c.scopes, dst_table_get sc.locals (.symbol s) = .nil) →
      compile_value (n + 1) opts (.symbol s) c = .error (.symbol s)) ∧
    dst_compile env (.symbol s) guard = .error (.symbol s) ∧
    dst_compile env (.tuple [.symbol "do", .symbol s, .integer 1]) guard
      = .error (.symbol s) ∧
    Result.funcdefs (dst_compile env (.symbol s) guard) = [] ∧
    Result.funcdefs (dst_compile env (.tuple [.symbol "do", .symbol s, .integer 1]) guard)
      = [] := by
  obtain ⟨g, rfl⟩ : ∃ g, guard = g + 3 := ⟨guard - 3, by omega⟩
  have h1 : dst_compile env (.symbol s) (g + 3) = .error (.symbol s) := by
    simp [henv, hnils, Result.funcdefs, compiled, dst_compile, compile_value_succ, compile_value_body,
    compile_nonref_type, compile_literal, compiler_push_scope, bind, pure, Comp.bind, getc, setc,
    form_options_default, compiler_get_target, compiler_get_temp, compiler_tail,
    compiler_get_local, compiler_free_local, compiler_drop_slot, scope_read, scope_write,
    dst_buffer_push_op, dst_buffer_push_u16, dst_buffer_push_i16, dst_buffer_push_i32, int_word,
    DstBuffer.put, DstBuffer.skip, buffer_skip, compiler_return, buffer_count,
    compiler_gen_funcdef, buffer_set_count, compiler_pop_scope, c_error, c_error1,
    DstValue.isNil, compile_form, get_special, name_at, compile_function, form_at,
    compile_function_params, compiler_declare_symbol, equal_cstr, DstValue.asString,
    DstValue.isSymbol, dst_table_put, compile_block, compile_block_loop, compile_symbol,
    symbol_resolve, symbol_resolve_scopes, dst_table_get, dst_equals, DstValue.asInteger,
    compiler_add_literal, nil_slot, compile_symbol_touch, scope_parent, compile_if, compile_do,
    compile_def, compile_while, compile_args, compiler_realize_slot, compiler_coerce_slot,
    compiler_tracker_free, compiler_tracker_free_loop, compiler_tracker_write,
    compiler_tracker_write_loop, compiler_tracker_push, tracker_init, dst_string_cvs,
    dst_string_cv, undefined_read, recursion_guard_enter, recursion_guard_leave]
  have h2 : dst_compile env (.tuple [.symbol "do", .symbol s, .integer 1]) (g + 3)
      = .error (.symbol s) := by
    simp [henv, hnils, Result.funcdefs, compiled, dst_compile, compile_value_succ, compile_value_body,
    compile_nonref_type, compile_literal, compiler_push_scope, bind, pure, Comp.bind, getc, setc,
    form_options_default, compiler_get_target, compiler_get_temp, compiler_tail,
    compiler_get_local, compiler_free_local, compiler_drop_slot, scope_read, scope_write,
    dst_buffer_push_op, dst_buffer_push_u16, dst_buffer_push_i16, dst_buffer_push_i32, int_word,
    DstBuffer.put, DstBuffer.skip, buffer_skip, compiler_return, buffer_count,
    compiler_gen_funcdef, buffer_set_count, compiler_pop_scope, c_error, c_error1,
    DstValue.isNil, compile_form, get_special, name_at, compile_function, form_at,
    compile_function_params, compiler_declare_symbol, equal_cstr, DstValue.asString,
    DstValue.isSymbol, dst_table_put, compile_block, compile_block_loop, compile_symbol,
    symbol_resolve, symbol_resolve_scopes, dst_table_get, dst_equals, DstValue.asInteger,
    compiler_add_literal, nil_slot, compile_symbol_touch, scope_parent, compile_if, compile_do,
    compile_def, compile_while, compile_args, compiler_realize_slot, compiler_coerce_slot,
    compiler_tracker_free, compiler_tracker_free_loop, compiler_tracker_write,
    compiler_tracker_write_loop, compiler_tracker_push, tracker_init, dst_string_cvs,
    dst_string_cv, undefined_read, recursion_guard_enter, recursion_guard_leave]
  refine ⟨?_, h1, h2, by rw [h1]; rfl, by rw [h2]; rfl⟩
  intro n opts c he hg2 hsc hloc
  exact compile_value_unbound n opts s c hg2 hsc hloc (by rw [he]; exact henv)
    (by rw [he]; exact hnils)

theorem unbound_symbol_error_witness :
    3 ≤ 1000 ∧ dst_table_get env_empty.table (.symbol "x") = .nil ∧
    dst_table_get env_empty.nils (.symbol "x") = .nil ∧
    dst_compile env_empty (.symbol "x") 1000 = .error (.symbol "x") ∧
    dst_compile env_empty (.tuple [.symbol "do", .symbol "x", .integer 1]) 1000
      = .error (.symbol "x") :=
  ⟨by decide, rfl, rfl,
   (unbound_symbol_error env_empty "x" 1000 (by decide) rfl rfl).2.1,
   (unbound_symbol_error env_empty "x" 1000 (by decide) rfl rfl).2.2.1⟩

/-! ## Assignment to an immutable binding -/

theorem noErr_bind {α β : Type} {m : Comp α} {f : α → Comp β} (hm : NoErr m)
    (hf : ∀ a, NoErr (f a)) : NoErr (m >>= f) := by
  intro c e
  show Comp.bind m f c ≠ _
  unfold Comp.bind
  cases h : m c with
  | ok a c1 => exact hf a c1 e
  | error e1 => exact absurd h (hm c e1)
  | undefined => simp

theorem noErr_pure {α : Type} (a : α) : NoErr (pure a : Comp α) := by
  intro c e h
  cases h

theorem noErr_compiler_tail : NoErr compiler_tail := by
  intro c e
  unfold compiler_tail
  split <;> simp

theorem noErr_scope_read (p : Nat) : NoErr (scope_read p) := by
  intro c e
  unfold scope_read
  split <;> simp

theorem noErr_scope_write (p : Nat) (s : DstScope) : NoErr (scope_write p s) := by
  intro c e h
  cases h

theorem noErr_push_op (o : DstOp) : NoErr (dst_buffer_push_op o) := by
  intro c e h
  cases h

theorem noErr_push_u16 (n : Nat) : NoErr (dst_buffer_push_u16 n) := by
  intro c e h
  cases h

theorem noErr_get_local (scope : Nat) : NoErr (compiler_get_local scope) := by
  unfold compiler_get_local
  apply noErr_bind (noErr_scope_read _)
  intro s
  split
  · simp only [Nat.add_one_ne_zero, beq_iff_eq, if_false]
    exact noErr_bind (noErr_scope_write _ _) (fun _ => noErr_pure _)
  · exact noErr_bind (noErr_scope_write _ _) (fun _ => noErr_pure _)

theorem noErr_drop_slot (scope : Nat) (slot : Slot) : NoErr (compiler_drop_slot scope slot) := by
  unfold compiler_drop_slot compiler_free_local
  split
  · exact noErr_bind (noErr_scope_read _) (fun _ => noErr_scope_write _ _)
  · exact noErr_pure _

theorem noErr_realize_slot (slot : Slot) : NoErr (compiler_realize_slot slot) := by
  unfold compiler_realize_slot compiler_get_temp
  split
  · apply noErr_bind
    · exact noErr_bind noErr_compiler_tail
        (fun _ => noErr_bind (noErr_get_local _) (fun _ => noErr_pure _))
    · intro s
      exact noErr_bind (noErr_push_op _) (fun _ => noErr_bind (noErr_push_u16 _)
        (fun _ => noErr_pure _))
  · exact noErr_pure _

theorem resolve_tail {x : DstValue} {c : DstCompiler} {r : Resolution}
    (h : symbol_resolve x c = .ok r c) : ∃ n, compiler_tail c = .ok n c := by
  unfold compiler_tail
  cases hl : c.scopes.length with
  | zero =>
    unfold symbol_resolve at h
    simp [bind, Comp.bind, compiler_tail, hl] at h
  | succ n => exact ⟨n, rfl⟩

theorem assign_immutable (cv : FormOptions → DstValue → Comp Slot) (opts : FormOptions)
    (left right : DstValue) (c : DstCompiler) (r : Resolution)
    (hres : symbol_resolve left c = .ok r c) (hs : r.status = 1) (hf : r.flags % 2 = 0) :
    compile_assign cv opts left right c = .error (.string "cannot varset immutable binding") := by
  obtain ⟨n, hn⟩ := resolve_tail hres
  unfold compile_assign
  simp [bind, Comp.bind, hn, hres, hs, hf, c_error]

theorem noErr_at_bind {α β : Type} {m : Comp α} {f : α → Comp β} {c : DstCompiler}
    (hm : ∀ e, m c ≠ .error e) (hf : ∀ a, NoErr (f a)) (e : DstValue) :
    (m >>= f) c ≠ .error e := by
  show Comp.bind m f c ≠ _
  unfold Comp.bind
  cases h : m c with
  | ok a c1 => exact hf a c1 e
  | error e1 => exact absurd h (hm e1)
  | undefined => simp

theorem assign_mutable (cv : FormOptions → DstValue → Comp Slot) (opts : FormOptions)
    (left right : DstValue) (c : DstCompiler) (r : Resolution)
    (hres : symbol_resolve left c = .ok r c) (hs : r.status = 1) (hf : r.flags % 2 = 1)
    (hcv : ∀ o e, cv o right c ≠ .error e) (e : DstValue) :
    compile_assign cv opts left right c ≠ .error e := by
  obtain ⟨n, hn⟩ := resolve_tail hres
  have hmain : ∀ e, (do
      let slot ← (
        if r.level != 0 then do
          let slot0 ← cv { { form_options_default with isTail := false, resultUnused := false }
            with canChoose := true } right
          let slot ← compiler_realize_slot slot0
          dst_buffer_push_op .SUV
          dst_buffer_push_u16 slot.index
          dst_buffer_push_u16 r.level
          dst_buffer_push_u16 r.index
          pure slot
        else
          cv { { form_options_default with isTail := false, resultUnused := false }
            with canChoose := false, target := r.index } right)
      if opts.resultUnused then do
        compiler_drop_slot n slot
        pure nil_slot
      else
        pure slot : Comp Slot) c ≠ .error e := by
    apply noErr_at_bind
    · split
      · exact noErr_at_bind (hcv _) (fun _ => noErr_bind (noErr_realize_slot _)
          (fun _ => noErr_bind (noErr_push_op _) (fun _ => noErr_bind (noErr_push_u16 _)
            (fun _ => noErr_bind (noErr_push_u16 _) (fun _ => noErr_bind (noErr_push_u16 _)
              (fun _ => noErr_pure _))))))
      · exact hcv _
    · intro slot
      split
      · exact noErr_bind (noErr_drop_slot _ _) (fun _ => noErr_pure _)
      · exact noErr_pure _
  have := hmain e
  unfold compile_assign
  simp only [bind, Comp.bind, hn, hres, hs, hf] at this ⊢
  simpa using this

set_option maxHeartbeats 8000000 in
theorem varset_scenarios (env : DstEnv) (g : Nat) :
    dst_compile env form_varset_param (g + 4) = .error error_immutable ∧
    dst_compile env form_varset_def (g + 4) = .error error_immutable ∧
    dst_compile env form_varset_upvalue (g + 5) = .error error_immutable := by
  refine ⟨?_, ?_, ?_⟩
  · simp [form_varset_param, error_immutable, compile_varset, compile_assign, Result.funcdefs, compiled, dst_compile, compile_value_succ, compile_value_body,
    compile_nonref_type, compile_literal, compiler_push_scope, bind, pure, Comp.bind, getc, setc,
    form_options_default, compiler_get_target, compiler_get_temp, compiler_tail,
    compiler_get_local, compiler_free_local, compiler_drop_slot, scope_read, scope_write,
    dst_buffer_push_op, dst_buffer_push_u16, dst_buffer_push_i16, dst_buffer_push_i32, int_word,
    DstBuffer.put, DstBuffer.skip, buffer_skip, compiler_return, buffer_count,
    compiler_gen_funcdef, buffer_set_count, compiler_pop_scope, c_error, c_error1,
    DstValue.isNil, compile_form, get_special, name_at, compile_function, form_at,
    compile_function_params, compiler_declare_symbol, equal_cstr, DstValue.asString,
    DstValue.isSymbol, dst_table_put, compile_block, compile_block_loop, compile_symbol,
    symbol_resolve, symbol_resolve_scopes, dst_table_get, dst_equals, DstValue.asInteger,
    compiler_add_literal, nil_slot, compile_symbol_touch, scope_parent, compile_if, compile_do,
    compile_def, compile_while, compile_args, compiler_realize_slot, compiler_coerce_slot,
    compiler_tracker_free, compiler_tracker_free_loop, compiler_tracker_write,
    compiler_tracker_write_loop, compiler_tracker_push, tracker_init, dst_string_cvs,
    dst_string_cv, undefined_read, recursion_guard_enter, recursion_guard_leave]
  · simp [form_varset_def, error_immutable, compile_varset, compile_assign, Result.funcdefs, compiled, dst_compile, compile_value_succ, compile_value_body,
    compile_nonref_type, compile_literal, compiler_push_scope, bind, pure, Comp.bind, getc, setc,
    form_options_default, compiler_get_target, compiler_get_temp, compiler_tail,
    compiler_get_local, compiler_free_local, compiler_drop_slot, scope_read, scope_write,
    dst_buffer_push_op, dst_buffer_push_u16, dst_buffer_push_i16, dst_buffer_push_i32, int_word,
    DstBuffer.put, DstBuffer.skip, buffer_skip, compiler_return, buffer_count,
    compiler_gen_funcdef, buffer_set_count, compiler_pop_scope, c_error, c_error1,
    DstValue.isNil, compile_form, get_special, name_at, compile_function, form_at,
    compile_function_params, compiler_declare_symbol, equal_cstr, DstValue.asString,
    DstValue.isSymbol, dst_table_put, compile_block, compile_block_loop, compile_symbol,
    symbol_resolve, symbol_resolve_scopes, dst_table_get, dst_equals, DstValue.asInteger,
    compiler_add_literal, nil_slot, compile_symbol_touch, scope_parent, compile_if, compile_do,
    compile_def, compile_while, compile_args, compiler_realize_slot, compiler_coerce_slot,
    compiler_tracker_free, compiler_tracker_free_loop, compiler_tracker_write,
    compiler_tracker_write_loop, compiler_tracker_push, tracker_init, dst_string_cvs,
    dst_string_cv, undefined_read, recursion_guard_enter, recursion_guard_leave]
  · simp [form_varset_upvalue, error_immutable, compile_varset, compile_assign, Result.funcdefs, compiled, dst_compile, compile_value_succ, compile_value_body,
    compile_nonref_type, compile_literal, compiler_push_scope, bind, pure, Comp.bind, getc, setc,
    form_options_default, compiler_get_target, compiler_get_temp, compiler_tail,
    compiler_get_local, compiler_free_local, compiler_drop_slot, scope_read, scope_write,
    dst_buffer_push_op, dst_buffer_push_u16, dst_buffer_push_i16, dst_buffer_push_i32, int_word,
    DstBuffer.put, DstBuffer.skip, buffer_skip, compiler_return, buffer_count,
    compiler_gen_funcdef, buffer_set_count, compiler_pop_scope, c_error, c_error1,
    DstValue.isNil, compile_form, get_special, name_at, compile_function, form_at,
    compile_function_params, compiler_declare_symbol, equal_cstr, DstValue.asString,
    DstValue.isSymbol, dst_table_put, compile_block, compile_block_loop, compile_symbol,
    symbol_resolve, symbol_resolve_scopes, dst_table_get, dst_equals, DstValue.asInteger,
    compiler_add_literal, nil_slot, compile_symbol_touch, scope_parent, compile_if, compile_do,
    compile_def, compile_while, compile_args, compiler_realize_slot, compiler_coerce_slot,
    compiler_tracker_free, compiler_tracker_free_loop, compiler_tracker_write,
    compiler_tracker_write_loop, compiler_tracker_push, tracker_init, dst_string_cvs,
    dst_string_cv, undefined_read, recursion_guard_enter, recursion_guard_leave]

/-- C13 (immutable assignment error): a form `(varset! s v)` whose symbol `s`
resolves to a local binding (status 1, at any level) without the mutable flag
makes `compile_varset` fail with the string "cannot varset immutable binding";
when the binding has the mutable flag, `compile_varset` raises no error unless
the compilation of `v` does.  So it is for the bindings the compiler makes
without the flag: the assignment to a parameter, to a local declared by `def`,
and to a parameter of the enclosing function fail with that string. -/
theorem immutable_assignment_error (env : DstEnv) (guard : Nat) (hg : 5 ≤ guard) :
    (∀ (cv : FormOptions → DstValue → Comp Slot) (opts : FormOptions) (h v : DstValue)
      (s : String) (c : DstCompiler) (r : Resolution),
      symbol_resolve (.symbol s) c = .ok r c → r.status = 1 →
      (r.flags % 2 = 0 →
        compile_varset cv opts [h, .symbol s, v] c = .error error_immutable) ∧
      (r.flags % 2 = 1 → (∀ o e, cv o v c ≠ .error e) →
        ∀ e, compile_varset cv opts [h, .symbol s, v] c ≠ .error e)) ∧
    dst_compile env form_varset_param guard = .error error_immutable ∧
    dst_compile env form_varset_def guard = .error error_immutable ∧
    dst_compile env form_varset_upvalue guard = .error error_immutable := by
  obtain ⟨g, rfl⟩ : ∃ g, guard = g + 5 := ⟨guard - 5, by omega⟩
  obtain ⟨h1, h2, _⟩ := varset_scenarios env (g + 1)
  obtain ⟨_, _, h3⟩ := varset_scenarios env g
  refine ⟨?_, h1, h2, h3⟩
  intro cv opts h v s c r hres hs
  have e : compile_varset cv opts [h, .symbol s, v] c
      = compile_assign cv opts (.symbol s) v c := by
    unfold compile_varset
    simp [form_at, bind, Comp.bind, pure, DstValue.isSymbol]
  rw [e]
  exact ⟨fun hf => assign_immutable cv opts _ v c r hres hs hf,
    fun hf hcv e => assign_mutable cv opts _ v c r hres hs hf hcv e⟩

theorem integer_two_no_error (o : FormOptions) (e : DstValue) :
    compile_value 10 o (.integer 2) state_mutable_x ≠ .error e := by
  cases hu : o.resultUnused <;> cases hc : o.canChoose <;>
    simp [state_mutable_x, hu, hc, Result.funcdefs, compiled, dst_compile, compile_value_succ, compile_value_body,
    compile_nonref_type, compile_literal, compiler_push_scope, bind, pure, Comp.bind, getc, setc,
    form_options_default, compiler_get_target, compiler_get_temp, compiler_tail,
    compiler_get_local, compiler_free_local, compiler_drop_slot, scope_read, scope_write,
    dst_buffer_push_op, dst_buffer_push_u16, dst_buffer_push_i16, dst_buffer_push_i32, int_word,
    DstBuffer.put, DstBuffer.skip, buffer_skip, compiler_return, buffer_count,
    compiler_gen_funcdef, buffer_set_count, compiler_pop_scope, c_error, c_error1,
    DstValue.isNil, compile_form, get_special, name_at, compile_function, form_at,
    compile_function_params, compiler_declare_symbol, equal_cstr, DstValue.asString,
    DstValue.isSymbol, dst_table_put, compile_block, compile_block_loop, compile_symbol,
    symbol_resolve, symbol_resolve_scopes, dst_table_get, dst_equals, DstValue.asInteger,
    compiler_add_literal, nil_slot, compile_symbol_touch, scope_parent, compile_if, compile_do,
    compile_def, compile_while, compile_args, compiler_realize_slot, compiler_coerce_slot,
    compiler_tracker_free, compiler_tracker_free_loop, compiler_tracker_write,
    compiler_tracker_write_loop, compiler_tracker_push, tracker_init, dst_string_cvs,
    dst_string_cv, undefined_read, recursion_guard_enter, recursion_guard_leave]

theorem immutable_assignment_error_witness :
    5 ≤ 1000 ∧
    symbol_resolve (.symbol "x") state_immutable_x =
      .ok { status := 1, level := 0, index := 0, flags := 0, out := .nil } state_immutable_x ∧
    compile_varset (compile_value 10) form_options_default
      [.symbol "varset!", .symbol "x", .integer 1] state_immutable_x = .error error_immutable ∧
    symbol_resolve (.symbol "x") state_mutable_x =
      .ok { status := 1, level := 0, index := 0, flags := 1, out := .nil } state_mutable_x ∧
    (∀ e, compile_varset (compile_value 10) form_options_default
      [.symbol "varset!", .symbol "x", .integer 2] state_mutable_x ≠ .error e) ∧
    dst_compile env_empty form_varset_param 1000 = .error error_immutable :=
  ⟨by decide, by simp [state_immutable_x, Result.funcdefs, compiled, dst_compile, compile_value_succ, compile_value_body,
    compile_nonref_type, compile_literal, compiler_push_scope, bind, pure, Comp.bind, getc, setc,
    form_options_default, compiler_get_target, compiler_get_temp, compiler_tail,
    compiler_get_local, compiler_free_local, compiler_drop_slot, scope_read, scope_write,
    dst_buffer_push_op, dst_buffer_push_u16, dst_buffer_push_i16, dst_buffer_push_i32, int_word,
    DstBuffer.put, DstBuffer.skip, buffer_skip, compiler_return, buffer_count,
    compiler_gen_funcdef, buffer_set_count, compiler_pop_scope, c_error, c_error1,
    DstValue.isNil, compile_form, get_special, name_at, compile_function, form_at,
    compile_function_params, compiler_declare_symbol, equal_cstr, DstValue.asString,
    DstValue.isSymbol, dst_table_put, compile_block, compile_block_loop, compile_symbol,
    symbol_resolve, symbol_resolve_scopes, dst_table_get, dst_equals, DstValue.asInteger,
    compiler_add_literal, nil_slot, compile_symbol_touch, scope_parent, compile_if, compile_do,
    compile_def, compile_while, compile_args, compiler_realize_slot, compiler_coerce_slot,
    compiler_tracker_free, compiler_tracker_free_loop, compiler_tracker_write,
    compiler_tracker_write_loop, compiler_tracker_push, tracker_init, dst_string_cvs,
    dst_string_cv, undefined_read, recursion_guard_enter, recursion_guard_leave],
   ((immutable_assignment_error env_empty 1000 (by decide)).1 (compile_value 10)
      form_options_default (.symbol "varset!") (.integer 1) "x" state_immutable_x
      { status := 1, level := 0, index := 0, flags := 0, out := .nil }
      (by simp [state_immutable_x, Result.funcdefs, compiled, dst_compile, compile_value_succ, compile_value_body,
    compile_nonref_type, compile_literal, compiler_push_scope, bind, pure, Comp.bind, getc, setc,
    form_options_default, compiler_get_target, compiler_get_temp, compiler_tail,
    compiler_get_local, compiler_free_local, compiler_drop_slot, scope_read, scope_write,
    dst_buffer_push_op, dst_buffer_push_u16, dst_buffer_push_i16, dst_buffer_push_i32, int_word,
    DstBuffer.put, DstBuffer.skip, buffer_skip, compiler_return, buffer_count,
    compiler_gen_funcdef, buffer_set_count, compiler_pop_scope, c_error, c_error1,
    DstValue.isNil, compile_form, get_special, name_at, compile_function, form_at,
    compile_function_params, compiler_declare_symbol, equal_cstr, DstValue.asString,
    DstValue.isSymbol, dst_table_put, compile_block, compile_block_loop, compile_symbol,
    symbol_resolve, symbol_resolve_scopes, dst_table_get, dst_equals, DstValue.asInteger,
    compiler_add_literal, nil_slot, compile_symbol_touch, scope_parent, compile_if, compile_do,
    compile_def, compile_while, compile_args, compiler_realize_slot, compiler_coerce_slot,
    compiler_tracker_free, compiler_tracker_free_loop, compiler_tracker_write,
    compiler_tracker_write_loop, compiler_tracker_push, tracker_init, dst_string_cvs,
    dst_string_cv, undefined_read, recursion_guard_enter, recursion_guard_leave]) rfl).1 rfl,
   by simp [state_mutable_x, Result.funcdefs, compiled, dst_compile, compile_value_succ, compile_value_body,
    compile_nonref_type, compile_literal, compiler_push_scope, bind, pure, Comp.bind, getc, setc,
    form_options_default, compiler_get_target, compiler_get_temp, compiler_tail,
    compiler_get_local, compiler_free_local, compiler_drop_slot, scope_read, scope_write,
    dst_buffer_push_op, dst_buffer_push_u16, dst_buffer_push_i16, dst_buffer_push_i32, int_word,
    DstBuffer.put, DstBuffer.skip, buffer_skip, compiler_return, buffer_count,
    compiler_gen_funcdef, buffer_set_count, compiler_pop_scope, c_error, c_error1,
    DstValue.isNil, compile_form, get_special, name_at, compile_function, form_at,
    compile_function_params, compiler_declare_symbol, equal_cstr, DstValue.asString,
    DstValue.isSymbol, dst_table_put, compile_block, compile_block_loop, compile_symbol,
    symbol_resolve, symbol_resolve_scopes, dst_table_get, dst_equals, DstValue.asInteger,
    compiler_add_literal, nil_slot, compile_symbol_touch, scope_parent, compile_if, compile_do,
    compile_def, compile_while, compile_args, compiler_realize_slot, compiler_coerce_slot,
    compiler_tracker_free, compiler_tracker_free_loop, compiler_tracker_write,
    compiler_tracker_write_loop, compiler_tracker_push, tracker_init, dst_string_cvs,
    dst_string_cv, undefined_read, recursion_guard_enter, recursion_guard_leave],
   ((immutable_assignment_error env_empty 1000 (by decide)).1 (compile_value 10)
      form_options_default (.symbol "varset!") (.integer 2) "x" state_mutable_x
      { status := 1, level := 0, index := 0, flags := 1, out := .nil }
      (by simp [state_mutable_x, Result.funcdefs, compiled, dst_compile, compile_value_succ, compile_value_body,
    compile_nonref_type, compile_literal, compiler_push_scope, bind, pure, Comp.bind, getc, setc,
    form_options_default, compiler_get_target, compiler_get_temp, compiler_tail,
    compiler_get_local, compiler_free_local, compiler_drop_slot, scope_read, scope_write,
    dst_buffer_push_op, dst_buffer_push_u16, dst_buffer_push_i16, dst_buffer_push_i32, int_word,
    DstBuffer.put, DstBuffer.skip, buffer_skip, compiler_return, buffer_count,
    compiler_gen_funcdef, buffer_set_count, compiler_pop_scope, c_error, c_error1,
    DstValue.isNil, compile_form, get_special, name_at, compile_function, form_at,
    compile_function_params, compiler_declare_symbol, equal_cstr, DstValue.asString,
    DstValue.isSymbol, dst_table_put, compile_block, compile_block_loop, compile_symbol,
    symbol_resolve, symbol_resolve_scopes, dst_table_get, dst_equals, DstValue.asInteger,
    compiler_add_literal, nil_slot, compile_symbol_touch, scope_parent, compile_if, compile_do,
    compile_def, compile_while, compile_args, compiler_realize_slot, compiler_coerce_slot,
    compiler_tracker_free, compiler_tracker_free_loop, compiler_tracker_write,
    compiler_tracker_write_loop, compiler_tracker_push, tracker_init, dst_string_cvs,
    dst_string_cv, undefined_read, recursion_guard_enter, recursion_guard_leave]) rfl).2 rfl integer_two_no_error,
   (immutable_assignment_error env_empty 1000 (by decide)).2.1⟩

/-! ## C14: variadic parameters -/

theorem equal_cstr_amp (s : String) : equal_cstr s.data ['&'] = true ↔ s = "&" := by
  constructor
  · intro h
    rcases s with ⟨l⟩
    cases l with
    | nil => simp [equal_cstr] at h
    | cons a l =>
      cases l with
      | nil =>
        simp [equal_cstr] at h
        subst h
        rfl
      | cons b l => simp [equal_cstr] at h
  · rintro rfl
    decide

theorem declare_symbol_ok (sub : Nat) (sym : DstValue) (flags : Nat) (c : DstCompiler)
    (hsym : sym.isSymbol = true) (hsub : sub < c.scopes.length) :
    ∃ t c1, compiler_declare_symbol sub sym flags c = .ok t c1 ∧
      c1.scopes.length = c.scopes.length := by
  unfold compiler_declare_symbol compiler_get_local
  cases hf : (c.scopes[sub]).freeHeap <;>
    simp [hsym, bind, Comp.bind, pure, scope_read, scope_write, hf, c_error,
      List.getElem?_set, hsub] <;>
    exact ⟨_, _, ⟨rfl, rfl⟩, by simp⟩

theorem function_params_loop (sub count : Nat) :
    ∀ (ps : List DstValue) (i : Nat) (varargs : Bool) (arity : Nat) (c : DstCompiler),
      (∀ p ∈ ps, p.isSymbol = true) → sub < c.scopes.length → i + ps.length = count →
      ((∀ j, ps[j]? = some (.symbol "&") → i + j + 1 = count) →
        ∃ r c1, compile_function_params sub count i ps varargs arity c = .ok r c1 ∧
          (.symbol "&" ∈ ps → r = (true, arity - 1)) ∧
          (.symbol "&" ∉ ps → r = (varargs, arity))) ∧
      ((∃ j, ps[j]? = some (.symbol "&") ∧ i + j + 1 ≠ count) →
        compile_function_params sub count i ps varargs arity c = .error error_vararg) := by
  intro ps
  induction ps with
  | nil =>
    intro i varargs arity c _ _ _
    refine ⟨fun _ => ⟨(varargs, arity), c, rfl, by simp, by simp⟩, ?_⟩
    rintro ⟨j, hj, _⟩
    simp at hj
  | cons p rest ih =>
    intro i varargs arity c hsym hsub hcount
    have hcount1 : i + 1 + rest.length = count := by
      simp only [List.length_cons] at hcount
      omega
    have hp : p.isSymbol = true := hsym p (List.mem_cons_self _ _)
    have hrest : ∀ q ∈ rest, q.isSymbol = true := fun q hq => hsym q (List.mem_cons_of_mem _ hq)
    obtain ⟨s, rfl⟩ : ∃ s, p = .symbol s := by
      cases p <;> simp [DstValue.isSymbol] at hp
      exact ⟨_, rfl⟩
    obtain ⟨t, c1, hd, hlen⟩ := declare_symbol_ok sub (.symbol s) 0 c hp hsub
    have hsub1 : sub < c1.scopes.length := hlen ▸ hsub
    by_cases hs : s = "&"
    · subst hs
      have hamp : equal_cstr (DstValue.symbol "&").asString ['&'] = true := by decide
      by_cases hi : i = count - 1
      · have e : compile_function_params sub count i (.symbol "&" :: rest) varargs arity c
            = compile_function_params sub count (i + 1) rest true (arity - 1) c1 := by
          rw [compile_function_params]
          simp [hp, hamp, hi, bind, Comp.bind, pure, hd]
        rw [e]
        obtain ⟨ih1, ih2⟩ := ih (i + 1) true (arity - 1) c1 hrest hsub1 hcount1
        constructor
        · intro hall
          have h0 := hall 0 (by simp)
          have hnot : DstValue.symbol "&" ∉ rest := by
            intro hmem
            obtain ⟨j, hj⟩ := List.getElem?_of_mem hmem
            have := hall (j + 1) (by simpa using hj)
            omega
          obtain ⟨r, c2, hr, _, hr2⟩ := ih1 (fun j hj => by
            have := hall (j + 1) (by simpa using hj)
            omega)
          exact ⟨r, c2, hr, fun _ => hr2 hnot, fun hn => absurd (List.mem_cons_self _ _) hn⟩
        · rintro ⟨j, hj, hne⟩
          cases j with
          | zero => omega
          | succ j =>
            exact ih2 ⟨j, by simpa using hj, by omega⟩
      · have e : compile_function_params sub count i (.symbol "&" :: rest) varargs arity c
            = .error error_vararg := by
          rw [compile_function_params]
          simp [hp, hamp, hi, bind, Comp.bind, c_error, error_vararg]
        rw [e]
        refine ⟨fun hall => ?_, fun _ => rfl⟩
        have := hall 0 (by simp)
        omega
    · have hamp : equal_cstr (DstValue.symbol s).asString ['&'] = false := by
        cases h : equal_cstr (DstValue.symbol s).asString ['&']
        · rfl
        · exact absurd ((equal_cstr_amp s).1 h) hs
      have hne : DstValue.symbol s ≠ DstValue.symbol "&" := fun h => hs (by injection h)
      have e : compile_function_params sub count i (.symbol s :: rest) varargs arity c
          = compile_function_params sub count (i + 1) rest varargs arity c1 := by
        rw [compile_function_params]
        simp [hp, hamp, bind, Comp.bind, pure, hd]
      rw [e]
      obtain ⟨ih1, ih2⟩ := ih (i + 1) varargs arity c1 hrest hsub1 hcount1
      constructor
      · intro hall
        obtain ⟨r, c2, hr, hr1, hr2⟩ := ih1 (fun j hj => by
          have := hall (j + 1) (by simpa using hj)
          omega)
        refine ⟨r, c2, hr, fun hmem => hr1 ?_, fun hn => hr2 fun hmem => hn ?_⟩
        · rcases List.mem_cons.1 hmem with h | h
          · exact absurd h.symm hne
          · exact h
        · exact List.mem_cons_of_mem _ hmem
      · rintro ⟨j, hj, hnej⟩
        cases j with
        | zero =>
          simp at hj
          exact absurd hj hs
        | succ j => exact ih2 ⟨j, by simpa using hj, by omega⟩

/-- The case C15 states differs: the integer -32768 is emitted with `I16` (the
words `I16, 0, 0x8000`), not with `I32`, and the integer -2^31 with `I32` (the
words `I32, 0, 0, 0x8000`), not with `I64`. -/
theorem integer_bounds_inclusive :
    compiled (dst_compile env_empty (.integer (-32768)) 1000) =
      some { byteCode := [.op .I16, .u16 0, .u16 32768, .op .RET, .u16 0]
             literals := [], locals := 1, arity := 0, flags := no_flags } ∧
    compiled (dst_compile env_empty (.integer (-2147483648)) 1000) =
      some { byteCode := [.op .I32, .u16 0, .u16 0, .u16 32768, .op .RET, .u16 0]
             literals := [], locals := 1, arity := 0, flags := no_flags } := by
  constructor <;> simp [no_flags, Result.funcdefs, compiled, dst_compile, compile_value_succ, compile_value_body,
    compile_nonref_type, compile_literal, compiler_push_scope, bind, pure, Comp.bind, getc, setc,
    form_options_default, compiler_get_target, compiler_get_temp, compiler_tail,
    compiler_get_local, compiler_free_local, compiler_drop_slot, scope_read, scope_write,
    dst_buffer_push_op, dst_buffer_push_u16, dst_buffer_push_i16, dst_buffer_push_i32, int_word,
    DstBuffer.put, DstBuffer.skip, buffer_skip, compiler_return, buffer_count,
    compiler_gen_funcdef, buffer_set_count, compiler_pop_scope, c_error, c_error1,
    DstValue.isNil, compile_form, get_special, name_at, compile_function, form_at,
    compile_function_params, compiler_declare_symbol, equal_cstr, DstValue.asString,
    DstValue.isSymbol, dst_table_put, compile_block, compile_block_loop, compile_symbol,
    symbol_resolve, symbol_resolve_scopes, dst_table_get, dst_equals, DstValue.asInteger,
    compiler_add_literal, nil_slot, compile_symbol_touch, scope_parent, compile_if, compile_do,
    compile_def, compile_while, compile_args, compiler_realize_slot, compiler_coerce_slot,
    compiler_tracker_free, compiler_tracker_free_loop, compiler_tracker_write,
    compiler_tracker_write_loop, compiler_tracker_push, tracker_init, dst_string_cvs,
    dst_string_cv, undefined_read, recursion_guard_enter, recursion_guard_leave]

/-- C15 (small-integer instruction selection), with the bounds the code tests:
an integer `v` compiled as a used literal into the slot `dst` that
`compiler_get_target` hands out is emitted as `I16 dst v` (one word of `v`) if
-32768 <= v <= 32767, otherwise as `I32 dst v` (two words) if
-2^31 <= v <= 2^31 - 1, otherwise as `I64 dst v` (four words); the slot
returned is `dst`. -/
theorem small_integer_selection (opts : FormOptions) (v : Int) (c c1 : DstCompiler)
    (dst : Slot) (hu : opts.resultUnused = false)
    (ht : compiler_get_target opts c = .ok dst c1) :
    compile_nonref_type opts (.integer v) c = .ok dst { c1 with buffer :=
      (List.foldl DstBuffer.put c1.buffer
        (if -32768 ≤ v ∧ v ≤ 32767 then
          [.op .I16, .u16 (dst.index % 65536), int_word v 0]
        else if -2147483648 ≤ v ∧ v ≤ 2147483647 then
          [.op .I32, .u16 (dst.index % 65536), int_word v 0, int_word v 1]
        else
          [.op .I64, .u16 (dst.index % 65536), int_word v 0, int_word v 1, int_word v 2,
            int_word v 3])) } := by
  unfold compile_nonref_type
  by_cases h1 : -32768 ≤ v ∧ v ≤ 32767
  · have h1' : v ≤ 32767 ∧ v ≥ -32768 := ⟨h1.2, h1.1⟩
    simp [hu, bind, Comp.bind, pure, ht, h1, h1', dst_buffer_push_op, dst_buffer_push_u16,
      dst_buffer_push_i16]
  · have h1' : ¬ (v ≤ 32767 ∧ v ≥ -32768) := fun h => h1 ⟨h.2, h.1⟩
    by_cases h2 : -2147483648 ≤ v ∧ v ≤ 2147483647
    · have h2' : v ≤ 2147483647 ∧ v ≥ -2147483648 := ⟨h2.2, h2.1⟩
      simp only [hu, bind, Comp.bind, pure, ht, if_neg h1, if_neg h1', if_pos h2, if_pos h2',
        dst_buffer_push_op, dst_buffer_push_u16, dst_buffer_push_i32, List.foldl]
      simp [Comp.bind, ht, dst_buffer_push_op, dst_buffer_push_u16, dst_buffer_push_i32]
    · have h2' : ¬ (v ≤ 2147483647 ∧ v ≥ -2147483648) := fun h => h2 ⟨h.2, h.1⟩
      simp only [hu, bind, Comp.bind, pure, ht, if_neg h1, if_neg h1', if_neg h2, if_neg h2',
        dst_buffer_push_op, dst_buffer_push_u16, dst_buffer_push_i64, List.foldl]
      simp [Comp.bind, ht, dst_buffer_push_op, dst_buffer_push_u16, dst_buffer_push_i64]

theorem small_integer_selection_witness :
    form_options_default.resultUnused = false ∧
    compiler_get_target form_options_default (root_state env_empty 1000) =
      .ok { index := 0, isNil := false, isTemp := true, hasReturned := false }
        { root_state env_empty 1000 with scopes :=
            [{ level := 0, nextLocal := 1, frameSize := 0, freeHeap := [],
               touchParent := false, touchEnv := false,
               literals := 0, literalsArray := 0, locals := [] }] } ∧
    compile_nonref_type form_options_default (.integer (-32768)) (root_state env_empty 1000) =
      .ok { index := 0, isNil := false, isTemp := true, hasReturned := false }
        { root_state env_empty 1000 with
          scopes :=
            [{ level := 0, nextLocal := 1, frameSize := 0, freeHeap := [],
               touchParent := false, touchEnv := false,
               literals := 0, literalsArray := 0, locals := [] }]
          buffer := { data := [.op .I16, .u16 0, .u16 32768], count := 6 } } :=
  ⟨rfl, by simp [root_state, Result.funcdefs, compiled, dst_compile, compile_value_succ, compile_value_body,
    compile_nonref_type, compile_literal, compiler_push_scope, bind, pure, Comp.bind, getc, setc,
    form_options_default, compiler_get_target, compiler_get_temp, compiler_tail,
    compiler_get_local, compiler_free_local, compiler_drop_slot, scope_read, scope_write,
    dst_buffer_push_op, dst_buffer_push_u16, dst_buffer_push_i16, dst_buffer_push_i32, int_word,
    DstBuffer.put, DstBuffer.skip, buffer_skip, compiler_return, buffer_count,
    compiler_gen_funcdef, buffer_set_count, compiler_pop_scope, c_error, c_error1,
    DstValue.isNil, compile_form, get_special, name_at, compile_function, form_at,
    compile_function_params, compiler_declare_symbol, equal_cstr, DstValue.asString,
    DstValue.isSymbol, dst_table_put, compile_block, compile_block_loop, compile_symbol,
    symbol_resolve, symbol_resolve_scopes, dst_table_get, dst_equals, DstValue.asInteger,
    compiler_add_literal, nil_slot, compile_symbol_touch, scope_parent, compile_if, compile_do,
    compile_def, compile_while, compile_args, compiler_realize_slot, compiler_coerce_slot,
    compiler_tracker_free, compiler_tracker_free_loop, compiler_tracker_write,
    compiler_tracker_write_loop, compiler_tracker_push, tracker_init, dst_string_cvs,
    dst_string_cv, undefined_read, recursion_guard_enter, recursion_guard_leave],
   (small_integer_selection form_options_default (-32768) (root_state env_empty 1000)
      { root_state env_empty 1000 with scopes :=
          [{ level := 0, nextLocal := 1, frameSize := 0, freeHeap := [],
             touchParent := false, touchEnv := false,
             literals := 0, literalsArray := 0, locals := [] }] }
      { index := 0, isNil := false, isTemp := true, hasReturned := false } rfl
      (by simp [root_state, Result.funcdefs, compiled, dst_compile, compile_value_succ, compile_value_body,
    compile_nonref_type, compile_literal, compiler_push_scope, bind, pure, Comp.bind, getc, setc,
    form_options_default, compiler_get_target, compiler_get_temp, compiler_tail,
    compiler_get_local, compiler_free_local, compiler_drop_slot, scope_read, scope_write,
    dst_buffer_push_op, dst_buffer_push_u16, dst_buffer_push_i16, dst_buffer_push_i32, int_word,
    DstBuffer.put, DstBuffer.skip, buffer_skip, compiler_return, buffer_count,
    compiler_gen_funcdef, buffer_set_count, compiler_pop_scope, c_error, c_error1,
    DstValue.isNil, compile_form, get_special, name_at, compile_function, form_at,
    compile_function_params, compiler_declare_symbol, equal_cstr, DstValue.asString,
    DstValue.isSymbol, dst_table_put, compile_block, compile_block_loop, compile_symbol,
    symbol_resolve, symbol_resolve_scopes, dst_table_get, dst_equals, DstValue.asInteger,
    compiler_add_literal, nil_slot, compile_symbol_touch, scope_parent, compile_if, compile_do,
    compile_def, compile_while, compile_args, compiler_realize_slot, compiler_coerce_slot,
    compiler_tracker_free, compiler_tracker_free_loop, compiler_tracker_write,
    compiler_tracker_write_loop, compiler_tracker_push, tracker_init, dst_string_cvs,
    dst_string_cv, undefined_read, recursion_guard_enter, recursion_guard_leave])).trans (by simp [root_state, int_word, DstBuffer.put])⟩

/-! ## C16: slot exhaustion -/

/-- C16 fails in the code: in a scope whose free list is empty and whose
`nextLocal` is 0xFFFF, `compiler_get_local` raises no error: it hands out the
index 0xFFFF and `nextLocal` wraps around to 0, so that the next call hands out
the index 0 a second time.  The test `scope->nextLocal + 1 == 0` is evaluated
after the promotion of the 16-bit field, and is never true: no call of
`compiler_get_local` raises an error. -/
theorem get_local_wraps (c : DstCompiler) (s : DstScope) :
    compiler_get_local 0 { c with scopes := [{ s with freeHeap := [], nextLocal := 65535 }] } =
      .ok 65535 { c with scopes := [{ s with freeHeap := [], nextLocal := 0 }] } ∧
    compiler_get_local 0 { c with scopes := [{ s with freeHeap := [], nextLocal := 0 }] } =
      .ok 0 { c with scopes := [{ s with freeHeap := [], nextLocal := 1 }] } ∧
    ∀ (scope : Nat) (c1 : DstCompiler) (e : DstValue), compiler_get_local scope c1 ≠ .error e := by
  refine ⟨?_, ?_, fun scope c1 e => noErr_get_local scope c1 e⟩ <;>
    simp [compiler_get_local, bind, Comp.bind, pure, scope_read, scope_write]

/-! ## C17: root def rewriting

The compiler does not look at the recursion guard outside `compile_value`, so a
run that does not hit the guard is repeated by the run with one more level. -/

theorem guardFree_pure {α : Type} (a : α) : GuardFree (pure a : Comp α) := fun _ => rfl

theorem guardFree_c_error {α : Type} (e : String) : GuardFree (c_error e : Comp α) :=
  fun _ => rfl

theorem guardFree_c_error1 {α : Type} (e : DstValue) : GuardFree (c_error1 e : Comp α) :=
  fun _ => rfl

theorem guardFree_undefined_read {α : Type} : GuardFree (undefined_read : Comp α) :=
  fun _ => rfl

theorem guardFree_bind {α β : Type} {m : Comp α} {f : α → Comp β}
    (hm : GuardFree m) (hf : ∀ a, GuardFree (f a)) : GuardFree (m >>= f) := by
  intro c
  show Comp.bind m f (guard_up c) = Result.guard_up (Comp.bind m f c)
  unfold Comp.bind
  rw [hm c]
  cases m c with
  | ok a c1 => exact hf a c1
  | error e => rfl
  | undefined => rfl

theorem guardFree_compiler_tail : GuardFree compiler_tail := by
  intro c
  unfold compiler_tail
  simp only [guard_up]
  cases c.scopes.length <;> rfl

theorem guardFree_scope_read (scope : Nat) : GuardFree (scope_read scope) := by
  intro c
  unfold scope_read
  simp only [guard_up]
  cases c.scopes.get? scope <;> rfl

theorem guardFree_scope_write (scope : Nat) (s : DstScope) :
    GuardFree (scope_write scope s) := fun _ => rfl

theorem guardFree_scope_parent (scope : Nat) : GuardFree (scope_parent scope) := by
  cases scope
  · exact guardFree_undefined_read
  · exact guardFree_pure _

theorem guardFree_form_at (form : List DstValue) (i : Nat) : GuardFree (form_at form i) := by
  unfold form_at
  split
  · exact guardFree_pure _
  · exact guardFree_undefined_read

theorem guardFree_retag_string (x : DstValue) : GuardFree (retag_string x) := by
  unfold retag_string
  split
  · exact guardFree_pure _
  · exact guardFree_pure _
  · exact guardFree_undefined_read

theorem guardFree_push_op (o : DstOp) : GuardFree (dst_buffer_push_op o) := fun _ => rfl

theorem guardFree_push_u16 (n : Nat) : GuardFree (dst_buffer_push_u16 n) := fun _ => rfl

theorem guardFree_push_i16 (v : Int) : GuardFree (dst_buffer_push_i16 v) := fun _ => rfl

theorem guardFree_push_i32 (v : Int) : GuardFree (dst_buffer_push_i32 v) := fun _ => rfl

theorem guardFree_push_i64 (v : Int) : GuardFree (dst_buffer_push_i64 v) := fun _ => rfl

theorem guardFree_push_real (bits : Nat) : GuardFree (dst_buffer_push_real bits) :=
  fun _ => rfl

theorem guardFree_buffer_count : GuardFree buffer_count := fun _ => rfl

theorem guardFree_set_count (n : Nat) : GuardFree (buffer_set_count n) := fun _ => rfl

theorem guardFree_skip (n : Nat) : GuardFree (buffer_skip n) := fun _ => rfl

theorem guardFree_push_scope (sameFunction : Bool) :
    GuardFree (compiler_push_scope sameFunction) := by
  intro c
  unfold compiler_push_scope
  simp only [guard_up]
  cases sameFunction
  · rfl
  · cases c.scopes.getLast? <;> rfl

theorem guardFree_pop_scope : GuardFree compiler_pop_scope := by
  intro c
  unfold compiler_pop_scope
  simp only [guard_up]
  cases c.scopes.getLast? with
  | none => rfl
  | some last0 =>
    simp only []
    cases c.scopes.dropLast.getLast? <;> rfl

theorem guardFree_add_literal (scope : Nat) (x : DstValue) :
    GuardFree (compiler_add_literal scope x) := by
  intro c
  unfold compiler_add_literal
  simp only [bind, Comp.bind, scope_read, getc, setc, pure, guard_up]
  cases c.scopes.get? scope with
  | none => rfl
  | some s =>
    simp only []
    generalize dst_table_get (c.vm.tables.getD s.literals []) x = d
    cases d <;> rfl

theorem guardFree_symbol_resolve (x : DstValue) : GuardFree (symbol_resolve x) := by
  intro c
  unfold symbol_resolve
  simp only [bind, Comp.bind, compiler_tail, scope_read, getc, pure, guard_up]
  cases c.scopes.length with
  | zero => rfl
  | succ n =>
    simp only []
    cases c.scopes.get? n with
    | none => rfl
    | some s =>
      simp only []
      generalize symbol_resolve_scopes s.level x c.scopes.reverse = r
      cases r with
      | some r => rfl
      | none =>
        simp only []
        repeat' split
        all_goals rfl

theorem guardFree_getc_bind {β : Type} {f : DstCompiler → Comp β}
    (hf : ∀ c0, GuardFree (f c0)) (hc : ∀ c0, f (guard_up c0) = f c0) :
    GuardFree (getc >>= f) := by
  intro c
  show f (guard_up c) (guard_up c) = Result.guard_up (f c c)
  rw [hc]
  exact hf c c

theorem guardFree_gen_funcdef (lastNBytes arity : Nat) (varargs : Bool) :
    GuardFree (compiler_gen_funcdef lastNBytes arity varargs) := by
  unfold compiler_gen_funcdef
  apply guardFree_bind guardFree_compiler_tail
  intro scope
  apply guardFree_getc_bind
  · intro c0
    split
    · exact guardFree_c_error _
    · apply guardFree_bind (guardFree_set_count _)
      intro _
      apply guardFree_bind (guardFree_scope_read _)
      intro s
      apply guardFree_bind guardFree_pop_scope
      intro last c
      rfl
  · intro c0
    rfl

section

attribute [local irreducible] Comp.bind Spec Spec2 GuardFree GuardRel compiler_tail scope_read scope_write scope_parent form_at
  retag_string symbol_resolve compile_symbol_touch compiler_get_local compiler_free_local
  compiler_drop_slot compiler_tracker_free compiler_tracker_write compiler_add_literal
  compiler_declare_symbol compiler_push_scope compiler_pop_scope recursion_guard_enter
  recursion_guard_leave compiler_get_target compiler_get_temp compiler_realize_slot
  compiler_coerce_slot compiler_return dst_buffer_push_op dst_buffer_push_u16
  dst_buffer_push_i16 dst_buffer_push_i32 dst_buffer_push_i64 dst_buffer_push_real
  buffer_count buffer_set_count buffer_skip c_error c_error1 undefined_read getc setc
  compile_nonref_type compile_literal compile_symbol compile_assign compile_varset
  compile_global_var compile_global_def compile_def compile_var compile_block_loop
  compile_block compiler_gen_funcdef compile_function_params compile_function compile_if
  compile_while compile_do compile_quote compile_args compile_apply compile_tran
  compile_elements compile_array compile_table compile_form compile_value_body

theorem guardFree_get_local (scope : Nat) : GuardFree (compiler_get_local scope) := by
  unfold compiler_get_local
  repeat (first
    | apply guardFree_bind
    | intro _
    | exact guardFree_pure _
    | exact guardFree_scope_read _
    | exact guardFree_scope_write _ _
    | split)

theorem guardFree_free_local (scope slot : Nat) : GuardFree (compiler_free_local scope slot) := by
  unfold compiler_free_local
  repeat (first
    | apply guardFree_bind
    | intro _
    | exact guardFree_scope_read _
    | exact guardFree_scope_write _ _)

theorem guardFree_drop_slot (scope : Nat) (slot : Slot) :
    GuardFree (compiler_drop_slot scope slot) := by
  unfold compiler_drop_slot
  repeat (first
    | exact guardFree_pure _
    | exact guardFree_free_local _ _
    | split)

theorem guardFree_return (slot : Slot) : GuardFree (compiler_return slot) := by
  unfold compiler_return
  repeat (first
    | apply guardFree_bind
    | intro _
    | exact guardFree_pure _
    | exact guardFree_push_op _
    | exact guardFree_push_u16 _
    | split)

theorem guardFree_get_temp : GuardFree compiler_get_temp := by
  unfold compiler_get_temp
  repeat (first
    | apply guardFree_bind
    | intro _
    | exact guardFree_pure _
    | exact guardFree_compiler_tail
    | exact guardFree_get_local _)

theorem guardFree_get_target (opts : FormOptions) : GuardFree (compiler_get_target opts) := by
  unfold compiler_get_target
  repeat (first
    | exact guardFree_pure _
    | exact guardFree_get_temp
    | split)

theorem guardFree_realize_slot (slot : Slot) : GuardFree (compiler_realize_slot slot) := by
  unfold compiler_realize_slot
  repeat (first
    | apply guardFree_bind
    | intro _
    | exact guardFree_pure _
    | exact guardFree_push_op _
    | exact guardFree_push_u16 _
    | exact guardFree_get_temp
    | split)

theorem guardFree_coerce_slot (opts : FormOptions) (slot : Slot) :
    GuardFree (compiler_coerce_slot opts slot) := by
  unfold compiler_coerce_slot
  repeat (first
    | apply guardFree_bind
    | intro _
    | exact guardFree_pure _
    | exact guardFree_compiler_tail
    | exact guardFree_push_op _
    | exact guardFree_push_u16 _
    | exact guardFree_drop_slot _ _
    | exact guardFree_realize_slot _
    | split)

theorem guardFree_tracker_write_loop :
    ∀ slots : List Slot, GuardFree (compiler_tracker_write_loop slots)
  | [] => guardFree_pure _
  | s :: rest => by
    unfold compiler_tracker_write_loop
    apply guardFree_bind
    · split
      · exact guardFree_c_error _
      · exact guardFree_push_u16 _
    · intro _
      exact guardFree_tracker_write_loop rest

theorem guardFree_tracker_write (tracker : SlotTracker) (reverse : Bool) :
    GuardFree (compiler_tracker_write tracker reverse) := by
  unfold compiler_tracker_write
  exact guardFree_tracker_write_loop _

theorem guardFree_tracker_free_loop (scope : Nat) :
    ∀ slots : List Slot, GuardFree (compiler_tracker_free_loop scope slots)
  | [] => guardFree_pure _
  | s :: rest => by
    unfold compiler_tracker_free_loop
    apply guardFree_bind (guardFree_drop_slot _ _)
    intro _
    exact guardFree_tracker_free_loop scope rest

theorem guardFree_tracker_free (scope : Nat) (tracker : SlotTracker) :
    GuardFree (compiler_tracker_free scope tracker) := by
  unfold compiler_tracker_free
  exact guardFree_tracker_free_loop _ _

theorem guardFree_declare_symbol (scope : Nat) (sym : DstValue) (flags : Nat) :
    GuardFree (compiler_declare_symbol scope sym flags) := by
  unfold compiler_declare_symbol
  repeat (first
    | apply guardFree_bind
    | intro _
    | exact guardFree_pure _
    | exact guardFree_c_error _
    | exact guardFree_scope_read _
    | exact guardFree_scope_write _ _
    | exact guardFree_get_local _
    | split)

theorem guardFree_nonref_type (opts : FormOptions) (x : DstValue) :
    GuardFree (compile_nonref_type opts x) := by
  unfold compile_nonref_type
  repeat (first
    | apply guardFree_bind
    | intro _
    | exact guardFree_pure _
    | exact guardFree_c_error _
    | exact guardFree_push_op _
    | exact guardFree_push_u16 _
    | exact guardFree_push_i16 _
    | exact guardFree_push_i32 _
    | exact guardFree_push_i64 _
    | exact guardFree_push_real _
    | exact guardFree_get_target _
    | split)

theorem guardFree_literal (opts : FormOptions) (x : DstValue) :
    GuardFree (compile_literal opts x) := by
  unfold compile_literal
  repeat (first
    | apply guardFree_bind
    | intro _
    | exact guardFree_pure _
    | exact guardFree_compiler_tail
    | exact guardFree_push_op _
    | exact guardFree_push_u16 _
    | exact guardFree_add_literal _ _
    | exact guardFree_get_target _
    | exact guardFree_nonref_type _ _
    | split)

theorem guardFree_symbol_touch : ∀ (i scope : Nat), GuardFree (compile_symbol_touch i scope)
  | 0, _ => by
    unfold compile_symbol_touch
    exact guardFree_pure _
  | 1, _ => by
    unfold compile_symbol_touch
    exact guardFree_pure _
  | i + 2, scope => by
    unfold compile_symbol_touch
    apply guardFree_bind (guardFree_scope_read _)
    intro s
    apply guardFree_bind (guardFree_scope_write _ _)
    intro _
    apply guardFree_bind (guardFree_scope_parent _)
    intro parent
    exact guardFree_symbol_touch (i + 1) parent

theorem guardFree_function_params (subDstScope count : Nat) :
    ∀ (i : Nat) (params : List DstValue) (varargs : Bool) (arity : Nat),
      GuardFree (compile_function_params subDstScope count i params varargs arity)
  | _, [], _, _ => by
    unfold compile_function_params
    exact guardFree_pure _
  | i, param :: rest, varargs, arity => by
    unfold compile_function_params
    split
    · exact guardFree_c_error _
    · apply guardFree_bind
      · split
        · split
          · exact guardFree_c_error _
          · exact guardFree_pure _
        · exact guardFree_pure _
      · intro va
        apply guardFree_bind (guardFree_declare_symbol _ _ _)
        intro _
        exact guardFree_function_params subDstScope count (i + 1) rest _ _

theorem guardFree_quote (opts : FormOptions) (form : List DstValue) :
    GuardFree (compile_quote opts form) := by
  unfold compile_quote
  repeat (first
    | apply guardFree_bind
    | intro _
    | exact guardFree_pure _
    | exact guardFree_c_error _
    | exact guardFree_compiler_tail
    | exact guardFree_form_at _ _
    | exact guardFree_push_op _
    | exact guardFree_push_u16 _
    | exact guardFree_add_literal _ _
    | exact guardFree_get_target _
    | exact guardFree_nonref_type _ _
    | split)

end

theorem guardRel_of_free {α : Type} {m : Comp α} (h : GuardFree m) : GuardRel m m :=
  fun c _ => h c

theorem guardRel_bind {α β : Type} {m m' : Comp α} {f f' : α → Comp β}
    (hm : GuardRel m m') (hf : ∀ a, GuardRel (f a) (f' a)) :
    GuardRel (m >>= f) (m' >>= f') := by
  intro c h
  have h' : Comp.bind m f c ≠ .error error_too_deep := h
  show Comp.bind m' f' (guard_up c) = Result.guard_up (Comp.bind m f c)
  unfold Comp.bind at h' ⊢
  cases hmc : m c with
  | ok a c1 =>
    rw [hmc] at h'
    rw [hm c (by rw [hmc]; exact fun h => Result.noConfusion h), hmc]
    exact hf a c1 h'
  | error e =>
    rw [hmc] at h'
    rw [hm c (by rw [hmc]; simpa using h'), hmc]
    rfl
  | undefined =>
    rw [hm c (by rw [hmc]; exact fun h => Result.noConfusion h), hmc]
    rfl

section

attribute [local irreducible] Comp.bind Spec Spec2 GuardFree GuardRel compiler_tail scope_read scope_write scope_parent form_at
  retag_string symbol_resolve compile_symbol_touch compiler_get_local compiler_free_local
  compiler_drop_slot compiler_tracker_free compiler_tracker_write compiler_add_literal
  compiler_declare_symbol compiler_push_scope compiler_pop_scope recursion_guard_enter
  recursion_guard_leave compiler_get_target compiler_get_temp compiler_realize_slot
  compiler_coerce_slot compiler_return dst_buffer_push_op dst_buffer_push_u16
  dst_buffer_push_i16 dst_buffer_push_i32 dst_buffer_push_i64 dst_buffer_push_real
  buffer_count buffer_set_count buffer_skip c_error c_error1 undefined_read getc setc
  compile_nonref_type compile_literal compile_symbol compile_assign compile_varset
  compile_global_var compile_global_def compile_def compile_var compile_block_loop
  compile_block compiler_gen_funcdef compile_function_params compile_function compile_if
  compile_while compile_do compile_quote compile_args compile_apply compile_tran
  compile_elements compile_array compile_table compile_form compile_value_body

theorem guardRel_symbol (cv cv' : FormOptions → DstValue → Comp Slot)
    (hcv : ∀ o x, GuardRel (cv o x) (cv' o x)) (opts : FormOptions) (sym : DstValue) :
    GuardRel (compile_symbol cv opts sym) (compile_symbol cv' opts sym) := by
  unfold compile_symbol
  repeat (first
    | apply guardRel_bind
    | intro _
    | exact hcv _ _
    | exact guardRel_of_free (guardFree_pure _)
    | exact guardRel_of_free (guardFree_c_error1 _)
    | exact guardRel_of_free (guardFree_compiler_tail)
    | exact guardRel_of_free (guardFree_scope_read _)
    | exact guardRel_of_free (guardFree_scope_write _ _)
    | exact guardRel_of_free (guardFree_push_op _)
    | exact guardRel_of_free (guardFree_push_u16 _)
    | exact guardRel_of_free (guardFree_symbol_resolve _)
    | exact guardRel_of_free (guardFree_get_target _)
    | exact guardRel_of_free (guardFree_literal _ _)
    | exact guardRel_of_free (guardFree_symbol_touch _ _)
    | split)

theorem guardRel_assign (cv cv' : FormOptions → DstValue → Comp Slot)
    (hcv : ∀ o x, GuardRel (cv o x) (cv' o x)) (opts : FormOptions) (left right : DstValue) :
    GuardRel (compile_assign cv opts left right) (compile_assign cv' opts left right) := by
  unfold compile_assign
  repeat (first
    | apply guardRel_bind
    | intro _
    | exact hcv _ _
    | exact guardRel_of_free (guardFree_pure _)
    | exact guardRel_of_free (guardFree_c_error _)
    | exact guardRel_of_free (guardFree_compiler_tail)
    | exact guardRel_of_free (guardFree_push_op _)
    | exact guardRel_of_free (guardFree_push_u16 _)
    | exact guardRel_of_free (guardFree_symbol_resolve _)
    | exact guardRel_of_free (guardFree_drop_slot _ _)
    | exact guardRel_of_free (guardFree_realize_slot _)
    | split)

theorem guardRel_varset (cv cv' : FormOptions → DstValue → Comp Slot)
    (hcv : ∀ o x, GuardRel (cv o x) (cv' o x)) (opts : FormOptions) (form : List DstValue) :
    GuardRel (compile_varset cv opts form) (compile_varset cv' opts form) := by
  unfold compile_varset
  split
  · exact guardRel_of_free (guardFree_c_error _)
  · apply guardRel_bind (guardRel_of_free (guardFree_form_at _ _))
    intro f1
    split
    · exact guardRel_of_free (guardFree_c_error _)
    · apply guardRel_bind (guardRel_of_free (guardFree_form_at _ _))
      intro f2
      exact guardRel_assign cv cv' hcv _ _ _

theorem guardRel_global_var (cv cv' : FormOptions → DstValue → Comp Slot)
    (hcv : ∀ o x, GuardRel (cv o x) (cv' o x)) (opts : FormOptions) (form : List DstValue) :
    GuardRel (compile_global_var cv opts form) (compile_global_var cv' opts form) := by
  unfold compile_global_var
  repeat (first
    | apply guardRel_bind
    | intro _
    | exact hcv _ _
    | exact guardRel_of_free (guardFree_form_at _ _)
    | exact guardRel_of_free (guardFree_retag_string _))

theorem guardRel_global_def (cv cv' : FormOptions → DstValue → Comp Slot)
    (hcv : ∀ o x, GuardRel (cv o x) (cv' o x)) (opts : FormOptions) (form : List DstValue) :
    GuardRel (compile_global_def cv opts form) (compile_global_def cv' opts form) := by
  unfold compile_global_def
  repeat (first
    | apply guardRel_bind
    | intro _
    | exact hcv _ _
    | exact guardRel_of_free (guardFree_form_at _ _)
    | exact guardRel_of_free (guardFree_retag_string _))

theorem guardRel_def (cv cv' : FormOptions → DstValue → Comp Slot)
    (hcv : ∀ o x, GuardRel (cv o x) (cv' o x)) (opts : FormOptions) (form : List DstValue) :
    GuardRel (compile_def cv opts form) (compile_def cv' opts form) := by
  unfold compile_def
  apply guardRel_bind (guardRel_of_free guardFree_compiler_tail)
  intro scope
  split
  · exact guardRel_of_free (guardFree_c_error _)
  · apply guardRel_bind (guardRel_of_free (guardFree_form_at _ _))
    intro f1
    split
    · exact guardRel_of_free (guardFree_c_error _)
    · split
      · repeat (first
    | apply guardRel_bind
    | intro _
    | exact hcv _ _
    | exact guardRel_of_free (guardFree_form_at _ _)
    | exact guardRel_of_free (guardFree_coerce_slot _ _)
    | exact guardRel_of_free (guardFree_declare_symbol _ _ _))
      · exact guardRel_global_def cv cv' hcv _ _

theorem guardRel_var (cv cv' : FormOptions → DstValue → Comp Slot)
    (hcv : ∀ o x, GuardRel (cv o x) (cv' o x)) (opts : FormOptions) (form : List DstValue) :
    GuardRel (compile_var cv opts form) (compile_var cv' opts form) := by
  unfold compile_var
  apply guardRel_bind (guardRel_of_free guardFree_compiler_tail)
  intro scope
  split
  · exact guardRel_of_free (guardFree_c_error _)
  · apply guardRel_bind (guardRel_of_free (guardFree_form_at _ _))
    intro f1
    split
    · exact guardRel_of_free (guardFree_c_error _)
    · split
      · repeat (first
    | apply guardRel_bind
    | intro _
    | exact hcv _ _
    | exact guardRel_of_free (guardFree_form_at _ _)
    | exact guardRel_of_free (guardFree_coerce_slot _ _)
    | exact guardRel_of_free (guardFree_declare_symbol _ _ _))
      · exact guardRel_global_var cv cv' hcv _ _

theorem guardRel_block_loop {cv cv' : FormOptions → DstValue → Comp Slot}
    (hcv : ∀ o x, GuardRel (cv o x) (cv' o x)) (scope : Nat) (subOpts : FormOptions) :
    ∀ xs : List DstValue, GuardRel (compile_block_loop cv scope subOpts xs)
      (compile_block_loop cv' scope subOpts xs)
  | [] => by
    unfold compile_block_loop
    exact guardRel_of_free (guardFree_pure _)
  | x :: rest => by
    unfold compile_block_loop
    apply guardRel_bind (hcv _ _)
    intro slot
    apply guardRel_bind (guardRel_of_free (guardFree_drop_slot _ _))
    intro _
    exact guardRel_block_loop hcv scope subOpts rest

theorem guardRel_args {cv cv' : FormOptions → DstValue → Comp Slot}
    (hcv : ∀ o x, GuardRel (cv o x) (cv' o x)) (subOpts : FormOptions) :
    ∀ (xs : List DstValue) (tracker : SlotTracker),
      GuardRel (compile_args cv subOpts xs tracker) (compile_args cv' subOpts xs tracker)
  | [], _ => by
    unfold compile_args
    exact guardRel_of_free (guardFree_pure _)
  | x :: rest, tracker => by
    unfold compile_args
    apply guardRel_bind (hcv _ _)
    intro slot
    exact guardRel_args hcv subOpts rest _

theorem guardRel_elements {cv cv' : FormOptions → DstValue → Comp Slot}
    (hcv : ∀ o x, GuardRel (cv o x) (cv' o x)) (subOpts : FormOptions) :
    ∀ (xs : List DstValue) (tracker : SlotTracker),
      GuardRel (compile_elements cv subOpts xs tracker)
        (compile_elements cv' subOpts xs tracker)
  | [], _ => by
    unfold compile_elements
    exact guardRel_of_free (guardFree_pure _)
  | x :: rest, tracker => by
    unfold compile_elements
    apply guardRel_bind (hcv _ _)
    intro slot0
    apply guardRel_bind (guardRel_of_free (guardFree_realize_slot _))
    intro slot
    exact guardRel_elements hcv subOpts rest _

theorem guardRel_block (cv cv' : FormOptions → DstValue → Comp Slot)
    (hcv : ∀ o x, GuardRel (cv o x) (cv' o x)) (opts : FormOptions) (form : List DstValue)
    (startIndex : Nat) :
    GuardRel (compile_block cv opts form startIndex) (compile_block cv' opts form startIndex) := by
  unfold compile_block
  apply guardRel_bind (guardRel_of_free guardFree_compiler_tail)
  intro scope
  split
  · exact guardRel_of_free (guardFree_pure _)
  · apply guardRel_bind (guardRel_block_loop hcv _ _ _)
    intro _
    repeat (first
    | apply guardRel_bind
    | intro _
    | exact hcv _ _
    | exact guardRel_of_free (guardFree_form_at _ _))

end

section

attribute [local irreducible] Comp.bind Spec Spec2 GuardFree GuardRel compiler_tail scope_read scope_write scope_parent form_at
  retag_string symbol_resolve compile_symbol_touch compiler_get_local compiler_free_local
  compiler_drop_slot compiler_tracker_free compiler_tracker_write compiler_add_literal
  compiler_declare_symbol compiler_push_scope compiler_pop_scope recursion_guard_enter
  recursion_guard_leave compiler_get_target compiler_get_temp compiler_realize_slot
  compiler_coerce_slot compiler_return dst_buffer_push_op dst_buffer_push_u16
  dst_buffer_push_i16 dst_buffer_push_i32 dst_buffer_push_i64 dst_buffer_push_real
  buffer_count buffer_set_count buffer_skip c_error c_error1 undefined_read getc setc
  compile_nonref_type compile_literal compile_symbol compile_assign compile_varset
  compile_global_var compile_global_def compile_def compile_var compile_block_loop
  compile_block compiler_gen_funcdef compile_function_params compile_function compile_if
  compile_while compile_do compile_quote compile_args compile_apply compile_tran
  compile_elements compile_array compile_table compile_form compile_value_body

theorem guardRel_function (cv cv' : FormOptions → DstValue → Comp Slot)
    (hcv : ∀ o x, GuardRel (cv o x) (cv' o x)) (opts : FormOptions) (form : List DstValue) :
    GuardRel (compile_function cv opts form) (compile_function cv' opts form) := by
  unfold compile_function
  repeat (first
    | apply guardRel_bind
    | intro _
    | exact guardRel_of_free (guardFree_pure _)
    | exact guardRel_of_free (guardFree_c_error _)
    | exact guardRel_of_free (guardFree_compiler_tail)
    | exact guardRel_of_free (guardFree_form_at _ _)
    | exact guardRel_of_free (guardFree_push_op _)
    | exact guardRel_of_free (guardFree_push_u16 _)
    | exact guardRel_of_free (guardFree_buffer_count)
    | exact guardRel_of_free (guardFree_push_scope _)
    | exact guardRel_of_free (guardFree_add_literal _ _)
    | exact guardRel_of_free (guardFree_return _)
    | exact guardRel_of_free (guardFree_get_target _)
    | exact guardRel_of_free (guardFree_gen_funcdef _ _ _)
    | exact guardRel_of_free (guardFree_function_params _ _ _ _ _ _)
    | exact guardRel_block _ _ hcv _ _ _
    | split)

set_option maxHeartbeats 4000000 in
theorem guardRel_if (cv cv' : FormOptions → DstValue → Comp Slot)
    (hcv : ∀ o x, GuardRel (cv o x) (cv' o x)) (opts : FormOptions) (form : List DstValue) :
    GuardRel (compile_if cv opts form) (compile_if cv' opts form) := by
  unfold compile_if
  repeat (first
    | apply guardRel_bind
    | intro _
    | exact hcv _ _
    | exact guardRel_of_free (guardFree_pure _)
    | exact guardRel_of_free (guardFree_c_error _)
    | exact guardRel_of_free (guardFree_compiler_tail)
    | exact guardRel_of_free (guardFree_form_at _ _)
    | exact guardRel_of_free (guardFree_push_op _)
    | exact guardRel_of_free (guardFree_push_u16 _)
    | exact guardRel_of_free (guardFree_push_i32 _)
    | exact guardRel_of_free (guardFree_buffer_count)
    | exact guardRel_of_free (guardFree_set_count _)
    | exact guardRel_of_free (guardFree_skip _)
    | exact guardRel_of_free (guardFree_drop_slot _ _)
    | exact guardRel_of_free (guardFree_return _)
    | split)

theorem guardRel_while (cv cv' : FormOptions → DstValue → Comp Slot)
    (hcv : ∀ o x, GuardRel (cv o x) (cv' o x)) (opts : FormOptions) (form : List DstValue) :
    GuardRel (compile_while cv opts form) (compile_while cv' opts form) := by
  unfold compile_while
  repeat (first
    | apply guardRel_bind
    | intro _
    | exact hcv _ _
    | exact guardRel_of_free (guardFree_pure _)
    | exact guardRel_of_free (guardFree_compiler_tail)
    | exact guardRel_of_free (guardFree_form_at _ _)
    | exact guardRel_of_free (guardFree_push_op _)
    | exact guardRel_of_free (guardFree_push_u16 _)
    | exact guardRel_of_free (guardFree_push_i32 _)
    | exact guardRel_of_free (guardFree_buffer_count)
    | exact guardRel_of_free (guardFree_set_count _)
    | exact guardRel_of_free (guardFree_skip _)
    | exact guardRel_of_free (guardFree_push_scope _)
    | exact guardRel_of_free (guardFree_pop_scope)
    | exact guardRel_of_free (guardFree_drop_slot _ _)
    | exact guardRel_block _ _ hcv _ _ _
    | split)

theorem guardRel_do (cv cv' : FormOptions → DstValue → Comp Slot)
    (hcv : ∀ o x, GuardRel (cv o x) (cv' o x)) (opts : FormOptions) (form : List DstValue) :
    GuardRel (compile_do cv opts form) (compile_do cv' opts form) := by
  unfold compile_do
  repeat (first
    | apply guardRel_bind
    | intro _
    | exact guardRel_of_free (guardFree_pure _)
    | exact guardRel_of_free (guardFree_push_scope _)
    | exact guardRel_of_free (guardFree_pop_scope)
    | exact guardRel_block _ _ hcv _ _ _)

theorem guardRel_apply (cv cv' : FormOptions → DstValue → Comp Slot)
    (hcv : ∀ o x, GuardRel (cv o x) (cv' o x)) (opts : FormOptions) (form : List DstValue) :
    GuardRel (compile_apply cv opts form) (compile_apply cv' opts form) := by
  unfold compile_apply
  repeat (first
    | apply guardRel_bind
    | intro _
    | exact hcv _ _
    | exact guardRel_of_free (guardFree_pure _)
    | exact guardRel_of_free (guardFree_c_error _)
    | exact guardRel_of_free (guardFree_compiler_tail)
    | exact guardRel_of_free (guardFree_form_at _ _)
    | exact guardRel_of_free (guardFree_push_op _)
    | exact guardRel_of_free (guardFree_push_u16 _)
    | exact guardRel_of_free (guardFree_drop_slot _ _)
    | exact guardRel_of_free (guardFree_get_target _)
    | exact guardRel_of_free (guardFree_realize_slot _)
    | exact guardRel_of_free (guardFree_tracker_write _ _)
    | exact guardRel_of_free (guardFree_tracker_free _ _)
    | exact guardRel_args hcv _ _ _
    | split)

theorem guardRel_tran (cv cv' : FormOptions → DstValue → Comp Slot)
    (hcv : ∀ o x, GuardRel (cv o x) (cv' o x)) (opts : FormOptions) (form : List DstValue) :
    GuardRel (compile_tran cv opts form) (compile_tran cv' opts form) := by
  unfold compile_tran
  repeat (first
    | apply guardRel_bind
    | intro _
    | exact hcv _ _
    | exact guardRel_of_free (guardFree_pure _)
    | exact guardRel_of_free (guardFree_c_error _)
    | exact guardRel_of_free (guardFree_form_at _ _)
    | exact guardRel_of_free (guardFree_push_op _)
    | exact guardRel_of_free (guardFree_push_u16 _)
    | exact guardRel_of_free (guardFree_get_target _)
    | exact guardRel_of_free (guardFree_realize_slot _)
    | split)

theorem guardRel_array (cv cv' : FormOptions → DstValue → Comp Slot)
    (hcv : ∀ o x, GuardRel (cv o x) (cv' o x)) (opts : FormOptions) (array : List DstValue) :
    GuardRel (compile_array cv opts array) (compile_array cv' opts array) := by
  unfold compile_array
  repeat (first
    | apply guardRel_bind
    | intro _
    | exact guardRel_of_free (guardFree_pure _)
    | exact guardRel_of_free (guardFree_compiler_tail)
    | exact guardRel_of_free (guardFree_push_op _)
    | exact guardRel_of_free (guardFree_push_u16 _)
    | exact guardRel_of_free (guardFree_get_target _)
    | exact guardRel_of_free (guardFree_tracker_write _ _)
    | exact guardRel_of_free (guardFree_tracker_free _ _)
    | exact guardRel_elements hcv _ _ _)

theorem guardRel_table (cv cv' : FormOptions → DstValue → Comp Slot)
    (hcv : ∀ o x, GuardRel (cv o x) (cv' o x)) (opts : FormOptions) (tab : List DstValue) :
    GuardRel (compile_table cv opts tab) (compile_table cv' opts tab) := by
  unfold compile_table
  repeat (first
    | apply guardRel_bind
    | intro _
    | exact guardRel_of_free (guardFree_pure _)
    | exact guardRel_of_free (guardFree_compiler_tail)
    | exact guardRel_of_free (guardFree_push_op _)
    | exact guardRel_of_free (guardFree_push_u16 _)
    | exact guardRel_of_free (guardFree_get_target _)
    | exact guardRel_of_free (guardFree_tracker_write _ _)
    | exact guardRel_of_free (guardFree_tracker_free _ _)
    | exact guardRel_elements hcv _ _ _)

theorem guardRel_form (cv cv' : FormOptions → DstValue → Comp Slot)
    (hcv : ∀ o x, GuardRel (cv o x) (cv' o x)) (opts : FormOptions) (form : List DstValue) :
    GuardRel (compile_form cv opts form) (compile_form cv' opts form) := by
  unfold compile_form
  repeat (first
    | apply guardRel_bind
    | intro _
    | exact hcv _ _
    | exact guardRel_of_free (guardFree_pure _)
    | exact guardRel_of_free (guardFree_compiler_tail)
    | exact guardRel_of_free (guardFree_form_at _ _)
    | exact guardRel_of_free (guardFree_push_op _)
    | exact guardRel_of_free (guardFree_push_u16 _)
    | exact guardRel_of_free (guardFree_drop_slot _ _)
    | exact guardRel_of_free (guardFree_get_target _)
    | exact guardRel_of_free (guardFree_realize_slot _)
    | exact guardRel_of_free (guardFree_tracker_write _ _)
    | exact guardRel_of_free (guardFree_tracker_free _ _)
    | exact guardRel_of_free (guardFree_nonref_type _ _)
    | exact guardRel_of_free (guardFree_quote _ _)
    | exact guardRel_varset _ _ hcv _ _
    | exact guardRel_def _ _ hcv _ _
    | exact guardRel_var _ _ hcv _ _
    | exact guardRel_function _ _ hcv _ _
    | exact guardRel_if _ _ hcv _ _
    | exact guardRel_while _ _ hcv _ _
    | exact guardRel_do _ _ hcv _ _
    | exact guardRel_apply _ _ hcv _ _
    | exact guardRel_tran _ _ hcv _ _
    | exact guardRel_args hcv _ _ _
    | split)

end

theorem guardRel_value_inner (cv cv' : FormOptions → DstValue → Comp Slot)
    (hcv : ∀ o x, GuardRel (cv o x) (cv' o x)) (opts : FormOptions) (x : DstValue) :
    GuardRel (do
      let ret ← (
        match x with
        | .nil | .boolean _ | .real _ | .integer _ => compile_nonref_type opts x
        | .symbol _ => compile_symbol cv opts x
        | .tuple form => compile_form cv opts form
        | .array array => compile_array cv opts array
        | .table tab => compile_table cv opts tab
        | _ => compile_literal opts x)
      recursion_guard_leave
      pure ret)
    (do
      let ret ← (
        match x with
        | .nil | .boolean _ | .real _ | .integer _ => compile_nonref_type opts x
        | .symbol _ => compile_symbol cv' opts x
        | .tuple form => compile_form cv' opts form
        | .array array => compile_array cv' opts array
        | .table tab => compile_table cv' opts tab
        | _ => compile_literal opts x)
      recursion_guard_leave
      pure ret) := by
  apply guardRel_bind
  · split
    · exact guardRel_of_free (guardFree_nonref_type _ _)
    · exact guardRel_of_free (guardFree_nonref_type _ _)
    · exact guardRel_of_free (guardFree_nonref_type _ _)
    · exact guardRel_of_free (guardFree_nonref_type _ _)
    · exact guardRel_symbol _ _ hcv _ _
    · exact guardRel_form _ _ hcv _ _
    · exact guardRel_array _ _ hcv _ _
    · exact guardRel_table _ _ hcv _ _
    · exact guardRel_of_free (guardFree_literal _ _)
  · intro ret
    apply guardRel_bind
    · exact guardRel_of_free (fun _ => rfl)
    · intro _
      exact guardRel_of_free (guardFree_pure _)

theorem guardRel_value_body (cv cv' : FormOptions → DstValue → Comp Slot)
    (hcv : ∀ o x, GuardRel (cv o x) (cv' o x)) (opts : FormOptions) (x : DstValue) :
    GuardRel (compile_value_body cv opts x) (compile_value_body cv' opts x) := by
  intro c h
  have hin := guardRel_value_inner cv cv' hcv opts x
    { c with recursionGuard := c.recursionGuard - 1 }
  unfold compile_value_body at h ⊢
  simp only [bind, Comp.bind, recursion_guard_enter, guard_up, Nat.add_sub_cancel] at h hin ⊢
  by_cases hg : c.recursionGuard - 1 = 0
  · simp [hg, c_error, error_too_deep] at h
  · have hg1 : c.recursionGuard ≠ 0 := fun h0 => hg (by rw [h0])
    have hg2 : c.recursionGuard - 1 + 1 = c.recursionGuard := by omega
    simp only [beq_iff_eq, hg, hg1, if_false] at h ⊢
    rw [hg2] at hin
    exact hin h

theorem guardRel_value : ∀ (n : Nat) (opts : FormOptions) (x : DstValue),
    GuardRel (compile_value n opts x) (compile_value (n + 1) opts x)
  | 0, _, _ => fun c h => absurd rfl h
  | n + 1, opts, x => by
    rw [show compile_value (n + 2) = compile_value_body (compile_value (n + 1)) from rfl,
      show compile_value (n + 1) = compile_value_body (compile_value n) from rfl]
    exact guardRel_value_body _ _ (guardRel_value n) opts x

theorem root_rewrite_value (n : Nat) (opts : FormOptions) (s : String) (v : DstValue)
    (c : DstCompiler) (hc : c.scopes.length = 1) :
    (compile_value n opts (.tuple [.symbol "def", .symbol s, v]) c ≠ .error error_too_deep →
      compile_value n opts (.tuple [.symbol "def", .symbol s, v]) c =
        compile_value n opts (spec_def_form s v) c) ∧
    (compile_value n opts (.tuple [.symbol "var", .symbol s, v]) c ≠ .error error_too_deep →
      compile_value n opts (.tuple [.symbol "var", .symbol s, v]) c =
        compile_value n opts (spec_var_form s v) c) := by
  cases n with
  | zero => exact ⟨fun h => absurd rfl h, fun h => absurd rfl h⟩
  | succ n =>
    have hd : compile_value (n + 1) opts (.tuple [.symbol "def", .symbol s, v]) c =
        (if c.recursionGuard - 1 = 0 then .error error_too_deep else
          match compile_value n opts (spec_def_form s v)
            { c with recursionGuard := c.recursionGuard - 1 } with
          | .ok r c1 => .ok r { c1 with recursionGuard := c1.recursionGuard + 1 }
          | .error e => .error e
          | .undefined => .undefined) := by
      rw [show compile_value (n + 1) = compile_value_body (compile_value n) from rfl]
      by_cases hg : c.recursionGuard - 1 = 0 <;>
      simp [compile_value_body, compile_form, get_special, name_at, compile_def,
        compile_global_def, form_at, retag_string, compiler_tail, hc, hg, bind, Comp.bind, pure,
        recursion_guard_enter, recursion_guard_leave, c_error, error_too_deep, dst_string_cvs,
        spec_def_form, DstValue.isSymbol, DstValue.asString]
      cases compile_value n opts (.tuple [.symbol "global-def", .string s, v])
        { c with recursionGuard := c.recursionGuard - 1 } <;> rfl
    have hv : compile_value (n + 1) opts (.tuple [.symbol "var", .symbol s, v]) c =
        (if c.recursionGuard - 1 = 0 then .error error_too_deep else
          match compile_value n opts (spec_var_form s v)
            { c with recursionGuard := c.recursionGuard - 1 } with
          | .ok r c1 => .ok r { c1 with recursionGuard := c1.recursionGuard + 1 }
          | .error e => .error e
          | .undefined => .undefined) := by
      rw [show compile_value (n + 1) = compile_value_body (compile_value n) from rfl]
      by_cases hg : c.recursionGuard - 1 = 0 <;>
      simp [compile_value_body, compile_form, get_special, name_at, compile_var,
        compile_global_var, form_at, retag_string, compiler_tail, hc, hg, bind, Comp.bind, pure,
        recursion_guard_enter, recursion_guard_leave, c_error, error_too_deep, dst_string_cvs,
        spec_var_form, DstValue.isSymbol, DstValue.asString]
      cases compile_value n opts (.tuple [.symbol "global-var", .string s, v])
        { c with recursionGuard := c.recursionGuard - 1 } <;> rfl
    have key : ∀ x : DstValue, c.recursionGuard - 1 ≠ 0 →
        (match compile_value n opts x { c with recursionGuard := c.recursionGuard - 1 } with
          | .ok r c1 => Result.ok r { c1 with recursionGuard := c1.recursionGuard + 1 }
          | .error e => .error e
          | .undefined => .undefined) ≠ .error error_too_deep →
        (match compile_value n opts x { c with recursionGuard := c.recursionGuard - 1 } with
          | .ok r c1 => Result.ok r { c1 with recursionGuard := c1.recursionGuard + 1 }
          | .error e => .error e
          | .undefined => .undefined) = compile_value (n + 1) opts x c := by
      intro x hg h
      have hm := guardRel_value n opts x { c with recursionGuard := c.recursionGuard - 1 }
        (by
          intro he
          rw [he] at h
          exact h rfl)
      have hc1 : guard_up { c with recursionGuard := c.recursionGuard - 1 } = c := by
        unfold guard_up
        simp only []
        rw [show c.recursionGuard - 1 + 1 = c.recursionGuard by omega]
      rw [hc1] at hm
      rw [hm]
      cases compile_value n opts x { c with recursionGuard := c.recursionGuard - 1 } <;> rfl
    constructor
    · intro h
      rw [hd] at h ⊢
      by_cases hg : c.recursionGuard - 1 = 0
      · rw [if_pos hg] at h
        exact absurd rfl h
      · rw [if_neg hg] at h ⊢
        exact key _ hg h
    · intro h
      rw [hv] at h ⊢
      by_cases hg : c.recursionGuard - 1 = 0
      · rw [if_pos hg] at h
        exact absurd rfl h
      · rw [if_neg hg] at h ⊢
        exact key _ hg h

theorem dst_compile_post (env : DstEnv) (guard : Nat) :
    ∃ post : Result Slot → Result DstFunction,
      post (.error error_too_deep) = .error error_too_deep ∧
      ∀ form, dst_compile env form guard =
        post (compile_value guard { form_options_default with isTail := true } form
          (root_state env guard)) := by
  refine ⟨fun r =>
    match (Comp.bind (fun _ => r) (fun slot => (do
      let _ ← compiler_return slot
      let count ← buffer_count
      let d ← compiler_gen_funcdef count 0 false
      pure { funcdef := d, parent := none, envValues := none, envStackOffset := 0,
             envThread := none } : Comp DstFunction))) (root_state env guard) with
    | .ok f c1 => .ok f c1
    | .error e => if e.isNil then .error (dst_string_cv "unknown error") else .error e
    | .undefined => .undefined, rfl, ?_⟩
  intro form
  rfl

/-- C17 (root def rewriting): for every symbol `s`, value form `v`,
environment and recursion guard, unless the compilation of the top-level form
`(def s v)` hits the recursion guard, `dst_compile` gives for it exactly the
result it gives for the top-level tuple `(global-def S v)`, where `S` is the
String with the bytes of `s`: the same function, FuncDefs and final state, or
the same error.  Likewise for `(var s v)` and `(global-var S v)`. -/
theorem root_def_rewriting (env : DstEnv) (s : String) (v : DstValue) (guard : Nat) :
    (dst_compile env (.tuple [.symbol "def", .symbol s, v]) guard ≠ .error error_too_deep →
      dst_compile env (.tuple [.symbol "def", .symbol s, v]) guard =
        dst_compile env (spec_def_form s v) guard) ∧
    (dst_compile env (.tuple [.symbol "var", .symbol s, v]) guard ≠ .error error_too_deep →
      dst_compile env (.tuple [.symbol "var", .symbol s, v]) guard =
        dst_compile env (spec_var_form s v) guard) := by
  obtain ⟨post, hpost, hp⟩ := dst_compile_post env guard
  obtain ⟨h1, h2⟩ := root_rewrite_value guard { form_options_default with isTail := true } s v
    (root_state env guard) rfl
  constructor
  · intro h
    rw [hp] at h ⊢
    rw [hp, h1 (fun he => h (by rw [he, hpost]))]
  · intro h
    rw [hp] at h ⊢
    rw [hp, h2 (fun he => h (by rw [he, hpost]))]

set_option maxHeartbeats 4000000 in
theorem form_def_x_compiles :
    ∃ f c, dst_compile env_S3 form_def_x 1000 = .ok f c ∧
      compiled (Result.ok f c) =
        some { byteCode := [.op .CST, .u16 0, .u16 0, .op .CST, .u16 1, .u16 1,
                            .op .I16, .u16 2, .u16 1, .op .PSK, .u16 2, .u16 1, .u16 2,
                            .op .TCL, .u16 0]
               literals := [.cfunction 2, .string "x"]
               locals := 3, arity := 0, flags := no_flags } := by
  dsimp [form_def_x, env_S3, no_flags, compile_global_def, retag_string, env_mutable, quote, drop_succ_nil, take_succ_nil, get_special_apply, get_special_do, get_special_def,
    get_special_if, get_special_fn, get_special_quote, get_special_tran, get_special_var,
    get_special_varset, get_special_while, get_special_plus, get_special_global_def,
    get_special_global_var, Result.funcdefs, compiled, dst_compile, compile_value_succ, compile_value_body,
    compile_nonref_type, compile_literal, compiler_push_scope, bind, pure, Comp.bind, getc, setc,
    form_options_default, compiler_get_target, compiler_get_temp, compiler_tail,
    compiler_get_local, compiler_free_local, compiler_drop_slot, scope_read, scope_write,
    dst_buffer_push_op, dst_buffer_push_u16, dst_buffer_push_i16, dst_buffer_push_i32, int_word,
    DstBuffer.put, DstBuffer.skip, buffer_skip, compiler_return, buffer_count,
    compiler_gen_funcdef, buffer_set_count, compiler_pop_scope, c_error, c_error1,
    DstValue.isNil, compile_form, compile_function, form_at,
    compile_function_params, compiler_declare_symbol, equal_cstr, DstValue.asString,
    DstValue.isSymbol, dst_table_put, compile_block, compile_block_loop, compile_symbol,
    symbol_resolve, symbol_resolve_scopes, dst_table_get, dst_equals, DstValue.asInteger,
    compiler_add_literal, nil_slot, compile_symbol_touch, scope_parent, compile_if, compile_do,
    compile_def, compile_while, compile_args, compiler_realize_slot, compiler_coerce_slot,
    compiler_tracker_free, compiler_tracker_free_loop, compiler_tracker_write,
    compiler_tracker_write_loop, compiler_tracker_push, tracker_init, dst_string_cvs,
    dst_string_cv, undefined_read, recursion_guard_enter, recursion_guard_leave]
  exact ⟨_, _, rfl, by simp [compiled]⟩

theorem form_def_x_no_error :
    dst_compile env_S3 form_def_x 1000 ≠ .error error_too_deep := by
  obtain ⟨f, c, h, _⟩ := form_def_x_compiles
  rw [h]
  intro he
  cases he

theorem root_def_rewriting_witness :
    dst_compile env_S3 form_def_x 1000 ≠ .error error_too_deep ∧
    dst_compile env_S3 form_def_x 1000 =
      dst_compile env_S3 (spec_def_form "x" (.integer 1)) 1000 ∧
    compiled (dst_compile env_S3 form_def_x 1000) =
      some { byteCode := [.op .CST, .u16 0, .u16 0, .op .CST, .u16 1, .u16 1,
                          .op .I16, .u16 2, .u16 1, .op .PSK, .u16 2, .u16 1, .u16 2,
                          .op .TCL, .u16 0]
             literals := [.cfunction 2, .string "x"]
             locals := 3, arity := 0, flags := no_flags } :=
  ⟨form_def_x_no_error,
   (root_def_rewriting env_S3 "x" (.integer 1) 1000).1 form_def_x_no_error,
   by obtain ⟨f, c, h, hc⟩ := form_def_x_compiles
      rw [h]
      exact hc⟩

/-! ## C18: quote preserves its argument

The invariant of the indices of the literal pools, and its preservation by the
steps of the compiler. -/

theorem PoolIdx_empty : PoolIdx [] [] := by
  intro _ y hy
  simp [dst_table_get] at hy

theorem PoolIdx_add {t : DstTable} {a : List DstValue} {x : DstValue}
    (h : PoolIdx t a) (hx : x ≠ .nil) :
    PoolIdx (dst_table_put t x (.integer (Int.ofNat (a.length % 65536)))) (a ++ [x]) := by
  intro hlen y hy
  rw [List.length_append, List.length_singleton] at hlen
  rw [dst_table_get_put t x _ y hx] at hy ⊢
  cases hxy : dst_equals x y
  · simp only [hxy, Bool.false_eq_true, if_false] at hy ⊢
    obtain ⟨j, hj, haj⟩ := h (by omega) y hy
    refine ⟨j, hj, ?_⟩
    have hjl : j < a.length := by
      rcases Nat.lt_or_ge j a.length with h1 | h1
      · exact h1
      · rw [List.getElem?_eq_none h1] at haj
        cases haj
    rw [List.getElem?_append_left hjl]
    exact haj
  · have he : x = y := (dst_equals_iff x y).1 hxy
    subst he
    simp only [if_true]
    refine ⟨a.length, ?_, by simp⟩
    rw [Nat.mod_eq_of_lt (by omega)]

theorem IdxInv_init (env : DstEnv) (guard : Nat) :
    IdxInv { vm := { funcdefs := [], tables := [], arrays := [] }, scopes := [],
             buffer := { data := [], count := 0 }, env := env, recursionGuard := guard } := by
  refine ⟨rfl, ?_, ?_⟩
  · intro s hs; cases hs
  · intro i; simpa using PoolIdx_empty

theorem IdxInv_set_scope {c : DstCompiler} (p : Nat) (s : DstScope)
    (h : IdxInv c) (hs : s.literals = s.literalsArray ∧ s.literalsArray < c.vm.arrays.length) :
    IdxInv { c with scopes := c.scopes.set p s } := by
  obtain ⟨h1, h2, h3⟩ := h
  refine ⟨h1, ?_, h3⟩
  intro s1 hs1
  rcases List.mem_or_eq_of_mem_set hs1 with h5 | h5
  · exact h2 s1 h5
  · rw [h5]; exact hs

theorem IdxInv_of_get {c : DstCompiler} {p : Nat} {s : DstScope}
    (h : IdxInv c) (hs : c.scopes.get? p = some s) :
    s.literals = s.literalsArray ∧ s.literalsArray < c.vm.arrays.length :=
  h.2.1 s (List.get?_mem hs)

theorem idx_pres_push_op (o : DstOp) : Pres IdxInv (dst_buffer_push_op o) :=
  fun _ hc => hc

theorem idx_pres_push_u16 (n : Nat) : Pres IdxInv (dst_buffer_push_u16 n) :=
  fun _ hc => hc

theorem idx_pres_push_i16 (v : Int) : Pres IdxInv (dst_buffer_push_i16 v) :=
  fun _ hc => hc

theorem idx_pres_push_i32 (v : Int) : Pres IdxInv (dst_buffer_push_i32 v) :=
  fun _ hc => hc

theorem idx_pres_push_i64 (v : Int) : Pres IdxInv (dst_buffer_push_i64 v) :=
  fun _ hc => hc

theorem idx_pres_push_real (bits : Nat) : Pres IdxInv (dst_buffer_push_real bits) :=
  fun _ hc => hc

theorem idx_pres_set_count (n : Nat) : Pres IdxInv (buffer_set_count n) :=
  fun _ hc => hc

theorem idx_pres_skip (n : Nat) : Pres IdxInv (buffer_skip n) :=
  fun _ hc => hc

theorem idx_pres_guard_enter : Pres IdxInv recursion_guard_enter :=
  fun _ hc => hc

theorem idx_pres_guard_leave : Pres IdxInv recursion_guard_leave :=
  fun _ hc => hc

theorem idx_pres_push_scope (sameFunction : Bool) :
    Pres IdxInv (compiler_push_scope sameFunction) := by
  intro c hc
  obtain ⟨h1, h2, h3⟩ := hc
  unfold wp compiler_push_scope
  cases sameFunction
  · simp only [Bool.false_eq_true, if_false]
    refine ⟨by simp [h1], ?_, ?_⟩
    · intro s hs
      rw [List.mem_append, List.mem_singleton] at hs
      rcases hs with hs | hs
      · refine ⟨(h2 s hs).1, ?_⟩
        have := (h2 s hs).2
        simp only [List.length_append, List.length_singleton]
        omega
      · rw [hs]
        exact ⟨h1, by simp⟩
    · intro i
      by_cases hi : i < c.vm.tables.length
      · have hi2 : i < c.vm.arrays.length := h1 ▸ hi
        have := h3 i
        simpa [List.getD_eq_getElem?_getD, List.getElem?_append_left, hi, hi2] using this
      · by_cases hi3 : i = c.vm.tables.length
        · have hi4 : i = c.vm.arrays.length := h1 ▸ hi3
          have e1 : (c.vm.tables ++ [[]]).getD i [] = [] := by
            rw [hi3]; simp [List.getD_eq_getElem?_getD]
          have e2 : (c.vm.arrays ++ [[]]).getD i [] = [] := by
            rw [hi4]; simp [List.getD_eq_getElem?_getD]
          show PoolIdx ((c.vm.tables ++ [[]]).getD i []) ((c.vm.arrays ++ [[]]).getD i [])
          rw [e1, e2]
          exact PoolIdx_empty
        · have e1 : (c.vm.tables ++ [[]]).getD i [] = [] := by
            rw [List.getD_eq_getElem?_getD, List.getElem?_eq_none]
            · rfl
            · simp; omega
          have e2 : (c.vm.arrays ++ [[]]).getD i [] = [] := by
            rw [List.getD_eq_getElem?_getD, List.getElem?_eq_none]
            · rfl
            · simp; omega
          show PoolIdx ((c.vm.tables ++ [[]]).getD i []) ((c.vm.arrays ++ [[]]).getD i [])
          rw [e1, e2]
          exact PoolIdx_empty
  · simp only [if_true]
    cases hl : c.scopes.getLast? with
    | none => trivial
    | some t =>
      refine ⟨h1, ?_, h3⟩
      intro s hs
      rw [List.mem_append, List.mem_singleton] at hs
      rcases hs with hs | hs
      · exact h2 s hs
      · rw [hs]
        exact h2 t (List.mem_of_getLast?_eq_some hl)

theorem idx_pres_pop_scope : Pres IdxInv compiler_pop_scope := by
  intro c hc
  obtain ⟨h1, h2, h3⟩ := hc
  have hdl : ∀ s ∈ c.scopes.dropLast,
      s.literals = s.literalsArray ∧ s.literalsArray < c.vm.arrays.length :=
    fun s hs => h2 s (List.dropLast_subset _ hs)
  unfold wp compiler_pop_scope
  cases hl : c.scopes.getLast? with
  | none => trivial
  | some last0 =>
    simp only []
    cases hl2 : c.scopes.dropLast.getLast? with
    | none => exact ⟨h1, hdl, h3⟩
    | some t =>
      refine ⟨h1, ?_, h3⟩
      intro s hs
      rcases List.mem_or_eq_of_mem_set hs with h5 | h5
      · exact hdl s h5
      · have ht := hdl t (List.mem_of_getLast?_eq_some hl2)
        rw [h5]
        by_cases hfs : (if last0.nextLocal > last0.frameSize
            then { last0 with frameSize := last0.nextLocal } else last0).frameSize > t.frameSize
        · rw [if_pos hfs]; exact ht
        · rw [if_neg hfs]; exact ht

theorem idx_pres_get_local (scope : Nat) : Pres IdxInv (compiler_get_local scope) := by
  intro c hc
  unfold compiler_get_local
  rw [wp_bind]
  refine wp_intro ?_
  intro s c1 hs
  unfold scope_read at hs
  split at hs
  · next s0 hget =>
    cases hs
    have hlit := IdxInv_of_get hc hget
    split
    · split
      · trivial
      · exact IdxInv_set_scope scope _ hc hlit
    · exact IdxInv_set_scope scope _ hc hlit
  · cases hs

theorem idx_pres_free_local (scope slot : Nat) :
    Pres IdxInv (compiler_free_local scope slot) := by
  intro c hc
  unfold compiler_free_local
  rw [wp_bind]
  refine wp_intro ?_
  intro s c1 hs
  unfold scope_read at hs
  split at hs
  · next s0 hget =>
    cases hs
    have hlit := IdxInv_of_get hc hget
    exact IdxInv_set_scope scope _ hc hlit
  · cases hs

theorem idx_pres_drop_slot (scope : Nat) (slot : Slot) :
    Pres IdxInv (compiler_drop_slot scope slot) := by
  unfold compiler_drop_slot
  split
  · exact idx_pres_free_local _ _
  · exact pres_pure _ _

theorem idx_pres_add_literal (scope : Nat) (x : DstValue) (hx : x ≠ .nil) :
    Pres IdxInv (compiler_add_literal scope x) := by
  intro c hc
  unfold compiler_add_literal
  rw [wp_bind]
  refine wp_intro ?_
  intro s c1 hs
  unfold scope_read at hs
  split at hs
  · next s0 hget =>
    cases hs
    have hlit := (IdxInv_of_get hc hget).1
    rw [wp_bind, wp_getc]
    obtain ⟨h1, h2, h3⟩ := hc
    simp only []
    split
    · next hnil =>
      rw [wp_bind, wp_setc, wp_pure]
      refine ⟨by simp [h1], ?_, ?_⟩
      · intro s1 hs1
        refine ⟨(h2 s1 hs1).1, ?_⟩
        have := (h2 s1 hs1).2
        simpa using this
      · intro i
        show PoolIdx ((c.vm.tables.set s.literals _).getD i [])
          ((c.vm.arrays.set s.literalsArray _).getD i [])
        rw [List.getD_set_eq_ite, List.getD_set_eq_ite, ← hlit, ← h1]
        split
        · next hcond =>
          refine PoolIdx_add ?_ hx
          have := h3 s.literals
          rw [hlit] at this ⊢
          exact this
        · exact h3 i
    · exact ⟨h1, h2, h3⟩
    · exact ⟨h1, h2, h3⟩
  · cases hs

theorem idx_pres_declare_symbol (scope : Nat) (sym : DstValue) (flags : Nat) :
    Pres IdxInv (compiler_declare_symbol scope sym flags) := by
  unfold compiler_declare_symbol
  apply pres_ite (pres_c_error _ _)
  apply pres_bind (idx_pres_get_local _)
  intro target c hc
  simp only []
  rw [wp_bind]
  refine wp_intro ?_
  intro s c1 hs
  unfold scope_read at hs
  split at hs
  · next s0 hget =>
    cases hs
    rw [wp_bind]
    have hlit := IdxInv_of_get hc hget
    exact IdxInv_set_scope scope _ hc hlit
  · cases hs

theorem idx_pres_gen_funcdef (lastNBytes arity : Nat) (varargs : Bool) :
    Pres IdxInv (compiler_gen_funcdef lastNBytes arity varargs) := by
  unfold compiler_gen_funcdef
  apply pres_bind (pres_compiler_tail _)
  intro scope c hc
  rw [wp_bind, wp_getc]
  split
  · trivial
  · rw [wp_bind]
    show wp (scope_read scope >>= _) _ _
    rw [wp_bind]
    refine wp_intro ?_
    intro s c1 hs
    unfold scope_read at hs
    split at hs
    · next s0 hget =>
      cases hs
      rw [wp_bind]
      have hc2 : IdxInv { c with buffer := { c.buffer with count := c.buffer.count - lastNBytes } } := hc
      refine wp_mono _ _ _ _ ?_ (idx_pres_pop_scope _ hc2)
      intro last c2 hc3
      rw [wp_bind, wp_getc, wp_bind, wp_setc, wp_pure]
      exact hc3
    · cases hs

/-! ## The compiler preserves the invariant of the indices -/

section

attribute [local irreducible] Pres Comp.bind Spec Spec2 GuardFree GuardRel compiler_tail scope_read scope_write scope_parent form_at
  retag_string symbol_resolve compile_symbol_touch compiler_get_local compiler_free_local
  compiler_drop_slot compiler_tracker_free compiler_tracker_write compiler_add_literal
  compiler_declare_symbol compiler_push_scope compiler_pop_scope recursion_guard_enter
  recursion_guard_leave compiler_get_target compiler_get_temp compiler_realize_slot
  compiler_coerce_slot compiler_return dst_buffer_push_op dst_buffer_push_u16
  dst_buffer_push_i16 dst_buffer_push_i32 dst_buffer_push_i64 dst_buffer_push_real
  buffer_count buffer_set_count buffer_skip c_error c_error1 undefined_read getc setc
  compile_nonref_type compile_literal compile_symbol compile_assign compile_varset
  compile_global_var compile_global_def compile_def compile_var compile_block_loop
  compile_block compiler_gen_funcdef compile_function_params compile_function compile_if
  compile_while compile_do compile_quote compile_args compile_apply compile_tran
  compile_elements compile_array compile_table compile_form compile_value_body

theorem idx_pres_return (slot : Slot) : Pres IdxInv (compiler_return slot) := by
  unfold compiler_return
  repeat (first
    | apply pres_bind
    | apply pres_ite
    | intro _
    | exact pres_pure _ _
    | exact idx_pres_push_op _
    | exact idx_pres_push_u16 _)

theorem idx_pres_get_temp : Pres IdxInv compiler_get_temp := by
  unfold compiler_get_temp
  repeat (first
    | apply pres_bind
    | intro _
    | exact pres_pure _ _
    | exact pres_compiler_tail _
    | exact idx_pres_get_local _)

theorem idx_pres_get_target (opts : FormOptions) : Pres IdxInv (compiler_get_target opts) := by
  unfold compiler_get_target
  split
  · exact idx_pres_get_temp
  · exact pres_pure _ _

theorem idx_pres_realize_slot (slot : Slot) : Pres IdxInv (compiler_realize_slot slot) := by
  unfold compiler_realize_slot
  split
  · apply pres_bind idx_pres_get_temp
    intro _
    repeat (first
    | apply pres_bind
    | intro _
    | exact pres_pure _ _
    | exact idx_pres_push_op _
    | exact idx_pres_push_u16 _)
  · exact pres_pure _ _

theorem idx_pres_coerce_slot (opts : FormOptions) (slot : Slot) :
    Pres IdxInv (compiler_coerce_slot opts slot) := by
  unfold compiler_coerce_slot
  apply pres_bind (pres_compiler_tail _)
  intro _
  apply pres_ite
  · repeat (first
    | apply pres_bind
    | intro _
    | exact pres_pure _ _
    | exact idx_pres_drop_slot _ _)
  · apply pres_bind (idx_pres_realize_slot _)
    intro _
    repeat (first
    | apply pres_bind
    | apply pres_ite
    | intro _
    | exact pres_pure _ _
    | exact idx_pres_push_op _
    | exact idx_pres_push_u16 _)

theorem idx_pres_tracker_write_loop :
    ∀ slots : List Slot, Pres IdxInv (compiler_tracker_write_loop slots)
  | [] => pres_pure _ _
  | s :: rest => by
    unfold compiler_tracker_write_loop
    apply pres_bind
    · repeat (first
    | apply pres_ite
    | exact pres_c_error _ _
    | exact idx_pres_push_u16 _)
    · intro _
      exact idx_pres_tracker_write_loop rest

end

theorem idx_pres_tracker_write (tracker : SlotTracker) (reverse : Bool) :
    Pres IdxInv (compiler_tracker_write tracker reverse) :=
  idx_pres_tracker_write_loop _

section

attribute [local irreducible] Pres Comp.bind Spec Spec2 GuardFree GuardRel compiler_tail scope_read scope_write scope_parent form_at
  retag_string symbol_resolve compile_symbol_touch compiler_get_local compiler_free_local
  compiler_drop_slot compiler_tracker_free compiler_tracker_write compiler_add_literal
  compiler_declare_symbol compiler_push_scope compiler_pop_scope recursion_guard_enter
  recursion_guard_leave compiler_get_target compiler_get_temp compiler_realize_slot
  compiler_coerce_slot compiler_return dst_buffer_push_op dst_buffer_push_u16
  dst_buffer_push_i16 dst_buffer_push_i32 dst_buffer_push_i64 dst_buffer_push_real
  buffer_count buffer_set_count buffer_skip c_error c_error1 undefined_read getc setc
  compile_nonref_type compile_literal compile_symbol compile_assign compile_varset
  compile_global_var compile_global_def compile_def compile_var compile_block_loop
  compile_block compiler_gen_funcdef compile_function_params compile_function compile_if
  compile_while compile_do compile_quote compile_args compile_apply compile_tran
  compile_elements compile_array compile_table compile_form compile_value_body

theorem idx_pres_tracker_free_loop (scope : Nat) :
    ∀ slots : List Slot, Pres IdxInv (compiler_tracker_free_loop scope slots)
  | [] => pres_pure _ _
  | s :: rest => by
    unfold compiler_tracker_free_loop
    apply pres_bind (idx_pres_drop_slot _ _)
    intro _
    exact idx_pres_tracker_free_loop scope rest

end

theorem idx_pres_tracker_free (scope : Nat) (tracker : SlotTracker) :
    Pres IdxInv (compiler_tracker_free scope tracker) :=
  idx_pres_tracker_free_loop _ _

section

attribute [local irreducible] Pres Comp.bind Spec Spec2 GuardFree GuardRel compiler_tail scope_read scope_write scope_parent form_at
  retag_string symbol_resolve compile_symbol_touch compiler_get_local compiler_free_local
  compiler_drop_slot compiler_tracker_free compiler_tracker_write compiler_add_literal
  compiler_declare_symbol compiler_push_scope compiler_pop_scope recursion_guard_enter
  recursion_guard_leave compiler_get_target compiler_get_temp compiler_realize_slot
  compiler_coerce_slot compiler_return dst_buffer_push_op dst_buffer_push_u16
  dst_buffer_push_i16 dst_buffer_push_i32 dst_buffer_push_i64 dst_buffer_push_real
  buffer_count buffer_set_count buffer_skip c_error c_error1 undefined_read getc setc
  compile_nonref_type compile_literal compile_symbol compile_assign compile_varset
  compile_global_var compile_global_def compile_def compile_var compile_block_loop
  compile_block compiler_gen_funcdef compile_function_params compile_function compile_if
  compile_while compile_do compile_quote compile_args compile_apply compile_tran
  compile_elements compile_array compile_table compile_form compile_value_body

theorem idx_pres_nonref_type (opts : FormOptions) (x : DstValue) :
    Pres IdxInv (compile_nonref_type opts x) := by
  unfold compile_nonref_type
  apply pres_ite (pres_pure _ _)
  apply pres_bind (idx_pres_get_target _)
  intro _
  repeat (first
    | apply pres_bind
    | apply pres_ite
    | intro _
    | exact pres_pure _ _
    | exact pres_c_error _ _
    | exact idx_pres_push_op _
    | exact idx_pres_push_u16 _
    | exact idx_pres_push_i16 _
    | exact idx_pres_push_i32 _
    | exact idx_pres_push_i64 _
    | exact idx_pres_push_real _
    | split)

theorem idx_pres_literal (opts : FormOptions) (x : DstValue) :
    Pres IdxInv (compile_literal opts x) := by
  unfold compile_literal
  apply pres_bind (pres_compiler_tail _)
  intro scope
  apply pres_ite (pres_pure _ _)
  cases x <;> simp only [] <;>
    first
    | exact idx_pres_nonref_type _ _
    | (apply pres_bind (idx_pres_get_target _)
       intro _
       apply pres_bind (idx_pres_add_literal _ _ (by simp))
       intro _
       repeat (first
    | apply pres_bind
    | intro _
    | exact pres_pure _ _
    | exact idx_pres_push_op _
    | exact idx_pres_push_u16 _))

end

theorem idx_pres_symbol_touch :
    ∀ (i scope : Nat), Pres IdxInv (compile_symbol_touch i scope)
  | 0, _ => pres_pure _ _
  | 1, _ => pres_pure _ _
  | i + 2, scope => by
    unfold compile_symbol_touch
    intro c hc
    rw [wp_bind]
    refine wp_intro ?_
    intro s c1 hs
    unfold scope_read at hs
    split at hs
    · next s0 hget =>
      cases hs
      rw [wp_bind]
      have hlit := IdxInv_of_get hc hget
      have hc2 := IdxInv_set_scope scope { s with touchParent := true } hc hlit
      show wp (scope_parent scope >>= _) _ _
      exact pres_bind (pres_scope_parent _ _) (fun p => idx_pres_symbol_touch (i + 1) p) _ hc2
    · cases hs

theorem idx_pres_symbol_resolve (x : DstValue) : Pres IdxInv (symbol_resolve x) := by
  unfold symbol_resolve
  apply pres_bind (pres_compiler_tail _)
  intro _
  apply pres_bind (pres_scope_read _ _)
  intro _ c hc
  rw [wp_bind, wp_getc]
  split
  · exact hc
  · simp only []
    split
    · split <;> exact hc
    · split <;> exact hc

theorem idx_pres_symbol (cv : FormOptions → DstValue → Comp Slot)
    (hcv : ∀ o x, Pres IdxInv (cv o x)) (opts : FormOptions) (sym : DstValue) :
    Pres IdxInv (compile_symbol cv opts sym) := by
  unfold compile_symbol
  apply pres_bind (idx_pres_symbol_resolve _)
  intro r
  apply pres_ite (pres_c_error1 _ _)
  apply pres_ite (pres_pure _ _)
  apply pres_ite (idx_pres_literal _ _)
  apply pres_ite (hcv _ _)
  apply pres_ite
  · apply pres_bind (pres_compiler_tail _)
    intro _
    apply pres_bind (idx_pres_symbol_touch _ _)
    intro scope c hc
    rw [wp_bind, wp_scope_read]
    intro s hget
    rw [wp_bind, wp_scope_write]
    have hlit := IdxInv_of_get hc hget
    have hc2 := IdxInv_set_scope scope { s with touchEnv := true } hc hlit
    have : Pres IdxInv (compiler_get_target opts >>= fun ret =>
        dst_buffer_push_op .UPV >>= fun _ => dst_buffer_push_u16 ret.index >>= fun _ =>
        dst_buffer_push_u16 r.level >>= fun _ => dst_buffer_push_u16 r.index >>= fun _ =>
        pure ret) := by
      apply pres_bind (idx_pres_get_target _)
      intro _
      repeat (first
    | exact pres_buffer_count _)
    exact this _ hc2
  · repeat (first
    | exact pres_pure _ _
    | exact pres_buffer_count _
    | apply pres_ite)

section

attribute [local irreducible] Pres Comp.bind Spec Spec2 GuardFree GuardRel compiler_tail scope_read scope_write scope_parent form_at
  retag_string symbol_resolve compile_symbol_touch compiler_get_local compiler_free_local
  compiler_drop_slot compiler_tracker_free compiler_tracker_write compiler_add_literal
  compiler_declare_symbol compiler_push_scope compiler_pop_scope recursion_guard_enter
  recursion_guard_leave compiler_get_target compiler_get_temp compiler_realize_slot
  compiler_coerce_slot compiler_return dst_buffer_push_op dst_buffer_push_u16
  dst_buffer_push_i16 dst_buffer_push_i32 dst_buffer_push_i64 dst_buffer_push_real
  buffer_count buffer_set_count buffer_skip c_error c_error1 undefined_read getc setc
  compile_nonref_type compile_literal compile_symbol compile_assign compile_varset
  compile_global_var compile_global_def compile_def compile_var compile_block_loop
  compile_block compiler_gen_funcdef compile_function_params compile_function compile_if
  compile_while compile_do compile_quote compile_args compile_apply compile_tran
  compile_elements compile_array compile_table compile_form compile_value_body

theorem idx_pres_assign (cv : FormOptions → DstValue → Comp Slot)
    (hcv : ∀ o x, Pres IdxInv (cv o x)) (opts : FormOptions) (left right : DstValue) :
    Pres IdxInv (compile_assign cv opts left right) := by
  unfold compile_assign
  apply pres_bind (pres_compiler_tail _)
  intro _
  apply pres_bind (idx_pres_symbol_resolve _)
  intro r
  apply pres_ite
  · apply pres_ite (pres_c_error _ _)
    apply pres_bind
    · apply pres_ite
      · apply pres_bind (hcv _ _)
        intro _
        apply pres_bind (idx_pres_realize_slot _)
        intro _
        repeat (first
    | apply pres_bind
    | intro _
    | exact pres_pure _ _
    | exact idx_pres_push_op _
    | exact idx_pres_push_u16 _)
      · exact hcv _ _
    · intro _
      repeat (first
    | apply pres_bind
    | apply pres_ite
    | intro _
    | exact pres_pure _ _
    | exact idx_pres_drop_slot _ _)
  · apply pres_ite
    · apply pres_bind (hcv _ _)
      intro _
      exact hcv _ _
    · exact pres_c_error _ _

theorem idx_pres_varset (cv : FormOptions → DstValue → Comp Slot)
    (hcv : ∀ o x, Pres IdxInv (cv o x)) (opts : FormOptions) (form : List DstValue) :
    Pres IdxInv (compile_varset cv opts form) := by
  unfold compile_varset
  apply pres_ite (pres_c_error _ _)
  apply pres_bind (pres_form_at _ _ _)
  intro _
  apply pres_ite (pres_c_error _ _)
  apply pres_bind (pres_form_at _ _ _)
  intro _
  exact idx_pres_assign cv hcv _ _ _

theorem idx_pres_global_var (cv : FormOptions → DstValue → Comp Slot)
    (hcv : ∀ o x, Pres IdxInv (cv o x)) (opts : FormOptions) (form : List DstValue) :
    Pres IdxInv (compile_global_var cv opts form) := by
  unfold compile_global_var
  apply pres_bind (pres_form_at _ _ _)
  intro _
  apply pres_bind (pres_retag_string _ _)
  intro _
  apply pres_bind (pres_form_at _ _ _)
  intro _
  exact hcv _ _

theorem idx_pres_global_def (cv : FormOptions → DstValue → Comp Slot)
    (hcv : ∀ o x, Pres IdxInv (cv o x)) (opts : FormOptions) (form : List DstValue) :
    Pres IdxInv (compile_global_def cv opts form) := by
  unfold compile_global_def
  apply pres_bind (pres_form_at _ _ _)
  intro _
  apply pres_bind (pres_retag_string _ _)
  intro _
  apply pres_bind (pres_form_at _ _ _)
  intro _
  exact hcv _ _

theorem idx_pres_def (cv : FormOptions → DstValue → Comp Slot)
    (hcv : ∀ o x, Pres IdxInv (cv o x)) (opts : FormOptions) (form : List DstValue) :
    Pres IdxInv (compile_def cv opts form) := by
  unfold compile_def
  apply pres_bind (pres_compiler_tail _)
  intro _
  apply pres_ite (pres_c_error _ _)
  apply pres_bind (pres_form_at _ _ _)
  intro _
  apply pres_ite (pres_c_error _ _)
  apply pres_ite
  · apply pres_bind (idx_pres_declare_symbol _ _ _)
    intro _
    apply pres_bind (pres_form_at _ _ _)
    intro _
    apply pres_bind (hcv _ _)
    intro _
    exact idx_pres_coerce_slot _ _
  · exact idx_pres_global_def cv hcv _ _

theorem idx_pres_var (cv : FormOptions → DstValue → Comp Slot)
    (hcv : ∀ o x, Pres IdxInv (cv o x)) (opts : FormOptions) (form : List DstValue) :
    Pres IdxInv (compile_var cv opts form) := by
  unfold compile_var
  apply pres_bind (pres_compiler_tail _)
  intro _
  apply pres_ite (pres_c_error _ _)
  apply pres_bind (pres_form_at _ _ _)
  intro _
  apply pres_ite (pres_c_error _ _)
  apply pres_ite
  · apply pres_bind (idx_pres_declare_symbol _ _ _)
    intro _
    apply pres_bind (pres_form_at _ _ _)
    intro _
    apply pres_bind (hcv _ _)
    intro _
    exact idx_pres_coerce_slot _ _
  · exact idx_pres_global_var cv hcv _ _

end

theorem idx_pres_block_loop (cv : FormOptions → DstValue → Comp Slot)
    (hcv : ∀ o x, Pres IdxInv (cv o x)) (scope : Nat) (subOpts : FormOptions) :
    ∀ xs : List DstValue, Pres IdxInv (compile_block_loop cv scope subOpts xs)
  | [] => pres_pure _ _
  | x :: rest => by
    unfold compile_block_loop
    apply pres_bind (hcv _ _)
    intro _
    apply pres_bind (idx_pres_drop_slot _ _)
    intro _
    exact idx_pres_block_loop cv hcv scope subOpts rest

section

attribute [local irreducible] Pres Comp.bind Spec Spec2 GuardFree GuardRel compiler_tail scope_read scope_write scope_parent form_at
  retag_string symbol_resolve compile_symbol_touch compiler_get_local compiler_free_local
  compiler_drop_slot compiler_tracker_free compiler_tracker_write compiler_add_literal
  compiler_declare_symbol compiler_push_scope compiler_pop_scope recursion_guard_enter
  recursion_guard_leave compiler_get_target compiler_get_temp compiler_realize_slot
  compiler_coerce_slot compiler_return dst_buffer_push_op dst_buffer_push_u16
  dst_buffer_push_i16 dst_buffer_push_i32 dst_buffer_push_i64 dst_buffer_push_real
  buffer_count buffer_set_count buffer_skip c_error c_error1 undefined_read getc setc
  compile_nonref_type compile_literal compile_symbol compile_assign compile_varset
  compile_global_var compile_global_def compile_def compile_var compile_block_loop
  compile_block compiler_gen_funcdef compile_function_params compile_function compile_if
  compile_while compile_do compile_quote compile_args compile_apply compile_tran
  compile_elements compile_array compile_table compile_form compile_value_body

theorem idx_pres_block (cv : FormOptions → DstValue → Comp Slot)
    (hcv : ∀ o x, Pres IdxInv (cv o x)) (opts : FormOptions) (form : List DstValue)
    (startIndex : Nat) : Pres IdxInv (compile_block cv opts form startIndex) := by
  unfold compile_block
  apply pres_bind (pres_compiler_tail _)
  intro _
  apply pres_ite (pres_pure _ _)
  apply pres_bind (idx_pres_block_loop cv hcv _ _ _)
  intro _
  apply pres_bind (pres_form_at _ _ _)
  intro _
  exact hcv _ _

theorem idx_pres_function_params (subDstScope count : Nat) :
    ∀ (params : List DstValue) (i : Nat) (varargs : Bool) (arity : Nat),
      Pres IdxInv (compile_function_params subDstScope count i params varargs arity)
  | [], _, _, _ => by
    unfold compile_function_params
    exact pres_pure _ _
  | param :: rest, i, varargs, arity => by
    unfold compile_function_params
    apply pres_ite (pres_c_error _ _)
    apply pres_bind
    · repeat (first
    | apply pres_ite
    | exact pres_pure _ _
    | exact pres_c_error _ _)
    · intro va
      apply pres_bind (idx_pres_declare_symbol _ _ _)
      intro _
      exact idx_pres_function_params subDstScope count rest _ _ _

theorem idx_pres_function (cv : FormOptions → DstValue → Comp Slot)
    (hcv : ∀ o x, Pres IdxInv (cv o x)) (opts : FormOptions) (form : List DstValue) :
    Pres IdxInv (compile_function cv opts form) := by
  unfold compile_function
  apply pres_bind (pres_compiler_tail _)
  intro scope
  apply pres_ite (pres_pure _ _)
  apply pres_bind (idx_pres_get_target _)
  intro ret
  apply pres_bind (idx_pres_push_scope _)
  intro sub
  apply pres_bind (pres_form_at _ _ _)
  intro f1
  split
  · apply pres_bind (idx_pres_function_params _ _ _ _ _ _)
    intro va
    apply pres_bind (pres_buffer_count _)
    intro _
    apply pres_bind (idx_pres_block cv hcv _ _ _)
    intro _
    apply pres_bind (idx_pres_return _)
    intro _
    apply pres_bind (pres_buffer_count _)
    intro _
    apply pres_bind (idx_pres_gen_funcdef _ _ _)
    intro d
    apply pres_bind (idx_pres_add_literal _ _ (by simp))
    intro _
    repeat (first
    | apply pres_bind
    | intro _
    | exact pres_pure _ _
    | exact idx_pres_push_op _
    | exact idx_pres_push_u16 _)
  · exact pres_c_error _ _

theorem idx_pres_if (cv : FormOptions → DstValue → Comp Slot)
    (hcv : ∀ o x, Pres IdxInv (cv o x)) (opts : FormOptions) (form : List DstValue) :
    Pres IdxInv (compile_if cv opts form) := by
  unfold compile_if
  apply pres_bind (pres_compiler_tail _)
  intro scope
  apply pres_ite (pres_c_error _ _)
  apply pres_bind (pres_form_at _ _ _)
  intro f1
  apply pres_bind (hcv _ _)
  intro condition
  apply pres_ite
  · apply pres_ite
    · apply pres_bind (pres_form_at _ _ _)
      intro _
      exact hcv _ _
    · exact pres_pure _ _
  · apply pres_bind (pres_buffer_count _)
    intro _
    apply pres_bind (idx_pres_skip _)
    intro _
    apply pres_bind (pres_form_at _ _ _)
    intro _
    apply pres_bind (hcv _ _)
    intro left
    apply pres_bind
    · apply pres_ite
      · apply pres_bind (idx_pres_return _)
        intro _
        exact pres_pure _ _
      · repeat (first
    | apply pres_bind
    | apply pres_ite
    | intro _
    | exact pres_pure _ _
    | exact pres_buffer_count _
    | exact idx_pres_skip _)
    · intro _
      apply pres_bind (idx_pres_drop_slot _ _)
      intro _
      apply pres_bind (pres_buffer_count _)
      intro _
      apply pres_bind (idx_pres_set_count _)
      intro _
      apply pres_bind (idx_pres_push_op _)
      intro _
      apply pres_bind (idx_pres_push_u16 _)
      intro _
      apply pres_bind (idx_pres_push_i32 _)
      intro _
      apply pres_bind (idx_pres_set_count _)
      intro _
      apply pres_bind
      · apply pres_ite
        · apply pres_bind (pres_form_at _ _ _)
          intro _
          apply pres_bind (hcv _ _)
          intro right
          apply pres_bind
          · apply pres_ite (idx_pres_return _) (pres_pure _ _)
          · intro _
            exact idx_pres_drop_slot _ _
        · apply pres_ite
          · apply pres_bind (idx_pres_return _)
            intro _
            exact pres_pure _ _
          · exact pres_pure _ _
      · intro _
        apply pres_bind
        · repeat (first
    | apply pres_bind
    | apply pres_ite
    | intro _
    | exact pres_pure _ _
    | exact pres_buffer_count _
    | exact idx_pres_push_op _
    | exact idx_pres_push_i32 _
    | exact idx_pres_set_count _)
        · intro _
          repeat (first
    | apply pres_ite
    | exact pres_pure _ _)

theorem idx_pres_while (cv : FormOptions → DstValue → Comp Slot)
    (hcv : ∀ o x, Pres IdxInv (cv o x)) (opts : FormOptions) (form : List DstValue) :
    Pres IdxInv (compile_while cv opts form) := by
  unfold compile_while
  apply pres_bind (pres_buffer_count _)
  intro _
  apply pres_bind (idx_pres_push_scope _)
  intro _
  apply pres_bind (pres_form_at _ _ _)
  intro _
  apply pres_bind (hcv _ _)
  intro cond
  apply pres_ite (pres_pure _ _)
  apply pres_bind (pres_buffer_count _)
  intro _
  apply pres_bind (idx_pres_skip _)
  intro _
  apply pres_bind (idx_pres_block cv hcv _ _ _)
  intro _
  repeat (first
    | apply pres_bind
    | apply pres_ite
    | intro _
    | exact pres_pure _ _
    | exact pres_compiler_tail _
    | exact pres_buffer_count _
    | exact idx_pres_push_op _
    | exact idx_pres_push_u16 _
    | exact idx_pres_push_i32 _
    | exact idx_pres_set_count _
    | exact idx_pres_pop_scope
    | exact idx_pres_drop_slot _ _)

theorem idx_pres_do (cv : FormOptions → DstValue → Comp Slot)
    (hcv : ∀ o x, Pres IdxInv (cv o x)) (opts : FormOptions) (form : List DstValue) :
    Pres IdxInv (compile_do cv opts form) := by
  unfold compile_do
  apply pres_bind (idx_pres_push_scope _)
  intro _
  apply pres_bind (idx_pres_block cv hcv _ _ _)
  intro _
  repeat (first
    | apply pres_bind
    | intro _
    | exact pres_pure _ _
    | exact idx_pres_pop_scope)

theorem idx_pres_quote (opts : FormOptions) (form : List DstValue) :
    Pres IdxInv (compile_quote opts form) := by
  unfold compile_quote
  apply pres_bind (pres_compiler_tail _)
  intro scope
  apply pres_ite (pres_c_error _ _)
  apply pres_bind (pres_form_at _ _ _)
  intro x
  cases x <;> simp only [] <;>
    first
    | exact idx_pres_nonref_type _ _
    | (apply pres_ite (pres_pure _ _)
       apply pres_bind (idx_pres_get_target _)
       intro _
       apply pres_bind (idx_pres_add_literal _ _ (by simp))
       intro _
       repeat (first
    | apply pres_bind
    | intro _
    | exact pres_pure _ _
    | exact idx_pres_push_op _
    | exact idx_pres_push_u16 _))

end

theorem idx_pres_args (cv : FormOptions → DstValue → Comp Slot)
    (hcv : ∀ o x, Pres IdxInv (cv o x)) (subOpts : FormOptions) :
    ∀ (xs : List DstValue) (tracker : SlotTracker),
      Pres IdxInv (compile_args cv subOpts xs tracker)
  | [], _ => pres_pure _ _
  | x :: rest, tracker => by
    unfold compile_args
    apply pres_bind (hcv _ _)
    intro _
    exact idx_pres_args cv hcv subOpts rest _

theorem idx_pres_elements (cv : FormOptions → DstValue → Comp Slot)
    (hcv : ∀ o x, Pres IdxInv (cv o x)) (subOpts : FormOptions) :
    ∀ (xs : List DstValue) (tracker : SlotTracker),
      Pres IdxInv (compile_elements cv subOpts xs tracker)
  | [], _ => pres_pure _ _
  | x :: rest, tracker => by
    unfold compile_elements
    apply pres_bind (hcv _ _)
    intro _
    apply pres_bind (idx_pres_realize_slot _)
    intro _
    exact idx_pres_elements cv hcv subOpts rest _

section

attribute [local irreducible] Pres Comp.bind Spec Spec2 GuardFree GuardRel compiler_tail scope_read scope_write scope_parent form_at
  retag_string symbol_resolve compile_symbol_touch compiler_get_local compiler_free_local
  compiler_drop_slot compiler_tracker_free compiler_tracker_write compiler_add_literal
  compiler_declare_symbol compiler_push_scope compiler_pop_scope recursion_guard_enter
  recursion_guard_leave compiler_get_target compiler_get_temp compiler_realize_slot
  compiler_coerce_slot compiler_return dst_buffer_push_op dst_buffer_push_u16
  dst_buffer_push_i16 dst_buffer_push_i32 dst_buffer_push_i64 dst_buffer_push_real
  buffer_count buffer_set_count buffer_skip c_error c_error1 undefined_read getc setc
  compile_nonref_type compile_literal compile_symbol compile_assign compile_varset
  compile_global_var compile_global_def compile_def compile_var compile_block_loop
  compile_block compiler_gen_funcdef compile_function_params compile_function compile_if
  compile_while compile_do compile_quote compile_args compile_apply compile_tran
  compile_elements compile_array compile_table compile_form compile_value_body

theorem idx_pres_apply (cv : FormOptions → DstValue → Comp Slot)
    (hcv : ∀ o x, Pres IdxInv (cv o x)) (opts : FormOptions) (form : List DstValue) :
    Pres IdxInv (compile_apply cv opts form) := by
  unfold compile_apply
  apply pres_bind (pres_compiler_tail _)
  intro scope
  apply pres_ite (pres_c_error _ _)
  apply pres_bind (pres_form_at _ _ _)
  intro _
  apply pres_bind (hcv _ _)
  intro _
  apply pres_bind (idx_pres_realize_slot _)
  intro _
  apply pres_bind (idx_pres_args cv hcv _ _ _)
  intro _
  apply pres_bind (pres_form_at _ _ _)
  intro _
  apply pres_bind (hcv _ _)
  intro _
  apply pres_bind (idx_pres_realize_slot _)
  intro _
  apply pres_bind (idx_pres_drop_slot _ _)
  intro _
  apply pres_bind (idx_pres_drop_slot _ _)
  intro _
  apply pres_bind (idx_pres_tracker_free _ _)
  intro _
  apply pres_bind (idx_pres_push_op _)
  intro _
  apply pres_bind (idx_pres_push_u16 _)
  intro _
  apply pres_bind (idx_pres_tracker_write _ _)
  intro _
  apply pres_bind (idx_pres_push_op _)
  intro _
  apply pres_bind (idx_pres_push_u16 _)
  intro _
  apply pres_ite
  · repeat (first
    | apply pres_bind
    | intro _
    | exact pres_pure _ _
    | exact idx_pres_push_op _
    | exact idx_pres_push_u16 _)
  · apply pres_bind (idx_pres_get_target _)
    intro _
    repeat (first
    | apply pres_bind
    | intro _
    | exact pres_pure _ _
    | exact idx_pres_push_op _
    | exact idx_pres_push_u16 _)

theorem idx_pres_tran (cv : FormOptions → DstValue → Comp Slot)
    (hcv : ∀ o x, Pres IdxInv (cv o x)) (opts : FormOptions) (form : List DstValue) :
    Pres IdxInv (compile_tran cv opts form) := by
  unfold compile_tran
  apply pres_ite (pres_c_error _ _)
  apply pres_bind (pres_form_at _ _ _)
  intro _
  apply pres_bind (hcv _ _)
  intro _
  apply pres_bind (idx_pres_realize_slot _)
  intro _
  apply pres_bind
  · apply pres_ite
    · apply pres_bind (pres_form_at _ _ _)
      intro _
      apply pres_bind (hcv _ _)
      intro _
      exact idx_pres_realize_slot _
    · exact hcv _ _
  · intro _
    apply pres_bind (idx_pres_get_target _)
    intro _
    repeat (first
    | apply pres_bind
    | intro _
    | exact pres_pure _ _
    | exact idx_pres_push_op _
    | exact idx_pres_push_u16 _)

theorem idx_pres_array (cv : FormOptions → DstValue → Comp Slot)
    (hcv : ∀ o x, Pres IdxInv (cv o x)) (opts : FormOptions) (array : List DstValue) :
    Pres IdxInv (compile_array cv opts array) := by
  unfold compile_array
  apply pres_bind (pres_compiler_tail _)
  intro scope
  apply pres_bind (idx_pres_get_target _)
  intro _
  apply pres_bind (idx_pres_elements cv hcv _ _ _)
  intro _
  apply pres_bind (idx_pres_tracker_free _ _)
  intro _
  apply pres_bind (idx_pres_push_op _)
  intro _
  apply pres_bind (idx_pres_push_u16 _)
  intro _
  apply pres_bind (idx_pres_push_u16 _)
  intro _
  apply pres_bind (idx_pres_tracker_write _ _)
  intro _
  exact pres_pure _ _

theorem idx_pres_table (cv : FormOptions → DstValue → Comp Slot)
    (hcv : ∀ o x, Pres IdxInv (cv o x)) (opts : FormOptions) (tab : List DstValue) :
    Pres IdxInv (compile_table cv opts tab) := by
  unfold compile_table
  apply pres_bind (pres_compiler_tail _)
  intro scope
  apply pres_bind (idx_pres_get_target _)
  intro _
  apply pres_bind (idx_pres_elements cv hcv _ _ _)
  intro _
  apply pres_bind (idx_pres_tracker_free _ _)
  intro _
  apply pres_bind (idx_pres_push_op _)
  intro _
  apply pres_bind (idx_pres_push_u16 _)
  intro _
  apply pres_bind (idx_pres_push_u16 _)
  intro _
  apply pres_bind (idx_pres_tracker_write _ _)
  intro _
  exact pres_pure _ _

theorem idx_pres_form (cv : FormOptions → DstValue → Comp Slot)
    (hcv : ∀ o x, Pres IdxInv (cv o x)) (opts : FormOptions) (form : List DstValue) :
    Pres IdxInv (compile_form cv opts form) := by
  unfold compile_form
  apply pres_bind (pres_compiler_tail _)
  intro scope
  apply pres_ite (idx_pres_nonref_type _ _)
  split
  · exact idx_pres_apply cv hcv _ _
  · exact idx_pres_do cv hcv _ _
  · exact idx_pres_def cv hcv _ _
  · exact idx_pres_if cv hcv _ _
  · exact idx_pres_function cv hcv _ _
  · exact idx_pres_quote _ _
  · exact idx_pres_tran cv hcv _ _
  · exact idx_pres_var cv hcv _ _
  · exact idx_pres_varset cv hcv _ _
  · exact idx_pres_while cv hcv _ _
  · apply pres_bind (pres_form_at _ _ _)
    intro _
    apply pres_bind (hcv _ _)
    intro _
    apply pres_bind (idx_pres_realize_slot _)
    intro _
    apply pres_bind (idx_pres_args cv hcv _ _ _)
    intro _
    apply pres_bind (idx_pres_drop_slot _ _)
    intro _
    apply pres_bind (idx_pres_tracker_free _ _)
    intro _
    apply pres_bind (idx_pres_push_op _)
    intro _
    apply pres_bind (idx_pres_push_u16 _)
    intro _
    apply pres_bind (idx_pres_tracker_write _ _)
    intro _
    apply pres_ite
    · repeat (first
    | apply pres_bind
    | intro _
    | exact pres_pure _ _
    | exact idx_pres_push_op _
    | exact idx_pres_push_u16 _)
    · apply pres_bind (idx_pres_get_target _)
      intro _
      repeat (first
    | apply pres_bind
    | intro _
    | exact pres_pure _ _
    | exact idx_pres_push_op _
    | exact idx_pres_push_u16 _)

theorem idx_pres_value_body (cv : FormOptions → DstValue → Comp Slot)
    (hcv : ∀ o x, Pres IdxInv (cv o x)) (opts : FormOptions) (x : DstValue) :
    Pres IdxInv (compile_value_body cv opts x) := by
  unfold compile_value_body
  apply pres_bind idx_pres_guard_enter
  intro _
  apply pres_ite (pres_c_error _ _)
  apply pres_bind
  · split
    · exact idx_pres_nonref_type _ _
    · exact idx_pres_nonref_type _ _
    · exact idx_pres_nonref_type _ _
    · exact idx_pres_nonref_type _ _
    · exact idx_pres_symbol cv hcv _ _
    · exact idx_pres_form cv hcv _ _
    · exact idx_pres_array cv hcv _ _
    · exact idx_pres_table cv hcv _ _
    · exact idx_pres_literal _ _
  · intro _
    repeat (first
    | apply pres_bind
    | intro _
    | exact pres_pure _ _
    | exact idx_pres_guard_leave)

end

theorem idx_pres_value : ∀ (n : Nat) (opts : FormOptions) (x : DstValue),
    Pres IdxInv (compile_value n opts x)
  | 0, _, _ => pres_c_error _ _
  | n + 1, opts, x => idx_pres_value_body _ (idx_pres_value n) opts x

theorem IdxInv_dst_compile {env : DstEnv} {form : DstValue} {guard : Nat} {f : DstFunction}
    {c : DstCompiler} (h : dst_compile env form guard = .ok f c) : IdxInv c := by
  obtain ⟨slot, d, hrun⟩ := dst_compile_ok h
  refine pres_of_ok ?_ (IdxInv_init env guard) hrun
  apply pres_bind (idx_pres_push_scope _)
  intro _
  apply pres_bind (idx_pres_value _ _ _)
  intro _
  apply pres_bind (idx_pres_return _)
  intro _
  apply pres_bind (pres_buffer_count _)
  intro _
  apply pres_bind (idx_pres_gen_funcdef _ _ _)
  intro _
  exact pres_pure _ _

theorem set_scope_literals (scopes : List DstScope) (n : Nat) (s s' : DstScope)
    (hget : scopes[n]? = some s) (e1 : s'.literals = s.literals)
    (e2 : s'.literalsArray = s.literalsArray) (i : Nat) (s1 : DstScope)
    (hi : (scopes.set n s')[i]? = some s1) :
    ∃ s, scopes[i]? = some s ∧ s1.literals = s.literals ∧
      s1.literalsArray = s.literalsArray := by
  rw [List.getElem?_set] at hi
  split at hi
  · next hni =>
    split at hi
    · cases hi
      subst hni
      exact ⟨s, hget, e1, e2⟩
    · cases hi
  · exact ⟨s1, hi, rfl, rfl⟩

theorem get_target_frame (opts : FormOptions) (c c1 : DstCompiler) (dst : Slot)
    (ht : compiler_get_target opts c = .ok dst c1) :
    c1.vm = c.vm ∧ c1.buffer = c.buffer ∧ c1.scopes.length = c.scopes.length ∧
    ∀ (i : Nat) (s1 : DstScope), c1.scopes[i]? = some s1 →
      ∃ s, c.scopes[i]? = some s ∧ s1.literals = s.literals ∧
        s1.literalsArray = s.literalsArray := by
  unfold compiler_get_target at ht
  cases hc : opts.canChoose
  · simp only [hc, Bool.false_eq_true, if_false, pure] at ht
    cases ht
    exact ⟨rfl, rfl, rfl, fun i s1 hi => ⟨s1, hi, rfl, rfl⟩⟩
  · simp only [hc, if_true] at ht
    unfold compiler_get_temp compiler_get_local compiler_tail scope_read scope_write at ht
    simp only [bind, Comp.bind, pure] at ht
    cases hn : c.scopes.length with
    | zero => simp [hn] at ht
    | succ n =>
      simp only [hn] at ht
      cases hget : c.scopes.get? n with
      | none =>
        rw [hget] at ht
        cases ht
      | some s =>
        rw [hget] at ht
        simp only [] at ht
        have hget : c.scopes[n]? = some s := by simpa using hget
        cases hf : s.freeHeap with
        | nil =>
          simp only [hf] at ht
          rw [if_neg (by simp)] at ht
          cases ht
          exact ⟨rfl, rfl, by simp [hn], set_scope_literals _ n s _ hget rfl rfl⟩
        | cons a r =>
          simp only [hf] at ht
          cases ht
          exact ⟨rfl, rfl, by simp [hn], set_scope_literals _ n s _ hget rfl rfl⟩

theorem add_literal_index (scope : Nat) (x : DstValue) (c : DstCompiler) (s : DstScope)
    (hinv : IdxInv c) (hs : c.scopes.get? scope = some s)
    (hlen : (c.vm.arrays.getD s.literalsArray []).length < 65536) :
    ∃ k c2, compiler_add_literal scope x c = .ok k c2 ∧ k < 65536 ∧
      (c2.vm.arrays.getD s.literalsArray [])[k]? = some x ∧
      c2.scopes = c.scopes ∧ c2.buffer = c.buffer := by
  obtain ⟨h1, h2, h3⟩ := hinv
  obtain ⟨hlit, hvalid⟩ := h2 s (List.get?_mem hs)
  have hp := h3 s.literalsArray
  unfold compiler_add_literal
  simp only [bind, Comp.bind, scope_read, hs, getc, setc, pure, hlit]
  cases hg : dst_table_get (c.vm.tables.getD s.literalsArray []) x with
  | nil =>
    refine ⟨_, _, rfl, Nat.mod_lt _ (by decide), ?_, rfl, rfl⟩
    simp only []
    rw [List.getD_set_eq_ite, if_pos ⟨rfl, hvalid⟩, Nat.mod_eq_of_lt hlen]
    simp
  | integer i =>
    obtain ⟨j, hj, haj⟩ := hp (by omega) x (by rw [hg]; simp)
    rw [hg] at hj
    cases hj
    have hjl : j < (c.vm.arrays.getD s.literalsArray []).length := by
      rcases Nat.lt_or_ge j (c.vm.arrays.getD s.literalsArray []).length with h5 | h5
      · exact h5
      · rw [List.getElem?_eq_none h5] at haj
        cases haj
    have hk : (Int.ofNat j % 65536).toNat = j := by
      have : (Int.ofNat j % 65536) = Int.ofNat (j % 65536) := rfl
      rw [this]
      exact Nat.mod_eq_of_lt (by omega)
    refine ⟨_, _, rfl, ?_, ?_, rfl, rfl⟩
    · rw [hk]; omega
    · rw [hk]; exact haj
  | boolean b =>
    obtain ⟨j, hj, _⟩ := hp (by omega) x (by rw [hg]; simp)
    rw [hg] at hj
    cases hj
  | real b =>
    obtain ⟨j, hj, _⟩ := hp (by omega) x (by rw [hg]; simp)
    rw [hg] at hj
    cases hj
  | string b =>
    obtain ⟨j, hj, _⟩ := hp (by omega) x (by rw [hg]; simp)
    rw [hg] at hj
    cases hj
  | symbol b =>
    obtain ⟨j, hj, _⟩ := hp (by omega) x (by rw [hg]; simp)
    rw [hg] at hj
    cases hj
  | tuple b =>
    obtain ⟨j, hj, _⟩ := hp (by omega) x (by rw [hg]; simp)
    rw [hg] at hj
    cases hj
  | array b =>
    obtain ⟨j, hj, _⟩ := hp (by omega) x (by rw [hg]; simp)
    rw [hg] at hj
    cases hj
  | table b =>
    obtain ⟨j, hj, _⟩ := hp (by omega) x (by rw [hg]; simp)
    rw [hg] at hj
    cases hj
  | funcdef b =>
    obtain ⟨j, hj, _⟩ := hp (by omega) x (by rw [hg]; simp)
    rw [hg] at hj
    cases hj
  | function b =>
    obtain ⟨j, hj, _⟩ := hp (by omega) x (by rw [hg]; simp)
    rw [hg] at hj
    cases hj
  | cfunction b =>
    obtain ⟨j, hj, _⟩ := hp (by omega) x (by rw [hg]; simp)
    rw [hg] at hj
    cases hj
  | userdata b =>
    obtain ⟨j, hj, _⟩ := hp (by omega) x (by rw [hg]; simp)
    rw [hg] at hj
    cases hj

theorem pool_array_length : ∀ n, (pool_array n).length = n
  | 0 => rfl
  | n + 1 => by
    rw [pool_array, List.length_append, pool_array_length n]
    rfl

theorem pool_array_head : ∀ n, (pool_array (n + 1))[0]? = some (.cfunction 0)
  | 0 => rfl
  | n + 1 => by
    rw [pool_array, List.getElem?_append_left (by rw [pool_array_length]; omega)]
    exact pool_array_head n

theorem pool_table_symbol (s : String) : ∀ (n : Nat) (rest : DstTable),
    dst_table_get (pool_table n ++ rest) (.symbol s) = dst_table_get rest (.symbol s)
  | 0, _ => rfl
  | n + 1, rest => by
    rw [pool_table, List.append_assoc, pool_table_symbol s n]
    simp [dst_table_get, dst_equals, DstValue.isNil]

theorem quote_on_pool (n : Nat) :
    compile_quote form_options_default [.symbol "quote", .symbol "y"] (state_pool n) =
      .ok { index := 0, isNil := false, isTemp := true, hasReturned := false }
        { vm := { funcdefs := []
                  tables := [dst_table_put (pool_table n) (.symbol "y")
                    (.integer (Int.ofNat (n % 65536)))]
                  arrays := [pool_array n ++ [.symbol "y"]] }
          scopes := [{ level := 0, nextLocal := 1, frameSize := 0, freeHeap := [],
                       touchParent := false, touchEnv := false,
                       literals := 0, literalsArray := 0, locals := [] }]
          buffer := { data := [.op .CST, .u16 0, .u16 (n % 65536)], count := 6 }
          env := env_empty
          recursionGuard := 1000 } := by
  have hget : dst_table_get (pool_table n) (.symbol "y") = .nil := by
    have := pool_table_symbol "y" n []
    rw [List.append_nil] at this
    rw [this]
    rfl
  simp [compile_quote, state_pool, hget, pool_array_length, compiler_tail, form_at,
    bind, Comp.bind, pure, form_options_default, compiler_get_target, compiler_get_temp,
    compiler_get_local, scope_read, scope_write, compiler_add_literal, getc, setc,
    dst_buffer_push_op, dst_buffer_push_u16, DstBuffer.put]

theorem getLast_get (scopes : List DstScope) (s : DstScope) (hs : scopes.getLast? = some s) :
    ∃ n, scopes.length = n + 1 ∧ scopes[n]? = some s := by
  cases scopes with
  | nil => cases hs
  | cons a l =>
    refine ⟨l.length, rfl, ?_⟩
    rw [List.getLast?_eq_getElem?] at hs
    simpa using hs

theorem quote_nonprimitive (opts : FormOptions) (h x : DstValue) (c c1 : DstCompiler)
    (dst : Slot) (s : DstScope) (hinv : IdxInv c) (hu : opts.resultUnused = false)
    (hnil : x ≠ .nil) (hbool : ∀ b, x ≠ .boolean b) (hint : ∀ i, x ≠ .integer i)
    (hreal : ∀ r, x ≠ .real r) (hs : c.scopes.getLast? = some s)
    (hlen : (c.vm.arrays.getD s.literalsArray []).length < 65536)
    (ht : compiler_get_target opts c = .ok dst c1) :
    ∃ k c2, compile_quote opts [h, x] c = .ok dst c2 ∧ k < 65536 ∧
      c2.buffer = ((c1.buffer.put (.op .CST)).put (.u16 (dst.index % 65536))).put (.u16 k) ∧
      (c2.vm.arrays.getD s.literalsArray [])[k]? = some x ∧
      ∃ s2, c2.scopes.getLast? = some s2 ∧ s2.literalsArray = s.literalsArray := by
  obtain ⟨n, hn, hget⟩ := getLast_get c.scopes s hs
  have hinv1 : IdxInv c1 := pres_of_ok (idx_pres_get_target opts) hinv ht
  obtain ⟨hvm, hbuf, hlen1, hfr⟩ := get_target_frame opts c c1 dst ht
  obtain ⟨s1, hget1⟩ : ∃ s1, c1.scopes[n]? = some s1 :=
    ⟨c1.scopes[n], List.getElem?_eq_getElem (by omega)⟩
  obtain ⟨s0, hs0, hl1, hl2⟩ := hfr n s1 hget1
  rw [hget] at hs0
  cases hs0
  obtain ⟨k, c2, hadd, hk, hentry, hsc, hb⟩ := add_literal_index n x c1 s1 hinv1
    (by simpa using hget1) (by rw [hvm, hl2]; exact hlen)
  have hlast : c1.scopes.getLast? = some s1 := by
    rw [List.getLast?_eq_getElem?, hlen1, hn]
    simpa using hget1
  refine ⟨k, { c2 with buffer :=
      ((c1.buffer.put (.op .CST)).put (.u16 (dst.index % 65536))).put (.u16 k) }, ?_, hk, rfl,
    ?_, s1, ?_, hl2⟩
  · have hmain : (do
        let ret ← compiler_get_target opts
        let literalIndex ← compiler_add_literal n x
        dst_buffer_push_op .CST
        dst_buffer_push_u16 ret.index
        dst_buffer_push_u16 literalIndex
        pure ret : Comp Slot) c = .ok dst { c2 with buffer :=
          ((c1.buffer.put (.op .CST)).put (.u16 (dst.index % 65536))).put (.u16 k) } := by
      simp only [bind, Comp.bind, ht, hadd, dst_buffer_push_op, dst_buffer_push_u16, pure, hb,
        Nat.mod_eq_of_lt hk]
    unfold compile_quote
    simp only [bind, Comp.bind, compiler_tail, hn, form_at, List.length_cons, List.length_nil,
      pure, hu]
    cases x with
    | nil => exact absurd rfl hnil
    | boolean b => exact absurd rfl (hbool b)
    | integer i => exact absurd rfl (hint i)
    | real r => exact absurd rfl (hreal r)
    | _ => simpa [bind, Comp.bind, pure] using hmain
  · show (c2.vm.arrays.getD s.literalsArray [])[k]? = some x
    rw [← hl2]
    exact hentry
  · show c2.scopes.getLast? = some s1
    rw [hsc]
    exact hlast

theorem quote_primitive (opts : FormOptions) (h p : DstValue) (c : DstCompiler)
    (hc : c.scopes ≠ [])
    (hp : p = .nil ∨ (∃ b, p = .boolean b) ∨ (∃ i, p = .integer i) ∨ (∃ r, p = .real r)) :
    compile_quote opts [h, p] c = compile_nonref_type opts p c := by
  obtain ⟨n, hn⟩ : ∃ n, c.scopes.length = n + 1 := by
    cases hl : c.scopes with
    | nil => exact absurd hl hc
    | cons a l => exact ⟨l.length, rfl⟩
  unfold compile_quote
  rcases hp with rfl | ⟨b, rfl⟩ | ⟨i, rfl⟩ | ⟨r, rfl⟩ <;>
    simp [bind, Comp.bind, compiler_tail, hn, form_at, pure]

theorem pool_table_append : ∀ (n : Nat) (rest : DstTable) (y : DstValue),
    dst_table_get (pool_table n ++ rest) y =
      if (dst_table_get (pool_table n) y).isNil then dst_table_get rest y
      else dst_table_get (pool_table n) y
  | 0, rest, y => by simp [pool_table, dst_table_get, DstValue.isNil]
  | n + 1, rest, y => by
    have h1 := pool_table_append n ([DstValue.cfunction n, .integer (Int.ofNat n)] ++ rest) y
    have h2 := pool_table_append n [DstValue.cfunction n, .integer (Int.ofNat n)] y
    rw [pool_table, List.append_assoc, h1, h2]
    cases hn : (dst_table_get (pool_table n) y).isNil
    · simp [hn]
    · cases he : dst_equals (DstValue.cfunction n) y <;>
        simp [dst_table_get, DstValue.isNil, he]

theorem poolIdx_pool : ∀ n, PoolIdx (pool_table n) (pool_array n)
  | 0 => PoolIdx_empty
  | n + 1 => by
    intro hlen y hy
    have ih := poolIdx_pool n (by rw [pool_array_length] at hlen ⊢; omega) y
    have h2 := pool_table_append n [DstValue.cfunction n, .integer (Int.ofNat n)] y
    rw [pool_table] at hy ⊢
    rw [h2] at hy ⊢
    cases hn : (dst_table_get (pool_table n) y).isNil
    · simp only [hn, Bool.false_eq_true, if_false] at hy ⊢
      obtain ⟨j, hj, haj⟩ := ih hy
      refine ⟨j, hj, ?_⟩
      have hjl : j < (pool_array n).length := by
        rcases Nat.lt_or_ge j (pool_array n).length with h5 | h5
        · exact h5
        · rw [List.getElem?_eq_none h5] at haj
          cases haj
      rw [pool_array, List.getElem?_append_left hjl]
      exact haj
    · simp only [hn, if_true] at hy ⊢
      cases he : dst_equals (DstValue.cfunction n) y
      · simp [dst_table_get, DstValue.isNil, he] at hy
      · have hy2 : DstValue.cfunction n = y := (dst_equals_iff _ _).1 he
        subst hy2
        refine ⟨n, by simp [dst_table_get, DstValue.isNil, dst_equals], ?_⟩
        rw [pool_array, List.getElem?_append_right (by rw [pool_array_length])]
        simp [pool_array_length]

theorem idxInv_state_pool (n : Nat) : IdxInv (state_pool n) := by
  refine ⟨rfl, ?_, ?_⟩
  · intro s hs
    simp only [state_pool, List.mem_singleton] at hs
    subst hs
    exact ⟨rfl, by simp [state_pool]⟩
  · intro i
    cases i with
    | zero => exact poolIdx_pool n
    | succ i => exact PoolIdx_empty

/-- The case C18 leaves out: in a frame whose literal array holds 65536
entries (none of them the symbol `y`; the state satisfies the invariant of the
literal pools), compiling `(quote y)` emits `CST 0 0`,
and entry 0 of the literal array of the frame is not `y`, which is entry
65536: the literal index is a 16-bit value, and the index 65536 of the new
entry is stored as 0. -/
theorem quote_index_wraps :
    IdxInv state_full_pool ∧
    compile_quote form_options_default [.symbol "quote", .symbol "y"] state_full_pool =
      .ok { index := 0, isNil := false, isTemp := true, hasReturned := false }
        { vm := { funcdefs := []
                  tables := [dst_table_put (pool_table 65536) (.symbol "y") (.integer 0)]
                  arrays := [pool_array 65536 ++ [.symbol "y"]] }
          scopes := [{ level := 0, nextLocal := 1, frameSize := 0, freeHeap := [],
                       touchParent := false, touchEnv := false,
                       literals := 0, literalsArray := 0, locals := [] }]
          buffer := { data := [.op .CST, .u16 0, .u16 0], count := 6 }
          env := env_empty
          recursionGuard := 1000 } ∧
    (pool_array 65536 ++ [.symbol "y"])[0]? = some (.cfunction 0) ∧
    (pool_array 65536 ++ [.symbol "y"])[65536]? = some (.symbol "y") := by
  refine ⟨idxInv_state_pool 65536, quote_on_pool 65536, ?_, ?_⟩
  · rw [List.getElem?_append_left (by rw [pool_array_length]; decide)]
    exact pool_array_head 65535
  · rw [List.getElem?_append_right (by rw [pool_array_length])]
    simp [pool_array_length]

theorem idxInv_root_state (env : DstEnv) (guard : Nat) : IdxInv (root_state env guard) := by
  have h : compiler_push_scope false
      { vm := { funcdefs := [], tables := [], arrays := [] }, scopes := [],
        buffer := { data := [], count := 0 }, env := env, recursionGuard := guard } =
      .ok 0 (root_state env guard) := rfl
  exact pres_of_ok (idx_pres_push_scope false) (IdxInv_init env guard) h

/-- C18 (quote preserves its argument), for a frame with fewer than 65536
literals: in a state that satisfies the invariant of the literal pools (it
holds at every point of a compilation), with the result used, compiling
`(quote x)` for a value `x` that is not nil, a boolean, an integer or a real
succeeds whatever `x` contains; it emits the one instruction `CST dst k` after
the code present, `dst` being the slot `compiler_get_target` hands out, and
entry `k` of the literal array of the current frame is `x`.  For a primitive
`x` it does what `compile_nonref_type` does for `x`.  So `(quote (f y))`
compiles, with `f` and `y` unbound, to `CST 0 0 ; RET 0` with the tuple
`(f y)` as literal 0. -/
theorem quote_preserves_argument (opts : FormOptions) (h x : DstValue) (c c1 : DstCompiler)
    (dst : Slot) (s : DstScope) (hinv : IdxInv c) (hu : opts.resultUnused = false)
    (hs : c.scopes.getLast? = some s)
    (hlen : (c.vm.arrays.getD s.literalsArray []).length < 65536)
    (ht : compiler_get_target opts c = .ok dst c1) :
    (x ≠ .nil → (∀ b, x ≠ .boolean b) → (∀ i, x ≠ .integer i) → (∀ r, x ≠ .real r) →
      ∃ k c2, compile_quote opts [h, x] c = .ok dst c2 ∧ k < 65536 ∧
        c2.buffer =
          ((c1.buffer.put (.op .CST)).put (.u16 (dst.index % 65536))).put (.u16 k) ∧
        (c2.vm.arrays.getD s.literalsArray [])[k]? = some x ∧
        ∃ s2, c2.scopes.getLast? = some s2 ∧ s2.literalsArray = s.literalsArray) ∧
    ((x = .nil ∨ (∃ b, x = .boolean b) ∨ (∃ i, x = .integer i) ∨ (∃ r, x = .real r)) →
      compile_quote opts [h, x] c = compile_nonref_type opts x c) ∧
    compiled (dst_compile env_empty form_quote_unbound 1000) =
      some { byteCode := [.op .CST, .u16 0, .u16 0, .op .RET, .u16 0]
             literals := [.tuple [.symbol "f", .symbol "y"]]
             locals := 1, arity := 0, flags := no_flags } := by
  refine ⟨fun hnil hbool hint hreal =>
      quote_nonprimitive opts h x c c1 dst s hinv hu hnil hbool hint hreal hs hlen ht,
    fun hp => quote_primitive opts h x c (by rw [← List.getLast?_isSome, hs]; rfl) hp, ?_⟩
  simp [form_quote_unbound, no_flags, compile_quote, Result.funcdefs, compiled, dst_compile, compile_value_succ, compile_value_body,
    compile_nonref_type, compile_literal, compiler_push_scope, bind, pure, Comp.bind, getc, setc,
    form_options_default, compiler_get_target, compiler_get_temp, compiler_tail,
    compiler_get_local, compiler_free_local, compiler_drop_slot, scope_read, scope_write,
    dst_buffer_push_op, dst_buffer_push_u16, dst_buffer_push_i16, dst_buffer_push_i32, int_word,
    DstBuffer.put, DstBuffer.skip, buffer_skip, compiler_return, buffer_count,
    compiler_gen_funcdef, buffer_set_count, compiler_pop_scope, c_error, c_error1,
    DstValue.isNil, compile_form, get_special, name_at, compile_function, form_at,
    compile_function_params, compiler_declare_symbol, equal_cstr, DstValue.asString,
    DstValue.isSymbol, dst_table_put, compile_block, compile_block_loop, compile_symbol,
    symbol_resolve, symbol_resolve_scopes, dst_table_get, dst_equals, DstValue.asInteger,
    compiler_add_literal, nil_slot, compile_symbol_touch, scope_parent, compile_if, compile_do,
    compile_def, compile_while, compile_args, compiler_realize_slot, compiler_coerce_slot,
    compiler_tracker_free, compiler_tracker_free_loop, compiler_tracker_write,
    compiler_tracker_write_loop, compiler_tracker_push, tracker_init, dst_string_cvs,
    dst_string_cv, undefined_read, recursion_guard_enter, recursion_guard_leave]

theorem quote_preserves_argument_witness :
    IdxInv (root_state env_empty 1000) ∧
    form_options_default.resultUnused = false ∧
    (root_state env_empty 1000).scopes.getLast? =
      some { level := 0, nextLocal := 0, frameSize := 0, freeHeap := [],
             touchParent := false, touchEnv := false,
             literals := 0, literalsArray := 0, locals := [] } ∧
    ((root_state env_empty 1000).vm.arrays.getD 0 []).length < 65536 ∧
    compiler_get_target form_options_default (root_state env_empty 1000) =
      .ok { index := 0, isNil := false, isTemp := true, hasReturned := false }
        { root_state env_empty 1000 with scopes :=
            [{ level := 0, nextLocal := 1, frameSize := 0, freeHeap := [],
               touchParent := false, touchEnv := false,
               literals := 0, literalsArray := 0, locals := [] }] } ∧
    ∃ k c2, compile_quote form_options_default [.symbol "quote", .symbol "y"]
        (root_state env_empty 1000) =
          .ok { index := 0, isNil := false, isTemp := true, hasReturned := false } c2 ∧
      k < 65536 ∧
      c2.buffer = (((root_state env_empty 1000).buffer.put (.op .CST)).put
        (.u16 (0 % 65536))).put (.u16 k) ∧
      (c2.vm.arrays.getD 0 [])[k]? = some (.symbol "y") ∧
      ∃ s2, c2.scopes.getLast? = some s2 ∧ s2.literalsArray = 0 :=
  ⟨idxInv_root_state env_empty 1000, rfl, rfl, by simp [root_state],
   by simp [root_state, Result.funcdefs, compiled, dst_compile, compile_value_succ, compile_value_body,
    compile_nonref_type, compile_literal, compiler_push_scope, bind, pure, Comp.bind, getc, setc,
    form_options_default, compiler_get_target, compiler_get_temp, compiler_tail,
    compiler_get_local, compiler_free_local, compiler_drop_slot, scope_read, scope_write,
    dst_buffer_push_op, dst_buffer_push_u16, dst_buffer_push_i16, dst_buffer_push_i32, int_word,
    DstBuffer.put, DstBuffer.skip, buffer_skip, compiler_return, buffer_count,
    compiler_gen_funcdef, buffer_set_count, compiler_pop_scope, c_error, c_error1,
    DstValue.isNil, compile_form, get_special, name_at, compile_function, form_at,
    compile_function_params, compiler_declare_symbol, equal_cstr, DstValue.asString,
    DstValue.isSymbol, dst_table_put, compile_block, compile_block_loop, compile_symbol,
    symbol_resolve, symbol_resolve_scopes, dst_table_get, dst_equals, DstValue.asInteger,
    compiler_add_literal, nil_slot, compile_symbol_touch, scope_parent, compile_if, compile_do,
    compile_def, compile_while, compile_args, compiler_realize_slot, compiler_coerce_slot,
    compiler_tracker_free, compiler_tracker_free_loop, compiler_tracker_write,
    compiler_tracker_write_loop, compiler_tracker_push, tracker_init, dst_string_cvs,
    dst_string_cv, undefined_read, recursion_guard_enter, recursion_guard_leave],
   (quote_preserves_argument form_options_default (.symbol "quote") (.symbol "y")
      (root_state env_empty 1000)
      { root_state env_empty 1000 with scopes :=
          [{ level := 0, nextLocal := 1, frameSize := 0, freeHeap := [],
             touchParent := false, touchEnv := false,
             literals := 0, literalsArray := 0, locals := [] }] }
      { index := 0, isNil := false, isTemp := true, hasReturned := false }
      { level := 0, nextLocal := 0, frameSize := 0, freeHeap := [],
        touchParent := false, touchEnv := false,
        literals := 0, literalsArray := 0, locals := [] }
      (idxInv_root_state env_empty 1000) rfl rfl (by simp [root_state])
      (by simp [root_state, Result.funcdefs, compiled, dst_compile, compile_value_succ, compile_value_body,
    compile_nonref_type, compile_literal, compiler_push_scope, bind, pure, Comp.bind, getc, setc,
    form_options_default, compiler_get_target, compiler_get_temp, compiler_tail,
    compiler_get_local, compiler_free_local, compiler_drop_slot, scope_read, scope_write,
    dst_buffer_push_op, dst_buffer_push_u16, dst_buffer_push_i16, dst_buffer_push_i32, int_word,
    DstBuffer.put, DstBuffer.skip, buffer_skip, compiler_return, buffer_count,
    compiler_gen_funcdef, buffer_set_count, compiler_pop_scope, c_error, c_error1,
    DstValue.isNil, compile_form, get_special, name_at, compile_function, form_at,
    compile_function_params, compiler_declare_symbol, equal_cstr, DstValue.asString,
    DstValue.isSymbol, dst_table_put, compile_block, compile_block_loop, compile_symbol,
    symbol_resolve, symbol_resolve_scopes, dst_table_get, dst_equals, DstValue.asInteger,
    compiler_add_literal, nil_slot, compile_symbol_touch, scope_parent, compile_if, compile_do,
    compile_def, compile_while, compile_args, compiler_realize_slot, compiler_coerce_slot,
    compiler_tracker_free, compiler_tracker_free_loop, compiler_tracker_write,
    compiler_tracker_write_loop, compiler_tracker_push, tracker_init, dst_string_cvs,
    dst_string_cv, undefined_read, recursion_guard_enter, recursion_guard_leave])).1 (by simp) (by simp) (by simp) (by simp)⟩

/-! ## C19: general call emission -/

/-- C19 fails in the code: with `+` bound to a host function, the callee `+`
and the argument `(do)` of the call `(+ (do))` each compile without error (the
callee into slot 0 by `CST 0 0`, the argument to the nil slot, with no code),
but the compilation of the call fails with "trying to write nil slot": the
slots of the arguments are written by `compiler_tracker_write` as they are,
and `compile_form` does not give a nil slot a location first. -/
theorem call_with_nil_argument :
    Result.value (compile_value 10 form_options_default (.symbol "+")
      (root_state env_S3 1000)) =
        some { index := 0, isNil := false, isTemp := true, hasReturned := false } ∧
    Result.value (compile_value 10 form_options_default (.tuple [.symbol "do"])
      (root_state env_S3 1000)) = some nil_slot ∧
    dst_compile env_S3 form_call_nil 1000 = .error error_nil_slot := by
  refine ⟨?_, ?_, ?_⟩
  · simp [Result.value, root_state, env_S3, env_mutable, Result.funcdefs, compiled, dst_compile, compile_value_succ, compile_value_body,
    compile_nonref_type, compile_literal, compiler_push_scope, bind, pure, Comp.bind, getc, setc,
    form_options_default, compiler_get_target, compiler_get_temp, compiler_tail,
    compiler_get_local, compiler_free_local, compiler_drop_slot, scope_read, scope_write,
    dst_buffer_push_op, dst_buffer_push_u16, dst_buffer_push_i16, dst_buffer_push_i32, int_word,
    DstBuffer.put, DstBuffer.skip, buffer_skip, compiler_return, buffer_count,
    compiler_gen_funcdef, buffer_set_count, compiler_pop_scope, c_error, c_error1,
    DstValue.isNil, compile_form, get_special, name_at, compile_function, form_at,
    compile_function_params, compiler_declare_symbol, equal_cstr, DstValue.asString,
    DstValue.isSymbol, dst_table_put, compile_block, compile_block_loop, compile_symbol,
    symbol_resolve, symbol_resolve_scopes, dst_table_get, dst_equals, DstValue.asInteger,
    compiler_add_literal, nil_slot, compile_symbol_touch, scope_parent, compile_if, compile_do,
    compile_def, compile_while, compile_args, compiler_realize_slot, compiler_coerce_slot,
    compiler_tracker_free, compiler_tracker_free_loop, compiler_tracker_write,
    compiler_tracker_write_loop, compiler_tracker_push, tracker_init, dst_string_cvs,
    dst_string_cv, undefined_read, recursion_guard_enter, recursion_guard_leave]
  · simp [Result.value, root_state, env_S3, Result.funcdefs, compiled, dst_compile, compile_value_succ, compile_value_body,
    compile_nonref_type, compile_literal, compiler_push_scope, bind, pure, Comp.bind, getc, setc,
    form_options_default, compiler_get_target, compiler_get_temp, compiler_tail,
    compiler_get_local, compiler_free_local, compiler_drop_slot, scope_read, scope_write,
    dst_buffer_push_op, dst_buffer_push_u16, dst_buffer_push_i16, dst_buffer_push_i32, int_word,
    DstBuffer.put, DstBuffer.skip, buffer_skip, compiler_return, buffer_count,
    compiler_gen_funcdef, buffer_set_count, compiler_pop_scope, c_error, c_error1,
    DstValue.isNil, compile_form, get_special, name_at, compile_function, form_at,
    compile_function_params, compiler_declare_symbol, equal_cstr, DstValue.asString,
    DstValue.isSymbol, dst_table_put, compile_block, compile_block_loop, compile_symbol,
    symbol_resolve, symbol_resolve_scopes, dst_table_get, dst_equals, DstValue.asInteger,
    compiler_add_literal, nil_slot, compile_symbol_touch, scope_parent, compile_if, compile_do,
    compile_def, compile_while, compile_args, compiler_realize_slot, compiler_coerce_slot,
    compiler_tracker_free, compiler_tracker_free_loop, compiler_tracker_write,
    compiler_tracker_write_loop, compiler_tracker_push, tracker_init, dst_string_cvs,
    dst_string_cv, undefined_read, recursion_guard_enter, recursion_guard_leave]
  · simp [form_call_nil, error_nil_slot, env_S3, env_mutable, Result.funcdefs, compiled, dst_compile, compile_value_succ, compile_value_body,
    compile_nonref_type, compile_literal, compiler_push_scope, bind, pure, Comp.bind, getc, setc,
    form_options_default, compiler_get_target, compiler_get_temp, compiler_tail,
    compiler_get_local, compiler_free_local, compiler_drop_slot, scope_read, scope_write,
    dst_buffer_push_op, dst_buffer_push_u16, dst_buffer_push_i16, dst_buffer_push_i32, int_word,
    DstBuffer.put, DstBuffer.skip, buffer_skip, compiler_return, buffer_count,
    compiler_gen_funcdef, buffer_set_count, compiler_pop_scope, c_error, c_error1,
    DstValue.isNil, compile_form, get_special, name_at, compile_function, form_at,
    compile_function_params, compiler_declare_symbol, equal_cstr, DstValue.asString,
    DstValue.isSymbol, dst_table_put, compile_block, compile_block_loop, compile_symbol,
    symbol_resolve, symbol_resolve_scopes, dst_table_get, dst_equals, DstValue.asInteger,
    compiler_add_literal, nil_slot, compile_symbol_touch, scope_parent, compile_if, compile_do,
    compile_def, compile_while, compile_args, compiler_realize_slot, compiler_coerce_slot,
    compiler_tracker_free, compiler_tracker_free_loop, compiler_tracker_write,
    compiler_tracker_write_loop, compiler_tracker_push, tracker_init, dst_string_cvs,
    dst_string_cv, undefined_read, recursion_guard_enter, recursion_guard_leave]

/-! ## C20: special form dispatch -/

theorem ite_some_cases {α : Type} {c : Prop} [Decidable c] {a b : Option α} {x : α}
    (h : (if c then a else b) = some x) : (c ∧ a = some x) ∨ (¬ c ∧ b = some x) := by
  by_cases hc : c
  · exact Or.inl ⟨hc, by rwa [if_pos hc] at h⟩
  · exact Or.inr ⟨hc, by rwa [if_neg hc] at h⟩

theorem name_eq2 (l : List Char) (a b : Char) (h0 : (name_at l 0 == a) = true)
    (h : (l.length == 2 && name_at l 1 == b) = true) : l = [a, b] := by
  rcases l with _ | ⟨x0, _ | ⟨x1, _ | ⟨x2, t⟩⟩⟩ <;> simp_all [name_at]

theorem name_eq3 (l : List Char) (a b c : Char) (h0 : (name_at l 0 == a) = true)
    (h : (l.length == 3 && name_at l 1 == b && name_at l 2 == c) = true) : l = [a, b, c] := by
  rcases l with _ | ⟨x0, _ | ⟨x1, _ | ⟨x2, _ | ⟨x3, t⟩⟩⟩⟩ <;> simp_all [name_at]

theorem name_eq4 (l : List Char) (a b c d : Char) (h0 : (name_at l 0 == a) = true)
    (h : (l.length == 4 && name_at l 1 == b && name_at l 2 == c && name_at l 3 == d) = true) :
    l = [a, b, c, d] := by
  rcases l with _ | ⟨x0, _ | ⟨x1, _ | ⟨x2, _ | ⟨x3, _ | ⟨x4, t⟩⟩⟩⟩⟩ <;> simp_all [name_at]

theorem name_eq5 (l : List Char) (a b c d e : Char) (h0 : (name_at l 0 == a) = true)
    (h : (l.length == 5 && name_at l 1 == b && name_at l 2 == c && name_at l 3 == d &&
      name_at l 4 == e) = true) : l = [a, b, c, d, e] := by
  rcases l with _ | ⟨x0, _ | ⟨x1, _ | ⟨x2, _ | ⟨x3, _ | ⟨x4, _ | ⟨x5, t⟩⟩⟩⟩⟩⟩ <;> simp_all [name_at]

theorem name_eq7 (l : List Char) (a b c d e f g : Char) (h0 : (name_at l 0 == a) = true)
    (h : (l.length == 7 && name_at l 1 == b && name_at l 2 == c && name_at l 3 == d &&
      name_at l 4 == e && name_at l 5 == f && name_at l 6 == g) = true) :
    l = [a, b, c, d, e, f, g] := by
  rcases l with _ | ⟨x0, _ | ⟨x1, _ | ⟨x2, _ | ⟨x3, _ | ⟨x4, _ | ⟨x5, _ | ⟨x6, _ | ⟨x7, t⟩⟩⟩⟩⟩⟩⟩⟩ <;>
    simp_all [name_at]

theorem get_special_some (s : String) (rest : List DstValue) (h : SpecialFormHelper)
    (hs : get_special (.symbol s :: rest) = some h) : spec_special s = some h := by
  rcases s with ⟨l⟩
  dsimp only [get_special] at hs
  rcases ite_some_cases hs with ⟨_, hs⟩ | ⟨_, hs⟩
  · cases hs
  rcases ite_some_cases hs with ⟨h0, hs⟩ | ⟨_, hs⟩
  · rcases ite_some_cases hs with ⟨h1, hs⟩ | ⟨_, hs⟩
    · obtain rfl := name_eq5 l _ _ _ _ _ h0 h1
      cases hs
      rfl
    · cases hs
  rcases ite_some_cases hs with ⟨h0, hs⟩ | ⟨_, hs⟩
  · rcases ite_some_cases hs with ⟨h1, hs⟩ | ⟨_, hs⟩
    · obtain rfl := name_eq2 l _ _ h0 h1
      cases hs
      rfl
    rcases ite_some_cases hs with ⟨h1, hs⟩ | ⟨_, hs⟩
    · obtain rfl := name_eq3 l _ _ _ h0 h1
      cases hs
      rfl
    · cases hs
  rcases ite_some_cases hs with ⟨h0, hs⟩ | ⟨_, hs⟩
  · rcases ite_some_cases hs with ⟨h1, hs⟩ | ⟨_, hs⟩
    · obtain rfl := name_eq2 l _ _ h0 h1
      cases hs
      rfl
    · cases hs
  rcases ite_some_cases hs with ⟨h0, hs⟩ | ⟨_, hs⟩
  · rcases ite_some_cases hs with ⟨h1, hs⟩ | ⟨_, hs⟩
    · obtain rfl := name_eq2 l _ _ h0 h1
      cases hs
      rfl
    · cases hs
  rcases ite_some_cases hs with ⟨h0, hs⟩ | ⟨_, hs⟩
  · rcases ite_some_cases hs with ⟨h1, hs⟩ | ⟨_, hs⟩
    · obtain rfl := name_eq5 l _ _ _ _ _ h0 h1
      cases hs
      rfl
    · cases hs
  rcases ite_some_cases hs with ⟨h0, hs⟩ | ⟨_, hs⟩
  · rcases ite_some_cases hs with ⟨h1, hs⟩ | ⟨_, hs⟩
    · obtain rfl := name_eq4 l _ _ _ _ h0 h1
      cases hs
      rfl
    · cases hs
  rcases ite_some_cases hs with ⟨h0, hs⟩ | ⟨_, hs⟩
  · rcases ite_some_cases hs with ⟨h1, hs⟩ | ⟨_, hs⟩
    · obtain rfl := name_eq3 l _ _ _ h0 h1
      cases hs
      rfl
    rcases ite_some_cases hs with ⟨h1, hs⟩ | ⟨_, hs⟩
    · obtain rfl := name_eq7 l _ _ _ _ _ _ _ h0 h1
      cases hs
      rfl
    · cases hs
  rcases ite_some_cases hs with ⟨h0, hs⟩ | ⟨_, hs⟩
  · rcases ite_some_cases hs with ⟨h1, hs⟩ | ⟨_, hs⟩
    · obtain rfl := name_eq5 l _ _ _ _ _ h0 h1
      cases hs
      rfl
    · cases hs
  · cases hs

theorem get_special_none (s : String) (rest : List DstValue)
    (hs : get_special (.symbol s :: rest) = none) : spec_special s = none := by
  have e : ∀ {h : SpecialFormHelper}, get_special (.symbol s :: rest) = some h → False :=
    fun h1 => Option.noConfusion (hs.symm.trans h1)
  unfold spec_special
  rw [if_neg (fun h => e (h ▸ get_special_if rest)),
    if_neg (fun h => e (h ▸ get_special_while rest)),
    if_neg (fun h => e (h ▸ get_special_do rest)),
    if_neg (fun h => e (h ▸ get_special_fn rest)),
    if_neg (fun h => e (h ▸ get_special_def rest)),
    if_neg (fun h => e (h ▸ get_special_var rest)),
    if_neg (fun h => e (h ▸ get_special_varset rest)),
    if_neg (fun h => e (h ▸ get_special_quote rest)),
    if_neg (fun h => e (h ▸ get_special_apply rest)),
    if_neg (fun h => e (h ▸ get_special_tran rest))]

theorem get_special_symbol (s : String) (rest : List DstValue) :
    get_special (.symbol s :: rest) = spec_special s := by
  cases hs : get_special (.symbol s :: rest) with
  | none => exact (get_special_none s rest hs).symm
  | some h => exact (get_special_some s rest h hs).symm

/-- C20 (special form dispatch): for every tuple, `get_special` gives a special
form compiler exactly when the tuple is not empty and its head is a symbol
whose name is one of `if`, `while`, `do`, `fn`, `def`, `var`, `varset!`,
`quote`, `apply`, `tran`, and the compiler is the one of that name;
`compile_form` runs that compiler on the tuple, and compiles every other
non-empty tuple as a general call.  A head that is a proper part or an
extension of one of the names, or a string with one of the names, has no
special form compiler. -/
theorem special_form_dispatch (form : List DstValue) (cv : FormOptions → DstValue → Comp Slot)
    (opts : FormOptions) :
    get_special form = spec_get_special form ∧
    compile_form cv opts form = (do
      let scope ← compiler_tail
      if form.length == 0 then
        compile_nonref_type opts .nil
      else
        match get_special form with
        | some helper => special_form helper cv opts form
        | none => general_call cv opts form scope) ∧
    get_special [.symbol "d", .integer 1] = none ∧
    get_special [.symbol "doo", .integer 1] = none ∧
    get_special [.symbol "whil", .integer 1] = none ∧
    get_special [.symbol "varset", .symbol "x", .integer 1] = none ∧
    get_special [.symbol "iff", .integer 1] = none ∧
    get_special [.string "if", .integer 1] = none ∧
    get_special [.tuple [.symbol "if"], .integer 1] = none := by
  refine ⟨?_, ?_, by decide, by decide, by decide, by decide, by decide, rfl, rfl⟩
  · cases form with
    | nil => rfl
    | cons x rest =>
      cases x <;> first | rfl | exact get_special_symbol _ _
  · unfold compile_form general_call
    congr 1
    funext scope
    split
    · rfl
    · cases get_special form with
      | none => rfl
      | some helper => cases helper <;> rfl

/-! ## C21: live temporaries -/

set_option maxHeartbeats 4000000 in
/-- C21 fails in the code: with `+` bound to a host function, the call
`(+ (do 1) 2)` compiles to `CST 0 0 ; I16 1 1 ; I16 1 2 ; PSK 2 1 1 ; TCL 0`:
both arguments are computed into the temporary slot 1, the second over the
first, and the two argument operands of `PSK` are the same slot.  The slot that
`compiler_get_local` hands out in the scope of the `do` is a copy of the
`nextLocal` of the enclosing scope, which `compiler_pop_scope` does not write
back, so the enclosing scope hands the same slot out again while the first
temporary is live. -/
theorem live_temporaries_share_slot :
    compiled (dst_compile env_S3 form_call_do 1000) =
      some { byteCode := [.op .CST, .u16 0, .u16 0, .op .I16, .u16 1, .u16 1,
                          .op .I16, .u16 1, .u16 2, .op .PSK, .u16 2, .u16 1, .u16 1,
                          .op .TCL, .u16 0]
             literals := [.cfunction 1], locals := 2, arity := 0, flags := no_flags } := by
  simp [form_call_do, env_S3, env_mutable, no_flags, Result.funcdefs, compiled, dst_compile, compile_value_succ, compile_value_body,
    compile_nonref_type, compile_literal, compiler_push_scope, bind, pure, Comp.bind, getc, setc,
    form_options_default, compiler_get_target, compiler_get_temp, compiler_tail,
    compiler_get_local, compiler_free_local, compiler_drop_slot, scope_read, scope_write,
    dst_buffer_push_op, dst_buffer_push_u16, dst_buffer_push_i16, dst_buffer_push_i32, int_word,
    DstBuffer.put, DstBuffer.skip, buffer_skip, compiler_return, buffer_count,
    compiler_gen_funcdef, buffer_set_count, compiler_pop_scope, c_error, c_error1,
    DstValue.isNil, compile_form, get_special, name_at, compile_function, form_at,
    compile_function_params, compiler_declare_symbol, equal_cstr, DstValue.asString,
    DstValue.isSymbol, dst_table_put, compile_block, compile_block_loop, compile_symbol,
    symbol_resolve, symbol_resolve_scopes, dst_table_get, dst_equals, DstValue.asInteger,
    compiler_add_literal, nil_slot, compile_symbol_touch, scope_parent, compile_if, compile_do,
    compile_def, compile_while, compile_args, compiler_realize_slot, compiler_coerce_slot,
    compiler_tracker_free, compiler_tracker_free_loop, compiler_tracker_write,
    compiler_tracker_write_loop, compiler_tracker_push, tracker_init, dst_string_cvs,
    dst_string_cv, undefined_read, recursion_guard_enter, recursion_guard_leave]

/-! ## C22: scope balance -/

set_option maxHeartbeats 4000000 in
/-- C22 fails in the code: compiled in the root scope, the form `(while (do))`
returns normally (with the nil slot) and leaves two scopes on the chain where
there was one: `compile_while` returns as soon as the condition is the nil
slot, before its `compiler_pop_scope`.  The `compiler_gen_funcdef` of
`dst_compile` then pops that scope, and the function scope that `dst_compile`
pushed is still on the chain when the compilation is over. -/
theorem while_nil_leaves_scope :
    (root_state env_empty 1000).scopes.length = 1 ∧
    Result.value (compile_value 1000 form_options_default form_while_nil
      (root_state env_empty 1000)) = some nil_slot ∧
    (Result.scopes (compile_value 1000 form_options_default form_while_nil
      (root_state env_empty 1000))).length = 2 ∧
    (Result.scopes (dst_compile env_empty form_while_nil 1000)).length = 1 := by
  refine ⟨rfl, ?_, ?_, ?_⟩
  · simp [Result.value, form_while_nil, root_state, Result.funcdefs, compiled, dst_compile, compile_value_succ, compile_value_body,
    compile_nonref_type, compile_literal, compiler_push_scope, bind, pure, Comp.bind, getc, setc,
    form_options_default, compiler_get_target, compiler_get_temp, compiler_tail,
    compiler_get_local, compiler_free_local, compiler_drop_slot, scope_read, scope_write,
    dst_buffer_push_op, dst_buffer_push_u16, dst_buffer_push_i16, dst_buffer_push_i32, int_word,
    DstBuffer.put, DstBuffer.skip, buffer_skip, compiler_return, buffer_count,
    compiler_gen_funcdef, buffer_set_count, compiler_pop_scope, c_error, c_error1,
    DstValue.isNil, compile_form, get_special, name_at, compile_function, form_at,
    compile_function_params, compiler_declare_symbol, equal_cstr, DstValue.asString,
    DstValue.isSymbol, dst_table_put, compile_block, compile_block_loop, compile_symbol,
    symbol_resolve, symbol_resolve_scopes, dst_table_get, dst_equals, DstValue.asInteger,
    compiler_add_literal, nil_slot, compile_symbol_touch, scope_parent, compile_if, compile_do,
    compile_def, compile_while, compile_args, compiler_realize_slot, compiler_coerce_slot,
    compiler_tracker_free, compiler_tracker_free_loop, compiler_tracker_write,
    compiler_tracker_write_loop, compiler_tracker_push, tracker_init, dst_string_cvs,
    dst_string_cv, undefined_read, recursion_guard_enter, recursion_guard_leave]
  · simp [Result.scopes, form_while_nil, root_state, Result.funcdefs, compiled, dst_compile, compile_value_succ, compile_value_body,
    compile_nonref_type, compile_literal, compiler_push_scope, bind, pure, Comp.bind, getc, setc,
    form_options_default, compiler_get_target, compiler_get_temp, compiler_tail,
    compiler_get_local, compiler_free_local, compiler_drop_slot, scope_read, scope_write,
    dst_buffer_push_op, dst_buffer_push_u16, dst_buffer_push_i16, dst_buffer_push_i32, int_word,
    DstBuffer.put, DstBuffer.skip, buffer_skip, compiler_return, buffer_count,
    compiler_gen_funcdef, buffer_set_count, compiler_pop_scope, c_error, c_error1,
    DstValue.isNil, compile_form, get_special, name_at, compile_function, form_at,
    compile_function_params, compiler_declare_symbol, equal_cstr, DstValue.asString,
    DstValue.isSymbol, dst_table_put, compile_block, compile_block_loop, compile_symbol,
    symbol_resolve, symbol_resolve_scopes, dst_table_get, dst_equals, DstValue.asInteger,
    compiler_add_literal, nil_slot, compile_symbol_touch, scope_parent, compile_if, compile_do,
    compile_def, compile_while, compile_args, compiler_realize_slot, compiler_coerce_slot,
    compiler_tracker_free, compiler_tracker_free_loop, compiler_tracker_write,
    compiler_tracker_write_loop, compiler_tracker_push, tracker_init, dst_string_cvs,
    dst_string_cv, undefined_read, recursion_guard_enter, recursion_guard_leave]
  · simp [Result.scopes, form_while_nil, Result.funcdefs, compiled, dst_compile, compile_value_succ, compile_value_body,
    compile_nonref_type, compile_literal, compiler_push_scope, bind, pure, Comp.bind, getc, setc,
    form_options_default, compiler_get_target, compiler_get_temp, compiler_tail,
    compiler_get_local, compiler_free_local, compiler_drop_slot, scope_read, scope_write,
    dst_buffer_push_op, dst_buffer_push_u16, dst_buffer_push_i16, dst_buffer_push_i32, int_word,
    DstBuffer.put, DstBuffer.skip, buffer_skip, compiler_return, buffer_count,
    compiler_gen_funcdef, buffer_set_count, compiler_pop_scope, c_error, c_error1,
    DstValue.isNil, compile_form, get_special, name_at, compile_function, form_at,
    compile_function_params, compiler_declare_symbol, equal_cstr, DstValue.asString,
    DstValue.isSymbol, dst_table_put, compile_block, compile_block_loop, compile_symbol,
    symbol_resolve, symbol_resolve_scopes, dst_table_get, dst_equals, DstValue.asInteger,
    compiler_add_literal, nil_slot, compile_symbol_touch, scope_parent, compile_if, compile_do,
    compile_def, compile_while, compile_args, compiler_realize_slot, compiler_coerce_slot,
    compiler_tracker_free, compiler_tracker_free_loop, compiler_tracker_write,
    compiler_tracker_write_loop, compiler_tracker_push, tracker_init, dst_string_cvs,
    dst_string_cv, undefined_read, recursion_guard_enter, recursion_guard_leave]

/-! ## C23: literal operands -/

set_option maxHeartbeats 4000000 in
/-- C23 fails in the code: for `(fn [] (while (do)))` the definition of the
top-level function has the words `CLN 0 0 ; RET 0` and no literal: the literal
index 0 of its `CLN` is not below the length of its literal array.  The scope
that `compile_while` leaves on the chain makes the `compiler_gen_funcdef` of
`dst_compile` pop the scope of the inner function and take the literal array
of that scope, while the definition of the inner function went to the literal
array of the root scope. -/
theorem literal_index_out_of_range :
    Result.funcdefs (dst_compile env_empty form_fn_while_nil 1000) =
      [{ byteCode := [.op .RTN], literals := [], locals := 0, arity := 0, flags := no_flags },
       { byteCode := [.op .CLN, .u16 0, .u16 0, .op .RET, .u16 0], literals := [],
         locals := 0, arity := 0, flags := no_flags }] := by
  (dsimp [form_fn_while_nil, form_while_nil, no_flags, drop_succ_nil, take_succ_nil, get_special_apply, get_special_do, get_special_def,
    get_special_if, get_special_fn, get_special_quote, get_special_tran, get_special_var,
    get_special_varset, get_special_while, get_special_plus, get_special_global_def,
    get_special_global_var, Result.funcdefs, compiled, dst_compile, compile_value_succ, compile_value_body,
    compile_nonref_type, compile_literal, compiler_push_scope, bind, pure, Comp.bind, getc, setc,
    form_options_default, compiler_get_target, compiler_get_temp, compiler_tail,
    compiler_get_local, compiler_free_local, compiler_drop_slot, scope_read, scope_write,
    dst_buffer_push_op, dst_buffer_push_u16, dst_buffer_push_i16, dst_buffer_push_i32, int_word,
    DstBuffer.put, DstBuffer.skip, buffer_skip, compiler_return, buffer_count,
    compiler_gen_funcdef, buffer_set_count, compiler_pop_scope, c_error, c_error1,
    DstValue.isNil, compile_form, compile_function, form_at,
    compile_function_params, compiler_declare_symbol, equal_cstr, DstValue.asString,
    DstValue.isSymbol, dst_table_put, compile_block, compile_block_loop, compile_symbol,
    symbol_resolve, symbol_resolve_scopes, dst_table_get, dst_equals, DstValue.asInteger,
    compiler_add_literal, nil_slot, compile_symbol_touch, scope_parent, compile_if, compile_do,
    compile_def, compile_while, compile_args, compiler_realize_slot, compiler_coerce_slot,
    compiler_tracker_free, compiler_tracker_free_loop, compiler_tracker_write,
    compiler_tracker_write_loop, compiler_tracker_push, tracker_init, dst_string_cvs,
    dst_string_cv, undefined_read, recursion_guard_enter, recursion_guard_leave] <;> simp [form_fn_while_nil, form_while_nil, no_flags, Result.funcdefs, compiled, dst_compile, compile_value_succ, compile_value_body,
    compile_nonref_type, compile_literal, compiler_push_scope, bind, pure, Comp.bind, getc, setc,
    form_options_default, compiler_get_target, compiler_get_temp, compiler_tail,
    compiler_get_local, compiler_free_local, compiler_drop_slot, scope_read, scope_write,
    dst_buffer_push_op, dst_buffer_push_u16, dst_buffer_push_i16, dst_buffer_push_i32, int_word,
    DstBuffer.put, DstBuffer.skip, buffer_skip, compiler_return, buffer_count,
    compiler_gen_funcdef, buffer_set_count, compiler_pop_scope, c_error, c_error1,
    DstValue.isNil, compile_form, get_special, name_at, compile_function, form_at,
    compile_function_params, compiler_declare_symbol, equal_cstr, DstValue.asString,
    DstValue.isSymbol, dst_table_put, compile_block, compile_block_loop, compile_symbol,
    symbol_resolve, symbol_resolve_scopes, dst_table_get, dst_equals, DstValue.asInteger,
    compiler_add_literal, nil_slot, compile_symbol_touch, scope_parent, compile_if, compile_do,
    compile_def, compile_while, compile_args, compiler_realize_slot, compiler_coerce_slot,
    compiler_tracker_free, compiler_tracker_free_loop, compiler_tracker_write,
    compiler_tracker_write_loop, compiler_tracker_push, tracker_init, dst_string_cvs,
    dst_string_cv, undefined_read, recursion_guard_enter, recursion_guard_leave])

/-! ## C24: `if` and named locals -/

set_option maxHeartbeats 8000000 in
/-- C24 fails in the code: in `(fn [x] (+ (if x 1 2) x))`, with `+` bound to a
host function, the parameter `x` is in slot 0 and the code of the function is
`CST 1 0 ; JIF 0 +10 ; I16 0 1 ; JMP +6 ; I16 0 2 ; PSK 2 0 0 ; TCL 1`: both
branches of the `if` have slot 0 as their destination, and the second argument
of the call is read from slot 0 after it was overwritten.  The condition is
compiled with `canChoose` set and comes back as the slot of `x` itself, which
`compile_if` then makes the target of the branches. -/
theorem if_overwrites_local :
    Result.funcdefs (dst_compile env_S3 form_if_local 1000) =
      [{ byteCode := [.op .CST, .u16 1, .u16 0, .op .JIF, .u16 0, .u16 10, .u16 0,
                      .op .I16, .u16 0, .u16 1, .op .JMP, .u16 6, .u16 0,
                      .op .I16, .u16 0, .u16 2, .op .PSK, .u16 2, .u16 0, .u16 0,
                      .op .TCL, .u16 1]
         literals := [.cfunction 1], locals := 2, arity := 1, flags := no_flags },
       { byteCode := [.op .CLN, .u16 0, .u16 0, .op .RET, .u16 0]
         literals := [.funcdef (.fresh 0)], locals := 2, arity := 0, flags := no_flags }] := by
  (dsimp [form_if_local, env_S3, env_mutable, no_flags, drop_succ_nil, take_succ_nil, get_special_apply, get_special_do, get_special_def,
    get_special_if, get_special_fn, get_special_quote, get_special_tran, get_special_var,
    get_special_varset, get_special_while, get_special_plus, get_special_global_def,
    get_special_global_var, Result.funcdefs, compiled, dst_compile, compile_value_succ, compile_value_body,
    compile_nonref_type, compile_literal, compiler_push_scope, bind, pure, Comp.bind, getc, setc,
    form_options_default, compiler_get_target, compiler_get_temp, compiler_tail,
    compiler_get_local, compiler_free_local, compiler_drop_slot, scope_read, scope_write,
    dst_buffer_push_op, dst_buffer_push_u16, dst_buffer_push_i16, dst_buffer_push_i32, int_word,
    DstBuffer.put, DstBuffer.skip, buffer_skip, compiler_return, buffer_count,
    compiler_gen_funcdef, buffer_set_count, compiler_pop_scope, c_error, c_error1,
    DstValue.isNil, compile_form, compile_function, form_at,
    compile_function_params, compiler_declare_symbol, equal_cstr, DstValue.asString,
    DstValue.isSymbol, dst_table_put, compile_block, compile_block_loop, compile_symbol,
    symbol_resolve, symbol_resolve_scopes, dst_table_get, dst_equals, DstValue.asInteger,
    compiler_add_literal, nil_slot, compile_symbol_touch, scope_parent, compile_if, compile_do,
    compile_def, compile_while, compile_args, compiler_realize_slot, compiler_coerce_slot,
    compiler_tracker_free, compiler_tracker_free_loop, compiler_tracker_write,
    compiler_tracker_write_loop, compiler_tracker_push, tracker_init, dst_string_cvs,
    dst_string_cv, undefined_read, recursion_guard_enter, recursion_guard_leave] <;> simp [form_if_local, env_S3, env_mutable, no_flags, Result.funcdefs, compiled, dst_compile, compile_value_succ, compile_value_body,
    compile_nonref_type, compile_literal, compiler_push_scope, bind, pure, Comp.bind, getc, setc,
    form_options_default, compiler_get_target, compiler_get_temp, compiler_tail,
    compiler_get_local, compiler_free_local, compiler_drop_slot, scope_read, scope_write,
    dst_buffer_push_op, dst_buffer_push_u16, dst_buffer_push_i16, dst_buffer_push_i32, int_word,
    DstBuffer.put, DstBuffer.skip, buffer_skip, compiler_return, buffer_count,
    compiler_gen_funcdef, buffer_set_count, compiler_pop_scope, c_error, c_error1,
    DstValue.isNil, compile_form, get_special, name_at, compile_function, form_at,
    compile_function_params, compiler_declare_symbol, equal_cstr, DstValue.asString,
    DstValue.isSymbol, dst_table_put, compile_block, compile_block_loop, compile_symbol,
    symbol_resolve, symbol_resolve_scopes, dst_table_get, dst_equals, DstValue.asInteger,
    compiler_add_literal, nil_slot, compile_symbol_touch, scope_parent, compile_if, compile_do,
    compile_def, compile_while, compile_args, compiler_realize_slot, compiler_coerce_slot,
    compiler_tracker_free, compiler_tracker_free_loop, compiler_tracker_write,
    compiler_tracker_write_loop, compiler_tracker_push, tracker_init, dst_string_cvs,
    dst_string_cv, undefined_read, recursion_guard_enter, recursion_guard_leave])

/-! ## The layout of the code of `if` -/

theorem jump_offset_jif_words (A X : List Word) (i : Nat) (off : Int)
    (h1 : -2147483648 ≤ off) (h2 : off < 2147483648) :
    jump_offset (A ++ jif_words i off ++ X) A.length = some off := by
  obtain ⟨lo, hi, hlo, hhi, hdec⟩ := int_word_decode off h1 h2
  have h := jump_offset_append_right A (jif_words i off ++ X) 0
  rw [Nat.add_zero] at h
  rw [List.append_assoc, h]
  simp [jif_words, jump_offset, hlo, hhi, hdec]

theorem jump_offset_jmp_words (A X : List Word) (off : Int)
    (h1 : -2147483648 ≤ off) (h2 : off < 2147483648) :
    jump_offset (A ++ jmp_words off ++ X) A.length = some off := by
  obtain ⟨lo, hi, hlo, hhi, hdec⟩ := int_word_decode off h1 h2
  have h := jump_offset_append_right A (jmp_words off ++ X) 0
  rw [Nat.add_zero] at h
  rw [List.append_assoc, h]
  cases X <;> simp [jmp_words, jump_offset, hlo, hhi, hdec]

theorem if_layout_wp (cv : FormOptions → DstValue → Comp Slot)
    (hcv : ∀ o x, Spec (cv o x) (fun _ _ => True))
    (opts : FormOptions) (h f1 f2 f3 : DstValue) (ht : opts.isTail = false)
    (c : DstCompiler) (hb : BufOK c) (hd : GoodDefs c) :
    wp (compile_if cv opts [h, f1, f2, f3]) (fun r c1 => IfLayout cv opts f1 f2 f3 c r c1) c := by
  have hopts : ∀ i : Nat, ({ opts with canChoose := false, target := i } : FormOptions) =
      { target := i, resultUnused := opts.resultUnused, canChoose := false, isTail := false } := by
    intro i
    rw [← ht]
  unfold compile_if
  simp only [wp_bind, wp_compiler_tail]
  intro scope hscope
  simp only [ht, List.length_cons, List.length_nil, form_at, List.get?_cons_succ,
    List.get?_cons_zero, wp_pure, wp_bind, Nat.zero_add, Nat.reduceAdd, Nat.reduceLT,
    Nat.reduceGT, decide_False, Bool.or_self, Bool.false_eq_true, if_false, beq_self_eq_true,
    if_true, Bool.not_false, Bool.and_self]
  apply wp_intro
  intro cond c1 hrun1
  obtain ⟨hb1, hd1, wc, hwc, _⟩ := wp_of_ok (hcv _ f1 c hb hd) hrun1
  by_cases hnil : cond.isNil = true
  · simp only [hnil, if_true]
    apply wp_intro
    intro r c2 _
    exact ⟨cond, c1, wc, hrun1, hwc, fun h => by rw [hnil] at h; cases h⟩
  simp only [hnil, if_false, wp_bind, wp_buffer_count, wp_buffer_skip, wp_pure,
    Bool.false_eq_true, Nat.zero_add, beq_self_eq_true, if_true, Bool.not_false, Bool.and_self]
  obtain ⟨hbs, P4, hP4, hP4len⟩ := bufOK_skip 8 (by decide) hb1
  apply wp_intro
  intro left c2 hrun2
  obtain ⟨hb2, hd2, ft, hw2, _⟩ := wp_of_ok (hcv _ f2 _ hbs hd1) hrun2
  obtain ⟨hbs2, P3, hP3, hP3len⟩ := bufOK_skip 6 (by decide) hb2
  apply wp_of_spec (spec_drop_slot _ _) hbs2 hd2
  intro _ c3 w hb3 hd3 hw3 he
  subst he
  simp only [wp_buffer_set_count, wp_push_op, wp_push_u16, wp_push_i32]
  have hP4len4 : P4.length = 4 := hP4len
  have hP3len3 : P3.length = 3 := hP3len
  have ha1 : (c1.buffer.skip 8).active = c.buffer.active ++ wc ++ P4 := by
    rw [hP4, hwc]
  have ha2 : c2.buffer.active = c.buffer.active ++ wc ++ P4 ++ ft := by
    rw [hw2]
    exact congrArg (· ++ ft) ha1
  have ha2s : (c2.buffer.skip 6).active = c.buffer.active ++ wc ++ P4 ++ ft ++ P3 := by
    rw [hP3, ha2]
  have ha3 : c3.buffer.active = (c.buffer.active ++ wc) ++ (P4 ++ (ft ++ P3)) := by
    rw [hw3, List.append_nil]
    refine ha2s.trans ?_
    simp
  have hc1 := active_count hb1
  have hc2 := active_count hb2
  have hc3 := active_count hb3
  rw [hwc] at hc1
  rw [ha2] at hc2
  rw [ha3] at hc3
  simp only [List.length_append] at hc1 hc2 hc3
  have hv1 : Int.ofNat ((c3.buffer.count - c1.buffer.count) / 2)
      = Int.ofNat (4 + ft.length + 3) := by
    congr 1; omega
  rw [hv1]
  obtain ⟨hbp, hap⟩ := patch_words c3 (c.buffer.active ++ wc) P4 (ft ++ P3)
    (jif_words cond.index (Int.ofNat (4 + ft.length + 3)))
    c1.buffer.count hb3 ha3 (by simp [hP4len4, jif_words]) (by
      rw [hc1]; simp only [List.length_append])
  apply wp_intro
  intro right c5 hrun3
  obtain ⟨hb5, hd5, fe, hw5, _⟩ := wp_of_ok (hcv _ f3 _ hbp hd3) hrun3
  apply wp_of_spec (spec_drop_slot _ _) hb5 hd5
  intro _ c6 w hb6 hd6 hw6 he
  subst he
  have hae : ({ List.foldl DstBuffer.put { c3.buffer with count := c1.buffer.count }
      (jif_words cond.index (Int.ofNat (4 + ft.length + 3))) with
        count := c3.buffer.count } : DstBuffer).active =
      c.buffer.active ++ wc ++ jif_words cond.index (Int.ofNat (4 + ft.length + 3)) ++ ft ++ P3 := by
    rw [hap]
    simp
  have ha6 : c6.buffer.active = (c.buffer.active ++ wc ++
      jif_words cond.index (Int.ofNat (4 + ft.length + 3)) ++ ft) ++ (P3 ++ fe) := by
    rw [hw6, List.append_nil, hw5]
    refine (congrArg (· ++ fe) hae).trans ?_
    simp
  have hc6 := active_count hb6
  rw [ha6] at hc6
  simp only [List.length_append, jif_words, List.length_cons, List.length_nil] at hc6
  have hv2 : Int.ofNat ((c6.buffer.count - c2.buffer.count) / 2)
      = Int.ofNat (3 + fe.length) := by
    congr 1; omega
  rw [hv2]
  obtain ⟨hbq, haq⟩ := patch_words c6 _ P3 fe
    (jmp_words (Int.ofNat (3 + fe.length)))
    c2.buffer.count hb6 ha6 (by simp [hP3len3, jmp_words]) (by
      rw [hc2]
      simp only [List.length_append, jif_words, List.length_cons, List.length_nil]
      omega)
  refine ⟨cond, c1, wc, hrun1, hwc, fun _ => ?_⟩
  refine ⟨P4, left, c2, ft, _, P3, right, c5, fe, ha1, hP4len4, ?_, ha2, ha2s, hP3len3, hae,
    ?_, hw5, ?_, rfl⟩
  · rw [hopts]
    exact hrun2
  · rw [hopts]
    exact hrun3
  · refine haq.trans ?_
    simp

/-- C25: in a compiler whose buffer is consistent, with a `cv` that only
appends to the code, every run of `compile_if` on a four-element form
`(if f1 f2 f3)` not in tail position is laid out as `IfLayout` says.  When the
slot of the condition is not nil the code emitted is
`[code of f1][JIF cond off1][code of f2][JMP off2][code of f3]`: the `JIF` and
the `JMP` are written over the four and the three words reserved for them, no
other word changes and the length of the code is the one it had before each
patch.  `off1 = 4 + words(f2) + 3` and `off2 = 3 + words(f3)` are the offsets
the two instructions decode to; the first added to the position of the `JIF`
is the position of the first word of the code of `f3`, the second added to the
position of the `JMP` is the position after the code of `f3`. -/
theorem if_backpatching (cv : FormOptions → DstValue → Comp Slot)
    (hcv : ∀ o x, Spec (cv o x) (fun _ _ => True))
    (opts : FormOptions) (h f1 f2 f3 : DstValue) (ht : opts.isTail = false)
    (c c1 : DstCompiler) (r : Slot) (hb : BufOK c) (hd : GoodDefs c)
    (hrun : compile_if cv opts [h, f1, f2, f3] c = .ok r c1) :
    IfLayout cv opts f1 f2 f3 c r c1 ∧
    ∀ (wc wt we : List Word) (index : Nat),
      c1.buffer.active = c.buffer.active ++ wc ++
        jif_words index (Int.ofNat (4 + wt.length + 3)) ++ wt ++
        jmp_words (Int.ofNat (3 + we.length)) ++ we →
      wt.length < code_limit → we.length < code_limit →
      jump_offset c1.buffer.active (c.buffer.active ++ wc).length =
        some (Int.ofNat (4 + wt.length + 3)) ∧
      (c.buffer.active ++ wc).length + (4 + wt.length + 3) =
        (c.buffer.active ++ wc ++ jif_words index (Int.ofNat (4 + wt.length + 3)) ++ wt ++
          jmp_words (Int.ofNat (3 + we.length))).length ∧
      jump_offset c1.buffer.active
          (c.buffer.active ++ wc ++ jif_words index (Int.ofNat (4 + wt.length + 3)) ++
            wt).length =
        some (Int.ofNat (3 + we.length)) ∧
      (c.buffer.active ++ wc ++ jif_words index (Int.ofNat (4 + wt.length + 3)) ++ wt).length +
          (3 + we.length) = c1.buffer.active.length := by
  refine ⟨wp_of_ok (if_layout_wp cv hcv opts h f1 f2 f3 ht c hb hd) hrun, ?_⟩
  intro wc wt we index hact hwt hwe
  unfold code_limit at hwt hwe
  rw [hact]
  refine ⟨?_, ?_, ?_, ?_⟩
  · have h1 := jump_offset_jif_words (c.buffer.active ++ wc)
      (wt ++ jmp_words (Int.ofNat (3 + we.length)) ++ we) index
      (Int.ofNat (4 + wt.length + 3)) (by simp; omega) (by simp; omega)
    simpa using h1
  · simp [jif_words, jmp_words]
    omega
  · have h1 := jump_offset_jmp_words
      (c.buffer.active ++ wc ++ jif_words index (Int.ofNat (4 + wt.length + 3)) ++ wt) we
      (Int.ofNat (3 + we.length)) (by simp; omega) (by simp; omega)
    simpa using h1
  · simp [jif_words, jmp_words]
    omega

/-- The buffer of the state a compilation starts in is consistent, and the state
holds no function definition. -/
theorem root_state_ok (env : DstEnv) (guard : Nat) :
    BufOK (root_state env guard) ∧ GoodDefs (root_state env guard) :=
  ⟨⟨rfl, by simp [root_state]⟩, fun d hd => by simp [root_state] at hd⟩

/-- The form `(if 1 2 3)` compiles in the root scope. -/
theorem if_example_run :
    ∃ r c1, compile_if (compile_value 10) form_options_default
      [.symbol "if", .integer 1, .integer 2, .integer 3] (root_state env_empty 1000) =
        .ok r c1 := by
  simp [root_state, env_empty, Result.funcdefs, compiled, dst_compile, compile_value_succ, compile_value_body,
    compile_nonref_type, compile_literal, compiler_push_scope, bind, pure, Comp.bind, getc, setc,
    form_options_default, compiler_get_target, compiler_get_temp, compiler_tail,
    compiler_get_local, compiler_free_local, compiler_drop_slot, scope_read, scope_write,
    dst_buffer_push_op, dst_buffer_push_u16, dst_buffer_push_i16, dst_buffer_push_i32, int_word,
    DstBuffer.put, DstBuffer.skip, buffer_skip, compiler_return, buffer_count,
    compiler_gen_funcdef, buffer_set_count, compiler_pop_scope, c_error, c_error1,
    DstValue.isNil, compile_form, get_special, name_at, compile_function, form_at,
    compile_function_params, compiler_declare_symbol, equal_cstr, DstValue.asString,
    DstValue.isSymbol, dst_table_put, compile_block, compile_block_loop, compile_symbol,
    symbol_resolve, symbol_resolve_scopes, dst_table_get, dst_equals, DstValue.asInteger,
    compiler_add_literal, nil_slot, compile_symbol_touch, scope_parent, compile_if, compile_do,
    compile_def, compile_while, compile_args, compiler_realize_slot, compiler_coerce_slot,
    compiler_tracker_free, compiler_tracker_free_loop, compiler_tracker_write,
    compiler_tracker_write_loop, compiler_tracker_push, tracker_init, dst_string_cvs,
    dst_string_cv, undefined_read, recursion_guard_enter, recursion_guard_leave]

theorem if_backpatching_witness :
    ∃ r c1, compile_if (compile_value 10) form_options_default
        [.symbol "if", .integer 1, .integer 2, .integer 3] (root_state env_empty 1000) =
          .ok r c1 ∧
      IfLayout (compile_value 10) form_options_default (.integer 1) (.integer 2) (.integer 3)
        (root_state env_empty 1000) r c1 := by
  obtain ⟨r, c1, hrun⟩ := if_example_run
  exact ⟨r, c1, hrun, (if_backpatching (compile_value 10)
    (fun o x => spec_mono (spec_value 10 o x) (fun _ _ _ => trivial))
    form_options_default (.symbol "if") (.integer 1) (.integer 2) (.integer 3) rfl
    (root_state env_empty 1000) c1 r (root_state_ok env_empty 1000).1
    (root_state_ok env_empty 1000).2 hrun).1⟩

/-! ## The layout of the code of `while` -/

theorem while_layout_wp (cv : FormOptions → DstValue → Comp Slot)
    (hcv : ∀ o x, Spec (cv o x) (FormFrag o))
    (opts : FormOptions) (h f1 : DstValue) (rest : List DstValue)
    (c : DstCompiler) (hb : BufOK c) (hd : GoodDefs c) :
    wp (compile_while cv opts (h :: f1 :: rest))
      (fun r c1 => WhileLayout cv opts (h :: f1 :: rest) f1 c r c1) c := by
  unfold compile_while
  simp only [wp_bind, wp_buffer_count]
  apply wp_intro
  intro scope cs hpush
  obtain ⟨hbs, hds, w, hws, he⟩ := wp_of_ok (spec_push_scope true c hb hd) hpush
  subst he
  simp only [form_at, List.get?_cons_succ, List.get?_cons_zero, wp_pure]
  apply wp_intro
  intro cond c2 hrun1
  obtain ⟨hb2, hd2, fc, hw2, _⟩ := wp_of_ok (hcv _ f1 cs hbs hds) hrun1
  have ha2 : c2.buffer.active = c.buffer.active ++ fc := by
    rw [hw2, hws, List.append_nil]
  by_cases hnil : cond.isNil = true
  · simp only [hnil, if_true, wp_pure]
    exact ⟨scope, cs, cond, c2, fc, hpush, hrun1, ha2, fun h => by rw [hnil] at h; cases h⟩
  simp only [hnil, if_false, Bool.false_eq_true, wp_bind, wp_buffer_count, wp_buffer_skip]
  obtain ⟨hbk, P4, hP4, hP4len⟩ := bufOK_skip 8 (by decide) hb2
  have hP4len4 : P4.length = 4 := hP4len
  apply wp_intro
  intro body c3 hrun2
  obtain ⟨hb3, hd3, B, hw3, _⟩ := wp_of_ok (spec_block cv hcv _ _ 2 _ hbk hd2) hrun2
  apply wp_of_spec spec_compiler_tail hb3 hd3
  intro tail c3a w hb3a hd3a hw3a he
  subst he
  apply wp_of_spec (spec_drop_slot _ _) hb3a hd3a
  intro _ c4 w hb4 hd4 hw4 he
  subst he
  apply wp_of_spec (spec_push_op .JMP) hb4 hd4
  intro _ c4a w hb4a hd4a hw4a he
  subst he
  apply wp_of_spec (spec_push_i32 _) hb4a hd4a
  intro _ c5 w hb5 hd5 hw5 he
  subst he
  have ha1 : (c2.buffer.skip 8).active = c.buffer.active ++ fc ++ P4 := by
    rw [hP4, ha2]
  have ha3 : c3.buffer.active = c.buffer.active ++ fc ++ P4 ++ B := by
    rw [hw3]
    exact congrArg (· ++ B) ha1
  have ha4 : c4.buffer.active = (c.buffer.active ++ fc) ++ (P4 ++ B) := by
    rw [hw4, List.append_nil, hw3a, List.append_nil, ha3]
    simp
  have hc0 := active_count hb
  have hc2 := active_count hb2
  have hc4 := active_count hb4
  rw [ha2] at hc2
  rw [ha4] at hc4
  simp only [List.length_append] at hc2 hc4
  have hv2 : c4.buffer.count - c.buffer.count = 2 * (fc.length + 4 + B.length) := by omega
  have ha5 : c5.buffer.active = (c.buffer.active ++ fc) ++ (P4 ++ (B ++
      jmp_words (Int.tdiv (to_int32 (2 * (fc.length + 4 + B.length))) (-2)))) := by
    rw [hw5, hw4a, ha4, hv2]
    simp [jmp_words]
  have hc5 := active_count hb5
  rw [ha5] at hc5
  simp only [List.length_append, jmp_words, List.length_cons, List.length_nil] at hc5
  have hv1 : c5.buffer.count - c2.buffer.count = 2 * (4 + B.length + 3) := by omega
  simp only [wp_buffer_set_count, wp_push_op, wp_push_u16, wp_push_i32, wp_bind]
  rw [hv1]
  obtain ⟨hbp, hap⟩ := patch_words c5 (c.buffer.active ++ fc) P4 (B ++
      jmp_words (Int.tdiv (to_int32 (2 * (fc.length + 4 + B.length))) (-2)))
    (jif_words cond.index (Int.tdiv (to_int32 (2 * (4 + B.length + 3))) 2))
    c2.buffer.count hb5 ha5 (by simp [hP4len4, jif_words]) (by
      rw [hc2]; simp only [List.length_append])
  apply wp_of_spec spec_pop_scope hbp hd5
  intro _ c6 w hb6 hd6 hw6 he
  subst he
  have hact : c6.buffer.active = c.buffer.active ++ fc ++
      jif_words cond.index (Int.tdiv (to_int32 (2 * (4 + B.length + 3))) 2) ++ B ++
      jmp_words (Int.tdiv (to_int32 (2 * (fc.length + 4 + B.length))) (-2)) := by
    rw [hw6, List.append_nil]
    refine hap.trans ?_
    simp
  have hres : wp (if opts.resultUnused = true then pure nil_slot else pure cond)
      (fun r c1 => r = (if opts.resultUnused = true then nil_slot else cond) ∧ c1 = c6) c6 := by
    split <;> exact ⟨rfl, rfl⟩
  refine wp_mono _ _ _ _ ?_ hres
  rintro r c7 ⟨hr, hc7⟩
  subst hc7
  exact ⟨scope, cs, cond, c2, fc, hpush, hrun1, ha2, fun _ =>
    ⟨P4, body, c3, B, ha1, hP4len4, hrun2, ha3, hact, hr⟩⟩

set_option maxHeartbeats 8000000 in
/-- C27 fails in the code: in `(fn [x] (fn [] (do x)))` the inner function
reads the parameter of the enclosing function with `UPV 0 1 0`, and its
definition has neither NEEDS_PARENT nor NEEDS_ENV.  `compile_symbol` sets the
flag on `c->tail`, which is the scope of the `do`, and `compiler_pop_scope`
does not carry the flags of a scope over to its parent. -/
theorem upvalue_in_do_sets_no_flag :
    Result.funcdefs (dst_compile env_empty form_upvalue_in_do 1000) =
      [{ byteCode := [.op .UPV, .u16 0, .u16 1, .u16 0, .op .RET, .u16 0]
         literals := [], locals := 1, arity := 0, flags := no_flags },
       { byteCode := [.op .CLN, .u16 1, .u16 0, .op .RET, .u16 1]
         literals := [.funcdef (.fresh 0)], locals := 2, arity := 1, flags := no_flags },
       { byteCode := [.op .CLN, .u16 0, .u16 0, .op .RET, .u16 0]
         literals := [.funcdef (.fresh 1)], locals := 2, arity := 0, flags := no_flags }] := by
  (dsimp [form_upvalue_in_do, no_flags, drop_succ_nil, take_succ_nil, get_special_apply, get_special_do, get_special_def,
    get_special_if, get_special_fn, get_special_quote, get_special_tran, get_special_var,
    get_special_varset, get_special_while, get_special_plus, get_special_global_def,
    get_special_global_var, Result.funcdefs, compiled, dst_compile, compile_value_succ, compile_value_body,
    compile_nonref_type, compile_literal, compiler_push_scope, bind, pure, Comp.bind, getc, setc,
    form_options_default, compiler_get_target, compiler_get_temp, compiler_tail,
    compiler_get_local, compiler_free_local, compiler_drop_slot, scope_read, scope_write,
    dst_buffer_push_op, dst_buffer_push_u16, dst_buffer_push_i16, dst_buffer_push_i32, int_word,
    DstBuffer.put, DstBuffer.skip, buffer_skip, compiler_return, buffer_count,
    compiler_gen_funcdef, buffer_set_count, compiler_pop_scope, c_error, c_error1,
    DstValue.isNil, compile_form, compile_function, form_at,
    compile_function_params, compiler_declare_symbol, equal_cstr, DstValue.asString,
    DstValue.isSymbol, dst_table_put, compile_block, compile_block_loop, compile_symbol,
    symbol_resolve, symbol_resolve_scopes, dst_table_get, dst_equals, DstValue.asInteger,
    compiler_add_literal, nil_slot, compile_symbol_touch, scope_parent, compile_if, compile_do,
    compile_def, compile_while, compile_args, compiler_realize_slot, compiler_coerce_slot,
    compiler_tracker_free, compiler_tracker_free_loop, compiler_tracker_write,
    compiler_tracker_write_loop, compiler_tracker_push, tracker_init, dst_string_cvs,
    dst_string_cv, undefined_read, recursion_guard_enter, recursion_guard_leave] <;> simp [form_upvalue_in_do, no_flags, Result.funcdefs, compiled, dst_compile, compile_value_succ, compile_value_body,
    compile_nonref_type, compile_literal, compiler_push_scope, bind, pure, Comp.bind, getc, setc,
    form_options_default, compiler_get_target, compiler_get_temp, compiler_tail,
    compiler_get_local, compiler_free_local, compiler_drop_slot, scope_read, scope_write,
    dst_buffer_push_op, dst_buffer_push_u16, dst_buffer_push_i16, dst_buffer_push_i32, int_word,
    DstBuffer.put, DstBuffer.skip, buffer_skip, compiler_return, buffer_count,
    compiler_gen_funcdef, buffer_set_count, compiler_pop_scope, c_error, c_error1,
    DstValue.isNil, compile_form, get_special, name_at, compile_function, form_at,
    compile_function_params, compiler_declare_symbol, equal_cstr, DstValue.asString,
    DstValue.isSymbol, dst_table_put, compile_block, compile_block_loop, compile_symbol,
    symbol_resolve, symbol_resolve_scopes, dst_table_get, dst_equals, DstValue.asInteger,
    compiler_add_literal, nil_slot, compile_symbol_touch, scope_parent, compile_if, compile_do,
    compile_def, compile_while, compile_args, compiler_realize_slot, compiler_coerce_slot,
    compiler_tracker_free, compiler_tracker_free_loop, compiler_tracker_write,
    compiler_tracker_write_loop, compiler_tracker_push, tracker_init, dst_string_cvs,
    dst_string_cv, undefined_read, recursion_guard_enter, recursion_guard_leave])

/-! ## Global references and the capture flags -/

/-- The resolver hands back the state it was given. -/
theorem symbol_resolve_state {x : DstValue} {c c1 : DstCompiler} {r : Resolution}
    (h : symbol_resolve x c = .ok r c1) : c1 = c := by
  unfold symbol_resolve at h
  simp only [bind, Comp.bind, compiler_tail, scope_read, getc, pure] at h
  cases hl : c.scopes.length with
  | zero => simp [hl] at h
  | succ n =>
    simp only [hl] at h
    cases hg : c.scopes[n]? with
    | none => simp [hg] at h
    | some s =>
      simp only [List.get?_eq_getElem?, hg] at h
      cases hr : symbol_resolve_scopes s.level x c.scopes.reverse with
      | some r0 =>
        simp only [hr] at h
        cases h
        rfl
      | none =>
        simp only [hr] at h
        split_ifs at h <;> cases h <;> rfl

/-- A global that is a constant is loaded as a literal, which leaves the flags
of every scope as they were. -/
theorem constant_reference_flags (cv : FormOptions → DstValue → Comp Slot)
    (opts : FormOptions) (sym : DstValue) (c : DstCompiler) (r : Resolution)
    (hres : symbol_resolve sym c = .ok r c) (hs : r.status = 2) :
    wp (compile_symbol cv opts sym) (fun _ c1 => SameRel c c1) c := by
  have heq : compile_symbol cv opts sym c =
      (if opts.resultUnused then pure nil_slot else compile_literal opts r.out) c := by
    unfold compile_symbol
    simp [bind, Comp.bind, hres, hs]
  unfold wp
  rw [heq]
  by_cases hu : opts.resultUnused = true
  · simp [hu, pure, sameRel_refl]
  · simp only [hu, if_false]
    exact same_literal c opts r.out c (sameRel_refl c)

/-- Reading a mutable global is the call `(get (quote ref) 0)` compiled in the
state the symbol was met in. -/
theorem mutable_reference_call (cv : FormOptions → DstValue → Comp Slot)
    (opts : FormOptions) (sym : DstValue) (c : DstCompiler) (r : Resolution)
    (hres : symbol_resolve sym c = .ok r c) (hs : r.status = 3) :
    compile_symbol cv opts sym c =
      if opts.resultUnused then .ok nil_slot c
      else cv opts (.tuple [dst_string_cvs "get", quote r.out, .integer 0]) c := by
  unfold compile_symbol
  by_cases hu : opts.resultUnused = true <;> simp [bind, Comp.bind, hres, hs, hu, pure]

/-- Setting a mutable global is the call `(set! (quote ref) 0 right)` compiled
in the state the target was met in, followed by a read of the target. -/
theorem mutable_assign_call (cv : FormOptions → DstValue → Comp Slot)
    (opts : FormOptions) (sym right : DstValue) (c : DstCompiler) (r : Resolution)
    (hres : symbol_resolve sym c = .ok r c) (hs : r.status = 3) :
    compile_assign cv opts sym right c =
      ((cv { form_options_default with isTail := false, resultUnused := true }
          (.tuple [dst_string_cvs "set!", quote r.out, .integer 0, right])) >>=
        fun _ => cv opts sym) c := by
  obtain ⟨n, hn⟩ := resolve_tail hres
  unfold compile_assign
  simp [bind, Comp.bind, hres, hs, hn]

/-- In the root scope of a compilation where `+` is a constant, the symbol `+`
resolves to that constant. -/
theorem plus_resolves_to_constant :
    symbol_resolve (.symbol "+") (root_state env_S3 1000) =
      .ok { status := 2, level := 0, index := 0, flags := 0, out := .cfunction 1 }
        (root_state env_S3 1000) := by
  simp [root_state, env_S3, env_mutable, Result.funcdefs, compiled, dst_compile, compile_value_succ, compile_value_body,
    compile_nonref_type, compile_literal, compiler_push_scope, bind, pure, Comp.bind, getc, setc,
    form_options_default, compiler_get_target, compiler_get_temp, compiler_tail,
    compiler_get_local, compiler_free_local, compiler_drop_slot, scope_read, scope_write,
    dst_buffer_push_op, dst_buffer_push_u16, dst_buffer_push_i16, dst_buffer_push_i32, int_word,
    DstBuffer.put, DstBuffer.skip, buffer_skip, compiler_return, buffer_count,
    compiler_gen_funcdef, buffer_set_count, compiler_pop_scope, c_error, c_error1,
    DstValue.isNil, compile_form, get_special, name_at, compile_function, form_at,
    compile_function_params, compiler_declare_symbol, equal_cstr, DstValue.asString,
    DstValue.isSymbol, dst_table_put, compile_block, compile_block_loop, compile_symbol,
    symbol_resolve, symbol_resolve_scopes, dst_table_get, dst_equals, DstValue.asInteger,
    compiler_add_literal, nil_slot, compile_symbol_touch, scope_parent, compile_if, compile_do,
    compile_def, compile_while, compile_args, compiler_realize_slot, compiler_coerce_slot,
    compiler_tracker_free, compiler_tracker_free_loop, compiler_tracker_write,
    compiler_tracker_write_loop, compiler_tracker_push, tracker_init, dst_string_cvs,
    dst_string_cv, undefined_read, recursion_guard_enter, recursion_guard_leave]

/-- An index below `2^16` is read back from the table as it was stored. -/
theorem literal_index_cast (j : Nat) (hj : j < 65536) : (Int.ofNat j % 65536).toNat = j := by
  have h : (Int.ofNat j % 65536) = Int.ofNat (j % 65536) := rfl
  rw [h]
  exact Nat.mod_eq_of_lt hj

/-- A registered literal is found by `compiler_add_literal`, which returns the
index the table holds and changes nothing. -/
theorem add_literal_registered (scope j : Nat) (x : DstValue) (c : DstCompiler) (s : DstScope)
    (hs : c.scopes.get? scope = some s) (hj : j < 65536)
    (hg : dst_table_get (c.vm.tables.getD s.literals []) x = .integer (Int.ofNat j)) :
    compiler_add_literal scope x c = .ok j c := by
  unfold compiler_add_literal
  simp only [bind, Comp.bind, scope_read, hs, getc, pure, hg, literal_index_cast j hj]

/-- C29: in a compiler whose literal tables index its literal arrays, for a
scope with fewer than `2^16` literals and a value `x` other than nil,
`compiler_add_literal` returns an index `k` at which the literal array of the
scope holds `x`.  When `x` is registered, `k` is the index the table holds and
the compiler is unchanged.  When it is not, `k` is the old length of the
literal array, the array gets `x` appended and nothing else, the table gets the
entry `x ↦ k` and keeps what it holds for every other key, and the scopes and
the code are unchanged.  A second call returns `k` again and changes nothing. -/
theorem add_literal_lookup (scope : Nat) (x : DstValue) (c : DstCompiler) (s : DstScope)
    (hinv : IdxInv c) (hs : c.scopes.get? scope = some s)
    (hlen : (c.vm.arrays.getD s.literalsArray []).length < 65536) (hx : x ≠ .nil) :
    ∃ k c2, compiler_add_literal scope x c = .ok k c2 ∧
      (c2.vm.arrays.getD s.literalsArray [])[k]? = some x ∧
      (dst_table_get (c.vm.tables.getD s.literals []) x ≠ .nil →
        dst_table_get (c.vm.tables.getD s.literals []) x = .integer (Int.ofNat k) ∧ c2 = c) ∧
      (dst_table_get (c.vm.tables.getD s.literals []) x = .nil →
        k = (c.vm.arrays.getD s.literalsArray []).length ∧
        c2 = { c with vm := { c.vm with
          tables := c.vm.tables.set s.literals
            (dst_table_put (c.vm.tables.getD s.literals []) x (.integer (Int.ofNat k)))
          arrays := c.vm.arrays.set s.literalsArray
            (c.vm.arrays.getD s.literalsArray [] ++ [x]) } } ∧
        c2.vm.arrays.getD s.literalsArray [] = c.vm.arrays.getD s.literalsArray [] ++ [x] ∧
        dst_table_get (c2.vm.tables.getD s.literals []) x = .integer (Int.ofNat k) ∧
        (∀ y, y ≠ x → dst_table_get (c2.vm.tables.getD s.literals []) y =
          dst_table_get (c.vm.tables.getD s.literals []) y)) ∧
      compiler_add_literal scope x c2 = .ok k c2 := by
  obtain ⟨h1, h2, h3⟩ := hinv
  obtain ⟨hlit, hvalid⟩ := h2 s (List.get?_mem hs)
  have hp := h3 s.literalsArray
  have hvalidT : s.literals < c.vm.tables.length := by rw [hlit, h1]; exact hvalid
  by_cases hg : dst_table_get (c.vm.tables.getD s.literals []) x = .nil
  · have hrun : compiler_add_literal scope x c =
        .ok (c.vm.arrays.getD s.literalsArray []).length
          { c with vm := { c.vm with
            tables := c.vm.tables.set s.literals
              (dst_table_put (c.vm.tables.getD s.literals []) x
                (.integer (Int.ofNat (c.vm.arrays.getD s.literalsArray []).length)))
            arrays := c.vm.arrays.set s.literalsArray
              (c.vm.arrays.getD s.literalsArray [] ++ [x]) } } := by
      unfold compiler_add_literal
      simp only [bind, Comp.bind, scope_read, hs, getc, setc, pure, hg, Nat.mod_eq_of_lt hlen]
    have harr : (c.vm.arrays.set s.literalsArray
        (c.vm.arrays.getD s.literalsArray [] ++ [x])).getD s.literalsArray [] =
        c.vm.arrays.getD s.literalsArray [] ++ [x] := by
      rw [List.getD_set_eq_ite, if_pos ⟨rfl, hvalid⟩]
    have htab : ∀ v, (c.vm.tables.set s.literals v).getD s.literals [] = v := by
      intro v
      rw [List.getD_set_eq_ite, if_pos ⟨rfl, hvalidT⟩]
    have hget : dst_table_get (dst_table_put (c.vm.tables.getD s.literals []) x
        (.integer (Int.ofNat (c.vm.arrays.getD s.literalsArray []).length))) x =
        .integer (Int.ofNat (c.vm.arrays.getD s.literalsArray []).length) := by
      rw [dst_table_get_put _ _ _ _ hx, dst_equals_refl]
      rfl
    refine ⟨_, _, hrun, ?_, fun h => absurd hg h, fun _ => ⟨rfl, rfl, harr, ?_, ?_⟩, ?_⟩
    · simp only [harr]
      simp
    · simp only [htab]
      exact hget
    · intro y hy
      simp only [htab]
      rw [dst_table_get_put _ _ _ _ hx]
      have hne : dst_equals x y = false := (dst_equals_false_iff x y).2 (Ne.symm hy)
      rw [hne]
      rfl
    · refine add_literal_registered scope _ x _ s hs hlen ?_
      simp only [htab]
      exact hget
  · have hg2 : dst_table_get (c.vm.tables.getD s.literalsArray []) x ≠ .nil := by
      rw [← hlit]; exact hg
    obtain ⟨j, hj, haj⟩ := hp (by omega) x hg2
    rw [← hlit] at hj
    have hjl : j < (c.vm.arrays.getD s.literalsArray []).length := by
      rcases Nat.lt_or_ge j (c.vm.arrays.getD s.literalsArray []).length with h5 | h5
      · exact h5
      · rw [List.getElem?_eq_none h5] at haj
        cases haj
    have hrun := add_literal_registered scope j x c s hs (by omega) hj
    exact ⟨j, c, hrun, haj, fun _ => ⟨hj, rfl⟩, fun h => absurd h hg, hrun⟩

theorem add_literal_lookup_witness :
    ∃ k c2, compiler_add_literal 0 (.string "a") (root_state env_empty 1000) = .ok k c2 ∧
      (c2.vm.arrays.getD 0 [])[k]? = some (.string "a") ∧
      compiler_add_literal 0 (.string "a") c2 = .ok k c2 := by
  obtain ⟨k, c2, h1, h2, _, _, h5⟩ := add_literal_lookup 0 (.string "a")
    (root_state env_empty 1000)
    { level := 0, nextLocal := 0, frameSize := 0, freeHeap := [], touchParent := false,
      touchEnv := false, literals := 0, literalsArray := 0, locals := [] }
    (idxInv_root_state env_empty 1000) rfl (by decide) (by simp)
  exact ⟨k, c2, h1, h2, h5⟩

/-! ## The free list of a scope -/

/-- Writing back the record a scope holds changes nothing. -/
theorem scopes_set_self (scopes : List DstScope) (scope : Nat) (s : DstScope)
    (hs : scopes.get? scope = some s) : scopes.set scope s = scopes := by
  apply List.ext_getElem?
  intro j
  by_cases hj : scope = j
  · subst hj
    rw [List.get?_eq_getElem?] at hs
    have hlt : scope < scopes.length := by
      by_contra hge
      rw [List.getElem?_eq_none (by omega)] at hs
      cases hs
    rw [List.getElem?_set_self hlt, hs]
  · rw [List.getElem?_set_ne hj]

/-- C30: the free list of a scope is a stack.  Freeing the slot `i` puts it at
the top of the free list; `compiler_get_local` run right after the free returns
`i` and leaves the compiler as it was before the free, free list and
`nextLocal` included.  On a free list that is not empty `compiler_get_local`
returns its top, the slot freed last, removes it and keeps `nextLocal`; on an
empty free list, with `nextLocal` below `0xFFFF`, it returns `nextLocal` and
adds one to it. -/
theorem freelist_is_lifo (scope i : Nat) (c : DstCompiler) (s : DstScope)
    (hs : c.scopes.get? scope = some s) :
    compiler_free_local scope i c =
      .ok () { c with scopes := c.scopes.set scope { s with freeHeap := i :: s.freeHeap } } ∧
    (compiler_free_local scope i >>= fun _ => compiler_get_local scope) c = .ok i c ∧
    (∀ j rest, s.freeHeap = j :: rest →
      compiler_get_local scope c =
        .ok j { c with scopes := c.scopes.set scope { s with freeHeap := rest } }) ∧
    (s.freeHeap = [] → s.nextLocal < 65535 →
      compiler_get_local scope c =
        .ok s.nextLocal
          { c with scopes := c.scopes.set scope { s with nextLocal := s.nextLocal + 1 } }) := by
  have hlt : scope < c.scopes.length := by
    rw [List.get?_eq_getElem?] at hs
    by_contra hge
    rw [List.getElem?_eq_none (by omega)] at hs
    cases hs
  have hs1 : c.scopes[scope]? = some s := by rw [← List.get?_eq_getElem?]; exact hs
  refine ⟨?_, ?_, ?_, ?_⟩
  · simp [compiler_free_local, bind, Comp.bind, scope_read, scope_write, hs1]
  · simp only [compiler_free_local, compiler_get_local, bind, Comp.bind, scope_read, scope_write,
      List.get?_eq_getElem?, hs1, List.getElem?_set_self hlt, List.set_set, pure]
    have h := scopes_set_self c.scopes scope s hs
    simp [h]
  · intro j rest hfree
    simp [compiler_get_local, bind, Comp.bind, scope_read, scope_write, hs1, hfree, pure]
  · intro hfree hnext
    have hmod : (s.nextLocal + 1) % 65536 = s.nextLocal + 1 := Nat.mod_eq_of_lt (by omega)
    simp [compiler_get_local, bind, Comp.bind, scope_read, scope_write, hs1, hfree, pure, hmod]

theorem freelist_is_lifo_witness :
    (compiler_free_local 0 7 >>= fun _ => compiler_get_local 0) (root_state env_empty 1000) =
      .ok 7 (root_state env_empty 1000) :=
  (freelist_is_lifo 0 7 (root_state env_empty 1000)
    { level := 0, nextLocal := 0, frameSize := 0, freeHeap := [], touchParent := false,
      touchEnv := false, literals := 0, literalsArray := 0, locals := [] } rfl).2.1

/-! ## What a pushed scope shares with its parent -/

/-- C31 fails as stated for `nextLocal`: a scope pushed with `sameFunction`
on the root scope starts with the `nextLocal` of the root, 0, and a local
allocated through it moves its own `nextLocal` to 1 while the `nextLocal` of
the root stays 0.  The field is copied at the push, not shared. -/
theorem next_local_is_copied :
    Result.scopes ((compiler_push_scope true >>= fun sub => compiler_get_local sub)
        (root_state env_empty 1000)) =
      [{ level := 0, nextLocal := 0, frameSize := 0, freeHeap := [], touchParent := false,
         touchEnv := false, literals := 0, literalsArray := 0, locals := [] },
       { level := 0, nextLocal := 1, frameSize := 0, freeHeap := [], touchParent := false,
         touchEnv := false, literals := 0, literalsArray := 0, locals := [] }] := by
  simp [Result.scopes, root_state, Result.funcdefs, compiled, dst_compile, compile_value_succ, compile_value_body,
    compile_nonref_type, compile_literal, compiler_push_scope, bind, pure, Comp.bind, getc, setc,
    form_options_default, compiler_get_target, compiler_get_temp, compiler_tail,
    compiler_get_local, compiler_free_local, compiler_drop_slot, scope_read, scope_write,
    dst_buffer_push_op, dst_buffer_push_u16, dst_buffer_push_i16, dst_buffer_push_i32, int_word,
    DstBuffer.put, DstBuffer.skip, buffer_skip, compiler_return, buffer_count,
    compiler_gen_funcdef, buffer_set_count, compiler_pop_scope, c_error, c_error1,
    DstValue.isNil, compile_form, get_special, name_at, compile_function, form_at,
    compile_function_params, compiler_declare_symbol, equal_cstr, DstValue.asString,
    DstValue.isSymbol, dst_table_put, compile_block, compile_block_loop, compile_symbol,
    symbol_resolve, symbol_resolve_scopes, dst_table_get, dst_equals, DstValue.asInteger,
    compiler_add_literal, nil_slot, compile_symbol_touch, scope_parent, compile_if, compile_do,
    compile_def, compile_while, compile_args, compiler_realize_slot, compiler_coerce_slot,
    compiler_tracker_free, compiler_tracker_free_loop, compiler_tracker_write,
    compiler_tracker_write_loop, compiler_tracker_push, tracker_init, dst_string_cvs,
    dst_string_cv, undefined_read, recursion_guard_enter, recursion_guard_leave]

/-- A scope pushed with `sameFunction` on the current scope `t`: the record of
the new scope and the state after the push. -/
theorem push_same_function (c : DstCompiler) (t : DstScope)
    (ht : c.scopes.getLast? = some t) :
    compiler_push_scope true c =
      .ok c.scopes.length { c with scopes := c.scopes ++
        [{ level := t.level, nextLocal := t.nextLocal, frameSize := 0, freeHeap := [],
           touchParent := false, touchEnv := false, literals := t.literals,
           literalsArray := t.literalsArray, locals := [] }] } := by
  unfold compiler_push_scope
  simp [ht]

/-- A scope pushed without `sameFunction`: the record of the new scope and the
state after the push. -/
theorem push_new_function (c : DstCompiler) :
    compiler_push_scope false c =
      .ok c.scopes.length { c with
        vm := { c.vm with tables := c.vm.tables ++ [[]], arrays := c.vm.arrays ++ [[]] }
        scopes := c.scopes ++
          [{ level := (match c.scopes.getLast? with
               | some t => t.level + 1
               | none => 0),
             nextLocal := 0, frameSize := 0, freeHeap := [],
             touchParent := false, touchEnv := false, literals := c.vm.tables.length,
             literalsArray := c.vm.arrays.length, locals := [] }] } := by
  unfold compiler_push_scope
  cases c.scopes.getLast? <;> simp

/-- C31, as amended: a scope pushed with `sameFunction` on the current scope
`t` has the level of `t` and the literal table and the literal array of `t`
themselves, shared: a literal added through the new scope is in the literal
array of `t`.  Its `nextLocal` starts as a copy of the one of `t`: a local
allocated through the new scope is the slot `t.nextLocal`, and it advances the
`nextLocal` of the new scope only, the record of `t` and of every other scope
being unchanged.  A scope pushed without `sameFunction` starts with
`nextLocal = 0`, a new, empty literal table and literal array, and the level of
the current scope plus one, or 0 when there is no scope. -/
theorem same_function_scope_sharing (c : DstCompiler) (t : DstScope) (x : DstValue)
    (ht : c.scopes.getLast? = some t) (hinv : IdxInv c)
    (hlen : (c.vm.arrays.getD t.literalsArray []).length < 65536) (hfree : t.nextLocal < 65535) :
    (∃ c1 sub, compiler_push_scope true c = .ok c.scopes.length c1 ∧
      c1.scopes = c.scopes ++ [sub] ∧ c1.vm = c.vm ∧
      sub.level = t.level ∧ sub.nextLocal = t.nextLocal ∧
      sub.literals = t.literals ∧ sub.literalsArray = t.literalsArray ∧
      (∃ k c2, compiler_add_literal c.scopes.length x c1 = .ok k c2 ∧
        (c2.vm.arrays.getD t.literalsArray [])[k]? = some x ∧ c2.scopes = c1.scopes) ∧
      compiler_get_local c.scopes.length c1 =
        .ok t.nextLocal { c1 with scopes :=
          c.scopes ++ [{ sub with nextLocal := t.nextLocal + 1 }] }) ∧
    (∀ c0 : DstCompiler, ∃ c3 fresh, compiler_push_scope false c0 = .ok c0.scopes.length c3 ∧
      c3.scopes = c0.scopes ++ [fresh] ∧ fresh.nextLocal = 0 ∧
      fresh.level = (match c0.scopes.getLast? with
        | some p => p.level + 1
        | none => 0) ∧
      fresh.literals = c0.vm.tables.length ∧ fresh.literalsArray = c0.vm.arrays.length ∧
      c3.vm.tables = c0.vm.tables ++ [[]] ∧ c3.vm.arrays = c0.vm.arrays ++ [[]]) := by
  constructor
  · have hpush := push_same_function c t ht
    have hinv1 := wp_of_ok (idx_pres_push_scope true c hinv) hpush
    have hsub : ({ c with scopes := c.scopes ++
        [{ level := t.level, nextLocal := t.nextLocal, frameSize := 0, freeHeap := [],
           touchParent := false, touchEnv := false, literals := t.literals,
           literalsArray := t.literalsArray, locals := [] }] } : DstCompiler).scopes.get?
        c.scopes.length = some
          { level := t.level, nextLocal := t.nextLocal, frameSize := 0, freeHeap := [],
            touchParent := false, touchEnv := false, literals := t.literals,
            literalsArray := t.literalsArray, locals := [] } := by
      simp
    refine ⟨_, _, hpush, rfl, rfl, rfl, rfl, rfl, rfl, ?_, ?_⟩
    · obtain ⟨k, c2, hrun, _, hk, hsc, _⟩ := add_literal_index c.scopes.length x _ _ hinv1 hsub hlen
      exact ⟨k, c2, hrun, hk, hsc⟩
    · have hmod : (t.nextLocal + 1) % 65536 = t.nextLocal + 1 := Nat.mod_eq_of_lt (by omega)
      simp [compiler_get_local, bind, Comp.bind, scope_read, scope_write, pure, hmod]
  · intro c0
    exact ⟨_, _, push_new_function c0, rfl, rfl, rfl, rfl, rfl, rfl, rfl⟩

theorem same_function_scope_sharing_witness :
    ∃ c1 sub, compiler_push_scope true (root_state env_empty 1000) = .ok 1 c1 ∧
      c1.scopes = (root_state env_empty 1000).scopes ++ [sub] ∧
      sub.literalsArray = 0 ∧
      compiler_get_local 1 c1 =
        .ok 0 { c1 with scopes :=
          (root_state env_empty 1000).scopes ++ [{ sub with nextLocal := 1 }] } := by
  obtain ⟨c1, sub, h1, h2, _, _, _, _, h7, _, h9⟩ :=
    (same_function_scope_sharing (root_state env_empty 1000)
      { level := 0, nextLocal := 0, frameSize := 0, freeHeap := [], touchParent := false,
        touchEnv := false, literals := 0, literalsArray := 0, locals := [] } (.string "a")
      rfl (idxInv_root_state env_empty 1000) (by decide) (by decide)).1
  exact ⟨c1, sub, h1, h2, h7, h9⟩

/-! ## Popping a scope -/

/-- C32: when the scope chain ends in a scope `P` followed by the current scope
`S`, `compiler_pop_scope` removes `S`, which makes `P` the current scope, and
sets the `frameSize` of `P` to the maximum of the `frameSize` of `P`, the
`frameSize` of `S` and the `nextLocal` of `S`; no other field of `P`, no other
scope and nothing else in the compiler changes.  With no scope on the chain it
fails with the error "no scope to pop". -/
theorem pop_scope_frame_size (c : DstCompiler) :
    (∀ (rest : List DstScope) (P S : DstScope), c.scopes = rest ++ [P, S] →
      compiler_pop_scope c =
        .ok { S with frameSize := max S.frameSize S.nextLocal }
          { c with scopes := rest ++
            [{ P with frameSize := max P.frameSize (max S.frameSize S.nextLocal) }] }) ∧
    (c.scopes = [] → compiler_pop_scope c = .error (.string "no scope to pop")) := by
  constructor
  · intro rest P S hs
    have hlast : c.scopes.getLast? = some S := by
      rw [hs]; simp
    have hdrop : c.scopes.dropLast = rest ++ [P] := by
      rw [hs]
      have : rest ++ [P, S] = (rest ++ [P]) ++ [S] := by simp
      rw [this, List.dropLast_concat]
    have hlast2 : (rest ++ [P]).getLast? = some P := by simp
    unfold compiler_pop_scope
    simp only [hlast, hdrop, hlast2]
    have hset : ∀ t : DstScope, (rest ++ [P]).set ((rest ++ [P]).length - 1) t = rest ++ [t] := by
      intro t
      simp [List.set_append]
    rw [hset]
    by_cases h1 : S.nextLocal > S.frameSize
    · have e1 : max S.frameSize S.nextLocal = S.nextLocal := by omega
      simp only [h1, if_true, e1]
      by_cases h2 : S.nextLocal > P.frameSize
      · have e2 : max P.frameSize S.nextLocal = S.nextLocal := by omega
        simp [h2, e2]
      · have e2 : max P.frameSize S.nextLocal = P.frameSize := by omega
        simp [h2, e2]
    · have e1 : max S.frameSize S.nextLocal = S.frameSize := by omega
      simp only [h1, if_false, e1]
      by_cases h2 : S.frameSize > P.frameSize
      · have e2 : max P.frameSize S.frameSize = S.frameSize := by omega
        simp [h2, e2]
      · have e2 : max P.frameSize S.frameSize = P.frameSize := by omega
        simp [h2, e2]
  · intro hs
    unfold compiler_pop_scope
    simp [hs]

theorem pop_scope_frame_size_witness :
    compiler_pop_scope
        { root_state env_empty 1000 with scopes :=
          [{ level := 0, nextLocal := 1, frameSize := 2, freeHeap := [3], touchParent := true,
             touchEnv := false, literals := 0, literalsArray := 0, locals := [] },
           { level := 0, nextLocal := 5, frameSize := 4, freeHeap := [], touchParent := false,
             touchEnv := true, literals := 0, literalsArray := 0, locals := [] }] } =
      .ok { level := 0, nextLocal := 5, frameSize := 5, freeHeap := [], touchParent := false,
            touchEnv := true, literals := 0, literalsArray := 0, locals := [] }
        { root_state env_empty 1000 with scopes :=
          [{ level := 0, nextLocal := 1, frameSize := 5, freeHeap := [3], touchParent := true,
             touchEnv := false, literals := 0, literalsArray := 0, locals := [] }] } :=
  (pop_scope_frame_size _).1 [] _ _ rfl

/-! ## The innermost binding of a symbol -/

/-- The walk along the chain stops at the first scope that binds the symbol:
the scopes walked before it, which do not bind it, are skipped. -/
theorem resolve_scopes_innermost (currentLevel : Nat) (x : DstValue) (S : DstScope) (v : Int)
    (outer : List DstScope) (hS : dst_table_get S.locals x = .integer v) :
    ∀ inner : List DstScope, (∀ s ∈ inner, dst_table_get s.locals x = .nil) →
      symbol_resolve_scopes currentLevel x (inner ++ S :: outer) =
        some { status := 1, level := (currentLevel - S.level) % 65536,
               index := (v % 65536).toNat, flags := ((v / 65536) % 65536).toNat, out := .nil }
  | [], _ => by
    simp [symbol_resolve_scopes, hS, DstValue.isNil, DstValue.asInteger]
  | s :: rest, h => by
    have hs : dst_table_get s.locals x = .nil := h s (List.mem_cons_self _ _)
    have ih := resolve_scopes_innermost currentLevel x S v outer hS rest
      (fun s1 h1 => h s1 (List.mem_cons_of_mem _ h1))
    simp [symbol_resolve_scopes, hs, DstValue.isNil, ih]

/-- What a declaration stores is read back as the slot and the flags it was
made with. -/
theorem local_entry_decode (target flags : Nat) (ht : target < 65536) (hf : flags < 65536) :
    ((Int.ofNat (target + flags * 65536)) % 65536).toNat = target ∧
    (((Int.ofNat (target + flags * 65536)) / 65536) % 65536).toNat = flags := by
  constructor
  · have h : (Int.ofNat (target + flags * 65536)) % 65536 = Int.ofNat target := by
      simp only [Int.ofNat_eq_coe]
      omega
    rw [h]
    rfl
  · have h : ((Int.ofNat (target + flags * 65536)) / 65536) % 65536 = Int.ofNat flags := by
      simp only [Int.ofNat_eq_coe]
      omega
    rw [h]
    rfl

/-- The resolution of a symbol in a compiler whose scope chain, root first, is
`outer ++ S :: inner`, where `S` binds the symbol and no scope of `inner`
does. -/
theorem resolve_in_chain (c : DstCompiler) (x : DstValue) (outer inner : List DstScope)
    (S cur : DstScope) (v : Int) (hchain : c.scopes = outer ++ S :: inner)
    (hcur : c.scopes.getLast? = some cur)
    (hinner : ∀ s ∈ inner, dst_table_get s.locals x = .nil)
    (hS : dst_table_get S.locals x = .integer v) :
    symbol_resolve x c =
      .ok { status := 1, level := (cur.level - S.level) % 65536, index := (v % 65536).toNat,
            flags := ((v / 65536) % 65536).toNat, out := .nil } c := by
  have hlen : c.scopes.length = (outer.length + inner.length) + 1 := by
    rw [hchain]; simp; omega
  have hget : c.scopes[outer.length + inner.length]? = some cur := by
    rw [List.getLast?_eq_getElem?, hlen] at hcur
    simpa using hcur
  have hrev : c.scopes.reverse = inner.reverse ++ S :: outer.reverse := by
    rw [hchain]; simp
  have hwalk := resolve_scopes_innermost cur.level x S v outer.reverse hS inner.reverse
    (fun s hs => hinner s (List.mem_reverse.1 hs))
  unfold symbol_resolve
  simp only [bind, Comp.bind, compiler_tail, hlen, scope_read, List.get?_eq_getElem?, hget,
    getc, hrev, hwalk, pure]

/-- A symbol that the current scope binds resolves to level 0. -/
theorem resolve_current (c : DstCompiler) (x : DstValue) (n : Nat) (s : DstScope) (v : Int)
    (hlen : c.scopes.length = n + 1) (hget : c.scopes[n]? = some s)
    (hS : dst_table_get s.locals x = .integer v) :
    symbol_resolve x c =
      .ok { status := 1, level := 0, index := (v % 65536).toNat,
            flags := ((v / 65536) % 65536).toNat, out := .nil } c := by
  have hlast : c.scopes.getLast? = some s := by
    rw [List.getLast?_eq_getElem?, hlen]; simpa using hget
  have hsplit : c.scopes = c.scopes.dropLast ++ s :: [] :=
    (List.dropLast_append_getLast? s hlast).symm
  have h := resolve_in_chain c x c.scopes.dropLast [] s s v hsplit hlast
    (fun s hs => by cases hs) hS
  simpa using h

/-- C33: in a scope chain in which the scope `S` binds the symbol `x` and no
scope inside `S` does, `symbol_resolve` returns a local (status 1) with the
slot and the flags stored by the declaration in `S`, and the level of the
current scope minus the level of `S`, whatever the scopes outside `S` and the
environment hold for `x`.  In particular a symbol declared in the current
scope with the flags `f`, 0 or 1, resolves right after to level 0, the slot the
declaration returned, and the flags `f`. -/
theorem innermost_binding_wins (c : DstCompiler) (x : DstValue) :
    (∀ (outer inner : List DstScope) (S cur : DstScope) (target flags : Nat),
      c.scopes = outer ++ S :: inner → c.scopes.getLast? = some cur →
      (∀ s ∈ inner, dst_table_get s.locals x = .nil) →
      dst_table_get S.locals x = .integer (Int.ofNat (target + flags * 65536)) →
      target < 65536 → flags < 65536 → S.level ≤ cur.level → cur.level - S.level < 65536 →
      symbol_resolve x c =
        .ok { status := 1, level := cur.level - S.level, index := target, flags := flags,
              out := .nil } c) ∧
    (∀ (n f : Nat) (s : DstScope), c.scopes.length = n + 1 → c.scopes.get? n = some s →
      x.isSymbol = true → f ≤ 1 → s.nextLocal < 65536 → (∀ i ∈ s.freeHeap, i < 65536) →
      ∃ target c1, compiler_declare_symbol n x f c = .ok target c1 ∧
        symbol_resolve x c1 =
          .ok { status := 1, level := 0, index := target, flags := f, out := .nil } c1) := by
  constructor
  · intro outer inner S cur target flags hchain hcur hinner hS ht hf _ hdepth
    have h := resolve_in_chain c x outer inner S cur _ hchain hcur hinner hS
    rw [(local_entry_decode target flags ht hf).1, (local_entry_decode target flags ht hf).2,
      Nat.mod_eq_of_lt hdepth] at h
    exact h
  · intro n f s hlen hget hsym hf hnext hheap
    have hx : x ≠ .nil := by
      intro h; rw [h] at hsym; cases hsym
    have hgetE : c.scopes[n]? = some s := by rw [← List.get?_eq_getElem?]; exact hget
    have hlt : n < c.scopes.length := by omega
    have hput : ∀ (l : DstTable) (v : DstValue), v ≠ .nil →
        dst_table_get (dst_table_put l x v) x = v := by
      intro l v _
      rw [dst_table_get_put _ _ _ _ hx, dst_equals_refl]
      rfl
    have hrun : ∃ target c1 s2, compiler_declare_symbol n x f c = .ok target c1 ∧
        c1.scopes.length = n + 1 ∧ c1.scopes[n]? = some s2 ∧
        dst_table_get s2.locals x = .integer (Int.ofNat (target + f * 65536)) ∧
        target < 65536 := by
      unfold compiler_declare_symbol
      cases hfree : s.freeHeap with
      | nil =>
        simp only [hsym, bind, Comp.bind, compiler_get_local, scope_read, scope_write, hgetE,
          hfree, pure, List.getElem?_set_self hlt, List.get?_eq_getElem?, Bool.not_true,
          Bool.false_eq_true, if_false, beq_iff_eq, Nat.add_one_ne_zero]
        refine ⟨_, _, _, rfl, by simp [hlen], List.getElem?_set_self (by simp [hlen]), ?_, hnext⟩
        exact hput _ _ (by simp)
      | cons i rest =>
        simp only [hsym, bind, Comp.bind, compiler_get_local, scope_read, scope_write, hgetE,
          hfree, pure, List.getElem?_set_self hlt, List.get?_eq_getElem?, Bool.not_true,
          Bool.false_eq_true, if_false]
        refine ⟨_, _, _, rfl, by simp [hlen], List.getElem?_set_self (by simp [hlen]), ?_,
          hheap i (by rw [hfree]; simp)⟩
        exact hput _ _ (by simp)
    obtain ⟨target, c1, s2, hdecl, hlen1, hget1, hS1, ht⟩ := hrun
    have hr := resolve_current c1 x n s2 _ hlen1 hget1 hS1
    rw [(local_entry_decode target f ht (by omega)).1,
      (local_entry_decode target f ht (by omega)).2] at hr
    exact ⟨target, c1, hdecl, hr⟩

theorem innermost_binding_wins_witness :
    ∃ target c1, compiler_declare_symbol 0 (.symbol "+") 1 (root_state env_S3 1000) =
        .ok target c1 ∧
      symbol_resolve (.symbol "+") c1 =
        .ok { status := 1, level := 0, index := target, flags := 1, out := .nil } c1 :=
  (innermost_binding_wins (root_state env_S3 1000) (.symbol "+")).2 0 1
    { level := 0, nextLocal := 0, frameSize := 0, freeHeap := [], touchParent := false,
      touchEnv := false, literals := 0, literalsArray := 0, locals := [] }
    rfl rfl rfl (by decide) (by decide) (by simp)

/-! ## Steps that leave the recursion guard alone -/

theorem gd_pres_scope_write {g : Nat} (p : Nat) (s : DstScope) :
    Pres (GuardIs g) (scope_write p s) := fun _ h => h

theorem gd_pres_push_op {g : Nat} (o : DstOp) : Pres (GuardIs g) (dst_buffer_push_op o) :=
  fun _ h => h

theorem gd_pres_push_u16 {g : Nat} (n : Nat) : Pres (GuardIs g) (dst_buffer_push_u16 n) :=
  fun _ h => h

theorem gd_pres_push_i16 {g : Nat} (v : Int) : Pres (GuardIs g) (dst_buffer_push_i16 v) :=
  fun _ h => h

theorem gd_pres_push_i32 {g : Nat} (v : Int) : Pres (GuardIs g) (dst_buffer_push_i32 v) :=
  fun _ h => h

theorem gd_pres_push_i64 {g : Nat} (v : Int) : Pres (GuardIs g) (dst_buffer_push_i64 v) :=
  fun _ h => h

theorem gd_pres_push_real {g : Nat} (bits : Nat) : Pres (GuardIs g) (dst_buffer_push_real bits) :=
  fun _ h => h

theorem gd_pres_set_count {g : Nat} (n : Nat) : Pres (GuardIs g) (buffer_set_count n) :=
  fun _ h => h

theorem gd_pres_skip {g : Nat} (n : Nat) : Pres (GuardIs g) (buffer_skip n) :=
  fun _ h => h

theorem gd_pres_push_scope {g : Nat} (sameFunction : Bool) :
    Pres (GuardIs g) (compiler_push_scope sameFunction) := by
  intro c hc
  unfold wp compiler_push_scope
  cases sameFunction
  · exact hc
  · simp only [if_true]
    cases c.scopes.getLast? with
    | none => trivial
    | some t => exact hc

theorem gd_pres_pop_scope {g : Nat} : Pres (GuardIs g) compiler_pop_scope := by
  intro c hc
  unfold wp compiler_pop_scope
  cases c.scopes.getLast? with
  | none => trivial
  | some last0 =>
    simp only []
    cases c.scopes.dropLast.getLast? with
    | none => exact hc
    | some t => exact hc

section

attribute [local irreducible] Pres Comp.bind Spec Spec2 GuardFree GuardRel compiler_tail scope_read scope_write scope_parent form_at
  retag_string symbol_resolve compile_symbol_touch compiler_get_local compiler_free_local
  compiler_drop_slot compiler_tracker_free compiler_tracker_write compiler_add_literal
  compiler_declare_symbol compiler_push_scope compiler_pop_scope recursion_guard_enter
  recursion_guard_leave compiler_get_target compiler_get_temp compiler_realize_slot
  compiler_coerce_slot compiler_return dst_buffer_push_op dst_buffer_push_u16
  dst_buffer_push_i16 dst_buffer_push_i32 dst_buffer_push_i64 dst_buffer_push_real
  buffer_count buffer_set_count buffer_skip c_error c_error1 undefined_read getc setc
  compile_nonref_type compile_literal compile_symbol compile_assign compile_varset
  compile_global_var compile_global_def compile_def compile_var compile_block_loop
  compile_block compiler_gen_funcdef compile_function_params compile_function compile_if
  compile_while compile_do compile_quote compile_args compile_apply compile_tran
  compile_elements compile_array compile_table compile_form compile_value_body

theorem gd_pres_get_local {g : Nat} (scope : Nat) :
    Pres (GuardIs g) (compiler_get_local scope) := by
  unfold compiler_get_local
  repeat (first
    | apply pres_bind
    | intro _
    | exact pres_pure _ _
    | exact pres_scope_read _ _
    | exact gd_pres_scope_write _ _
    | split)

theorem gd_pres_free_local {g : Nat} (scope slot : Nat) :
    Pres (GuardIs g) (compiler_free_local scope slot) := by
  unfold compiler_free_local
  repeat (first
    | apply pres_bind
    | intro _
    | exact pres_scope_read _ _
    | exact gd_pres_scope_write _ _)

theorem gd_pres_drop_slot {g : Nat} (scope : Nat) (slot : Slot) :
    Pres (GuardIs g) (compiler_drop_slot scope slot) := by
  unfold compiler_drop_slot
  split
  · exact gd_pres_free_local _ _
  · exact pres_pure _ _

theorem gd_pres_declare_symbol {g : Nat} (scope : Nat) (sym : DstValue) (flags : Nat) :
    Pres (GuardIs g) (compiler_declare_symbol scope sym flags) := by
  unfold compiler_declare_symbol
  apply pres_ite (pres_c_error _ _)
  apply pres_bind (gd_pres_get_local _)
  intro _
  repeat (first
    | apply pres_bind
    | intro _
    | exact pres_pure _ _
    | exact pres_scope_read _ _
    | exact gd_pres_scope_write _ _)

end

theorem gd_pres_add_literal {g : Nat} (scope : Nat) (x : DstValue) :
    Pres (GuardIs g) (compiler_add_literal scope x) := by
  unfold compiler_add_literal
  apply pres_bind (pres_scope_read _ _)
  intro s c hc
  rw [wp_bind, wp_getc]
  simp only []
  split
  · rw [wp_bind, wp_setc]; exact hc
  · exact hc
  · exact hc

theorem gd_pres_gen_funcdef {g : Nat} (lastNBytes arity : Nat) (varargs : Bool) :
    Pres (GuardIs g) (compiler_gen_funcdef lastNBytes arity varargs) := by
  unfold compiler_gen_funcdef
  apply pres_bind (pres_compiler_tail _)
  intro scope c hc
  rw [wp_bind, wp_getc]
  split
  · trivial
  · have h : Pres (GuardIs g) (buffer_set_count (c.buffer.count - lastNBytes) >>= fun _ =>
        scope_read scope >>= fun s => compiler_pop_scope >>= fun last => getc >>= fun c1 =>
        setc { c1 with vm := { c1.vm with funcdefs := c1.vm.funcdefs ++
          [{ byteCode := (c.buffer.data.drop ((c.buffer.count - lastNBytes) / 2)).take
               (lastNBytes / 2)
             literals := c.vm.arrays.getD s.literalsArray []
             locals := last.frameSize
             arity := arity
             flags := { vararg := varargs, needsParent := last.touchParent,
                        needsEnv := last.touchEnv } }] } } >>= fun _ =>
        pure (DstPtr.fresh c1.vm.funcdefs.length)) := by
      apply pres_bind (gd_pres_set_count _)
      intro _
      apply pres_bind (pres_scope_read _ _)
      intro s
      apply pres_bind gd_pres_pop_scope
      intro last c2 hc2
      rw [wp_bind, wp_getc, wp_bind, wp_setc, wp_pure]
      exact hc2
    exact h c hc

/-! ## The compilers of expressions leave the recursion guard alone -/

section

attribute [local irreducible] Pres Comp.bind Spec Spec2 GuardFree GuardRel compiler_tail scope_read scope_write scope_parent form_at
  retag_string symbol_resolve compile_symbol_touch compiler_get_local compiler_free_local
  compiler_drop_slot compiler_tracker_free compiler_tracker_write compiler_add_literal
  compiler_declare_symbol compiler_push_scope compiler_pop_scope recursion_guard_enter
  recursion_guard_leave compiler_get_target compiler_get_temp compiler_realize_slot
  compiler_coerce_slot compiler_return dst_buffer_push_op dst_buffer_push_u16
  dst_buffer_push_i16 dst_buffer_push_i32 dst_buffer_push_i64 dst_buffer_push_real
  buffer_count buffer_set_count buffer_skip c_error c_error1 undefined_read getc setc
  compile_nonref_type compile_literal compile_symbol compile_assign compile_varset
  compile_global_var compile_global_def compile_def compile_var compile_block_loop
  compile_block compiler_gen_funcdef compile_function_params compile_function compile_if
  compile_while compile_do compile_quote compile_args compile_apply compile_tran
  compile_elements compile_array compile_table compile_form compile_value_body

theorem gd_pres_return {g : Nat} (slot : Slot) : Pres (GuardIs g) (compiler_return slot) := by
  unfold compiler_return
  repeat (first
    | apply pres_bind
    | apply pres_ite
    | intro _
    | exact pres_pure _ _
    | exact gd_pres_push_op _
    | exact gd_pres_push_u16 _)

theorem gd_pres_get_temp {g : Nat} : Pres (GuardIs g) compiler_get_temp := by
  unfold compiler_get_temp
  repeat (first
    | apply pres_bind
    | intro _
    | exact pres_pure _ _
    | exact pres_compiler_tail _
    | exact gd_pres_get_local _)

theorem gd_pres_get_target {g : Nat} (opts : FormOptions) : Pres (GuardIs g) (compiler_get_target opts) := by
  unfold compiler_get_target
  split
  · exact gd_pres_get_temp
  · exact pres_pure _ _

theorem gd_pres_realize_slot {g : Nat} (slot : Slot) : Pres (GuardIs g) (compiler_realize_slot slot) := by
  unfold compiler_realize_slot
  split
  · apply pres_bind gd_pres_get_temp
    intro _
    repeat (first
    | apply pres_bind
    | intro _
    | exact pres_pure _ _
    | exact gd_pres_push_op _
    | exact gd_pres_push_u16 _)
  · exact pres_pure _ _

theorem gd_pres_coerce_slot {g : Nat} (opts : FormOptions) (slot : Slot) :
    Pres (GuardIs g) (compiler_coerce_slot opts slot) := by
  unfold compiler_coerce_slot
  apply pres_bind (pres_compiler_tail _)
  intro _
  apply pres_ite
  · repeat (first
    | apply pres_bind
    | intro _
    | exact pres_pure _ _
    | exact gd_pres_drop_slot _ _)
  · apply pres_bind (gd_pres_realize_slot _)
    intro _
    repeat (first
    | apply pres_bind
    | apply pres_ite
    | intro _
    | exact pres_pure _ _
    | exact gd_pres_push_op _
    | exact gd_pres_push_u16 _)

theorem gd_pres_tracker_write_loop {g : Nat} :
    ∀ slots : List Slot, Pres (GuardIs g) (compiler_tracker_write_loop slots)
  | [] => pres_pure _ _
  | s :: rest => by
    unfold compiler_tracker_write_loop
    apply pres_bind
    · repeat (first
    | apply pres_ite
    | exact pres_c_error _ _
    | exact gd_pres_push_u16 _)
    · intro _
      exact gd_pres_tracker_write_loop rest

end

theorem gd_pres_tracker_write {g : Nat} (tracker : SlotTracker) (reverse : Bool) :
    Pres (GuardIs g) (compiler_tracker_write tracker reverse) :=
  gd_pres_tracker_write_loop _

section

attribute [local irreducible] Pres Comp.bind Spec Spec2 GuardFree GuardRel compiler_tail scope_read scope_write scope_parent form_at
  retag_string symbol_resolve compile_symbol_touch compiler_get_local compiler_free_local
  compiler_drop_slot compiler_tracker_free compiler_tracker_write compiler_add_literal
  compiler_declare_symbol compiler_push_scope compiler_pop_scope recursion_guard_enter
  recursion_guard_leave compiler_get_target compiler_get_temp compiler_realize_slot
  compiler_coerce_slot compiler_return dst_buffer_push_op dst_buffer_push_u16
  dst_buffer_push_i16 dst_buffer_push_i32 dst_buffer_push_i64 dst_buffer_push_real
  buffer_count buffer_set_count buffer_skip c_error c_error1 undefined_read getc setc
  compile_nonref_type compile_literal compile_symbol compile_assign compile_varset
  compile_global_var compile_global_def compile_def compile_var compile_block_loop
  compile_block compiler_gen_funcdef compile_function_params compile_function compile_if
  compile_while compile_do compile_quote compile_args compile_apply compile_tran
  compile_elements compile_array compile_table compile_form compile_value_body

theorem gd_pres_tracker_free_loop {g : Nat} (scope : Nat) :
    ∀ slots : List Slot, Pres (GuardIs g) (compiler_tracker_free_loop scope slots)
  | [] => pres_pure _ _
  | s :: rest => by
    unfold compiler_tracker_free_loop
    apply pres_bind (gd_pres_drop_slot _ _)
    intro _
    exact gd_pres_tracker_free_loop scope rest

end

theorem gd_pres_tracker_free {g : Nat} (scope : Nat) (tracker : SlotTracker) :
    Pres (GuardIs g) (compiler_tracker_free scope tracker) :=
  gd_pres_tracker_free_loop _ _

section

attribute [local irreducible] Pres Comp.bind Spec Spec2 GuardFree GuardRel compiler_tail scope_read scope_write scope_parent form_at
  retag_string symbol_resolve compile_symbol_touch compiler_get_local compiler_free_local
  compiler_drop_slot compiler_tracker_free compiler_tracker_write compiler_add_literal
  compiler_declare_symbol compiler_push_scope compiler_pop_scope recursion_guard_enter
  recursion_guard_leave compiler_get_target compiler_get_temp compiler_realize_slot
  compiler_coerce_slot compiler_return dst_buffer_push_op dst_buffer_push_u16
  dst_buffer_push_i16 dst_buffer_push_i32 dst_buffer_push_i64 dst_buffer_push_real
  buffer_count buffer_set_count buffer_skip c_error c_error1 undefined_read getc setc
  compile_nonref_type compile_literal compile_symbol compile_assign compile_varset
  compile_global_var compile_global_def compile_def compile_var compile_block_loop
  compile_block compiler_gen_funcdef compile_function_params compile_function compile_if
  compile_while compile_do compile_quote compile_args compile_apply compile_tran
  compile_elements compile_array compile_table compile_form compile_value_body

theorem gd_pres_nonref_type {g : Nat} (opts : FormOptions) (x : DstValue) :
    Pres (GuardIs g) (compile_nonref_type opts x) := by
  unfold compile_nonref_type
  apply pres_ite (pres_pure _ _)
  apply pres_bind (gd_pres_get_target _)
  intro _
  repeat (first
    | apply pres_bind
    | apply pres_ite
    | intro _
    | exact pres_pure _ _
    | exact pres_c_error _ _
    | exact gd_pres_push_op _
    | exact gd_pres_push_u16 _
    | exact gd_pres_push_i16 _
    | exact gd_pres_push_i32 _
    | exact gd_pres_push_i64 _
    | exact gd_pres_push_real _
    | split)

theorem gd_pres_literal {g : Nat} (opts : FormOptions) (x : DstValue) :
    Pres (GuardIs g) (compile_literal opts x) := by
  unfold compile_literal
  apply pres_bind (pres_compiler_tail _)
  intro scope
  apply pres_ite (pres_pure _ _)
  cases x <;> simp only [] <;>
    first
    | exact gd_pres_nonref_type _ _
    | (apply pres_bind (gd_pres_get_target _)
       intro _
       apply pres_bind (gd_pres_add_literal _ _)
       intro _
       repeat (first
    | apply pres_bind
    | intro _
    | exact pres_pure _ _
    | exact gd_pres_push_op _
    | exact gd_pres_push_u16 _))

end

theorem gd_pres_symbol_touch {g : Nat} :
    ∀ (i scope : Nat), Pres (GuardIs g) (compile_symbol_touch i scope)
  | 0, _ => pres_pure _ _
  | 1, _ => pres_pure _ _
  | i + 2, scope => by
    unfold compile_symbol_touch
    apply pres_bind (pres_scope_read _ _)
    intro s
    apply pres_bind (gd_pres_scope_write _ _)
    intro _
    apply pres_bind (pres_scope_parent _ _)
    intro parent
    exact gd_pres_symbol_touch (i + 1) parent

theorem gd_pres_symbol_resolve {g : Nat} (x : DstValue) : Pres (GuardIs g) (symbol_resolve x) := by
  unfold symbol_resolve
  apply pres_bind (pres_compiler_tail _)
  intro _
  apply pres_bind (pres_scope_read _ _)
  intro _ c hc
  rw [wp_bind, wp_getc]
  split
  · exact hc
  · simp only []
    split
    · split <;> exact hc
    · split <;> exact hc

section

attribute [local irreducible] Pres Comp.bind Spec Spec2 GuardFree GuardRel compiler_tail scope_read scope_write scope_parent form_at
  retag_string symbol_resolve compile_symbol_touch compiler_get_local compiler_free_local
  compiler_drop_slot compiler_tracker_free compiler_tracker_write compiler_add_literal
  compiler_declare_symbol compiler_push_scope compiler_pop_scope recursion_guard_enter
  recursion_guard_leave compiler_get_target compiler_get_temp compiler_realize_slot
  compiler_coerce_slot compiler_return dst_buffer_push_op dst_buffer_push_u16
  dst_buffer_push_i16 dst_buffer_push_i32 dst_buffer_push_i64 dst_buffer_push_real
  buffer_count buffer_set_count buffer_skip c_error c_error1 undefined_read getc setc
  compile_nonref_type compile_literal compile_symbol compile_assign compile_varset
  compile_global_var compile_global_def compile_def compile_var compile_block_loop
  compile_block compiler_gen_funcdef compile_function_params compile_function compile_if
  compile_while compile_do compile_quote compile_args compile_apply compile_tran
  compile_elements compile_array compile_table compile_form compile_value_body

theorem gd_pres_symbol {g : Nat} (cv : FormOptions → DstValue → Comp Slot)
    (hcv : ∀ o x, Pres (GuardIs g) (cv o x)) (opts : FormOptions) (sym : DstValue) :
    Pres (GuardIs g) (compile_symbol cv opts sym) := by
  unfold compile_symbol
  apply pres_bind (gd_pres_symbol_resolve _)
  intro r
  apply pres_ite (pres_c_error1 _ _)
  apply pres_ite (pres_pure _ _)
  apply pres_ite (gd_pres_literal _ _)
  apply pres_ite (hcv _ _)
  apply pres_ite
  · apply pres_bind (pres_compiler_tail _)
    intro _
    apply pres_bind (gd_pres_symbol_touch _ _)
    intro scope
    apply pres_bind (pres_scope_read _ _)
    intro s
    apply pres_bind (gd_pres_scope_write _ _)
    intro _
    apply pres_bind (gd_pres_get_target _)
    intro _
    repeat (first
    | apply pres_bind
    | intro _
    | exact pres_pure _ _
    | exact gd_pres_push_op _
    | exact gd_pres_push_u16 _)
  · repeat (first
    | apply pres_bind
    | apply pres_ite
    | intro _
    | exact pres_pure _ _
    | exact gd_pres_push_op _
    | exact gd_pres_push_u16 _)

end

section

attribute [local irreducible] Pres Comp.bind Spec Spec2 GuardFree GuardRel compiler_tail scope_read scope_write scope_parent form_at
  retag_string symbol_resolve compile_symbol_touch compiler_get_local compiler_free_local
  compiler_drop_slot compiler_tracker_free compiler_tracker_write compiler_add_literal
  compiler_declare_symbol compiler_push_scope compiler_pop_scope recursion_guard_enter
  recursion_guard_leave compiler_get_target compiler_get_temp compiler_realize_slot
  compiler_coerce_slot compiler_return dst_buffer_push_op dst_buffer_push_u16
  dst_buffer_push_i16 dst_buffer_push_i32 dst_buffer_push_i64 dst_buffer_push_real
  buffer_count buffer_set_count buffer_skip c_error c_error1 undefined_read getc setc
  compile_nonref_type compile_literal compile_symbol compile_assign compile_varset
  compile_global_var compile_global_def compile_def compile_var compile_block_loop
  compile_block compiler_gen_funcdef compile_function_params compile_function compile_if
  compile_while compile_do compile_quote compile_args compile_apply compile_tran
  compile_elements compile_array compile_table compile_form compile_value_body

theorem gd_pres_assign {g : Nat} (cv : FormOptions → DstValue → Comp Slot)
    (hcv : ∀ o x, Pres (GuardIs g) (cv o x)) (opts : FormOptions) (left right : DstValue) :
    Pres (GuardIs g) (compile_assign cv opts left right) := by
  unfold compile_assign
  apply pres_bind (pres_compiler_tail _)
  intro _
  apply pres_bind (gd_pres_symbol_resolve _)
  intro r
  apply pres_ite
  · apply pres_ite (pres_c_error _ _)
    apply pres_bind
    · apply pres_ite
      · apply pres_bind (hcv _ _)
        intro _
        apply pres_bind (gd_pres_realize_slot _)
        intro _
        repeat (first
    | apply pres_bind
    | intro _
    | exact pres_pure _ _
    | exact gd_pres_push_op _
    | exact gd_pres_push_u16 _)
      · exact hcv _ _
    · intro _
      repeat (first
    | apply pres_bind
    | apply pres_ite
    | intro _
    | exact pres_pure _ _
    | exact gd_pres_drop_slot _ _)
  · apply pres_ite
    · apply pres_bind (hcv _ _)
      intro _
      exact hcv _ _
    · exact pres_c_error _ _

theorem gd_pres_varset {g : Nat} (cv : FormOptions → DstValue → Comp Slot)
    (hcv : ∀ o x, Pres (GuardIs g) (cv o x)) (opts : FormOptions) (form : List DstValue) :
    Pres (GuardIs g) (compile_varset cv opts form) := by
  unfold compile_varset
  apply pres_ite (pres_c_error _ _)
  apply pres_bind (pres_form_at _ _ _)
  intro _
  apply pres_ite (pres_c_error _ _)
  apply pres_bind (pres_form_at _ _ _)
  intro _
  exact gd_pres_assign cv hcv _ _ _

theorem gd_pres_global_var {g : Nat} (cv : FormOptions → DstValue → Comp Slot)
    (hcv : ∀ o x, Pres (GuardIs g) (cv o x)) (opts : FormOptions) (form : List DstValue) :
    Pres (GuardIs g) (compile_global_var cv opts form) := by
  unfold compile_global_var
  apply pres_bind (pres_form_at _ _ _)
  intro _
  apply pres_bind (pres_retag_string _ _)
  intro _
  apply pres_bind (pres_form_at _ _ _)
  intro _
  exact hcv _ _

theorem gd_pres_global_def {g : Nat} (cv : FormOptions → DstValue → Comp Slot)
    (hcv : ∀ o x, Pres (GuardIs g) (cv o x)) (opts : FormOptions) (form : List DstValue) :
    Pres (GuardIs g) (compile_global_def cv opts form) := by
  unfold compile_global_def
  apply pres_bind (pres_form_at _ _ _)
  intro _
  apply pres_bind (pres_retag_string _ _)
  intro _
  apply pres_bind (pres_form_at _ _ _)
  intro _
  exact hcv _ _

theorem gd_pres_def {g : Nat} (cv : FormOptions → DstValue → Comp Slot)
    (hcv : ∀ o x, Pres (GuardIs g) (cv o x)) (opts : FormOptions) (form : List DstValue) :
    Pres (GuardIs g) (compile_def cv opts form) := by
  unfold compile_def
  apply pres_bind (pres_compiler_tail _)
  intro _
  apply pres_ite (pres_c_error _ _)
  apply pres_bind (pres_form_at _ _ _)
  intro _
  apply pres_ite (pres_c_error _ _)
  apply pres_ite
  · apply pres_bind (gd_pres_declare_symbol _ _ _)
    intro _
    apply pres_bind (pres_form_at _ _ _)
    intro _
    apply pres_bind (hcv _ _)
    intro _
    exact gd_pres_coerce_slot _ _
  · exact gd_pres_global_def cv hcv _ _

theorem gd_pres_var {g : Nat} (cv : FormOptions → DstValue → Comp Slot)
    (hcv : ∀ o x, Pres (GuardIs g) (cv o x)) (opts : FormOptions) (form : List DstValue) :
    Pres (GuardIs g) (compile_var cv opts form) := by
  unfold compile_var
  apply pres_bind (pres_compiler_tail _)
  intro _
  apply pres_ite (pres_c_error _ _)
  apply pres_bind (pres_form_at _ _ _)
  intro _
  apply pres_ite (pres_c_error _ _)
  apply pres_ite
  · apply pres_bind (gd_pres_declare_symbol _ _ _)
    intro _
    apply pres_bind (pres_form_at _ _ _)
    intro _
    apply pres_bind (hcv _ _)
    intro _
    exact gd_pres_coerce_slot _ _
  · exact gd_pres_global_var cv hcv _ _

end

theorem gd_pres_block_loop {g : Nat} (cv : FormOptions → DstValue → Comp Slot)
    (hcv : ∀ o x, Pres (GuardIs g) (cv o x)) (scope : Nat) (subOpts : FormOptions) :
    ∀ xs : List DstValue, Pres (GuardIs g) (compile_block_loop cv scope subOpts xs)
  | [] => pres_pure _ _
  | x :: rest => by
    unfold compile_block_loop
    apply pres_bind (hcv _ _)
    intro _
    apply pres_bind (gd_pres_drop_slot _ _)
    intro _
    exact gd_pres_block_loop cv hcv scope subOpts rest

section

attribute [local irreducible] Pres Comp.bind Spec Spec2 GuardFree GuardRel compiler_tail scope_read scope_write scope_parent form_at
  retag_string symbol_resolve compile_symbol_touch compiler_get_local compiler_free_local
  compiler_drop_slot compiler_tracker_free compiler_tracker_write compiler_add_literal
  compiler_declare_symbol compiler_push_scope compiler_pop_scope recursion_guard_enter
  recursion_guard_leave compiler_get_target compiler_get_temp compiler_realize_slot
  compiler_coerce_slot compiler_return dst_buffer_push_op dst_buffer_push_u16
  dst_buffer_push_i16 dst_buffer_push_i32 dst_buffer_push_i64 dst_buffer_push_real
  buffer_count buffer_set_count buffer_skip c_error c_error1 undefined_read getc setc
  compile_nonref_type compile_literal compile_symbol compile_assign compile_varset
  compile_global_var compile_global_def compile_def compile_var compile_block_loop
  compile_block compiler_gen_funcdef compile_function_params compile_function compile_if
  compile_while compile_do compile_quote compile_args compile_apply compile_tran
  compile_elements compile_array compile_table compile_form compile_value_body

theorem gd_pres_block {g : Nat} (cv : FormOptions → DstValue → Comp Slot)
    (hcv : ∀ o x, Pres (GuardIs g) (cv o x)) (opts : FormOptions) (form : List DstValue)
    (startIndex : Nat) : Pres (GuardIs g) (compile_block cv opts form startIndex) := by
  unfold compile_block
  apply pres_bind (pres_compiler_tail _)
  intro _
  apply pres_ite (pres_pure _ _)
  apply pres_bind (gd_pres_block_loop cv hcv _ _ _)
  intro _
  apply pres_bind (pres_form_at _ _ _)
  intro _
  exact hcv _ _

theorem gd_pres_function_params {g : Nat} (subDstScope count : Nat) :
    ∀ (params : List DstValue) (i : Nat) (varargs : Bool) (arity : Nat),
      Pres (GuardIs g) (compile_function_params subDstScope count i params varargs arity)
  | [], _, _, _ => by
    unfold compile_function_params
    exact pres_pure _ _
  | param :: rest, i, varargs, arity => by
    unfold compile_function_params
    apply pres_ite (pres_c_error _ _)
    apply pres_bind
    · repeat (first
    | apply pres_ite
    | exact pres_pure _ _
    | exact pres_c_error _ _)
    · intro va
      apply pres_bind (gd_pres_declare_symbol _ _ _)
      intro _
      exact gd_pres_function_params subDstScope count rest _ _ _

theorem gd_pres_function {g : Nat} (cv : FormOptions → DstValue → Comp Slot)
    (hcv : ∀ o x, Pres (GuardIs g) (cv o x)) (opts : FormOptions) (form : List DstValue) :
    Pres (GuardIs g) (compile_function cv opts form) := by
  unfold compile_function
  apply pres_bind (pres_compiler_tail _)
  intro scope
  apply pres_ite (pres_pure _ _)
  apply pres_bind (gd_pres_get_target _)
  intro ret
  apply pres_bind (gd_pres_push_scope _)
  intro sub
  apply pres_bind (pres_form_at _ _ _)
  intro f1
  split
  · apply pres_bind (gd_pres_function_params _ _ _ _ _ _)
    intro va
    apply pres_bind (pres_buffer_count _)
    intro _
    apply pres_bind (gd_pres_block cv hcv _ _ _)
    intro _
    apply pres_bind (gd_pres_return _)
    intro _
    apply pres_bind (pres_buffer_count _)
    intro _
    apply pres_bind (gd_pres_gen_funcdef _ _ _)
    intro d
    apply pres_bind (gd_pres_add_literal _ _)
    intro _
    repeat (first
    | apply pres_bind
    | intro _
    | exact pres_pure _ _
    | exact gd_pres_push_op _
    | exact gd_pres_push_u16 _)
  · exact pres_c_error _ _

theorem gd_pres_if {g : Nat} (cv : FormOptions → DstValue → Comp Slot)
    (hcv : ∀ o x, Pres (GuardIs g) (cv o x)) (opts : FormOptions) (form : List DstValue) :
    Pres (GuardIs g) (compile_if cv opts form) := by
  unfold compile_if
  apply pres_bind (pres_compiler_tail _)
  intro scope
  apply pres_ite (pres_c_error _ _)
  apply pres_bind (pres_form_at _ _ _)
  intro f1
  apply pres_bind (hcv _ _)
  intro condition
  apply pres_ite
  · apply pres_ite
    · apply pres_bind (pres_form_at _ _ _)
      intro _
      exact hcv _ _
    · exact pres_pure _ _
  · apply pres_bind (pres_buffer_count _)
    intro _
    apply pres_bind (gd_pres_skip _)
    intro _
    apply pres_bind (pres_form_at _ _ _)
    intro _
    apply pres_bind (hcv _ _)
    intro left
    apply pres_bind
    · apply pres_ite
      · apply pres_bind (gd_pres_return _)
        intro _
        exact pres_pure _ _
      · repeat (first
    | apply pres_bind
    | apply pres_ite
    | intro _
    | exact pres_pure _ _
    | exact pres_buffer_count _
    | exact gd_pres_skip _)
    · intro _
      apply pres_bind (gd_pres_drop_slot _ _)
      intro _
      apply pres_bind (pres_buffer_count _)
      intro _
      apply pres_bind (gd_pres_set_count _)
      intro _
      apply pres_bind (gd_pres_push_op _)
      intro _
      apply pres_bind (gd_pres_push_u16 _)
      intro _
      apply pres_bind (gd_pres_push_i32 _)
      intro _
      apply pres_bind (gd_pres_set_count _)
      intro _
      apply pres_bind
      · apply pres_ite
        · apply pres_bind (pres_form_at _ _ _)
          intro _
          apply pres_bind (hcv _ _)
          intro right
          apply pres_bind
          · apply pres_ite (gd_pres_return _) (pres_pure _ _)
          · intro _
            exact gd_pres_drop_slot _ _
        · apply pres_ite
          · apply pres_bind (gd_pres_return _)
            intro _
            exact pres_pure _ _
          · exact pres_pure _ _
      · intro _
        apply pres_bind
        · repeat (first
    | apply pres_bind
    | apply pres_ite
    | intro _
    | exact pres_pure _ _
    | exact pres_buffer_count _
    | exact gd_pres_push_op _
    | exact gd_pres_push_i32 _
    | exact gd_pres_set_count _)
        · intro _
          repeat (first
    | apply pres_ite
    | exact pres_pure _ _)

theorem gd_pres_while {g : Nat} (cv : FormOptions → DstValue → Comp Slot)
    (hcv : ∀ o x, Pres (GuardIs g) (cv o x)) (opts : FormOptions) (form : List DstValue) :
    Pres (GuardIs g) (compile_while cv opts form) := by
  unfold compile_while
  apply pres_bind (pres_buffer_count _)
  intro _
  apply pres_bind (gd_pres_push_scope _)
  intro _
  apply pres_bind (pres_form_at _ _ _)
  intro _
  apply pres_bind (hcv _ _)
  intro cond
  apply pres_ite (pres_pure _ _)
  apply pres_bind (pres_buffer_count _)
  intro _
  apply pres_bind (gd_pres_skip _)
  intro _
  apply pres_bind (gd_pres_block cv hcv _ _ _)
  intro _
  repeat (first
    | apply pres_bind
    | apply pres_ite
    | intro _
    | exact pres_pure _ _
    | exact pres_compiler_tail _
    | exact pres_buffer_count _
    | exact gd_pres_push_op _
    | exact gd_pres_push_u16 _
    | exact gd_pres_push_i32 _
    | exact gd_pres_set_count _
    | exact gd_pres_pop_scope
    | exact gd_pres_drop_slot _ _)

theorem gd_pres_do {g : Nat} (cv : FormOptions → DstValue → Comp Slot)
    (hcv : ∀ o x, Pres (GuardIs g) (cv o x)) (opts : FormOptions) (form : List DstValue) :
    Pres (GuardIs g) (compile_do cv opts form) := by
  unfold compile_do
  apply pres_bind (gd_pres_push_scope _)
  intro _
  apply pres_bind (gd_pres_block cv hcv _ _ _)
  intro _
  repeat (first
    | apply pres_bind
    | intro _
    | exact pres_pure _ _
    | exact gd_pres_pop_scope)

theorem gd_pres_quote {g : Nat} (opts : FormOptions) (form : List DstValue) :
    Pres (GuardIs g) (compile_quote opts form) := by
  unfold compile_quote
  apply pres_bind (pres_compiler_tail _)
  intro scope
  apply pres_ite (pres_c_error _ _)
  apply pres_bind (pres_form_at _ _ _)
  intro x
  cases x <;> simp only [] <;>
    first
    | exact gd_pres_nonref_type _ _
    | (apply pres_ite (pres_pure _ _)
       apply pres_bind (gd_pres_get_target _)
       intro _
       apply pres_bind (gd_pres_add_literal _ _)
       intro _
       repeat (first
    | apply pres_bind
    | intro _
    | exact pres_pure _ _
    | exact gd_pres_push_op _
    | exact gd_pres_push_u16 _))

end

theorem gd_pres_args {g : Nat} (cv : FormOptions → DstValue → Comp Slot)
    (hcv : ∀ o x, Pres (GuardIs g) (cv o x)) (subOpts : FormOptions) :
    ∀ (xs : List DstValue) (tracker : SlotTracker),
      Pres (GuardIs g) (compile_args cv subOpts xs tracker)
  | [], _ => pres_pure _ _
  | x :: rest, tracker => by
    unfold compile_args
    apply pres_bind (hcv _ _)
    intro _
    exact gd_pres_args cv hcv subOpts rest _

theorem gd_pres_elements {g : Nat} (cv : FormOptions → DstValue → Comp Slot)
    (hcv : ∀ o x, Pres (GuardIs g) (cv o x)) (subOpts : FormOptions) :
    ∀ (xs : List DstValue) (tracker : SlotTracker),
      Pres (GuardIs g) (compile_elements cv subOpts xs tracker)
  | [], _ => pres_pure _ _
  | x :: rest, tracker => by
    unfold compile_elements
    apply pres_bind (hcv _ _)
    intro _
    apply pres_bind (gd_pres_realize_slot _)
    intro _
    exact gd_pres_elements cv hcv subOpts rest _

section

attribute [local irreducible] Pres Comp.bind Spec Spec2 GuardFree GuardRel compiler_tail scope_read scope_write scope_parent form_at
  retag_string symbol_resolve compile_symbol_touch compiler_get_local compiler_free_local
  compiler_drop_slot compiler_tracker_free compiler_tracker_write compiler_add_literal
  compiler_declare_symbol compiler_push_scope compiler_pop_scope recursion_guard_enter
  recursion_guard_leave compiler_get_target compiler_get_temp compiler_realize_slot
  compiler_coerce_slot compiler_return dst_buffer_push_op dst_buffer_push_u16
  dst_buffer_push_i16 dst_buffer_push_i32 dst_buffer_push_i64 dst_buffer_push_real
  buffer_count buffer_set_count buffer_skip c_error c_error1 undefined_read getc setc
  compile_nonref_type compile_literal compile_symbol compile_assign compile_varset
  compile_global_var compile_global_def compile_def compile_var compile_block_loop
  compile_block compiler_gen_funcdef compile_function_params compile_function compile_if
  compile_while compile_do compile_quote compile_args compile_apply compile_tran
  compile_elements compile_array compile_table compile_form compile_value_body

theorem gd_pres_apply {g : Nat} (cv : FormOptions → DstValue → Comp Slot)
    (hcv : ∀ o x, Pres (GuardIs g) (cv o x)) (opts : FormOptions) (form : List DstValue) :
    Pres (GuardIs g) (compile_apply cv opts form) := by
  unfold compile_apply
  apply pres_bind (pres_compiler_tail _)
  intro scope
  apply pres_ite (pres_c_error _ _)
  apply pres_bind (pres_form_at _ _ _)
  intro _
  apply pres_bind (hcv _ _)
  intro _
  apply pres_bind (gd_pres_realize_slot _)
  intro _
  apply pres_bind (gd_pres_args cv hcv _ _ _)
  intro _
  apply pres_bind (pres_form_at _ _ _)
  intro _
  apply pres_bind (hcv _ _)
  intro _
  apply pres_bind (gd_pres_realize_slot _)
  intro _
  apply pres_bind (gd_pres_drop_slot _ _)
  intro _
  apply pres_bind (gd_pres_drop_slot _ _)
  intro _
  apply pres_bind (gd_pres_tracker_free _ _)
  intro _
  apply pres_bind (gd_pres_push_op _)
  intro _
  apply pres_bind (gd_pres_push_u16 _)
  intro _
  apply pres_bind (gd_pres_tracker_write _ _)
  intro _
  apply pres_bind (gd_pres_push_op _)
  intro _
  apply pres_bind (gd_pres_push_u16 _)
  intro _
  apply pres_ite
  · repeat (first
    | apply pres_bind
    | intro _
    | exact pres_pure _ _
    | exact gd_pres_push_op _
    | exact gd_pres_push_u16 _)
  · apply pres_bind (gd_pres_get_target _)
    intro _
    repeat (first
    | apply pres_bind
    | intro _
    | exact pres_pure _ _
    | exact gd_pres_push_op _
    | exact gd_pres_push_u16 _)

theorem gd_pres_tran {g : Nat} (cv : FormOptions → DstValue → Comp Slot)
    (hcv : ∀ o x, Pres (GuardIs g) (cv o x)) (opts : FormOptions) (form : List DstValue) :
    Pres (GuardIs g) (compile_tran cv opts form) := by
  unfold compile_tran
  apply pres_ite (pres_c_error _ _)
  apply pres_bind (pres_form_at _ _ _)
  intro _
  apply pres_bind (hcv _ _)
  intro _
  apply pres_bind (gd_pres_realize_slot _)
  intro _
  apply pres_bind
  · apply pres_ite
    · apply pres_bind (pres_form_at _ _ _)
      intro _
      apply pres_bind (hcv _ _)
      intro _
      exact gd_pres_realize_slot _
    · exact hcv _ _
  · intro _
    apply pres_bind (gd_pres_get_target _)
    intro _
    repeat (first
    | apply pres_bind
    | intro _
    | exact pres_pure _ _
    | exact gd_pres_push_op _
    | exact gd_pres_push_u16 _)

theorem gd_pres_array {g : Nat} (cv : FormOptions → DstValue → Comp Slot)
    (hcv : ∀ o x, Pres (GuardIs g) (cv o x)) (opts : FormOptions) (array : List DstValue) :
    Pres (GuardIs g) (compile_array cv opts array) := by
  unfold compile_array
  apply pres_bind (pres_compiler_tail _)
  intro scope
  apply pres_bind (gd_pres_get_target _)
  intro _
  apply pres_bind (gd_pres_elements cv hcv _ _ _)
  intro _
  apply pres_bind (gd_pres_tracker_free _ _)
  intro _
  apply pres_bind (gd_pres_push_op _)
  intro _
  apply pres_bind (gd_pres_push_u16 _)
  intro _
  apply pres_bind (gd_pres_push_u16 _)
  intro _
  apply pres_bind (gd_pres_tracker_write _ _)
  intro _
  exact pres_pure _ _

theorem gd_pres_table {g : Nat} (cv : FormOptions → DstValue → Comp Slot)
    (hcv : ∀ o x, Pres (GuardIs g) (cv o x)) (opts : FormOptions) (tab : List DstValue) :
    Pres (GuardIs g) (compile_table cv opts tab) := by
  unfold compile_table
  apply pres_bind (pres_compiler_tail _)
  intro scope
  apply pres_bind (gd_pres_get_target _)
  intro _
  apply pres_bind (gd_pres_elements cv hcv _ _ _)
  intro _
  apply pres_bind (gd_pres_tracker_free _ _)
  intro _
  apply pres_bind (gd_pres_push_op _)
  intro _
  apply pres_bind (gd_pres_push_u16 _)
  intro _
  apply pres_bind (gd_pres_push_u16 _)
  intro _
  apply pres_bind (gd_pres_tracker_write _ _)
  intro _
  exact pres_pure _ _

theorem gd_pres_form {g : Nat} (cv : FormOptions → DstValue → Comp Slot)
    (hcv : ∀ o x, Pres (GuardIs g) (cv o x)) (opts : FormOptions) (form : List DstValue) :
    Pres (GuardIs g) (compile_form cv opts form) := by
  unfold compile_form
  apply pres_bind (pres_compiler_tail _)
  intro scope
  apply pres_ite (gd_pres_nonref_type _ _)
  split
  · exact gd_pres_apply cv hcv _ _
  · exact gd_pres_do cv hcv _ _
  · exact gd_pres_def cv hcv _ _
  · exact gd_pres_if cv hcv _ _
  · exact gd_pres_function cv hcv _ _
  · exact gd_pres_quote _ _
  · exact gd_pres_tran cv hcv _ _
  · exact gd_pres_var cv hcv _ _
  · exact gd_pres_varset cv hcv _ _
  · exact gd_pres_while cv hcv _ _
  · apply pres_bind (pres_form_at _ _ _)
    intro _
    apply pres_bind (hcv _ _)
    intro _
    apply pres_bind (gd_pres_realize_slot _)
    intro _
    apply pres_bind (gd_pres_args cv hcv _ _ _)
    intro _
    apply pres_bind (gd_pres_drop_slot _ _)
    intro _
    apply pres_bind (gd_pres_tracker_free _ _)
    intro _
    apply pres_bind (gd_pres_push_op _)
    intro _
    apply pres_bind (gd_pres_push_u16 _)
    intro _
    apply pres_bind (gd_pres_tracker_write _ _)
    intro _
    apply pres_ite
    · repeat (first
    | apply pres_bind
    | intro _
    | exact pres_pure _ _
    | exact gd_pres_push_op _
    | exact gd_pres_push_u16 _)
    · apply pres_bind (gd_pres_get_target _)
      intro _
      repeat (first
    | apply pres_bind
    | intro _
    | exact pres_pure _ _
    | exact gd_pres_push_op _
    | exact gd_pres_push_u16 _)

end

/-! ## The recursion guard -/

theorem wp_guard_enter (Q : Nat → DstCompiler → Prop) (c : DstCompiler) :
    wp recursion_guard_enter Q c =
      Q (c.recursionGuard - 1) { c with recursionGuard := c.recursionGuard - 1 } := rfl

theorem wp_guard_leave (Q : Unit → DstCompiler → Prop) (c : DstCompiler) :
    wp recursion_guard_leave Q c = Q () { c with recursionGuard := c.recursionGuard + 1 } := rfl

theorem gd_pres_value_body (cv : FormOptions → DstValue → Comp Slot)
    (hcv : ∀ g o x, Pres (GuardIs g) (cv o x)) (g : Nat) (opts : FormOptions) (x : DstValue) :
    Pres (GuardIs g) (compile_value_body cv opts x) := by
  intro c hc
  have hc1 : GuardIs (g - 1) { c with recursionGuard := c.recursionGuard - 1 } := by
    show c.recursionGuard - 1 = g - 1
    rw [hc]
  unfold compile_value_body
  rw [wp_bind, wp_guard_enter]
  by_cases h0 : (c.recursionGuard - 1 == 0) = true
  · rw [if_pos h0]
    trivial
  · rw [if_neg h0, wp_bind]
    have hd : Pres (GuardIs (g - 1)) (match x with
        | .nil | .boolean _ | .real _ | .integer _ => compile_nonref_type opts x
        | .symbol _ => compile_symbol cv opts x
        | .tuple form => compile_form cv opts form
        | .array array => compile_array cv opts array
        | .table tab => compile_table cv opts tab
        | _ => compile_literal opts x) := by
      split
      · exact gd_pres_nonref_type _ _
      · exact gd_pres_nonref_type _ _
      · exact gd_pres_nonref_type _ _
      · exact gd_pres_nonref_type _ _
      · exact gd_pres_symbol cv (hcv _) _ _
      · exact gd_pres_form cv (hcv _) _ _
      · exact gd_pres_array cv (hcv _) _ _
      · exact gd_pres_table cv (hcv _) _ _
      · exact gd_pres_literal _ _
    refine wp_mono _ _ _ _ ?_ (hd _ hc1)
    intro ret c2 hc2
    rw [wp_bind, wp_guard_leave, wp_pure]
    show c2.recursionGuard + 1 = g
    have h1 : c2.recursionGuard = g - 1 := hc2
    have h2 : c.recursionGuard - 1 ≠ 0 := by simpa using h0
    have h3 : c.recursionGuard = g := hc
    omega

theorem gd_pres_value : ∀ (n g : Nat) (opts : FormOptions) (x : DstValue),
    Pres (GuardIs g) (compile_value n opts x)
  | 0, _, _, _ => pres_c_error _ _
  | n + 1, g, opts, x => gd_pres_value_body _ (fun g o x => gd_pres_value n g o x) g opts x

/-- The compilation of `(do y)`: a scope is pushed, `y` is compiled in it with
the options of the form, and an error of that compilation is the error of the
form. -/
theorem form_do_error (cv : FormOptions → DstValue → Comp Slot) (opts : FormOptions)
    (y : DstValue) (c : DstCompiler) (t : DstScope) (e : DstValue)
    (ht : c.scopes.getLast? = some t)
    (hy : cv opts y { c with scopes := c.scopes ++
      [{ level := t.level, nextLocal := t.nextLocal, frameSize := 0, freeHeap := [],
         touchParent := false, touchEnv := false, literals := t.literals,
         literalsArray := t.literalsArray, locals := [] }] } = .error e) :
    compile_form cv opts [.symbol "do", y] c = .error e := by
  obtain ⟨n0, hn0⟩ : ∃ n0, c.scopes.length = n0 + 1 := by
    cases hs : c.scopes with
    | nil => rw [hs] at ht; cases ht
    | cons a l => exact ⟨l.length, rfl⟩
  have hsp : get_special [.symbol "do", y] = some .compile_do := rfl
  unfold compile_form
  simp only [bind, Comp.bind, compiler_tail, hn0, List.length_cons, List.length_nil, hsp,
    compile_do, compile_block, compile_block_loop, form_at, pure]
  simp [Comp.bind, push_same_function c t ht, compiler_tail, hn0, hy, compile_block_loop, pure]

/-- The compilation of a nest of `do` forms as deep as the recursion guard, or
deeper, fails when the guard reaches zero. -/
theorem nested_do_too_deep : ∀ (k n : Nat) (opts : FormOptions) (c : DstCompiler),
    c.scopes ≠ [] → 0 < c.recursionGuard → c.recursionGuard ≤ k + 1 →
    compile_value n opts (nested_do k) c = .error error_too_deep
  | _, 0, _, _, _, _, _ => rfl
  | 0, n + 1, opts, c, _, hpos, hle => by
    have h1 : c.recursionGuard - 1 = 0 := by omega
    show compile_value_body (compile_value n) opts (nested_do 0) c = _
    unfold compile_value_body
    simp [bind, Comp.bind, recursion_guard_enter, h1, c_error, error_too_deep]
  | k + 1, n + 1, opts, c, hne, hpos, hle => by
    show compile_value_body (compile_value n) opts (nested_do (k + 1)) c = _
    unfold compile_value_body
    by_cases h1 : c.recursionGuard - 1 = 0
    · simp [bind, Comp.bind, recursion_guard_enter, h1, c_error, error_too_deep]
    · obtain ⟨t, ht⟩ : ∃ t, c.scopes.getLast? = some t := by
        cases hs : c.scopes.getLast? with
        | none => exact absurd (List.getLast?_eq_none_iff.1 hs) hne
        | some t => exact ⟨t, rfl⟩
      have ih := nested_do_too_deep k n opts
        { c with
          recursionGuard := c.recursionGuard - 1
          scopes := c.scopes ++
            [{ level := t.level, nextLocal := t.nextLocal, frameSize := 0, freeHeap := [],
               touchParent := false, touchEnv := false, literals := t.literals,
               literalsArray := t.literalsArray, locals := [] }] }
        (by simp) (by show 0 < c.recursionGuard - 1; omega)
        (by show c.recursionGuard - 1 ≤ k + 1; omega)
      have hform := form_do_error (compile_value n) opts (nested_do k)
        { c with recursionGuard := c.recursionGuard - 1 } t error_too_deep ht ih
      simp only [bind, Comp.bind, recursion_guard_enter, beq_iff_eq, h1, if_false, nested_do]
      rw [hform]

/-- Popping a scope off a chain of `m + 1` scopes leaves `m` scopes. -/
theorem pop_scope_length (c : DstCompiler) (m : Nat) (hlen : c.scopes.length = m + 1) :
    ∃ last c1, compiler_pop_scope c = .ok last c1 ∧ c1.scopes.length = m ∧
      c1.recursionGuard = c.recursionGuard := by
  unfold compiler_pop_scope
  cases hl : c.scopes.getLast? with
  | none =>
    have := List.getLast?_eq_none_iff.1 hl
    rw [this] at hlen
    cases hlen
  | some last0 =>
    simp only []
    cases c.scopes.dropLast.getLast? with
    | none => exact ⟨_, _, rfl, by simp [hlen], rfl⟩
    | some t => exact ⟨_, _, rfl, by simp [hlen], rfl⟩

/-- The integer `1` compiles in every state that has a scope. -/
theorem integer_one_compiles (opts : FormOptions) (c : DstCompiler) (hne : c.scopes ≠ []) :
    ∃ slot c1, compile_nonref_type opts (.integer 1) c = .ok slot c1 ∧
      c1.scopes.length = c.scopes.length ∧ c1.recursionGuard = c.recursionGuard := by
  obtain ⟨n0, hn0⟩ : ∃ n0, c.scopes.length = n0 + 1 := by
    cases hs : c.scopes with
    | nil => exact absurd hs hne
    | cons a l => exact ⟨l.length, rfl⟩
  obtain ⟨s, hs⟩ : ∃ s, c.scopes[n0]? = some s := by
    have hlt : n0 < c.scopes.length := by omega
    exact ⟨c.scopes[n0], List.getElem?_eq_getElem hlt⟩
  unfold compile_nonref_type
  cases hu : opts.resultUnused
  · cases hc : opts.canChoose <;> cases hf : s.freeHeap <;>
      simp only [hu, hc, hf, bind, Comp.bind, pure, compiler_get_target, compiler_get_temp,
        compiler_tail, hn0, compiler_get_local, scope_read, scope_write, hs,
        dst_buffer_push_op, dst_buffer_push_u16, dst_buffer_push_i16, List.get?_eq_getElem?,
        Bool.false_eq_true, if_false, if_true, beq_iff_eq, Nat.add_one_ne_zero] <;>
      exact ⟨_, _, rfl, by simp [hn0], rfl⟩
  · exact ⟨_, _, rfl, rfl, rfl⟩

/-- The compilation of `(do y)` when the compilation of `y` in the pushed scope
returns: the scope is popped and the slot of `y` is returned. -/
theorem form_do_ok (cv : FormOptions → DstValue → Comp Slot) (opts : FormOptions)
    (y : DstValue) (c c2 : DstCompiler) (t : DstScope) (ret : Slot)
    (ht : c.scopes.getLast? = some t)
    (hy : cv opts y { c with scopes := c.scopes ++
      [{ level := t.level, nextLocal := t.nextLocal, frameSize := 0, freeHeap := [],
         touchParent := false, touchEnv := false, literals := t.literals,
         literalsArray := t.literalsArray, locals := [] }] } = .ok ret c2) :
    compile_form cv opts [.symbol "do", y] c =
      (compiler_pop_scope >>= fun _ => pure ret) c2 := by
  obtain ⟨n0, hn0⟩ : ∃ n0, c.scopes.length = n0 + 1 := by
    cases hs : c.scopes with
    | nil => rw [hs] at ht; cases ht
    | cons a l => exact ⟨l.length, rfl⟩
  have hsp : get_special [.symbol "do", y] = some .compile_do := rfl
  unfold compile_form
  simp only [bind, Comp.bind, compiler_tail, hn0, List.length_cons, List.length_nil, hsp,
    compile_do, compile_block, compile_block_loop, form_at, pure]
  simp [Comp.bind, push_same_function c t ht, compiler_tail, hn0, hy, compile_block_loop, pure]

/-- The compilation of a nest of `do` forms less deep than the recursion guard
returns, with the scope chain as long and the recursion guard as it was. -/
theorem nested_do_compiles : ∀ (k n : Nat) (opts : FormOptions) (c : DstCompiler),
    c.scopes ≠ [] → k + 1 < c.recursionGuard → k + 1 ≤ n →
    ∃ slot c1, compile_value n opts (nested_do k) c = .ok slot c1 ∧
      c1.scopes.length = c.scopes.length ∧ c1.recursionGuard = c.recursionGuard
  | _, 0, _, _, _, _, hn => by omega
  | 0, n + 1, opts, c, hne, hg, _ => by
    have h1 : c.recursionGuard - 1 ≠ 0 := by omega
    obtain ⟨slot, c1, hrun, hlen, hgd⟩ := integer_one_compiles opts
      { c with recursionGuard := c.recursionGuard - 1 } hne
    refine ⟨slot, { c1 with recursionGuard := c1.recursionGuard + 1 }, ?_, hlen, ?_⟩
    · show compile_value_body (compile_value n) opts (nested_do 0) c = _
      unfold compile_value_body
      simp only [bind, Comp.bind, recursion_guard_enter, beq_iff_eq, h1, if_false, nested_do,
        hrun, recursion_guard_leave, pure]
    · show c1.recursionGuard + 1 = c.recursionGuard
      have : c1.recursionGuard = c.recursionGuard - 1 := hgd
      omega
  | k + 1, n + 1, opts, c, hne, hg, hn => by
    have h1 : c.recursionGuard - 1 ≠ 0 := by omega
    obtain ⟨t, ht⟩ : ∃ t, c.scopes.getLast? = some t := by
      cases hs : c.scopes.getLast? with
      | none => exact absurd (List.getLast?_eq_none_iff.1 hs) hne
      | some t => exact ⟨t, rfl⟩
    obtain ⟨ret, c2, hrun, hlen, hgd⟩ := nested_do_compiles k n opts
      { c with
        recursionGuard := c.recursionGuard - 1
        scopes := c.scopes ++
          [{ level := t.level, nextLocal := t.nextLocal, frameSize := 0, freeHeap := [],
             touchParent := false, touchEnv := false, literals := t.literals,
             literalsArray := t.literalsArray, locals := [] }] }
      (by simp) (by show k + 1 < c.recursionGuard - 1; omega) (by omega)
    have hform := form_do_ok (compile_value n) opts (nested_do k)
      { c with recursionGuard := c.recursionGuard - 1 } c2 t ret ht hrun
    have hlen2 : c2.scopes.length = c.scopes.length + 1 := by
      rw [hlen]; simp
    obtain ⟨last, c3, hpop, hlen3, hgd3⟩ := pop_scope_length c2 c.scopes.length hlen2
    refine ⟨ret, { c3 with recursionGuard := c3.recursionGuard + 1 }, ?_, hlen3, ?_⟩
    · show compile_value_body (compile_value n) opts (nested_do (k + 1)) c = _
      unfold compile_value_body
      simp only [bind, Comp.bind, recursion_guard_enter, beq_iff_eq, h1, if_false, nested_do]
      rw [hform]
      simp only [bind, Comp.bind, hpop, pure, recursion_guard_leave]
    · show c3.recursionGuard + 1 = c.recursionGuard
      have e1 : c3.recursionGuard = c2.recursionGuard := hgd3
      have e2 : c2.recursionGuard = c.recursionGuard - 1 := hgd
      omega

/-- C34: in a compiler whose recursion guard is positive, a run of
`compile_value` that returns leaves the recursion guard at the value it had at
entry.  With the guard at 1 the run fails with "recursed too deeply", whatever
the form.  For the integer `1` inside `k` nested `do` forms, which takes
`k + 1` nested calls of `compile_value`, and a compiler with a scope: when the
guard is at most `k + 1` the compilation fails with "recursed too deeply", and
when the guard is above `k + 1` (and the bound of the recursion is not below
`k + 1`) it returns. -/
theorem recursion_guard_restored (n : Nat) (opts : FormOptions) (x : DstValue)
    (c : DstCompiler) (hpos : 0 < c.recursionGuard) :
    (∀ slot c1, compile_value n opts x c = .ok slot c1 →
      c1.recursionGuard = c.recursionGuard) ∧
    (c.recursionGuard = 1 → compile_value n opts x c = .error error_too_deep) ∧
    (∀ k, c.scopes ≠ [] → c.recursionGuard ≤ k + 1 →
      compile_value n opts (nested_do k) c = .error error_too_deep) ∧
    (∀ k, c.scopes ≠ [] → k + 1 < c.recursionGuard → k + 1 ≤ n →
      ∃ slot c1, compile_value n opts (nested_do k) c = .ok slot c1 ∧
        c1.recursionGuard = c.recursionGuard) := by
  refine ⟨?_, ?_, ?_, ?_⟩
  · intro slot c1 hrun
    exact wp_of_ok (gd_pres_value n c.recursionGuard opts x c rfl) hrun
  · intro h1
    cases n with
    | zero => rfl
    | succ n =>
      show compile_value_body (compile_value n) opts x c = _
      unfold compile_value_body
      simp [bind, Comp.bind, recursion_guard_enter, h1, c_error, error_too_deep]
  · intro k hne hle
    exact nested_do_too_deep k n opts c hne hpos hle
  · intro k hne hlt hn
    obtain ⟨slot, c1, hrun, _, hgd⟩ := nested_do_compiles k n opts c hne hlt hn
    exact ⟨slot, c1, hrun, hgd⟩

theorem recursion_guard_restored_witness :
    0 < (root_state env_empty 5).recursionGuard ∧
    compile_value 10 form_options_default (nested_do 4) (root_state env_empty 5) =
      .error error_too_deep ∧
    ∃ slot c1, compile_value 10 form_options_default (nested_do 3) (root_state env_empty 5) =
      .ok slot c1 ∧ c1.recursionGuard = (root_state env_empty 5).recursionGuard :=
  ⟨by decide,
   (recursion_guard_restored 10 form_options_default (nested_do 4) (root_state env_empty 5)
      (by decide)).2.2.1 4 (by simp [root_state]) (by decide),
   (recursion_guard_restored 10 form_options_default (nested_do 3) (root_state env_empty 5)
      (by decide)).2.2.2 3 (by simp [root_state]) (by decide) (by decide)⟩

/-! ## Integer immediates -/

theorem int_word16_decode (v : Int) (h1 : -32768 ≤ v) (h2 : v < 32768) :
    ∃ w, int_word v 0 = .u16 w ∧ decode_i16 w = v := by
  refine ⟨(v % 65536).toNat, by simp [int_word], ?_⟩
  unfold decode_i16
  have e1 : (((v % 65536).toNat : Nat) : Int) = v % 65536 := Int.toNat_of_nonneg (by omega)
  split
  · rename_i h
    have h3 : (((v % 65536).toNat : Nat) : Int) < 32768 := by exact_mod_cast h
    simp only [Int.ofNat_eq_coe]
    omega
  · rename_i h
    have h3 : ¬ (((v % 65536).toNat : Nat) : Int) < 32768 := by
      intro h4; exact h (by exact_mod_cast h4)
    simp only [Int.ofNat_eq_coe]
    omega

theorem int_word64_decode (v : Int) (h1 : -9223372036854775808 ≤ v)
    (h2 : v < 9223372036854775808) :
    ∃ w0 w1 w2 w3, int_word v 0 = .u16 w0 ∧ int_word v 1 = .u16 w1 ∧ int_word v 2 = .u16 w2 ∧
      int_word v 3 = .u16 w3 ∧ decode_i64 w0 w1 w2 w3 = v := by
  refine ⟨(v % 65536).toNat, (v / 65536 % 65536).toNat, (v / 4294967296 % 65536).toNat,
    (v / 281474976710656 % 65536).toNat, ?_, ?_, ?_, ?_, ?_⟩
  · simp [int_word]
  · simp [int_word]
  · simp [int_word]
  · simp [int_word]
  · unfold decode_i64
    have e0 : (((v % 65536).toNat : Nat) : Int) = v % 65536 := Int.toNat_of_nonneg (by omega)
    have e1 : (((v / 65536 % 65536).toNat : Nat) : Int) = v / 65536 % 65536 :=
      Int.toNat_of_nonneg (by omega)
    have e2 : (((v / 4294967296 % 65536).toNat : Nat) : Int) = v / 4294967296 % 65536 :=
      Int.toNat_of_nonneg (by omega)
    have e3 : (((v / 281474976710656 % 65536).toNat : Nat) : Int) =
        v / 281474976710656 % 65536 := Int.toNat_of_nonneg (by omega)
    split
    · rename_i h
      have h3 : (((v % 65536).toNat + 65536 * (v / 65536 % 65536).toNat +
          4294967296 * (v / 4294967296 % 65536).toNat +
          281474976710656 * (v / 281474976710656 % 65536).toNat : Nat) : Int)
          < 9223372036854775808 := by exact_mod_cast h
      simp only [Int.ofNat_eq_coe]
      push_cast at h3 ⊢
      omega
    · rename_i h
      have h3 : ¬ (((v % 65536).toNat + 65536 * (v / 65536 % 65536).toNat +
          4294967296 * (v / 4294967296 % 65536).toNat +
          281474976710656 * (v / 281474976710656 % 65536).toNat : Nat) : Int)
          < 9223372036854775808 := by
        intro h4; exact h (by exact_mod_cast h4)
      simp only [Int.ofNat_eq_coe]
      push_cast at h3 ⊢
      omega

/-- C35: an integer `v` of the 64-bit signed range compiled as a used literal
into the slot `dst` that `compiler_get_target` hands out is emitted as an
opcode, the slot, and the words of an immediate that reads back as `v`: one
word after `I16`, decoded as a signed 16-bit value; two words after `I32`,
decoded as a signed 32-bit value; four words after `I64`, decoded as a signed
64-bit value. -/
theorem integer_immediate_lossless (opts : FormOptions) (v : Int) (c c1 : DstCompiler)
    (dst : Slot) (hu : opts.resultUnused = false)
    (ht : compiler_get_target opts c = .ok dst c1)
    (h1 : -9223372036854775808 ≤ v) (h2 : v < 9223372036854775808) :
    ∃ op ws, compile_nonref_type opts (.integer v) c =
        .ok dst { c1 with buffer := (List.foldl DstBuffer.put c1.buffer
          (.op op :: .u16 (dst.index % 65536) :: ws)) } ∧
      ((op = .I16 ∧ ∃ w, ws = [.u16 w] ∧ decode_i16 w = v) ∨
       (op = .I32 ∧ ∃ lo hi, ws = [.u16 lo, .u16 hi] ∧ decode_i32 lo hi = v) ∨
       (op = .I64 ∧ ∃ w0 w1 w2 w3, ws = [.u16 w0, .u16 w1, .u16 w2, .u16 w3] ∧
         decode_i64 w0 w1 w2 w3 = v)) := by
  unfold compile_nonref_type
  by_cases hs : v ≤ 32767 ∧ v ≥ -32768
  · obtain ⟨w, hw, hd⟩ := int_word16_decode v (by omega) (by omega)
    refine ⟨.I16, [.u16 w], ?_, Or.inl ⟨rfl, w, rfl, hd⟩⟩
    simp [hu, bind, Comp.bind, pure, ht, hs, dst_buffer_push_op, dst_buffer_push_u16,
      dst_buffer_push_i16, hw]
  · by_cases hm : v ≤ 2147483647 ∧ v ≥ -2147483648
    · obtain ⟨lo, hi, hlo, hhi, hd⟩ := int_word_decode v (by omega) (by omega)
      refine ⟨.I32, [.u16 lo, .u16 hi], ?_, Or.inr (Or.inl ⟨rfl, lo, hi, rfl, hd⟩)⟩
      simp only [hu, bind, Comp.bind, pure, ht, if_neg hs, if_pos hm, dst_buffer_push_op,
        dst_buffer_push_u16, dst_buffer_push_i32, List.foldl, hlo, hhi]
      simp [Comp.bind, ht, dst_buffer_push_op, dst_buffer_push_u16, dst_buffer_push_i32, hlo, hhi]
    · obtain ⟨w0, w1, w2, w3, hw0, hw1, hw2, hw3, hd⟩ := int_word64_decode v h1 h2
      refine ⟨.I64, [.u16 w0, .u16 w1, .u16 w2, .u16 w3], ?_,
        Or.inr (Or.inr ⟨rfl, w0, w1, w2, w3, rfl, hd⟩)⟩
      simp only [hu, bind, Comp.bind, pure, ht, if_neg hs, if_neg hm, dst_buffer_push_op,
        dst_buffer_push_u16, dst_buffer_push_i64, List.foldl, hw0, hw1, hw2, hw3]
      simp [Comp.bind, ht, dst_buffer_push_op, dst_buffer_push_u16, dst_buffer_push_i64, hw0, hw1,
        hw2, hw3]

/-- The slot that `compiler_get_target` hands out in the root scope. -/
theorem root_target :
    compiler_get_target form_options_default (root_state env_empty 1000) =
      .ok { index := 0, isNil := false, isTemp := true, hasReturned := false }
        { root_state env_empty 1000 with scopes :=
            [{ level := 0, nextLocal := 1, frameSize := 0, freeHeap := [],
               touchParent := false, touchEnv := false,
               literals := 0, literalsArray := 0, locals := [] }] } := by
  simp [root_state, Result.funcdefs, compiled, dst_compile, compile_value_succ, compile_value_body,
    compile_nonref_type, compile_literal, compiler_push_scope, bind, pure, Comp.bind, getc, setc,
    form_options_default, compiler_get_target, compiler_get_temp, compiler_tail,
    compiler_get_local, compiler_free_local, compiler_drop_slot, scope_read, scope_write,
    dst_buffer_push_op, dst_buffer_push_u16, dst_buffer_push_i16, dst_buffer_push_i32, int_word,
    DstBuffer.put, DstBuffer.skip, buffer_skip, compiler_return, buffer_count,
    compiler_gen_funcdef, buffer_set_count, compiler_pop_scope, c_error, c_error1,
    DstValue.isNil, compile_form, get_special, name_at, compile_function, form_at,
    compile_function_params, compiler_declare_symbol, equal_cstr, DstValue.asString,
    DstValue.isSymbol, dst_table_put, compile_block, compile_block_loop, compile_symbol,
    symbol_resolve, symbol_resolve_scopes, dst_table_get, dst_equals, DstValue.asInteger,
    compiler_add_literal, nil_slot, compile_symbol_touch, scope_parent, compile_if, compile_do,
    compile_def, compile_while, compile_args, compiler_realize_slot, compiler_coerce_slot,
    compiler_tracker_free, compiler_tracker_free_loop, compiler_tracker_write,
    compiler_tracker_write_loop, compiler_tracker_push, tracker_init, dst_string_cvs,
    dst_string_cv, undefined_read, recursion_guard_enter, recursion_guard_leave]

theorem integer_immediate_lossless_witness :
    ∃ op ws, compile_nonref_type form_options_default (.integer (-40000))
        (root_state env_empty 1000) =
        .ok { index := 0, isNil := false, isTemp := true, hasReturned := false }
          { root_state env_empty 1000 with
            scopes :=
              [{ level := 0, nextLocal := 1, frameSize := 0, freeHeap := [],
                 touchParent := false, touchEnv := false,
                 literals := 0, literalsArray := 0, locals := [] }]
            buffer := (List.foldl DstBuffer.put (root_state env_empty 1000).buffer
              (.op op :: .u16 0 :: ws)) } ∧
      ((op = .I16 ∧ ∃ w, ws = [.u16 w] ∧ decode_i16 w = -40000) ∨
       (op = .I32 ∧ ∃ lo hi, ws = [.u16 lo, .u16 hi] ∧ decode_i32 lo hi = -40000) ∨
       (op = .I64 ∧ ∃ w0 w1 w2 w3, ws = [.u16 w0, .u16 w1, .u16 w2, .u16 w3] ∧
         decode_i64 w0 w1 w2 w3 = -40000)) :=
  integer_immediate_lossless form_options_default (-40000) (root_state env_empty 1000) _ _ rfl
    root_target (by decide) (by decide)

/-! ## Operands of the special forms -/

set_option maxHeartbeats 4000000 in
/-- C36 fails in the code: compiled in the root scope, the forms `(while)` and
`(fn)`, tuples of one element, raise no error: `compile_while` and
`compile_function` read `form[1]` without a test of the length of the tuple,
a read past its end. -/
theorem operands_read_unguarded :
    compile_value 1000 form_options_default form_while_empty (root_state env_empty 1000) =
      .undefined ∧
    compile_value 1000 form_options_default form_fn_empty (root_state env_empty 1000) =
      .undefined ∧
    compile_while (compile_value 999) form_options_default [.symbol "while"]
      (root_state env_empty 999) = .undefined ∧
    compile_function (compile_value 999) form_options_default [.symbol "fn"]
      (root_state env_empty 999) = .undefined := by
  refine ⟨?_, ?_, ?_, ?_⟩
  · simp [form_while_empty, root_state, Result.funcdefs, compiled, dst_compile, compile_value_succ, compile_value_body,
    compile_nonref_type, compile_literal, compiler_push_scope, bind, pure, Comp.bind, getc, setc,
    form_options_default, compiler_get_target, compiler_get_temp, compiler_tail,
    compiler_get_local, compiler_free_local, compiler_drop_slot, scope_read, scope_write,
    dst_buffer_push_op, dst_buffer_push_u16, dst_buffer_push_i16, dst_buffer_push_i32, int_word,
    DstBuffer.put, DstBuffer.skip, buffer_skip, compiler_return, buffer_count,
    compiler_gen_funcdef, buffer_set_count, compiler_pop_scope, c_error, c_error1,
    DstValue.isNil, compile_form, get_special, name_at, compile_function, form_at,
    compile_function_params, compiler_declare_symbol, equal_cstr, DstValue.asString,
    DstValue.isSymbol, dst_table_put, compile_block, compile_block_loop, compile_symbol,
    symbol_resolve, symbol_resolve_scopes, dst_table_get, dst_equals, DstValue.asInteger,
    compiler_add_literal, nil_slot, compile_symbol_touch, scope_parent, compile_if, compile_do,
    compile_def, compile_while, compile_args, compiler_realize_slot, compiler_coerce_slot,
    compiler_tracker_free, compiler_tracker_free_loop, compiler_tracker_write,
    compiler_tracker_write_loop, compiler_tracker_push, tracker_init, dst_string_cvs,
    dst_string_cv, undefined_read, recursion_guard_enter, recursion_guard_leave]
  · simp [form_fn_empty, root_state, Result.funcdefs, compiled, dst_compile, compile_value_succ, compile_value_body,
    compile_nonref_type, compile_literal, compiler_push_scope, bind, pure, Comp.bind, getc, setc,
    form_options_default, compiler_get_target, compiler_get_temp, compiler_tail,
    compiler_get_local, compiler_free_local, compiler_drop_slot, scope_read, scope_write,
    dst_buffer_push_op, dst_buffer_push_u16, dst_buffer_push_i16, dst_buffer_push_i32, int_word,
    DstBuffer.put, DstBuffer.skip, buffer_skip, compiler_return, buffer_count,
    compiler_gen_funcdef, buffer_set_count, compiler_pop_scope, c_error, c_error1,
    DstValue.isNil, compile_form, get_special, name_at, compile_function, form_at,
    compile_function_params, compiler_declare_symbol, equal_cstr, DstValue.asString,
    DstValue.isSymbol, dst_table_put, compile_block, compile_block_loop, compile_symbol,
    symbol_resolve, symbol_resolve_scopes, dst_table_get, dst_equals, DstValue.asInteger,
    compiler_add_literal, nil_slot, compile_symbol_touch, scope_parent, compile_if, compile_do,
    compile_def, compile_while, compile_args, compiler_realize_slot, compiler_coerce_slot,
    compiler_tracker_free, compiler_tracker_free_loop, compiler_tracker_write,
    compiler_tracker_write_loop, compiler_tracker_push, tracker_init, dst_string_cvs,
    dst_string_cv, undefined_read, recursion_guard_enter, recursion_guard_leave]
  · simp [root_state, Result.funcdefs, compiled, dst_compile, compile_value_succ, compile_value_body,
    compile_nonref_type, compile_literal, compiler_push_scope, bind, pure, Comp.bind, getc, setc,
    form_options_default, compiler_get_target, compiler_get_temp, compiler_tail,
    compiler_get_local, compiler_free_local, compiler_drop_slot, scope_read, scope_write,
    dst_buffer_push_op, dst_buffer_push_u16, dst_buffer_push_i16, dst_buffer_push_i32, int_word,
    DstBuffer.put, DstBuffer.skip, buffer_skip, compiler_return, buffer_count,
    compiler_gen_funcdef, buffer_set_count, compiler_pop_scope, c_error, c_error1,
    DstValue.isNil, compile_form, get_special, name_at, compile_function, form_at,
    compile_function_params, compiler_declare_symbol, equal_cstr, DstValue.asString,
    DstValue.isSymbol, dst_table_put, compile_block, compile_block_loop, compile_symbol,
    symbol_resolve, symbol_resolve_scopes, dst_table_get, dst_equals, DstValue.asInteger,
    compiler_add_literal, nil_slot, compile_symbol_touch, scope_parent, compile_if, compile_do,
    compile_def, compile_while, compile_args, compiler_realize_slot, compiler_coerce_slot,
    compiler_tracker_free, compiler_tracker_free_loop, compiler_tracker_write,
    compiler_tracker_write_loop, compiler_tracker_push, tracker_init, dst_string_cvs,
    dst_string_cv, undefined_read, recursion_guard_enter, recursion_guard_leave]
  · simp [root_state, Result.funcdefs, compiled, dst_compile, compile_value_succ, compile_value_body,
    compile_nonref_type, compile_literal, compiler_push_scope, bind, pure, Comp.bind, getc, setc,
    form_options_default, compiler_get_target, compiler_get_temp, compiler_tail,
    compiler_get_local, compiler_free_local, compiler_drop_slot, scope_read, scope_write,
    dst_buffer_push_op, dst_buffer_push_u16, dst_buffer_push_i16, dst_buffer_push_i32, int_word,
    DstBuffer.put, DstBuffer.skip, buffer_skip, compiler_return, buffer_count,
    compiler_gen_funcdef, buffer_set_count, compiler_pop_scope, c_error, c_error1,
    DstValue.isNil, compile_form, get_special, name_at, compile_function, form_at,
    compile_function_params, compiler_declare_symbol, equal_cstr, DstValue.asString,
    DstValue.isSymbol, dst_table_put, compile_block, compile_block_loop, compile_symbol,
    symbol_resolve, symbol_resolve_scopes, dst_table_get, dst_equals, DstValue.asInteger,
    compiler_add_literal, nil_slot, compile_symbol_touch, scope_parent, compile_if, compile_do,
    compile_def, compile_while, compile_args, compiler_realize_slot, compiler_coerce_slot,
    compiler_tracker_free, compiler_tracker_free_loop, compiler_tracker_write,
    compiler_tracker_write_loop, compiler_tracker_push, tracker_init, dst_string_cvs,
    dst_string_cv, undefined_read, recursion_guard_enter, recursion_guard_leave]

end Dst
